import Mathlib

/-!
# Renoir: command recording, handle lifetime and the sampler cache

A shallow embedding of the two backends of the renoir graphics layer,
`Renoir-dx11.cpp` (namespace `Dx11`) and `Renoir-gl450.cpp` (namespace `Gl450`).

Modelling conventions.

* A pointer is an `Option Nat`: `none` is `nullptr`, `some a` is the block at
  address `a`.  Handle blocks and command blocks live in two memories
  (`Nat → Renoir_Handle`, `Nat → Renoir_Command`) owned by two pools.
* The payload unions of `Renoir_Handle` and `Renoir_Command` are records with one
  group of fields per union member; `memset(.., 0, ..)` writes the all-zero record.
* `std::atomic<int>` reference counts are `Int` values kept in the 32-bit signed
  range by `wrap_int` (atomic arithmetic on a signed integer wraps).
* The native device (D3D11 / OpenGL) is not modelled.  Every call into it is
  recorded in the `trace` of the context; objects it creates are fresh numbers.
  Native calls are taken to succeed, except shader compilation, which is an oracle.
* A `Release` call through a null pointer is the event `release none` of the trace and
  the run goes on; the source does not get past such a call, so statements about a
  run that returns say, where a case releases an object without testing the pointer,
  that the trace gains no such event (`Dx11.null_releases`).
* Loops that follow `next` pointers take `fuel`; they return `none` when it runs out.
-/

namespace Renoir

/-! ## Common definitions -/

/-- A pointer: `none` is the null pointer. -/
abbrev Ptr := Option Nat

/-- Two's complement wrap of an integer into the range of a 32-bit `int`. -/
def wrap_int (x : Int) : Int := (x + 2147483648) % 4294967296 - 2147483648

/-- Memory write: the block at address `a` becomes `v`. -/
def write {α : Type} (m : Nat → α) (a : Nat) (v : α) : Nat → α :=
  fun b => if b = a then v else m b

/-- Modelled from the spec: the object pool `mn::Pool` (section 4.1), which is not part of
the sources.  `release` returns a block to the free list, `acquire` hands out a block of the
free list and grows the backing storage (a fresh address) only when the free list is
exhausted.  Blocks never move. -/
structure Pool where
  free : List Nat
  fresh : Nat
deriving DecidableEq, Repr

/-- Modelled from the spec: `mn::pool_new`, an empty pool. -/
def pool_new : Pool := { free := [], fresh := 0 }

/-- Modelled from the spec: `mn::pool_get` (acquire). -/
def pool_get (p : Pool) : Nat × Pool :=
  match p.free with
  | a :: rest => (a, { p with free := rest })
  | [] => (p.fresh, { p with fresh := p.fresh + 1 })

/-- Modelled from the spec: `mn::pool_put` (release). -/
def pool_put (p : Pool) (a : Nat) : Pool := { p with free := a :: p.free }

/-- A `float`: not-a-number, or a numeric value (signed zeros are one value). -/
inductive F32 where
  | nan
  | num (v : Int)
deriving DecidableEq, Repr

/-- The C++ comparison `a == b` on floats: false as soon as one side is NaN. -/
def F32.eq : F32 → F32 → Bool
  | .num a, .num b => a == b
  | _, _ => false

instance : Inhabited F32 := ⟨.num 0⟩

structure Renoir_Color where
  r : F32 := .num 0
  g : F32 := .num 0
  b : F32 := .num 0
  a : F32 := .num 0
deriving DecidableEq, Repr

/-- Sampler description; the enumerations `RENOIR_FILTER`, `RENOIR_TEXMODE` and
`RENOIR_COMPARE` are represented by their integer values. -/
structure Renoir_Sampler_Desc where
  filter : Nat := 0
  u : Nat := 0
  v : Nat := 0
  w : Nat := 0
  compare : Nat := 0
  border : Renoir_Color := {}
deriving DecidableEq, Repr

/-- The `operator==` on `Renoir_Sampler_Desc` (Renoir-dx11.cpp:2207). -/
def Renoir_Sampler_Desc.op_eq (a b : Renoir_Sampler_Desc) : Bool :=
  a.filter == b.filter &&
  a.u == b.u &&
  a.v == b.v &&
  a.w == b.w &&
  a.compare == b.compare &&
  F32.eq a.border.r b.border.r &&
  F32.eq a.border.g b.border.g &&
  F32.eq a.border.b b.border.b &&
  F32.eq a.border.a b.border.a

inductive RENOIR_HANDLE_KIND where
  | RENOIR_HANDLE_KIND_NONE
  | RENOIR_HANDLE_KIND_SWAPCHAIN
  | RENOIR_HANDLE_KIND_PASS
  | RENOIR_HANDLE_KIND_BUFFER
  | RENOIR_HANDLE_KIND_TEXTURE
  | RENOIR_HANDLE_KIND_SAMPLER
  | RENOIR_HANDLE_KIND_PROGRAM
  | RENOIR_HANDLE_KIND_COMPUTE
  | RENOIR_HANDLE_KIND_PIPELINE
deriving DecidableEq, Repr

inductive RENOIR_USAGE where
  | RENOIR_USAGE_NONE
  | RENOIR_USAGE_STATIC
  | RENOIR_USAGE_DYNAMIC
deriving DecidableEq, Repr

inductive RENOIR_ACCESS where
  | RENOIR_ACCESS_NONE
  | RENOIR_ACCESS_READ
  | RENOIR_ACCESS_WRITE
  | RENOIR_ACCESS_READ_WRITE
deriving DecidableEq, Repr

inductive RENOIR_MSAA_MODE where
  | RENOIR_MSAA_MODE_NONE
  | RENOIR_MSAA_MODE_2
  | RENOIR_MSAA_MODE_4
  | RENOIR_MSAA_MODE_8
deriving DecidableEq, Repr

/-- The enumeration `RENOIR_PIXELFORMAT`: the members the two backends name in their
translation tables. -/
inductive RENOIR_PIXELFORMAT where
  | RENOIR_PIXELFORMAT_RGBA8
  | RENOIR_PIXELFORMAT_R16I
  | RENOIR_PIXELFORMAT_R16F
  | RENOIR_PIXELFORMAT_R32F
  | RENOIR_PIXELFORMAT_R32G32F
  | RENOIR_PIXELFORMAT_D24S8
  | RENOIR_PIXELFORMAT_D32
  | RENOIR_PIXELFORMAT_R8
deriving DecidableEq, Repr

/-- A heap block `mn::Block` (pointer and size). -/
structure Block where
  ptr : Ptr := none
  size : Nat := 0
deriving DecidableEq, Repr

structure Renoir_Size where
  width : Int := 0
  height : Int := 0
  depth : Int := 0
deriving DecidableEq, Repr

/-- The value types `Renoir_Texture`, `Renoir_Buffer`, ... wrapping a handle pointer. -/
structure Renoir_Texture where
  handle : Ptr := none
deriving DecidableEq, Repr

/-- Number of colour attachments of an offscreen pass (the GL backend iterates the same
array with the literal bound 4). -/
def RENOIR_CONSTANT_COLOR_ATTACHMENT_SIZE : Nat := 4

structure Renoir_Pass_Offscreen_Desc where
  color : List Renoir_Texture := List.replicate RENOIR_CONSTANT_COLOR_ATTACHMENT_SIZE {}
  depth_stencil : Renoir_Texture := {}
deriving DecidableEq, Repr

structure Renoir_Buffer_Desc where
  type : Nat := 0
  usage : RENOIR_USAGE := .RENOIR_USAGE_NONE
  access : RENOIR_ACCESS := .RENOIR_ACCESS_NONE
  data : Ptr := none
  data_size : Nat := 0
deriving DecidableEq, Repr

structure Renoir_Texture_Desc where
  size : Renoir_Size := {}
  usage : RENOIR_USAGE := .RENOIR_USAGE_NONE
  access : RENOIR_ACCESS := .RENOIR_ACCESS_NONE
  pixel_format : RENOIR_PIXELFORMAT := .RENOIR_PIXELFORMAT_RGBA8
  sampler : Renoir_Sampler_Desc := {}
  render_target : Bool := false
  msaa : RENOIR_MSAA_MODE := .RENOIR_MSAA_MODE_NONE
  data : Ptr := none
  data_size : Nat := 0
deriving DecidableEq, Repr

/-- Shader sources of `Renoir_Program_Desc` and `Renoir_Compute_Desc`. -/
structure Renoir_Program_Desc where
  vertex : Block := {}
  pixel : Block := {}
  geometry : Block := {}
  compute : Block := {}
deriving DecidableEq, Repr

structure Renoir_Settings where
  defer_api_calls : Bool := false
  vsync : Bool := false
  external_context : Bool := false
deriving DecidableEq, Repr

/-- The argument of `clear`: `clear_color` and `clear_depth` are the bits `RENOIR_CLEAR_COLOR`
and `RENOIR_CLEAR_DEPTH` of `flags`. -/
structure Renoir_Clear_Desc where
  clear_color : Bool := false
  clear_depth : Bool := false
  color : Renoir_Color := {}
  depth : F32 := .num 0
  stencil : Nat := 0
deriving DecidableEq, Repr

/-- The argument of `texture_write` and `texture_read`: the edited region and the host
bytes. -/
structure Renoir_Texture_Edit_Desc where
  x : Int := 0
  y : Int := 0
  z : Int := 0
  width : Int := 0
  height : Int := 0
  depth : Int := 0
  bytes : Ptr := none
  bytes_size : Nat := 0
deriving DecidableEq, Repr

/-- The argument of `draw`.  The type is declared outside the sources and a draw is one call
of the native device in this model, so the description is kept as the list of its scalar
members. -/
structure Renoir_Draw_Desc where
  members : List Int := []
deriving DecidableEq, Repr

/-- The buffer type `RENOIR_BUFFER_UNIFORM`; the enumeration is declared outside the
sources, only that it is one fixed value matters. -/
def RENOIR_BUFFER_UNIFORM : Nat := 1

/-- The call `::strlen(p)`: the number of bytes before the first zero byte. -/
def strlen (heap : Nat → List Nat) (p : Ptr) : Nat :=
  match p with
  | none => 0
  | some a => ((heap a).takeWhile fun b => b != 0).length

/-- A call on the reference count of one handle. -/
inductive Rc_Call where
  | ref
  | unref
deriving DecidableEq, Repr

/-- A call in the life of one handle: `handle_ref`, or the execution of its `*_FREE`
command. -/
inductive Life_Call where
  | ref
  | free
deriving DecidableEq, Repr

/-! ### The linkage of command records

The recording functions of both backends work on the same data: the `next` pointers of the
command records, the command pool, the head and tail of the device-wide list and of the
private list of every pass.  `Links` is that part of a context, and the definitions below
are the recording functions restricted to it; each backend proves that its functions act
on its `Links` in this way. -/

/-- The records reached from `p` by following `next` are exactly `l`, and the walk ends
there. -/
def chain (next : Nat → Ptr) : Ptr → List Nat → Prop
  | p, [] => p = none
  | p, x :: l => p = some x ∧ chain next (next x) l

/-- The part of a context the recording functions work on.  `label` is the payload of a
record that identifies it (its kind and its handle), `phead` and `ptail` are the private
list pointers by pass handle, `log` is the sequence of records executed so far. -/
structure Links (κ : Type) where
  next : Nat → Ptr
  label : Nat → κ
  pool : Pool
  head : Ptr
  tail : Ptr
  phead : Nat → Ptr
  ptail : Nat → Ptr
  log : List (Nat × κ)

namespace Links

variable {κ : Type}

/-- `command_new` followed by the stores into the payload: a block of the pool, unlinked. -/
def new (L : Links κ) (k : κ) : Nat × Links κ :=
  let r := pool_get L.pool
  (r.1, { L with pool := r.2, next := write L.next r.1 none, label := write L.label r.1 k })

/-- `command_push` on the device-wide list. -/
def push_self (L : Links κ) (c : Nat) : Links κ :=
  match L.tail with
  | none => { L with head := some c, tail := some c }
  | some t => { L with next := write L.next t (some c), tail := some c }

/-- `command_push` on the private list of the pass `h`. -/
def push_pass (L : Links κ) (h : Nat) (c : Nat) : Links κ :=
  match L.ptail h with
  | none => { L with phead := write L.phead h (some c), ptail := write L.ptail h (some c) }
  | some t => { L with next := write L.next t (some c), ptail := write L.ptail h (some c) }

/-- The private list of `h` is set to empty. -/
def reset (L : Links κ) (h : Nat) : Links κ :=
  { L with phead := write L.phead h none, ptail := write L.ptail h none }

/-- `pass_begin`. -/
def pass_begin (L : Links κ) (h : Nat) (k : κ) : Links κ :=
  let r := (L.reset h).new k
  r.2.push_pass h r.1

/-- A recording call: one new record at the tail of the private list of `h`. -/
def record (L : Links κ) (h : Nat) (k : κ) : Links κ :=
  let r := L.new k
  r.2.push_pass h r.1

/-- The splice of `pass_end` in deferred mode. -/
def splice (L : Links κ) (h : Nat) : Links κ :=
  match L.tail with
  | none => { L with head := L.phead h, tail := L.ptail h }
  | some t => { L with next := write L.next t (L.phead h), tail := L.ptail h }

/-- `pass_end` in deferred mode. -/
def pass_end_deferred (L : Links κ) (h : Nat) (k : κ) : Links κ :=
  if L.phead h ≠ none then (((L.record h k).splice h).reset h) else L.reset h

/-- A command processed in deferred mode: a new record at the tail of the device-wide
list. -/
def device (L : Links κ) (k : κ) : Links κ :=
  let r := L.new k
  r.2.push_self r.1

/-- The records `l` are executed and freed, in order. -/
def consume (L : Links κ) (l : List Nat) : Links κ :=
  { L with pool := l.foldl pool_put L.pool, log := L.log ++ l.map fun x => (x, L.label x) }

/-- A command processed in immediate mode: a new record, executed and freed. -/
def immediate (L : Links κ) (k : κ) : Links κ :=
  let r := L.new k
  r.2.consume [r.1]

/-- `pass_end` in immediate mode, `l` being the records on the private list of `h` after
the `PASS_END` record has been pushed. -/
def pass_end_immediate (L : Links κ) (h : Nat) (k : κ) (l : List Nat) : Links κ :=
  if L.phead h ≠ none then (((L.record h k).consume l).reset h) else L.reset h

end Links

/-- Well-formed linkage: `D` is the device-wide list and `priv h` the private list of every
pass `h` of `hs`, each read from its head to its tail; no record is on two lists, and no
record of a list is a block the pool would hand out. -/
structure Links.WF {κ : Type} (L : Links κ) (D : List Nat) (hs : List Nat)
    (priv : Nat → List Nat) : Prop where
  dev : chain L.next L.head D
  dev_tail : L.tail = D.getLast?
  pr : ∀ h ∈ hs, chain L.next (L.phead h) (priv h)
  pr_tail : ∀ h ∈ hs, L.ptail h = (priv h).getLast?
  disj_dev : ∀ h ∈ hs, ∀ x ∈ priv h, x ∉ D
  disj : ∀ h1 ∈ hs, ∀ h2 ∈ hs, h1 ≠ h2 → ∀ x ∈ priv h1, x ∉ priv h2
  pool_nodup : L.pool.free.Nodup
  pool_lt : ∀ y ∈ L.pool.free, y < L.pool.fresh
  dev_alloc : ∀ x ∈ D, x ∉ L.pool.free ∧ x < L.pool.fresh
  pr_alloc : ∀ h ∈ hs, ∀ x ∈ priv h, x ∉ L.pool.free ∧ x < L.pool.fresh

/-- A linkage together with the lists it is meant to hold: `dev` for the device-wide list
and `priv h` for the private list of the pass `h`. -/
structure Model (κ : Type) where
  links : Links κ
  dev : List Nat
  priv : Nat → List Nat

/-- What a call of the recording interface does to the linkage, as a sequence of steps:
`reset` is `handle_new` clearing the pointers of a new handle, `device` and `immediate`
are `command_process` on a new record in deferred and in immediate mode, the others are the
pass functions. -/
inductive Step (κ : Type) where
  | reset (h : Nat)
  | device (k : κ)
  | immediate (k : κ)
  | pass_begin (h : Nat) (k : κ)
  | record (h : Nat) (k : κ)
  | pass_end_deferred (h : Nat) (k : κ)
  | pass_end_immediate (h : Nat) (k : κ)

namespace Model

variable {κ : Type}

/-- One step on the linkage, with the lists it leaves behind. -/
def step (M : Model κ) : Step κ → Model κ
  | .reset h => { M with links := M.links.reset h, priv := write M.priv h [] }
  | .device k => { M with links := M.links.device k, dev := M.dev ++ [(M.links.new k).1] }
  | .immediate k => { M with links := M.links.immediate k }
  | .pass_begin h k =>
    { M with links := M.links.pass_begin h k,
             priv := write M.priv h [((M.links.reset h).new k).1] }
  | .record h k =>
    { M with links := M.links.record h k,
             priv := write M.priv h (M.priv h ++ [(M.links.new k).1]) }
  | .pass_end_deferred h k =>
    { links := M.links.pass_end_deferred h k,
      dev := if M.priv h = [] then M.dev else M.dev ++ (M.priv h ++ [(M.links.new k).1]),
      priv := write M.priv h [] }
  | .pass_end_immediate h k =>
    { M with links := M.links.pass_end_immediate h k (M.priv h ++ [(M.links.new k).1]),
             priv := write M.priv h [] }

/-- A sequence of steps. -/
def run (M : Model κ) (steps : List (Step κ)) : Model κ := steps.foldl step M

end Model

/-- The pass whose private list a step works on. -/
def Step.pass {κ : Type} : Step κ → Option Nat
  | .reset h => some h
  | .device _ => none
  | .immediate _ => none
  | .pass_begin h _ => some h
  | .record h _ => some h
  | .pass_end_deferred h _ => some h
  | .pass_end_immediate h _ => some h

/-- The step is a recording call of the pass `p`, with label `k`. -/
def Step.records {κ : Type} (p : Nat) : Step κ → Option κ
  | .record h k => if h = p then some k else none
  | _ => none

/-- The model is well-formed: its linkage holds its lists. -/
def Model.WF {κ : Type} (M : Model κ) (hs : List Nat) : Prop := M.links.WF M.dev hs M.priv

/-- A step that respects the passes `hs`: pass functions are called on passes of `hs`, and
a new handle is none of them. -/
def Step.ok {κ : Type} (hs : List Nat) : Step κ → Prop
  | .reset h => h ∉ hs
  | .device _ => True
  | .immediate _ => True
  | .pass_begin h _ => h ∈ hs
  | .record h _ => h ∈ hs
  | .pass_end_deferred h _ => h ∈ hs
  | .pass_end_immediate h _ => h ∈ hs

/-- How many of the colour attachments of `desc` with an index in `l` are the handle `t`. -/
def color_count (desc : Renoir_Pass_Offscreen_Desc) (l : List Nat) (t : Nat) : Nat :=
  (l.filter fun i => decide ((desc.color.getD i {}).handle = some t)).length

/-- How often the handle `t` is an attachment of the offscreen description `desc`: among the
colour attachments `color[0..RENOIR_CONSTANT_COLOR_ATTACHMENT_SIZE)` and as the
depth-stencil attachment. -/
def attachment_count (desc : Renoir_Pass_Offscreen_Desc) (t : Nat) : Nat :=
  color_count desc (List.range RENOIR_CONSTANT_COLOR_ATTACHMENT_SIZE) t
    + (if desc.depth_stencil.handle = some t then 1 else 0)

/-- Every call of the sequence finds the handle alive: its count, `rc` before the
sequence, is at least 1 at each call, and below `INT_MAX` at a `handle_ref`. -/
def live_calls (rc : Int) : List Life_Call → Bool
  | [] => true
  | .ref :: rest => decide (0 < rc) && decide (rc < 2147483647) && live_calls (rc + 1) rest
  | .free :: rest => decide (0 < rc) && live_calls (rc - 1) rest

/-- The count after a sequence of calls, `rc` being the count before it: one up for every
`handle_ref`, one down for every `*_FREE`. -/
def count_after (rc : Int) : List Life_Call → Int
  | [] => rc
  | .ref :: rest => count_after (rc + 1) rest
  | .free :: rest => count_after (rc - 1) rest

/-! ## The D3D11 backend (Renoir-dx11.cpp) -/

namespace Dx11

/-- The command kinds of Renoir-dx11.cpp:367. -/
inductive RENOIR_COMMAND_KIND where
  | RENOIR_COMMAND_KIND_NONE
  | RENOIR_COMMAND_KIND_INIT
  | RENOIR_COMMAND_KIND_SWAPCHAIN_NEW
  | RENOIR_COMMAND_KIND_SWAPCHAIN_FREE
  | RENOIR_COMMAND_KIND_SWAPCHAIN_RESIZE
  | RENOIR_COMMAND_KIND_PASS_SWAPCHAIN_NEW
  | RENOIR_COMMAND_KIND_PASS_OFFSCREEN_NEW
  | RENOIR_COMMAND_KIND_PASS_FREE
  | RENOIR_COMMAND_KIND_BUFFER_NEW
  | RENOIR_COMMAND_KIND_BUFFER_FREE
  | RENOIR_COMMAND_KIND_TEXTURE_NEW
  | RENOIR_COMMAND_KIND_TEXTURE_FREE
  | RENOIR_COMMAND_KIND_SAMPLER_NEW
  | RENOIR_COMMAND_KIND_SAMPLER_FREE
  | RENOIR_COMMAND_KIND_PROGRAM_NEW
  | RENOIR_COMMAND_KIND_PROGRAM_FREE
  | RENOIR_COMMAND_KIND_COMPUTE_NEW
  | RENOIR_COMMAND_KIND_COMPUTE_FREE
  | RENOIR_COMMAND_KIND_PIPELINE_NEW
  | RENOIR_COMMAND_KIND_PIPELINE_FREE
  | RENOIR_COMMAND_KIND_PASS_BEGIN
  | RENOIR_COMMAND_KIND_PASS_END
  | RENOIR_COMMAND_KIND_PASS_CLEAR
  | RENOIR_COMMAND_KIND_USE_PIPELINE
  | RENOIR_COMMAND_KIND_USE_PROGRAM
  | RENOIR_COMMAND_KIND_SCISSOR
  | RENOIR_COMMAND_KIND_BUFFER_WRITE
  | RENOIR_COMMAND_KIND_TEXTURE_WRITE
  | RENOIR_COMMAND_KIND_BUFFER_READ
  | RENOIR_COMMAND_KIND_TEXTURE_READ
  | RENOIR_COMMAND_KIND_BUFFER_BIND
  | RENOIR_COMMAND_KIND_TEXTURE_BIND
  | RENOIR_COMMAND_KIND_DRAW
deriving DecidableEq, Repr

/-- The command record `Renoir_Command` (Renoir-dx11.cpp:405).  `handle` is the handle pointer that every union member of the
record starts with (`swapchain_new.handle`, ..., `texture_bind.handle`; for `use_pipeline`
and `use_program` it is the `pipeline` / `program` member).  The remaining fields are the
members of the union that the modelled code reads (`clear_color` and `clear_depth` are the
two bits tested in `pass_clear.desc.flags`).  `owns_data` is the member of that name of
`buffer_new`, `texture_new` and `program_new`; `compute_owns_data` is `compute_new.owns_data`,
which follows a description of one shader blob where `program_new.owns_data` follows a
description of three, so the two are different bytes of the record.  `args` holds the scalar
arguments that are only handed on to the native device (scissor rectangle, write offset,
shader stage and slot, edit region, draw description). -/
structure Renoir_Command where
  prev : Ptr := none
  next : Ptr := none
  kind : RENOIR_COMMAND_KIND := .RENOIR_COMMAND_KIND_NONE
  handle : Ptr := none
  swapchain : Ptr := none
  offscreen : Renoir_Pass_Offscreen_Desc := {}
  buffer_desc : Renoir_Buffer_Desc := {}
  texture_desc : Renoir_Texture_Desc := {}
  sampler_desc : Renoir_Sampler_Desc := {}
  program_desc : Renoir_Program_Desc := {}
  owns_data : Bool := false
  compute_owns_data : Bool := false
  bytes : Block := {}
  sampler : Ptr := none
  width : Int := 0
  height : Int := 0
  clear_color : Bool := false
  clear_depth : Bool := false
  args : List Int := []
deriving DecidableEq, Repr

structure Swapchain_Members where
  width : Int := 0
  height : Int := 0
  window : Ptr := none
  swapchain : Ptr := none
  render_target_view : Ptr := none
  depth_stencil_view : Ptr := none
  depth_buffer : Ptr := none
deriving DecidableEq, Repr

structure Pass_Members where
  command_list_head : Ptr := none
  command_list_tail : Ptr := none
  swapchain : Ptr := none
  render_target_view : List Ptr := List.replicate RENOIR_CONSTANT_COLOR_ATTACHMENT_SIZE none
  depth_stencil_view : Ptr := none
  width : Int := 0
  height : Int := 0
  offscreen : Renoir_Pass_Offscreen_Desc := {}
deriving DecidableEq, Repr

structure Buffer_Members where
  buffer : Ptr := none
  type : Nat := 0
  usage : RENOIR_USAGE := .RENOIR_USAGE_NONE
  access : RENOIR_ACCESS := .RENOIR_ACCESS_NONE
  size : Nat := 0
  buffer_staging : Ptr := none
deriving DecidableEq, Repr

structure Texture_Members where
  texture1d : Ptr := none
  texture2d : Ptr := none
  texture3d : Ptr := none
  shader_view : Ptr := none
  size : Renoir_Size := {}
  usage : RENOIR_USAGE := .RENOIR_USAGE_NONE
  access : RENOIR_ACCESS := .RENOIR_ACCESS_NONE
  pixel_format : RENOIR_PIXELFORMAT := .RENOIR_PIXELFORMAT_RGBA8
  default_sampler_desc : Renoir_Sampler_Desc := {}
  texture1d_staging : Ptr := none
  texture2d_staging : Ptr := none
  texture3d_staging : Ptr := none
  render_target : Bool := false
  msaa : RENOIR_MSAA_MODE := .RENOIR_MSAA_MODE_NONE
  render_color_buffer : Ptr := none
deriving DecidableEq, Repr

structure Sampler_Members where
  sampler : Ptr := none
  desc : Renoir_Sampler_Desc := {}
deriving DecidableEq, Repr

structure Program_Members where
  input_layout : Ptr := none
  vertex_shader : Ptr := none
  vertex_shader_blob : Ptr := none
  pixel_shader : Ptr := none
  geometry_shader : Ptr := none
deriving DecidableEq, Repr

structure Compute_Members where
  compute_shader : Ptr := none
deriving DecidableEq, Repr

structure Pipeline_Members where
  depth_state : Ptr := none
  raster_state : Ptr := none
  blend_state : Ptr := none
deriving DecidableEq, Repr

/-- The handle record `Renoir_Handle` (Renoir-dx11.cpp:277).  The default value of every
field is its all-zero value. -/
structure Renoir_Handle where
  kind : RENOIR_HANDLE_KIND := .RENOIR_HANDLE_KIND_NONE
  rc : Int := 0
  swapchain : Swapchain_Members := {}
  pass : Pass_Members := {}
  buffer : Buffer_Members := {}
  texture : Texture_Members := {}
  sampler : Sampler_Members := {}
  program : Program_Members := {}
  compute : Compute_Members := {}
  pipeline : Pipeline_Members := {}
deriving DecidableEq, Repr

/-- What the context did, in order: calls of the command functions (with the contents of the
record at the time of the call), heap and pool releases, and calls into the native device. -/
inductive Event where
  | command_process (command : Nat) (record : Renoir_Command)
  | command_execute (command : Nat) (record : Renoir_Command)
  | command_free (command : Nat) (record : Renoir_Command)
  | mn_alloc (block : Block)
  | mn_free (block : Block)
  | handle_free (h : Nat)
  | create (object : Nat)
  | create_sampler_state (desc : Renoir_Sampler_Desc) (object : Nat)
  | release (object : Ptr)
  | present (swapchain : Ptr)
  | log_error
  | device (kind : RENOIR_COMMAND_KIND)
  | upload (bytes : List Nat)
deriving DecidableEq, Repr

/-- The context `IRenoir` (Renoir-dx11.cpp:598), with the two memories the pools own and
the model of the native device and the heap: `native_fresh` numbers the objects the device
creates, `heap_fresh` the blocks `mn::alloc` returns, `heap` is the contents of the byte
blocks of the process (those of the caller and those `mn::alloc` returned), `compile_ok` is
the outcome of `D3DCompile` on a shader source, `trace` records the calls; an `upload` event
is the device reading bytes of host memory to fill a resource. -/
structure IRenoir where
  handle_pool : Pool := pool_new
  command_pool : Pool := pool_new
  settings : Renoir_Settings := {}
  command_list_head : Ptr := none
  command_list_tail : Ptr := none
  current_pipeline : Ptr := none
  current_program : Ptr := none
  current_pass : Ptr := none
  sampler_cache : List Ptr := []
  handles : Nat → Renoir_Handle := fun _ => {}
  commands : Nat → Renoir_Command := fun _ => {}
  native_fresh : Nat := 0
  heap_fresh : Nat := 0
  heap : Nat → List Nat := fun _ => []
  compile_ok : Block → Bool := fun _ => true
  trace : List Event := []

/-- Append an event to the trace. -/
def emit (self : IRenoir) (e : Event) : IRenoir :=
  { self with trace := self.trace ++ [e] }

/-- The call `mn::alloc(size, ..)`: a fresh heap block. -/
def mn_alloc (self : IRenoir) (size : Nat) : Block × IRenoir :=
  ({ ptr := some self.heap_fresh, size := size },
    { self with heap_fresh := self.heap_fresh + 1,
                trace := self.trace ++ [Event.mn_alloc ⟨some self.heap_fresh, size⟩] })

/-- The bytes a read of `size` bytes at `p` sees. -/
def read_bytes (heap : Nat → List Nat) (p : Ptr) (size : Nat) : List Nat :=
  match p with
  | none => []
  | some a => (heap a).take size

/-- The call `::memcpy(dst, src, size)` into a block `mn::alloc` returned; `none` when a
null pointer is read or written (with `size = 0` nothing is accessed). -/
def memcpy (self : IRenoir) (dst src : Ptr) (size : Nat) : Option IRenoir :=
  if size = 0 then some self
  else
    match dst, src with
    | some d, some s => some { self with heap := write self.heap d ((self.heap s).take size) }
    | _, _ => none

/-- The device reads `size` bytes at `p` (initial data of a resource, or the source of a
write into a mapped resource). -/
def device_upload (self : IRenoir) (p : Ptr) (size : Nat) : IRenoir :=
  { self with trace := self.trace ++ [Event.upload (read_bytes self.heap p size)] }

/-- A successful `Create...` call of the device: the new native object. -/
def device_create (self : IRenoir) : Nat × IRenoir :=
  (self.native_fresh,
    { self with native_fresh := self.native_fresh + 1,
                trace := self.trace ++ [Event.create self.native_fresh] })

/-- The call `p->Release()` on a native object, recorded as an event of the trace.  A call
through a null pointer (`p = none`) is recorded like any other and the run goes on, while
the source does not get past it: a run of these definitions is a run of the source as
long as the trace gains no `release none` (counted by `null_releases`). -/
def release (self : IRenoir) (p : Ptr) : IRenoir := emit self (Event.release p)

/-- The guarded call `if (p) p->Release()`. -/
def release_if (self : IRenoir) (p : Ptr) : IRenoir :=
  if p.isSome then release self p else self

/-- Store a handle record. -/
def set_handle (self : IRenoir) (h : Nat) (v : Renoir_Handle) : IRenoir :=
  { self with handles := write self.handles h v }

/-- Store a command record. -/
def set_command (self : IRenoir) (c : Nat) (v : Renoir_Command) : IRenoir :=
  { self with commands := write self.commands c v }

/-- Renoir-dx11.cpp:625. -/
def _renoir_dx11_handle_new (self : IRenoir) (kind : RENOIR_HANDLE_KIND) : Nat × IRenoir :=
  let r := pool_get self.handle_pool
  (r.1, { self with handle_pool := r.2,
                    handles := write self.handles r.1 { kind := kind, rc := 1 } })

/-- Renoir-dx11.cpp:635. -/
def _renoir_dx11_handle_free (self : IRenoir) (h : Nat) : IRenoir :=
  { self with handle_pool := pool_put self.handle_pool h,
              trace := self.trace ++ [Event.handle_free h] }

/-- Renoir-dx11.cpp:641: `h->rc.fetch_add(1); return h;`. -/
def _renoir_dx11_handle_ref (handles : Nat → Renoir_Handle) (h : Nat) :
    Nat × (Nat → Renoir_Handle) :=
  (h, write handles h { handles h with rc := wrap_int ((handles h).rc + 1) })

/-- Renoir-dx11.cpp:648: `return h->rc.fetch_sub(1) == 1;`. -/
def _renoir_dx11_handle_unref (handles : Nat → Renoir_Handle) (h : Nat) :
    Bool × (Nat → Renoir_Handle) :=
  (decide ((handles h).rc = 1),
    write handles h { handles h with rc := wrap_int ((handles h).rc - 1) })

/-- Renoir-dx11.cpp:654. -/
def _renoir_dx11_command_new (self : IRenoir) (kind : RENOIR_COMMAND_KIND) : Nat × IRenoir :=
  let r := pool_get self.command_pool
  (r.1, { self with command_pool := r.2,
                    commands := write self.commands r.1 { kind := kind } })

/-- The call `mn::free(block)`. -/
def mn_free (self : IRenoir) (b : Block) : IRenoir := emit self (Event.mn_free b)

/-- Renoir-dx11.cpp:664. -/
def _renoir_dx11_command_free (self : IRenoir) (command : Nat) : IRenoir :=
  let c := self.commands command
  let self := emit self (Event.command_free command c)
  let self :=
    match c.kind with
    | .RENOIR_COMMAND_KIND_BUFFER_NEW =>
      if c.owns_data then mn_free self ⟨c.buffer_desc.data, c.buffer_desc.data_size⟩ else self
    | .RENOIR_COMMAND_KIND_TEXTURE_NEW =>
      if c.owns_data then mn_free self ⟨c.texture_desc.data, c.texture_desc.data_size⟩ else self
    | .RENOIR_COMMAND_KIND_PROGRAM_NEW =>
      if c.owns_data then
        let self := mn_free self c.program_desc.vertex
        let self := mn_free self c.program_desc.pixel
        if c.program_desc.geometry.ptr.isSome then mn_free self c.program_desc.geometry else self
      else self
    | .RENOIR_COMMAND_KIND_COMPUTE_NEW =>
      if c.compute_owns_data then mn_free self c.program_desc.compute else self
    | .RENOIR_COMMAND_KIND_BUFFER_WRITE => mn_free self c.bytes
    | .RENOIR_COMMAND_KIND_TEXTURE_WRITE => mn_free self c.bytes
    | _ => self
  { self with command_pool := pool_put self.command_pool command }

/-- A list of command records: the `command_list_head` / `command_list_tail` pair of the
context or of a pass handle. -/
structure Command_List where
  command_list_head : Ptr := none
  command_list_tail : Ptr := none
deriving DecidableEq, Repr

/-- Renoir-dx11.cpp:745, for the list `l` whose owner is the template argument. -/
def _renoir_dx11_command_push (l : Command_List) (commands : Nat → Renoir_Command)
    (command : Nat) : Command_List × (Nat → Renoir_Command) :=
  match l.command_list_tail with
  | none => ({ command_list_head := some command, command_list_tail := some command }, commands)
  | some tail =>
    let commands := write commands tail { commands tail with next := some command }
    let commands := write commands command { commands command with prev := some tail }
    ({ l with command_list_tail := some command }, commands)

/-- The call `_renoir_dx11_command_push(self, command)` on the device-wide list. -/
def command_push_self (self : IRenoir) (command : Nat) : IRenoir :=
  let r := _renoir_dx11_command_push ⟨self.command_list_head, self.command_list_tail⟩
    self.commands command
  { self with command_list_head := r.1.command_list_head,
              command_list_tail := r.1.command_list_tail,
              commands := r.2 }

/-- The call `_renoir_dx11_command_push(&h->pass, command)` on the private list of a pass. -/
def command_push_pass (self : IRenoir) (h : Nat) (command : Nat) : IRenoir :=
  let hd := self.handles h
  let r := _renoir_dx11_command_push ⟨hd.pass.command_list_head, hd.pass.command_list_tail⟩
    self.commands command
  { self with
    handles := write self.handles h
      { hd with pass := { hd.pass with command_list_head := r.1.command_list_head,
                                       command_list_tail := r.1.command_list_tail } },
    commands := r.2 }

/-- Renoir-dx11.cpp:775 `_internal_renoir_dx11_swapchain_new`: creates the swapchain, its
render target view, the depth buffer and the depth stencil view (the temporary colour
buffer obtained with `GetBuffer` is released again). -/
def _internal_renoir_dx11_swapchain_new (self : IRenoir) (h : Nat) : IRenoir :=
  let r := device_create self
  let self := set_handle r.2 h
    { r.2.handles h with swapchain := { (r.2.handles h).swapchain with swapchain := some r.1 } }
  let r := device_create self
  let self := set_handle r.2 h
    { r.2.handles h with
      swapchain := { (r.2.handles h).swapchain with render_target_view := some r.1 } }
  let r := device_create self
  let self := set_handle r.2 h
    { r.2.handles h with swapchain := { (r.2.handles h).swapchain with depth_buffer := some r.1 } }
  let r := device_create self
  set_handle r.2 h
    { r.2.handles h with
      swapchain := { (r.2.handles h).swapchain with depth_stencil_view := some r.1 } }

/-- The four `Release` calls on the native objects of a swapchain handle. -/
def swapchain_release (self : IRenoir) (h : Nat) : IRenoir :=
  let self := release self (self.handles h).swapchain.swapchain
  let self := release self (self.handles h).swapchain.render_target_view
  let self := release self (self.handles h).swapchain.depth_stencil_view
  release self (self.handles h).swapchain.depth_buffer

/-- The condition `desc.usage == RENOIR_USAGE_DYNAMIC && (desc.access == RENOIR_ACCESS_WRITE
|| desc.access == RENOIR_ACCESS_READ_WRITE)` guarding the creation of staging resources. -/
def needs_staging (usage : RENOIR_USAGE) (access : RENOIR_ACCESS) : Bool :=
  usage == .RENOIR_USAGE_DYNAMIC &&
    (access == .RENOIR_ACCESS_WRITE || access == .RENOIR_ACCESS_READ_WRITE)

/-- Case `RENOIR_COMMAND_KIND_SWAPCHAIN_FREE` (Renoir-dx11.cpp:938). -/
def execute_swapchain_free (self : IRenoir) (h : Nat) : IRenoir :=
  let r := _renoir_dx11_handle_unref self.handles h
  let self := { self with handles := r.2 }
  if r.1 = false then self
  else
    let self := swapchain_release self h
    _renoir_dx11_handle_free self h

/-- Case `RENOIR_COMMAND_KIND_SWAPCHAIN_RESIZE` (Renoir-dx11.cpp:950). -/
def execute_swapchain_resize (self : IRenoir) (h : Nat) (width height : Int) : IRenoir :=
  let self := set_handle self h
    { self.handles h with
      swapchain := { (self.handles h).swapchain with width := width, height := height } }
  let self := swapchain_release self h
  _internal_renoir_dx11_swapchain_new self h

/-- One round of the attachment loop of `RENOIR_COMMAND_KIND_PASS_OFFSCREEN_NEW`
(Renoir-dx11.cpp:982): reference colour attachment `i` and create its render target view. -/
def offscreen_new_color (desc : Renoir_Pass_Offscreen_Desc) (h : Nat) (self : IRenoir)
    (i : Nat) : IRenoir :=
  match (desc.color.getD i {}).handle with
  | none => self
  | some color =>
    let self := { self with handles := (_renoir_dx11_handle_ref self.handles color).2 }
    let r := device_create self
    set_handle r.2 h
      { r.2.handles h with
        pass := { (r.2.handles h).pass with
                  render_target_view := (r.2.handles h).pass.render_target_view.set i (some r.1) } }

/-- Case `RENOIR_COMMAND_KIND_PASS_OFFSCREEN_NEW` (Renoir-dx11.cpp:972); the width, height
and msaa bookkeeping is checked by assertions only and is left out. -/
def execute_pass_offscreen_new (self : IRenoir) (h : Nat) (desc : Renoir_Pass_Offscreen_Desc) :
    IRenoir :=
  let self := set_handle self h
    { self.handles h with pass := { (self.handles h).pass with offscreen := desc } }
  let self := (List.range RENOIR_CONSTANT_COLOR_ATTACHMENT_SIZE).foldl
    (offscreen_new_color desc h) self
  match desc.depth_stencil.handle with
  | none => self
  | some depth =>
    let self := { self with handles := (_renoir_dx11_handle_ref self.handles depth).2 }
    let r := device_create self
    set_handle r.2 h
      { r.2.handles h with pass := { (r.2.handles h).pass with depth_stencil_view := some r.1 } }

/-- Case `RENOIR_COMMAND_KIND_TEXTURE_FREE` (Renoir-dx11.cpp:1354). -/
def execute_texture_free (self : IRenoir) (h : Nat) : IRenoir :=
  let r := _renoir_dx11_handle_unref self.handles h
  let self := { self with handles := r.2 }
  if r.1 = false then self
  else
    let t := (self.handles h).texture
    let self := release_if self t.texture1d
    let self := release_if self t.texture2d
    let self := release_if self t.texture3d
    let self := release_if self t.shader_view
    let self := release_if self t.texture1d_staging
    let self := release_if self t.texture2d_staging
    let self := release_if self t.texture3d_staging
    let self := release_if self t.render_color_buffer
    _renoir_dx11_handle_free self h

/-- The loop `for(auto it = h->pass.command_list_head; it != NULL; it = it->next)
_renoir_dx11_command_free(self, command);` of `RENOIR_COMMAND_KIND_PASS_FREE`
(Renoir-dx11.cpp:1076): it walks the private list of the pass and, at every record of
it, frees `command`, the record being executed. -/
def pass_free_pending : Nat → IRenoir → Nat → Ptr → Option IRenoir
  | _, self, _, none => some self
  | 0, _, _, some _ => none
  | fuel + 1, self, command, some it =>
    let self := _renoir_dx11_command_free self command
    pass_free_pending fuel self command (self.commands it).next

/-- The nested `TEXTURE_FREE` of `RENOIR_COMMAND_KIND_PASS_FREE` (Renoir-dx11.cpp:1090): a
new command record is taken from the pool, executed and freed. -/
def pass_free_texture (self : IRenoir) (texture : Nat) : IRenoir :=
  let r := _renoir_dx11_command_new self .RENOIR_COMMAND_KIND_TEXTURE_FREE
  let self := set_command r.2 r.1 { r.2.commands r.1 with handle := some texture }
  let self := emit self (Event.command_execute r.1 (self.commands r.1))
  let self := execute_texture_free self texture
  _renoir_dx11_command_free self r.1

/-- One round of the colour loop of `RENOIR_COMMAND_KIND_PASS_FREE` (Renoir-dx11.cpp:1082). -/
def pass_free_color (h : Nat) (self : IRenoir) (i : Nat) : IRenoir :=
  match ((self.handles h).pass.offscreen.color.getD i {}).handle with
  | none => self
  | some color =>
    let self := release self ((self.handles h).pass.render_target_view.getD 0 none)
    pass_free_texture self color

/-- Case `RENOIR_COMMAND_KIND_PASS_FREE` (Renoir-dx11.cpp:1070). -/
def execute_pass_free (fuel : Nat) (self : IRenoir) (command : Nat) (h : Nat) :
    Option IRenoir :=
  let r := _renoir_dx11_handle_unref self.handles h
  let self := { self with handles := r.2 }
  if r.1 = false then some self
  else
    match pass_free_pending fuel self command (self.handles h).pass.command_list_head with
    | none => none
    | some self =>
      let self :=
        if (self.handles h).pass.swapchain = none then
          let self := (List.range RENOIR_CONSTANT_COLOR_ATTACHMENT_SIZE).foldl
            (pass_free_color h) self
          match (self.handles h).pass.offscreen.depth_stencil.handle with
          | none => self
          | some depth =>
            let self := release self (self.handles h).pass.depth_stencil_view
            pass_free_texture self depth
        else self
      some (_renoir_dx11_handle_free self h)

/-- Case `RENOIR_COMMAND_KIND_BUFFER_NEW` (Renoir-dx11.cpp:1111): with initial data,
`CreateBuffer` reads `data_size` bytes at `desc.data`. -/
def execute_buffer_new (self : IRenoir) (h : Nat) (desc : Renoir_Buffer_Desc) : IRenoir :=
  let self := set_handle self h
    { self.handles h with
      buffer := { (self.handles h).buffer with
                  type := desc.type, usage := desc.usage, access := desc.access,
                  size := desc.data_size } }
  let self := if desc.data.isSome then device_upload self desc.data desc.data_size else self
  let r := device_create self
  let self := set_handle r.2 h
    { r.2.handles h with buffer := { (r.2.handles h).buffer with buffer := some r.1 } }
  if needs_staging desc.usage desc.access then
    let r := device_create self
    set_handle r.2 h
      { r.2.handles h with buffer := { (r.2.handles h).buffer with buffer_staging := some r.1 } }
  else self

/-- Case `RENOIR_COMMAND_KIND_BUFFER_FREE` (Renoir-dx11.cpp:1154). -/
def execute_buffer_free (self : IRenoir) (h : Nat) : IRenoir :=
  let r := _renoir_dx11_handle_unref self.handles h
  let self := { self with handles := r.2 }
  if r.1 = false then self
  else
    let self := release self (self.handles h).buffer.buffer
    let self := release_if self (self.handles h).buffer.buffer_staging
    _renoir_dx11_handle_free self h

/-- Case `RENOIR_COMMAND_KIND_TEXTURE_NEW` (Renoir-dx11.cpp:1164): the native objects of a
1D, 2D or 3D texture, chosen by the height and depth of the description; with initial data
the `CreateTexture` call reads it at `desc.data`. -/
def execute_texture_new (self : IRenoir) (h : Nat) (desc : Renoir_Texture_Desc) : IRenoir :=
  let self := set_handle self h
    { self.handles h with
      texture := { (self.handles h).texture with
                   access := desc.access, usage := desc.usage, size := desc.size,
                   pixel_format := desc.pixel_format,
                   render_target := desc.render_target, msaa := desc.msaa,
                   default_sampler_desc := desc.sampler } }
  if desc.size.height = 0 ∧ desc.size.depth = 0 then
    let self := if desc.data.isSome then device_upload self desc.data desc.data_size else self
    let r := device_create self
    let self := set_handle r.2 h
      { r.2.handles h with texture := { (r.2.handles h).texture with texture1d := some r.1 } }
    let r := device_create self
    let self := set_handle r.2 h
      { r.2.handles h with texture := { (r.2.handles h).texture with shader_view := some r.1 } }
    if needs_staging desc.usage desc.access then
      let r := device_create self
      set_handle r.2 h
        { r.2.handles h with
          texture := { (r.2.handles h).texture with texture1d_staging := some r.1 } }
    else self
  else if desc.size.height > 0 ∧ desc.size.depth = 0 then
    let self := if desc.data.isSome then device_upload self desc.data desc.data_size else self
    let r := device_create self
    let self := set_handle r.2 h
      { r.2.handles h with texture := { (r.2.handles h).texture with texture2d := some r.1 } }
    let r := device_create self
    let self := set_handle r.2 h
      { r.2.handles h with texture := { (r.2.handles h).texture with shader_view := some r.1 } }
    let self :=
      if desc.render_target ∧ desc.msaa ≠ .RENOIR_MSAA_MODE_NONE then
        let r := device_create self
        set_handle r.2 h
          { r.2.handles h with
            texture := { (r.2.handles h).texture with render_color_buffer := some r.1 } }
      else self
    if needs_staging desc.usage desc.access then
      let r := device_create self
      set_handle r.2 h
        { r.2.handles h with
          texture := { (r.2.handles h).texture with texture2d_staging := some r.1 } }
    else self
  else if desc.size.height > 0 ∧ desc.size.depth > 0 then
    let self := if desc.data.isSome then device_upload self desc.data desc.data_size else self
    let r := device_create self
    let self := set_handle r.2 h
      { r.2.handles h with texture := { (r.2.handles h).texture with texture3d := some r.1 } }
    let r := device_create self
    let self := set_handle r.2 h
      { r.2.handles h with texture := { (r.2.handles h).texture with shader_view := some r.1 } }
    if needs_staging desc.usage desc.access then
      let r := device_create self
      set_handle r.2 h
        { r.2.handles h with
          texture := { (r.2.handles h).texture with texture3d_staging := some r.1 } }
    else self
  else self

/-- Case `RENOIR_COMMAND_KIND_SAMPLER_NEW` (Renoir-dx11.cpp:1370): `CreateSamplerState`
stores the new state object in `h->sampler.sampler`; no other field of the handle is
written. -/
def execute_sampler_new (self : IRenoir) (h : Nat) (desc : Renoir_Sampler_Desc) : IRenoir :=
  let obj := self.native_fresh
  let self := { self with native_fresh := self.native_fresh + 1,
                          trace := self.trace ++ [Event.create_sampler_state desc obj] }
  set_handle self h
    { self.handles h with sampler := { (self.handles h).sampler with sampler := some obj } }

/-- Case `RENOIR_COMMAND_KIND_SAMPLER_FREE` (Renoir-dx11.cpp:1399).  The source releases
`h->buffer.buffer`: the first member of the `buffer` group of the union, which shares its
storage with `sampler.sampler`, the first member of the `sampler` group. -/
def execute_sampler_free (self : IRenoir) (h : Nat) : IRenoir :=
  let r := _renoir_dx11_handle_unref self.handles h
  let self := { self with handles := r.2 }
  if r.1 = false then self
  else
    let self := release self (self.handles h).sampler.sampler
    _renoir_dx11_handle_free self h

/-- Case `RENOIR_COMMAND_KIND_PROGRAM_NEW` (Renoir-dx11.cpp:1408).  A failed compilation is
logged and leaves the case (`break`). -/
def execute_program_new (self : IRenoir) (h : Nat) (desc : Renoir_Program_Desc) : IRenoir :=
  if self.compile_ok desc.vertex = false then emit self Event.log_error
  else
    let r := device_create self
    let self := set_handle r.2 h
      { r.2.handles h with
        program := { (r.2.handles h).program with vertex_shader_blob := some r.1 } }
    let r := device_create self
    let self := set_handle r.2 h
      { r.2.handles h with program := { (r.2.handles h).program with vertex_shader := some r.1 } }
    if self.compile_ok desc.pixel = false then emit self Event.log_error
    else
      let blob := device_create self
      let r := device_create blob.2
      let self := set_handle r.2 h
        { r.2.handles h with program := { (r.2.handles h).program with pixel_shader := some r.1 } }
      let self := release self (some blob.1)
      if desc.geometry.ptr.isSome then
        if self.compile_ok desc.geometry = false then emit self Event.log_error
        else
          let blob := device_create self
          let r := device_create blob.2
          let self := set_handle r.2 h
            { r.2.handles h with
              program := { (r.2.handles h).program with geometry_shader := some r.1 } }
          release self (some blob.1)
      else self

/-- Case `RENOIR_COMMAND_KIND_PROGRAM_FREE` (Renoir-dx11.cpp:1501). -/
def execute_program_free (self : IRenoir) (h : Nat) : IRenoir :=
  let r := _renoir_dx11_handle_unref self.handles h
  let self := { self with handles := r.2 }
  if r.1 = false then self
  else
    let p := (self.handles h).program
    let self := release_if self p.vertex_shader
    let self := release_if self p.vertex_shader_blob
    let self := release_if self p.pixel_shader
    let self := release_if self p.geometry_shader
    let self := release_if self p.input_layout
    _renoir_dx11_handle_free self h

/-- Case `RENOIR_COMMAND_KIND_COMPUTE_NEW` (Renoir-dx11.cpp:1514). -/
def execute_compute_new (self : IRenoir) (h : Nat) (desc : Renoir_Program_Desc) : IRenoir :=
  if self.compile_ok desc.compute = false then emit self Event.log_error
  else
    let blob := device_create self
    let r := device_create blob.2
    let self := set_handle r.2 h
      { r.2.handles h with compute := { (r.2.handles h).compute with compute_shader := some r.1 } }
    release self (some blob.1)

/-- Case `RENOIR_COMMAND_KIND_COMPUTE_FREE` (Renoir-dx11.cpp:1550). -/
def execute_compute_free (self : IRenoir) (h : Nat) : IRenoir :=
  let r := _renoir_dx11_handle_unref self.handles h
  let self := { self with handles := r.2 }
  if r.1 = false then self
  else
    let self := release_if self (self.handles h).compute.compute_shader
    _renoir_dx11_handle_free self h

/-- Case `RENOIR_COMMAND_KIND_PIPELINE_NEW` (Renoir-dx11.cpp:1559): the depth, rasterizer
and blend state objects. -/
def execute_pipeline_new (self : IRenoir) (h : Nat) : IRenoir :=
  let r := device_create self
  let self := set_handle r.2 h
    { r.2.handles h with pipeline := { (r.2.handles h).pipeline with depth_state := some r.1 } }
  let r := device_create self
  let self := set_handle r.2 h
    { r.2.handles h with pipeline := { (r.2.handles h).pipeline with raster_state := some r.1 } }
  let r := device_create self
  set_handle r.2 h
    { r.2.handles h with pipeline := { (r.2.handles h).pipeline with blend_state := some r.1 } }

/-- Case `RENOIR_COMMAND_KIND_PIPELINE_FREE` (Renoir-dx11.cpp:1633). -/
def execute_pipeline_free (self : IRenoir) (h : Nat) : IRenoir :=
  let r := _renoir_dx11_handle_unref self.handles h
  let self := { self with handles := r.2 }
  if r.1 = false then self
  else
    let p := (self.handles h).pipeline
    let self := release_if self p.depth_state
    let self := release_if self p.raster_state
    let self := release_if self p.blend_state
    _renoir_dx11_handle_free self h

/-- Case `RENOIR_COMMAND_KIND_DRAW` (Renoir-dx11.cpp:2095): the input layout of the current
program is created on first use (`_renoir_dx11_input_layout_create`, which also releases
and clears the vertex shader blob); the draw itself is a device call. -/
def execute_draw (self : IRenoir) : Option IRenoir :=
  match self.current_program with
  | none => none
  | some hprogram =>
    let self :=
      if (self.handles hprogram).program.input_layout = none then
        let r := device_create self
        let self := set_handle r.2 hprogram
          { r.2.handles hprogram with
            program := { (r.2.handles hprogram).program with input_layout := some r.1 } }
        let self := release self (self.handles hprogram).program.vertex_shader_blob
        set_handle self hprogram
          { self.handles hprogram with
            program := { (self.handles hprogram).program with vertex_shader_blob := none } }
      else self
    some (emit self (Event.device .RENOIR_COMMAND_KIND_DRAW))

/-- The conversion of an `int` to `size_t`. -/
def to_size_t (x : Int) : Nat := (x % 2 ^ 64).toNat

/-- Renoir-dx11.cpp:76 `_renoir_pixelformat_to_size`: the bytes of one pixel. -/
def _renoir_pixelformat_to_size : RENOIR_PIXELFORMAT → Int
  | .RENOIR_PIXELFORMAT_RGBA8 => 4
  | .RENOIR_PIXELFORMAT_D32 => 4
  | .RENOIR_PIXELFORMAT_R32F => 4
  | .RENOIR_PIXELFORMAT_D24S8 => 4
  | .RENOIR_PIXELFORMAT_R16I => 2
  | .RENOIR_PIXELFORMAT_R16F => 2
  | .RENOIR_PIXELFORMAT_R32G32F => 8
  | .RENOIR_PIXELFORMAT_R8 => 1

/-- The number of bytes the case `RENOIR_COMMAND_KIND_TEXTURE_WRITE` reads at `desc.bytes`
(Renoir-dx11.cpp:1853): `desc.bytes_size` for a 1D texture; for a 2D texture `desc.height`
rows of `desc.width * dx_pixel_size` bytes, one after the other (`read_ptr` advances by the
length of a row); for a 3D texture `desc.depth` times as many.  The loop counters are
`size_t`, the length of a row is an `int` product handed to `memcpy`. -/
def texture_write_size (t : Texture_Members) (width height depth : Int) (bytes_size : Nat) :
    Nat :=
  let dx_pixel_size := _renoir_pixelformat_to_size t.pixel_format
  if t.texture1d.isSome then bytes_size
  else if t.texture2d.isSome then
    to_size_t height * to_size_t (wrap_int (width * dx_pixel_size))
  else if t.texture3d.isSome then
    to_size_t depth * (to_size_t height * to_size_t (wrap_int (width * dx_pixel_size)))
  else 0

/-- Case `RENOIR_COMMAND_KIND_TEXTURE_WRITE` (Renoir-dx11.cpp:1846): the rows of the edited
region are copied from the block at `desc.bytes` into the mapped staging texture of the
1D, 2D or 3D texture; a handle without native texture is left alone.  `args` is the edited
region `[x, y, z, width, height, depth]` of the record.  The bytes read are the first
`texture_write_size` bytes at `desc.bytes` (a read past the end of the block sees the
bytes of the block only); where each row lands in the texture is not modelled. -/
def execute_texture_write (self : IRenoir) (h : Nat) (args : List Int) (bytes : Block) :
    IRenoir :=
  let t := (self.handles h).texture
  if t.texture1d.isSome ∨ t.texture2d.isSome ∨ t.texture3d.isSome then
    emit (device_upload self bytes.ptr
        (texture_write_size t (args.getD 3 0) (args.getD 4 0) (args.getD 5 0) bytes.size))
      (Event.device .RENOIR_COMMAND_KIND_TEXTURE_WRITE)
  else self

/-- Renoir-dx11.cpp:923 `_renoir_dx11_command_execute`.  The result is `none` when the
call does not return: a null handle pointer is dereferenced, the `default` label is reached
(`assert(false && "unreachable")`), or a list walk runs out of fuel. -/
def _renoir_dx11_command_execute (fuel : Nat) (self : IRenoir) (command : Nat) :
    Option IRenoir :=
  let c := self.commands command
  let self := emit self (Event.command_execute command c)
  match c.kind with
  | .RENOIR_COMMAND_KIND_INIT => some self
  | .RENOIR_COMMAND_KIND_SWAPCHAIN_NEW =>
    c.handle.map fun h => _internal_renoir_dx11_swapchain_new self h
  | .RENOIR_COMMAND_KIND_SWAPCHAIN_FREE =>
    c.handle.map fun h => execute_swapchain_free self h
  | .RENOIR_COMMAND_KIND_SWAPCHAIN_RESIZE =>
    c.handle.map fun h =>
      execute_swapchain_resize self h c.width c.height
  | .RENOIR_COMMAND_KIND_PASS_SWAPCHAIN_NEW =>
    c.handle.map fun h =>
      set_handle self h
        { self.handles h with pass := { (self.handles h).pass with swapchain := c.swapchain } }
  | .RENOIR_COMMAND_KIND_PASS_OFFSCREEN_NEW =>
    c.handle.map fun h => execute_pass_offscreen_new self h c.offscreen
  | .RENOIR_COMMAND_KIND_PASS_FREE =>
    c.handle.bind fun h => execute_pass_free fuel self command h
  | .RENOIR_COMMAND_KIND_BUFFER_NEW =>
    c.handle.map fun h => execute_buffer_new self h c.buffer_desc
  | .RENOIR_COMMAND_KIND_BUFFER_FREE =>
    c.handle.map fun h => execute_buffer_free self h
  | .RENOIR_COMMAND_KIND_TEXTURE_NEW =>
    c.handle.map fun h => execute_texture_new self h c.texture_desc
  | .RENOIR_COMMAND_KIND_TEXTURE_FREE =>
    c.handle.map fun h => execute_texture_free self h
  | .RENOIR_COMMAND_KIND_SAMPLER_NEW =>
    c.handle.map fun h => execute_sampler_new self h c.sampler_desc
  | .RENOIR_COMMAND_KIND_SAMPLER_FREE =>
    c.handle.map fun h => execute_sampler_free self h
  | .RENOIR_COMMAND_KIND_PROGRAM_NEW =>
    c.handle.map fun h => execute_program_new self h c.program_desc
  | .RENOIR_COMMAND_KIND_PROGRAM_FREE =>
    c.handle.map fun h => execute_program_free self h
  | .RENOIR_COMMAND_KIND_COMPUTE_NEW =>
    c.handle.map fun h => execute_compute_new self h c.program_desc
  | .RENOIR_COMMAND_KIND_COMPUTE_FREE =>
    c.handle.map fun h => execute_compute_free self h
  | .RENOIR_COMMAND_KIND_PIPELINE_NEW =>
    c.handle.map fun h => execute_pipeline_new self h
  | .RENOIR_COMMAND_KIND_PIPELINE_FREE =>
    c.handle.map fun h => execute_pipeline_free self h
  | .RENOIR_COMMAND_KIND_PASS_BEGIN =>
    c.handle.map fun h =>
      emit { self with current_pass := some h } (Event.device .RENOIR_COMMAND_KIND_PASS_BEGIN)
  | .RENOIR_COMMAND_KIND_PASS_END =>
    c.handle.map fun _ => emit self (Event.device .RENOIR_COMMAND_KIND_PASS_END)
  | .RENOIR_COMMAND_KIND_PASS_CLEAR =>
    if c.clear_color ∨ c.clear_depth then
      self.current_pass.map fun _ => emit self (Event.device .RENOIR_COMMAND_KIND_PASS_CLEAR)
    else some self
  | .RENOIR_COMMAND_KIND_USE_PIPELINE =>
    c.handle.map fun h =>
      emit { self with current_pipeline := some h }
        (Event.device .RENOIR_COMMAND_KIND_USE_PIPELINE)
  | .RENOIR_COMMAND_KIND_USE_PROGRAM =>
    c.handle.map fun h =>
      emit { self with current_program := some h }
        (Event.device .RENOIR_COMMAND_KIND_USE_PROGRAM)
  | .RENOIR_COMMAND_KIND_SCISSOR => some (emit self (Event.device .RENOIR_COMMAND_KIND_SCISSOR))
  | .RENOIR_COMMAND_KIND_BUFFER_WRITE =>
    c.handle.map fun _ =>
      emit (device_upload self c.bytes.ptr c.bytes.size)
        (Event.device .RENOIR_COMMAND_KIND_BUFFER_WRITE)
  | .RENOIR_COMMAND_KIND_TEXTURE_WRITE =>
    c.handle.map fun h => execute_texture_write self h c.args c.bytes
  | .RENOIR_COMMAND_KIND_BUFFER_READ =>
    c.handle.map fun _ => emit self (Event.device .RENOIR_COMMAND_KIND_BUFFER_READ)
  | .RENOIR_COMMAND_KIND_TEXTURE_READ =>
    c.handle.map fun _ => emit self (Event.device .RENOIR_COMMAND_KIND_TEXTURE_READ)
  | .RENOIR_COMMAND_KIND_BUFFER_BIND =>
    c.handle.map fun _ => emit self (Event.device .RENOIR_COMMAND_KIND_BUFFER_BIND)
  | .RENOIR_COMMAND_KIND_TEXTURE_BIND =>
    c.handle.bind fun _ =>
      c.sampler.map fun _ => emit self (Event.device .RENOIR_COMMAND_KIND_TEXTURE_BIND)
  | .RENOIR_COMMAND_KIND_DRAW => execute_draw self
  | .RENOIR_COMMAND_KIND_NONE => none

/-- Renoir-dx11.cpp:761. -/
def _renoir_dx11_command_process (fuel : Nat) (self : IRenoir) (command : Nat) :
    Option IRenoir :=
  let self := emit self (Event.command_process command (self.commands command))
  if self.settings.defer_api_calls then
    some (command_push_self self command)
  else
    match _renoir_dx11_command_execute fuel self command with
    | none => none
    | some self => some (_renoir_dx11_command_free self command)

/-- Renoir-dx11.cpp:2188. -/
def _renoir_dx11_sampler_new (fuel : Nat) (self : IRenoir) (desc : Renoir_Sampler_Desc) :
    Option (Nat × IRenoir) :=
  let rh := _renoir_dx11_handle_new self .RENOIR_HANDLE_KIND_SAMPLER
  let rc := _renoir_dx11_command_new rh.2 .RENOIR_COMMAND_KIND_SAMPLER_NEW
  let self := set_command rc.2 rc.1
    { rc.2.commands rc.1 with handle := some rh.1, sampler_desc := desc }
  (_renoir_dx11_command_process fuel self rc.1).map fun self => (rh.1, self)

/-- Renoir-dx11.cpp:2199. -/
def _renoir_dx11_sampler_free (fuel : Nat) (self : IRenoir) (h : Ptr) : Option IRenoir :=
  let rc := _renoir_dx11_command_new self .RENOIR_COMMAND_KIND_SAMPLER_FREE
  let self := set_command rc.2 rc.1 { rc.2.commands rc.1 with handle := h }
  _renoir_dx11_command_process fuel self rc.1

/-- The scan loop of `_renoir_dx11_sampler_get` (Renoir-dx11.cpp:2228), started at slot `i`
with the slots from `i` on; `count` is `self->sampler_cache.count`.  The result is the pair
`(best_ix, first_empty_ix)` the loop leaves behind. -/
def sampler_scan (handles : Nat → Renoir_Handle) (desc : Renoir_Sampler_Desc) (count : Nat) :
    List Ptr → Nat → Nat → Nat × Nat
  | [], _, first_empty_ix => (count, first_empty_ix)
  | none :: rest, i, first_empty_ix =>
    sampler_scan handles desc count rest (i + 1)
      (if first_empty_ix = count then i else first_empty_ix)
  | some hsampler :: rest, i, first_empty_ix =>
    if desc.op_eq (handles hsampler).sampler.desc then (i, first_empty_ix)
    else sampler_scan handles desc count rest (i + 1) first_empty_ix

/-- The reorder loops of `_renoir_dx11_sampler_get` (Renoir-dx11.cpp:2250 with
`bound = best_ix`, Renoir-dx11.cpp:2266 with `bound = self->sampler_cache.count`):
`for (size_t i = 0; i + 1 < bound; ++i) { auto index = bound - i - 1;
cache[index] = cache[index - 1]; }`. -/
def sampler_shift (bound : Nat) (cache : List Ptr) : List Ptr :=
  (List.range (bound - 1)).foldl
    (fun cache i => cache.set (bound - i - 1) (cache.getD (bound - i - 1 - 1) none)) cache

/-- Renoir-dx11.cpp:2223. -/
def _renoir_dx11_sampler_get (fuel : Nat) (self : IRenoir) (desc : Renoir_Sampler_Desc) :
    Option (Ptr × IRenoir) :=
  let count := self.sampler_cache.length
  let scan := sampler_scan self.handles desc count self.sampler_cache 0 count
  let best_ix := scan.1
  let first_empty_ix := scan.2
  if best_ix < count then
    let res := self.sampler_cache.getD best_ix none
    let cache := sampler_shift best_ix self.sampler_cache
    some (res, { self with sampler_cache := cache.set 0 res })
  else
    let evicted : Option (Nat × IRenoir) :=
      if first_empty_ix = count then
        let to_be_evicted := self.sampler_cache.getD (count - 1) none
        let self := { self with sampler_cache := sampler_shift count self.sampler_cache }
        (_renoir_dx11_sampler_free fuel self to_be_evicted).map fun self => (0, self)
      else some (first_empty_ix, self)
    match evicted with
    | none => none
    | some (sampler_ix, self) =>
      match _renoir_dx11_sampler_new fuel self desc with
      | none => none
      | some (sampler, self) =>
        some (some sampler,
          { self with sampler_cache := self.sampler_cache.set sampler_ix (some sampler) })

/-- Renoir-dx11.cpp:2282 `_renoir_dx11_init`, after the native device has been obtained;
`sampler_cache_size` is the constant `RENOIR_CONSTANT_SAMPLER_CACHE_SIZE`, which the
sources only require to be positive. -/
def _renoir_dx11_init (fuel : Nat) (sampler_cache_size : Nat) (settings : Renoir_Settings) :
    Option IRenoir :=
  let self : IRenoir :=
    { handle_pool := pool_new, command_pool := pool_new, settings := settings,
      sampler_cache := List.replicate sampler_cache_size none }
  let r := _renoir_dx11_command_new self .RENOIR_COMMAND_KIND_INIT
  _renoir_dx11_command_process fuel r.2 r.1

/-- The drain loop `for(auto it = head; it != nullptr; it = it->next) { execute(it);
free(it); }` of flush, swapchain_present and pass_end (Renoir-dx11.cpp:2393). -/
def drain : Nat → IRenoir → Ptr → Option IRenoir
  | _, self, none => some self
  | 0, _, some _ => none
  | fuel + 1, self, some it =>
    match _renoir_dx11_command_execute fuel self it with
    | none => none
    | some self =>
      let self := _renoir_dx11_command_free self it
      drain fuel self (self.commands it).next

/-- Renoir-dx11.cpp:2384. -/
def _renoir_dx11_flush (fuel : Nat) (self : IRenoir) : Option IRenoir :=
  (drain fuel self self.command_list_head).map fun self =>
    { self with command_list_head := none, command_list_tail := none }

/-- Renoir-dx11.cpp:2452. -/
def _renoir_dx11_swapchain_present (fuel : Nat) (self : IRenoir) (h : Nat) : Option IRenoir :=
  (drain fuel self self.command_list_head).map fun self =>
    emit { self with command_list_head := none, command_list_tail := none }
      (Event.present (self.handles h).swapchain.swapchain)

/-- Renoir-dx11.cpp:2533 `_renoir_dx11_texture_new`; `none` when an assertion on the
description fails.  In deferred mode the initial data is copied into a block of its own. -/
def _renoir_dx11_texture_new (fuel : Nat) (self : IRenoir) (desc : Renoir_Texture_Desc) :
    Option (Nat × IRenoir) :=
  let desc : Renoir_Texture_Desc :=
    if desc.usage = .RENOIR_USAGE_NONE then { desc with usage := .RENOIR_USAGE_STATIC } else desc
  if desc.usage = .RENOIR_USAGE_DYNAMIC ∧ desc.access = .RENOIR_ACCESS_NONE then none
  else if desc.render_target = false ∧ desc.usage = .RENOIR_USAGE_STATIC ∧ desc.data = none then
    none
  else
    let rh := _renoir_dx11_handle_new self .RENOIR_HANDLE_KIND_TEXTURE
    let rc := _renoir_dx11_command_new rh.2 .RENOIR_COMMAND_KIND_TEXTURE_NEW
    let self := set_command rc.2 rc.1
      { rc.2.commands rc.1 with handle := some rh.1, texture_desc := desc }
    let copied : Option IRenoir :=
      if self.settings.defer_api_calls ∧ desc.data.isSome then
        let b := mn_alloc self desc.data_size
        let self := set_command b.2 rc.1
          { b.2.commands rc.1 with
            texture_desc := { (b.2.commands rc.1).texture_desc with data := b.1.ptr } }
        (memcpy self b.1.ptr desc.data desc.data_size).map fun self =>
          set_command self rc.1 { self.commands rc.1 with owns_data := true }
      else some self
    copied.bind fun self =>
      (_renoir_dx11_command_process fuel self rc.1).map fun self => (rh.1, self)

/-- Renoir-dx11.cpp:2571. -/
def _renoir_dx11_texture_free (fuel : Nat) (self : IRenoir) (h : Nat) : Option IRenoir :=
  let rc := _renoir_dx11_command_new self .RENOIR_COMMAND_KIND_TEXTURE_FREE
  let self := set_command rc.2 rc.1 { rc.2.commands rc.1 with handle := some h }
  _renoir_dx11_command_process fuel self rc.1

/-- The size assertions of `_renoir_dx11_pass_offscreen_new` (Renoir-dx11.cpp:2848): all
attachments must agree on width and height.  The result is `true` when no assertion
fails. -/
def offscreen_sizes_agree (handles : Nat → Renoir_Handle) (desc : Renoir_Pass_Offscreen_Desc) :
    Bool :=
  let r := (List.range RENOIR_CONSTANT_COLOR_ATTACHMENT_SIZE).foldl
    (fun (acc : Renoir_Size × Bool) i =>
      match (desc.color.getD i {}).handle with
      | none => acc
      | some h =>
        if acc.1.width = -1 then ((handles h).texture.size, acc.2)
        else (acc.1, acc.2 && decide (acc.1.width = (handles h).texture.size.width ∧
                                        acc.1.height = (handles h).texture.size.height)))
    (({ width := -1, height := -1, depth := -1 } : Renoir_Size), true)
  match desc.depth_stencil.handle with
  | none => r.2
  | some h =>
    if r.1.width ≠ -1 then
      r.2 && decide (r.1.width = (handles h).texture.size.width ∧
                      r.1.height = (handles h).texture.size.height)
    else r.2

/-- Renoir-dx11.cpp:2843. -/
def _renoir_dx11_pass_offscreen_new (fuel : Nat) (self : IRenoir)
    (desc : Renoir_Pass_Offscreen_Desc) : Option (Nat × IRenoir) :=
  if offscreen_sizes_agree self.handles desc = false then none
  else
    let rh := _renoir_dx11_handle_new self .RENOIR_HANDLE_KIND_PASS
    let rc := _renoir_dx11_command_new rh.2 .RENOIR_COMMAND_KIND_PASS_OFFSCREEN_NEW
    let self := set_command rc.2 rc.1
      { rc.2.commands rc.1 with handle := some rh.1, offscreen := desc }
    (_renoir_dx11_command_process fuel self rc.1).map fun self => (rh.1, self)

/-- Renoir-dx11.cpp:2885. -/
def _renoir_dx11_pass_free (fuel : Nat) (self : IRenoir) (h : Nat) : Option IRenoir :=
  let rc := _renoir_dx11_command_new self .RENOIR_COMMAND_KIND_PASS_FREE
  let self := set_command rc.2 rc.1 { rc.2.commands rc.1 with handle := some h }
  _renoir_dx11_command_process fuel self rc.1

/-- Renoir-dx11.cpp:2920. -/
def _renoir_dx11_pass_begin (self : IRenoir) (h : Nat) : IRenoir :=
  let self := set_handle self h
    { self.handles h with
      pass := { (self.handles h).pass with command_list_head := none,
                                           command_list_tail := none } }
  let rc := _renoir_dx11_command_new self .RENOIR_COMMAND_KIND_PASS_BEGIN
  let self := set_command rc.2 rc.1 { rc.2.commands rc.1 with handle := some h }
  command_push_pass self h rc.1

/-- Renoir-dx11.cpp:2477 `_renoir_dx11_buffer_new`; `none` when an assertion on the
description fails.  In deferred mode initial data is copied into a block of its own. -/
def _renoir_dx11_buffer_new (fuel : Nat) (self : IRenoir) (desc : Renoir_Buffer_Desc) :
    Option (Nat × IRenoir) :=
  let desc : Renoir_Buffer_Desc :=
    if desc.usage = .RENOIR_USAGE_NONE then { desc with usage := .RENOIR_USAGE_STATIC } else desc
  if desc.usage = .RENOIR_USAGE_DYNAMIC ∧ desc.access = .RENOIR_ACCESS_NONE then none
  else if desc.usage = .RENOIR_USAGE_STATIC ∧ desc.data = none then none
  else if desc.type = RENOIR_BUFFER_UNIFORM ∧ desc.data_size % 16 ≠ 0 then none
  else
    let rh := _renoir_dx11_handle_new self .RENOIR_HANDLE_KIND_BUFFER
    let rc := _renoir_dx11_command_new rh.2 .RENOIR_COMMAND_KIND_BUFFER_NEW
    let self := set_command rc.2 rc.1
      { rc.2.commands rc.1 with handle := some rh.1, buffer_desc := desc }
    let copied : Option IRenoir :=
      if self.settings.defer_api_calls ∧ desc.data.isSome then
        let b := mn_alloc self desc.data_size
        let self := set_command b.2 rc.1
          { b.2.commands rc.1 with
            buffer_desc := { (b.2.commands rc.1).buffer_desc with data := b.1.ptr } }
        (memcpy self b.1.ptr desc.data desc.data_size).map fun self =>
          set_command self rc.1 { self.commands rc.1 with owns_data := true }
      else some self
    copied.bind fun self =>
      (_renoir_dx11_command_process fuel self rc.1).map fun self => (rh.1, self)

/-- The `strlen` defaults of `program_new` and `compute_new`: a source given with size 0 is
a zero-terminated string. -/
def blob_sized (heap : Nat → List Nat) (b : Block) : Block :=
  if b.size = 0 then { b with size := strlen heap b.ptr } else b

/-- The deep copy of one shader source: `bytes = mn::alloc(size); memcpy(bytes, src, size)`.
The result is the block of the copy and the context. -/
def blob_copy (self : IRenoir) (b : Block) : Option (Block × IRenoir) :=
  let r := mn_alloc self b.size
  (memcpy r.2 r.1.ptr b.ptr b.size).map fun self => ({ b with ptr := r.1.ptr }, self)

/-- Renoir-dx11.cpp:2675 `_renoir_dx11_program_new`. -/
def _renoir_dx11_program_new (fuel : Nat) (self : IRenoir) (desc : Renoir_Program_Desc) :
    Option (Nat × IRenoir) :=
  if desc.vertex.ptr = none ∨ desc.pixel.ptr = none then none
  else
    let desc := { desc with vertex := blob_sized self.heap desc.vertex }
    let desc := { desc with pixel := blob_sized self.heap desc.pixel }
    let desc :=
      if desc.geometry.ptr.isSome then { desc with geometry := blob_sized self.heap desc.geometry }
      else desc
    let rh := _renoir_dx11_handle_new self .RENOIR_HANDLE_KIND_PROGRAM
    let rc := _renoir_dx11_command_new rh.2 .RENOIR_COMMAND_KIND_PROGRAM_NEW
    let self := set_command rc.2 rc.1
      { rc.2.commands rc.1 with handle := some rh.1, program_desc := desc }
    let copied : Option IRenoir :=
      if self.settings.defer_api_calls then
        (blob_copy self desc.vertex).bind fun v =>
        let self := set_command v.2 rc.1
          { v.2.commands rc.1 with
            program_desc := { (v.2.commands rc.1).program_desc with vertex := v.1 } }
        (blob_copy self desc.pixel).bind fun p =>
        let self := set_command p.2 rc.1
          { p.2.commands rc.1 with
            program_desc := { (p.2.commands rc.1).program_desc with pixel := p.1 } }
        let geometry : Option IRenoir :=
          if (self.commands rc.1).program_desc.geometry.ptr.isSome then
            (blob_copy self desc.geometry).map fun g =>
              set_command g.2 rc.1
                { g.2.commands rc.1 with
                  program_desc := { (g.2.commands rc.1).program_desc with geometry := g.1 } }
          else some self
        geometry.map fun self =>
          set_command self rc.1 { self.commands rc.1 with owns_data := true }
      else some self
    copied.bind fun self =>
      (_renoir_dx11_command_process fuel self rc.1).map fun self => (rh.1, self)

/-- Renoir-dx11.cpp:2729 `_renoir_dx11_compute_new`.  The last statement of the deferred
branch is `command->program_new.owns_data = true;`. -/
def _renoir_dx11_compute_new (fuel : Nat) (self : IRenoir) (compute : Block) :
    Option (Nat × IRenoir) :=
  if compute.ptr = none then none
  else
    let compute := blob_sized self.heap compute
    let rh := _renoir_dx11_handle_new self .RENOIR_HANDLE_KIND_COMPUTE
    let rc := _renoir_dx11_command_new rh.2 .RENOIR_COMMAND_KIND_COMPUTE_NEW
    let self := set_command rc.2 rc.1
      { rc.2.commands rc.1 with
        handle := some rh.1,
        program_desc := { (rc.2.commands rc.1).program_desc with compute := compute } }
    let copied : Option IRenoir :=
      if self.settings.defer_api_calls then
        (blob_copy self compute).map fun b =>
          let self := set_command b.2 rc.1
            { b.2.commands rc.1 with
              program_desc := { (b.2.commands rc.1).program_desc with compute := b.1 } }
          set_command self rc.1 { self.commands rc.1 with owns_data := true }
      else some self
    copied.bind fun self =>
      (_renoir_dx11_command_process fuel self rc.1).map fun self => (rh.1, self)

/-- Renoir-dx11.cpp:2936 `_renoir_dx11_pass_end`. -/
def _renoir_dx11_pass_end (fuel : Nat) (self : IRenoir) (h : Nat) : Option IRenoir :=
  let ended : Option IRenoir :=
    if (self.handles h).pass.command_list_head ≠ none then
      let rc := _renoir_dx11_command_new self .RENOIR_COMMAND_KIND_PASS_END
      let self := set_command rc.2 rc.1 { rc.2.commands rc.1 with handle := some h }
      let self := command_push_pass self h rc.1
      if self.settings.defer_api_calls then
        match self.command_list_tail with
        | none =>
          some { self with command_list_head := (self.handles h).pass.command_list_head,
                           command_list_tail := (self.handles h).pass.command_list_tail }
        | some tail =>
          some { self with
                 commands := write self.commands tail
                   { self.commands tail with next := (self.handles h).pass.command_list_head },
                 command_list_tail := (self.handles h).pass.command_list_tail }
      else drain fuel self (self.handles h).pass.command_list_head
    else some self
  ended.map fun self =>
    set_handle self h
      { self.handles h with
        pass := { (self.handles h).pass with command_list_head := none,
                                             command_list_tail := none } }

/-- Renoir-dx11.cpp:2980. -/
def _renoir_dx11_clear (self : IRenoir) (h : Nat) (desc : Renoir_Clear_Desc) : IRenoir :=
  let rc := _renoir_dx11_command_new self .RENOIR_COMMAND_KIND_PASS_CLEAR
  let self := set_command rc.2 rc.1
    { rc.2.commands rc.1 with clear_color := desc.clear_color, clear_depth := desc.clear_depth }
  command_push_pass self h rc.1

/-- Renoir-dx11.cpp:2994. -/
def _renoir_dx11_use_pipeline (self : IRenoir) (h : Nat) (pipeline : Ptr) : IRenoir :=
  let rc := _renoir_dx11_command_new self .RENOIR_COMMAND_KIND_USE_PIPELINE
  let self := set_command rc.2 rc.1 { rc.2.commands rc.1 with handle := pipeline }
  command_push_pass self h rc.1

/-- Renoir-dx11.cpp:3008. -/
def _renoir_dx11_use_program (self : IRenoir) (h : Nat) (program : Ptr) : IRenoir :=
  let rc := _renoir_dx11_command_new self .RENOIR_COMMAND_KIND_USE_PROGRAM
  let self := set_command rc.2 rc.1 { rc.2.commands rc.1 with handle := program }
  command_push_pass self h rc.1

/-- Renoir-dx11.cpp:3022. -/
def _renoir_dx11_scissor (self : IRenoir) (h : Nat) (x y width height : Int) : IRenoir :=
  let rc := _renoir_dx11_command_new self .RENOIR_COMMAND_KIND_SCISSOR
  let self := set_command rc.2 rc.1 { rc.2.commands rc.1 with args := [x, y, width, height] }
  command_push_pass self h rc.1

/-- Renoir-dx11.cpp:3039 `_renoir_dx11_buffer_write`: nothing happens for `bytes_size = 0`;
otherwise the bytes are copied into a block the record owns.  (The assertion of the source
reads a buffer member of the pass handle and is left out.) -/
def _renoir_dx11_buffer_write (self : IRenoir) (h : Nat) (buffer : Ptr) (offset : Nat)
    (bytes : Ptr) (bytes_size : Nat) : Option IRenoir :=
  if bytes_size = 0 then some self
  else
    let rc := _renoir_dx11_command_new self .RENOIR_COMMAND_KIND_BUFFER_WRITE
    let b := mn_alloc rc.2 bytes_size
    let self := set_command b.2 rc.1
      { b.2.commands rc.1 with handle := buffer, args := [(offset : Int)], bytes := b.1 }
    (memcpy self b.1.ptr bytes bytes_size).map fun self => command_push_pass self h rc.1

/-- Renoir-dx11.cpp:3064 `_renoir_dx11_texture_write`: nothing happens for
`desc.bytes_size = 0`; otherwise the bytes are copied into a block the record owns.  (The
assertion of the source reads a texture member of the pass handle and is left out.) -/
def _renoir_dx11_texture_write (self : IRenoir) (h : Nat) (texture : Ptr)
    (desc : Renoir_Texture_Edit_Desc) : Option IRenoir :=
  if desc.bytes_size = 0 then some self
  else
    let rc := _renoir_dx11_command_new self .RENOIR_COMMAND_KIND_TEXTURE_WRITE
    let self := set_command rc.2 rc.1
      { rc.2.commands rc.1 with
        handle := texture,
        args := [desc.x, desc.y, desc.z, desc.width, desc.height, desc.depth],
        bytes := ⟨desc.bytes, desc.bytes_size⟩ }
    let b := mn_alloc self desc.bytes_size
    let self := set_command b.2 rc.1
      { b.2.commands rc.1 with bytes := { (b.2.commands rc.1).bytes with ptr := b.1.ptr } }
    (memcpy self b.1.ptr desc.bytes desc.bytes_size).map fun self =>
      command_push_pass self h rc.1

/-- Renoir-dx11.cpp:3128. -/
def _renoir_dx11_buffer_bind (self : IRenoir) (h : Nat) (buffer : Ptr) (shader slot : Int) :
    IRenoir :=
  let rc := _renoir_dx11_command_new self .RENOIR_COMMAND_KIND_BUFFER_BIND
  let self := set_command rc.2 rc.1
    { rc.2.commands rc.1 with handle := buffer, args := [shader, slot] }
  command_push_pass self h rc.1

/-- Renoir-dx11.cpp:3145 `_renoir_dx11_texture_bind`: the sampler comes from the sampler
cache, looked up by the default sampler description of the texture; `none` when the texture
handle is null or the lookup does not return. -/
def _renoir_dx11_texture_bind (fuel : Nat) (self : IRenoir) (h : Nat) (texture : Ptr)
    (shader slot : Int) : Option IRenoir :=
  texture.bind fun htex =>
    (_renoir_dx11_sampler_get fuel self (self.handles htex).texture.default_sampler_desc).map
      fun r =>
        let rc := _renoir_dx11_command_new r.2 .RENOIR_COMMAND_KIND_TEXTURE_BIND
        let self := set_command rc.2 rc.1
          { rc.2.commands rc.1 with
            handle := some htex, args := [shader, slot], sampler := r.1 }
        command_push_pass self h rc.1

/-- Renoir-dx11.cpp:3166 `_renoir_dx11_texture_sampler_bind`: as `texture_bind`, with the
sampler description given by the caller. -/
def _renoir_dx11_texture_sampler_bind (fuel : Nat) (self : IRenoir) (h : Nat) (texture : Ptr)
    (shader slot : Int) (sampler : Renoir_Sampler_Desc) : Option IRenoir :=
  (_renoir_dx11_sampler_get fuel self sampler).map fun r =>
    let rc := _renoir_dx11_command_new r.2 .RENOIR_COMMAND_KIND_TEXTURE_BIND
    let self := set_command rc.2 rc.1
      { rc.2.commands rc.1 with handle := texture, args := [shader, slot], sampler := r.1 }
    command_push_pass self h rc.1

/-- Renoir-dx11.cpp:3187. -/
def _renoir_dx11_draw (self : IRenoir) (h : Nat) (desc : Renoir_Draw_Desc) : IRenoir :=
  let rc := _renoir_dx11_command_new self .RENOIR_COMMAND_KIND_DRAW
  let self := set_command rc.2 rc.1 { rc.2.commands rc.1 with args := desc.members }
  command_push_pass self h rc.1

/-- The command records on a list, in order, read by following `next` from `it`; `none`
when the end is not reached within `fuel` records. -/
def list_records (commands : Nat → Renoir_Command) : Nat → Ptr → Option (List Nat)
  | _, none => some []
  | 0, some _ => none
  | fuel + 1, some it => (list_records commands fuel (commands it).next).map fun l => it :: l

/-- The trace restricted to the calls of `_renoir_dx11_command_execute`: which records
were executed, in order, and what they held. -/
def executed (trace : List Event) : List (Nat × Renoir_Command) :=
  trace.filterMap fun e =>
    match e with
    | .command_execute command record => some (command, record)
    | _ => none

/-- The trace restricted to the calls of `_renoir_dx11_command_free`. -/
def freed (trace : List Event) : List (Nat × Renoir_Command) :=
  trace.filterMap fun e =>
    match e with
    | .command_free command record => some (command, record)
    | _ => none

/-- The bytes the device read from host memory, in order. -/
def uploads (trace : List Event) : List (List Nat) :=
  trace.filterMap fun e =>
    match e with
    | .upload bytes => some bytes
    | _ => none

/-- The trace restricted to the calls of `_renoir_dx11_command_process`: the commands
issued, in order. -/
def issued (trace : List Event) : List Renoir_Command :=
  trace.filterMap fun e =>
    match e with
    | .command_process _ record => some record
    | _ => none

/-- The description the native sampler state `object` was created from. -/
def sampler_state_desc (trace : List Event) (object : Nat) : Option Renoir_Sampler_Desc :=
  trace.findSome? fun e =>
    match e with
    | .create_sampler_state desc o => if o = object then some desc else none
    | _ => none

/-- For every slot of the sampler cache, the description of the native sampler state its
handle holds (`none` for an empty slot, or while the sampler is not created yet). -/
def cache_descs (self : IRenoir) : List (Option Renoir_Sampler_Desc) :=
  self.sampler_cache.map fun p =>
    p.bind fun h => (self.handles h).sampler.sampler.bind (sampler_state_desc self.trace)

/-- The contents of the sampler cache by description, once the commands still pending on
the device-wide list are drained (in immediate mode nothing is pending). -/
def cache_contents (fuel : Nat) (self : IRenoir) :
    Option (List (Option Renoir_Sampler_Desc)) :=
  (_renoir_dx11_flush fuel self).map cache_descs

/-- A sequence of `_renoir_dx11_sampler_get` calls. -/
def sampler_requests (fuel : Nat) : IRenoir → List Renoir_Sampler_Desc → Option IRenoir
  | self, [] => some self
  | self, desc :: rest =>
    match _renoir_dx11_sampler_get fuel self desc with
    | none => none
    | some r => sampler_requests fuel r.2 rest

/-- A sequence of `_renoir_dx11_handle_ref` / `_renoir_dx11_handle_unref` calls on the
handle `h`. -/
def rc_calls (handles : Nat → Renoir_Handle) (h : Nat) : List Rc_Call → (Nat → Renoir_Handle)
  | [] => handles
  | .ref :: rest => rc_calls (_renoir_dx11_handle_ref handles h).2 h rest
  | .unref :: rest => rc_calls (_renoir_dx11_handle_unref handles h).2 h rest

/-- The `*_FREE` command kind of every resource kind. -/
def free_kind : RENOIR_HANDLE_KIND → RENOIR_COMMAND_KIND
  | .RENOIR_HANDLE_KIND_NONE => .RENOIR_COMMAND_KIND_NONE
  | .RENOIR_HANDLE_KIND_SWAPCHAIN => .RENOIR_COMMAND_KIND_SWAPCHAIN_FREE
  | .RENOIR_HANDLE_KIND_PASS => .RENOIR_COMMAND_KIND_PASS_FREE
  | .RENOIR_HANDLE_KIND_BUFFER => .RENOIR_COMMAND_KIND_BUFFER_FREE
  | .RENOIR_HANDLE_KIND_TEXTURE => .RENOIR_COMMAND_KIND_TEXTURE_FREE
  | .RENOIR_HANDLE_KIND_SAMPLER => .RENOIR_COMMAND_KIND_SAMPLER_FREE
  | .RENOIR_HANDLE_KIND_PROGRAM => .RENOIR_COMMAND_KIND_PROGRAM_FREE
  | .RENOIR_HANDLE_KIND_COMPUTE => .RENOIR_COMMAND_KIND_COMPUTE_FREE
  | .RENOIR_HANDLE_KIND_PIPELINE => .RENOIR_COMMAND_KIND_PIPELINE_FREE

/-- A sequence of `handle_ref` calls on the handle `h` and executions of the command
record `command`. -/
def life_calls (fuel : Nat) (command h : Nat) : IRenoir → List Life_Call → Option IRenoir
  | self, [] => some self
  | self, .ref :: rest =>
    life_calls fuel command h
      { self with handles := (_renoir_dx11_handle_ref self.handles h).2 } rest
  | self, .free :: rest =>
    match _renoir_dx11_command_execute fuel self command with
    | none => none
    | some self => life_calls fuel command h self rest

/-- How often the slot of handle `h` was returned to the handle pool. -/
def teardowns (trace : List Event) (h : Nat) : Nat := trace.count (Event.handle_free h)

/-- The contents of the sampler cache by description after a sequence of requests on a
fresh context whose cache has `size` slots. -/
def contents_after (fuel : Nat) (settings : Renoir_Settings) (size : Nat)
    (requests : List Renoir_Sampler_Desc) : Option (List (Option Renoir_Sampler_Desc)) :=
  ((_renoir_dx11_init fuel size settings).bind fun self =>
    sampler_requests fuel self requests).bind (cache_contents fuel)

/-- The handles returned by a sequence of `_renoir_dx11_sampler_get` calls, with the final
context. -/
def sampler_handles (fuel : Nat) : IRenoir → List Renoir_Sampler_Desc →
    Option (List Ptr × IRenoir)
  | self, [] => some ([], self)
  | self, desc :: rest =>
    match _renoir_dx11_sampler_get fuel self desc with
    | none => none
    | some r => (sampler_handles fuel r.2 rest).map fun q => (r.1 :: q.1, q.2)

/-- The number of `SAMPLER_NEW` commands issued in a trace. -/
def sampler_news (trace : List Event) : Nat :=
  ((issued trace).filter fun c => c.kind = .RENOIR_COMMAND_KIND_SAMPLER_NEW).length

/-- A sequence of requests on a fresh context: the handles returned, the number of
`SAMPLER_NEW` commands issued, and, once everything pending is drained, the description
from which the native sampler state of the handle returned last was created. -/
def request_log (fuel : Nat) (settings : Renoir_Settings) (size : Nat)
    (requests : List Renoir_Sampler_Desc) :
    Option (List Ptr × Nat × Option Renoir_Sampler_Desc) :=
  (_renoir_dx11_init fuel size settings).bind fun self =>
    (sampler_handles fuel self requests).bind fun r =>
      (_renoir_dx11_flush fuel r.2).map fun drained =>
        (r.1, sampler_news r.2.trace,
          r.1.getLast?.join.bind fun h =>
            (drained.handles h).sampler.sampler.bind (sampler_state_desc drained.trace))

/-- A context whose cache holds the sampler handles `0 .. size - 1`, handle `h` storing a
description with `filter = h + 1`. -/
def stored_cache (size : Nat) : IRenoir :=
  { sampler_cache := (List.range size).map some,
    handle_pool := { free := [], fresh := size },
    handles := fun h =>
      { kind := .RENOIR_HANDLE_KIND_SAMPLER, rc := 1,
        sampler := { sampler := some h, desc := { filter := h + 1 } } } }

/-- Deferred mode: a render-target texture becomes the colour attachment of an offscreen
pass and both are created by a flush; then `pass_begin`, `pass_free` and `texture_free`
are called.  The result is the context before the final flush and after it. -/
def pass_free_scenario (fuel : Nat) : Option (IRenoir × IRenoir) :=
  (_renoir_dx11_init fuel 2 { defer_api_calls := true }).bind fun self =>
  (_renoir_dx11_texture_new fuel self
    { size := { width := 4, height := 4 }, render_target := true }).bind fun t =>
  (_renoir_dx11_pass_offscreen_new fuel t.2 { color := [⟨some t.1⟩, {}, {}, {}] }).bind fun p =>
  (_renoir_dx11_flush fuel p.2).bind fun self =>
  (_renoir_dx11_pass_free fuel (_renoir_dx11_pass_begin self p.1) p.1).bind fun self =>
  (_renoir_dx11_texture_free fuel self t.1).bind fun before =>
  (_renoir_dx11_flush fuel before).map fun after => (before, after)

/-- Renoir-dx11.cpp:2402 `_renoir_dx11_swapchain_new`. -/
def _renoir_dx11_swapchain_new (fuel : Nat) (self : IRenoir) (width height : Int)
    (window : Ptr) : Option (Nat × IRenoir) :=
  let rh := _renoir_dx11_handle_new self .RENOIR_HANDLE_KIND_SWAPCHAIN
  let self := set_handle rh.2 rh.1
    { rh.2.handles rh.1 with
      swapchain := { (rh.2.handles rh.1).swapchain with
                     width := width, height := height, window := window } }
  let rc := _renoir_dx11_command_new self .RENOIR_COMMAND_KIND_SWAPCHAIN_NEW
  let self := set_command rc.2 rc.1 { rc.2.commands rc.1 with handle := some rh.1 }
  (_renoir_dx11_command_process fuel self rc.1).map fun self => (rh.1, self)

/-- D3D11, deferred mode: a swapchain and a sampler are created (with the `INIT` record
three records are queued), then `swapchain_present` is called twice with nothing issued in
between.  The result is the context after the first and after the second call. -/
def present_twice (fuel : Nat) : Option (IRenoir × IRenoir) :=
  (_renoir_dx11_init fuel 2 { defer_api_calls := true }).bind fun self =>
  (_renoir_dx11_swapchain_new fuel self 640 480 (some 0)).bind fun w =>
  (_renoir_dx11_sampler_new fuel w.2 {}).bind fun s =>
  (_renoir_dx11_swapchain_present fuel s.2 w.1).bind fun once =>
  (_renoir_dx11_swapchain_present fuel once w.1).map fun twice => (once, twice)

/-- The blocks `mn::alloc` returned, in order. -/
def allocated (trace : List Event) : List Block :=
  trace.filterMap fun e =>
    match e with
    | .mn_alloc b => some b
    | _ => none

/-- The blocks handed to `mn::free`, in order. -/
def released (trace : List Event) : List Block :=
  trace.filterMap fun e =>
    match e with
    | .mn_free b => some b
    | _ => none

/-- Deferred mode: the caller holds a three byte shader source in block 10 of the heap;
`compute_new` is called with it and the device-wide list is flushed. -/
def compute_new_scenario (fuel : Nat) : Option IRenoir :=
  (_renoir_dx11_init fuel 2 { defer_api_calls := true }).bind fun self =>
  (_renoir_dx11_compute_new fuel { self with heap := write self.heap 10 [99, 115, 0] }
    ⟨some 10, 3⟩).bind fun r =>
  _renoir_dx11_flush fuel r.2

/-- Deferred mode: the same source is given to `program_new` as vertex and as pixel shader,
and the device-wide list is flushed. -/
def program_new_scenario (fuel : Nat) : Option IRenoir :=
  (_renoir_dx11_init fuel 2 { defer_api_calls := true }).bind fun self =>
  (_renoir_dx11_program_new fuel { self with heap := write self.heap 10 [99, 115, 0] }
    { vertex := ⟨some 10, 3⟩, pixel := ⟨some 10, 3⟩ }).bind fun r =>
  _renoir_dx11_flush fuel r.2

/-- The linkage of a context: the `next` pointers, kinds and handles of its command records,
its command pool, its list pointers and the records it executed. -/
def links (s : IRenoir) : Links (RENOIR_COMMAND_KIND × Ptr) :=
  { next := fun a => (s.commands a).next,
    label := fun a => ((s.commands a).kind, (s.commands a).handle),
    pool := s.command_pool,
    head := s.command_list_head,
    tail := s.command_list_tail,
    phead := fun h => (s.handles h).pass.command_list_head,
    ptail := fun h => (s.handles h).pass.command_list_tail,
    log := (executed s.trace).map fun r => (r.1, (r.2.kind, r.2.handle)) }

/-- The kinds of the records the pass functions put on a private list. -/
def recordable : RENOIR_COMMAND_KIND → Bool
  | .RENOIR_COMMAND_KIND_PASS_BEGIN => true
  | .RENOIR_COMMAND_KIND_PASS_END => true
  | .RENOIR_COMMAND_KIND_PASS_CLEAR => true
  | .RENOIR_COMMAND_KIND_USE_PIPELINE => true
  | .RENOIR_COMMAND_KIND_USE_PROGRAM => true
  | .RENOIR_COMMAND_KIND_SCISSOR => true
  | .RENOIR_COMMAND_KIND_BUFFER_WRITE => true
  | .RENOIR_COMMAND_KIND_TEXTURE_WRITE => true
  | .RENOIR_COMMAND_KIND_BUFFER_BIND => true
  | .RENOIR_COMMAND_KIND_TEXTURE_BIND => true
  | .RENOIR_COMMAND_KIND_DRAW => true
  | _ => false

/-- The part of a context the recording functions and the drain loops read, the log
apart, is the same in `s` and `s'`: command records, pools, list pointers, sampler cache
and settings. -/
def same_lists (s s' : IRenoir) : Prop :=
  s'.commands = s.commands ∧ s'.command_pool = s.command_pool ∧
  s'.command_list_head = s.command_list_head ∧ s'.command_list_tail = s.command_list_tail ∧
  s'.handle_pool = s.handle_pool ∧ s'.sampler_cache = s.sampler_cache ∧
  s'.settings = s.settings ∧
  (∀ h, (s'.handles h).pass.command_list_head = (s.handles h).pass.command_list_head ∧
    (s'.handles h).pass.command_list_tail = (s.handles h).pass.command_list_tail)

/-- The records `l` are executed and freed one after the other, in the order of `l`. -/
def execute_in_order (fuel : Nat) : IRenoir → List Nat → Option IRenoir
  | s, [] => some s
  | s, c :: l =>
    match _renoir_dx11_command_execute fuel s c with
    | none => none
    | some s => execute_in_order fuel (_renoir_dx11_command_free s c) l

/-- A call of the pass interface. -/
inductive Pass_Call where
  | pass_begin
  | clear (desc : Renoir_Clear_Desc)
  | use_pipeline (pipeline : Ptr)
  | use_program (program : Ptr)
  | scissor (x y width height : Int)
  | buffer_write (buffer : Ptr) (offset : Nat) (bytes : Ptr) (bytes_size : Nat)
  | texture_write (texture : Ptr) (desc : Renoir_Texture_Edit_Desc)
  | buffer_bind (buffer : Ptr) (shader slot : Int)
  | texture_bind (texture : Ptr) (shader slot : Int)
  | texture_sampler_bind (texture : Ptr) (shader slot : Int) (sampler : Renoir_Sampler_Desc)
  | draw (desc : Renoir_Draw_Desc)
  | pass_end

/-- The call `call` on the pass `h`. -/
def pass_call (fuel : Nat) (s : IRenoir) (h : Nat) : Pass_Call → Option IRenoir
  | .pass_begin => some (_renoir_dx11_pass_begin s h)
  | .clear desc => some (_renoir_dx11_clear s h desc)
  | .use_pipeline pipeline => some (_renoir_dx11_use_pipeline s h pipeline)
  | .use_program program => some (_renoir_dx11_use_program s h program)
  | .scissor x y width height => some (_renoir_dx11_scissor s h x y width height)
  | .buffer_write buffer offset bytes bytes_size =>
    _renoir_dx11_buffer_write s h buffer offset bytes bytes_size
  | .texture_write texture desc => _renoir_dx11_texture_write s h texture desc
  | .buffer_bind buffer shader slot => some (_renoir_dx11_buffer_bind s h buffer shader slot)
  | .texture_bind texture shader slot => _renoir_dx11_texture_bind fuel s h texture shader slot
  | .texture_sampler_bind texture shader slot sampler =>
    _renoir_dx11_texture_sampler_bind fuel s h texture shader slot sampler
  | .draw desc => some (_renoir_dx11_draw s h desc)
  | .pass_end => _renoir_dx11_pass_end fuel s h

/-- A sequence of calls of the pass interface, each on its pass. -/
def pass_calls (fuel : Nat) : IRenoir → List (Nat × Pass_Call) → Option IRenoir
  | s, [] => some s
  | s, (h, call) :: rest =>
    match pass_call fuel s h call with
    | none => none
    | some s => pass_calls fuel s rest

/-- The kind and the handle of the record a recording call leaves on the private list
(`none` for `pass_begin` and `pass_end`, and for a write of zero bytes, which records
nothing). -/
def Pass_Call.label : Pass_Call → Option (RENOIR_COMMAND_KIND × Ptr)
  | .pass_begin => none
  | .clear _ => some (.RENOIR_COMMAND_KIND_PASS_CLEAR, none)
  | .use_pipeline pipeline => some (.RENOIR_COMMAND_KIND_USE_PIPELINE, pipeline)
  | .use_program program => some (.RENOIR_COMMAND_KIND_USE_PROGRAM, program)
  | .scissor _ _ _ _ => some (.RENOIR_COMMAND_KIND_SCISSOR, none)
  | .buffer_write buffer _ _ bytes_size =>
    if bytes_size = 0 then none else some (.RENOIR_COMMAND_KIND_BUFFER_WRITE, buffer)
  | .texture_write texture desc =>
    if desc.bytes_size = 0 then none else some (.RENOIR_COMMAND_KIND_TEXTURE_WRITE, texture)
  | .buffer_bind buffer _ _ => some (.RENOIR_COMMAND_KIND_BUFFER_BIND, buffer)
  | .texture_bind texture _ _ => some (.RENOIR_COMMAND_KIND_TEXTURE_BIND, texture)
  | .texture_sampler_bind texture _ _ _ => some (.RENOIR_COMMAND_KIND_TEXTURE_BIND, texture)
  | .draw _ => some (.RENOIR_COMMAND_KIND_DRAW, none)
  | .pass_end => none

/-- The call is one of the recording calls (not `pass_begin`, not `pass_end`). -/
def Pass_Call.recording : Pass_Call → Bool
  | .pass_begin => false
  | .pass_end => false
  | _ => true

/-- What a call on the pass `h` does to the private list of `h`, as a step on the linkage
(`defer` is the mode of the context). -/
def Pass_Call.step (defer : Bool) (h : Nat) (call : Pass_Call) :
    Option (Step (RENOIR_COMMAND_KIND × Ptr)) :=
  match call with
  | .pass_begin => some (.pass_begin h (.RENOIR_COMMAND_KIND_PASS_BEGIN, some h))
  | .pass_end =>
    if defer then some (.pass_end_deferred h (.RENOIR_COMMAND_KIND_PASS_END, some h))
    else some (.pass_end_immediate h (.RENOIR_COMMAND_KIND_PASS_END, some h))
  | call => call.label.map (Step.record h)

/-- The context `s` holds the lists of the model `M`, the passes `hs` are live handles
(neither free nor in the sampler cache) and their private lists hold records of the pass
functions only. -/
def Inv (s : IRenoir) (M : Model (RENOIR_COMMAND_KIND × Ptr)) (hs : List Nat) : Prop :=
  links s = M.links ∧ M.WF hs ∧
  (∀ h ∈ hs, h ∉ s.handle_pool.free ∧ h < s.handle_pool.fresh ∧ some h ∉ s.sampler_cache) ∧
  (∀ h ∈ hs, ∀ x ∈ M.priv h, recordable (M.links.label x).1 = true)

/-- The first three statements of the non-empty branch of `_renoir_dx11_pass_end`
(Renoir-dx11.cpp:2947): a `PASS_END` record for `h` is pushed on the private list of `h`. -/
def pass_end_pushed (self : IRenoir) (h : Nat) : IRenoir :=
  let rc := _renoir_dx11_command_new self .RENOIR_COMMAND_KIND_PASS_END
  let self := set_command rc.2 rc.1 { rc.2.commands rc.1 with handle := some h }
  command_push_pass self h rc.1

/-- The last two statements of `_renoir_dx11_pass_end` (Renoir-dx11.cpp:2976): the private
list pointers of `h` are set to null. -/
def pass_list_reset (self : IRenoir) (h : Nat) : IRenoir :=
  set_handle self h
    { self.handles h with
      pass := { (self.handles h).pass with command_list_head := none,
                                           command_list_tail := none } }

/-- The call looks a sampler up in the sampler cache before it records (`texture_bind` and
`texture_sampler_bind`, Renoir-dx11.cpp:3154 and 3175). -/
def Pass_Call.looks_up_sampler : Pass_Call → Bool
  | .texture_bind _ _ _ => true
  | .texture_sampler_bind _ _ _ _ => true
  | _ => false

/-- A context in which the handles 0 and 1 are passes with empty private lists, the sampler
cache has two empty slots and block 0 of the command pool is in use; in deferred mode
block 0 is the one record of the device-wide list. -/
def two_pass_context (defer : Bool) : IRenoir :=
  { handle_pool := { free := [], fresh := 2 },
    command_pool := { free := [], fresh := 1 },
    settings := { defer_api_calls := defer },
    command_list_head := if defer then some 0 else none,
    command_list_tail := if defer then some 0 else none,
    sampler_cache := [none, none],
    handles := fun _ => { kind := .RENOIR_HANDLE_KIND_PASS, rc := 1 },
    commands := fun _ => { kind := .RENOIR_COMMAND_KIND_INIT } }

/-- The pass 0 of `two_pass_context` in the Recording state, after `pass_begin` and one
`clear`: its private list is `[1, 2]`. -/
def recording_context (defer : Bool) : IRenoir :=
  _renoir_dx11_clear (_renoir_dx11_pass_begin (two_pass_context defer) 0) 0
    { clear_color := true }

/-- The caller stores `bytes` in its block `a` (or frees the block, after which it holds
anything). -/
def caller_write (self : IRenoir) (a : Nat) (bytes : List Nat) : IRenoir :=
  { self with heap := write self.heap a bytes }

/-- The call `buffer_new`, then the caller overwrites its block `a`, then the device-wide
list is flushed. -/
def buffer_new_run (fuel : Nat) (self : IRenoir) (desc : Renoir_Buffer_Desc)
    (a : Nat) (junk : List Nat) : Option IRenoir :=
  (_renoir_dx11_buffer_new fuel self desc).bind fun r =>
    _renoir_dx11_flush fuel (caller_write r.2 a junk)

/-- A deferred context with nothing pending: the caller's block 0 holds four bytes, and
every handle is a texture with a native two-dimensional object. -/
def copy_context : IRenoir :=
  { settings := { defer_api_calls := true },
    heap_fresh := 1,
    heap := write (fun _ => []) 0 [10, 20, 30, 40],
    handles := fun _ => { kind := .RENOIR_HANDLE_KIND_TEXTURE, rc := 1,
                          texture := { texture2d := some 5 } } }

/-- The command records, the command pool, the pointers of the device-wide list and the
log of executed records are the same in `s` and `s'`. -/
def same_commands (s s' : IRenoir) : Prop :=
  s'.commands = s.commands ∧ s'.command_pool = s.command_pool ∧
  s'.command_list_head = s.command_list_head ∧ s'.command_list_tail = s.command_list_tail ∧
  executed s'.trace = executed s.trace

/-- From `s` to `s'` the records `D` are kept: provided no record of `D` is a block the
command pool of `s` would hand out, the same holds in `s'`, the records of `D` and the
pointers of the device-wide list are unchanged, and the records executed in between are
`TEXTURE_FREE` commands. -/
def keeps_list (D : List Nat) (s s' : IRenoir) : Prop :=
  (∀ x ∈ D, x ∉ s.command_pool.free ∧ x < s.command_pool.fresh) →
    s'.command_list_head = s.command_list_head ∧
    s'.command_list_tail = s.command_list_tail ∧
    (∀ x ∈ D, s'.commands x = s.commands x) ∧
    (∀ x ∈ D, x ∉ s'.command_pool.free ∧ x < s'.command_pool.fresh) ∧
    ∃ rest, executed s'.trace = executed s.trace ++ rest ∧
      ∀ r ∈ rest, r.2.kind = .RENOIR_COMMAND_KIND_TEXTURE_FREE

/-- Renoir-dx11.cpp:2639, the failure branch of `_renoir_dx11_program_check`: the stores
into the caller's buffer `error` of `error_size` bytes, in program order, each as the pair
of the index written and the byte; `blob` is the error log of the compiler
(`error_blob->GetBufferPointer()`, `GetBufferSize()` bytes).  `::memcpy(error, .., size - 1)`
stores the indices below `size - 1`, computed in `size_t`, and `error[size] = 0` stores
the index `size`. -/
def program_check_stores (blob : List Nat) (error_size : Nat) : List (Nat × Nat) :=
  if error_size > 0 then
    let blob_error_size := blob.length
    let size := if blob_error_size > error_size then error_size else blob_error_size
    ((List.range ((size + 2 ^ 64 - 1) % 2 ^ 64)).map fun i => (i, blob.getD i 0)) ++ [(size, 0)]
  else []

/-- Immediate mode: the pass 0 of `two_pass_context` has the two pending records 1 and 2
(`pass_begin` and one `draw`, no `pass_end`), and record 3 is a `PASS_FREE` command on
that pass. -/
def pending_pass_free_context : IRenoir :=
  let s := _renoir_dx11_draw (_renoir_dx11_pass_begin (two_pass_context false) 0) 0 {}
  let rc := _renoir_dx11_command_new s .RENOIR_COMMAND_KIND_PASS_FREE
  set_command rc.2 rc.1 { rc.2.commands rc.1 with handle := some 0 }

/-- A context whose handle 2 is a fresh program handle and in which `D3DCompile` rejects
every source that starts at block 1 and accepts the others. -/
def pixel_failure_context : IRenoir :=
  { two_pass_context false with
    handle_pool := { free := [], fresh := 3 },
    handles := write (two_pass_context false).handles 2
      { kind := .RENOIR_HANDLE_KIND_PROGRAM, rc := 1 },
    compile_ok := fun b => decide (b.ptr ≠ some 1) }

/-- The conversion of an `int` to `UINT`. -/
def to_uint (x : Int) : Nat := (x % 2 ^ 32).toNat

/-- The pitches of a mapped image (`D3D11_MAPPED_SUBRESOURCE`, both `UINT`); `pData` is
address 0 of the image memory. -/
structure D3D11_MAPPED_SUBRESOURCE where
  RowPitch : Nat := 0
  DepthPitch : Nat := 0
deriving DecidableEq, Repr

/-- The call `::memcpy(dst + dst_at, src + src_at, n)` between two byte memories. -/
def memcpy_bytes (dst : Int → Nat) (dst_at : Int) (src : Int → Nat) (src_at : Int) (n : Nat) :
    Int → Nat :=
  fun a => if dst_at ≤ a ∧ a < dst_at + n then src (src_at + (a - dst_at)) else dst a

/-- The variables of the copy loops of TEXTURE_WRITE and TEXTURE_READ: the memory written to
and the two running pointers, `image_ptr` into the mapped image (`write_ptr` /
`write_2d_ptr` of the write loop, `read_ptr` / `read_2d_ptr` of the read loop) and
`bytes_ptr` into the caller's block. -/
structure Copy_Loop where
  memory : Int → Nat
  image_ptr : Int
  bytes_ptr : Int

/-- The 3D branch of `RENOIR_COMMAND_KIND_TEXTURE_WRITE` (Renoir-dx11.cpp:1919), between
`Map` and `Unmap`: the rows of the caller's block `bytes` are copied into the mapped image.
The result is the image. -/
def texture_write_3d (mapped_resource : D3D11_MAPPED_SUBRESOURCE) (dx_pixel_size : Int)
    (desc : Renoir_Texture_Edit_Desc) (image bytes : Int → Nat) : Int → Nat :=
  let write_ptr : Int :=
    to_uint (mapped_resource.DepthPitch * desc.z + mapped_resource.RowPitch * desc.y)
  let r := (List.range (to_size_t desc.depth)).foldl
    (fun (outer : Copy_Loop) _ =>
      let inner := (List.range (to_size_t desc.height)).foldl
        (fun (st : Copy_Loop) _ =>
          { memory := memcpy_bytes st.memory
              (st.image_ptr + wrap_int (desc.x * dx_pixel_size)) bytes st.bytes_ptr
              (to_size_t (wrap_int (desc.width * dx_pixel_size))),
            image_ptr := st.image_ptr + mapped_resource.RowPitch,
            bytes_ptr := st.bytes_ptr + wrap_int (desc.width * dx_pixel_size) })
        { memory := outer.memory, image_ptr := outer.image_ptr, bytes_ptr := outer.bytes_ptr }
      { memory := inner.memory,
        image_ptr := outer.image_ptr + mapped_resource.DepthPitch,
        bytes_ptr := inner.bytes_ptr })
    { memory := image, image_ptr := write_ptr, bytes_ptr := 0 }
  r.memory

/-- The 3D branch of `RENOIR_COMMAND_KIND_TEXTURE_READ` (Renoir-dx11.cpp:2017), between
`Map` and `Unmap`: rows of the mapped image are copied into the caller's block `bytes`.
The source of each `memcpy` is `read_ptr + desc.x * dx_pixel_size` (Renoir-dx11.cpp:2031):
the pointer of the outer loop, while the inner loop advances `read_2d_ptr`
(`inner.image_ptr`), which nothing reads.  The result is the caller's block. -/
def texture_read_3d (mapped_resource : D3D11_MAPPED_SUBRESOURCE) (dx_pixel_size : Int)
    (desc : Renoir_Texture_Edit_Desc) (image bytes : Int → Nat) : Int → Nat :=
  let read_ptr : Int :=
    to_uint (mapped_resource.DepthPitch * desc.z + mapped_resource.RowPitch * desc.y)
  let r := (List.range (to_size_t desc.depth)).foldl
    (fun (outer : Copy_Loop) _ =>
      let inner := (List.range (to_size_t desc.height)).foldl
        (fun (st : Copy_Loop) _ =>
          { memory := memcpy_bytes st.memory st.bytes_ptr image
              (outer.image_ptr + wrap_int (desc.x * dx_pixel_size))
              (to_size_t (wrap_int (desc.width * dx_pixel_size))),
            image_ptr := st.image_ptr + mapped_resource.RowPitch,
            bytes_ptr := st.bytes_ptr + wrap_int (desc.width * dx_pixel_size) })
        { memory := outer.memory, image_ptr := outer.image_ptr, bytes_ptr := outer.bytes_ptr }
      { memory := inner.memory,
        image_ptr := outer.image_ptr + mapped_resource.DepthPitch,
        bytes_ptr := inner.bytes_ptr })
    { memory := bytes, image_ptr := read_ptr, bytes_ptr := 0 }
  r.memory

/-- A byte memory that holds `bytes` from address 0 on and zero elsewhere. -/
def bytes_of (bytes : List Nat) : Int → Nat :=
  fun a => if 0 ≤ a then bytes.getD a.toNat 0 else 0

/-- The first `n` bytes of a byte memory. -/
def bytes_upto (memory : Int → Nat) (n : Nat) : List Nat :=
  (List.range n).map fun a => memory a

/-- The TEXTURE_BIND records of a trace that were executed while the handle of their sampler
was back in the handle pool, as pairs of the record and the sampler handle.  `freed` are the
handles that are free at this point of the trace: `handle_free` (the last step of the
SAMPLER_FREE case) adds one, and a SAMPLER_NEW executed on a handle takes it away again. -/
def stale_sampler_binds : List Event → List Nat → List (Nat × Nat)
  | [], _ => []
  | Event.handle_free h :: rest, freed => stale_sampler_binds rest (h :: freed)
  | Event.command_execute c r :: rest, freed =>
    match r.kind, r.handle, r.sampler with
    | .RENOIR_COMMAND_KIND_SAMPLER_NEW, some h, _ =>
      stale_sampler_binds rest (freed.filter fun x => x ≠ h)
    | .RENOIR_COMMAND_KIND_TEXTURE_BIND, _, some hs =>
      if hs ∈ freed then (c, hs) :: stale_sampler_binds rest freed
      else stale_sampler_binds rest freed
    | _, _, _ => stale_sampler_binds rest freed
  | _ :: rest, freed => stale_sampler_binds rest freed

/-- The executed records of a trace that concern samplers, in order: the record, its kind,
its handle, the sampler handle it stores and the `filter` of its sampler description. -/
def sampler_log (trace : List Event) :
    List (Nat × RENOIR_COMMAND_KIND × Option Nat × Option Nat × Nat) :=
  (executed trace).filterMap fun e =>
    if e.2.kind = .RENOIR_COMMAND_KIND_SAMPLER_NEW ∨ e.2.kind = .RENOIR_COMMAND_KIND_SAMPLER_FREE
        ∨ e.2.kind = .RENOIR_COMMAND_KIND_TEXTURE_BIND then
      some (e.1, e.2.kind, e.2.handle, e.2.sampler, e.2.sampler_desc.filter)
    else none

/-- The context `two_pass_context` (a sampler cache of two slots) with handle 1 a texture. -/
def sampler_context (defer : Bool) : IRenoir :=
  { two_pass_context defer with
    handles := write (two_pass_context defer).handles 1
      { kind := .RENOIR_HANDLE_KIND_TEXTURE, rc := 1 } }

/-- Pass 0 is begun, the texture 1 is bound three times with three different sampler
descriptions (`filter` 1, 2 and 3) to the slots 0, 1 and 2 of the pixel stage, and the pass
is ended; in deferred mode the device-wide list is then flushed. -/
def sampler_eviction_run (fuel : Nat) (defer : Bool) : Option IRenoir :=
  let self := _renoir_dx11_pass_begin (sampler_context defer) 0
  (_renoir_dx11_texture_sampler_bind fuel self 0 (some 1) 1 0 { filter := 1 }).bind fun self =>
  (_renoir_dx11_texture_sampler_bind fuel self 0 (some 1) 1 1 { filter := 2 }).bind fun self =>
  (_renoir_dx11_texture_sampler_bind fuel self 0 (some 1) 1 2 { filter := 3 }).bind fun self =>
  (_renoir_dx11_pass_end fuel self 0).bind fun self =>
    if defer then _renoir_dx11_flush fuel self else some self

/-- The calls of the end-to-end scenario up to and including `pass_end`, in deferred mode:
`init`, `buffer_new` of a static vertex buffer with the 12 bytes of the caller's block 100,
`pass_offscreen_new` (a pass without attachments), with `with_program` also `program_new`
from the sources in the caller's blocks 101 and 102; then on that pass `pass_begin`, with
`with_program` a `use_program`, one `draw`, and `pass_end`.  The result is the buffer handle
and the context before the flush. -/
def draw_scenario_recorded (fuel sampler_cache_size : Nat) (with_program : Bool)
    (data vertex pixel : List Nat) (desc : Renoir_Draw_Desc) : Option (Nat × IRenoir) :=
  (_renoir_dx11_init fuel sampler_cache_size { defer_api_calls := true }).bind fun self =>
  let self := caller_write (caller_write (caller_write self 100 data) 101 vertex) 102 pixel
  (_renoir_dx11_buffer_new fuel self
    { usage := .RENOIR_USAGE_STATIC, data := some 100, data_size := 12 }).bind fun b =>
  (_renoir_dx11_pass_offscreen_new fuel b.2 {}).bind fun p =>
  let program : Option (Ptr × IRenoir) :=
    if with_program then
      (_renoir_dx11_program_new fuel p.2
        { vertex := { ptr := some 101, size := 4 },
          pixel := { ptr := some 102, size := 4 } }).map fun g => (some g.1, g.2)
    else some (none, p.2)
  program.bind fun g =>
  let self := _renoir_dx11_pass_begin g.2 p.1
  let self := if with_program then _renoir_dx11_use_program self p.1 g.1 else self
  let self := _renoir_dx11_draw self p.1 desc
  (_renoir_dx11_pass_end fuel self p.1).map fun self => (b.1, self)

/-- The end-to-end scenario: the recorded calls, then `flush`.  The result is the buffer
handle and the context after the flush. -/
def draw_scenario (fuel sampler_cache_size : Nat) (with_program : Bool)
    (data vertex pixel : List Nat) (desc : Renoir_Draw_Desc) : Option (Nat × IRenoir) :=
  (draw_scenario_recorded fuel sampler_cache_size with_program data vertex pixel desc).bind
    fun r => (_renoir_dx11_flush fuel r.2).map fun self => (r.1, self)

/-- The kinds of the executed records of a trace, in order. -/
def executed_kinds (trace : List Event) : List RENOIR_COMMAND_KIND :=
  (executed trace).map fun e => e.2.kind

/-- How often a TEXTURE_FREE record on the handle `t` was executed. -/
def texture_frees (trace : List Event) (t : Nat) : Nat :=
  ((executed trace).filter fun e =>
    decide (e.2.kind = .RENOIR_COMMAND_KIND_TEXTURE_FREE ∧ e.2.handle = some t)).length

/-- The context `two_pass_context false` with the handles 1 and 2 textures of count 1. -/
def attachment_context : IRenoir :=
  { two_pass_context false with
    handles := write (write (two_pass_context false).handles 1
      { kind := .RENOIR_HANDLE_KIND_TEXTURE, rc := 1 }) 2
      { kind := .RENOIR_HANDLE_KIND_TEXTURE, rc := 1 } }

/-- The pointers `p` of the calls `p->Release()` of a trace, in order; `none` is a call made
through a null pointer. -/
def release_calls (trace : List Event) : List (Option Nat) :=
  trace.filterMap fun e =>
    match e with
    | .release p => some p
    | _ => none

/-- The number of `Release` calls made through a null pointer.  The source does not return
from such a call, so a run of the model is a run of the source only as long as this number
does not grow. -/
def null_releases (trace : List Event) : Nat := trace.count (Event.release none)

/-- The native objects on which the case `kind` of `_renoir_dx11_command_execute`, run on
the handle record `hd`, calls `Release` without testing the pointer, in program order:
the four objects of a swapchain (`SWAPCHAIN_FREE` at the last reference, Renoir-dx11.cpp:943;
`SWAPCHAIN_RESIZE`, Renoir-dx11.cpp:955), `h->buffer.buffer` (`BUFFER_FREE`,
Renoir-dx11.cpp:1158, and `SAMPLER_FREE`, where it is the member `sampler.sampler` of the
union, Renoir-dx11.cpp:1403), and for `PASS_FREE` on an offscreen pass
`render_target_view[0]` once for every colour attachment and `depth_stencil_view` for a
depth attachment (Renoir-dx11.cpp:1088, 1100). -/
def released_untested (kind : RENOIR_COMMAND_KIND) (hd : Renoir_Handle) : List Ptr :=
  match kind with
  | .RENOIR_COMMAND_KIND_SWAPCHAIN_FREE =>
    if hd.rc = 1 then
      [hd.swapchain.swapchain, hd.swapchain.render_target_view,
        hd.swapchain.depth_stencil_view, hd.swapchain.depth_buffer]
    else []
  | .RENOIR_COMMAND_KIND_SWAPCHAIN_RESIZE =>
    [hd.swapchain.swapchain, hd.swapchain.render_target_view,
      hd.swapchain.depth_stencil_view, hd.swapchain.depth_buffer]
  | .RENOIR_COMMAND_KIND_BUFFER_FREE => if hd.rc = 1 then [hd.buffer.buffer] else []
  | .RENOIR_COMMAND_KIND_SAMPLER_FREE => if hd.rc = 1 then [hd.sampler.sampler] else []
  | .RENOIR_COMMAND_KIND_PASS_FREE =>
    if hd.rc = 1 ∧ hd.pass.swapchain = none then
      ((List.range RENOIR_CONSTANT_COLOR_ATTACHMENT_SIZE).filterMap fun i =>
        (hd.pass.offscreen.color.getD i {}).handle.map fun _ =>
          hd.pass.render_target_view.getD 0 none) ++
      (match hd.pass.offscreen.depth_stencil.handle with
        | none => []
        | some _ => [hd.pass.depth_stencil_view])
    else []
  | _ => []

/-- What holds of the sampler handles and the cache in every context the API produces: no
handle record stores a sampler description (`_renoir_dx11_handle_new` clears the record
and `SAMPLER_NEW` writes `h->sampler.sampler` only, Renoir-dx11.cpp:1370), and the
occupied slots of the cache are its first slots. -/
def cache_reachable (self : IRenoir) : Prop :=
  (∀ h, (self.handles h).sampler.desc = {}) ∧
  ∀ i j, i ≤ j → self.sampler_cache.getD j none ≠ none →
    self.sampler_cache.getD i none ≠ none

/-- A fresh context whose cache has `size` slots, after a sequence of requests. -/
def after_requests (fuel : Nat) (settings : Renoir_Settings) (size : Nat)
    (requests : List Renoir_Sampler_Desc) : Option IRenoir :=
  (_renoir_dx11_init fuel size settings).bind fun self => sampler_requests fuel self requests

/-- The kind and the handle of every command issued in a trace, in order. -/
def issued_labels (trace : List Event) : List (RENOIR_COMMAND_KIND × Option Nat) :=
  (issued trace).map fun c => (c.kind, c.handle)

/-- The bytes the case `RENOIR_COMMAND_KIND_TEXTURE_WRITE` reads in `block`, the block at
`desc.bytes`, for the texture record `t`: the first `texture_write_size` bytes when the
texture has a native object, nothing otherwise. -/
def texture_write_reads (t : Texture_Members) (width height depth : Int) (bytes_size : Nat)
    (block : List Nat) : List (List Nat) :=
  if t.texture1d.isSome ∨ t.texture2d.isSome ∨ t.texture3d.isSome then
    [block.take (texture_write_size t width height depth bytes_size)]
  else []

/-- A pass whose only attachment sits at colour index 1, made through the API in immediate
mode: `init`, `texture_new` of a 4 x 4 render target, `pass_offscreen_new` with that
texture as `color[1]`.  The result is the pass handle and the context. -/
def null_view_scenario (fuel : Nat) : Option (Nat × IRenoir) :=
  (_renoir_dx11_init fuel 2 {}).bind fun s =>
  (_renoir_dx11_texture_new fuel s
    { size := { width := 4, height := 4 }, render_target := true }).bind fun t =>
  _renoir_dx11_pass_offscreen_new fuel t.2 { color := [{}, ⟨some t.1⟩, {}, {}] }

end Dx11

/-! ## The OpenGL backend (Renoir-gl450.cpp) -/

namespace Gl450

/-- The command kinds of Renoir-gl450.cpp:664. -/
inductive RENOIR_COMMAND_KIND where
  | RENOIR_COMMAND_KIND_NONE
  | RENOIR_COMMAND_KIND_SWAPCHAIN_NEW
  | RENOIR_COMMAND_KIND_SWAPCHAIN_FREE
  | RENOIR_COMMAND_KIND_PASS_NEW
  | RENOIR_COMMAND_KIND_PASS_OFFSCREEN_NEW
  | RENOIR_COMMAND_KIND_PASS_FREE
  | RENOIR_COMMAND_KIND_BUFFER_NEW
  | RENOIR_COMMAND_KIND_BUFFER_FREE
  | RENOIR_COMMAND_KIND_TEXTURE_NEW
  | RENOIR_COMMAND_KIND_TEXTURE_FREE
  | RENOIR_COMMAND_KIND_SAMPLER_NEW
  | RENOIR_COMMAND_KIND_SAMPLER_FREE
  | RENOIR_COMMAND_KIND_PROGRAM_NEW
  | RENOIR_COMMAND_KIND_PROGRAM_FREE
  | RENOIR_COMMAND_KIND_COMPUTE_NEW
  | RENOIR_COMMAND_KIND_COMPUTE_FREE
  | RENOIR_COMMAND_KIND_PIPELINE_NEW
  | RENOIR_COMMAND_KIND_PIPELINE_FREE
  | RENOIR_COMMAND_KIND_PASS_BEGIN
  | RENOIR_COMMAND_KIND_PASS_END
  | RENOIR_COMMAND_KIND_PASS_CLEAR
  | RENOIR_COMMAND_KIND_USE_PIPELINE
  | RENOIR_COMMAND_KIND_USE_PROGRAM
  | RENOIR_COMMAND_KIND_SCISSOR
  | RENOIR_COMMAND_KIND_BUFFER_WRITE
  | RENOIR_COMMAND_KIND_TEXTURE_WRITE
  | RENOIR_COMMAND_KIND_BUFFER_READ
  | RENOIR_COMMAND_KIND_TEXTURE_READ
  | RENOIR_COMMAND_KIND_BUFFER_BIND
  | RENOIR_COMMAND_KIND_TEXTURE_BIND
  | RENOIR_COMMAND_KIND_SAMPLER_BIND
  | RENOIR_COMMAND_KIND_DRAW
deriving DecidableEq, Repr

/-- The command record `Renoir_Command` (Renoir-gl450.cpp:700); `handle` is the handle
pointer every union member starts with (the `pipeline` / `program` member for
`use_pipeline` / `use_program`).  `owns_data` is the member of that name of `buffer_new`,
`texture_new` and `program_new`, `compute_owns_data` is `compute_new.owns_data` (a
different byte of the record, see the D3D11 record), `args` holds the scalar arguments that
are only handed on to GL. -/
structure Renoir_Command where
  prev : Ptr := none
  next : Ptr := none
  kind : RENOIR_COMMAND_KIND := .RENOIR_COMMAND_KIND_NONE
  handle : Ptr := none
  swapchain : Ptr := none
  offscreen : Renoir_Pass_Offscreen_Desc := {}
  buffer_desc : Renoir_Buffer_Desc := {}
  texture_desc : Renoir_Texture_Desc := {}
  sampler_desc : Renoir_Sampler_Desc := {}
  program_desc : Renoir_Program_Desc := {}
  owns_data : Bool := false
  compute_owns_data : Bool := false
  bytes : Block := {}
  clear_color : Bool := false
  clear_depth : Bool := false
  args : List Int := []
deriving DecidableEq, Repr

structure Pass_Members where
  command_list_head : Ptr := none
  command_list_tail : Ptr := none
  swapchain : Ptr := none
  fb : Nat := 0
  width : Int := 0
  height : Int := 0
  offscreen : Renoir_Pass_Offscreen_Desc := {}
deriving DecidableEq, Repr

structure Buffer_Members where
  id : Nat := 0
  type : Nat := 0
  usage : RENOIR_USAGE := .RENOIR_USAGE_NONE
  access : RENOIR_ACCESS := .RENOIR_ACCESS_NONE
deriving DecidableEq, Repr

structure Texture_Members where
  id : Nat := 0
  size : Renoir_Size := {}
  usage : RENOIR_USAGE := .RENOIR_USAGE_NONE
  access : RENOIR_ACCESS := .RENOIR_ACCESS_NONE
  pixel_format : RENOIR_PIXELFORMAT := .RENOIR_PIXELFORMAT_RGBA8
  render_target : Bool := false
  msaa : RENOIR_MSAA_MODE := .RENOIR_MSAA_MODE_NONE
  render_buffer : Nat := 0
deriving DecidableEq, Repr

structure Sampler_Members where
  id : Nat := 0
  desc : Renoir_Sampler_Desc := {}
deriving DecidableEq, Repr

/-- The handle record `Renoir_Handle` of the GL backend, declared in `Handle.h` (not part
of the sources); the fields are those Renoir-gl450.cpp reads and writes.  GL object names
are numbers, `0` being "no object". -/
structure Renoir_Handle where
  kind : RENOIR_HANDLE_KIND := .RENOIR_HANDLE_KIND_NONE
  rc : Int := 0
  swapchain_width : Int := 0
  swapchain_height : Int := 0
  pass : Pass_Members := {}
  buffer : Buffer_Members := {}
  texture : Texture_Members := {}
  sampler : Sampler_Members := {}
  program_id : Nat := 0
  compute_id : Nat := 0
deriving DecidableEq, Repr

/-- What the context did, in order. -/
inductive Event where
  | command_process (command : Nat) (record : Renoir_Command)
  | command_execute (command : Nat) (record : Renoir_Command)
  | command_free (command : Nat) (record : Renoir_Command)
  | mn_free (block : Block)
  | handle_free (h : Nat)
  | create (object : Nat)
  | delete (object : Nat)
  | window_free (h : Nat)
  | present (h : Nat)
  | log_error
  | device (kind : RENOIR_COMMAND_KIND)
  | mn_alloc (block : Block)
  | upload (bytes : List Nat)
deriving DecidableEq, Repr

/-- The context `IRenoir` (Renoir-gl450.cpp:889) with the memories of its pools and the
model of the GL context and the heap: `native_fresh` numbers the objects GL creates (never
`0`), `heap_fresh` the blocks `mn::alloc` returns, `heap` is the contents of the byte blocks
of the process, `compile_ok` is the outcome of compiling a shader source, `trace` records
the calls; an `upload` event is GL reading bytes of host memory to fill a resource. -/
structure IRenoir where
  handle_pool : Pool := pool_new
  command_pool : Pool := pool_new
  settings : Renoir_Settings := {}
  command_list_head : Ptr := none
  command_list_tail : Ptr := none
  current_pipeline : Ptr := none
  current_program : Ptr := none
  vao : Nat := 0
  msaa_resolve_fb : Nat := 0
  handles : Nat → Renoir_Handle := fun _ => {}
  commands : Nat → Renoir_Command := fun _ => {}
  native_fresh : Nat := 1
  heap_fresh : Nat := 0
  heap : Nat → List Nat := fun _ => []
  compile_ok : Block → Bool := fun _ => true
  trace : List Event := []

/-- Append an event to the trace. -/
def emit (self : IRenoir) (e : Event) : IRenoir :=
  { self with trace := self.trace ++ [e] }

/-- A `glCreate...` / `glGen...` call: the name of the new object. -/
def gl_create (self : IRenoir) : Nat × IRenoir :=
  (self.native_fresh,
    { self with native_fresh := self.native_fresh + 1,
                trace := self.trace ++ [Event.create self.native_fresh] })

/-- A `glDelete...` call. -/
def gl_delete (self : IRenoir) (object : Nat) : IRenoir := emit self (Event.delete object)

/-- The call `mn::alloc(size, ..)`: a fresh heap block. -/
def mn_alloc (self : IRenoir) (size : Nat) : Block × IRenoir :=
  ({ ptr := some self.heap_fresh, size := size },
    { self with heap_fresh := self.heap_fresh + 1,
                trace := self.trace ++ [Event.mn_alloc ⟨some self.heap_fresh, size⟩] })

/-- The bytes a read of `size` bytes at `p` sees. -/
def read_bytes (heap : Nat → List Nat) (p : Ptr) (size : Nat) : List Nat :=
  match p with
  | none => []
  | some a => (heap a).take size

/-- The call `::memcpy(dst, src, size)` into a block `mn::alloc` returned; `none` when a
null pointer is read or written (with `size = 0` nothing is accessed). -/
def memcpy (self : IRenoir) (dst src : Ptr) (size : Nat) : Option IRenoir :=
  if size = 0 then some self
  else
    match dst, src with
    | some d, some s => some { self with heap := write self.heap d ((self.heap s).take size) }
    | _, _ => none

/-- A GL call reads `size` bytes at `p` (initial data of a resource, or the source of a
write into a mapped resource). -/
def device_upload (self : IRenoir) (p : Ptr) (size : Nat) : IRenoir :=
  { self with trace := self.trace ++ [Event.upload (read_bytes self.heap p size)] }

/-- Store a handle record. -/
def set_handle (self : IRenoir) (h : Nat) (v : Renoir_Handle) : IRenoir :=
  { self with handles := write self.handles h v }

/-- Store a command record. -/
def set_command (self : IRenoir) (c : Nat) (v : Renoir_Command) : IRenoir :=
  { self with commands := write self.commands c v }

/-- Renoir-gl450.cpp:908. -/
def _renoir_gl450_handle_new (self : IRenoir) (kind : RENOIR_HANDLE_KIND) : Nat × IRenoir :=
  let r := pool_get self.handle_pool
  (r.1, { self with handle_pool := r.2,
                    handles := write self.handles r.1 { kind := kind, rc := 1 } })

/-- Renoir-gl450.cpp:918. -/
def _renoir_gl450_handle_free (self : IRenoir) (h : Nat) : IRenoir :=
  { self with handle_pool := pool_put self.handle_pool h,
              trace := self.trace ++ [Event.handle_free h] }

/-- Renoir-gl450.cpp:924: `h->rc.fetch_add(1); return h;`. -/
def _renoir_gl450_handle_ref (handles : Nat → Renoir_Handle) (h : Nat) :
    Nat × (Nat → Renoir_Handle) :=
  (h, write handles h { handles h with rc := wrap_int ((handles h).rc + 1) })

/-- Renoir-gl450.cpp:931: `return h->rc.fetch_sub(1) == 1;`. -/
def _renoir_gl450_handle_unref (handles : Nat → Renoir_Handle) (h : Nat) :
    Bool × (Nat → Renoir_Handle) :=
  (decide ((handles h).rc = 1),
    write handles h { handles h with rc := wrap_int ((handles h).rc - 1) })

/-- Renoir-gl450.cpp:937. -/
def _renoir_gl450_command_new (self : IRenoir) (kind : RENOIR_COMMAND_KIND) : Nat × IRenoir :=
  let r := pool_get self.command_pool
  (r.1, { self with command_pool := r.2,
                    commands := write self.commands r.1 { kind := kind } })

/-- The call `mn::free(block)`. -/
def mn_free (self : IRenoir) (b : Block) : IRenoir := emit self (Event.mn_free b)

/-- Renoir-gl450.cpp:947. -/
def _renoir_gl450_command_free (self : IRenoir) (command : Nat) : IRenoir :=
  let c := self.commands command
  let self := emit self (Event.command_free command c)
  let self :=
    match c.kind with
    | .RENOIR_COMMAND_KIND_BUFFER_NEW =>
      if c.owns_data then mn_free self ⟨c.buffer_desc.data, c.buffer_desc.data_size⟩ else self
    | .RENOIR_COMMAND_KIND_TEXTURE_NEW =>
      if c.owns_data then mn_free self ⟨c.texture_desc.data, c.texture_desc.data_size⟩ else self
    | .RENOIR_COMMAND_KIND_PROGRAM_NEW =>
      if c.owns_data then
        let self := mn_free self c.program_desc.vertex
        let self := mn_free self c.program_desc.pixel
        if c.program_desc.geometry.ptr.isSome then mn_free self c.program_desc.geometry else self
      else self
    | .RENOIR_COMMAND_KIND_COMPUTE_NEW =>
      if c.compute_owns_data then mn_free self c.program_desc.compute else self
    | .RENOIR_COMMAND_KIND_BUFFER_WRITE => mn_free self c.bytes
    | .RENOIR_COMMAND_KIND_TEXTURE_WRITE => mn_free self c.bytes
    | _ => self
  { self with command_pool := pool_put self.command_pool command }

/-- Case `RENOIR_COMMAND_KIND_SWAPCHAIN_FREE` (Renoir-gl450.cpp:1068). -/
def execute_swapchain_free (self : IRenoir) (h : Nat) : IRenoir :=
  let r := _renoir_gl450_handle_unref self.handles h
  let self := { self with handles := r.2 }
  if r.1 = false then self
  else
    let self := emit self (Event.window_free h)
    _renoir_gl450_handle_free self h

/-- One round of the attachment loop of `RENOIR_COMMAND_KIND_PASS_OFFSCREEN_NEW`
(Renoir-gl450.cpp:1094): reference colour attachment `i` (attaching it to the framebuffer
is a GL call on existing objects). -/
def offscreen_new_color (desc : Renoir_Pass_Offscreen_Desc) (self : IRenoir) (i : Nat) :
    IRenoir :=
  match (desc.color.getD i {}).handle with
  | none => self
  | some color => { self with handles := (_renoir_gl450_handle_ref self.handles color).2 }

/-- Case `RENOIR_COMMAND_KIND_PASS_OFFSCREEN_NEW` (Renoir-gl450.cpp:1084). -/
def execute_pass_offscreen_new (self : IRenoir) (h : Nat) (desc : Renoir_Pass_Offscreen_Desc) :
    IRenoir :=
  let self := set_handle self h
    { self.handles h with pass := { (self.handles h).pass with offscreen := desc } }
  let r := gl_create self
  let self := set_handle r.2 h
    { r.2.handles h with pass := { (r.2.handles h).pass with fb := r.1 } }
  let self := (List.range 4).foldl (offscreen_new_color desc) self
  match desc.depth_stencil.handle with
  | none => self
  | some depth => { self with handles := (_renoir_gl450_handle_ref self.handles depth).2 }

/-- Case `RENOIR_COMMAND_KIND_TEXTURE_FREE` (Renoir-gl450.cpp:1335). -/
def execute_texture_free (self : IRenoir) (h : Nat) : IRenoir :=
  let r := _renoir_gl450_handle_unref self.handles h
  let self := { self with handles := r.2 }
  if r.1 = false then self
  else
    let self := gl_delete self (self.handles h).texture.id
    let self :=
      if (self.handles h).texture.render_buffer ≠ 0 then
        gl_delete self (self.handles h).texture.render_buffer
      else self
    _renoir_gl450_handle_free self h

/-- The loop `for(auto it = h->pass.command_list_head; it != NULL; it = it->next)
_renoir_gl450_command_free(self, command);` of `RENOIR_COMMAND_KIND_PASS_FREE`
(Renoir-gl450.cpp:1180). -/
def pass_free_pending : Nat → IRenoir → Nat → Ptr → Option IRenoir
  | _, self, _, none => some self
  | 0, _, _, some _ => none
  | fuel + 1, self, command, some it =>
    let self := _renoir_gl450_command_free self command
    pass_free_pending fuel self command (self.commands it).next

/-- The nested `TEXTURE_FREE` of `RENOIR_COMMAND_KIND_PASS_FREE` (Renoir-gl450.cpp:1193). -/
def pass_free_texture (self : IRenoir) (texture : Nat) : IRenoir :=
  let r := _renoir_gl450_command_new self .RENOIR_COMMAND_KIND_TEXTURE_FREE
  let self := set_command r.2 r.1 { r.2.commands r.1 with handle := some texture }
  let self := emit self (Event.command_execute r.1 (self.commands r.1))
  let self := execute_texture_free self texture
  _renoir_gl450_command_free self r.1

/-- One round of the colour loop of `RENOIR_COMMAND_KIND_PASS_FREE` (Renoir-gl450.cpp:1186). -/
def pass_free_color (h : Nat) (self : IRenoir) (i : Nat) : IRenoir :=
  match ((self.handles h).pass.offscreen.color.getD i {}).handle with
  | none => self
  | some color => pass_free_texture self color

/-- Case `RENOIR_COMMAND_KIND_PASS_FREE` (Renoir-gl450.cpp:1174).  The source binds the
pass handle by reference into the record being executed (`auto& h =
command->pass_free.handle`), this definition takes it by value: the two agree on the
contexts of `pass_free_by_value`, where no nested `TEXTURE_FREE` reuses that record. -/
def execute_pass_free (fuel : Nat) (self : IRenoir) (command : Nat) (h : Nat) :
    Option IRenoir :=
  let r := _renoir_gl450_handle_unref self.handles h
  let self := { self with handles := r.2 }
  if r.1 = false then some self
  else
    match pass_free_pending fuel self command (self.handles h).pass.command_list_head with
    | none => none
    | some self =>
      let self :=
        if (self.handles h).pass.fb ≠ 0 then
          let self := (List.range 4).foldl (pass_free_color h) self
          match (self.handles h).pass.offscreen.depth_stencil.handle with
          | none => self
          | some depth => pass_free_texture self depth
        else self
      some (_renoir_gl450_handle_free self h)

/-- Case `RENOIR_COMMAND_KIND_BUFFER_NEW` (Renoir-gl450.cpp:1214): `glNamedBufferData`
reads `data_size` bytes at `desc.data` unless that pointer is null. -/
def execute_buffer_new (self : IRenoir) (h : Nat) (desc : Renoir_Buffer_Desc) : IRenoir :=
  let self := set_handle self h
    { self.handles h with
      buffer := { (self.handles h).buffer with
                  access := desc.access, type := desc.type, usage := desc.usage } }
  let r := gl_create self
  let self := set_handle r.2 h
    { r.2.handles h with buffer := { (r.2.handles h).buffer with id := r.1 } }
  if desc.data.isSome then device_upload self desc.data desc.data_size else self

/-- Case `RENOIR_COMMAND_KIND_BUFFER_FREE` (Renoir-gl450.cpp:1231). -/
def execute_buffer_free (self : IRenoir) (h : Nat) : IRenoir :=
  let r := _renoir_gl450_handle_unref self.handles h
  let self := { self with handles := r.2 }
  if r.1 = false then self
  else
    let self := gl_delete self (self.handles h).buffer.id
    _renoir_gl450_handle_free self h

/-- Case `RENOIR_COMMAND_KIND_TEXTURE_NEW` (Renoir-gl450.cpp:1241); initial data is read by
`glTextureSubImage` after the texture is created. -/
def execute_texture_new (self : IRenoir) (h : Nat) (desc : Renoir_Texture_Desc) : IRenoir :=
  let self := set_handle self h
    { self.handles h with
      texture := { (self.handles h).texture with
                   access := desc.access, usage := desc.usage, size := desc.size,
                   pixel_format := desc.pixel_format,
                   render_target := desc.render_target, msaa := desc.msaa } }
  if desc.size.height = 0 ∧ desc.size.depth = 0 then
    let r := gl_create self
    let self := set_handle r.2 h
      { r.2.handles h with texture := { (r.2.handles h).texture with id := r.1 } }
    if desc.data.isSome then device_upload self desc.data desc.data_size else self
  else if desc.size.height > 0 ∧ desc.size.depth = 0 then
    let r := gl_create self
    let self := set_handle r.2 h
      { r.2.handles h with texture := { (r.2.handles h).texture with id := r.1 } }
    let self := if desc.data.isSome then device_upload self desc.data desc.data_size else self
    if desc.render_target ∧ desc.msaa ≠ .RENOIR_MSAA_MODE_NONE then
      let r := gl_create self
      set_handle r.2 h
        { r.2.handles h with texture := { (r.2.handles h).texture with render_buffer := r.1 } }
    else self
  else if desc.size.height > 0 ∧ desc.size.depth > 0 then
    let r := gl_create self
    let self := set_handle r.2 h
      { r.2.handles h with texture := { (r.2.handles h).texture with id := r.1 } }
    if desc.data.isSome then device_upload self desc.data desc.data_size else self
  else self

/-- Case `RENOIR_COMMAND_KIND_SAMPLER_NEW` (Renoir-gl450.cpp:1349). -/
def execute_sampler_new (self : IRenoir) (h : Nat) (desc : Renoir_Sampler_Desc) : IRenoir :=
  let self := set_handle self h
    { self.handles h with sampler := { (self.handles h).sampler with desc := desc } }
  let r := gl_create self
  set_handle r.2 h { r.2.handles h with sampler := { (r.2.handles h).sampler with id := r.1 } }

/-- Case `RENOIR_COMMAND_KIND_SAMPLER_FREE` (Renoir-gl450.cpp:1379). -/
def execute_sampler_free (self : IRenoir) (h : Nat) : IRenoir :=
  let r := _renoir_gl450_handle_unref self.handles h
  let self := { self with handles := r.2 }
  if r.1 = false then self
  else
    let self := gl_delete self (self.handles h).sampler.id
    _renoir_gl450_handle_free self h

/-- Case `RENOIR_COMMAND_KIND_PROGRAM_NEW` (Renoir-gl450.cpp:1389): a stage that fails to
compile is logged and leaves the case; the shader objects are created and deleted again. -/
def execute_program_new (self : IRenoir) (h : Nat) (desc : Renoir_Program_Desc) : IRenoir :=
  let vertex_shader := gl_create self
  let self := vertex_shader.2
  if self.compile_ok desc.vertex = false then emit self Event.log_error
  else
    let pixel_shader := gl_create self
    let self := pixel_shader.2
    if self.compile_ok desc.pixel = false then emit self Event.log_error
    else
      let geometry_shader := if desc.geometry.ptr.isSome then gl_create self else (0, self)
      let self := geometry_shader.2
      if desc.geometry.ptr.isSome ∧ self.compile_ok desc.geometry = false then
        emit self Event.log_error
      else
        let r := gl_create self
        let self := set_handle r.2 h { r.2.handles h with program_id := r.1 }
        let self := gl_delete self vertex_shader.1
        let self := gl_delete self pixel_shader.1
        if desc.geometry.ptr.isSome then gl_delete self geometry_shader.1 else self

/-- Case `RENOIR_COMMAND_KIND_PROGRAM_FREE` (Renoir-gl450.cpp:1470). -/
def execute_program_free (self : IRenoir) (h : Nat) : IRenoir :=
  let r := _renoir_gl450_handle_unref self.handles h
  let self := { self with handles := r.2 }
  if r.1 = false then self
  else
    let self := gl_delete self (self.handles h).program_id
    _renoir_gl450_handle_free self h

/-- Case `RENOIR_COMMAND_KIND_COMPUTE_NEW` (Renoir-gl450.cpp:1480): a compile failure
ends in `mn::panic`, the call does not return. -/
def execute_compute_new (self : IRenoir) (h : Nat) (desc : Renoir_Program_Desc) :
    Option IRenoir :=
  let compute_shader := gl_create self
  let self := compute_shader.2
  if self.compile_ok desc.compute = false then none
  else
    let r := gl_create self
    let self := set_handle r.2 h { r.2.handles h with compute_id := r.1 }
    some (gl_delete self compute_shader.1)

/-- Case `RENOIR_COMMAND_KIND_COMPUTE_FREE` (Renoir-gl450.cpp:1520). -/
def execute_compute_free (self : IRenoir) (h : Nat) : IRenoir :=
  let r := _renoir_gl450_handle_unref self.handles h
  let self := { self with handles := r.2 }
  if r.1 = false then self
  else
    let self := gl_delete self (self.handles h).compute_id
    _renoir_gl450_handle_free self h

/-- Case `RENOIR_COMMAND_KIND_PIPELINE_FREE` (Renoir-gl450.cpp:1536). -/
def execute_pipeline_free (self : IRenoir) (h : Nat) : IRenoir :=
  let r := _renoir_gl450_handle_unref self.handles h
  let self := { self with handles := r.2 }
  if r.1 = false then self
  else _renoir_gl450_handle_free self h

/-- The pixel transfer formats of `_renoir_pixelformat_to_gl`. -/
inductive GL_FORMAT where
  | GL_RGBA
  | GL_RED_INTEGER
  | GL_RED
  | GL_RG
  | GL_DEPTH_COMPONENT
  | GL_DEPTH_STENCIL
deriving DecidableEq, Repr

/-- The pixel transfer types of `_renoir_pixelformat_to_type_gl`. -/
inductive GL_TYPE where
  | GL_UNSIGNED_BYTE
  | GL_SHORT
  | GL_HALF_FLOAT
  | GL_FLOAT
  | GL_UNSIGNED_SHORT
  | GL_UNSIGNED_INT_24_8
deriving DecidableEq, Repr

/-- Renoir-gl450.cpp:371 `_renoir_pixelformat_to_gl`. -/
def _renoir_pixelformat_to_gl : RENOIR_PIXELFORMAT → GL_FORMAT
  | .RENOIR_PIXELFORMAT_RGBA8 => .GL_RGBA
  | .RENOIR_PIXELFORMAT_R16I => .GL_RED_INTEGER
  | .RENOIR_PIXELFORMAT_R16F => .GL_RED
  | .RENOIR_PIXELFORMAT_R32F => .GL_RED
  | .RENOIR_PIXELFORMAT_R8 => .GL_RED
  | .RENOIR_PIXELFORMAT_R32G32F => .GL_RG
  | .RENOIR_PIXELFORMAT_D32 => .GL_DEPTH_COMPONENT
  | .RENOIR_PIXELFORMAT_D24S8 => .GL_DEPTH_STENCIL

/-- Renoir-gl450.cpp:404 `_renoir_pixelformat_to_type_gl`. -/
def _renoir_pixelformat_to_type_gl : RENOIR_PIXELFORMAT → GL_TYPE
  | .RENOIR_PIXELFORMAT_R8 => .GL_UNSIGNED_BYTE
  | .RENOIR_PIXELFORMAT_RGBA8 => .GL_UNSIGNED_BYTE
  | .RENOIR_PIXELFORMAT_R16I => .GL_SHORT
  | .RENOIR_PIXELFORMAT_R16F => .GL_HALF_FLOAT
  | .RENOIR_PIXELFORMAT_R32F => .GL_FLOAT
  | .RENOIR_PIXELFORMAT_R32G32F => .GL_FLOAT
  | .RENOIR_PIXELFORMAT_D32 => .GL_UNSIGNED_SHORT
  | .RENOIR_PIXELFORMAT_D24S8 => .GL_UNSIGNED_INT_24_8

/-- The bytes of one pixel in client memory as GL reads it for a transfer in `format` and
`type`: the number of components of the format times the size of the type;
`GL_UNSIGNED_INT_24_8` packs both components of a pixel into four bytes. -/
def gl_pixel_size (format : GL_FORMAT) (type : GL_TYPE) : Nat :=
  let components : Nat :=
    match format with
    | .GL_RGBA => 4
    | .GL_RG => 2
    | .GL_DEPTH_STENCIL => 2
    | .GL_RED_INTEGER => 1
    | .GL_RED => 1
    | .GL_DEPTH_COMPONENT => 1
  match type with
  | .GL_UNSIGNED_INT_24_8 => 4
  | .GL_UNSIGNED_BYTE => components
  | .GL_SHORT => components * 2
  | .GL_HALF_FLOAT => components * 2
  | .GL_UNSIGNED_SHORT => components * 2
  | .GL_FLOAT => components * 4

/-- The distance in bytes between the rows GL reads in client memory: the sources never
set `GL_UNPACK_ALIGNMENT`, so every row starts at a multiple of its initial value 4. -/
def gl_row_stride (row : Nat) : Nat := (row + 3) / 4 * 4

/-- The bytes a read of `rows` rows of `row` bytes each, `stride` bytes apart, sees in
`block`, in order. -/
def read_rows (block : List Nat) (row stride rows : Nat) : List Nat :=
  (List.range rows).foldr (fun r acc => (block.drop (r * stride)).take row ++ acc) []

/-- The device reads `rows` rows of `row` bytes at `p`, `stride` bytes apart. -/
def device_upload_rows (self : IRenoir) (p : Ptr) (row stride rows : Nat) : IRenoir :=
  { self with trace := self.trace ++
      [Event.upload (match p with
        | none => []
        | some a => read_rows (self.heap a) row stride rows)] }

/-- The address one past the last byte `glTextureSubImage1D` resp. `glTextureSubImage2D`
reads at `desc.bytes`, for a texture of format `pixel_format` and an edited region of
`width` by `height` pixels (`rows` is 1 for a 1D texture). -/
def texture_write_extent (pixel_format : RENOIR_PIXELFORMAT) (width : Int) (rows : Nat) :
    Nat :=
  let row := width.toNat * gl_pixel_size (_renoir_pixelformat_to_gl pixel_format)
    (_renoir_pixelformat_to_type_gl pixel_format)
  if rows = 0 then 0 else (rows - 1) * gl_row_stride row + row

/-- Case `RENOIR_COMMAND_KIND_TEXTURE_WRITE` (Renoir-gl450.cpp:1729): `glTextureSubImage1D`
reads `desc.width` pixels at `desc.bytes`, `glTextureSubImage2D` reads `desc.height` rows
of `desc.width` pixels; the size of a pixel follows from the format and type of the
texture, `desc.bytes_size` is not used.  `args` is the edited region
`[x, y, z, width, height, depth]` of the record.  A negative width or height is a GL error
and nothing is read.  The third branch, `glTextureSubImage3D` on `desc.depth` images of
`desc.height` rows, repeats the condition of the second (`height > 0 && depth == 0`), so
it is never taken and a texture with a depth takes no branch. -/
def execute_texture_write (self : IRenoir) (h : Nat) (args : List Int) (bytes : Block) :
    IRenoir :=
  let size := (self.handles h).texture.size
  let row := (args.getD 3 0).toNat *
    gl_pixel_size (_renoir_pixelformat_to_gl (self.handles h).texture.pixel_format)
      (_renoir_pixelformat_to_type_gl (self.handles h).texture.pixel_format)
  if size.height = 0 ∧ size.depth = 0 then
    emit (device_upload_rows self bytes.ptr row (gl_row_stride row) 1)
      (Event.device .RENOIR_COMMAND_KIND_TEXTURE_WRITE)
  else if size.height > 0 ∧ size.depth = 0 then
    emit (device_upload_rows self bytes.ptr row (gl_row_stride row) (args.getD 4 0).toNat)
      (Event.device .RENOIR_COMMAND_KIND_TEXTURE_WRITE)
  else if size.height > 0 ∧ size.depth = 0 then
    emit (device_upload_rows self bytes.ptr row (gl_row_stride row)
        ((args.getD 5 0).toNat * (args.getD 4 0).toNat))
      (Event.device .RENOIR_COMMAND_KIND_TEXTURE_WRITE)
  else self

/-- Renoir-gl450.cpp:1057 `_renoir_gl450_command_execute`.  The result is `none` when the
call does not return: a null handle pointer is dereferenced, an unreachable label is
reached, `mn::panic` is called, or a list walk runs out of fuel.  Commands that only issue
GL calls on existing objects are recorded as one `device` event. -/
def _renoir_gl450_command_execute (fuel : Nat) (self : IRenoir) (command : Nat) :
    Option IRenoir :=
  let c := self.commands command
  let self := emit self (Event.command_execute command c)
  match c.kind with
  | .RENOIR_COMMAND_KIND_SWAPCHAIN_NEW =>
    c.handle.map fun _ => emit self (Event.device .RENOIR_COMMAND_KIND_SWAPCHAIN_NEW)
  | .RENOIR_COMMAND_KIND_SWAPCHAIN_FREE =>
    c.handle.map fun h => execute_swapchain_free self h
  | .RENOIR_COMMAND_KIND_PASS_NEW =>
    c.handle.map fun h =>
      set_handle self h
        { self.handles h with pass := { (self.handles h).pass with swapchain := c.swapchain } }
  | .RENOIR_COMMAND_KIND_PASS_OFFSCREEN_NEW =>
    c.handle.map fun h => execute_pass_offscreen_new self h c.offscreen
  | .RENOIR_COMMAND_KIND_PASS_FREE =>
    c.handle.bind fun h => execute_pass_free fuel self command h
  | .RENOIR_COMMAND_KIND_BUFFER_NEW =>
    c.handle.map fun h => execute_buffer_new self h c.buffer_desc
  | .RENOIR_COMMAND_KIND_BUFFER_FREE =>
    c.handle.map fun h => execute_buffer_free self h
  | .RENOIR_COMMAND_KIND_TEXTURE_NEW =>
    c.handle.map fun h => execute_texture_new self h c.texture_desc
  | .RENOIR_COMMAND_KIND_TEXTURE_FREE =>
    c.handle.map fun h => execute_texture_free self h
  | .RENOIR_COMMAND_KIND_SAMPLER_NEW =>
    c.handle.map fun h => execute_sampler_new self h c.sampler_desc
  | .RENOIR_COMMAND_KIND_SAMPLER_FREE =>
    c.handle.map fun h => execute_sampler_free self h
  | .RENOIR_COMMAND_KIND_PROGRAM_NEW =>
    c.handle.map fun h => execute_program_new self h c.program_desc
  | .RENOIR_COMMAND_KIND_PROGRAM_FREE =>
    c.handle.map fun h => execute_program_free self h
  | .RENOIR_COMMAND_KIND_COMPUTE_NEW =>
    c.handle.bind fun h => execute_compute_new self h c.program_desc
  | .RENOIR_COMMAND_KIND_COMPUTE_FREE =>
    c.handle.map fun h => execute_compute_free self h
  | .RENOIR_COMMAND_KIND_PIPELINE_NEW =>
    c.handle.map fun _ => self
  | .RENOIR_COMMAND_KIND_PIPELINE_FREE =>
    c.handle.map fun h => execute_pipeline_free self h
  | .RENOIR_COMMAND_KIND_PASS_BEGIN =>
    c.handle.bind fun h =>
      if (self.handles h).pass.swapchain.isSome ∨ (self.handles h).pass.fb ≠ 0 then
        some (emit self (Event.device .RENOIR_COMMAND_KIND_PASS_BEGIN))
      else none
  | .RENOIR_COMMAND_KIND_PASS_END =>
    c.handle.map fun _ => emit self (Event.device .RENOIR_COMMAND_KIND_PASS_END)
  | .RENOIR_COMMAND_KIND_PASS_CLEAR =>
    some (emit self (Event.device .RENOIR_COMMAND_KIND_PASS_CLEAR))
  | .RENOIR_COMMAND_KIND_USE_PIPELINE =>
    c.handle.map fun h =>
      emit { self with current_pipeline := some h }
        (Event.device .RENOIR_COMMAND_KIND_USE_PIPELINE)
  | .RENOIR_COMMAND_KIND_USE_PROGRAM =>
    c.handle.map fun h =>
      emit { self with current_program := some h }
        (Event.device .RENOIR_COMMAND_KIND_USE_PROGRAM)
  | .RENOIR_COMMAND_KIND_SCISSOR => some (emit self (Event.device .RENOIR_COMMAND_KIND_SCISSOR))
  | .RENOIR_COMMAND_KIND_BUFFER_WRITE =>
    c.handle.map fun _ =>
      emit (device_upload self c.bytes.ptr c.bytes.size)
        (Event.device .RENOIR_COMMAND_KIND_BUFFER_WRITE)
  | .RENOIR_COMMAND_KIND_TEXTURE_WRITE =>
    c.handle.map fun h => execute_texture_write self h c.args c.bytes
  | .RENOIR_COMMAND_KIND_BUFFER_READ =>
    c.handle.map fun _ => emit self (Event.device .RENOIR_COMMAND_KIND_BUFFER_READ)
  | .RENOIR_COMMAND_KIND_TEXTURE_READ =>
    c.handle.map fun _ => emit self (Event.device .RENOIR_COMMAND_KIND_TEXTURE_READ)
  | .RENOIR_COMMAND_KIND_BUFFER_BIND =>
    c.handle.map fun _ => emit self (Event.device .RENOIR_COMMAND_KIND_BUFFER_BIND)
  | .RENOIR_COMMAND_KIND_TEXTURE_BIND =>
    c.handle.map fun _ => emit self (Event.device .RENOIR_COMMAND_KIND_TEXTURE_BIND)
  | .RENOIR_COMMAND_KIND_SAMPLER_BIND =>
    c.handle.map fun _ => emit self (Event.device .RENOIR_COMMAND_KIND_SAMPLER_BIND)
  | .RENOIR_COMMAND_KIND_DRAW => some (emit self (Event.device .RENOIR_COMMAND_KIND_DRAW))
  | .RENOIR_COMMAND_KIND_NONE => none

/-- A list of command records: the `command_list_head` / `command_list_tail` pair of the
context or of a pass handle. -/
structure Command_List where
  command_list_head : Ptr := none
  command_list_tail : Ptr := none
deriving DecidableEq, Repr

/-- Renoir-gl450.cpp:1027, for the list `l` whose owner is the template argument. -/
def _renoir_gl450_command_push (l : Command_List) (commands : Nat → Renoir_Command)
    (command : Nat) : Command_List × (Nat → Renoir_Command) :=
  match l.command_list_tail with
  | none => ({ command_list_head := some command, command_list_tail := some command }, commands)
  | some tail =>
    let commands := write commands tail { commands tail with next := some command }
    let commands := write commands command { commands command with prev := some tail }
    ({ l with command_list_tail := some command }, commands)

/-- The call `_renoir_gl450_command_push(self, command)` on the device-wide list. -/
def command_push_self (self : IRenoir) (command : Nat) : IRenoir :=
  let r := _renoir_gl450_command_push ⟨self.command_list_head, self.command_list_tail⟩
    self.commands command
  { self with command_list_head := r.1.command_list_head,
              command_list_tail := r.1.command_list_tail,
              commands := r.2 }

/-- The call `_renoir_gl450_command_push(&h->pass, command)` on the private list of a pass. -/
def command_push_pass (self : IRenoir) (h : Nat) (command : Nat) : IRenoir :=
  let hd := self.handles h
  let r := _renoir_gl450_command_push ⟨hd.pass.command_list_head, hd.pass.command_list_tail⟩
    self.commands command
  { self with
    handles := write self.handles h
      { hd with pass := { hd.pass with command_list_head := r.1.command_list_head,
                                       command_list_tail := r.1.command_list_tail } },
    commands := r.2 }

/-- Renoir-gl450.cpp:1043. -/
def _renoir_gl450_command_process (fuel : Nat) (self : IRenoir) (command : Nat) :
    Option IRenoir :=
  let self := emit self (Event.command_process command (self.commands command))
  if self.settings.defer_api_calls then
    some (command_push_self self command)
  else
    match _renoir_gl450_command_execute fuel self command with
    | none => none
    | some self => some (_renoir_gl450_command_free self command)

/-- Renoir-gl450.cpp:1981 `_renoir_gl450_init`, after the GL context has been obtained. -/
def _renoir_gl450_init (settings : Renoir_Settings) : IRenoir :=
  let self : IRenoir :=
    { handle_pool := pool_new, command_pool := pool_new, settings := settings }
  let r := gl_create self
  let self := { r.2 with vao := r.1 }
  let r := gl_create self
  { r.2 with msaa_resolve_fb := r.1 }

/-- The drain loop `for(auto it = head; it != nullptr; it = it->next) { execute(it);
free(it); }` of swapchain_present and pass_end (Renoir-gl450.cpp:2076). -/
def drain : Nat → IRenoir → Ptr → Option IRenoir
  | _, self, none => some self
  | 0, _, some _ => none
  | fuel + 1, self, some it =>
    match _renoir_gl450_command_execute fuel self it with
    | none => none
    | some self =>
      let self := _renoir_gl450_command_free self it
      drain fuel self (self.commands it).next

/-- Renoir-gl450.cpp:2067 `_renoir_gl450_swapchain_present`: the list is drained and the
window is presented; `command_list_head` and `command_list_tail` are not written. -/
def _renoir_gl450_swapchain_present (fuel : Nat) (self : IRenoir) (h : Nat) : Option IRenoir :=
  (drain fuel self self.command_list_head).map fun self => emit self (Event.present h)

/-- Renoir-gl450.cpp:2024 `_renoir_gl450_swapchain_new`. -/
def _renoir_gl450_swapchain_new (fuel : Nat) (self : IRenoir) (width height : Int) :
    Option (Nat × IRenoir) :=
  let rh := _renoir_gl450_handle_new self .RENOIR_HANDLE_KIND_SWAPCHAIN
  let self := set_handle rh.2 rh.1
    { rh.2.handles rh.1 with swapchain_width := width, swapchain_height := height }
  let rc := _renoir_gl450_command_new self .RENOIR_COMMAND_KIND_SWAPCHAIN_NEW
  let self := set_command rc.2 rc.1 { rc.2.commands rc.1 with handle := some rh.1 }
  (_renoir_gl450_command_process fuel self rc.1).map fun self => (rh.1, self)

/-- Renoir-gl450.cpp:2086 `_renoir_gl450_buffer_new`; `none` when the assertion on the
description fails or a null pointer is read.  In deferred mode the initial data is copied
into a block of its own, whether or not the caller gave any. -/
def _renoir_gl450_buffer_new (fuel : Nat) (self : IRenoir) (desc : Renoir_Buffer_Desc) :
    Option (Nat × IRenoir) :=
  let desc : Renoir_Buffer_Desc :=
    if desc.usage = .RENOIR_USAGE_NONE then { desc with usage := .RENOIR_USAGE_STATIC } else desc
  if desc.usage = .RENOIR_USAGE_DYNAMIC ∧ desc.access = .RENOIR_ACCESS_NONE then none
  else
    let rh := _renoir_gl450_handle_new self .RENOIR_HANDLE_KIND_BUFFER
    let rc := _renoir_gl450_command_new rh.2 .RENOIR_COMMAND_KIND_BUFFER_NEW
    let self := set_command rc.2 rc.1
      { rc.2.commands rc.1 with handle := some rh.1, buffer_desc := desc }
    let copied : Option IRenoir :=
      if self.settings.defer_api_calls then
        let b := mn_alloc self desc.data_size
        let self := set_command b.2 rc.1
          { b.2.commands rc.1 with
            buffer_desc := { (b.2.commands rc.1).buffer_desc with data := b.1.ptr } }
        (memcpy self b.1.ptr desc.data desc.data_size).map fun self =>
          set_command self rc.1 { self.commands rc.1 with owns_data := true }
      else some self
    copied.bind fun self =>
      (_renoir_gl450_command_process fuel self rc.1).map fun self => (rh.1, self)

/-- Renoir-gl450.cpp:2129 `_renoir_gl450_texture_new`. -/
def _renoir_gl450_texture_new (fuel : Nat) (self : IRenoir) (desc : Renoir_Texture_Desc) :
    Option (Nat × IRenoir) :=
  let desc : Renoir_Texture_Desc :=
    if desc.usage = .RENOIR_USAGE_NONE then { desc with usage := .RENOIR_USAGE_STATIC } else desc
  if desc.usage = .RENOIR_USAGE_DYNAMIC ∧ desc.access = .RENOIR_ACCESS_NONE then none
  else
    let rh := _renoir_gl450_handle_new self .RENOIR_HANDLE_KIND_TEXTURE
    let rc := _renoir_gl450_command_new rh.2 .RENOIR_COMMAND_KIND_TEXTURE_NEW
    let self := set_command rc.2 rc.1
      { rc.2.commands rc.1 with handle := some rh.1, texture_desc := desc }
    let copied : Option IRenoir :=
      if self.settings.defer_api_calls then
        let b := mn_alloc self desc.data_size
        let self := set_command b.2 rc.1
          { b.2.commands rc.1 with
            texture_desc := { (b.2.commands rc.1).texture_desc with data := b.1.ptr } }
        (memcpy self b.1.ptr desc.data desc.data_size).map fun self =>
          set_command self rc.1 { self.commands rc.1 with owns_data := true }
      else some self
    copied.bind fun self =>
      (_renoir_gl450_command_process fuel self rc.1).map fun self => (rh.1, self)

/-- Renoir-gl450.cpp:2172. -/
def _renoir_gl450_sampler_new (fuel : Nat) (self : IRenoir) (desc : Renoir_Sampler_Desc) :
    Option (Nat × IRenoir) :=
  let rh := _renoir_gl450_handle_new self .RENOIR_HANDLE_KIND_SAMPLER
  let rc := _renoir_gl450_command_new rh.2 .RENOIR_COMMAND_KIND_SAMPLER_NEW
  let self := set_command rc.2 rc.1
    { rc.2.commands rc.1 with handle := some rh.1, sampler_desc := desc }
  (_renoir_gl450_command_process fuel self rc.1).map fun self => (rh.1, self)

/-- The `strlen` defaults of `program_new` and `compute_new`: a source given with size 0 is
a zero-terminated string. -/
def blob_sized (heap : Nat → List Nat) (b : Block) : Block :=
  if b.size = 0 then { b with size := strlen heap b.ptr } else b

/-- The deep copy of one shader source: `bytes = mn::alloc(size); memcpy(bytes, src, size)`.
The result is the block of the copy and the context. -/
def blob_copy (self : IRenoir) (b : Block) : Option (Block × IRenoir) :=
  let r := mn_alloc self b.size
  (memcpy r.2 r.1.ptr b.ptr b.size).map fun self => ({ b with ptr := r.1.ptr }, self)

/-- Renoir-gl450.cpp:2263 `_renoir_gl450_program_new`. -/
def _renoir_gl450_program_new (fuel : Nat) (self : IRenoir) (desc : Renoir_Program_Desc) :
    Option (Nat × IRenoir) :=
  if desc.vertex.ptr = none ∨ desc.pixel.ptr = none then none
  else
    let desc := { desc with vertex := blob_sized self.heap desc.vertex }
    let desc := { desc with pixel := blob_sized self.heap desc.pixel }
    let desc :=
      if desc.geometry.ptr.isSome then { desc with geometry := blob_sized self.heap desc.geometry }
      else desc
    let rh := _renoir_gl450_handle_new self .RENOIR_HANDLE_KIND_PROGRAM
    let rc := _renoir_gl450_command_new rh.2 .RENOIR_COMMAND_KIND_PROGRAM_NEW
    let self := set_command rc.2 rc.1
      { rc.2.commands rc.1 with handle := some rh.1, program_desc := desc }
    let copied : Option IRenoir :=
      if self.settings.defer_api_calls then
        (blob_copy self desc.vertex).bind fun v =>
        let self := set_command v.2 rc.1
          { v.2.commands rc.1 with
            program_desc := { (v.2.commands rc.1).program_desc with vertex := v.1 } }
        (blob_copy self desc.pixel).bind fun p =>
        let self := set_command p.2 rc.1
          { p.2.commands rc.1 with
            program_desc := { (p.2.commands rc.1).program_desc with pixel := p.1 } }
        let geometry : Option IRenoir :=
          if (self.commands rc.1).program_desc.geometry.ptr.isSome then
            (blob_copy self desc.geometry).map fun g =>
              set_command g.2 rc.1
                { g.2.commands rc.1 with
                  program_desc := { (g.2.commands rc.1).program_desc with geometry := g.1 } }
          else some self
        geometry.map fun self =>
          set_command self rc.1 { self.commands rc.1 with owns_data := true }
      else some self
    copied.bind fun self =>
      (_renoir_gl450_command_process fuel self rc.1).map fun self => (rh.1, self)

/-- Renoir-gl450.cpp:2317 `_renoir_gl450_compute_new`.  The last statement of the deferred
branch is `command->program_new.owns_data = true;`. -/
def _renoir_gl450_compute_new (fuel : Nat) (self : IRenoir) (compute : Block) :
    Option (Nat × IRenoir) :=
  if compute.ptr = none then none
  else
    let compute := blob_sized self.heap compute
    let rh := _renoir_gl450_handle_new self .RENOIR_HANDLE_KIND_COMPUTE
    let rc := _renoir_gl450_command_new rh.2 .RENOIR_COMMAND_KIND_COMPUTE_NEW
    let self := set_command rc.2 rc.1
      { rc.2.commands rc.1 with
        handle := some rh.1,
        program_desc := { (rc.2.commands rc.1).program_desc with compute := compute } }
    let copied : Option IRenoir :=
      if self.settings.defer_api_calls then
        (blob_copy self compute).map fun b =>
          let self := set_command b.2 rc.1
            { b.2.commands rc.1 with
              program_desc := { (b.2.commands rc.1).program_desc with compute := b.1 } }
          set_command self rc.1 { self.commands rc.1 with owns_data := true }
      else some self
    copied.bind fun self =>
      (_renoir_gl450_command_process fuel self rc.1).map fun self => (rh.1, self)

/-- Renoir-gl450.cpp:2415 `_renoir_gl450_pass_new`. -/
def _renoir_gl450_pass_new (fuel : Nat) (self : IRenoir) (swapchain : Ptr) :
    Option (Nat × IRenoir) :=
  let rh := _renoir_gl450_handle_new self .RENOIR_HANDLE_KIND_PASS
  let rc := _renoir_gl450_command_new rh.2 .RENOIR_COMMAND_KIND_PASS_NEW
  let self := set_command rc.2 rc.1
    { rc.2.commands rc.1 with handle := some rh.1, swapchain := swapchain }
  (_renoir_gl450_command_process fuel self rc.1).map fun self => (rh.1, self)

/-- Renoir-gl450.cpp:2462. -/
def _renoir_gl450_pass_begin (self : IRenoir) (h : Nat) : IRenoir :=
  let self := set_handle self h
    { self.handles h with
      pass := { (self.handles h).pass with command_list_head := none,
                                           command_list_tail := none } }
  let rc := _renoir_gl450_command_new self .RENOIR_COMMAND_KIND_PASS_BEGIN
  let self := set_command rc.2 rc.1 { rc.2.commands rc.1 with handle := some h }
  command_push_pass self h rc.1

/-- Renoir-gl450.cpp:2478 `_renoir_gl450_pass_end`. -/
def _renoir_gl450_pass_end (fuel : Nat) (self : IRenoir) (h : Nat) : Option IRenoir :=
  let ended : Option IRenoir :=
    if (self.handles h).pass.command_list_head ≠ none then
      let rc := _renoir_gl450_command_new self .RENOIR_COMMAND_KIND_PASS_END
      let self := set_command rc.2 rc.1 { rc.2.commands rc.1 with handle := some h }
      let self := command_push_pass self h rc.1
      if self.settings.defer_api_calls then
        match self.command_list_tail with
        | none =>
          some { self with command_list_head := (self.handles h).pass.command_list_head,
                           command_list_tail := (self.handles h).pass.command_list_tail }
        | some tail =>
          some { self with
                 commands := write self.commands tail
                   { self.commands tail with next := (self.handles h).pass.command_list_head },
                 command_list_tail := (self.handles h).pass.command_list_tail }
      else drain fuel self (self.handles h).pass.command_list_head
    else some self
  ended.map fun self =>
    set_handle self h
      { self.handles h with
        pass := { (self.handles h).pass with command_list_head := none,
                                             command_list_tail := none } }

/-- Renoir-gl450.cpp:2522. -/
def _renoir_gl450_clear (self : IRenoir) (h : Nat) (desc : Renoir_Clear_Desc) : IRenoir :=
  let rc := _renoir_gl450_command_new self .RENOIR_COMMAND_KIND_PASS_CLEAR
  let self := set_command rc.2 rc.1
    { rc.2.commands rc.1 with clear_color := desc.clear_color, clear_depth := desc.clear_depth }
  command_push_pass self h rc.1

/-- Renoir-gl450.cpp:2536. -/
def _renoir_gl450_use_pipeline (self : IRenoir) (h : Nat) (pipeline : Ptr) : IRenoir :=
  let rc := _renoir_gl450_command_new self .RENOIR_COMMAND_KIND_USE_PIPELINE
  let self := set_command rc.2 rc.1 { rc.2.commands rc.1 with handle := pipeline }
  command_push_pass self h rc.1

/-- Renoir-gl450.cpp:2550. -/
def _renoir_gl450_use_program (self : IRenoir) (h : Nat) (program : Ptr) : IRenoir :=
  let rc := _renoir_gl450_command_new self .RENOIR_COMMAND_KIND_USE_PROGRAM
  let self := set_command rc.2 rc.1 { rc.2.commands rc.1 with handle := program }
  command_push_pass self h rc.1

/-- Renoir-gl450.cpp:2564. -/
def _renoir_gl450_scissor (self : IRenoir) (h : Nat) (x y width height : Int) : IRenoir :=
  let rc := _renoir_gl450_command_new self .RENOIR_COMMAND_KIND_SCISSOR
  let self := set_command rc.2 rc.1 { rc.2.commands rc.1 with args := [x, y, width, height] }
  command_push_pass self h rc.1

/-- Renoir-gl450.cpp:2581 `_renoir_gl450_buffer_write`: the bytes are copied into a block
the record owns. -/
def _renoir_gl450_buffer_write (self : IRenoir) (h : Nat) (buffer : Ptr) (offset : Nat)
    (bytes : Ptr) (bytes_size : Nat) : Option IRenoir :=
  let rc := _renoir_gl450_command_new self .RENOIR_COMMAND_KIND_BUFFER_WRITE
  let b := mn_alloc rc.2 bytes_size
  let self := set_command b.2 rc.1
    { b.2.commands rc.1 with handle := buffer, args := [(offset : Int)], bytes := b.1 }
  (memcpy self b.1.ptr bytes bytes_size).map fun self => command_push_pass self h rc.1

/-- Renoir-gl450.cpp:2600 `_renoir_gl450_texture_write`: the bytes are copied into a block
the record owns. -/
def _renoir_gl450_texture_write (self : IRenoir) (h : Nat) (texture : Ptr)
    (desc : Renoir_Texture_Edit_Desc) : Option IRenoir :=
  let rc := _renoir_gl450_command_new self .RENOIR_COMMAND_KIND_TEXTURE_WRITE
  let self := set_command rc.2 rc.1
    { rc.2.commands rc.1 with
      handle := texture,
      args := [desc.x, desc.y, desc.z, desc.width, desc.height, desc.depth],
      bytes := ⟨desc.bytes, desc.bytes_size⟩ }
  let b := mn_alloc self desc.bytes_size
  let self := set_command b.2 rc.1
    { b.2.commands rc.1 with bytes := { (b.2.commands rc.1).bytes with ptr := b.1.ptr } }
  (memcpy self b.1.ptr desc.bytes desc.bytes_size).map fun self =>
    command_push_pass self h rc.1

/-- Renoir-gl450.cpp:2650. -/
def _renoir_gl450_buffer_bind (self : IRenoir) (h : Nat) (buffer : Ptr) (shader slot : Int) :
    IRenoir :=
  let rc := _renoir_gl450_command_new self .RENOIR_COMMAND_KIND_BUFFER_BIND
  let self := set_command rc.2 rc.1
    { rc.2.commands rc.1 with handle := buffer, args := [shader, slot] }
  command_push_pass self h rc.1

/-- Renoir-gl450.cpp:2667. -/
def _renoir_gl450_texture_bind (self : IRenoir) (h : Nat) (texture : Ptr) (shader slot : Int) :
    IRenoir :=
  let rc := _renoir_gl450_command_new self .RENOIR_COMMAND_KIND_TEXTURE_BIND
  let self := set_command rc.2 rc.1
    { rc.2.commands rc.1 with handle := texture, args := [shader, slot] }
  command_push_pass self h rc.1

/-- Renoir-gl450.cpp:2684. -/
def _renoir_gl450_sampler_bind (self : IRenoir) (h : Nat) (sampler : Ptr) (shader slot : Int) :
    IRenoir :=
  let rc := _renoir_gl450_command_new self .RENOIR_COMMAND_KIND_SAMPLER_BIND
  let self := set_command rc.2 rc.1
    { rc.2.commands rc.1 with handle := sampler, args := [shader, slot] }
  command_push_pass self h rc.1

/-- Renoir-gl450.cpp:2701. -/
def _renoir_gl450_draw (self : IRenoir) (h : Nat) (desc : Renoir_Draw_Desc) : IRenoir :=
  let rc := _renoir_gl450_command_new self .RENOIR_COMMAND_KIND_DRAW
  let self := set_command rc.2 rc.1 { rc.2.commands rc.1 with args := desc.members }
  command_push_pass self h rc.1

/-- The trace restricted to the calls of `_renoir_gl450_command_execute`: which records
were executed, in order, and what they held. -/
def executed (trace : List Event) : List (Nat × Renoir_Command) :=
  trace.filterMap fun e =>
    match e with
    | .command_execute command record => some (command, record)
    | _ => none

/-- The trace restricted to the calls of `_renoir_gl450_command_free`. -/
def freed (trace : List Event) : List (Nat × Renoir_Command) :=
  trace.filterMap fun e =>
    match e with
    | .command_free command record => some (command, record)
    | _ => none

/-- The bytes GL read from host memory, in order. -/
def uploads (trace : List Event) : List (List Nat) :=
  trace.filterMap fun e =>
    match e with
    | .upload bytes => some bytes
    | _ => none

/-- A sequence of `_renoir_gl450_handle_ref` / `_renoir_gl450_handle_unref` calls on the
handle `h`. -/
def rc_calls (handles : Nat → Renoir_Handle) (h : Nat) : List Rc_Call → (Nat → Renoir_Handle)
  | [] => handles
  | .ref :: rest => rc_calls (_renoir_gl450_handle_ref handles h).2 h rest
  | .unref :: rest => rc_calls (_renoir_gl450_handle_unref handles h).2 h rest

/-- The `*_FREE` command kind of every resource kind. -/
def free_kind : RENOIR_HANDLE_KIND → RENOIR_COMMAND_KIND
  | .RENOIR_HANDLE_KIND_NONE => .RENOIR_COMMAND_KIND_NONE
  | .RENOIR_HANDLE_KIND_SWAPCHAIN => .RENOIR_COMMAND_KIND_SWAPCHAIN_FREE
  | .RENOIR_HANDLE_KIND_PASS => .RENOIR_COMMAND_KIND_PASS_FREE
  | .RENOIR_HANDLE_KIND_BUFFER => .RENOIR_COMMAND_KIND_BUFFER_FREE
  | .RENOIR_HANDLE_KIND_TEXTURE => .RENOIR_COMMAND_KIND_TEXTURE_FREE
  | .RENOIR_HANDLE_KIND_SAMPLER => .RENOIR_COMMAND_KIND_SAMPLER_FREE
  | .RENOIR_HANDLE_KIND_PROGRAM => .RENOIR_COMMAND_KIND_PROGRAM_FREE
  | .RENOIR_HANDLE_KIND_COMPUTE => .RENOIR_COMMAND_KIND_COMPUTE_FREE
  | .RENOIR_HANDLE_KIND_PIPELINE => .RENOIR_COMMAND_KIND_PIPELINE_FREE

/-- A sequence of `handle_ref` calls on the handle `h` and executions of the command
record `command`. -/
def life_calls (fuel : Nat) (command h : Nat) : IRenoir → List Life_Call → Option IRenoir
  | self, [] => some self
  | self, .ref :: rest =>
    life_calls fuel command h
      { self with handles := (_renoir_gl450_handle_ref self.handles h).2 } rest
  | self, .free :: rest =>
    match _renoir_gl450_command_execute fuel self command with
    | none => none
    | some self => life_calls fuel command h self rest

/-- How often the slot of handle `h` was returned to the handle pool. -/
def teardowns (trace : List Event) (h : Nat) : Nat := trace.count (Event.handle_free h)

/-- The command records on a list, in order, read by following `next` from `it`; `none`
when the end is not reached within `fuel` records. -/
def list_records (commands : Nat → Renoir_Command) : Nat → Ptr → Option (List Nat)
  | _, none => some []
  | 0, some _ => none
  | fuel + 1, some it => (list_records commands fuel (commands it).next).map fun l => it :: l

/-- A pass without pending records and without attachments. -/
def plain_pass (hd : Renoir_Handle) : Prop :=
  hd.pass.command_list_head = none ∧ hd.pass.offscreen = {}

/-- GL, deferred mode: a window and a sampler are created (two records are queued), then
`swapchain_present` is called twice with nothing issued in between.  The result is the
context after the first and after the second call. -/
def present_twice (fuel : Nat) : Option (IRenoir × IRenoir) :=
  (_renoir_gl450_swapchain_new fuel (_renoir_gl450_init { defer_api_calls := true })
    640 480).bind fun w =>
  (_renoir_gl450_sampler_new fuel w.2 {}).bind fun s =>
  (_renoir_gl450_swapchain_present fuel s.2 w.1).bind fun once =>
  (_renoir_gl450_swapchain_present fuel once w.1).map fun twice => (once, twice)

/-- The blocks `mn::alloc` returned, in order. -/
def allocated (trace : List Event) : List Block :=
  trace.filterMap fun e =>
    match e with
    | .mn_alloc b => some b
    | _ => none

/-- The blocks handed to `mn::free`, in order. -/
def released (trace : List Event) : List Block :=
  trace.filterMap fun e =>
    match e with
    | .mn_free b => some b
    | _ => none

/-- Deferred mode: the caller holds a three byte shader source in block 10 of the heap;
`compute_new` is called with it and the device-wide list is drained by a present. -/
def compute_new_scenario (fuel : Nat) : Option IRenoir :=
  (_renoir_gl450_swapchain_new fuel (_renoir_gl450_init { defer_api_calls := true })
    640 480).bind fun w =>
  (_renoir_gl450_compute_new fuel { w.2 with heap := write w.2.heap 10 [99, 115, 0] }
    ⟨some 10, 3⟩).bind fun r =>
  _renoir_gl450_swapchain_present fuel r.2 w.1

/-- Deferred mode: the same source is given to `program_new` as vertex and as pixel shader,
and the device-wide list is drained by a present. -/
def program_new_scenario (fuel : Nat) : Option IRenoir :=
  (_renoir_gl450_swapchain_new fuel (_renoir_gl450_init { defer_api_calls := true })
    640 480).bind fun w =>
  (_renoir_gl450_program_new fuel { w.2 with heap := write w.2.heap 10 [99, 115, 0] }
    { vertex := ⟨some 10, 3⟩, pixel := ⟨some 10, 3⟩ }).bind fun r =>
  _renoir_gl450_swapchain_present fuel r.2 w.1

/-- The linkage of a context: the `next` pointers, kinds and handles of its command records,
its command pool, its list pointers and the records it executed. -/
def links (s : IRenoir) : Links (RENOIR_COMMAND_KIND × Ptr) :=
  { next := fun a => (s.commands a).next,
    label := fun a => ((s.commands a).kind, (s.commands a).handle),
    pool := s.command_pool,
    head := s.command_list_head,
    tail := s.command_list_tail,
    phead := fun h => (s.handles h).pass.command_list_head,
    ptail := fun h => (s.handles h).pass.command_list_tail,
    log := (executed s.trace).map fun r => (r.1, (r.2.kind, r.2.handle)) }

/-- The kinds of the records the pass functions put on a private list. -/
def recordable : RENOIR_COMMAND_KIND → Bool
  | .RENOIR_COMMAND_KIND_PASS_BEGIN => true
  | .RENOIR_COMMAND_KIND_PASS_END => true
  | .RENOIR_COMMAND_KIND_PASS_CLEAR => true
  | .RENOIR_COMMAND_KIND_USE_PIPELINE => true
  | .RENOIR_COMMAND_KIND_USE_PROGRAM => true
  | .RENOIR_COMMAND_KIND_SCISSOR => true
  | .RENOIR_COMMAND_KIND_BUFFER_WRITE => true
  | .RENOIR_COMMAND_KIND_TEXTURE_WRITE => true
  | .RENOIR_COMMAND_KIND_BUFFER_BIND => true
  | .RENOIR_COMMAND_KIND_TEXTURE_BIND => true
  | .RENOIR_COMMAND_KIND_SAMPLER_BIND => true
  | .RENOIR_COMMAND_KIND_DRAW => true
  | _ => false

/-- The part of a context the recording functions and the drain loops read, the log
apart, is the same in `s` and `s'`: command records, pools, list pointers and settings. -/
def same_lists (s s' : IRenoir) : Prop :=
  s'.commands = s.commands ∧ s'.command_pool = s.command_pool ∧
  s'.command_list_head = s.command_list_head ∧ s'.command_list_tail = s.command_list_tail ∧
  s'.handle_pool = s.handle_pool ∧
  s'.settings = s.settings ∧
  (∀ h, (s'.handles h).pass.command_list_head = (s.handles h).pass.command_list_head ∧
    (s'.handles h).pass.command_list_tail = (s.handles h).pass.command_list_tail)

/-- The records `l` are executed and freed one after the other, in the order of `l`. -/
def execute_in_order (fuel : Nat) : IRenoir → List Nat → Option IRenoir
  | s, [] => some s
  | s, c :: l =>
    match _renoir_gl450_command_execute fuel s c with
    | none => none
    | some s => execute_in_order fuel (_renoir_gl450_command_free s c) l

/-- A call of the pass interface. -/
inductive Pass_Call where
  | pass_begin
  | clear (desc : Renoir_Clear_Desc)
  | use_pipeline (pipeline : Ptr)
  | use_program (program : Ptr)
  | scissor (x y width height : Int)
  | buffer_write (buffer : Ptr) (offset : Nat) (bytes : Ptr) (bytes_size : Nat)
  | texture_write (texture : Ptr) (desc : Renoir_Texture_Edit_Desc)
  | buffer_bind (buffer : Ptr) (shader slot : Int)
  | texture_bind (texture : Ptr) (shader slot : Int)
  | sampler_bind (sampler : Ptr) (shader slot : Int)
  | draw (desc : Renoir_Draw_Desc)
  | pass_end

/-- The call `call` on the pass `h`. -/
def pass_call (fuel : Nat) (s : IRenoir) (h : Nat) : Pass_Call → Option IRenoir
  | .pass_begin => some (_renoir_gl450_pass_begin s h)
  | .clear desc => some (_renoir_gl450_clear s h desc)
  | .use_pipeline pipeline => some (_renoir_gl450_use_pipeline s h pipeline)
  | .use_program program => some (_renoir_gl450_use_program s h program)
  | .scissor x y width height => some (_renoir_gl450_scissor s h x y width height)
  | .buffer_write buffer offset bytes bytes_size =>
    _renoir_gl450_buffer_write s h buffer offset bytes bytes_size
  | .texture_write texture desc => _renoir_gl450_texture_write s h texture desc
  | .buffer_bind buffer shader slot => some (_renoir_gl450_buffer_bind s h buffer shader slot)
  | .texture_bind texture shader slot => some (_renoir_gl450_texture_bind s h texture shader slot)
  | .sampler_bind sampler shader slot => some (_renoir_gl450_sampler_bind s h sampler shader slot)
  | .draw desc => some (_renoir_gl450_draw s h desc)
  | .pass_end => _renoir_gl450_pass_end fuel s h

/-- A sequence of calls of the pass interface, each on its pass. -/
def pass_calls (fuel : Nat) : IRenoir → List (Nat × Pass_Call) → Option IRenoir
  | s, [] => some s
  | s, (h, call) :: rest =>
    match pass_call fuel s h call with
    | none => none
    | some s => pass_calls fuel s rest

/-- The kind and the handle of the record a recording call leaves on the private list
(`none` for `pass_begin` and `pass_end`). -/
def Pass_Call.label : Pass_Call → Option (RENOIR_COMMAND_KIND × Ptr)
  | .pass_begin => none
  | .clear _ => some (.RENOIR_COMMAND_KIND_PASS_CLEAR, none)
  | .use_pipeline pipeline => some (.RENOIR_COMMAND_KIND_USE_PIPELINE, pipeline)
  | .use_program program => some (.RENOIR_COMMAND_KIND_USE_PROGRAM, program)
  | .scissor _ _ _ _ => some (.RENOIR_COMMAND_KIND_SCISSOR, none)
  | .buffer_write buffer _ _ _ => some (.RENOIR_COMMAND_KIND_BUFFER_WRITE, buffer)
  | .texture_write texture _ => some (.RENOIR_COMMAND_KIND_TEXTURE_WRITE, texture)
  | .buffer_bind buffer _ _ => some (.RENOIR_COMMAND_KIND_BUFFER_BIND, buffer)
  | .texture_bind texture _ _ => some (.RENOIR_COMMAND_KIND_TEXTURE_BIND, texture)
  | .sampler_bind sampler _ _ => some (.RENOIR_COMMAND_KIND_SAMPLER_BIND, sampler)
  | .draw _ => some (.RENOIR_COMMAND_KIND_DRAW, none)
  | .pass_end => none

/-- The call is one of the recording calls (not `pass_begin`, not `pass_end`). -/
def Pass_Call.recording : Pass_Call → Bool
  | .pass_begin => false
  | .pass_end => false
  | _ => true

/-- What a call on the pass `h` does to the private list of `h`, as a step on the linkage
(`defer` is the mode of the context). -/
def Pass_Call.step (defer : Bool) (h : Nat) (call : Pass_Call) :
    Option (Step (RENOIR_COMMAND_KIND × Ptr)) :=
  match call with
  | .pass_begin => some (.pass_begin h (.RENOIR_COMMAND_KIND_PASS_BEGIN, some h))
  | .pass_end =>
    if defer then some (.pass_end_deferred h (.RENOIR_COMMAND_KIND_PASS_END, some h))
    else some (.pass_end_immediate h (.RENOIR_COMMAND_KIND_PASS_END, some h))
  | call => call.label.map (Step.record h)

/-- The context `s` holds the lists of the model `M`, and the private lists of the passes
`hs` hold records of the pass functions only. -/
def Inv (s : IRenoir) (M : Model (RENOIR_COMMAND_KIND × Ptr)) (hs : List Nat) : Prop :=
  links s = M.links ∧ M.WF hs ∧
  (∀ h ∈ hs, ∀ x ∈ M.priv h, recordable (M.links.label x).1 = true)

/-- The first three statements of the non-empty branch of `_renoir_gl450_pass_end`
(Renoir-gl450.cpp:2489): a `PASS_END` record for `h` is pushed on the private list of `h`. -/
def pass_end_pushed (self : IRenoir) (h : Nat) : IRenoir :=
  let rc := _renoir_gl450_command_new self .RENOIR_COMMAND_KIND_PASS_END
  let self := set_command rc.2 rc.1 { rc.2.commands rc.1 with handle := some h }
  command_push_pass self h rc.1

/-- The last two statements of `_renoir_gl450_pass_end` (Renoir-gl450.cpp:2518): the private
list pointers of `h` are set to null. -/
def pass_list_reset (self : IRenoir) (h : Nat) : IRenoir :=
  set_handle self h
    { self.handles h with
      pass := { (self.handles h).pass with command_list_head := none,
                                           command_list_tail := none } }

/-- A context in which the handles 0 and 1 are passes with a framebuffer and empty private
lists, and block 0 of the command pool is in use; in deferred mode block 0 is the one record
of the device-wide list. -/
def two_pass_context (defer : Bool) : IRenoir :=
  { handle_pool := { free := [], fresh := 2 },
    command_pool := { free := [], fresh := 1 },
    settings := { defer_api_calls := defer },
    command_list_head := if defer then some 0 else none,
    command_list_tail := if defer then some 0 else none,
    handles := fun _ => { kind := .RENOIR_HANDLE_KIND_PASS, rc := 1, pass := { fb := 1 } },
    commands := fun _ => { kind := .RENOIR_COMMAND_KIND_PASS_NEW, handle := some 0 } }

/-- The pass 0 of `two_pass_context` in the Recording state, after `pass_begin` and one
`clear`: its private list is `[1, 2]`. -/
def recording_context (defer : Bool) : IRenoir :=
  _renoir_gl450_clear (_renoir_gl450_pass_begin (two_pass_context defer) 0) 0
    { clear_color := true }

/-- The caller stores `bytes` in its block `a` (or frees the block, after which it holds
anything). -/
def caller_write (self : IRenoir) (a : Nat) (bytes : List Nat) : IRenoir :=
  { self with heap := write self.heap a bytes }

/-- The call `buffer_new`, then the caller overwrites its block `a`, then the device-wide
list is drained by `swapchain_present` on the swapchain `swapchain`. -/
def buffer_new_run (fuel : Nat) (self : IRenoir) (desc : Renoir_Buffer_Desc)
    (a : Nat) (junk : List Nat) (swapchain : Nat) : Option IRenoir :=
  (_renoir_gl450_buffer_new fuel self desc).bind fun r =>
    _renoir_gl450_swapchain_present fuel (caller_write r.2 a junk) swapchain

/-- A deferred context with nothing pending: the caller's block 0 holds four bytes, and
every handle is a two-dimensional texture. -/
def copy_context : IRenoir :=
  { settings := { defer_api_calls := true },
    heap_fresh := 1,
    heap := write (fun _ => []) 0 [10, 20, 30, 40],
    handles := fun _ => { kind := .RENOIR_HANDLE_KIND_TEXTURE, rc := 1,
                          texture := { size := { width := 2, height := 2 } } } }

/-- The command records, the command pool, the pointers of the device-wide list and the
log of executed records are the same in `s` and `s'`. -/
def same_commands (s s' : IRenoir) : Prop :=
  s'.commands = s.commands ∧ s'.command_pool = s.command_pool ∧
  s'.command_list_head = s.command_list_head ∧ s'.command_list_tail = s.command_list_tail ∧
  executed s'.trace = executed s.trace

/-- From `s` to `s'` the records `D` are kept: provided no record of `D` is a block the
command pool of `s` would hand out, the same holds in `s'`, the records of `D` and the
pointers of the device-wide list are unchanged, and the records executed in between are
`TEXTURE_FREE` commands. -/
def keeps_list (D : List Nat) (s s' : IRenoir) : Prop :=
  (∀ x ∈ D, x ∉ s.command_pool.free ∧ x < s.command_pool.fresh) →
    s'.command_list_head = s.command_list_head ∧
    s'.command_list_tail = s.command_list_tail ∧
    (∀ x ∈ D, s'.commands x = s.commands x) ∧
    (∀ x ∈ D, x ∉ s'.command_pool.free ∧ x < s'.command_pool.fresh) ∧
    ∃ rest, executed s'.trace = executed s.trace ++ rest ∧
      ∀ r ∈ rest, r.2.kind = .RENOIR_COMMAND_KIND_TEXTURE_FREE

/-- The GL call a texture command makes for a texture: the one for one, two or three
dimensions, or none at all. -/
inductive Texture_Path where
  | one_dimensional
  | two_dimensional
  | three_dimensional
  | no_call
deriving DecidableEq, Repr

/-- Renoir-gl450.cpp:1259, the branches of `RENOIR_COMMAND_KIND_TEXTURE_NEW`
(`glTextureStorage1D`, `glTextureStorage2D`, `glTextureStorage3D`). -/
def texture_new_path (size : Renoir_Size) : Texture_Path :=
  if size.height = 0 ∧ size.depth = 0 then .one_dimensional
  else if size.height > 0 ∧ size.depth = 0 then .two_dimensional
  else if size.height > 0 ∧ size.depth > 0 then .three_dimensional
  else .no_call

/-- Renoir-gl450.cpp:1734, the branches of `RENOIR_COMMAND_KIND_TEXTURE_WRITE`
(`glTextureSubImage1D`, `glTextureSubImage2D`, `glTextureSubImage3D`); the third
condition is the one of the source, line 1762. -/
def texture_write_path (size : Renoir_Size) : Texture_Path :=
  if size.height = 0 ∧ size.depth = 0 then .one_dimensional
  else if size.height > 0 ∧ size.depth = 0 then .two_dimensional
  else if size.height > 0 ∧ size.depth = 0 then .three_dimensional
  else .no_call

/-- Renoir-gl450.cpp:1801, the branches of `RENOIR_COMMAND_KIND_TEXTURE_READ` (the three
`glGetTextureSubImage` calls); the third condition is the one of the source, line 1837. -/
def texture_read_path (size : Renoir_Size) : Texture_Path :=
  if size.height = 0 ∧ size.depth = 0 then .one_dimensional
  else if size.height > 0 ∧ size.depth = 0 then .two_dimensional
  else if size.height > 0 ∧ size.depth = 0 then .three_dimensional
  else .no_call

/-- Renoir-gl450.cpp:1877, the branches of `RENOIR_COMMAND_KIND_TEXTURE_BIND` for a shader
other than the compute shader (`glBindTexture` with `GL_TEXTURE_1D`, `GL_TEXTURE_2D`,
`GL_TEXTURE_3D`); the third condition is the one of the source, line 1887. -/
def texture_bind_path (size : Renoir_Size) : Texture_Path :=
  if size.height = 0 ∧ size.depth = 0 then .one_dimensional
  else if size.height > 0 ∧ size.depth = 0 then .two_dimensional
  else if size.height > 0 ∧ size.depth = 0 then .three_dimensional
  else .no_call

/-- Immediate mode: the pass 0 of `two_pass_context` has the two pending records 1 and 2
(`pass_begin` and one `draw`, no `pass_end`), and record 3 is a `PASS_FREE` command on
that pass. -/
def pending_pass_free_context : IRenoir :=
  let s := _renoir_gl450_draw (_renoir_gl450_pass_begin (two_pass_context false) 0) 0 {}
  let rc := _renoir_gl450_command_new s .RENOIR_COMMAND_KIND_PASS_FREE
  set_command rc.2 rc.1 { rc.2.commands rc.1 with handle := some 0 }

/-- Case `RENOIR_COMMAND_KIND_PROGRAM_NEW` (Renoir-gl450.cpp:1389) with the outcome of
`glLinkProgram` as the parameter `link_ok`.  A stage that fails to compile is logged and
leaves the case; a link failure ends in `mn::panic` (Renoir-gl450.cpp:1452) after
`h->program.id` was stored, and the call does not return (`none`).  With `link_ok = true`
this is `execute_program_new`. -/
def execute_program_new_linked (link_ok : Bool) (self : IRenoir) (h : Nat)
    (desc : Renoir_Program_Desc) : Option IRenoir :=
  let vertex_shader := gl_create self
  let self := vertex_shader.2
  if self.compile_ok desc.vertex = false then some (emit self Event.log_error)
  else
    let pixel_shader := gl_create self
    let self := pixel_shader.2
    if self.compile_ok desc.pixel = false then some (emit self Event.log_error)
    else
      let geometry_shader := if desc.geometry.ptr.isSome then gl_create self else (0, self)
      let self := geometry_shader.2
      if desc.geometry.ptr.isSome ∧ self.compile_ok desc.geometry = false then
        some (emit self Event.log_error)
      else
        let r := gl_create self
        let self := set_handle r.2 h { r.2.handles h with program_id := r.1 }
        if link_ok = false then none
        else
          let self := gl_delete self vertex_shader.1
          let self := gl_delete self pixel_shader.1
          some (if desc.geometry.ptr.isSome then gl_delete self geometry_shader.1 else self)

/-- A context whose handle 2 is a fresh program handle and in which the compiler rejects
every source that starts at block 1 and accepts the others. -/
def pixel_failure_context : IRenoir :=
  { two_pass_context false with
    handle_pool := { free := [], fresh := 3 },
    handles := write (two_pass_context false).handles 2
      { kind := .RENOIR_HANDLE_KIND_PROGRAM, rc := 1 },
    compile_ok := fun b => decide (b.ptr ≠ some 1) }

/-- How often a TEXTURE_FREE record on the handle `t` was executed. -/
def texture_frees (trace : List Event) (t : Nat) : Nat :=
  ((executed trace).filter fun e =>
    decide (e.2.kind = .RENOIR_COMMAND_KIND_TEXTURE_FREE ∧ e.2.handle = some t)).length

/-- A context in which handle 0 is a pass of count 1 without framebuffer and without pending
records, the handles 1 and 2 are textures of count 1, and GL has handed out no object
yet. -/
def attachment_context : IRenoir :=
  { handle_pool := { free := [], fresh := 3 },
    command_pool := { free := [], fresh := 1 },
    native_fresh := 1,
    handles := write (write (fun _ => { kind := .RENOIR_HANDLE_KIND_PASS, rc := 1 }) 1
      { kind := .RENOIR_HANDLE_KIND_TEXTURE, rc := 1 }) 2
      { kind := .RENOIR_HANDLE_KIND_TEXTURE, rc := 1 } }

/-- The number of rows the case `RENOIR_COMMAND_KIND_TEXTURE_WRITE` reads for the texture
record `t` and a region of `height` rows: one for a 1D texture, `height` for a 2D texture,
none for a texture with a depth (which takes no branch). -/
def texture_write_rows (t : Texture_Members) (height : Int) : Nat :=
  if t.size.height = 0 ∧ t.size.depth = 0 then 1
  else if t.size.height > 0 ∧ t.size.depth = 0 then height.toNat
  else 0

/-- The bytes the case `RENOIR_COMMAND_KIND_TEXTURE_WRITE` reads in `block`, the block at
`desc.bytes`, for the texture record `t` and a region of `width` by `height` pixels: the
rows of the region for a 1D or 2D texture, nothing for a texture with a depth. -/
def texture_write_reads (t : Texture_Members) (width height : Int) (block : List Nat) :
    List (List Nat) :=
  let row := width.toNat * gl_pixel_size (_renoir_pixelformat_to_gl t.pixel_format)
    (_renoir_pixelformat_to_type_gl t.pixel_format)
  if (t.size.height = 0 ∧ t.size.depth = 0) ∨ (t.size.height > 0 ∧ t.size.depth = 0) then
    [read_rows block row (gl_row_stride row) (texture_write_rows t height)]
  else []

/-- Where the case `RENOIR_COMMAND_KIND_PASS_FREE`, run here with the pass handle `h` held
by value, is the case of the source, which holds it by reference into the record `command`
being executed (`auto& h = command->pass_free.handle`, Renoir-gl450.cpp:1176).  The two
part when a nested `TEXTURE_FREE` takes the block of `command` from the pool and stores
its attachment there: that needs an attachment to free and `command` to be the next block
of the pool, which it is once the pending loop has freed it.  They agree when the pass
has no framebuffer, or no attachment, or no pending record while `command` is not the
next block of the pool. -/
def pass_free_by_value (self : IRenoir) (command h : Nat) : Prop :=
  (self.handles h).pass.fb = 0 ∨
  ((∀ i < 4, ((self.handles h).pass.offscreen.color.getD i {}).handle = none) ∧
    (self.handles h).pass.offscreen.depth_stencil.handle = none) ∨
  ((self.handles h).pass.command_list_head = none ∧
    (pool_get self.command_pool).1 ≠ command)

end Gl450

/-! ## Theorems -/

/-! ### Arithmetic of the reference count -/

theorem wrap_int_of_range (x : Int) (h1 : -2147483648 ≤ x) (h2 : x ≤ 2147483647) :
    wrap_int x = x := by
  unfold wrap_int; omega

theorem wrap_int_add (a b : Int) : wrap_int (wrap_int a + b) = wrap_int (a + b) := by
  unfold wrap_int; omega

theorem wrap_int_range (x : Int) : -2147483648 ≤ wrap_int x ∧ wrap_int x ≤ 2147483647 := by
  unfold wrap_int; omega

@[simp] theorem write_same {α : Type} (m : Nat → α) (a : Nat) (v : α) : write m a v a = v := by
  simp [write]

theorem write_other {α : Type} (m : Nat → α) (a b : Nat) (v : α) (h : b ≠ a) :
    write m a v b = m b := by
  simp [write, h]

/-- The count after a sequence of ref / unref calls on a D3D11 handle, in `int`
arithmetic. -/
theorem dx11_rc_calls_wrap (calls : List Rc_Call) :
    ∀ (handles : Nat → Dx11.Renoir_Handle) (h : Nat),
      wrap_int ((Dx11.rc_calls handles h calls) h).rc =
        wrap_int ((handles h).rc + (calls.count Rc_Call.ref : Int)
                    - (calls.count Rc_Call.unref : Int)) := by
  induction calls with
  | nil => intro handles h; simp [Dx11.rc_calls]
  | cons c rest ih =>
    intro handles h
    cases c with
    | ref =>
      simp only [Dx11.rc_calls, ih, Dx11._renoir_dx11_handle_ref, write_same,
        List.count_cons_self, List.count_cons_of_ne (by decide : Rc_Call.unref ≠ Rc_Call.ref)]
      push_cast
      unfold wrap_int; omega
    | unref =>
      simp only [Dx11.rc_calls, ih, Dx11._renoir_dx11_handle_unref, write_same,
        List.count_cons_self, List.count_cons_of_ne (by decide : Rc_Call.ref ≠ Rc_Call.unref)]
      push_cast
      unfold wrap_int; omega

/-- A count that starts in the range of `int` stays there. -/
theorem dx11_rc_calls_range (calls : List Rc_Call) :
    ∀ (handles : Nat → Dx11.Renoir_Handle) (h : Nat),
      -2147483648 ≤ (handles h).rc → (handles h).rc ≤ 2147483647 →
      -2147483648 ≤ ((Dx11.rc_calls handles h calls) h).rc ∧
        ((Dx11.rc_calls handles h calls) h).rc ≤ 2147483647 := by
  induction calls with
  | nil => intro handles h h1 h2; exact ⟨h1, h2⟩
  | cons c rest ih =>
    intro handles h _ _
    cases c with
    | ref =>
      simp only [Dx11.rc_calls]
      apply ih
      · simp only [Dx11._renoir_dx11_handle_ref, write_same]; exact (wrap_int_range _).1
      · simp only [Dx11._renoir_dx11_handle_ref, write_same]; exact (wrap_int_range _).2
    | unref =>
      simp only [Dx11.rc_calls]
      apply ih
      · simp only [Dx11._renoir_dx11_handle_unref, write_same]; exact (wrap_int_range _).1
      · simp only [Dx11._renoir_dx11_handle_unref, write_same]; exact (wrap_int_range _).2

/-- The count after a sequence of ref / unref calls on a GL handle, in `int` arithmetic. -/
theorem gl450_rc_calls_wrap (calls : List Rc_Call) :
    ∀ (handles : Nat → Gl450.Renoir_Handle) (h : Nat),
      wrap_int ((Gl450.rc_calls handles h calls) h).rc =
        wrap_int ((handles h).rc + (calls.count Rc_Call.ref : Int)
                    - (calls.count Rc_Call.unref : Int)) := by
  induction calls with
  | nil => intro handles h; simp [Gl450.rc_calls]
  | cons c rest ih =>
    intro handles h
    cases c with
    | ref =>
      simp only [Gl450.rc_calls, ih, Gl450._renoir_gl450_handle_ref, write_same,
        List.count_cons_self, List.count_cons_of_ne (by decide : Rc_Call.unref ≠ Rc_Call.ref)]
      push_cast
      unfold wrap_int; omega
    | unref =>
      simp only [Gl450.rc_calls, ih, Gl450._renoir_gl450_handle_unref, write_same,
        List.count_cons_self, List.count_cons_of_ne (by decide : Rc_Call.ref ≠ Rc_Call.unref)]
      push_cast
      unfold wrap_int; omega

/-- A count that starts in the range of `int` stays there. -/
theorem gl450_rc_calls_range (calls : List Rc_Call) :
    ∀ (handles : Nat → Gl450.Renoir_Handle) (h : Nat),
      -2147483648 ≤ (handles h).rc → (handles h).rc ≤ 2147483647 →
      -2147483648 ≤ ((Gl450.rc_calls handles h calls) h).rc ∧
        ((Gl450.rc_calls handles h calls) h).rc ≤ 2147483647 := by
  induction calls with
  | nil => intro handles h h1 h2; exact ⟨h1, h2⟩
  | cons c rest ih =>
    intro handles h _ _
    cases c with
    | ref =>
      simp only [Gl450.rc_calls]
      apply ih
      · simp only [Gl450._renoir_gl450_handle_ref, write_same]; exact (wrap_int_range _).1
      · simp only [Gl450._renoir_gl450_handle_ref, write_same]; exact (wrap_int_range _).2
    | unref =>
      simp only [Gl450.rc_calls]
      apply ih
      · simp only [Gl450._renoir_gl450_handle_unref, write_same]; exact (wrap_int_range _).1
      · simp only [Gl450._renoir_gl450_handle_unref, write_same]; exact (wrap_int_range _).2

/-- The stored count after `handle_new` and a sequence of ref / unref calls, D3D11. -/
theorem dx11_count_after_new (self : Dx11.IRenoir) (kind : RENOIR_HANDLE_KIND)
    (calls : List Rc_Call) :
    ((Dx11.rc_calls (Dx11._renoir_dx11_handle_new self kind).2.handles
        (Dx11._renoir_dx11_handle_new self kind).1 calls)
        (Dx11._renoir_dx11_handle_new self kind).1).rc =
      wrap_int (1 + (calls.count Rc_Call.ref : Int) - (calls.count Rc_Call.unref : Int)) := by
  have hw := dx11_rc_calls_wrap calls (Dx11._renoir_dx11_handle_new self kind).2.handles
    (Dx11._renoir_dx11_handle_new self kind).1
  have hr := dx11_rc_calls_range calls (Dx11._renoir_dx11_handle_new self kind).2.handles
    (Dx11._renoir_dx11_handle_new self kind).1
  simp only [Dx11._renoir_dx11_handle_new, write_same] at hw hr ⊢
  have hr2 := hr (by norm_num) (by norm_num)
  rw [wrap_int_of_range _ hr2.1 hr2.2] at hw
  exact hw

/-- The stored count after `handle_new` and a sequence of ref / unref calls, GL. -/
theorem gl450_count_after_new (self : Gl450.IRenoir) (kind : RENOIR_HANDLE_KIND)
    (calls : List Rc_Call) :
    ((Gl450.rc_calls (Gl450._renoir_gl450_handle_new self kind).2.handles
        (Gl450._renoir_gl450_handle_new self kind).1 calls)
        (Gl450._renoir_gl450_handle_new self kind).1).rc =
      wrap_int (1 + (calls.count Rc_Call.ref : Int) - (calls.count Rc_Call.unref : Int)) := by
  have hw := gl450_rc_calls_wrap calls (Gl450._renoir_gl450_handle_new self kind).2.handles
    (Gl450._renoir_gl450_handle_new self kind).1
  have hr := gl450_rc_calls_range calls (Gl450._renoir_gl450_handle_new self kind).2.handles
    (Gl450._renoir_gl450_handle_new self kind).1
  simp only [Gl450._renoir_gl450_handle_new, write_same] at hw hr ⊢
  have hr2 := hr (by norm_num) (by norm_num)
  rw [wrap_int_of_range _ hr2.1 hr2.2] at hw
  exact hw

/-- C7 (as stated, refuted): after `handle_new` and 2147483647 calls of `handle_ref` (and
no `handle_unref`) the stored count is -2147483648, not 1 + 2147483647 - 0. -/
theorem c7_count_wraps_at_int_max :
    ((Dx11.rc_calls (Dx11._renoir_dx11_handle_new {} .RENOIR_HANDLE_KIND_BUFFER).2.handles
        (Dx11._renoir_dx11_handle_new {} .RENOIR_HANDLE_KIND_BUFFER).1
        (List.replicate 2147483647 Rc_Call.ref))
        (Dx11._renoir_dx11_handle_new {} .RENOIR_HANDLE_KIND_BUFFER).1).rc = -2147483648 ∧
    ((Dx11.rc_calls (Dx11._renoir_dx11_handle_new {} .RENOIR_HANDLE_KIND_BUFFER).2.handles
        (Dx11._renoir_dx11_handle_new {} .RENOIR_HANDLE_KIND_BUFFER).1
        (List.replicate 2147483647 Rc_Call.ref))
        (Dx11._renoir_dx11_handle_new {} .RENOIR_HANDLE_KIND_BUFFER).1).rc
      ≠ 1 + ((List.replicate 2147483647 Rc_Call.ref).count Rc_Call.ref : Int)
          - ((List.replicate 2147483647 Rc_Call.ref).count Rc_Call.unref : Int) := by
  have h := dx11_count_after_new {} .RENOIR_HANDLE_KIND_BUFFER
    (List.replicate 2147483647 Rc_Call.ref)
  have h1 : (List.replicate 2147483647 Rc_Call.ref).count Rc_Call.ref = 2147483647 :=
    List.count_replicate_self _ _
  have h2 : (List.replicate 2147483647 Rc_Call.ref).count Rc_Call.unref = 0 := by
    rw [List.count_replicate]; rfl
  rw [h1, h2] at h
  rw [h, h1, h2]
  constructor
  · unfold wrap_int; norm_num
  · unfold wrap_int; norm_num

/-- C7 (amended): `handle_new` stores the count 1 and the requested kind over an all-zero
payload; `handle_ref` returns the handle it was given; and after `handle_new` followed by
any sequence of `r` `handle_ref` and `u` `handle_unref` calls the stored count is
`1 + r - u`, as long as that number lies in the range of the 32-bit count.  Both
backends. -/
theorem c7_refcount_arithmetic (self : Dx11.IRenoir) (gself : Gl450.IRenoir)
    (kind : RENOIR_HANDLE_KIND) (calls : List Rc_Call)
    (hlow : -2147483648 ≤ 1 + (calls.count Rc_Call.ref : Int) - (calls.count Rc_Call.unref : Int))
    (hhigh : 1 + (calls.count Rc_Call.ref : Int) - (calls.count Rc_Call.unref : Int) ≤ 2147483647) :
    ((Dx11._renoir_dx11_handle_new self kind).2.handles
        (Dx11._renoir_dx11_handle_new self kind).1 = { kind := kind, rc := 1 }) ∧
    ((Gl450._renoir_gl450_handle_new gself kind).2.handles
        (Gl450._renoir_gl450_handle_new gself kind).1 = { kind := kind, rc := 1 }) ∧
    (∀ (handles : Nat → Dx11.Renoir_Handle) (h : Nat),
        (Dx11._renoir_dx11_handle_ref handles h).1 = h) ∧
    (∀ (handles : Nat → Gl450.Renoir_Handle) (h : Nat),
        (Gl450._renoir_gl450_handle_ref handles h).1 = h) ∧
    ((Dx11.rc_calls (Dx11._renoir_dx11_handle_new self kind).2.handles
        (Dx11._renoir_dx11_handle_new self kind).1 calls)
        (Dx11._renoir_dx11_handle_new self kind).1).rc =
      1 + (calls.count Rc_Call.ref : Int) - (calls.count Rc_Call.unref : Int) ∧
    ((Gl450.rc_calls (Gl450._renoir_gl450_handle_new gself kind).2.handles
        (Gl450._renoir_gl450_handle_new gself kind).1 calls)
        (Gl450._renoir_gl450_handle_new gself kind).1).rc =
      1 + (calls.count Rc_Call.ref : Int) - (calls.count Rc_Call.unref : Int) := by
  refine ⟨?_, ?_, ?_, ?_, ?_, ?_⟩
  · simp [Dx11._renoir_dx11_handle_new]
  · simp [Gl450._renoir_gl450_handle_new]
  · intro handles h; rfl
  · intro handles h; rfl
  · rw [dx11_count_after_new, wrap_int_of_range _ hlow hhigh]
  · rw [gl450_count_after_new, wrap_int_of_range _ hlow hhigh]

/-- Witness of C7: a ref, a ref and an unref after `handle_new` leave the count 2. -/
theorem c7_refcount_arithmetic_witness :
    ((Dx11.rc_calls (Dx11._renoir_dx11_handle_new {} .RENOIR_HANDLE_KIND_TEXTURE).2.handles
        (Dx11._renoir_dx11_handle_new {} .RENOIR_HANDLE_KIND_TEXTURE).1
        [Rc_Call.ref, Rc_Call.ref, Rc_Call.unref])
        (Dx11._renoir_dx11_handle_new {} .RENOIR_HANDLE_KIND_TEXTURE).1).rc = 2 := by
  have h := (c7_refcount_arithmetic {} {} .RENOIR_HANDLE_KIND_TEXTURE
    [Rc_Call.ref, Rc_Call.ref, Rc_Call.unref] (by decide) (by decide)).2.2.2.2.1
  simpa using h

/-- C8 (as stated, refuted): on the prior count -2147483648 `handle_unref` leaves the
count 2147483647, which is not the prior count minus 1. -/
theorem c8_unref_wraps_at_int_min :
    ((Dx11._renoir_dx11_handle_unref (fun _ => { rc := -2147483648 }) 0).2 0).rc = 2147483647 ∧
    ((Dx11._renoir_dx11_handle_unref (fun _ => { rc := -2147483648 }) 0).2 0).rc
      ≠ ((fun _ => { rc := -2147483648 } : Nat → Dx11.Renoir_Handle) 0).rc - 1 := by
  constructor
  · simp [Dx11._renoir_dx11_handle_unref, wrap_int]
  · simp [Dx11._renoir_dx11_handle_unref, wrap_int]

/-- C8 (amended): `handle_unref` returns true if and only if the count was exactly 1 before
the decrement, and the count afterwards is the prior count minus 1 whenever the prior
count is above the least 32-bit value.  Both backends. -/
theorem c8_unref_result (handles : Nat → Dx11.Renoir_Handle)
    (ghandles : Nat → Gl450.Renoir_Handle) (h : Nat)
    (hd : -2147483648 < (handles h).rc ∧ (handles h).rc ≤ 2147483647)
    (hg : -2147483648 < (ghandles h).rc ∧ (ghandles h).rc ≤ 2147483647) :
    ((Dx11._renoir_dx11_handle_unref handles h).1 = true ↔ (handles h).rc = 1) ∧
    (((Dx11._renoir_dx11_handle_unref handles h).2 h).rc = (handles h).rc - 1) ∧
    ((Gl450._renoir_gl450_handle_unref ghandles h).1 = true ↔ (ghandles h).rc = 1) ∧
    (((Gl450._renoir_gl450_handle_unref ghandles h).2 h).rc = (ghandles h).rc - 1) := by
  refine ⟨?_, ?_, ?_, ?_⟩
  · simp [Dx11._renoir_dx11_handle_unref]
  · simp only [Dx11._renoir_dx11_handle_unref, write_same]
    exact wrap_int_of_range _ (by omega) (by omega)
  · simp [Gl450._renoir_gl450_handle_unref]
  · simp only [Gl450._renoir_gl450_handle_unref, write_same]
    exact wrap_int_of_range _ (by omega) (by omega)

/-- Witness of C8: from the count 1 the decrement returns true and leaves 0; from 2 it
returns false. -/
theorem c8_unref_result_witness :
    ((Dx11._renoir_dx11_handle_unref (fun _ => { rc := 1 }) 0).1 = true ↔
        ((fun _ => { rc := 1 } : Nat → Dx11.Renoir_Handle) 0).rc = 1) ∧
    (((Dx11._renoir_dx11_handle_unref (fun _ => { rc := 1 }) 0).2 0).rc =
        ((fun _ => { rc := 1 } : Nat → Dx11.Renoir_Handle) 0).rc - 1) ∧
    ((Gl450._renoir_gl450_handle_unref (fun _ => { rc := 2 }) 0).1 = true ↔
        ((fun _ => { rc := 2 } : Nat → Gl450.Renoir_Handle) 0).rc = 1) ∧
    (((Gl450._renoir_gl450_handle_unref (fun _ => { rc := 2 }) 0).2 0).rc =
        ((fun _ => { rc := 2 } : Nat → Gl450.Renoir_Handle) 0).rc - 1) :=
  c8_unref_result (fun _ => { rc := 1 }) (fun _ => { rc := 2 }) 0
    ⟨by decide, by decide⟩ ⟨by decide, by decide⟩

/-! ### Frame lemmas and the `*_FREE` commands, D3D11 -/

@[simp] theorem dx11_emit_trace (self : Dx11.IRenoir) (e : Dx11.Event) :
    (Dx11.emit self e).trace = self.trace ++ [e] := rfl
@[simp] theorem dx11_emit_handles (self : Dx11.IRenoir) (e : Dx11.Event) :
    (Dx11.emit self e).handles = self.handles := rfl
@[simp] theorem dx11_emit_commands (self : Dx11.IRenoir) (e : Dx11.Event) :
    (Dx11.emit self e).commands = self.commands := rfl
@[simp] theorem dx11_emit_handle_pool (self : Dx11.IRenoir) (e : Dx11.Event) :
    (Dx11.emit self e).handle_pool = self.handle_pool := rfl
@[simp] theorem dx11_release_handles (self : Dx11.IRenoir) (p : Ptr) :
    (Dx11.release self p).handles = self.handles := rfl
@[simp] theorem dx11_release_commands (self : Dx11.IRenoir) (p : Ptr) :
    (Dx11.release self p).commands = self.commands := rfl
@[simp] theorem dx11_release_teardowns (self : Dx11.IRenoir) (p : Ptr) (h : Nat) :
    Dx11.teardowns (Dx11.release self p).trace h = Dx11.teardowns self.trace h := by
  simp [Dx11.teardowns, Dx11.release, Dx11.emit, List.count_append, List.count_singleton]
@[simp] theorem dx11_release_if_handles (self : Dx11.IRenoir) (p : Ptr) :
    (Dx11.release_if self p).handles = self.handles := by
  unfold Dx11.release_if; split <;> rfl
@[simp] theorem dx11_release_if_commands (self : Dx11.IRenoir) (p : Ptr) :
    (Dx11.release_if self p).commands = self.commands := by
  unfold Dx11.release_if; split <;> rfl
@[simp] theorem dx11_release_if_teardowns (self : Dx11.IRenoir) (p : Ptr) (h : Nat) :
    Dx11.teardowns (Dx11.release_if self p).trace h = Dx11.teardowns self.trace h := by
  unfold Dx11.release_if; split <;> simp
@[simp] theorem dx11_handle_free_handles (self : Dx11.IRenoir) (h : Nat) :
    (Dx11._renoir_dx11_handle_free self h).handles = self.handles := rfl
@[simp] theorem dx11_handle_free_commands (self : Dx11.IRenoir) (h : Nat) :
    (Dx11._renoir_dx11_handle_free self h).commands = self.commands := rfl
@[simp] theorem dx11_handle_free_teardowns (self : Dx11.IRenoir) (h : Nat) :
    Dx11.teardowns (Dx11._renoir_dx11_handle_free self h).trace h
      = Dx11.teardowns self.trace h + 1 := by
  simp [Dx11.teardowns, Dx11._renoir_dx11_handle_free, List.count_append]

@[simp] theorem dx11_command_free_commands (self : Dx11.IRenoir) (command : Nat) :
    (Dx11._renoir_dx11_command_free self command).commands = self.commands := by
  unfold Dx11._renoir_dx11_command_free
  simp only []
  split <;> (try split) <;> (try split) <;> simp [Dx11.mn_free, Dx11.emit]

theorem dx11_pass_free_pending_ne_none (fuel : Nat) :
    ∀ (self : Dx11.IRenoir) (command : Nat) (it : Ptr),
      (Dx11.list_records self.commands fuel it).isSome →
      Dx11.pass_free_pending fuel self command it ≠ none := by
  induction fuel with
  | zero =>
    intro self command it hl
    cases it with
    | none => simp [Dx11.pass_free_pending]
    | some i => simp [Dx11.list_records] at hl
  | succ n ih =>
    intro self command it hl
    cases it with
    | none => simp [Dx11.pass_free_pending]
    | some i =>
      simp only [Dx11.list_records, Option.isSome_map'] at hl
      simp only [Dx11.pass_free_pending]
      apply ih
      simpa using hl

theorem dx11_handle_free_last (self : Dx11.IRenoir) (h : Nat) :
    (Dx11._renoir_dx11_handle_free self h).trace.getLast? = some (Dx11.Event.handle_free h) ∧
    (Dx11._renoir_dx11_handle_free self h).handle_pool.free.head? = some h := by
  simp [Dx11._renoir_dx11_handle_free, pool_put]

theorem dx11_free_above_one (fuel : Nat) (self : Dx11.IRenoir) (command h : Nat)
    (kind : RENOIR_HANDLE_KIND) (hk : kind ≠ .RENOIR_HANDLE_KIND_NONE)
    (hc : (self.commands command).kind = Dx11.free_kind kind)
    (hh : (self.commands command).handle = some h)
    (hrc : 1 < (self.handles h).rc) (hmax : (self.handles h).rc ≤ 2147483647) :
    Dx11._renoir_dx11_command_execute fuel self command =
      some { self with
        handles := write self.handles h { self.handles h with rc := (self.handles h).rc - 1 },
        trace := self.trace ++ [Dx11.Event.command_execute command (self.commands command)] } := by
  have hne : (self.handles h).rc ≠ 1 := by omega
  have hw : wrap_int ((self.handles h).rc - 1) = (self.handles h).rc - 1 :=
    wrap_int_of_range _ (by omega) (by omega)
  cases kind <;>
    simp [Dx11._renoir_dx11_command_execute, Dx11.free_kind, hc, hh, Dx11.emit,
      Dx11.execute_swapchain_free, Dx11.execute_pass_free, Dx11.execute_buffer_free,
      Dx11.execute_texture_free, Dx11.execute_sampler_free, Dx11.execute_program_free,
      Dx11.execute_compute_free, Dx11.execute_pipeline_free,
      Dx11._renoir_dx11_handle_unref, hne, hw] at hk ⊢

theorem dx11_pass_free_color_plain (h : Nat) (self : Dx11.IRenoir)
    (hp : (self.handles h).pass.offscreen = {}) (i : Nat) :
    Dx11.pass_free_color h self i = self := by
  unfold Dx11.pass_free_color
  rw [hp]
  have : ((List.replicate RENOIR_CONSTANT_COLOR_ATTACHMENT_SIZE ({} : Renoir_Texture)).getD i {}).handle = none := by
    simp [List.getD, List.getElem?_replicate]
    split <;> rfl
  simp only [this]

/-! ### Frame lemmas and the `*_FREE` commands, GL -/

@[simp] theorem gl450_emit_trace (self : Gl450.IRenoir) (e : Gl450.Event) :
    (Gl450.emit self e).trace = self.trace ++ [e] := rfl
@[simp] theorem gl450_emit_handles (self : Gl450.IRenoir) (e : Gl450.Event) :
    (Gl450.emit self e).handles = self.handles := rfl
@[simp] theorem gl450_emit_commands (self : Gl450.IRenoir) (e : Gl450.Event) :
    (Gl450.emit self e).commands = self.commands := rfl
@[simp] theorem gl450_emit_handle_pool (self : Gl450.IRenoir) (e : Gl450.Event) :
    (Gl450.emit self e).handle_pool = self.handle_pool := rfl
@[simp] theorem gl450_delete_handles (self : Gl450.IRenoir) (p : Nat) :
    (Gl450.gl_delete self p).handles = self.handles := rfl
@[simp] theorem gl450_delete_commands (self : Gl450.IRenoir) (p : Nat) :
    (Gl450.gl_delete self p).commands = self.commands := rfl
@[simp] theorem gl450_delete_teardowns (self : Gl450.IRenoir) (p : Nat) (h : Nat) :
    Gl450.teardowns (Gl450.gl_delete self p).trace h = Gl450.teardowns self.trace h := by
  simp [Gl450.teardowns, Gl450.gl_delete, Gl450.emit, List.count_append, List.count_singleton]
@[simp] theorem gl450_handle_free_handles (self : Gl450.IRenoir) (h : Nat) :
    (Gl450._renoir_gl450_handle_free self h).handles = self.handles := rfl
@[simp] theorem gl450_handle_free_commands (self : Gl450.IRenoir) (h : Nat) :
    (Gl450._renoir_gl450_handle_free self h).commands = self.commands := rfl
@[simp] theorem gl450_handle_free_teardowns (self : Gl450.IRenoir) (h : Nat) :
    Gl450.teardowns (Gl450._renoir_gl450_handle_free self h).trace h
      = Gl450.teardowns self.trace h + 1 := by
  simp [Gl450.teardowns, Gl450._renoir_gl450_handle_free, List.count_append]

@[simp] theorem gl450_command_free_commands (self : Gl450.IRenoir) (command : Nat) :
    (Gl450._renoir_gl450_command_free self command).commands = self.commands := by
  unfold Gl450._renoir_gl450_command_free
  simp only []
  split <;> (try split) <;> (try split) <;> simp [Gl450.mn_free, Gl450.emit]

theorem gl450_pass_free_pending_ne_none (fuel : Nat) :
    ∀ (self : Gl450.IRenoir) (command : Nat) (it : Ptr),
      (Gl450.list_records self.commands fuel it).isSome →
      Gl450.pass_free_pending fuel self command it ≠ none := by
  induction fuel with
  | zero =>
    intro self command it hl
    cases it with
    | none => simp [Gl450.pass_free_pending]
    | some i => simp [Gl450.list_records] at hl
  | succ n ih =>
    intro self command it hl
    cases it with
    | none => simp [Gl450.pass_free_pending]
    | some i =>
      simp only [Gl450.list_records, Option.isSome_map'] at hl
      simp only [Gl450.pass_free_pending]
      apply ih
      simpa using hl

theorem gl450_handle_free_last (self : Gl450.IRenoir) (h : Nat) :
    (Gl450._renoir_gl450_handle_free self h).trace.getLast? = some (Gl450.Event.handle_free h) ∧
    (Gl450._renoir_gl450_handle_free self h).handle_pool.free.head? = some h := by
  simp [Gl450._renoir_gl450_handle_free, pool_put]

theorem gl450_free_above_one (fuel : Nat) (self : Gl450.IRenoir) (command h : Nat)
    (kind : RENOIR_HANDLE_KIND) (hk : kind ≠ .RENOIR_HANDLE_KIND_NONE)
    (hc : (self.commands command).kind = Gl450.free_kind kind)
    (hh : (self.commands command).handle = some h)
    (hrc : 1 < (self.handles h).rc) (hmax : (self.handles h).rc ≤ 2147483647) :
    Gl450._renoir_gl450_command_execute fuel self command =
      some { self with
        handles := write self.handles h { self.handles h with rc := (self.handles h).rc - 1 },
        trace := self.trace ++ [Gl450.Event.command_execute command (self.commands command)] } := by
  have hne : (self.handles h).rc ≠ 1 := by omega
  have hw : wrap_int ((self.handles h).rc - 1) = (self.handles h).rc - 1 :=
    wrap_int_of_range _ (by omega) (by omega)
  cases kind <;>
    simp [Gl450._renoir_gl450_command_execute, Gl450.free_kind, hc, hh, Gl450.emit,
      Gl450.execute_swapchain_free, Gl450.execute_pass_free, Gl450.execute_buffer_free,
      Gl450.execute_texture_free, Gl450.execute_sampler_free, Gl450.execute_program_free,
      Gl450.execute_compute_free, Gl450.execute_pipeline_free,
      Gl450._renoir_gl450_handle_unref, hne, hw] at hk ⊢

theorem gl450_execute_pass_free_at_one (fuel : Nat) (self : Gl450.IRenoir) (command h : Nat)
    (hrc : (self.handles h).rc = 1)
    (hl : (Gl450.list_records self.commands fuel (self.handles h).pass.command_list_head).isSome) :
    ∃ s, Gl450.execute_pass_free fuel self command h = some s ∧
      s.trace.getLast? = some (Gl450.Event.handle_free h) ∧
      s.handle_pool.free.head? = some h := by
  unfold Gl450.execute_pass_free
  simp only [Gl450._renoir_gl450_handle_unref, hrc, decide_True, Bool.true_eq_false, if_false,
    write_same]
  split
  · rename_i heq
    exact absurd heq (gl450_pass_free_pending_ne_none fuel _ command _ hl)
  · exact ⟨_, rfl, gl450_handle_free_last _ h⟩

theorem gl450_free_at_one (fuel : Nat) (self : Gl450.IRenoir) (command h : Nat)
    (kind : RENOIR_HANDLE_KIND) (hk : kind ≠ .RENOIR_HANDLE_KIND_NONE)
    (hc : (self.commands command).kind = Gl450.free_kind kind)
    (hh : (self.commands command).handle = some h)
    (hrc : (self.handles h).rc = 1)
    (hl : kind = .RENOIR_HANDLE_KIND_PASS →
      (Gl450.list_records self.commands fuel (self.handles h).pass.command_list_head).isSome) :
    ∃ s, Gl450._renoir_gl450_command_execute fuel self command = some s ∧
      s.trace.getLast? = some (Gl450.Event.handle_free h) ∧
      s.handle_pool.free.head? = some h := by
  cases kind with
  | RENOIR_HANDLE_KIND_NONE => exact absurd rfl hk
  | RENOIR_HANDLE_KIND_PASS =>
    simp only [Gl450._renoir_gl450_command_execute, Gl450.free_kind, hc, hh, Option.some_bind]
    exact gl450_execute_pass_free_at_one fuel _ command h hrc (hl rfl)
  | _ =>
    simp only [Gl450._renoir_gl450_command_execute, Gl450.free_kind, hc, hh, Option.map_some',
      Gl450.execute_swapchain_free, Gl450.execute_buffer_free,
      Gl450.execute_texture_free, Gl450.execute_sampler_free, Gl450.execute_program_free,
      Gl450.execute_compute_free, Gl450.execute_pipeline_free,
      Gl450._renoir_gl450_handle_unref, Gl450.emit, hrc, decide_True, Bool.true_eq_false,
      if_false]
    exact ⟨_, rfl, gl450_handle_free_last _ h⟩

theorem gl450_pass_free_color_plain (h : Nat) (self : Gl450.IRenoir)
    (hp : (self.handles h).pass.offscreen = {}) (i : Nat) :
    Gl450.pass_free_color h self i = self := by
  unfold Gl450.pass_free_color
  rw [hp]
  have : ((List.replicate RENOIR_CONSTANT_COLOR_ATTACHMENT_SIZE ({} : Renoir_Texture)).getD i {}).handle = none := by
    simp [List.getD, List.getElem?_replicate]
    split <;> rfl
  simp only [this]

theorem gl450_execute_pass_free_plain (fuel : Nat) (self : Gl450.IRenoir) (command h : Nat)
    (hrc : (self.handles h).rc = 1) (hp : Gl450.plain_pass (self.handles h)) :
    Gl450.execute_pass_free fuel self command h =
      some (Gl450._renoir_gl450_handle_free
        { self with handles := write self.handles h { self.handles h with rc := 0 } } h) := by
  obtain ⟨hp1, hp2⟩ := hp
  unfold Gl450.execute_pass_free
  simp only [Gl450._renoir_gl450_handle_unref, hrc, decide_True, Bool.true_eq_false, if_false,
    write_same, hp1, Gl450.pass_free_pending]
  have hfold : ∀ (l : List Nat) (s : Gl450.IRenoir), (s.handles h).pass.offscreen = {} →
      l.foldl (Gl450.pass_free_color h) s = s := by
    intro l
    induction l with
    | nil => intro s _; rfl
    | cons a l ih =>
      intro s hs
      simp only [List.foldl_cons, gl450_pass_free_color_plain h s hs, ih s hs]
  have hw : wrap_int (1 - 1) = 0 := by unfold wrap_int; norm_num
  simp only [hw]
  rw [hfold _ _ (by simpa using hp2)]
  simp [hp2]

theorem gl450_free_step (fuel : Nat) (self : Gl450.IRenoir) (command h : Nat)
    (kind : RENOIR_HANDLE_KIND) (hk : kind ≠ .RENOIR_HANDLE_KIND_NONE)
    (hc : (self.commands command).kind = Gl450.free_kind kind)
    (hh : (self.commands command).handle = some h)
    (hp : kind = .RENOIR_HANDLE_KIND_PASS → Gl450.plain_pass (self.handles h)) :
    ∃ s, Gl450._renoir_gl450_command_execute fuel self command = some s ∧
      s.commands = self.commands ∧
      (s.handles h).rc = wrap_int ((self.handles h).rc - 1) ∧
      (s.handles h).pass = (self.handles h).pass ∧
      Gl450.teardowns s.trace h =
        Gl450.teardowns self.trace h + (if (self.handles h).rc = 1 then 1 else 0) := by
  have t0 : Gl450.teardowns (self.trace ++
      [Gl450.Event.command_execute command (self.commands command)]) h
        = Gl450.teardowns self.trace h := by
    simp [Gl450.teardowns, List.count_append, List.count_singleton]
  have t1 : Gl450.teardowns (self.trace ++
      [Gl450.Event.command_execute command (self.commands command), Gl450.Event.window_free h]) h
        = Gl450.teardowns self.trace h := by
    simp [Gl450.teardowns, List.count_append, List.count_cons]
  have hw : wrap_int (1 - 1) = 0 := by unfold wrap_int; norm_num
  have hw0 : wrap_int 0 = 0 := by unfold wrap_int; norm_num
  by_cases hrc : (self.handles h).rc = 1
  · cases kind with
    | RENOIR_HANDLE_KIND_NONE => exact absurd rfl hk
    | RENOIR_HANDLE_KIND_PASS =>
      simp only [Gl450._renoir_gl450_command_execute, Gl450.free_kind, hc, hh, Option.some_bind]
      rw [gl450_execute_pass_free_plain fuel
        (Gl450.emit self (Gl450.Event.command_execute command (self.commands command)))
        command h hrc (hp rfl)]
      simp [hrc, hw0, t0]
    | RENOIR_HANDLE_KIND_TEXTURE =>
      simp only [Gl450._renoir_gl450_command_execute, Gl450.free_kind, hc, hh, Option.map_some',
        Gl450.execute_texture_free, Gl450._renoir_gl450_handle_unref, gl450_emit_handles, hrc,
        decide_True, Bool.true_eq_false, if_false]
      refine ⟨_, rfl, ?_⟩
      split <;> simp [hw, t0]
    | _ =>
      simp [Gl450._renoir_gl450_command_execute, Gl450.free_kind, hc, hh,
        Gl450.execute_swapchain_free, Gl450.execute_buffer_free,
        Gl450.execute_texture_free, Gl450.execute_sampler_free, Gl450.execute_program_free,
        Gl450.execute_compute_free, Gl450.execute_pipeline_free,
        Gl450._renoir_gl450_handle_unref, hrc, t0, t1, hw, hw0]
  · cases kind <;>
      simp [Gl450._renoir_gl450_command_execute, Gl450.free_kind, hc, hh,
        Gl450.execute_swapchain_free, Gl450.execute_pass_free, Gl450.execute_buffer_free,
        Gl450.execute_texture_free, Gl450.execute_sampler_free, Gl450.execute_program_free,
        Gl450.execute_compute_free, Gl450.execute_pipeline_free,
        Gl450._renoir_gl450_handle_unref, hrc, t0] at hk ⊢

/-! ### Teardown at the last reference (C9) -/

/-! ### The sampler cache (C1 to C6) -/

/-- On a cache without a matching entry and without an empty slot the scan finds nothing. -/
theorem dx11_sampler_scan_miss (handles : Nat → Dx11.Renoir_Handle) (desc : Renoir_Sampler_Desc)
    (count : Nat) (l : List Ptr) :
    ∀ (i first_empty_ix : Nat),
      (∀ p ∈ l, p ≠ none) →
      (∀ h, some h ∈ l → desc.op_eq (handles h).sampler.desc = false) →
      Dx11.sampler_scan handles desc count l i first_empty_ix = (count, first_empty_ix) := by
  induction l with
  | nil => intro i fe _ _; rfl
  | cons p rest ih =>
    intro i fe hfull hmiss
    cases p with
    | none => exact absurd rfl (hfull none (by simp))
    | some h =>
      have hm := hmiss h (by simp)
      simp only [Dx11.sampler_scan, hm, Bool.false_eq_true, if_false]
      exact ih _ _ (fun p hp => hfull p (List.mem_cons_of_mem _ hp))
        (fun h' hh' => hmiss h' (List.mem_cons_of_mem _ hh'))

/-- The reorder loop after `k` of its rounds: the slots `bound - k .. bound - 1` hold what
their left neighbours held, all other slots are unchanged. -/
theorem dx11_shift_rounds (bound : Nat) (cache : List Ptr) (k : Nat) (hk : k + 1 ≤ bound) :
    ((List.range k).foldl
        (fun cache i => cache.set (bound - i - 1) (cache.getD (bound - i - 1 - 1) none))
        cache).length = cache.length ∧
    ∀ j, ((List.range k).foldl
        (fun cache i => cache.set (bound - i - 1) (cache.getD (bound - i - 1 - 1) none))
        cache)[j]? =
      if bound - k ≤ j ∧ j < bound ∧ j < cache.length then some (cache[j - 1]?.getD none)
      else cache[j]? := by
  induction k with
  | zero =>
    refine ⟨rfl, fun j => ?_⟩
    have : ¬ (bound - 0 ≤ j ∧ j < bound ∧ j < cache.length) := by omega
    simp only [List.range_zero, List.foldl_nil, this, if_false]
  | succ k ih =>
    obtain ⟨hlen, hget⟩ := ih (by omega)
    rw [List.range_succ, List.foldl_append]
    simp only [List.foldl_cons, List.foldl_nil, List.length_set, hlen, true_and]
    intro j
    rw [List.getElem?_set, hlen, List.getD_eq_getElem?_getD, hget (bound - k - 1 - 1), hget j]
    have hnot : ¬ (bound - k ≤ bound - k - 1 - 1 ∧ bound - k - 1 - 1 < bound ∧
        bound - k - 1 - 1 < cache.length) := by omega
    simp only [hnot, if_false]
    by_cases hj : bound - k - 1 = j
    · subst hj
      simp only [if_true]
      by_cases hl : bound - k - 1 < cache.length
      · have : bound - (k + 1) ≤ bound - k - 1 ∧ bound - k - 1 < bound ∧
            bound - k - 1 < cache.length := by omega
        simp only [hl, this, if_true, and_self]
      · have : ¬ (bound - (k + 1) ≤ bound - k - 1 ∧ bound - k - 1 < bound ∧
            bound - k - 1 < cache.length) := by omega
        rw [if_neg hl, if_neg this]
        exact (List.getElem?_eq_none (Nat.le_of_not_lt hl)).symm
    · simp only [hj, if_false]
      by_cases hc : bound - k ≤ j ∧ j < bound ∧ j < cache.length
      · have : bound - (k + 1) ≤ j ∧ j < bound ∧ j < cache.length := by omega
        simp only [hc, this, if_true, and_self]
      · have : ¬ (bound - (k + 1) ≤ j ∧ j < bound ∧ j < cache.length) := by omega
        simp only [hc, this, if_false]
/-- The eviction loop followed by the store into slot 0: the new entry, then the old
entries without the last one. -/
theorem dx11_sampler_shift_evict (cache : List Ptr) (x : Ptr) (hne : cache ≠ []) :
    (Dx11.sampler_shift cache.length cache).set 0 x = x :: cache.dropLast := by
  have hpos : 0 < cache.length := List.length_pos.mpr hne
  obtain ⟨hlen, hget⟩ := dx11_shift_rounds cache.length cache (cache.length - 1) (by omega)
  apply List.ext_getElem?
  intro j
  unfold Dx11.sampler_shift
  rw [List.getElem?_set, hlen, hget]
  cases j with
  | zero => simp [hpos]
  | succ j =>
    simp only [List.getElem?_cons_succ, List.dropLast_eq_take, List.getElem?_take,
      Nat.add_sub_cancel]
    have h0 : ¬ (0 = j + 1) := by omega
    rw [if_neg h0]
    by_cases hj : j + 1 < cache.length
    · have h1 : cache.length - (cache.length - 1) ≤ j + 1 ∧ j + 1 < cache.length ∧
          j + 1 < cache.length := by omega
      have h2 : j < cache.length - 1 := by omega
      rw [if_pos h1, if_pos h2]
      have : j < cache.length := by omega
      simp [List.getElem?_eq_getElem this]
    · have h1 : ¬ (cache.length - (cache.length - 1) ≤ j + 1 ∧ j + 1 < cache.length ∧
          j + 1 < cache.length) := by omega
      have h2 : ¬ (j < cache.length - 1) := by omega
      rw [if_neg h1, if_neg h2]
      exact List.getElem?_eq_none (by omega)

/-- What the hit path of `_renoir_dx11_sampler_get` does, for every state and every slot
`k` at which the scan stops: the hit entry is returned and stored in slot 0, the slots
`1 .. k - 1` receive the entries `0 .. k - 2`, and every slot from `k` on keeps its entry.
For `k ≥ 1` the hit entry therefore occupies slot 0 and slot `k`, and the entry of slot
`k - 1` is gone; for `k = 0` nothing moves. -/
theorem dx11_sampler_get_hit (fuel : Nat) (self : Dx11.IRenoir) (desc : Renoir_Sampler_Desc)
    (k : Nat) (hkn : k < self.sampler_cache.length)
    (hscan : (Dx11.sampler_scan self.handles desc self.sampler_cache.length
      self.sampler_cache 0 self.sampler_cache.length).1 = k) :
    ∃ s, Dx11._renoir_dx11_sampler_get fuel self desc
        = some (self.sampler_cache.getD k none, s) ∧
      s.sampler_cache.length = self.sampler_cache.length ∧
      ∀ j, s.sampler_cache[j]? =
        if j = 0 then some (self.sampler_cache.getD k none)
        else if j < k then some (self.sampler_cache.getD (j - 1) none)
        else self.sampler_cache[j]? := by
  refine ⟨{ self with sampler_cache :=
      (Dx11.sampler_shift k self.sampler_cache).set 0 (self.sampler_cache.getD k none) },
    ?_, ?_, ?_⟩
  · unfold Dx11._renoir_dx11_sampler_get
    simp only [hscan, hkn, if_true]
  · by_cases hk0 : k = 0
    · subst hk0; simp [Dx11.sampler_shift]
    · have := (dx11_shift_rounds k self.sampler_cache (k - 1) (by omega)).1
      simp only [List.length_set, Dx11.sampler_shift, this]
  · intro j
    show ((Dx11.sampler_shift k self.sampler_cache).set 0 (self.sampler_cache.getD k none))[j]? = _
    by_cases hk0 : k = 0
    · subst hk0
      have : Dx11.sampler_shift 0 self.sampler_cache = self.sampler_cache := by
        simp [Dx11.sampler_shift]
      rw [this, List.getElem?_set]
      by_cases hj : 0 = j
      · subst hj; simp [hkn]
      · have hj' : ¬ j = 0 := fun h => hj h.symm
        simp [hj, hj']
    · obtain ⟨hlen, hget⟩ := dx11_shift_rounds k self.sampler_cache (k - 1) (by omega)
      unfold Dx11.sampler_shift
      rw [List.getElem?_set, hlen, hget]
      by_cases hj : 0 = j
      · subst hj
        have : 0 < self.sampler_cache.length := by omega
        simp [this]
      · have hj' : ¬ j = 0 := fun h => hj h.symm
        rw [if_neg hj, if_neg hj']
        by_cases hjk : j < k
        · have h1 : k - (k - 1) ≤ j ∧ j < k ∧ j < self.sampler_cache.length := by omega
          rw [if_pos h1, if_pos hjk, List.getD_eq_getElem?_getD]
        · have h1 : ¬ (k - (k - 1) ≤ j ∧ j < k ∧ j < self.sampler_cache.length) := by omega
          rw [if_neg h1, if_neg hjk]

theorem dx11_issued_append (t l : List Dx11.Event) :
    Dx11.issued (t ++ l) = Dx11.issued t ++ Dx11.issued l := by
  unfold Dx11.issued
  exact List.filterMap_append _ _ _

/-- Processing a `SAMPLER_FREE` record: it is issued once, and the cache is untouched. -/
theorem dx11_process_sampler_free (fuel : Nat) (self : Dx11.IRenoir) (c h : Nat)
    (hk : (self.commands c).kind = .RENOIR_COMMAND_KIND_SAMPLER_FREE)
    (hh : (self.commands c).handle = some h) :
    ∃ s, Dx11._renoir_dx11_command_process fuel self c = some s ∧
      s.sampler_cache = self.sampler_cache ∧
      s.handle_pool.fresh = self.handle_pool.fresh ∧
      Dx11.issued s.trace = Dx11.issued self.trace ++ [self.commands c] := by
  unfold Dx11._renoir_dx11_command_process
  by_cases hd : self.settings.defer_api_calls = true
  · simp [Dx11.emit, hd, Dx11.command_push_self, dx11_issued_append, Dx11.issued]
  · simp only [Dx11.emit, hd, Bool.false_eq_true, if_false,
      Dx11._renoir_dx11_command_execute, hk, hh, Option.map_some',
      Dx11.execute_sampler_free, Dx11._renoir_dx11_handle_unref]
    by_cases hrc : (self.handles h).rc = 1
    · simp [hrc, Dx11._renoir_dx11_command_free, hk, Dx11.emit, Dx11.release,
        Dx11._renoir_dx11_handle_free, dx11_issued_append, pool_put, Dx11.issued]
    · simp [hrc, Dx11._renoir_dx11_command_free, hk, Dx11.emit, dx11_issued_append, Dx11.issued]

/-- Processing a `SAMPLER_NEW` record: it is issued once, and the cache is untouched. -/
theorem dx11_process_sampler_new (fuel : Nat) (self : Dx11.IRenoir) (c h : Nat)
    (hk : (self.commands c).kind = .RENOIR_COMMAND_KIND_SAMPLER_NEW)
    (hh : (self.commands c).handle = some h) :
    ∃ s, Dx11._renoir_dx11_command_process fuel self c = some s ∧
      s.sampler_cache = self.sampler_cache ∧
      Dx11.issued s.trace = Dx11.issued self.trace ++ [self.commands c] := by
  unfold Dx11._renoir_dx11_command_process
  by_cases hd : self.settings.defer_api_calls = true
  · simp [Dx11.emit, hd, Dx11.command_push_self, dx11_issued_append, Dx11.issued]
  · simp [Dx11.emit, hd, Dx11._renoir_dx11_command_execute, hk, hh,
      Dx11.execute_sampler_new, Dx11.set_handle, Dx11._renoir_dx11_command_free,
      dx11_issued_append, Dx11.issued]

/-- The call `_renoir_dx11_sampler_free` on a non-null handle. -/
theorem dx11_sampler_free_issues (fuel : Nat) (self : Dx11.IRenoir) (h : Nat) :
    ∃ s, Dx11._renoir_dx11_sampler_free fuel self (some h) = some s ∧
      s.sampler_cache = self.sampler_cache ∧
      Dx11.issued s.trace = Dx11.issued self.trace ++
        [{ kind := .RENOIR_COMMAND_KIND_SAMPLER_FREE, handle := some h }] := by
  unfold Dx11._renoir_dx11_sampler_free
  obtain ⟨s, hs, hc, _, hi⟩ := dx11_process_sampler_free fuel
    (Dx11.set_command (Dx11._renoir_dx11_command_new self .RENOIR_COMMAND_KIND_SAMPLER_FREE).2
      (Dx11._renoir_dx11_command_new self .RENOIR_COMMAND_KIND_SAMPLER_FREE).1
      { (Dx11._renoir_dx11_command_new self .RENOIR_COMMAND_KIND_SAMPLER_FREE).2.commands
          (Dx11._renoir_dx11_command_new self .RENOIR_COMMAND_KIND_SAMPLER_FREE).1 with
        handle := some h })
    (Dx11._renoir_dx11_command_new self .RENOIR_COMMAND_KIND_SAMPLER_FREE).1 h
    (by simp [Dx11.set_command, Dx11._renoir_dx11_command_new])
    (by simp [Dx11.set_command, Dx11._renoir_dx11_command_new])
  refine ⟨s, hs, ?_, ?_⟩
  · rw [hc]; rfl
  · rw [hi]; simp [Dx11.set_command, Dx11._renoir_dx11_command_new]

/-- The call `_renoir_dx11_sampler_new`. -/
theorem dx11_sampler_new_issues (fuel : Nat) (self : Dx11.IRenoir) (desc : Renoir_Sampler_Desc) :
    ∃ s, Dx11._renoir_dx11_sampler_new fuel self desc =
        some ((pool_get self.handle_pool).1, s) ∧
      s.sampler_cache = self.sampler_cache ∧
      Dx11.issued s.trace = Dx11.issued self.trace ++
        [{ kind := .RENOIR_COMMAND_KIND_SAMPLER_NEW,
           handle := some (pool_get self.handle_pool).1, sampler_desc := desc }] := by
  unfold Dx11._renoir_dx11_sampler_new
  obtain ⟨s, hs, hc, hi⟩ := dx11_process_sampler_new fuel
    (Dx11.set_command
      (Dx11._renoir_dx11_command_new
        (Dx11._renoir_dx11_handle_new self .RENOIR_HANDLE_KIND_SAMPLER).2
        .RENOIR_COMMAND_KIND_SAMPLER_NEW).2
      (Dx11._renoir_dx11_command_new
        (Dx11._renoir_dx11_handle_new self .RENOIR_HANDLE_KIND_SAMPLER).2
        .RENOIR_COMMAND_KIND_SAMPLER_NEW).1
      { (Dx11._renoir_dx11_command_new
          (Dx11._renoir_dx11_handle_new self .RENOIR_HANDLE_KIND_SAMPLER).2
          .RENOIR_COMMAND_KIND_SAMPLER_NEW).2.commands
          (Dx11._renoir_dx11_command_new
            (Dx11._renoir_dx11_handle_new self .RENOIR_HANDLE_KIND_SAMPLER).2
            .RENOIR_COMMAND_KIND_SAMPLER_NEW).1 with
        handle := some (Dx11._renoir_dx11_handle_new self .RENOIR_HANDLE_KIND_SAMPLER).1,
        sampler_desc := desc })
    (Dx11._renoir_dx11_command_new
        (Dx11._renoir_dx11_handle_new self .RENOIR_HANDLE_KIND_SAMPLER).2
        .RENOIR_COMMAND_KIND_SAMPLER_NEW).1
    (Dx11._renoir_dx11_handle_new self .RENOIR_HANDLE_KIND_SAMPLER).1
    (by simp [Dx11.set_command, Dx11._renoir_dx11_command_new])
    (by simp [Dx11.set_command, Dx11._renoir_dx11_command_new])
  refine ⟨s, ?_, ?_, ?_⟩
  · simp only [hs, Option.map_some']; rfl
  · rw [hc]; rfl
  · rw [hi]; simp [Dx11.set_command, Dx11._renoir_dx11_command_new, Dx11._renoir_dx11_handle_new]

/-- C3.  For every full, non-empty cache and every description that matches no entry,
`_renoir_dx11_sampler_get` returns a new sampler, issues exactly one `SAMPLER_FREE` for the
entry of the last slot followed by exactly one `SAMPLER_NEW` for the requested description,
and leaves the cache as the new sampler followed by the old entries without the last one. -/
theorem c3_sampler_cache_eviction (fuel : Nat) (self : Dx11.IRenoir) (desc : Renoir_Sampler_Desc)
    (hne : self.sampler_cache ≠ [])
    (hfull : ∀ p ∈ self.sampler_cache, p ≠ none)
    (hmiss : ∀ h, some h ∈ self.sampler_cache →
      desc.op_eq (self.handles h).sampler.desc = false) :
    ∃ sampler s, Dx11._renoir_dx11_sampler_get fuel self desc = some (some sampler, s) ∧
      s.sampler_cache = some sampler :: self.sampler_cache.dropLast ∧
      Dx11.issued s.trace = Dx11.issued self.trace ++
        [{ kind := .RENOIR_COMMAND_KIND_SAMPLER_FREE,
           handle := self.sampler_cache.getD (self.sampler_cache.length - 1) none },
         { kind := .RENOIR_COMMAND_KIND_SAMPLER_NEW, handle := some sampler,
           sampler_desc := desc }] := by
  have hpos : 0 < self.sampler_cache.length := List.length_pos.mpr hne
  have hscan := dx11_sampler_scan_miss self.handles desc self.sampler_cache.length
    self.sampler_cache 0 self.sampler_cache.length hfull hmiss
  -- the entry of the last slot is a handle
  obtain ⟨ev, hev⟩ : ∃ ev, self.sampler_cache.getD (self.sampler_cache.length - 1) none
      = some ev := by
    have hlt : self.sampler_cache.length - 1 < self.sampler_cache.length := by omega
    have hmem : self.sampler_cache[self.sampler_cache.length - 1] ∈ self.sampler_cache :=
      List.getElem_mem _
    have := hfull _ hmem
    rw [List.getD_eq_getElem?_getD, List.getElem?_eq_getElem hlt]
    cases hx : self.sampler_cache[self.sampler_cache.length - 1] with
    | none => exact absurd hx this
    | some ev => exact ⟨ev, rfl⟩
  obtain ⟨s1, hs1, hc1, hi1⟩ := dx11_sampler_free_issues fuel
    { self with sampler_cache := Dx11.sampler_shift self.sampler_cache.length self.sampler_cache }
    ev
  obtain ⟨s2, hs2, hc2, hi2⟩ := dx11_sampler_new_issues fuel s1 desc
  refine ⟨(pool_get s1.handle_pool).1,
    { s2 with sampler_cache := s2.sampler_cache.set 0 (some (pool_get s1.handle_pool).1) },
    ?_, ?_, ?_⟩
  · unfold Dx11._renoir_dx11_sampler_get
    simp only [hscan, lt_irrefl, if_false, if_true, hev, hs1, Option.map_some', hs2]
  · simp only [hc2, hc1]
    exact dx11_sampler_shift_evict self.sampler_cache _ hne
  · show Dx11.issued s2.trace = _
    rw [hi2, hi1, hev]
    simp

/-- Witness of C3: the full cache `[0, 1]` whose handles store the descriptions with
`filter` 1 and 2, and a request for `filter = 9`. -/
theorem c3_sampler_cache_eviction_witness :
    ∃ sampler s, Dx11._renoir_dx11_sampler_get 0 (Dx11.stored_cache 2) { filter := 9 }
        = some (some sampler, s) ∧
      s.sampler_cache = some sampler :: (Dx11.stored_cache 2).sampler_cache.dropLast ∧
      Dx11.issued s.trace = Dx11.issued (Dx11.stored_cache 2).trace ++
        [{ kind := .RENOIR_COMMAND_KIND_SAMPLER_FREE,
           handle := (Dx11.stored_cache 2).sampler_cache.getD
             ((Dx11.stored_cache 2).sampler_cache.length - 1) none },
         { kind := .RENOIR_COMMAND_KIND_SAMPLER_NEW, handle := some sampler,
           sampler_desc := { filter := 9 } }] :=
  c3_sampler_cache_eviction 0 (Dx11.stored_cache 2) { filter := 9 } (by decide)
    (by decide)
    (by
      intro h hmem
      have hh : h = 0 ∨ h = 1 := by
        simpa [Dx11.stored_cache, List.range, List.range.loop] using hmem
      rcases hh with rfl | rfl <;> decide)

set_option maxRecDepth 100000 in
/-- C4 (code defect): on a fresh context, two requests with the same description
`filter = 1` return two different handles and issue two `SAMPLER_NEW` commands, in
immediate and in deferred mode. -/
theorem c4_second_request_creates_again :
    Dx11.request_log 7 {} 2 [{ filter := 1 }, { filter := 1 }]
      = some ([some 0, some 1], 2, some { filter := 1 }) ∧
    Dx11.request_log 7 { defer_api_calls := true } 2 [{ filter := 1 }, { filter := 1 }]
      = some ([some 0, some 1], 2, some { filter := 1 }) := by
  constructor <;> decide

set_option maxRecDepth 100000 in
/-- C5 (code defect): after two requests with the same description `filter = 1` both slots
of a cache of capacity 2 hold a sampler created for that description. -/
theorem c5_two_slots_one_description :
    Dx11.contents_after 7 {} 2 [{ filter := 1 }, { filter := 1 }]
      = some [some { filter := 1 }, some { filter := 1 }] ∧
    Dx11.contents_after 7 { defer_api_calls := true } 2 [{ filter := 1 }, { filter := 1 }]
      = some [some { filter := 1 }, some { filter := 1 }] := by
  constructor <;> decide

set_option maxRecDepth 100000 in
/-- C6 (code defect): capacity 2, requests Z, B, C, D, Z with Z the all-zero description.
After the fourth request the cache holds the samplers of D and C: the one created for Z
has been evicted.  The fifth request is not handled as a miss: it issues no `SAMPLER_NEW`
(four in total) and returns the handle of slot 0, whose sampler was created for D.
Immediate and deferred mode. -/
theorem c6_evicted_description_is_not_recreated :
    Dx11.contents_after 9 {} 2 [{}, { filter := 1 }, { filter := 2 }, { filter := 3 }]
      = some [some { filter := 3 }, some { filter := 2 }] ∧
    Dx11.request_log 9 {} 2 [{}, { filter := 1 }, { filter := 2 }, { filter := 3 }, {}]
      = some ([some 0, some 1, some 1, some 0, some 0], 4, some { filter := 3 }) ∧
    Dx11.contents_after 9 { defer_api_calls := true } 2
        [{}, { filter := 1 }, { filter := 2 }, { filter := 3 }]
      = some [some { filter := 3 }, some { filter := 2 }] ∧
    Dx11.request_log 9 { defer_api_calls := true } 2
        [{}, { filter := 1 }, { filter := 2 }, { filter := 3 }, {}]
      = some ([some 0, some 1, some 2, some 3, some 3], 4, some { filter := 3 }) := by
  refine ⟨?_, ?_, ?_, ?_⟩ <;> decide

/-! ### Draining the device-wide list (C10) -/

set_option maxRecDepth 100000 in
/-- C10 (code defect): before the final flush of `pass_free_scenario` the device-wide list
holds the records 1 (`PASS_FREE`) and 0 (`TEXTURE_FREE`), in push order; the flush executes
record 1 twice, the second time as the nested `TEXTURE_FREE` that overwrote it, and never
executes record 0. -/
theorem c10_flush_skips_a_pushed_record :
    (Dx11.pass_free_scenario 9).map (fun r =>
        ((Dx11.list_records r.1.commands 9 r.1.command_list_head).map
            (List.map fun c => (c, (r.1.commands c).kind)),
          (Dx11.executed (r.2.trace.drop r.1.trace.length)).map (fun e => (e.1, e.2.kind)),
          r.2.command_list_head))
      = some (some [(1, .RENOIR_COMMAND_KIND_PASS_FREE), (0, .RENOIR_COMMAND_KIND_TEXTURE_FREE)],
          [(1, .RENOIR_COMMAND_KIND_PASS_FREE), (1, .RENOIR_COMMAND_KIND_TEXTURE_FREE)],
          none) := by
  decide

/-! ### Draining the device-wide list -/

set_option maxRecDepth 100000 in
/-- C11 (code defect).  GL, deferred mode, two records queued, `swapchain_present` called
twice with nothing issued in between: the first call executes and frees the records 0 and 1,
the second call executes and frees both again, because the GL `swapchain_present` leaves
`command_list_head` in place.  The same calls on the D3D11 backend, whose
`swapchain_present` resets the list, execute and free each of its three records once. -/
theorem c11_second_present_executes_again :
    (Gl450.present_twice 5).map (fun r =>
        ((Gl450.executed r.1.trace).map Prod.fst, (Gl450.freed r.1.trace).map Prod.fst,
          (Gl450.executed r.2.trace).map Prod.fst, (Gl450.freed r.2.trace).map Prod.fst,
          r.1.command_list_head))
      = some ([0, 1], [0, 1], [0, 1, 0, 1], [0, 1, 0, 1], some 0) ∧
    (Dx11.present_twice 5).map (fun r =>
        ((Dx11.executed r.1.trace).map Prod.fst, (Dx11.freed r.1.trace).map Prod.fst,
          (Dx11.executed r.2.trace).map Prod.fst, (Dx11.freed r.2.trace).map Prod.fst,
          r.1.command_list_head))
      = some ([0, 1, 2], [0, 1, 2], [0, 1, 2], [0, 1, 2], none) := by
  constructor <;> decide

/-! ### Ownership of copied input -/

set_option maxRecDepth 100000 in
/-- C14 (code defect).  Deferred mode, both backends: `compute_new` copies the shader source
into a block of its own (one `mn::alloc`), and after the drain has executed and freed the
`COMPUTE_NEW` record (record 1) no block has been handed to `mn::free`: `compute_new` sets
`program_new.owns_data`, `command_free` tests `compute_new.owns_data`.  `program_new` on
the same source allocates two blocks and the free of its record releases both. -/
theorem c14_compute_copy_is_never_freed :
    (Dx11.compute_new_scenario 5).map (fun s =>
        (Dx11.allocated s.trace, Dx11.released s.trace, (Dx11.freed s.trace).map Prod.fst))
      = some ([⟨some 0, 3⟩], [], [0, 1]) ∧
    (Dx11.program_new_scenario 5).map (fun s =>
        (Dx11.allocated s.trace, Dx11.released s.trace, (Dx11.freed s.trace).map Prod.fst))
      = some ([⟨some 0, 3⟩, ⟨some 1, 3⟩], [⟨some 0, 3⟩, ⟨some 1, 3⟩], [0, 1]) ∧
    (Gl450.compute_new_scenario 5).map (fun s =>
        (Gl450.allocated s.trace, Gl450.released s.trace, (Gl450.freed s.trace).map Prod.fst))
      = some ([⟨some 0, 3⟩], [], [0, 1]) ∧
    (Gl450.program_new_scenario 5).map (fun s =>
        (Gl450.allocated s.trace, Gl450.released s.trace, (Gl450.freed s.trace).map Prod.fst))
      = some ([⟨some 0, 3⟩, ⟨some 1, 3⟩], [⟨some 0, 3⟩, ⟨some 1, 3⟩], [0, 1]) := by
  refine ⟨?_, ?_, ?_, ?_⟩ <;> decide

/-! ### Lists of command records -/

theorem chain_frame (next next' : Nat → Ptr) :
    ∀ (l : List Nat) (p : Ptr), (∀ x ∈ l, next' x = next x) → chain next p l →
      chain next' p l := by
  intro l
  induction l with
  | nil => intro p _ h; exact h
  | cons x l ih =>
    intro p hf h
    refine ⟨h.1, ?_⟩
    rw [hf x (List.mem_cons_self x l)]
    exact ih _ (fun y hy => hf y (List.mem_cons_of_mem x hy)) h.2

theorem chain_unique (next : Nat → Ptr) :
    ∀ (l1 l2 : List Nat) (p : Ptr), chain next p l1 → chain next p l2 → l1 = l2 := by
  intro l1
  induction l1 with
  | nil =>
    intro l2 p h1 h2
    cases l2 with
    | nil => rfl
    | cons y l2 => rw [h1] at h2; exact absurd h2.1 (by simp)
  | cons x l1 ih =>
    intro l2 p h1 h2
    cases l2 with
    | nil => rw [h2] at h1; exact absurd h1.1 (by simp)
    | cons y l2 =>
      have hxy : x = y := by
        have := h1.1.symm.trans h2.1
        exact Option.some.inj this
      subst hxy
      rw [ih l2 _ h1.2 h2.2]

/-- The walk from an element of the list is the rest of the list. -/
theorem chain_suffix (next : Nat → Ptr) :
    ∀ (a b : List Nat) (x : Nat) (p : Ptr), chain next p (a ++ x :: b) →
      chain next (next x) b := by
  intro a
  induction a with
  | nil => intro b x p h; exact h.2
  | cons y a ih => intro b x p h; exact ih b x _ h.2

theorem chain_nodup (next : Nat → Ptr) :
    ∀ (l : List Nat) (p : Ptr), chain next p l → l.Nodup := by
  intro l
  induction l with
  | nil => intro _ _; exact List.nodup_nil
  | cons x l ih =>
    intro p h
    refine List.nodup_cons.mpr ⟨?_, ih _ h.2⟩
    intro hx
    obtain ⟨a, b, hab⟩ := List.append_of_mem hx
    have h1 : chain next (next x) b := by
      have := h.2
      rw [hab] at this
      exact chain_suffix next a b x _ this
    have := chain_unique next l b _ h.2 h1
    have hl : l.length = b.length := by rw [this]
    rw [hab] at hl
    simp at hl
    omega

/-- Splicing: when the last record of `G` gets `q` as its `next` and nothing else on the two
lists changes, the walk from the head of `G` runs through `G` and then through the list
`P` that started at `q`. -/
theorem chain_append (next next' : Nat → Ptr) (P : List Nat) (q : Ptr) :
    ∀ (G : List Nat) (p : Ptr) (t : Nat), chain next p G → G.getLast? = some t →
      chain next q P → t ∉ P → next' t = q → (∀ x, x ≠ t → next' x = next x) →
      chain next' p (G ++ P) := by
  intro G
  induction G with
  | nil => intro p t _ hl; simp at hl
  | cons x G ih =>
    intro p t hG hl hP htP ht hother
    have hnd := chain_nodup next _ _ hG
    refine ⟨hG.1, ?_⟩
    cases G with
    | nil =>
      simp at hl
      subst hl
      show chain next' (next' x) P
      rw [ht]
      exact chain_frame next next' P q (fun y hy => hother y (fun h => htP (h ▸ hy))) hP
    | cons y G =>
      have hl' : (y :: G).getLast? = some t := by
        rw [List.getLast?_cons_cons] at hl; exact hl
      have hxt : x ≠ t := by
        intro h
        have : t ∈ y :: G := List.mem_of_getLast?_eq_some hl'
        rw [← h] at this
        exact (List.nodup_cons.mp hnd).1 this
      show chain next' (next' x) ((y :: G) ++ P)
      rw [hother x hxt]
      exact ih _ t hG.2 hl' hP htP ht hother

theorem write_apply {α : Type} (m : Nat → α) (a b : Nat) (v : α) :
    write m a v b = if b = a then v else m b := rfl

/-- What the pool hands out is no longer free, and a block that was neither free nor beyond
the storage stays so. -/
theorem pool_get_spec (p : Pool) (hn : p.free.Nodup) (hl : ∀ y ∈ p.free, y < p.fresh) :
    (pool_get p).1 ∉ (pool_get p).2.free ∧ (pool_get p).2.free.Nodup ∧
    (∀ y ∈ (pool_get p).2.free, y < (pool_get p).2.fresh) ∧
    (pool_get p).1 < (pool_get p).2.fresh ∧
    (∀ x, x ∉ p.free → x < p.fresh →
      x ≠ (pool_get p).1 ∧ x ∉ (pool_get p).2.free ∧ x < (pool_get p).2.fresh) := by
  obtain ⟨free, fresh⟩ := p
  cases free with
  | nil =>
    simp only [pool_get]
    refine ⟨by simp, List.nodup_nil, by simp, Nat.lt_succ_self _, ?_⟩
    intro x _ hx
    have hx' : x < fresh := hx
    exact ⟨Nat.ne_of_lt hx', by simp, Nat.lt_succ_of_lt hx'⟩
  | cons a rest =>
    simp only [pool_get]
    have hn' := List.nodup_cons.mp hn
    refine ⟨hn'.1, hn'.2, fun y hy => hl y (List.mem_cons_of_mem a hy),
      hl a (List.mem_cons_self a rest), ?_⟩
    intro x hx hlt
    refine ⟨?_, fun h => hx (List.mem_cons_of_mem a h), hlt⟩
    intro h
    exact hx (by simp [h])

theorem pool_put_foldl_free (l : List Nat) :
    ∀ p : Pool, (l.foldl pool_put p).free = l.reverse ++ p.free ∧
      (l.foldl pool_put p).fresh = p.fresh := by
  induction l with
  | nil => intro p; simp
  | cons x l ih =>
    intro p
    have := ih (pool_put p x)
    simp only [List.foldl_cons, List.reverse_cons, List.append_assoc]
    refine ⟨by rw [this.1]; simp [pool_put], by rw [this.2]; simp [pool_put]⟩

namespace Links

variable {κ : Type}

theorem WF.phead_eq_none_iff {L : Links κ} {D hs : List Nat} {priv : Nat → List Nat}
    (w : L.WF D hs priv) {h : Nat} (hh : h ∈ hs) : L.phead h = none ↔ priv h = [] := by
  have hc := w.pr h hh
  cases hp : priv h with
  | nil =>
    rw [hp] at hc
    have : L.phead h = none := hc
    simp [this]
  | cons x l => rw [hp] at hc; simp [hc.1]

/-- `new` leaves every list as it is and hands out a block that is on none of them. -/
theorem WF.new {L : Links κ} {D hs : List Nat} {priv : Nat → List Nat}
    (w : L.WF D hs priv) (k : κ) :
    (L.new k).2.WF D hs priv ∧ (L.new k).1 ∉ D ∧ (∀ h ∈ hs, (L.new k).1 ∉ priv h) ∧
    (L.new k).1 ∉ (L.new k).2.pool.free ∧ (L.new k).1 < (L.new k).2.pool.fresh ∧
    (L.new k).2.next (L.new k).1 = none := by
  obtain ⟨h1, h2, h3, h4, h5⟩ := pool_get_spec L.pool w.pool_nodup w.pool_lt
  have hD : (pool_get L.pool).1 ∉ D := fun hx =>
    (h5 _ (w.dev_alloc _ hx).1 (w.dev_alloc _ hx).2).1 rfl
  have hP : ∀ h ∈ hs, (pool_get L.pool).1 ∉ priv h := fun h hh hx =>
    (h5 _ (w.pr_alloc h hh _ hx).1 (w.pr_alloc h hh _ hx).2).1 rfl
  refine ⟨⟨?_, w.dev_tail, ?_, w.pr_tail, w.disj_dev, w.disj, h2, h3, ?_, ?_⟩,
    hD, hP, h1, h4, ?_⟩
  · refine chain_frame L.next _ D _ (fun x hx => ?_) w.dev
    show write L.next _ none x = L.next x
    rw [write_apply, if_neg (fun h : x = (pool_get L.pool).1 => hD (h ▸ hx))]
  · intro h hh
    refine chain_frame L.next _ _ _ (fun x hx => ?_) (w.pr h hh)
    show write L.next _ none x = L.next x
    rw [write_apply, if_neg (fun e : x = (pool_get L.pool).1 => hP h hh (e ▸ hx))]
  · intro x hx
    exact (h5 _ (w.dev_alloc _ hx).1 (w.dev_alloc _ hx).2).2
  · intro h hh x hx
    exact (h5 _ (w.pr_alloc h hh _ hx).1 (w.pr_alloc h hh _ hx).2).2
  · show write L.next (pool_get L.pool).1 none (pool_get L.pool).1 = none
    rw [write_same]

end Links

namespace Links

variable {κ : Type}

theorem mem_write_priv {priv : Nat → List Nat} {h h' : Nat} {l : List Nat} {x : Nat}
    (hx : x ∈ write priv h l h') : (h' = h ∧ x ∈ l) ∨ (h' ≠ h ∧ x ∈ priv h') := by
  rw [write_apply] at hx
  by_cases e : h' = h
  · rw [if_pos e] at hx; exact Or.inl ⟨e, hx⟩
  · rw [if_neg e] at hx; exact Or.inr ⟨e, hx⟩

/-- Pushing an unlinked block that is on no list onto the private list of `h`. -/
theorem WF.push_pass {L : Links κ} {D hs : List Nat} {priv : Nat → List Nat}
    (w : L.WF D hs priv) {h : Nat} (hh : h ∈ hs) {c : Nat} (hD : c ∉ D)
    (hP : ∀ h' ∈ hs, c ∉ priv h') (hf : c ∉ L.pool.free) (hlt : c < L.pool.fresh)
    (hn : L.next c = none) :
    (L.push_pass h c).WF D hs (write priv h (priv h ++ [c])) := by
  have hdisj_dev : ∀ h' ∈ hs, ∀ x ∈ write priv h (priv h ++ [c]) h', x ∉ D := by
    intro h' hh' x hx
    rcases mem_write_priv hx with ⟨_, hx⟩ | ⟨_, hx⟩
    · rcases List.mem_append.mp hx with hx | hx
      · exact w.disj_dev h hh x hx
      · rw [List.mem_singleton.mp hx]; exact hD
    · exact w.disj_dev h' hh' x hx
  have hdisj : ∀ h1 ∈ hs, ∀ h2 ∈ hs, h1 ≠ h2 →
      ∀ x ∈ write priv h (priv h ++ [c]) h1, x ∉ write priv h (priv h ++ [c]) h2 := by
    intro h1 hh1 h2 hh2 hne x hx hx2
    rcases mem_write_priv hx with ⟨e1, hx⟩ | ⟨e1, hx⟩ <;>
      rcases mem_write_priv hx2 with ⟨e2, hx2⟩ | ⟨e2, hx2⟩
    · exact hne (e1.trans e2.symm)
    · rcases List.mem_append.mp hx with hx | hx
      · exact w.disj h hh h2 hh2 (fun e => e2 e.symm) x hx hx2
      · rw [List.mem_singleton.mp hx] at hx2; exact hP h2 hh2 hx2
    · rcases List.mem_append.mp hx2 with hx2 | hx2
      · exact w.disj h1 hh1 h hh e1 x hx hx2
      · rw [List.mem_singleton.mp hx2] at hx; exact hP h1 hh1 hx
    · exact w.disj h1 hh1 h2 hh2 hne x hx hx2
  have halloc : ∀ h' ∈ hs, ∀ x ∈ write priv h (priv h ++ [c]) h',
      x ∉ L.pool.free ∧ x < L.pool.fresh := by
    intro h' hh' x hx
    rcases mem_write_priv hx with ⟨_, hx⟩ | ⟨_, hx⟩
    · rcases List.mem_append.mp hx with hx | hx
      · exact w.pr_alloc h hh x hx
      · rw [List.mem_singleton.mp hx]; exact ⟨hf, hlt⟩
    · exact w.pr_alloc h' hh' x hx
  have htail : ∀ h' ∈ hs, write L.ptail h (some c) h' =
      (write priv h (priv h ++ [c]) h').getLast? := by
    intro h' hh'
    rw [write_apply, write_apply]
    by_cases e : h' = h
    · rw [if_pos e, if_pos e]; simp
    · rw [if_neg e, if_neg e]; exact w.pr_tail h' hh'
  cases hp : priv h with
  | nil =>
    have hpt : L.ptail h = none := by rw [w.pr_tail h hh, hp]; rfl
    have e : L.push_pass h c =
        { L with phead := write L.phead h (some c), ptail := write L.ptail h (some c) } := by
      simp only [Links.push_pass, hpt]
    rw [hp] at hdisj_dev hdisj halloc htail
    rw [e]
    refine ⟨w.dev, w.dev_tail, ?_, htail, hdisj_dev, hdisj, w.pool_nodup, w.pool_lt,
      w.dev_alloc, halloc⟩
    intro h' hh'
    show chain L.next (write L.phead h (some c) h') (write priv h ([] ++ [c]) h')
    rw [write_apply, write_apply]
    by_cases e' : h' = h
    · rw [if_pos e', if_pos e']; exact ⟨rfl, hn⟩
    · rw [if_neg e', if_neg e']; exact w.pr h' hh'
  | cons y l =>
    have hlast : (priv h).getLast? = some ((y :: l).getLast (by simp)) := by
      rw [hp]; exact List.getLast?_eq_getLast _ _
    obtain ⟨t, ht⟩ : ∃ t, (priv h).getLast? = some t := ⟨_, hlast⟩
    have hpt : L.ptail h = some t := by rw [w.pr_tail h hh, ht]
    have htm : t ∈ priv h := List.mem_of_getLast?_eq_some ht
    have e : L.push_pass h c =
        { L with next := write L.next t (some c), ptail := write L.ptail h (some c) } := by
      simp only [Links.push_pass, hpt]
    have hct : c ≠ t := fun e => hP h hh (e ▸ htm)
    rw [← hp, e]
    refine ⟨?_, w.dev_tail, ?_, htail, hdisj_dev, hdisj, w.pool_nodup, w.pool_lt,
      w.dev_alloc, halloc⟩
    · refine chain_frame L.next _ D _ (fun x hx => ?_) w.dev
      show write L.next t (some c) x = L.next x
      rw [write_apply, if_neg (fun e : x = t => w.disj_dev h hh t htm (e ▸ hx))]
    · intro h' hh'
      show chain (write L.next t (some c)) (L.phead h') (write priv h (priv h ++ [c]) h')
      rw [write_apply]
      by_cases e' : h' = h
      · rw [if_pos e', e']
        refine chain_append L.next _ [c] (some c) (priv h) _ t (w.pr h hh) ht ⟨rfl, hn⟩
          (by simpa using fun e => hct e.symm) (write_same _ _ _) ?_
        intro x hx
        show write L.next t (some c) x = L.next x
        rw [write_apply, if_neg hx]
      · rw [if_neg e']
        refine chain_frame L.next _ _ _ (fun x hx => ?_) (w.pr h' hh')
        show write L.next t (some c) x = L.next x
        rw [write_apply, if_neg (fun e : x = t => w.disj h' hh' h hh e' x hx (e ▸ htm))]

/-- Pushing an unlinked block that is on no list onto the device-wide list. -/
theorem WF.push_self {L : Links κ} {D hs : List Nat} {priv : Nat → List Nat}
    (w : L.WF D hs priv) {c : Nat} (hD : c ∉ D)
    (hP : ∀ h' ∈ hs, c ∉ priv h') (hf : c ∉ L.pool.free) (hlt : c < L.pool.fresh)
    (hn : L.next c = none) :
    (L.push_self c).WF (D ++ [c]) hs priv := by
  have hdisj_dev : ∀ h' ∈ hs, ∀ x ∈ priv h', x ∉ D ++ [c] := by
    intro h' hh' x hx hxD
    rcases List.mem_append.mp hxD with hxD | hxD
    · exact w.disj_dev h' hh' x hx hxD
    · rw [List.mem_singleton.mp hxD] at hx; exact hP h' hh' hx
  have halloc : ∀ x ∈ D ++ [c], x ∉ L.pool.free ∧ x < L.pool.fresh := by
    intro x hx
    rcases List.mem_append.mp hx with hx | hx
    · exact w.dev_alloc x hx
    · rw [List.mem_singleton.mp hx]; exact ⟨hf, hlt⟩
  cases hp : D with
  | nil =>
    have hpt : L.tail = none := by rw [w.dev_tail, hp]; rfl
    have e : L.push_self c = { L with head := some c, tail := some c } := by
      simp only [Links.push_self, hpt]
    rw [hp] at hdisj_dev halloc
    rw [e]
    exact ⟨⟨rfl, hn⟩, rfl, w.pr, w.pr_tail, hdisj_dev, w.disj, w.pool_nodup, w.pool_lt,
      halloc, w.pr_alloc⟩
  | cons y l =>
    have hlast : D.getLast? = some ((y :: l).getLast (by simp)) := by
      rw [hp]; exact List.getLast?_eq_getLast _ _
    obtain ⟨t, ht⟩ : ∃ t, D.getLast? = some t := ⟨_, hlast⟩
    have hpt : L.tail = some t := by rw [w.dev_tail, ht]
    have htm : t ∈ D := List.mem_of_getLast?_eq_some ht
    have e : L.push_self c = { L with next := write L.next t (some c), tail := some c } := by
      simp only [Links.push_self, hpt]
    have hct : c ≠ t := fun e => hD (e ▸ htm)
    rw [← hp, e]
    refine ⟨?_, by simp, ?_, w.pr_tail, hdisj_dev, w.disj, w.pool_nodup, w.pool_lt,
      halloc, w.pr_alloc⟩
    · refine chain_append L.next _ [c] (some c) D _ t w.dev ht ⟨rfl, hn⟩
        (by simpa using fun e => hct e.symm) (write_same _ _ _) ?_
      intro x hx
      show write L.next t (some c) x = L.next x
      rw [write_apply, if_neg hx]
    · intro h' hh'
      refine chain_frame L.next _ _ _ (fun x hx => ?_) (w.pr h' hh')
      show write L.next t (some c) x = L.next x
      rw [write_apply, if_neg (fun e : x = t => w.disj_dev h' hh' x hx (e ▸ htm))]

/-- Emptying the private list of `h` (its records stay allocated). -/
theorem WF.reset {L : Links κ} {D hs : List Nat} {priv : Nat → List Nat}
    (w : L.WF D hs priv) (h : Nat) : (L.reset h).WF D hs (write priv h []) := by
  refine ⟨w.dev, w.dev_tail, ?_, ?_, ?_, ?_, w.pool_nodup, w.pool_lt, w.dev_alloc, ?_⟩
  · intro h' hh'
    show chain L.next (write L.phead h none h') (write priv h [] h')
    rw [write_apply, write_apply]
    by_cases e : h' = h
    · rw [if_pos e, if_pos e]; rfl
    · rw [if_neg e, if_neg e]; exact w.pr h' hh'
  · intro h' hh'
    show write L.ptail h none h' = (write priv h [] h').getLast?
    rw [write_apply, write_apply]
    by_cases e : h' = h
    · rw [if_pos e, if_pos e]; rfl
    · rw [if_neg e, if_neg e]; exact w.pr_tail h' hh'
  · intro h' hh' x hx
    rcases mem_write_priv hx with ⟨_, hx⟩ | ⟨_, hx⟩
    · simp at hx
    · exact w.disj_dev h' hh' x hx
  · intro h1 hh1 h2 hh2 hne x hx hx2
    rcases mem_write_priv hx with ⟨_, hx⟩ | ⟨_, hx⟩
    · simp at hx
    · rcases mem_write_priv hx2 with ⟨_, hx2⟩ | ⟨_, hx2⟩
      · simp at hx2
      · exact w.disj h1 hh1 h2 hh2 hne x hx hx2
  · intro h' hh' x hx
    rcases mem_write_priv hx with ⟨_, hx⟩ | ⟨_, hx⟩
    · simp at hx
    · exact w.pr_alloc h' hh' x hx

end Links

theorem write_write {α : Type} (m : Nat → α) (a : Nat) (v w : α) :
    write (write m a v) a w = write m a w := by
  funext b
  simp only [write_apply]
  split <;> rfl

namespace Links

variable {κ : Type}

@[simp] theorem push_pass_label (L : Links κ) (h c : Nat) : (L.push_pass h c).label = L.label := by
  unfold Links.push_pass; split <;> rfl
@[simp] theorem push_pass_log (L : Links κ) (h c : Nat) : (L.push_pass h c).log = L.log := by
  unfold Links.push_pass; split <;> rfl
@[simp] theorem push_pass_head (L : Links κ) (h c : Nat) : (L.push_pass h c).head = L.head := by
  unfold Links.push_pass; split <;> rfl
@[simp] theorem push_pass_tail (L : Links κ) (h c : Nat) : (L.push_pass h c).tail = L.tail := by
  unfold Links.push_pass; split <;> rfl
@[simp] theorem push_pass_pool (L : Links κ) (h c : Nat) : (L.push_pass h c).pool = L.pool := by
  unfold Links.push_pass; split <;> rfl
@[simp] theorem push_self_label (L : Links κ) (c : Nat) : (L.push_self c).label = L.label := by
  unfold Links.push_self; split <;> rfl
@[simp] theorem push_self_log (L : Links κ) (c : Nat) : (L.push_self c).log = L.log := by
  unfold Links.push_self; split <;> rfl
@[simp] theorem push_self_pool (L : Links κ) (c : Nat) : (L.push_self c).pool = L.pool := by
  unfold Links.push_self; split <;> rfl
@[simp] theorem push_self_phead (L : Links κ) (c : Nat) : (L.push_self c).phead = L.phead := by
  unfold Links.push_self; split <;> rfl
@[simp] theorem push_self_ptail (L : Links κ) (c : Nat) : (L.push_self c).ptail = L.ptail := by
  unfold Links.push_self; split <;> rfl

/-- A recording call appends the new record to the private list of `h` and to no other
list. -/
theorem WF.record {L : Links κ} {D hs : List Nat} {priv : Nat → List Nat}
    (w : L.WF D hs priv) {h : Nat} (hh : h ∈ hs) (k : κ) :
    (L.record h k).WF D hs (write priv h (priv h ++ [(L.new k).1])) := by
  obtain ⟨w1, hD, hP, hf, hlt, hn⟩ := w.new k
  exact w1.push_pass hh hD hP hf hlt hn

/-- A command processed in deferred mode is appended to the device-wide list and to no
other list. -/
theorem WF.device {L : Links κ} {D hs : List Nat} {priv : Nat → List Nat}
    (w : L.WF D hs priv) (k : κ) :
    (L.device k).WF (D ++ [(L.new k).1]) hs priv := by
  obtain ⟨w1, hD, hP, hf, hlt, hn⟩ := w.new k
  exact w1.push_self hD hP hf hlt hn

/-- `pass_begin` leaves the private list of `h` holding the new record alone. -/
theorem WF.pass_begin {L : Links κ} {D hs : List Nat} {priv : Nat → List Nat}
    (w : L.WF D hs priv) {h : Nat} (hh : h ∈ hs) (k : κ) :
    (L.pass_begin h k).WF D hs (write priv h [((L.reset h).new k).1]) := by
  have := (w.reset h).record hh k
  rw [write_same, List.nil_append, write_write] at this
  exact this

/-- The splice of a non-empty private list onto the device-wide list. -/
theorem WF.splice_reset {L : Links κ} {D hs : List Nat} {priv : Nat → List Nat}
    (w : L.WF D hs priv) {h : Nat} (hh : h ∈ hs) (hne : priv h ≠ []) :
    ((L.splice h).reset h).WF (D ++ priv h) hs (write priv h []) := by
  have hdisj_dev : ∀ h' ∈ hs, ∀ x ∈ write priv h [] h', x ∉ D ++ priv h := by
    intro h' hh' x hx hxD
    rcases mem_write_priv hx with ⟨_, hx⟩ | ⟨e, hx⟩
    · simp at hx
    · rcases List.mem_append.mp hxD with hxD | hxD
      · exact w.disj_dev h' hh' x hx hxD
      · exact w.disj h' hh' h hh e x hx hxD
  have hdisj : ∀ h1 ∈ hs, ∀ h2 ∈ hs, h1 ≠ h2 →
      ∀ x ∈ write priv h [] h1, x ∉ write priv h [] h2 := (w.reset h).disj
  have halloc : ∀ x ∈ D ++ priv h, x ∉ L.pool.free ∧ x < L.pool.fresh := by
    intro x hx
    rcases List.mem_append.mp hx with hx | hx
    · exact w.dev_alloc x hx
    · exact w.pr_alloc h hh x hx
  have hpr_alloc := (w.reset h).pr_alloc
  have htl : (D ++ priv h).getLast? = (priv h).getLast? := by
    cases hp : priv h with
    | nil => exact absurd hp hne
    | cons y l =>
      rw [List.getLast?_append, List.getLast?_eq_getLast (y :: l) (by simp)]
      rfl
  have hptail : ∀ h' ∈ hs, write L.ptail h none h' = (write priv h [] h').getLast? :=
    (w.reset h).pr_tail
  cases hp : D with
  | nil =>
    have hpt : L.tail = none := by rw [w.dev_tail, hp]; rfl
    have e : (L.splice h).reset h =
        { L with head := L.phead h, tail := L.ptail h,
                 phead := write L.phead h none, ptail := write L.ptail h none } := by
      simp only [Links.splice, Links.reset, hpt]
    rw [hp] at hdisj_dev halloc htl
    rw [e]
    refine ⟨by simpa using w.pr h hh, by simpa using w.pr_tail h hh, (w.reset h).pr,
      hptail, hdisj_dev, hdisj, w.pool_nodup, w.pool_lt, halloc, hpr_alloc⟩
  | cons y l =>
    have hlast : D.getLast? = some ((y :: l).getLast (by simp)) := by
      rw [hp]; exact List.getLast?_eq_getLast _ _
    obtain ⟨t, ht⟩ : ∃ t, D.getLast? = some t := ⟨_, hlast⟩
    have hpt : L.tail = some t := by rw [w.dev_tail, ht]
    have htm : t ∈ D := List.mem_of_getLast?_eq_some ht
    have e : (L.splice h).reset h =
        { L with next := write L.next t (L.phead h), tail := L.ptail h,
                 phead := write L.phead h none, ptail := write L.ptail h none } := by
      simp only [Links.splice, Links.reset, hpt]
    rw [← hp, e]
    refine ⟨?_, ?_, ?_, hptail, hdisj_dev, hdisj, w.pool_nodup, w.pool_lt, halloc,
      hpr_alloc⟩
    · refine chain_append L.next _ (priv h) (L.phead h) D _ t w.dev ht (w.pr h hh)
        (fun hx => w.disj_dev h hh t hx htm) (write_same _ _ _) ?_
      intro x hx
      show write L.next t (L.phead h) x = L.next x
      rw [write_apply, if_neg hx]
    · show L.ptail h = (D ++ priv h).getLast?
      rw [htl]; exact w.pr_tail h hh
    · intro h' hh'
      show chain (write L.next t (L.phead h)) (write L.phead h none h') (write priv h [] h')
      rw [write_apply, write_apply]
      by_cases e' : h' = h
      · rw [if_pos e', if_pos e']; rfl
      · rw [if_neg e', if_neg e']
        refine chain_frame L.next _ _ _ (fun x hx => ?_) (w.pr h' hh')
        show write L.next t (L.phead h) x = L.next x
        rw [write_apply, if_neg (fun e : x = t => w.disj_dev h' hh' x hx (e ▸ htm))]

/-- `pass_end` in deferred mode: the private list of `h`, followed by the new record, goes
to the tail of the device-wide list, and the private list is empty afterwards. -/
theorem WF.pass_end_deferred {L : Links κ} {D hs : List Nat} {priv : Nat → List Nat}
    (w : L.WF D hs priv) {h : Nat} (hh : h ∈ hs) (k : κ) :
    (L.pass_end_deferred h k).WF
      (if priv h = [] then D else D ++ (priv h ++ [(L.new k).1])) hs (write priv h []) := by
  unfold Links.pass_end_deferred
  by_cases hp : priv h = []
  · have : L.phead h = none := (w.phead_eq_none_iff hh).mpr hp
    simp only [this, ne_eq, not_true_eq_false, if_false, hp, if_true]
    exact w.reset h
  · have : ¬ L.phead h = none := fun e => hp ((w.phead_eq_none_iff hh).mp e)
    simp only [this, ne_eq, not_false_eq_true, if_true, hp, if_false]
    have w1 := w.record hh k
    have := w1.splice_reset hh (by rw [write_same]; simp)
    rw [write_same, write_write] at this
    exact this

/-- The records of the private list of `h` are executed, freed, and the list is emptied. -/
theorem WF.consume_reset {L : Links κ} {D hs : List Nat} {priv : Nat → List Nat}
    (w : L.WF D hs priv) {h : Nat} (hh : h ∈ hs) :
    ((L.consume (priv h)).reset h).WF D hs (write priv h []) := by
  have hfree := pool_put_foldl_free (priv h) L.pool
  have w0 := w.reset h
  have hmem : ∀ x, x ∈ (List.foldl pool_put L.pool (priv h)).free ↔
      x ∈ priv h ∨ x ∈ L.pool.free := by
    intro x; rw [hfree.1]; simp
  refine ⟨w0.dev, w0.dev_tail, w0.pr, w0.pr_tail, w0.disj_dev, w0.disj, ?_, ?_, ?_, ?_⟩
  · show (List.foldl pool_put L.pool (priv h)).free.Nodup
    rw [hfree.1]
    refine List.Nodup.append (List.nodup_reverse.mpr (chain_nodup _ _ _ (w.pr h hh)))
      w.pool_nodup ?_
    intro x hx hx'
    exact (w.pr_alloc h hh x (List.mem_reverse.mp hx)).1 hx'
  · intro y hy
    show y < (List.foldl pool_put L.pool (priv h)).fresh
    rw [hfree.2]
    rcases (hmem y).mp hy with hy | hy
    · exact (w.pr_alloc h hh y hy).2
    · exact w.pool_lt y hy
  · intro x hx
    show x ∉ (List.foldl pool_put L.pool (priv h)).free ∧
      x < (List.foldl pool_put L.pool (priv h)).fresh
    rw [hfree.2]
    refine ⟨fun hx' => ?_, (w.dev_alloc x hx).2⟩
    rcases (hmem x).mp hx' with hx' | hx'
    · exact w.disj_dev h hh x hx' hx
    · exact (w.dev_alloc x hx).1 hx'
  · intro h' hh' x hx
    show x ∉ (List.foldl pool_put L.pool (priv h)).free ∧
      x < (List.foldl pool_put L.pool (priv h)).fresh
    rw [hfree.2]
    rcases mem_write_priv hx with ⟨_, hx⟩ | ⟨e, hx⟩
    · simp at hx
    · refine ⟨fun hx' => ?_, (w.pr_alloc h' hh' x hx).2⟩
      rcases (hmem x).mp hx' with hx' | hx'
      · exact w.disj h' hh' h hh e x hx hx'
      · exact (w.pr_alloc h' hh' x hx).1 hx'

/-- `pass_end` in immediate mode: the records of the private list of `h` and the new record
are executed and freed, every list but the private list of `h` stays as it is. -/
theorem WF.pass_end_immediate {L : Links κ} {D hs : List Nat} {priv : Nat → List Nat}
    (w : L.WF D hs priv) {h : Nat} (hh : h ∈ hs) (k : κ) :
    (L.pass_end_immediate h k (priv h ++ [(L.new k).1])).WF D hs (write priv h []) := by
  unfold Links.pass_end_immediate
  by_cases hp : L.phead h = none
  · simp only [hp, ne_eq, not_true_eq_false, if_false]
    exact w.reset h
  · simp only [hp, ne_eq, not_false_eq_true, if_true]
    have w1 := w.record hh k
    have := w1.consume_reset hh
    rw [write_same, write_write] at this
    exact this

/-- A command processed in immediate mode: the block goes back to the pool, no list
changes. -/
theorem WF.immediate {L : Links κ} {D hs : List Nat} {priv : Nat → List Nat}
    (w : L.WF D hs priv) (k : κ) : (L.immediate k).WF D hs priv := by
  obtain ⟨w1, hD, hP, hf, hlt, _⟩ := w.new k
  refine ⟨w1.dev, w1.dev_tail, w1.pr, w1.pr_tail, w1.disj_dev, w1.disj, ?_, ?_, ?_, ?_⟩
  · show ((L.new k).1 :: (L.new k).2.pool.free).Nodup
    exact List.nodup_cons.mpr ⟨hf, w1.pool_nodup⟩
  · intro y hy
    show y < (L.new k).2.pool.fresh
    rcases List.mem_cons.mp hy with hy | hy
    · rw [hy]; exact hlt
    · exact w1.pool_lt y hy
  · intro x hx
    show x ∉ (L.new k).1 :: (L.new k).2.pool.free ∧ x < (L.new k).2.pool.fresh
    refine ⟨fun hx' => ?_, (w1.dev_alloc x hx).2⟩
    rcases List.mem_cons.mp hx' with hx' | hx'
    · exact hD (hx' ▸ hx)
    · exact (w1.dev_alloc x hx).1 hx'
  · intro h' hh' x hx
    show x ∉ (L.new k).1 :: (L.new k).2.pool.free ∧ x < (L.new k).2.pool.fresh
    refine ⟨fun hx' => ?_, (w1.pr_alloc h' hh' x hx).2⟩
    rcases List.mem_cons.mp hx' with hx' | hx'
    · exact hP h' hh' (hx' ▸ hx)
    · exact (w1.pr_alloc h' hh' x hx).1 hx'

end Links

namespace Links

variable {κ : Type}

theorem new_fst_reset (L : Links κ) (h : Nat) (k : κ) : ((L.reset h).new k).1 = (L.new k).1 :=
  rfl

theorem record_label (L : Links κ) (h : Nat) (k : κ) :
    (L.record h k).label = write L.label (L.new k).1 k := by
  unfold Links.record; simp only [push_pass_label]; rfl

theorem record_log (L : Links κ) (h : Nat) (k : κ) : (L.record h k).log = L.log := by
  unfold Links.record; simp only [push_pass_log]; rfl

theorem record_head (L : Links κ) (h : Nat) (k : κ) : (L.record h k).head = L.head := by
  unfold Links.record; simp only [push_pass_head]; rfl

theorem record_tail (L : Links κ) (h : Nat) (k : κ) : (L.record h k).tail = L.tail := by
  unfold Links.record; simp only [push_pass_tail]; rfl

theorem pass_begin_label (L : Links κ) (h : Nat) (k : κ) :
    (L.pass_begin h k).label = write L.label (L.new k).1 k := by
  unfold Links.pass_begin; simp only [push_pass_label]; rfl

theorem pass_begin_log (L : Links κ) (h : Nat) (k : κ) : (L.pass_begin h k).log = L.log := by
  unfold Links.pass_begin; simp only [push_pass_log]; rfl

theorem pass_begin_head (L : Links κ) (h : Nat) (k : κ) : (L.pass_begin h k).head = L.head := by
  unfold Links.pass_begin; simp only [push_pass_head]; rfl

theorem pass_begin_tail (L : Links κ) (h : Nat) (k : κ) : (L.pass_begin h k).tail = L.tail := by
  unfold Links.pass_begin; simp only [push_pass_tail]; rfl

theorem device_label (L : Links κ) (k : κ) :
    (L.device k).label = write L.label (L.new k).1 k := by
  unfold Links.device; simp only [push_self_label]; rfl

theorem device_log (L : Links κ) (k : κ) : (L.device k).log = L.log := by
  unfold Links.device; simp only [push_self_log]; rfl

theorem immediate_label (L : Links κ) (k : κ) :
    (L.immediate k).label = write L.label (L.new k).1 k := rfl

theorem immediate_log (L : Links κ) (k : κ) :
    (L.immediate k).log = L.log ++ [((L.new k).1, k)] := by
  show L.log ++ [((L.new k).1, write L.label (L.new k).1 k (L.new k).1)] = _
  rw [write_same]

theorem splice_label (L : Links κ) (h : Nat) : (L.splice h).label = L.label := by
  unfold Links.splice; split <;> rfl

theorem splice_log (L : Links κ) (h : Nat) : (L.splice h).log = L.log := by
  unfold Links.splice; split <;> rfl

theorem pass_end_deferred_label (L : Links κ) (h : Nat) (k : κ) :
    (L.pass_end_deferred h k).label = L.label ∨
    (L.pass_end_deferred h k).label = write L.label (L.new k).1 k := by
  unfold Links.pass_end_deferred
  split
  · right
    show ((L.record h k).splice h).label = _
    rw [splice_label, record_label]
  · left; rfl

theorem pass_end_deferred_log (L : Links κ) (h : Nat) (k : κ) :
    (L.pass_end_deferred h k).log = L.log := by
  unfold Links.pass_end_deferred
  split
  · show ((L.record h k).splice h).log = _
    rw [splice_log, record_log]
  · rfl

theorem pass_end_immediate_label (L : Links κ) (h : Nat) (k : κ) (l : List Nat) :
    (L.pass_end_immediate h k l).label = L.label ∨
    (L.pass_end_immediate h k l).label = write L.label (L.new k).1 k := by
  unfold Links.pass_end_immediate
  split
  · right
    show (L.record h k).label = _
    rw [record_label]
  · left; rfl

theorem pass_end_immediate_log (L : Links κ) (h : Nat) (k : κ) (l : List Nat) :
    (L.pass_end_immediate h k l).log =
      if L.phead h ≠ none then
        L.log ++ l.map (fun x => (x, write L.label (L.new k).1 k x))
      else L.log := by
  unfold Links.pass_end_immediate
  split
  · show (L.record h k).log ++ l.map (fun x => (x, (L.record h k).label x)) = _
    rw [record_log, record_label]
  · rfl

end Links

namespace Model

variable {κ : Type}

/-- Every step keeps the model well-formed. -/
theorem WF.step {M : Model κ} {hs : List Nat} (w : M.WF hs) (st : Step κ) (ok : st.ok hs) :
    (M.step st).WF hs := by
  cases st with
  | reset h =>
    have := Links.WF.reset w h
    exact this
  | device k => exact Links.WF.device w k
  | immediate k => exact Links.WF.immediate w k
  | pass_begin h k => exact Links.WF.pass_begin w ok k
  | record h k => exact Links.WF.record w ok k
  | pass_end_deferred h k => exact Links.WF.pass_end_deferred w ok k
  | pass_end_immediate h k => exact Links.WF.pass_end_immediate w ok k

theorem WF.run {hs : List Nat} (steps : List (Step κ)) :
    ∀ {M : Model κ}, M.WF hs → (∀ st ∈ steps, st.ok hs) → (M.run steps).WF hs := by
  induction steps with
  | nil => intro M w _; exact w
  | cons st steps ih =>
    intro M w ok
    exact ih (w.step st (ok st (List.mem_cons_self st steps)))
      (fun st' h' => ok st' (List.mem_cons_of_mem st h'))

/-- The label of a step's new record, if it creates one, with the block it takes. -/
theorem step_label (M : Model κ) (st : Step κ) :
    (M.step st).links.label = M.links.label ∨
    ∃ k, (M.step st).links.label = write M.links.label (M.links.new k).1 k := by
  cases st with
  | reset h => left; rfl
  | device k => right; exact ⟨k, Links.device_label _ _⟩
  | immediate k => right; exact ⟨k, Links.immediate_label _ _⟩
  | pass_begin h k => right; exact ⟨k, Links.pass_begin_label _ _ _⟩
  | record h k => right; exact ⟨k, Links.record_label _ _ _⟩
  | pass_end_deferred h k =>
    rcases Links.pass_end_deferred_label M.links h k with e | e
    · left; exact e
    · right; exact ⟨k, e⟩
  | pass_end_immediate h k =>
    rcases Links.pass_end_immediate_label M.links h k _ with e | e
    · left; exact e
    · right; exact ⟨k, e⟩

/-- A record on a list keeps its label through every step. -/
theorem WF.step_label_dev {M : Model κ} {hs : List Nat} (w : M.WF hs) (st : Step κ)
    {x : Nat} (hx : x ∈ M.dev) : (M.step st).links.label x = M.links.label x := by
  rcases step_label M st with e | ⟨k, e⟩
  · rw [e]
  · rw [e, write_apply, if_neg]
    intro h
    exact (Links.WF.new w k).2.1 (h ▸ hx)

theorem WF.step_label_priv {M : Model κ} {hs : List Nat} (w : M.WF hs) (st : Step κ)
    {h x : Nat} (hh : h ∈ hs) (hx : x ∈ M.priv h) :
    (M.step st).links.label x = M.links.label x := by
  rcases step_label M st with e | ⟨k, e⟩
  · rw [e]
  · rw [e, write_apply, if_neg]
    intro h'
    exact (Links.WF.new w k).2.2.1 h hh (h' ▸ hx)

/-- Every step extends the device-wide list at its tail, and the log at its end. -/
theorem step_dev (M : Model κ) (st : Step κ) : ∃ C, (M.step st).dev = M.dev ++ C := by
  cases st with
  | reset h => exact ⟨[], by simp [Model.step]⟩
  | device k => exact ⟨_, rfl⟩
  | immediate k => exact ⟨[], by simp [Model.step]⟩
  | pass_begin h k => exact ⟨[], by simp [Model.step]⟩
  | record h k => exact ⟨[], by simp [Model.step]⟩
  | pass_end_deferred h k =>
    by_cases e : M.priv h = []
    · exact ⟨[], by simp [Model.step, e]⟩
    · exact ⟨M.priv h ++ [(M.links.new k).1], by simp only [Model.step, e, if_false]⟩
  | pass_end_immediate h k => exact ⟨[], by simp [Model.step]⟩

theorem step_log (M : Model κ) (st : Step κ) :
    ∃ C, (M.step st).links.log = M.links.log ++ C := by
  cases st with
  | reset h => exact ⟨[], by simp [Model.step, Links.reset]⟩
  | device k => exact ⟨[], by simp [Model.step, Links.device_log]⟩
  | immediate k => exact ⟨_, Links.immediate_log _ _⟩
  | pass_begin h k => exact ⟨[], by simp [Model.step, Links.pass_begin_log]⟩
  | record h k => exact ⟨[], by simp [Model.step, Links.record_log]⟩
  | pass_end_deferred h k => exact ⟨[], by simp [Model.step, Links.pass_end_deferred_log]⟩
  | pass_end_immediate h k =>
    by_cases e : M.links.phead h = none
    · exact ⟨[], by simp [Model.step, Links.pass_end_immediate_log, e]⟩
    · exact ⟨(M.priv h ++ [(M.links.new k).1]).map
          (fun x => (x, write M.links.label (M.links.new k).1 k x)),
        by simp only [Model.step, Links.pass_end_immediate_log, e, ne_eq,
          not_false_eq_true, if_true]⟩

theorem run_dev (steps : List (Step κ)) :
    ∀ M : Model κ, ∃ C, (M.run steps).dev = M.dev ++ C := by
  induction steps with
  | nil => intro M; exact ⟨[], by simp [Model.run]⟩
  | cons st steps ih =>
    intro M
    obtain ⟨C1, h1⟩ := step_dev M st
    obtain ⟨C2, h2⟩ := ih (M.step st)
    exact ⟨C1 ++ C2, by
      show ((M.step st).run steps).dev = _
      rw [h2, h1, List.append_assoc]⟩

theorem run_log (steps : List (Step κ)) :
    ∀ M : Model κ, ∃ C, (M.run steps).links.log = M.links.log ++ C := by
  induction steps with
  | nil => intro M; exact ⟨[], by simp [Model.run]⟩
  | cons st steps ih =>
    intro M
    obtain ⟨C1, h1⟩ := step_log M st
    obtain ⟨C2, h2⟩ := ih (M.step st)
    exact ⟨C1 ++ C2, by
      show ((M.step st).run steps).links.log = _
      rw [h2, h1, List.append_assoc]⟩

/-- A step on another pass, or on no pass, leaves the private list of `p` alone. -/
theorem step_priv_foreign (M : Model κ) (st : Step κ) (p : Nat) (hf : st.pass ≠ some p) :
    (M.step st).priv p = M.priv p := by
  cases st with
  | device k => rfl
  | immediate k => rfl
  | reset h =>
    show write M.priv h [] p = M.priv p
    rw [write_apply, if_neg (fun e : p = h => hf (by rw [e]; rfl))]
  | pass_begin h k =>
    show write M.priv h _ p = M.priv p
    rw [write_apply, if_neg (fun e : p = h => hf (by rw [e]; rfl))]
  | record h k =>
    show write M.priv h _ p = M.priv p
    rw [write_apply, if_neg (fun e : p = h => hf (by rw [e]; rfl))]
  | pass_end_deferred h k =>
    show write M.priv h _ p = M.priv p
    rw [write_apply, if_neg (fun e : p = h => hf (by rw [e]; rfl))]
  | pass_end_immediate h k =>
    show write M.priv h _ p = M.priv p
    rw [write_apply, if_neg (fun e : p = h => hf (by rw [e]; rfl))]

end Model

namespace Model

variable {κ : Type}

theorem WF.run_label_dev {hs : List Nat} (steps : List (Step κ)) :
    ∀ {M : Model κ}, M.WF hs → (∀ st ∈ steps, st.ok hs) → ∀ {x : Nat}, x ∈ M.dev →
      (M.run steps).links.label x = M.links.label x := by
  induction steps with
  | nil => intro M _ _ x _; rfl
  | cons st steps ih =>
    intro M w ok x hx
    obtain ⟨C, hC⟩ := step_dev M st
    have hx' : x ∈ (M.step st).dev := by rw [hC]; exact List.mem_append_left _ hx
    show ((M.step st).run steps).links.label x = _
    rw [ih (w.step st (ok st (List.mem_cons_self st steps)))
      (fun st' h' => ok st' (List.mem_cons_of_mem st h')) hx']
    exact w.step_label_dev st hx

theorem run_priv_foreign (p : Nat) (steps : List (Step κ)) :
    ∀ M : Model κ, (∀ st ∈ steps, st.pass ≠ some p) → (M.run steps).priv p = M.priv p := by
  induction steps with
  | nil => intro M _; rfl
  | cons st steps ih =>
    intro M hf
    show ((M.step st).run steps).priv p = _
    rw [ih _ (fun st' h' => hf st' (List.mem_cons_of_mem st h'))]
    exact step_priv_foreign M st p (hf st (List.mem_cons_self st steps))

theorem filter_pass_nil (p : Nat) (steps : List (Step κ))
    (h : steps.filter (fun st => st.pass = some p) = []) : ∀ st ∈ steps, st.pass ≠ some p := by
  intro st hst e
  have : st ∈ steps.filter (fun st => st.pass = some p) :=
    List.mem_filter.mpr ⟨hst, by simpa using e⟩
  rw [h] at this
  exact absurd this (List.not_mem_nil _)

/-- Deferred mode, from inside a cycle of the pass `p`: when the steps on `p` are recording
calls with the labels `recs` followed by `pass_end`, whatever steps on other passes and on
the device-wide list lie in between, the final device-wide list holds the private list of
`p`, the records of those calls and the `PASS_END` record as one contiguous block, in this
order and with these labels. -/
theorem WF.block_deferred {hs : List Nat} {p : Nat} (hp : p ∈ hs) (steps : List (Step κ)) :
    ∀ {M : Model κ} (recs : List κ) (ke : κ), M.WF hs → (∀ st ∈ steps, st.ok hs) →
      M.priv p ≠ [] →
      steps.filter (fun st => st.pass = some p)
        = recs.map (Step.record p) ++ [Step.pass_end_deferred p ke] →
      ∃ A Rs C, (M.run steps).dev = A ++ (M.priv p ++ Rs) ++ C ∧
        (M.priv p ++ Rs).map (M.run steps).links.label
          = (M.priv p).map M.links.label ++ recs ++ [ke] := by
  induction steps with
  | nil =>
    intro M recs ke _ _ _ hf
    simp at hf
  | cons st steps ih =>
    intro M recs ke w ok hne hf
    have w1 := w.step st (ok st (List.mem_cons_self st steps))
    have ok1 : ∀ st' ∈ steps, st'.ok hs := fun st' h' => ok st' (List.mem_cons_of_mem st h')
    by_cases hst : st.pass = some p
    · rw [List.filter_cons_of_pos (by simpa using hst)] at hf
      cases recs with
      | nil =>
        simp only [List.map_nil, List.nil_append, List.cons.injEq] at hf
        obtain ⟨e1, e2⟩ := hf
        subst e1
        have hfor := filter_pass_nil p steps e2
        obtain ⟨C, hC⟩ := run_dev steps (M.step (Step.pass_end_deferred p ke))
        have hdev : (M.step (Step.pass_end_deferred p ke)).dev =
            M.dev ++ (M.priv p ++ [(M.links.new ke).1]) := by
          simp only [Model.step, hne, if_false]
        refine ⟨M.dev, [(M.links.new ke).1], C, ?_, ?_⟩
        · show ((M.step (Step.pass_end_deferred p ke)).run steps).dev = _
          rw [hC, hdev]
        · show List.map ((M.step (Step.pass_end_deferred p ke)).run steps).links.label _ = _
          have hnew := Links.WF.new w ke
          have hlab : ∀ x ∈ M.priv p ++ [(M.links.new ke).1],
              ((M.step (Step.pass_end_deferred p ke)).run steps).links.label x =
                write M.links.label (M.links.new ke).1 ke x := by
            intro x hx
            rw [w1.run_label_dev steps ok1 (by rw [hdev]; exact List.mem_append_right _ hx)]
            have : (M.links.pass_end_deferred p ke).label =
                write M.links.label (M.links.new ke).1 ke := by
              have hph : ¬ M.links.phead p = none :=
                fun e => hne ((Links.WF.phead_eq_none_iff w hp).mp e)
              unfold Links.pass_end_deferred
              simp only [hph, ne_eq, not_false_eq_true, if_true]
              show ((M.links.record p ke).splice p).label = _
              rw [Links.splice_label, Links.record_label]
            show (M.links.pass_end_deferred p ke).label x = _
            rw [this]
          rw [List.map_congr_left hlab, List.map_append, List.map_singleton, write_same,
            List.append_nil]
          congr 1
          refine List.map_congr_left (fun x hx => ?_)
          rw [write_apply, if_neg (fun e : x = (M.links.new ke).1 => hnew.2.2.1 p hp (e ▸ hx))]
      | cons k recs =>
        simp only [List.map_cons, List.cons_append, List.cons.injEq] at hf
        obtain ⟨e1, e2⟩ := hf
        subst e1
        have hpriv : (M.step (Step.record p k)).priv p = M.priv p ++ [(M.links.new k).1] := by
          show write M.priv p _ p = _
          rw [write_same]
        obtain ⟨A, Rs, C, h1, h2⟩ := ih recs ke w1 ok1 (by rw [hpriv]; simp) e2
        rw [hpriv] at h1 h2
        refine ⟨A, (M.links.new k).1 :: Rs, C, ?_, ?_⟩
        · show ((M.step (Step.record p k)).run steps).dev = _
          rw [h1]; simp
        · show List.map ((M.step (Step.record p k)).run steps).links.label _ = _
          have hnew := Links.WF.new w k
          have e3 : M.priv p ++ (M.links.new k).1 :: Rs = M.priv p ++ [(M.links.new k).1] ++ Rs :=
            by simp
          rw [e3, h2]
          have : (M.step (Step.record p k)).links.label =
              write M.links.label (M.links.new k).1 k := Links.record_label _ _ _
          rw [this, List.map_append, List.map_singleton, write_same]
          have : List.map (write M.links.label (M.links.new k).1 k) (M.priv p) =
              List.map M.links.label (M.priv p) := by
            refine List.map_congr_left (fun x hx => ?_)
            rw [write_apply,
              if_neg (fun e : x = (M.links.new k).1 => hnew.2.2.1 p hp (e ▸ hx))]
          rw [this]; simp
    · rw [List.filter_cons_of_neg (by simpa using hst)] at hf
      have hpriv := step_priv_foreign M st p hst
      obtain ⟨A, Rs, C, h1, h2⟩ := ih recs ke w1 ok1 (by rw [hpriv]; exact hne) hf
      rw [hpriv] at h1 h2
      refine ⟨A, Rs, C, h1, ?_⟩
      show List.map ((M.step st).run steps).links.label _ = _
      rw [h2]
      congr 2
      exact List.map_congr_left (fun x hx => w.step_label_priv st hp hx)

end Model

namespace Model

variable {κ : Type}

/-- Immediate mode, from inside a cycle of the pass `p`: when the steps on `p` are recording
calls with the labels `recs` followed by `pass_end`, the records the final log holds for
that `pass_end` are the private list of `p`, the records of those calls and the `PASS_END`
record, as one contiguous block, in this order and with these labels. -/
theorem WF.block_immediate {hs : List Nat} {p : Nat} (hp : p ∈ hs) (steps : List (Step κ)) :
    ∀ {M : Model κ} (recs : List κ) (ke : κ), M.WF hs → (∀ st ∈ steps, st.ok hs) →
      M.priv p ≠ [] →
      steps.filter (fun st => st.pass = some p)
        = recs.map (Step.record p) ++ [Step.pass_end_immediate p ke] →
      ∃ A B C Rs, (M.run steps).links.log = A ++ B ++ C ∧
        B.map Prod.fst = M.priv p ++ Rs ∧
        B.map Prod.snd = (M.priv p).map M.links.label ++ recs ++ [ke] := by
  induction steps with
  | nil =>
    intro M recs ke _ _ _ hf
    simp at hf
  | cons st steps ih =>
    intro M recs ke w ok hne hf
    have w1 := w.step st (ok st (List.mem_cons_self st steps))
    have ok1 : ∀ st' ∈ steps, st'.ok hs := fun st' h' => ok st' (List.mem_cons_of_mem st h')
    by_cases hst : st.pass = some p
    · rw [List.filter_cons_of_pos (by simpa using hst)] at hf
      cases recs with
      | nil =>
        simp only [List.map_nil, List.nil_append, List.cons.injEq] at hf
        obtain ⟨e1, _⟩ := hf
        subst e1
        obtain ⟨C, hC⟩ := run_log steps (M.step (Step.pass_end_immediate p ke))
        have hph : ¬ M.links.phead p = none :=
          fun e => hne ((Links.WF.phead_eq_none_iff w hp).mp e)
        have hlog : (M.step (Step.pass_end_immediate p ke)).links.log =
            M.links.log ++ (M.priv p ++ [(M.links.new ke).1]).map
              (fun x => (x, write M.links.label (M.links.new ke).1 ke x)) := by
          show (M.links.pass_end_immediate p ke _).log = _
          rw [Links.pass_end_immediate_log]
          simp only [hph, ne_eq, not_false_eq_true, if_true]
        have hnew := Links.WF.new w ke
        refine ⟨M.links.log, (M.priv p ++ [(M.links.new ke).1]).map
          (fun x => (x, write M.links.label (M.links.new ke).1 ke x)), C,
          [(M.links.new ke).1], ?_, ?_, ?_⟩
        · show ((M.step (Step.pass_end_immediate p ke)).run steps).links.log = _
          rw [hC, hlog]
        · rw [List.map_map]
          exact List.map_id' _
        · rw [List.map_map, List.map_append, List.map_singleton]
          show List.map (fun x => write M.links.label (M.links.new ke).1 ke x) (M.priv p) ++
            [write M.links.label (M.links.new ke).1 ke (M.links.new ke).1] = _
          rw [write_same, List.append_nil]
          congr 1
          refine List.map_congr_left (fun x hx => ?_)
          rw [write_apply, if_neg (fun e : x = (M.links.new ke).1 => hnew.2.2.1 p hp (e ▸ hx))]
      | cons k recs =>
        simp only [List.map_cons, List.cons_append, List.cons.injEq] at hf
        obtain ⟨e1, e2⟩ := hf
        subst e1
        have hpriv : (M.step (Step.record p k)).priv p = M.priv p ++ [(M.links.new k).1] := by
          show write M.priv p _ p = _
          rw [write_same]
        obtain ⟨A, B, C, Rs, h1, h2, h3⟩ := ih recs ke w1 ok1 (by rw [hpriv]; simp) e2
        rw [hpriv] at h2 h3
        refine ⟨A, B, C, (M.links.new k).1 :: Rs, h1, by rw [h2]; simp, ?_⟩
        have hnew := Links.WF.new w k
        rw [h3]
        have : (M.step (Step.record p k)).links.label =
            write M.links.label (M.links.new k).1 k := Links.record_label _ _ _
        rw [this, List.map_append, List.map_singleton, write_same]
        have : List.map (write M.links.label (M.links.new k).1 k) (M.priv p) =
            List.map M.links.label (M.priv p) := by
          refine List.map_congr_left (fun x hx => ?_)
          rw [write_apply,
            if_neg (fun e : x = (M.links.new k).1 => hnew.2.2.1 p hp (e ▸ hx))]
        rw [this]; simp
    · rw [List.filter_cons_of_neg (by simpa using hst)] at hf
      have hpriv := step_priv_foreign M st p hst
      obtain ⟨A, B, C, Rs, h1, h2, h3⟩ := ih recs ke w1 ok1 (by rw [hpriv]; exact hne) hf
      rw [hpriv] at h2 h3
      refine ⟨A, B, C, Rs, h1, h2, ?_⟩
      rw [h3]
      congr 2
      exact List.map_congr_left (fun x hx => w.step_label_priv st hp hx)

/-- Deferred mode, a whole cycle of the pass `p`: when the steps on `p` are `pass_begin`,
recording calls with the labels `recs` and `pass_end`, whatever steps on other passes and
on the device-wide list lie in between, the final device-wide list holds the records of the
cycle as one contiguous block `B`, labelled `kb`, `recs`, `ke` in this order. -/
theorem WF.cycle_deferred {hs : List Nat} {p : Nat} (hp : p ∈ hs) (steps : List (Step κ)) :
    ∀ {M : Model κ} (kb : κ) (recs : List κ) (ke : κ), M.WF hs → (∀ st ∈ steps, st.ok hs) →
      steps.filter (fun st => st.pass = some p)
        = Step.pass_begin p kb :: (recs.map (Step.record p) ++ [Step.pass_end_deferred p ke]) →
      ∃ A B C, (M.run steps).dev = A ++ B ++ C ∧
        B.map (M.run steps).links.label = kb :: (recs ++ [ke]) := by
  induction steps with
  | nil =>
    intro M kb recs ke _ _ hf
    simp at hf
  | cons st steps ih =>
    intro M kb recs ke w ok hf
    have w1 := w.step st (ok st (List.mem_cons_self st steps))
    have ok1 : ∀ st' ∈ steps, st'.ok hs := fun st' h' => ok st' (List.mem_cons_of_mem st h')
    by_cases hst : st.pass = some p
    · rw [List.filter_cons_of_pos (by simpa using hst)] at hf
      simp only [List.cons.injEq] at hf
      obtain ⟨e1, e2⟩ := hf
      subst e1
      have hpriv : (M.step (Step.pass_begin p kb)).priv p = [(M.links.new kb).1] := by
        show write M.priv p _ p = _
        rw [write_same]; rfl
      obtain ⟨A, Rs, C, h1, h2⟩ :=
        w1.block_deferred hp steps recs ke ok1 (by rw [hpriv]; simp) e2
      rw [hpriv] at h1 h2
      refine ⟨A, _, C, h1, ?_⟩
      show List.map ((M.step (Step.pass_begin p kb)).run steps).links.label _ = _
      rw [h2]
      have : (M.step (Step.pass_begin p kb)).links.label =
          write M.links.label (M.links.new kb).1 kb := Links.pass_begin_label _ _ _
      rw [this, List.map_singleton, write_same]
      simp
    · rw [List.filter_cons_of_neg (by simpa using hst)] at hf
      exact ih kb recs ke w1 ok1 hf

/-- Immediate mode, a whole cycle of the pass `p`: the log holds the records of the cycle
as one contiguous block `B`, labelled `kb`, `recs`, `ke` in this order. -/
theorem WF.cycle_immediate {hs : List Nat} {p : Nat} (hp : p ∈ hs) (steps : List (Step κ)) :
    ∀ {M : Model κ} (kb : κ) (recs : List κ) (ke : κ), M.WF hs → (∀ st ∈ steps, st.ok hs) →
      steps.filter (fun st => st.pass = some p)
        = Step.pass_begin p kb :: (recs.map (Step.record p) ++ [Step.pass_end_immediate p ke]) →
      ∃ A B C, (M.run steps).links.log = A ++ B ++ C ∧
        B.map Prod.snd = kb :: (recs ++ [ke]) := by
  induction steps with
  | nil =>
    intro M kb recs ke _ _ hf
    simp at hf
  | cons st steps ih =>
    intro M kb recs ke w ok hf
    have w1 := w.step st (ok st (List.mem_cons_self st steps))
    have ok1 : ∀ st' ∈ steps, st'.ok hs := fun st' h' => ok st' (List.mem_cons_of_mem st h')
    by_cases hst : st.pass = some p
    · rw [List.filter_cons_of_pos (by simpa using hst)] at hf
      simp only [List.cons.injEq] at hf
      obtain ⟨e1, e2⟩ := hf
      subst e1
      have hpriv : (M.step (Step.pass_begin p kb)).priv p = [(M.links.new kb).1] := by
        show write M.priv p _ p = _
        rw [write_same]; rfl
      obtain ⟨A, B, C, Rs, h1, _, h3⟩ :=
        w1.block_immediate hp steps recs ke ok1 (by rw [hpriv]; simp) e2
      rw [hpriv] at h3
      refine ⟨A, B, C, h1, ?_⟩
      rw [h3]
      have : (M.step (Step.pass_begin p kb)).links.label =
          write M.links.label (M.links.new kb).1 kb := Links.pass_begin_label _ _ _
      rw [this, List.map_singleton, write_same]
      simp
    · rw [List.filter_cons_of_neg (by simpa using hst)] at hf
      exact ih kb recs ke w1 ok1 hf

end Model


/-! ### The lists of the D3D11 backend -/

theorem links_ext {κ : Type} {a b : Links κ} (h1 : ∀ x, a.next x = b.next x)
    (h2 : ∀ x, a.label x = b.label x) (h3 : a.pool = b.pool) (h4 : a.head = b.head)
    (h5 : a.tail = b.tail) (h6 : ∀ x, a.phead x = b.phead x) (h7 : ∀ x, a.ptail x = b.ptail x)
    (h8 : a.log = b.log) : a = b := by
  obtain ⟨n1, l1, p1, hd1, t1, ph1, pt1, lg1⟩ := a
  obtain ⟨n2, l2, p2, hd2, t2, ph2, pt2, lg2⟩ := b
  have e1 : n1 = n2 := funext h1
  have e2 : l1 = l2 := funext h2
  have e6 : ph1 = ph2 := funext h6
  have e7 : pt1 = pt2 := funext h7
  simp only at h3 h4 h5 h8
  subst e1 e2 h3 h4 h5 e6 e7 h8
  rfl

namespace Links

variable {κ : Type}

/-- Fewer passes to speak about. -/
theorem WF.mono {L : Links κ} {D hs hs' : List Nat} {priv : Nat → List Nat}
    (w : L.WF D hs priv) (hsub : ∀ h ∈ hs', h ∈ hs) : L.WF D hs' priv :=
  ⟨w.dev, w.dev_tail, fun h hh => w.pr h (hsub h hh), fun h hh => w.pr_tail h (hsub h hh),
    fun h hh => w.disj_dev h (hsub h hh),
    fun h1 hh1 h2 hh2 => w.disj h1 (hsub h1 hh1) h2 (hsub h2 hh2),
    w.pool_nodup, w.pool_lt, w.dev_alloc, fun h hh => w.pr_alloc h (hsub h hh)⟩

/-- The private lists enter the invariant through their values only. -/
theorem WF.congr {L : Links κ} {D hs : List Nat} {priv priv' : Nat → List Nat}
    (w : L.WF D hs priv) (he : ∀ h ∈ hs, priv' h = priv h) : L.WF D hs priv' :=
  ⟨w.dev, w.dev_tail, fun h hh => by rw [he h hh]; exact w.pr h hh,
    fun h hh => by rw [he h hh]; exact w.pr_tail h hh,
    fun h hh => by rw [he h hh]; exact w.disj_dev h hh,
    fun h1 hh1 h2 hh2 => by rw [he h1 hh1, he h2 hh2]; exact w.disj h1 hh1 h2 hh2,
    w.pool_nodup, w.pool_lt, w.dev_alloc, fun h hh => by rw [he h hh]; exact w.pr_alloc h hh⟩

/-- Emptying the private list of a pass brings it under the invariant, whatever its
pointers held before. -/
theorem WF.reset_add {L : Links κ} {D hs : List Nat} {priv : Nat → List Nat}
    (w : L.WF D hs priv) (h : Nat) : (L.reset h).WF D (h :: hs) (write priv h []) := by
  have w0 := w.reset h
  refine ⟨w0.dev, w0.dev_tail, ?_, ?_, ?_, ?_, w0.pool_nodup, w0.pool_lt, w0.dev_alloc, ?_⟩
  · intro h' hh'
    by_cases e : h' = h
    · subst e
      show chain L.next (write L.phead h' none h') (write priv h' [] h')
      rw [write_same, write_same]; rfl
    · exact w0.pr h' ((List.mem_cons.mp hh').resolve_left e)
  · intro h' hh'
    by_cases e : h' = h
    · subst e
      show write L.ptail h' none h' = (write priv h' [] h').getLast?
      rw [write_same, write_same]; rfl
    · exact w0.pr_tail h' ((List.mem_cons.mp hh').resolve_left e)
  · intro h' hh' x hx
    by_cases e : h' = h
    · subst e; rw [write_same] at hx; simp at hx
    · exact w0.disj_dev h' ((List.mem_cons.mp hh').resolve_left e) x hx
  · intro h1 hh1 h2 hh2 hne x hx
    by_cases e1 : h1 = h
    · subst e1; rw [write_same] at hx; simp at hx
    · by_cases e2 : h2 = h
      · subst e2; rw [write_same]; simp
      · exact w0.disj h1 ((List.mem_cons.mp hh1).resolve_left e1) h2
          ((List.mem_cons.mp hh2).resolve_left e2) hne x hx
  · intro h' hh' x hx
    by_cases e : h' = h
    · subst e; rw [write_same] at hx; simp at hx
    · exact w0.pr_alloc h' ((List.mem_cons.mp hh').resolve_left e) x hx

/-- `pass_begin` on a pass whose private pointers hold anything. -/
theorem WF.pass_begin_add {L : Links κ} {D hs : List Nat} {priv : Nat → List Nat}
    (w : L.WF D hs priv) (h : Nat) (k : κ) :
    (L.pass_begin h k).WF D (h :: hs) (write priv h [((L.reset h).new k).1]) := by
  have := (w.reset_add h).record (List.mem_cons_self h hs) k
  rw [write_same, List.nil_append, write_write] at this
  exact this

end Links

/-! ### The D3D11 recording functions on the linkage -/

theorem dx11_push_none (l : Dx11.Command_List) (commands : Nat → Dx11.Renoir_Command)
    (c : Nat) (h : l.command_list_tail = none) :
    Dx11._renoir_dx11_command_push l commands c = (⟨some c, some c⟩, commands) := by
  unfold Dx11._renoir_dx11_command_push
  rw [h]

/-- `command_push` on a non-empty list changes one `next` pointer, and neither the kind nor
the handle of any record. -/
theorem dx11_push_some (l : Dx11.Command_List) (commands : Nat → Dx11.Renoir_Command)
    (c t : Nat) (h : l.command_list_tail = some t) :
    (Dx11._renoir_dx11_command_push l commands c).1 = ⟨l.command_list_head, some c⟩ ∧
    ∀ x, ((Dx11._renoir_dx11_command_push l commands c).2 x).next =
        (if x = t then some c else (commands x).next) ∧
      ((Dx11._renoir_dx11_command_push l commands c).2 x).kind = (commands x).kind ∧
      ((Dx11._renoir_dx11_command_push l commands c).2 x).handle = (commands x).handle := by
  unfold Dx11._renoir_dx11_command_push
  rw [h]
  refine ⟨rfl, fun x => ?_⟩
  simp only [write_apply]
  by_cases h1 : x = c <;> by_cases h2 : x = t <;> by_cases h3 : c = t <;> simp_all

/-- `command_push` on a private list acts on the linkage as `Links.push_pass`. -/
theorem dx11_links_push_pass (s : Dx11.IRenoir) (h c : Nat) :
    Dx11.links (Dx11.command_push_pass s h c) = (Dx11.links s).push_pass h c := by
  unfold Links.push_pass
  cases ht : (s.handles h).pass.command_list_tail with
  | none =>
    have e : (Dx11.links s).ptail h = none := ht
    have hp := dx11_push_none
      ⟨(s.handles h).pass.command_list_head, (s.handles h).pass.command_list_tail⟩
      s.commands c ht
    simp only [e]
    apply links_ext <;> intros <;>
      simp only [Dx11.links, Dx11.command_push_pass, hp, write_apply] <;> split <;> simp_all
  | some t =>
    have e : (Dx11.links s).ptail h = some t := ht
    obtain ⟨hp1, hp2⟩ := dx11_push_some
      ⟨(s.handles h).pass.command_list_head, (s.handles h).pass.command_list_tail⟩
      s.commands c t ht
    simp only [e]
    apply links_ext <;> intros <;>
      simp only [Dx11.links, Dx11.command_push_pass, hp1, hp2, write_apply] <;>
      first | rfl | (split <;> simp_all)

/-- `command_push` on the device-wide list acts on the linkage as `Links.push_self`. -/
theorem dx11_links_push_self (s : Dx11.IRenoir) (c : Nat) :
    Dx11.links (Dx11.command_push_self s c) = (Dx11.links s).push_self c := by
  unfold Links.push_self
  cases ht : s.command_list_tail with
  | none =>
    have e : (Dx11.links s).tail = none := ht
    have hp := dx11_push_none ⟨s.command_list_head, s.command_list_tail⟩ s.commands c ht
    simp only [e]
    apply links_ext <;> intros <;>
      simp only [Dx11.links, Dx11.command_push_self, hp]
  | some t =>
    have e : (Dx11.links s).tail = some t := ht
    obtain ⟨hp1, hp2⟩ := dx11_push_some ⟨s.command_list_head, s.command_list_tail⟩
      s.commands c t ht
    simp only [e]
    apply links_ext <;> intros <;>
      simp only [Dx11.links, Dx11.command_push_self, hp1, hp2, write_apply]

/-- `command_new` with the stores into its payload acts on the linkage as `Links.new`. -/
theorem dx11_links_new (s : Dx11.IRenoir) (k : Dx11.RENOIR_COMMAND_KIND)
    (v : Dx11.Renoir_Command) (hk : v.kind = k) (hn : v.next = none) :
    Dx11.links (Dx11.set_command (Dx11._renoir_dx11_command_new s k).2
        (Dx11._renoir_dx11_command_new s k).1 v) = ((Dx11.links s).new (k, v.handle)).2 := by
  apply links_ext <;> intros <;>
    simp only [Dx11.links, Links.new, Dx11.set_command, Dx11._renoir_dx11_command_new,
      write_apply] <;>
    first | rfl | (split <;> simp_all)

@[simp] theorem dx11_new_record (s : Dx11.IRenoir) (k : Dx11.RENOIR_COMMAND_KIND) :
    (Dx11._renoir_dx11_command_new s k).2.commands (Dx11._renoir_dx11_command_new s k).1
      = { kind := k } := by
  simp [Dx11._renoir_dx11_command_new]

/-- The block `command_new` hands out is the one `Links.new` hands out. -/
theorem dx11_new_fst (s : Dx11.IRenoir) (k : Dx11.RENOIR_COMMAND_KIND)
    (l : Dx11.RENOIR_COMMAND_KIND × Ptr) :
    (Dx11._renoir_dx11_command_new s k).1 = ((Dx11.links s).new l).1 := rfl

/-- A new record that is pushed on the private list of `h`. -/
theorem dx11_links_record (s : Dx11.IRenoir) (h : Nat) (k : Dx11.RENOIR_COMMAND_KIND)
    (v : Dx11.Renoir_Command) (hk : v.kind = k) (hn : v.next = none) :
    Dx11.links (Dx11.command_push_pass
        (Dx11.set_command (Dx11._renoir_dx11_command_new s k).2
          (Dx11._renoir_dx11_command_new s k).1 v) h (Dx11._renoir_dx11_command_new s k).1)
      = (Dx11.links s).record h (k, v.handle) := by
  rw [dx11_links_push_pass, dx11_links_new s k v hk hn]
  rfl

/-- Clearing the private list pointers of `h`. -/
theorem dx11_links_reset (s : Dx11.IRenoir) (h : Nat) :
    Dx11.links (Dx11.set_handle s h
        { s.handles h with
          pass := { (s.handles h).pass with command_list_head := none,
                                            command_list_tail := none } })
      = (Dx11.links s).reset h := by
  apply links_ext <;> intros <;>
    simp only [Dx11.links, Links.reset, Dx11.set_handle, write_apply] <;>
    first | rfl | (split <;> simp_all)

theorem dx11_links_pass_begin (s : Dx11.IRenoir) (h : Nat) :
    Dx11.links (Dx11._renoir_dx11_pass_begin s h) =
      (Dx11.links s).pass_begin h (.RENOIR_COMMAND_KIND_PASS_BEGIN, some h) := by
  unfold Dx11._renoir_dx11_pass_begin Links.pass_begin
  simp only []
  rw [dx11_links_record _ h _ _ (by simp) (by simp), dx11_links_reset]
  simp [Links.record]

/-- Reading a list with `list_records` finds `l` exactly when the `next` pointers chain
through `l`, given enough fuel. -/
theorem dx11_list_records_iff (commands : Nat → Dx11.Renoir_Command) :
    ∀ (fuel : Nat) (p : Ptr) (l : List Nat),
      Dx11.list_records commands fuel p = some l ↔
        chain (fun a => (commands a).next) p l ∧ l.length ≤ fuel := by
  intro fuel
  induction fuel with
  | zero =>
    intro p l
    cases p with
    | none =>
      cases l with
      | nil => simp [Dx11.list_records, chain]
      | cons x l => simp [Dx11.list_records, chain]
    | some a =>
      cases l with
      | nil => simp [Dx11.list_records, chain]
      | cons x l => simp [Dx11.list_records, chain]
  | succ fuel ih =>
    intro p l
    cases p with
    | none =>
      cases l with
      | nil => simp [Dx11.list_records, chain]
      | cons x l => simp [Dx11.list_records, chain]
    | some a =>
      cases l with
      | nil => simp [Dx11.list_records, chain]
      | cons x l =>
        simp only [Dx11.list_records, chain, Option.map_eq_some', List.cons.injEq,
          Option.some.injEq, List.length_cons, Nat.add_le_add_iff_right]
        constructor
        · rintro ⟨l', h1, h2, h3⟩
          subst h2 h3
          exact ⟨⟨rfl, ((ih _ _).mp h1).1⟩, ((ih _ _).mp h1).2⟩
        · rintro ⟨⟨h1, h2⟩, h3⟩
          subst h1
          exact ⟨l, (ih _ _).mpr ⟨h2, h3⟩, rfl, rfl⟩

/-- The device-wide list of a well-formed context, read from its head. -/
theorem dx11_wf_device {s : Dx11.IRenoir} {D hs : List Nat} {priv : Nat → List Nat}
    (w : (Dx11.links s).WF D hs priv) :
    Dx11.list_records s.commands D.length s.command_list_head = some D :=
  (dx11_list_records_iff _ _ _ _).mpr ⟨w.dev, Nat.le_refl _⟩

/-- The private list of a pass of a well-formed context, read from its head. -/
theorem dx11_wf_private {s : Dx11.IRenoir} {D hs : List Nat} {priv : Nat → List Nat}
    (w : (Dx11.links s).WF D hs priv) {h : Nat} (hh : h ∈ hs) :
    Dx11.list_records s.commands (priv h).length (s.handles h).pass.command_list_head
      = some (priv h) :=
  (dx11_list_records_iff _ _ _ _).mpr ⟨w.pr h hh, Nat.le_refl _⟩

theorem dx11_executed_append (t l : List Dx11.Event) :
    Dx11.executed (t ++ l) = Dx11.executed t ++ Dx11.executed l := by
  unfold Dx11.executed
  exact List.filterMap_append _ _ _

theorem dx11_same_lists_refl (s : Dx11.IRenoir) : Dx11.same_lists s s :=
  ⟨rfl, rfl, rfl, rfl, rfl, rfl, rfl, fun _ => ⟨rfl, rfl⟩⟩

theorem dx11_same_lists_trans {a b c : Dx11.IRenoir} (h1 : Dx11.same_lists a b)
    (h2 : Dx11.same_lists b c) : Dx11.same_lists a c := by
  obtain ⟨a1, a2, a3, a4, a5, a6, a7, a8⟩ := h1
  obtain ⟨b1, b2, b3, b4, b5, b6, b7, b8⟩ := h2
  exact ⟨b1.trans a1, b2.trans a2, b3.trans a3, b4.trans a4, b5.trans a5, b6.trans a6,
    b7.trans a7, fun h => ⟨(b8 h).1.trans (a8 h).1, (b8 h).2.trans (a8 h).2⟩⟩

theorem dx11_same_lists_emit (s : Dx11.IRenoir) (e : Dx11.Event) :
    Dx11.same_lists s (Dx11.emit s e) :=
  ⟨rfl, rfl, rfl, rfl, rfl, rfl, rfl, fun _ => ⟨rfl, rfl⟩⟩

theorem dx11_same_lists_upload (s : Dx11.IRenoir) (p : Ptr) (n : Nat) :
    Dx11.same_lists s (Dx11.device_upload s p n) :=
  ⟨rfl, rfl, rfl, rfl, rfl, rfl, rfl, fun _ => ⟨rfl, rfl⟩⟩

theorem dx11_same_lists_create (s : Dx11.IRenoir) :
    Dx11.same_lists s (Dx11.device_create s).2 :=
  ⟨rfl, rfl, rfl, rfl, rfl, rfl, rfl, fun _ => ⟨rfl, rfl⟩⟩

theorem dx11_same_lists_release (s : Dx11.IRenoir) (p : Ptr) :
    Dx11.same_lists s (Dx11.release s p) :=
  ⟨rfl, rfl, rfl, rfl, rfl, rfl, rfl, fun _ => ⟨rfl, rfl⟩⟩

/-- A store into a handle that keeps its private list pointers. -/
theorem dx11_same_lists_set_handle (s : Dx11.IRenoir) (h : Nat) (v : Dx11.Renoir_Handle)
    (h1 : v.pass.command_list_head = (s.handles h).pass.command_list_head)
    (h2 : v.pass.command_list_tail = (s.handles h).pass.command_list_tail) :
    Dx11.same_lists s (Dx11.set_handle s h v) := by
  refine ⟨rfl, rfl, rfl, rfl, rfl, rfl, rfl, fun h' => ?_⟩
  show (write s.handles h v h').pass.command_list_head = _ ∧
    (write s.handles h v h').pass.command_list_tail = _
  rw [write_apply]
  by_cases e : h' = h
  · rw [if_pos e, e]; exact ⟨h1, h2⟩
  · rw [if_neg e]; exact ⟨rfl, rfl⟩

@[simp] theorem dx11_executed_emit (s : Dx11.IRenoir) (e : Dx11.Event) :
    Dx11.executed (Dx11.emit s e).trace = Dx11.executed s.trace ++ Dx11.executed [e] :=
  dx11_executed_append _ _

@[simp] theorem dx11_executed_create (s : Dx11.IRenoir) :
    Dx11.executed (Dx11.device_create s).2.trace = Dx11.executed s.trace := by
  show Dx11.executed (s.trace ++ [_]) = _
  rw [dx11_executed_append]; simp [Dx11.executed]

@[simp] theorem dx11_executed_release (s : Dx11.IRenoir) (p : Ptr) :
    Dx11.executed (Dx11.release s p).trace = Dx11.executed s.trace := by
  show Dx11.executed (s.trace ++ [_]) = _
  rw [dx11_executed_append]; simp [Dx11.executed]

@[simp] theorem dx11_executed_upload (s : Dx11.IRenoir) (p : Ptr) (n : Nat) :
    Dx11.executed (Dx11.device_upload s p n).trace = Dx11.executed s.trace := by
  show Dx11.executed (s.trace ++ [_]) = _
  rw [dx11_executed_append]; simp [Dx11.executed]

@[simp] theorem dx11_executed_set_handle (s : Dx11.IRenoir) (h : Nat) (v : Dx11.Renoir_Handle) :
    Dx11.executed (Dx11.set_handle s h v).trace = Dx11.executed s.trace := rfl

theorem dx11_same_lists_draw (s s' : Dx11.IRenoir) (he : Dx11.execute_draw s = some s') :
    Dx11.same_lists s s' ∧ Dx11.executed s'.trace = Dx11.executed s.trace := by
  unfold Dx11.execute_draw at he
  cases hp : s.current_program with
  | none => rw [hp] at he; exact absurd he (by simp)
  | some hprogram =>
    rw [hp] at he
    simp only [Option.some.injEq] at he
    subst he
    by_cases hl : (s.handles hprogram).program.input_layout = none
    · simp only [hl, if_true]
      refine ⟨?_, by
        rw [dx11_executed_emit, dx11_executed_set_handle, dx11_executed_release,
          dx11_executed_set_handle, dx11_executed_create]
        simp [Dx11.executed]⟩
      refine dx11_same_lists_trans ?_ (dx11_same_lists_emit _ _)
      refine dx11_same_lists_trans ?_ (dx11_same_lists_set_handle _ _ _ rfl rfl)
      refine dx11_same_lists_trans ?_ (dx11_same_lists_release _ _)
      refine dx11_same_lists_trans ?_ (dx11_same_lists_set_handle _ _ _ rfl rfl)
      exact dx11_same_lists_create _
    · simp only [hl, if_false]
      exact ⟨dx11_same_lists_emit _ _, by rw [dx11_executed_emit]; simp [Dx11.executed]⟩

/-- Executing a record of a private list changes neither the command records, nor the
pools, nor any list pointer, nor the sampler cache, and is one entry of the log. -/
theorem dx11_execute_recordable (fuel : Nat) (s s' : Dx11.IRenoir) (c : Nat)
    (hk : Dx11.recordable (s.commands c).kind = true)
    (he : Dx11._renoir_dx11_command_execute fuel s c = some s') :
    Dx11.same_lists s s' ∧
    Dx11.executed s'.trace = Dx11.executed s.trace ++ [(c, s.commands c)] := by
  unfold Dx11._renoir_dx11_command_execute at he
  cases hkind : (s.commands c).kind <;> rw [hkind] at hk <;>
    first
    | exact absurd hk (by decide)
    | skip
  all_goals simp only [hkind] at he
  case RENOIR_COMMAND_KIND_DRAW =>
    obtain ⟨h1, h2⟩ := dx11_same_lists_draw _ _ he
    exact ⟨dx11_same_lists_trans (dx11_same_lists_emit _ _) h1, by
      rw [h2]; simp only [dx11_executed_emit]; simp [Dx11.executed]⟩
  case RENOIR_COMMAND_KIND_PASS_CLEAR =>
    split at he
    · simp only [Option.map_eq_some'] at he
      obtain ⟨_, _, rfl⟩ := he
      exact ⟨⟨rfl, rfl, rfl, rfl, rfl, rfl, rfl, fun _ => ⟨rfl, rfl⟩⟩,
        by simp only [dx11_executed_emit, dx11_executed_upload]; simp [Dx11.executed]⟩
    · simp only [Option.some.injEq] at he
      subst he
      exact ⟨⟨rfl, rfl, rfl, rfl, rfl, rfl, rfl, fun _ => ⟨rfl, rfl⟩⟩,
        by simp only [dx11_executed_emit, dx11_executed_upload]; simp [Dx11.executed]⟩
  case RENOIR_COMMAND_KIND_SCISSOR =>
    simp only [Option.some.injEq] at he
    subst he
    exact ⟨⟨rfl, rfl, rfl, rfl, rfl, rfl, rfl, fun _ => ⟨rfl, rfl⟩⟩,
      by simp only [dx11_executed_emit, dx11_executed_upload]; simp [Dx11.executed]⟩
  case RENOIR_COMMAND_KIND_TEXTURE_BIND =>
    simp only [Option.bind_eq_some, Option.map_eq_some'] at he
    obtain ⟨_, _, _, _, rfl⟩ := he
    exact ⟨⟨rfl, rfl, rfl, rfl, rfl, rfl, rfl, fun _ => ⟨rfl, rfl⟩⟩,
      by simp only [dx11_executed_emit, dx11_executed_upload]; simp [Dx11.executed]⟩
  case RENOIR_COMMAND_KIND_TEXTURE_WRITE =>
    simp only [Option.map_eq_some'] at he
    obtain ⟨h, _, rfl⟩ := he
    unfold Dx11.execute_texture_write
    simp only []
    split
    · exact ⟨⟨rfl, rfl, rfl, rfl, rfl, rfl, rfl, fun _ => ⟨rfl, rfl⟩⟩,
        by simp only [dx11_executed_emit, dx11_executed_upload]; simp [Dx11.executed]⟩
    · exact ⟨⟨rfl, rfl, rfl, rfl, rfl, rfl, rfl, fun _ => ⟨rfl, rfl⟩⟩,
        by simp only [dx11_executed_emit, dx11_executed_upload]; simp [Dx11.executed]⟩
  all_goals
    simp only [Option.map_eq_some'] at he
    obtain ⟨h, _, rfl⟩ := he
    exact ⟨⟨rfl, rfl, rfl, rfl, rfl, rfl, rfl, fun _ => ⟨rfl, rfl⟩⟩,
      by simp only [dx11_executed_emit, dx11_executed_upload]; simp [Dx11.executed]⟩

theorem dx11_links_of_same_lists {s s' : Dx11.IRenoir} (h : Dx11.same_lists s s')
    (l : List (Nat × Dx11.Renoir_Command))
    (he : Dx11.executed s'.trace = Dx11.executed s.trace ++ l) :
    Dx11.links s' = { Dx11.links s with
      log := (Dx11.links s).log ++ l.map fun r => (r.1, (r.2.kind, r.2.handle)) } := by
  obtain ⟨h1, h2, h3, h4, _, _, _, h8⟩ := h
  apply links_ext
  · intro x; simp [Dx11.links, h1]
  · intro x; simp [Dx11.links, h1]
  · simp [Dx11.links, h2]
  · simp [Dx11.links, h3]
  · simp [Dx11.links, h4]
  · intro x; simp [Dx11.links, (h8 x).1]
  · intro x; simp [Dx11.links, (h8 x).2]
  · simp [Dx11.links, he]

/-- What `command_free` does to a context, the log of frees apart. -/
theorem dx11_command_free_frame (s : Dx11.IRenoir) (c : Nat) :
    (Dx11._renoir_dx11_command_free s c).commands = s.commands ∧
    (Dx11._renoir_dx11_command_free s c).command_pool = pool_put s.command_pool c ∧
    (Dx11._renoir_dx11_command_free s c).command_list_head = s.command_list_head ∧
    (Dx11._renoir_dx11_command_free s c).command_list_tail = s.command_list_tail ∧
    (Dx11._renoir_dx11_command_free s c).handle_pool = s.handle_pool ∧
    (Dx11._renoir_dx11_command_free s c).sampler_cache = s.sampler_cache ∧
    (Dx11._renoir_dx11_command_free s c).settings = s.settings ∧
    (Dx11._renoir_dx11_command_free s c).handles = s.handles ∧
    Dx11.executed (Dx11._renoir_dx11_command_free s c).trace = Dx11.executed s.trace := by
  unfold Dx11._renoir_dx11_command_free
  simp only []
  split <;> (try split) <;> (try split) <;>
    simp [Dx11.mn_free, Dx11.emit, Dx11.executed, List.filterMap_append]

theorem dx11_links_command_free (s : Dx11.IRenoir) (c : Nat) :
    Dx11.links (Dx11._renoir_dx11_command_free s c)
      = { Dx11.links s with pool := pool_put (Dx11.links s).pool c } := by
  obtain ⟨h1, h2, h3, h4, _, _, _, h8, h9⟩ := dx11_command_free_frame s c
  apply links_ext
  · intro x; simp [Dx11.links, h1]
  · intro x; simp [Dx11.links, h1]
  · simp [Dx11.links, h2]
  · simp [Dx11.links, h3]
  · simp [Dx11.links, h4]
  · intro x; simp [Dx11.links, h8]
  · intro x; simp [Dx11.links, h8]
  · simp [Dx11.links, h9]

/-- Executing a record of a private list does not depend on the fuel. -/
theorem dx11_execute_fuel (f1 f2 : Nat) (s : Dx11.IRenoir) (c : Nat)
    (hk : Dx11.recordable (s.commands c).kind = true) :
    Dx11._renoir_dx11_command_execute f1 s c = Dx11._renoir_dx11_command_execute f2 s c := by
  unfold Dx11._renoir_dx11_command_execute
  cases hkind : (s.commands c).kind <;> rw [hkind] at hk <;>
    first
    | exact absurd hk (by decide)
    | simp only [hkind]

/-- One record of a private list executed and freed: the linkage loses nothing but the
block, which returns to the pool, and the log gains the record. -/
theorem dx11_links_execute_free (fuel : Nat) (s s' : Dx11.IRenoir) (c : Nat)
    (hk : Dx11.recordable (s.commands c).kind = true)
    (he : Dx11._renoir_dx11_command_execute fuel s c = some s') :
    Dx11.links (Dx11._renoir_dx11_command_free s' c) = (Dx11.links s).consume [c] ∧
    (Dx11._renoir_dx11_command_free s' c).commands = s.commands ∧
    (Dx11._renoir_dx11_command_free s' c).settings = s.settings ∧
    (Dx11._renoir_dx11_command_free s' c).handle_pool = s.handle_pool ∧
    (Dx11._renoir_dx11_command_free s' c).sampler_cache = s.sampler_cache := by
  obtain ⟨h1, h2⟩ := dx11_execute_recordable fuel s s' c hk he
  obtain ⟨f1, _, _, _, f5, f6, f7, _, _⟩ := dx11_command_free_frame s' c
  obtain ⟨a1, _, _, _, a5, a6, a7, _⟩ := h1
  refine ⟨?_, f1.trans a1, f7.trans a7, f5.trans a5, f6.trans a6⟩
  rw [dx11_links_command_free, dx11_links_of_same_lists ⟨a1, ‹_›, ‹_›, ‹_›, a5, a6, a7, ‹_›⟩ _ h2]
  rfl

theorem links_consume_consume {κ : Type} (L : Links κ) (a b : List Nat) :
    (L.consume a).consume b = L.consume (a ++ b) := by
  simp [Links.consume, List.foldl_append]

/-- The drain loop on a well-linked list of records of the pass functions: the records are
executed and freed in list order. -/
theorem dx11_drain_in_order :
    ∀ (l : List Nat) (fuel f : Nat) (s : Dx11.IRenoir) (p : Ptr),
      chain (fun a => (s.commands a).next) p l → l.length ≤ fuel →
      (∀ x ∈ l, Dx11.recordable (s.commands x).kind = true) →
      Dx11.drain fuel s p = Dx11.execute_in_order f s l := by
  intro l
  induction l with
  | nil =>
    intro fuel f s p hc _ _
    have hp : p = none := hc
    subst hp
    cases fuel <;> rfl
  | cons x l ih =>
    intro fuel f s p hc hl hk
    obtain ⟨hp, hc⟩ := hc
    subst hp
    cases fuel with
    | zero => exact absurd hl (by simp)
    | succ fuel =>
      have hx := hk x (List.mem_cons_self _ _)
      show (match Dx11._renoir_dx11_command_execute fuel s x with
        | none => none
        | some s1 => Dx11.drain fuel (Dx11._renoir_dx11_command_free s1 x)
            (((Dx11._renoir_dx11_command_free s1 x).commands x).next))
        = (match Dx11._renoir_dx11_command_execute f s x with
        | none => none
        | some s1 => Dx11.execute_in_order f (Dx11._renoir_dx11_command_free s1 x) l)
      rw [dx11_execute_fuel fuel f s x hx]
      cases he : Dx11._renoir_dx11_command_execute f s x with
      | none => rfl
      | some s1 =>
        obtain ⟨_, hcm, _⟩ := dx11_links_execute_free f s s1 x hx he
        show Dx11.drain fuel _ _ = Dx11.execute_in_order f _ l
        apply ih
        · rw [hcm]; exact hc
        · exact Nat.le_of_succ_le_succ hl
        · intro y hy; rw [hcm]; exact hk y (List.mem_cons_of_mem _ hy)

/-- In-order execution of records of the pass functions, on the linkage. -/
theorem dx11_links_execute_in_order (f : Nat) :
    ∀ (l : List Nat) (s s' : Dx11.IRenoir),
      (∀ x ∈ l, Dx11.recordable (s.commands x).kind = true) →
      Dx11.execute_in_order f s l = some s' →
      Dx11.links s' = (Dx11.links s).consume l ∧ s'.commands = s.commands ∧
      s'.settings = s.settings ∧ s'.handle_pool = s.handle_pool ∧
      s'.sampler_cache = s.sampler_cache := by
  intro l
  induction l with
  | nil =>
    intro s s' _ he
    simp only [Dx11.execute_in_order, Option.some.injEq] at he
    subst he
    refine ⟨?_, rfl, rfl, rfl, rfl⟩
    simp [Links.consume]
  | cons x l ih =>
    intro s s' hk he
    have hx := hk x (List.mem_cons_self _ _)
    simp only [Dx11.execute_in_order] at he
    cases h1 : Dx11._renoir_dx11_command_execute f s x with
    | none => rw [h1] at he; exact absurd he (by simp)
    | some s1 =>
      rw [h1] at he
      simp only [] at he
      obtain ⟨e1, e2, e3, e4, e5⟩ := dx11_links_execute_free f s s1 x hx h1
      obtain ⟨i1, i2, i3, i4, i5⟩ := ih _ s' (by
        intro y hy; rw [e2]; exact hk y (List.mem_cons_of_mem _ hy)) he
      refine ⟨?_, i2.trans e2, i3.trans e3, i4.trans e4, i5.trans e5⟩
      rw [i1, e1, links_consume_consume]; rfl

theorem dx11_links_pass_end_pushed (s : Dx11.IRenoir) (h : Nat) :
    Dx11.links (Dx11.pass_end_pushed s h)
      = (Dx11.links s).record h (.RENOIR_COMMAND_KIND_PASS_END, some h) := by
  unfold Dx11.pass_end_pushed
  simp only []
  rw [dx11_links_record _ h _ _ (by simp) (by simp)]

theorem dx11_links_pass_list_reset (s : Dx11.IRenoir) (h : Nat) :
    Dx11.links (Dx11.pass_list_reset s h) = (Dx11.links s).reset h :=
  dx11_links_reset s h

/-- The splice of `pass_end` in deferred mode, on the linkage. -/
theorem dx11_links_splice (s : Dx11.IRenoir) (h : Nat) :
    ∃ s', (match s.command_list_tail with
        | none =>
          some { s with command_list_head := (s.handles h).pass.command_list_head,
                        command_list_tail := (s.handles h).pass.command_list_tail }
        | some tail =>
          some { s with
                 commands := write s.commands tail
                   { s.commands tail with next := (s.handles h).pass.command_list_head },
                 command_list_tail := (s.handles h).pass.command_list_tail }) = some s' ∧
      Dx11.links s' = (Dx11.links s).splice h ∧ s'.trace = s.trace ∧
      s'.settings = s.settings ∧ s'.handle_pool = s.handle_pool ∧
      s'.sampler_cache = s.sampler_cache := by
  cases ht : s.command_list_tail with
  | none =>
    refine ⟨_, rfl, ?_, rfl, rfl, rfl, rfl⟩
    apply links_ext <;> intros <;> simp [Dx11.links, Links.splice, ht]
  | some t =>
    refine ⟨_, rfl, ?_, rfl, rfl, rfl, rfl⟩
    apply links_ext <;> intros <;>
      simp only [Dx11.links, Links.splice, ht, write_apply] <;>
      first | rfl | (split <;> simp_all)

/-- The function `pass_end` unfolded into its three parts. -/
theorem dx11_pass_end_eq (fuel : Nat) (s : Dx11.IRenoir) (h : Nat) :
    Dx11._renoir_dx11_pass_end fuel s h =
      (if (s.handles h).pass.command_list_head ≠ none then
        if s.settings.defer_api_calls then
          match (Dx11.pass_end_pushed s h).command_list_tail with
          | none =>
            some { Dx11.pass_end_pushed s h with
              command_list_head :=
                ((Dx11.pass_end_pushed s h).handles h).pass.command_list_head,
              command_list_tail :=
                ((Dx11.pass_end_pushed s h).handles h).pass.command_list_tail }
          | some tail =>
            some { Dx11.pass_end_pushed s h with
              commands := write (Dx11.pass_end_pushed s h).commands tail
                { (Dx11.pass_end_pushed s h).commands tail with
                  next := ((Dx11.pass_end_pushed s h).handles h).pass.command_list_head },
              command_list_tail :=
                ((Dx11.pass_end_pushed s h).handles h).pass.command_list_tail }
        else Dx11.drain fuel (Dx11.pass_end_pushed s h)
          ((Dx11.pass_end_pushed s h).handles h).pass.command_list_head
      else some s).map (fun s => Dx11.pass_list_reset s h) := rfl

/-- In deferred mode `pass_end` returns, and acts on the linkage as `pass_end_deferred`;
nothing is added to the trace. -/
theorem dx11_pass_end_deferred (fuel : Nat) (s : Dx11.IRenoir) (h : Nat)
    (hd : s.settings.defer_api_calls = true) :
    ∃ s', Dx11._renoir_dx11_pass_end fuel s h = some s' ∧
      Dx11.links s' = (Dx11.links s).pass_end_deferred h (.RENOIR_COMMAND_KIND_PASS_END, some h) ∧
      s'.trace = s.trace ∧ s'.settings = s.settings ∧ s'.handle_pool = s.handle_pool ∧
      s'.sampler_cache = s.sampler_cache := by
  rw [dx11_pass_end_eq]
  by_cases hne : (s.handles h).pass.command_list_head = none
  · refine ⟨Dx11.pass_list_reset s h, by simp [hne], ?_, rfl, rfl, rfl, rfl⟩
    rw [dx11_links_pass_list_reset]
    have : (Dx11.links s).phead h = none := hne
    simp [Links.pass_end_deferred, this]
  · have hd1 : (Dx11.pass_end_pushed s h).settings.defer_api_calls = true := hd
    obtain ⟨s2, e2, l2, t2, a2, b2, c2⟩ := dx11_links_splice (Dx11.pass_end_pushed s h) h
    refine ⟨Dx11.pass_list_reset s2 h, ?_, ?_, ?_, ?_, ?_, ?_⟩
    · rw [if_pos hne, if_pos hd, e2]; rfl
    · rw [dx11_links_pass_list_reset, l2, dx11_links_pass_end_pushed]
      have : (Dx11.links s).phead h ≠ none := hne
      simp [Links.pass_end_deferred, this]
    · show s2.trace = s.trace
      rw [t2]; rfl
    · show s2.settings = s.settings
      rw [a2]; rfl
    · show s2.handle_pool = s.handle_pool
      rw [b2]; rfl
    · show s2.sampler_cache = s.sampler_cache
      rw [c2]; rfl

/-- The drain loop on a well-linked list of records of the pass functions, when it
returns, has executed and freed the records in list order. -/
theorem dx11_drain_some :
    ∀ (l : List Nat) (fuel f : Nat) (s s' : Dx11.IRenoir) (p : Ptr),
      chain (fun a => (s.commands a).next) p l →
      (∀ x ∈ l, Dx11.recordable (s.commands x).kind = true) →
      Dx11.drain fuel s p = some s' → Dx11.execute_in_order f s l = some s' := by
  intro l
  induction l with
  | nil =>
    intro fuel f s s' p hc _ hd
    have hp : p = none := hc
    subst hp
    cases fuel <;> exact hd
  | cons x l ih =>
    intro fuel f s s' p hc hk hd
    obtain ⟨hp, hc⟩ := hc
    subst hp
    cases fuel with
    | zero => exact absurd hd (by simp [Dx11.drain])
    | succ fuel =>
      have hx := hk x (List.mem_cons_self _ _)
      have hd : (match Dx11._renoir_dx11_command_execute fuel s x with
        | none => none
        | some s1 => Dx11.drain fuel (Dx11._renoir_dx11_command_free s1 x)
            (((Dx11._renoir_dx11_command_free s1 x).commands x).next)) = some s' := hd
      show (match Dx11._renoir_dx11_command_execute f s x with
        | none => none
        | some s1 => Dx11.execute_in_order f (Dx11._renoir_dx11_command_free s1 x) l) = some s'
      rw [dx11_execute_fuel fuel f s x hx] at hd
      cases he : Dx11._renoir_dx11_command_execute f s x with
      | none => rw [he] at hd; exact absurd hd (by simp)
      | some s1 =>
        rw [he] at hd
        obtain ⟨_, hcm, _⟩ := dx11_links_execute_free f s s1 x hx he
        show Dx11.execute_in_order f _ l = some s'
        apply ih fuel f _ s' _ _ _ hd
        · rw [hcm]; exact hc
        · intro y hy; rw [hcm]; exact hk y (List.mem_cons_of_mem _ hy)

/-- In immediate mode `pass_end`, when it returns, acts on the linkage as
`pass_end_immediate`. -/
theorem dx11_pass_end_immediate (fuel : Nat) (s s' : Dx11.IRenoir) (h : Nat)
    {D hs : List Nat} {priv : Nat → List Nat}
    (w : (Dx11.links s).WF D hs priv) (hh : h ∈ hs)
    (hk : ∀ x ∈ priv h, Dx11.recordable (s.commands x).kind = true)
    (hd : s.settings.defer_api_calls = false)
    (he : Dx11._renoir_dx11_pass_end fuel s h = some s') :
    Dx11.links s' = (Dx11.links s).pass_end_immediate h (.RENOIR_COMMAND_KIND_PASS_END, some h)
        (priv h ++ [((Dx11.links s).new (.RENOIR_COMMAND_KIND_PASS_END, some h)).1]) ∧
      s'.settings = s.settings ∧ s'.handle_pool = s.handle_pool ∧
      s'.sampler_cache = s.sampler_cache := by
  rw [dx11_pass_end_eq] at he
  by_cases hne : (s.handles h).pass.command_list_head = none
  · simp only [hne, ne_eq, not_true_eq_false, if_false, Option.map_some',
      Option.some.injEq] at he
    subst he
    refine ⟨?_, rfl, rfl, rfl⟩
    rw [dx11_links_pass_list_reset]
    have : (Dx11.links s).phead h = none := hne
    simp [Links.pass_end_immediate, this]
  · rw [if_pos hne, if_neg (by simp [hd])] at he
    simp only [Option.map_eq_some'] at he
    obtain ⟨s2, hdr, rfl⟩ := he
    have w1 := w.record hh (.RENOIR_COMMAND_KIND_PASS_END, some h)
    rw [← dx11_links_pass_end_pushed] at w1
    have hc := w1.pr h hh
    rw [write_same] at hc
    have hkinds : ∀ x ∈ priv h ++ [((Dx11.links s).new (.RENOIR_COMMAND_KIND_PASS_END, some h)).1],
        Dx11.recordable ((Dx11.pass_end_pushed s h).commands x).kind = true := by
      intro x hx
      have hl : ((Dx11.links (Dx11.pass_end_pushed s h)).label x).1
          = ((Dx11.pass_end_pushed s h).commands x).kind := rfl
      rw [← hl, dx11_links_pass_end_pushed, Links.record_label, write_apply]
      split
      · rfl
      · rcases List.mem_append.1 hx with hx | hx
        · exact hk x hx
        · simp only [List.mem_singleton] at hx
          contradiction
    have hio := dx11_drain_some _ fuel 0 _ s2 _ hc hkinds hdr
    obtain ⟨i1, _, i3, i4, i5⟩ := dx11_links_execute_in_order 0 _ _ s2 hkinds hio
    refine ⟨?_, i3, i4, i5⟩
    rw [dx11_links_pass_list_reset, i1, dx11_links_pass_end_pushed]
    have : (Dx11.links s).phead h ≠ none := hne
    simp [Links.pass_end_immediate, this]

/-- A step of the model that the context follows keeps the invariant. -/
theorem dx11_inv_step {s s' : Dx11.IRenoir} {M : Model (Dx11.RENOIR_COMMAND_KIND × Ptr)}
    {hs : List Nat} (hinv : Dx11.Inv s M hs) (st : Step (Dx11.RENOIR_COMMAND_KIND × Ptr))
    (ok : st.ok hs)
    (hb : ∀ r k, st = .pass_begin r k → Dx11.recordable k.1 = true)
    (hr : ∀ r k, st = .record r k → Dx11.recordable k.1 = true)
    (hl : Dx11.links s' = (M.step st).links)
    (hp : ∀ h ∈ hs, h ∉ s'.handle_pool.free ∧ h < s'.handle_pool.fresh ∧
      some h ∉ s'.sampler_cache) :
    Dx11.Inv s' (M.step st) hs := by
  obtain ⟨_, w, _, h4⟩ := hinv
  refine ⟨hl, w.step st ok, hp, ?_⟩
  intro h hh x hx
  have stable : x ∈ M.priv h → Dx11.recordable ((M.step st).links.label x).1 = true := by
    intro hx
    rw [w.step_label_priv st hh hx]
    exact h4 h hh x hx
  cases st with
  | reset r =>
    rcases Links.mem_write_priv hx with ⟨_, hx⟩ | ⟨_, hx⟩
    · exact absurd hx (List.not_mem_nil _)
    · exact stable hx
  | device k => exact stable hx
  | immediate k => exact stable hx
  | pass_begin r k =>
    rcases Links.mem_write_priv hx with ⟨_, hx⟩ | ⟨_, hx⟩
    · simp only [List.mem_singleton] at hx
      subst hx
      show Dx11.recordable ((M.links.pass_begin r k).label _).1 = true
      rw [Links.pass_begin_label, Links.new_fst_reset, write_same]
      exact hb r k rfl
    · exact stable hx
  | record r k =>
    rcases Links.mem_write_priv hx with ⟨e, hx⟩ | ⟨_, hx⟩
    · rcases List.mem_append.1 hx with hx | hx
      · subst e; exact stable hx
      · simp only [List.mem_singleton] at hx
        subst hx
        show Dx11.recordable ((M.links.record r k).label _).1 = true
        rw [Links.record_label, write_same]
        exact hr r k rfl
    · exact stable hx
  | pass_end_deferred r k =>
    rcases Links.mem_write_priv hx with ⟨_, hx⟩ | ⟨_, hx⟩
    · exact absurd hx (List.not_mem_nil _)
    · exact stable hx
  | pass_end_immediate r k =>
    rcases Links.mem_write_priv hx with ⟨_, hx⟩ | ⟨_, hx⟩
    · exact absurd hx (List.not_mem_nil _)
    · exact stable hx

/-- The linkage does not see the heap, the native objects, or trace entries other than
executions. -/
theorem dx11_links_congr {s s' : Dx11.IRenoir} (h1 : s'.commands = s.commands)
    (h2 : s'.command_pool = s.command_pool) (h3 : s'.command_list_head = s.command_list_head)
    (h4 : s'.command_list_tail = s.command_list_tail) (h5 : s'.handles = s.handles)
    (h6 : Dx11.executed s'.trace = Dx11.executed s.trace) : Dx11.links s' = Dx11.links s := by
  apply links_ext <;> intros <;> simp [Dx11.links, h1, h2, h3, h4, h5, h6]

/-- A recording call of the plain shape `command_new`, stores into the record,
`command_push` on the private list. -/
theorem dx11_record_refines {s : Dx11.IRenoir} {M : Model (Dx11.RENOIR_COMMAND_KIND × Ptr)}
    {hs : List Nat} (hinv : Dx11.Inv s M hs) {h : Nat} (hh : h ∈ hs)
    (k : Dx11.RENOIR_COMMAND_KIND) (hk : Dx11.recordable k = true) (p : Ptr)
    (s' : Dx11.IRenoir) (hl : Dx11.links s' = (Dx11.links s).record h (k, p))
    (h5 : s'.handle_pool = s.handle_pool) (h6 : s'.sampler_cache = s.sampler_cache) :
    Dx11.Inv s' (M.step (.record h (k, p))) hs := by
  refine dx11_inv_step hinv _ hh (fun _ _ e => by cases e) (fun _ _ e => by cases e; exact hk)
    ?_ ?_
  · rw [hl, hinv.1]; rfl
  · rw [h5, h6]; exact hinv.2.2.1

theorem dx11_links_buffer_write (s s' : Dx11.IRenoir) (h : Nat) (buffer : Ptr) (offset : Nat)
    (bytes : Ptr) (bytes_size : Nat) (hz : bytes_size ≠ 0)
    (he : Dx11._renoir_dx11_buffer_write s h buffer offset bytes bytes_size = some s') :
    Dx11.links s' = (Dx11.links s).record h (.RENOIR_COMMAND_KIND_BUFFER_WRITE, buffer) ∧
    s'.handle_pool = s.handle_pool ∧ s'.sampler_cache = s.sampler_cache ∧
    s'.settings = s.settings ∧ Dx11.executed s'.trace = Dx11.executed s.trace := by
  unfold Dx11._renoir_dx11_buffer_write at he
  rw [if_neg hz] at he
  simp only [Option.map_eq_some'] at he
  obtain ⟨s3, hm, rfl⟩ := he
  unfold Dx11.memcpy at hm
  rw [if_neg hz] at hm
  cases bytes with
  | none => simp [Dx11.mn_alloc] at hm
  | some src =>
    simp only [Dx11.mn_alloc, Option.some.injEq] at hm
    subst hm
    refine ⟨?_, rfl, rfl, rfl, ?_⟩
    · rw [dx11_links_push_pass]
      rw [← dx11_links_record s h .RENOIR_COMMAND_KIND_BUFFER_WRITE
        { kind := .RENOIR_COMMAND_KIND_BUFFER_WRITE, handle := buffer } rfl rfl,
        dx11_links_push_pass]
      congr 1
      apply links_ext <;> intros <;>
        simp only [Dx11.links, Dx11.set_command, Dx11._renoir_dx11_command_new, write_apply,
          Dx11.executed, List.filterMap_append] <;>
        first | rfl | (split <;> simp_all) | simp
    · show Dx11.executed (s.trace ++ [_]) = _
      simp [Dx11.executed, List.filterMap_append]

theorem dx11_links_texture_write (s s' : Dx11.IRenoir) (h : Nat) (texture : Ptr)
    (desc : Renoir_Texture_Edit_Desc) (hz : desc.bytes_size ≠ 0)
    (he : Dx11._renoir_dx11_texture_write s h texture desc = some s') :
    Dx11.links s' = (Dx11.links s).record h (.RENOIR_COMMAND_KIND_TEXTURE_WRITE, texture) ∧
    s'.handle_pool = s.handle_pool ∧ s'.sampler_cache = s.sampler_cache ∧
    s'.settings = s.settings ∧ Dx11.executed s'.trace = Dx11.executed s.trace := by
  unfold Dx11._renoir_dx11_texture_write at he
  rw [if_neg hz] at he
  simp only [Option.map_eq_some'] at he
  obtain ⟨s3, hm, rfl⟩ := he
  unfold Dx11.memcpy at hm
  rw [if_neg hz] at hm
  cases hb : desc.bytes with
  | none => rw [hb] at hm; simp [Dx11.mn_alloc] at hm
  | some src =>
    rw [hb] at hm
    simp only [Dx11.mn_alloc, Option.some.injEq] at hm
    subst hm
    refine ⟨?_, rfl, rfl, rfl, ?_⟩
    · rw [dx11_links_push_pass]
      rw [← dx11_links_record s h .RENOIR_COMMAND_KIND_TEXTURE_WRITE
        { kind := .RENOIR_COMMAND_KIND_TEXTURE_WRITE, handle := texture } rfl rfl,
        dx11_links_push_pass]
      congr 1
      apply links_ext <;> intros <;>
        simp only [Dx11.links, Dx11.set_command, Dx11._renoir_dx11_command_new, write_apply,
          Dx11.executed, List.filterMap_append] <;>
        first | rfl | (split <;> simp_all) | simp
    · show Dx11.executed (s.trace ++ [_]) = _
      simp [Dx11.executed, List.filterMap_append]

theorem pool_get_other (p : Pool) (h : Nat) (hf : h ∉ p.free) (hl : h < p.fresh) :
    h ≠ (pool_get p).1 ∧ h ∉ (pool_get p).2.free ∧ h < (pool_get p).2.fresh := by
  unfold pool_get
  cases hp : p.free with
  | nil =>
    refine ⟨Nat.ne_of_lt hl, ?_, Nat.lt_succ_of_lt hl⟩
    simp [hp]
  | cons a rest =>
    rw [hp] at hf
    simp only [List.mem_cons, not_or] at hf
    exact ⟨hf.1, hf.2, hl⟩

/-- The invariant does not see the order of the sampler cache. -/
theorem dx11_inv_cache {s : Dx11.IRenoir} {M : Model (Dx11.RENOIR_COMMAND_KIND × Ptr)}
    {hs : List Nat} (hinv : Dx11.Inv s M hs) (cache : List Ptr)
    (hc : ∀ h ∈ hs, some h ∉ cache) :
    Dx11.Inv { s with sampler_cache := cache } M hs := by
  obtain ⟨h1, w, h3, h4⟩ := hinv
  exact ⟨h1, w, fun h hh => ⟨(h3 h hh).1, (h3 h hh).2.1, hc h hh⟩, h4⟩

theorem dx11_sampler_shift_mem (bound : Nat) (cache : List Ptr) :
    ∀ x ∈ Dx11.sampler_shift bound cache, x ∈ cache ∨ x = none := by
  unfold Dx11.sampler_shift
  generalize List.range (bound - 1) = is
  suffices H : ∀ (is : List Nat) (c0 : List Ptr), (∀ x ∈ c0, x ∈ cache ∨ x = none) →
      ∀ x ∈ is.foldl (fun c i => c.set (bound - i - 1) (c.getD (bound - i - 1 - 1) none)) c0,
        x ∈ cache ∨ x = none from H is cache (fun x hx => Or.inl hx)
  intro is
  induction is with
  | nil => intro c0 h0 x hx; exact h0 x hx
  | cons i is ih =>
    intro c0 h0 x hx
    refine ih _ ?_ x hx
    intro y hy
    rcases List.mem_or_eq_of_mem_set hy with hy | hy
    · exact h0 y hy
    · subst hy
      by_cases hlt : bound - i - 1 - 1 < c0.length
      · rw [List.getD_eq_getElem _ _ hlt]
        exact h0 _ (List.getElem_mem _)
      · rw [List.getD_eq_default _ _ (Nat.le_of_not_lt hlt)]
        exact Or.inr rfl

theorem dx11_links_handle_new (s : Dx11.IRenoir) (kind : RENOIR_HANDLE_KIND) :
    Dx11.links (Dx11._renoir_dx11_handle_new s kind).2
      = (Dx11.links s).reset (Dx11._renoir_dx11_handle_new s kind).1 := by
  apply links_ext <;> intros <;>
    simp only [Dx11.links, Links.reset, Dx11._renoir_dx11_handle_new, write_apply] <;>
    first | rfl | (split <;> simp_all)

/-- The call `handle_new` gives a handle that is none of the passes `hs`, and keeps the
invariant. -/
theorem dx11_handle_new_refines {s : Dx11.IRenoir}
    {M : Model (Dx11.RENOIR_COMMAND_KIND × Ptr)} {hs : List Nat} (hinv : Dx11.Inv s M hs)
    (kind : RENOIR_HANDLE_KIND) :
    (Dx11._renoir_dx11_handle_new s kind).1 ∉ hs ∧
    Dx11.Inv (Dx11._renoir_dx11_handle_new s kind).2
      (M.step (.reset (Dx11._renoir_dx11_handle_new s kind).1)) hs := by
  have hnot : (Dx11._renoir_dx11_handle_new s kind).1 ∉ hs := by
    intro hmem
    have h3 := hinv.2.2.1 _ hmem
    exact (pool_get_other s.handle_pool _ h3.1 h3.2.1).1 rfl
  refine ⟨hnot, dx11_inv_step hinv _ hnot (fun _ _ e => by cases e) (fun _ _ e => by cases e)
    ?_ ?_⟩
  · rw [dx11_links_handle_new, hinv.1]; rfl
  · intro h hh
    have h3 := hinv.2.2.1 h hh
    have hp := pool_get_other s.handle_pool h h3.1 h3.2.1
    exact ⟨hp.2.1, hp.2.2, h3.2.2⟩

/-- Executing a `SAMPLER_NEW` or `SAMPLER_FREE` record. -/
theorem dx11_execute_sampler (fuel : Nat) (s s' : Dx11.IRenoir) (c : Nat)
    (hk : (s.commands c).kind = .RENOIR_COMMAND_KIND_SAMPLER_NEW ∨
      (s.commands c).kind = .RENOIR_COMMAND_KIND_SAMPLER_FREE)
    (he : Dx11._renoir_dx11_command_execute fuel s c = some s') :
    s'.commands = s.commands ∧ s'.command_pool = s.command_pool ∧
    s'.command_list_head = s.command_list_head ∧ s'.command_list_tail = s.command_list_tail ∧
    s'.sampler_cache = s.sampler_cache ∧ s'.settings = s.settings ∧
    (∀ h, (s'.handles h).pass.command_list_head = (s.handles h).pass.command_list_head ∧
      (s'.handles h).pass.command_list_tail = (s.handles h).pass.command_list_tail) ∧
    Dx11.executed s'.trace = Dx11.executed s.trace ++ [(c, s.commands c)] ∧
    (s'.handle_pool = s.handle_pool ∨
      ∃ e, (s.commands c).handle = some e ∧ s'.handle_pool = pool_put s.handle_pool e) := by
  unfold Dx11._renoir_dx11_command_execute at he
  rcases hk with hk | hk
  · simp only [hk, Option.map_eq_some'] at he
    obtain ⟨e, _, rfl⟩ := he
    refine ⟨rfl, rfl, rfl, rfl, rfl, rfl, ?_, ?_, Or.inl rfl⟩
    · intro h
      simp only [Dx11.execute_sampler_new, Dx11.set_handle, Dx11.emit, write_apply]
      split <;> simp_all
    · simp [Dx11.execute_sampler_new, Dx11.set_handle, Dx11.emit, Dx11.executed,
        List.filterMap_append]
  · simp only [hk, Option.map_eq_some'] at he
    obtain ⟨e, he1, rfl⟩ := he
    unfold Dx11.execute_sampler_free
    simp only []
    split
    · refine ⟨rfl, rfl, rfl, rfl, rfl, rfl, ?_, ?_, Or.inl rfl⟩
      · intro h
        simp only [Dx11._renoir_dx11_handle_unref, Dx11.emit, write_apply]
        split <;> simp_all
      · simp [Dx11.emit, Dx11.executed, List.filterMap_append]
    · refine ⟨rfl, rfl, rfl, rfl, rfl, rfl, ?_, ?_, Or.inr ⟨e, he1, rfl⟩⟩
      · intro h
        simp only [Dx11._renoir_dx11_handle_free, Dx11.release, Dx11._renoir_dx11_handle_unref,
          Dx11.emit, write_apply]
        split <;> simp_all
      · simp [Dx11._renoir_dx11_handle_free, Dx11.release, Dx11.emit, Dx11.executed,
          List.filterMap_append]

theorem dx11_links_of_frame {s s' : Dx11.IRenoir} (h1 : s'.commands = s.commands)
    (h2 : s'.command_pool = s.command_pool) (h3 : s'.command_list_head = s.command_list_head)
    (h4 : s'.command_list_tail = s.command_list_tail)
    (h8 : ∀ h, (s'.handles h).pass.command_list_head = (s.handles h).pass.command_list_head ∧
      (s'.handles h).pass.command_list_tail = (s.handles h).pass.command_list_tail)
    (l : List (Nat × Dx11.Renoir_Command))
    (he : Dx11.executed s'.trace = Dx11.executed s.trace ++ l) :
    Dx11.links s' = { Dx11.links s with
      log := (Dx11.links s).log ++ l.map fun r => (r.1, (r.2.kind, r.2.handle)) } := by
  apply links_ext
  · intro x; simp [Dx11.links, h1]
  · intro x; simp [Dx11.links, h1]
  · simp [Dx11.links, h2]
  · simp [Dx11.links, h3]
  · simp [Dx11.links, h4]
  · intro x; simp [Dx11.links, (h8 x).1]
  · intro x; simp [Dx11.links, (h8 x).2]
  · simp [Dx11.links, he]

/-- A `SAMPLER_NEW` or `SAMPLER_FREE` command issued through `command_process`: in deferred
mode a new record at the tail of the device-wide list, in immediate mode a new record
executed and freed. -/
theorem dx11_issue_refines {s : Dx11.IRenoir} {M : Model (Dx11.RENOIR_COMMAND_KIND × Ptr)}
    {hs : List Nat} (hinv : Dx11.Inv s M hs) (k : Dx11.RENOIR_COMMAND_KIND)
    (hk : k = .RENOIR_COMMAND_KIND_SAMPLER_NEW ∨ k = .RENOIR_COMMAND_KIND_SAMPLER_FREE)
    (v : Dx11.Renoir_Command) (hvk : v.kind = k) (hvn : v.next = none)
    (hvh : ∀ e, v.handle = some e → e ∉ hs) (fuel : Nat) (s' : Dx11.IRenoir)
    (he : Dx11._renoir_dx11_command_process fuel
      (Dx11.set_command (Dx11._renoir_dx11_command_new s k).2
        (Dx11._renoir_dx11_command_new s k).1 v) (Dx11._renoir_dx11_command_new s k).1
      = some s') :
    ∃ st, Dx11.Inv s' (M.step st) hs ∧ st.ok hs ∧ (∀ p ∈ hs, st.pass ≠ some p) ∧
      s'.settings = s.settings ∧ s'.sampler_cache = s.sampler_cache ∧
      (s.settings.defer_api_calls = true → Dx11.executed s'.trace = Dx11.executed s.trace) := by
  subst hvk
  unfold Dx11._renoir_dx11_command_process at he
  simp only [] at he
  have hnew := dx11_links_new s v.kind v rfl hvn
  have hfst := dx11_new_fst s v.kind (v.kind, v.handle)
  by_cases hd : s.settings.defer_api_calls = true
  · have hd1 : (Dx11.emit (Dx11.set_command (Dx11._renoir_dx11_command_new s v.kind).2
        (Dx11._renoir_dx11_command_new s v.kind).1 v)
        (Dx11.Event.command_process (Dx11._renoir_dx11_command_new s v.kind).1
          ((Dx11.set_command (Dx11._renoir_dx11_command_new s v.kind).2
            (Dx11._renoir_dx11_command_new s v.kind).1 v).commands
              (Dx11._renoir_dx11_command_new s v.kind).1))).settings.defer_api_calls = true := hd
    rw [if_pos hd1] at he
    simp only [Option.some.injEq] at he
    subst he
    refine ⟨.device (v.kind, v.handle), ?_, trivial, (fun _ _ e => by cases e), rfl, rfl,
      fun _ => by
        show Dx11.executed (s.trace ++ [_]) = _
        simp [Dx11.executed, List.filterMap_append]⟩
    refine dx11_inv_step hinv _ trivial (fun _ _ e => by cases e) (fun _ _ e => by cases e)
      ?_ hinv.2.2.1
    rw [dx11_links_push_self]
    have : Dx11.links (Dx11.emit (Dx11.set_command (Dx11._renoir_dx11_command_new s v.kind).2
        (Dx11._renoir_dx11_command_new s v.kind).1 v)
        (Dx11.Event.command_process (Dx11._renoir_dx11_command_new s v.kind).1
          ((Dx11.set_command (Dx11._renoir_dx11_command_new s v.kind).2
            (Dx11._renoir_dx11_command_new s v.kind).1 v).commands
              (Dx11._renoir_dx11_command_new s v.kind).1)))
        = Dx11.links (Dx11.set_command (Dx11._renoir_dx11_command_new s v.kind).2
        (Dx11._renoir_dx11_command_new s v.kind).1 v) :=
      dx11_links_congr rfl rfl rfl rfl rfl (by
        show Dx11.executed (_ ++ [_]) = _
        simp [Dx11.executed, List.filterMap_append])
    rw [this, hnew, hfst, hinv.1]
    rfl
  · have hd1 : ¬ (Dx11.emit (Dx11.set_command (Dx11._renoir_dx11_command_new s v.kind).2
        (Dx11._renoir_dx11_command_new s v.kind).1 v)
        (Dx11.Event.command_process (Dx11._renoir_dx11_command_new s v.kind).1
          ((Dx11.set_command (Dx11._renoir_dx11_command_new s v.kind).2
            (Dx11._renoir_dx11_command_new s v.kind).1 v).commands
              (Dx11._renoir_dx11_command_new s v.kind).1))).settings.defer_api_calls = true := hd
    rw [if_neg hd1] at he
    generalize hs1 : Dx11.emit (Dx11.set_command (Dx11._renoir_dx11_command_new s v.kind).2
        (Dx11._renoir_dx11_command_new s v.kind).1 v)
        (Dx11.Event.command_process (Dx11._renoir_dx11_command_new s v.kind).1
          ((Dx11.set_command (Dx11._renoir_dx11_command_new s v.kind).2
            (Dx11._renoir_dx11_command_new s v.kind).1 v).commands
              (Dx11._renoir_dx11_command_new s v.kind).1)) = s1 at he
    have hl1 : Dx11.links s1 = ((Dx11.links s).new (v.kind, v.handle)).2 := by
      rw [← hnew, ← hs1]
      exact dx11_links_congr rfl rfl rfl rfl rfl (by
        show Dx11.executed (_ ++ [_]) = _
        simp [Dx11.executed, List.filterMap_append])
    have hrec : s1.commands (Dx11._renoir_dx11_command_new s v.kind).1 = v := by
      rw [← hs1]
      show write _ _ v _ = v
      exact write_same _ _ _
    have hpool : s1.handle_pool = s.handle_pool := by rw [← hs1]; rfl
    have hcache : s1.sampler_cache = s.sampler_cache := by rw [← hs1]; rfl
    have hset : s1.settings = s.settings := by rw [← hs1]; rfl
    cases hex : Dx11._renoir_dx11_command_execute fuel s1 (Dx11._renoir_dx11_command_new s v.kind).1 with
    | none => rw [hex] at he; exact absurd he (by simp)
    | some s2 =>
      rw [hex] at he
      simp only [Option.some.injEq] at he
      subst he
      have hk1 : (s1.commands (Dx11._renoir_dx11_command_new s v.kind).1).kind
            = .RENOIR_COMMAND_KIND_SAMPLER_NEW ∨
          (s1.commands (Dx11._renoir_dx11_command_new s v.kind).1).kind
            = .RENOIR_COMMAND_KIND_SAMPLER_FREE := by
        rw [hrec]; exact hk
      obtain ⟨a1, a2, a3, a4, a5, a6, a7, a8, a9⟩ := dx11_execute_sampler fuel s1 s2 _ hk1 hex
      obtain ⟨f1, f2, f3, f4, f5, f6, f7, f8, f9⟩ :=
        dx11_command_free_frame s2 (Dx11._renoir_dx11_command_new s v.kind).1
      refine ⟨.immediate (v.kind, v.handle), ?_, trivial, (fun _ _ e => by cases e),
        (f7.trans a6).trans hset, (f6.trans a5).trans hcache, fun h => absurd h hd⟩
      refine dx11_inv_step hinv _ trivial (fun _ _ e => by cases e) (fun _ _ e => by cases e)
        ?_ ?_
      · rw [hrec] at a8
        rw [dx11_links_command_free, dx11_links_of_frame a1 a2 a3 a4 a7 _ a8, hl1, hfst,
          hinv.1]
        simp [Model.step, Links.immediate, Links.consume, Links.new]
      · intro h hh
        have h3 := hinv.2.2.1 h hh
        rw [f5, f6, a5, hcache]
        refine ⟨?_, ?_, h3.2.2⟩
        · rcases a9 with a9 | ⟨e, e1, a9⟩
          · rw [a9, hpool]; exact h3.1
          · rw [a9, hpool]
            rw [hrec] at e1
            have := hvh e e1
            show h ∉ e :: s.handle_pool.free
            simp only [List.mem_cons, not_or]
            exact ⟨fun e2 => this (e2 ▸ hh), h3.1⟩
        · rcases a9 with a9 | ⟨e, _, a9⟩
          · rw [a9, hpool]; exact h3.2.1
          · rw [a9, hpool]; exact h3.2.1

theorem dx11_sampler_free_refines {s : Dx11.IRenoir}
    {M : Model (Dx11.RENOIR_COMMAND_KIND × Ptr)} {hs : List Nat} (hinv : Dx11.Inv s M hs)
    (ev : Ptr) (hev : ∀ e, ev = some e → e ∉ hs) (fuel : Nat) (s' : Dx11.IRenoir)
    (he : Dx11._renoir_dx11_sampler_free fuel s ev = some s') :
    ∃ st, Dx11.Inv s' (M.step st) hs ∧ st.ok hs ∧ (∀ p ∈ hs, st.pass ≠ some p) ∧
      s'.settings = s.settings ∧ s'.sampler_cache = s.sampler_cache ∧
      (s.settings.defer_api_calls = true → Dx11.executed s'.trace = Dx11.executed s.trace) := by
  unfold Dx11._renoir_dx11_sampler_free at he
  simp only [] at he
  exact dx11_issue_refines hinv _ (Or.inr rfl) _ (by simp) (by simp) (by simpa using hev)
    fuel s' he

theorem dx11_sampler_new_refines {s : Dx11.IRenoir}
    {M : Model (Dx11.RENOIR_COMMAND_KIND × Ptr)} {hs : List Nat} (hinv : Dx11.Inv s M hs)
    (desc : Renoir_Sampler_Desc) (fuel : Nat) (r : Nat × Dx11.IRenoir)
    (he : Dx11._renoir_dx11_sampler_new fuel s desc = some r) :
    ∃ st1 st2, Dx11.Inv r.2 ((M.step st1).step st2) hs ∧ st1.ok hs ∧ st2.ok hs ∧
      (∀ p ∈ hs, st1.pass ≠ some p) ∧ (∀ p ∈ hs, st2.pass ≠ some p) ∧ r.1 ∉ hs ∧
      r.2.settings = s.settings ∧ r.2.sampler_cache = s.sampler_cache ∧
      (s.settings.defer_api_calls = true → Dx11.executed r.2.trace = Dx11.executed s.trace) := by
  unfold Dx11._renoir_dx11_sampler_new at he
  simp only [Option.map_eq_some'] at he
  obtain ⟨s', he, rfl⟩ := he
  obtain ⟨hnot, hinv1⟩ := dx11_handle_new_refines hinv .RENOIR_HANDLE_KIND_SAMPLER
  obtain ⟨st, i1, i2, i3, i4, i5, i6⟩ := dx11_issue_refines hinv1 _ (Or.inl rfl) _ (by simp)
    (by simp) (by
      intro e he1
      simp only [Option.some.injEq] at he1
      subst he1
      exact hnot) fuel s' he
  exact ⟨_, st, i1, hnot, i2, (fun p hp e => by
      simp only [Step.pass, Option.some.injEq] at e
      exact hnot (e ▸ hp)), i3, hnot, i4, i5, i6⟩

/-- The sampler cache lookup: the commands it issues are steps on the device-wide list or
on the log, on no private list of `hs`. -/
theorem dx11_sampler_get_refines {s : Dx11.IRenoir}
    {M : Model (Dx11.RENOIR_COMMAND_KIND × Ptr)} {hs : List Nat} (hinv : Dx11.Inv s M hs)
    (desc : Renoir_Sampler_Desc) (fuel : Nat) (r : Ptr × Dx11.IRenoir)
    (he : Dx11._renoir_dx11_sampler_get fuel s desc = some r) :
    ∃ pre, Dx11.Inv r.2 (M.run pre) hs ∧ (∀ st ∈ pre, st.ok hs ∧ ∀ p ∈ hs, st.pass ≠ some p) ∧
      r.2.settings = s.settings ∧
      (s.settings.defer_api_calls = true → Dx11.executed r.2.trace = Dx11.executed s.trace) := by
  have hcache := fun h hh => (hinv.2.2.1 h hh).2.2
  have hgetD : ∀ (n : Nat) (e : Nat), s.sampler_cache.getD n none = some e → e ∉ hs := by
    intro n e he1 hmem
    by_cases hlt : n < s.sampler_cache.length
    · rw [List.getD_eq_getElem _ _ hlt] at he1
      exact hcache e hmem (he1 ▸ List.getElem_mem _)
    · rw [List.getD_eq_default _ _ (Nat.le_of_not_lt hlt)] at he1
      cases he1
  have hshift : ∀ (b : Nat) (h : Nat), h ∈ hs → some h ∉ Dx11.sampler_shift b s.sampler_cache := by
    intro b h hh hmem
    rcases dx11_sampler_shift_mem b _ _ hmem with hm | hm
    · exact hcache h hh hm
    · cases hm
  unfold Dx11._renoir_dx11_sampler_get at he
  simp only [] at he
  split at he
  · simp only [Option.some.injEq] at he
    subst he
    refine ⟨[], dx11_inv_cache hinv _ ?_, fun _ h => absurd h (List.not_mem_nil _), rfl,
      fun _ => rfl⟩
    intro h hh hmem
    rcases List.mem_or_eq_of_mem_set hmem with hm | hm
    · exact hshift _ h hh hm
    · exact hgetD _ h hm.symm hh
  · have finish : ∀ (s1 : Dx11.IRenoir) (M1 : Model (Dx11.RENOIR_COMMAND_KIND × Ptr))
        (ix : Nat) (pre1 : List (Step (Dx11.RENOIR_COMMAND_KIND × Ptr))),
        Dx11.Inv s1 M1 hs → M1 = M.run pre1 →
        (∀ st ∈ pre1, st.ok hs ∧ ∀ p ∈ hs, st.pass ≠ some p) → s1.settings = s.settings →
        (s.settings.defer_api_calls = true → Dx11.executed s1.trace = Dx11.executed s.trace) →
        (match Dx11._renoir_dx11_sampler_new fuel s1 desc with
          | none => none
          | some (sampler, self) =>
            some (some sampler,
              { self with sampler_cache := self.sampler_cache.set ix (some sampler) }))
          = some r →
        ∃ pre, Dx11.Inv r.2 (M.run pre) hs ∧
          (∀ st ∈ pre, st.ok hs ∧ ∀ p ∈ hs, st.pass ≠ some p) ∧ r.2.settings = s.settings ∧
          (s.settings.defer_api_calls = true →
            Dx11.executed r.2.trace = Dx11.executed s.trace) := by
      intro s1 M1 ix pre1 hinv1 hM hpre hset hex hm
      cases hn : Dx11._renoir_dx11_sampler_new fuel s1 desc with
      | none => rw [hn] at hm; exact absurd hm (by simp)
      | some r2 =>
        rw [hn] at hm
        simp only [Option.some.injEq] at hm
        subst hm
        obtain ⟨st1, st2, j1, j2, j3, j4, j5, j6, j7, j8, j9⟩ :=
          dx11_sampler_new_refines hinv1 desc fuel r2 hn
        refine ⟨pre1 ++ [st1, st2], ?_, ?_, j7.trans hset,
          fun hd => (j9 (by rw [hset]; exact hd)).trans (hex hd)⟩
        · have : M.run (pre1 ++ [st1, st2]) = (M1.step st1).step st2 := by
            rw [hM]; simp [Model.run, List.foldl_append]
          rw [this]
          refine dx11_inv_cache j1 _ ?_
          intro h hh hmem
          rcases List.mem_or_eq_of_mem_set hmem with hm | hm
          · exact (j1.2.2.1 h hh).2.2 hm
          · simp only [Option.some.injEq] at hm
            exact j6 (hm ▸ hh)
        · intro st hst
          rcases List.mem_append.1 hst with hst | hst
          · exact hpre st hst
          · simp only [List.mem_cons, List.mem_singleton, List.not_mem_nil, or_false] at hst
            rcases hst with rfl | rfl
            · exact ⟨j2, j4⟩
            · exact ⟨j3, j5⟩
    split at he
    · exact absurd he (by simp)
    · rename_i ix s1 heq
      split at heq
      · simp only [Option.map_eq_some'] at heq
        obtain ⟨s1', hf, heq⟩ := heq
        simp only [Prod.mk.injEq] at heq
        obtain ⟨rfl, rfl⟩ := heq
        have hinv0 := dx11_inv_cache hinv
          (Dx11.sampler_shift s.sampler_cache.length s.sampler_cache)
          (fun h hh => hshift _ h hh)
        obtain ⟨st, i1, i2, i3, i4, _, i6⟩ := dx11_sampler_free_refines hinv0 _
          (fun e he1 => hgetD _ e he1) fuel s1' hf
        exact finish s1' (M.step st) 0 [st] i1 rfl (by
          intro st' hst'
          simp only [List.mem_singleton] at hst'
          subst hst'
          exact ⟨i2, i3⟩) i4 i6 he
      · simp only [Option.some.injEq, Prod.mk.injEq] at heq
        obtain ⟨rfl, rfl⟩ := heq
        exact finish s M _ [] hinv rfl (fun _ h => absurd h (List.not_mem_nil _)) rfl
          (fun _ => rfl) he

theorem dx11_links_clear (s : Dx11.IRenoir) (h : Nat) (desc : Renoir_Clear_Desc) :
    Dx11.links (Dx11._renoir_dx11_clear s h desc)
      = (Dx11.links s).record h (.RENOIR_COMMAND_KIND_PASS_CLEAR, none) := by
  unfold Dx11._renoir_dx11_clear
  simp only []
  rw [dx11_links_record _ h _ _ (by simp) (by simp)]
  simp

theorem dx11_links_use_pipeline (s : Dx11.IRenoir) (h : Nat) (pipeline : Ptr) :
    Dx11.links (Dx11._renoir_dx11_use_pipeline s h pipeline)
      = (Dx11.links s).record h (.RENOIR_COMMAND_KIND_USE_PIPELINE, pipeline) := by
  unfold Dx11._renoir_dx11_use_pipeline
  simp only []
  rw [dx11_links_record _ h _ _ (by simp) (by simp)]

theorem dx11_links_use_program (s : Dx11.IRenoir) (h : Nat) (program : Ptr) :
    Dx11.links (Dx11._renoir_dx11_use_program s h program)
      = (Dx11.links s).record h (.RENOIR_COMMAND_KIND_USE_PROGRAM, program) := by
  unfold Dx11._renoir_dx11_use_program
  simp only []
  rw [dx11_links_record _ h _ _ (by simp) (by simp)]

theorem dx11_links_scissor (s : Dx11.IRenoir) (h : Nat) (x y width height : Int) :
    Dx11.links (Dx11._renoir_dx11_scissor s h x y width height)
      = (Dx11.links s).record h (.RENOIR_COMMAND_KIND_SCISSOR, none) := by
  unfold Dx11._renoir_dx11_scissor
  simp only []
  rw [dx11_links_record _ h _ _ (by simp) (by simp)]
  simp

theorem dx11_links_buffer_bind (s : Dx11.IRenoir) (h : Nat) (buffer : Ptr) (shader slot : Int) :
    Dx11.links (Dx11._renoir_dx11_buffer_bind s h buffer shader slot)
      = (Dx11.links s).record h (.RENOIR_COMMAND_KIND_BUFFER_BIND, buffer) := by
  unfold Dx11._renoir_dx11_buffer_bind
  simp only []
  rw [dx11_links_record _ h _ _ (by simp) (by simp)]

theorem dx11_links_draw (s : Dx11.IRenoir) (h : Nat) (desc : Renoir_Draw_Desc) :
    Dx11.links (Dx11._renoir_dx11_draw s h desc)
      = (Dx11.links s).record h (.RENOIR_COMMAND_KIND_DRAW, none) := by
  unfold Dx11._renoir_dx11_draw
  simp only []
  rw [dx11_links_record _ h _ _ (by simp) (by simp)]
  simp

theorem model_run_snoc {κ : Type} (M : Model κ) (pre : List (Step κ)) (st : Step κ) :
    M.run (pre ++ [st]) = (M.run pre).step st := by
  simp [Model.run, List.foldl_append]

/-- The record of a texture binding, pushed after the sampler lookup. -/
theorem dx11_bind_refines {s : Dx11.IRenoir} {M : Model (Dx11.RENOIR_COMMAND_KIND × Ptr)}
    {hs : List Nat} (hinv : Dx11.Inv s M hs) {h : Nat} (hh : h ∈ hs)
    (desc : Renoir_Sampler_Desc) (fuel : Nat) (r : Ptr × Dx11.IRenoir)
    (he : Dx11._renoir_dx11_sampler_get fuel s desc = some r) (texture : Ptr)
    (shader slot : Int) :
    ∃ pre, Dx11.Inv
        (Dx11.command_push_pass
          (Dx11.set_command
            (Dx11._renoir_dx11_command_new r.2 .RENOIR_COMMAND_KIND_TEXTURE_BIND).2
            (Dx11._renoir_dx11_command_new r.2 .RENOIR_COMMAND_KIND_TEXTURE_BIND).1
            { (Dx11._renoir_dx11_command_new r.2 .RENOIR_COMMAND_KIND_TEXTURE_BIND).2.commands
                (Dx11._renoir_dx11_command_new r.2 .RENOIR_COMMAND_KIND_TEXTURE_BIND).1 with
              handle := texture, args := [shader, slot], sampler := r.1 })
          h (Dx11._renoir_dx11_command_new r.2 .RENOIR_COMMAND_KIND_TEXTURE_BIND).1)
        (M.run (pre ++ [Step.record h (.RENOIR_COMMAND_KIND_TEXTURE_BIND, texture)])) hs ∧
      (∀ st ∈ pre, st.ok hs ∧ ∀ p ∈ hs, st.pass ≠ some p) ∧
      r.2.settings = s.settings ∧
      (s.settings.defer_api_calls = true → Dx11.executed r.2.trace = Dx11.executed s.trace) := by
  obtain ⟨pre, i1, i2, i3, i4⟩ := dx11_sampler_get_refines hinv desc fuel r he
  refine ⟨pre, ?_, i2, i3, i4⟩
  rw [model_run_snoc]
  refine dx11_record_refines i1 hh _ (by rfl) texture _ ?_ rfl rfl
  rw [dx11_links_record _ h _ _ (by simp) (by simp)]

/-- Every call of the pass interface is a sequence of steps of the model: the step of the
call itself on the private list of its pass, after steps that touch no private list. -/
theorem dx11_pass_call_refines {s : Dx11.IRenoir} {M : Model (Dx11.RENOIR_COMMAND_KIND × Ptr)}
    {hs : List Nat} (hinv : Dx11.Inv s M hs) {h : Nat} (hh : h ∈ hs) (fuel : Nat)
    (call : Dx11.Pass_Call) (s' : Dx11.IRenoir) (he : Dx11.pass_call fuel s h call = some s') :
    ∃ pre, Dx11.Inv s' (M.run (pre ++ (call.step s.settings.defer_api_calls h).toList)) hs ∧
      (∀ st ∈ pre, st.ok hs ∧ ∀ p ∈ hs, st.pass ≠ some p) ∧ s'.settings = s.settings := by
  have nopre : ∀ st ∈ ([] : List (Step (Dx11.RENOIR_COMMAND_KIND × Ptr))),
      st.ok hs ∧ ∀ p ∈ hs, st.pass ≠ some p := fun _ h => absurd h (List.not_mem_nil _)
  cases call with
  | pass_begin =>
    simp only [Dx11.pass_call, Option.some.injEq] at he
    subst he
    refine ⟨[], ?_, nopre, rfl⟩
    show Dx11.Inv _ (M.step (.pass_begin h (.RENOIR_COMMAND_KIND_PASS_BEGIN, some h))) hs
    refine dx11_inv_step hinv _ hh (fun _ _ e => by cases e; rfl) (fun _ _ e => by cases e)
      ?_ hinv.2.2.1
    rw [dx11_links_pass_begin, hinv.1]; rfl
  | clear desc =>
    simp only [Dx11.pass_call, Option.some.injEq] at he
    subst he
    exact ⟨[], dx11_record_refines hinv hh _ (by rfl) _ _ (dx11_links_clear s h desc) rfl rfl,
      nopre, rfl⟩
  | use_pipeline pipeline =>
    simp only [Dx11.pass_call, Option.some.injEq] at he
    subst he
    exact ⟨[], dx11_record_refines hinv hh _ (by rfl) _ _ (dx11_links_use_pipeline s h pipeline)
      rfl rfl, nopre, rfl⟩
  | use_program program =>
    simp only [Dx11.pass_call, Option.some.injEq] at he
    subst he
    exact ⟨[], dx11_record_refines hinv hh _ (by rfl) _ _ (dx11_links_use_program s h program)
      rfl rfl, nopre, rfl⟩
  | scissor x y width height =>
    simp only [Dx11.pass_call, Option.some.injEq] at he
    subst he
    exact ⟨[], dx11_record_refines hinv hh _ (by rfl) _ _ (dx11_links_scissor s h x y width height)
      rfl rfl, nopre, rfl⟩
  | buffer_bind buffer shader slot =>
    simp only [Dx11.pass_call, Option.some.injEq] at he
    subst he
    exact ⟨[], dx11_record_refines hinv hh _ (by rfl) _ _
      (dx11_links_buffer_bind s h buffer shader slot) rfl rfl, nopre, rfl⟩
  | draw desc =>
    simp only [Dx11.pass_call, Option.some.injEq] at he
    subst he
    exact ⟨[], dx11_record_refines hinv hh _ (by rfl) _ _ (dx11_links_draw s h desc) rfl rfl,
      nopre, rfl⟩
  | buffer_write buffer offset bytes bytes_size =>
    simp only [Dx11.pass_call] at he
    by_cases hz : bytes_size = 0
    · subst hz
      simp only [Dx11._renoir_dx11_buffer_write, if_true, Option.some.injEq] at he
      subst he
      exact ⟨[], hinv, nopre, rfl⟩
    · obtain ⟨l1, l2, l3, l4, _⟩ := dx11_links_buffer_write s s' h buffer offset bytes
        bytes_size hz he
      refine ⟨[], ?_, nopre, l4⟩
      have hst : (Dx11.Pass_Call.buffer_write buffer offset bytes bytes_size).step
          s.settings.defer_api_calls h
          = some (.record h (.RENOIR_COMMAND_KIND_BUFFER_WRITE, buffer)) := by
        simp [Dx11.Pass_Call.step, Dx11.Pass_Call.label, hz]
      rw [hst]
      exact dx11_record_refines hinv hh _ (by rfl) _ _ l1 l2 l3
  | texture_write texture desc =>
    simp only [Dx11.pass_call] at he
    by_cases hz : desc.bytes_size = 0
    · simp only [Dx11._renoir_dx11_texture_write, hz, if_true, Option.some.injEq] at he
      subst he
      have hst : (Dx11.Pass_Call.texture_write texture desc).step
          s.settings.defer_api_calls h = none := by
        simp [Dx11.Pass_Call.step, Dx11.Pass_Call.label, hz]
      rw [hst]
      exact ⟨[], hinv, nopre, rfl⟩
    · obtain ⟨l1, l2, l3, l4, _⟩ := dx11_links_texture_write s s' h texture desc hz he
      refine ⟨[], ?_, nopre, l4⟩
      have hst : (Dx11.Pass_Call.texture_write texture desc).step
          s.settings.defer_api_calls h
          = some (.record h (.RENOIR_COMMAND_KIND_TEXTURE_WRITE, texture)) := by
        simp [Dx11.Pass_Call.step, Dx11.Pass_Call.label, hz]
      rw [hst]
      exact dx11_record_refines hinv hh _ (by rfl) _ _ l1 l2 l3
  | texture_bind texture shader slot =>
    simp only [Dx11.pass_call, Dx11._renoir_dx11_texture_bind, Option.bind_eq_some,
      Option.map_eq_some'] at he
    obtain ⟨htex, rfl, r, hg, rfl⟩ := he
    obtain ⟨pre, i1, i2, i3, _⟩ := dx11_bind_refines hinv hh _ fuel r hg (some htex) shader slot
    exact ⟨pre, i1, i2, i3⟩
  | texture_sampler_bind texture shader slot sampler =>
    simp only [Dx11.pass_call, Dx11._renoir_dx11_texture_sampler_bind,
      Option.map_eq_some'] at he
    obtain ⟨r, hg, rfl⟩ := he
    obtain ⟨pre, i1, i2, i3, _⟩ := dx11_bind_refines hinv hh _ fuel r hg texture shader slot
    exact ⟨pre, i1, i2, i3⟩
  | pass_end =>
    simp only [Dx11.pass_call] at he
    by_cases hd : s.settings.defer_api_calls = true
    · obtain ⟨s2, e1, e2, _, e4, e5, e6⟩ := dx11_pass_end_deferred fuel s h hd
      rw [e1] at he
      simp only [Option.some.injEq] at he
      subst he
      refine ⟨[], ?_, nopre, e4⟩
      have hst : Dx11.Pass_Call.pass_end.step s.settings.defer_api_calls h
          = some (.pass_end_deferred h (.RENOIR_COMMAND_KIND_PASS_END, some h)) := by
        simp [Dx11.Pass_Call.step, hd]
      rw [hst]
      refine dx11_inv_step hinv
        (.pass_end_deferred h (.RENOIR_COMMAND_KIND_PASS_END, some h)) hh (fun _ _ e => by cases e) (fun _ _ e => by cases e) ?_ ?_
      · rw [e2, hinv.1]; rfl
      · rw [e5, e6]; exact hinv.2.2.1
    · have hd : s.settings.defer_api_calls = false := by simpa using hd
      have w : (Dx11.links s).WF M.dev hs M.priv := by rw [hinv.1]; exact hinv.2.1
      have hk : ∀ x ∈ M.priv h, Dx11.recordable (s.commands x).kind = true := by
        intro x hx
        have := hinv.2.2.2 h hh x hx
        rw [← hinv.1] at this
        exact this
      obtain ⟨e2, e4, e5, e6⟩ := dx11_pass_end_immediate fuel s s' h w hh hk hd he
      refine ⟨[], ?_, nopre, e4⟩
      have hst : Dx11.Pass_Call.pass_end.step s.settings.defer_api_calls h
          = some (.pass_end_immediate h (.RENOIR_COMMAND_KIND_PASS_END, some h)) := by
        simp [Dx11.Pass_Call.step, hd]
      rw [hst]
      refine dx11_inv_step hinv
        (.pass_end_immediate h (.RENOIR_COMMAND_KIND_PASS_END, some h)) hh (fun _ _ e => by cases e) (fun _ _ e => by cases e) ?_ ?_
      · rw [e2, hinv.1]; rfl
      · rw [e5, e6]; exact hinv.2.2.1

theorem model_run_append {κ : Type} (M : Model κ) (a b : List (Step κ)) :
    M.run (a ++ b) = (M.run a).run b := by
  simp [Model.run, List.foldl_append]

theorem dx11_step_pass (d : Bool) (h : Nat) (call : Dx11.Pass_Call)
    (st : Step (Dx11.RENOIR_COMMAND_KIND × Ptr)) (he : call.step d h = some st) :
    st.pass = some h := by
  cases call <;> simp only [Dx11.Pass_Call.step, Option.map_eq_some', Option.some.injEq] at he
  case pass_begin => subst he; rfl
  case pass_end =>
    split at he <;> simp only [Option.some.injEq] at he <;> subst he <;> rfl
  all_goals
    obtain ⟨_, _, rfl⟩ := he
    rfl

theorem dx11_step_recording (d : Bool) (h : Nat) (call : Dx11.Pass_Call)
    (hr : call.recording = true) : call.step d h = call.label.map (Step.record h) := by
  cases call <;> first | rfl | exact absurd hr (by decide)

theorem step_ok_of_pass {κ : Type} {hs : List Nat} {h : Nat} (hh : h ∈ hs) (st : Step κ)
    (hp : st.pass = some h) (hne : ∀ r, st ≠ .reset r) : st.ok hs := by
  cases st <;> simp only [Step.pass, Option.some.injEq] at hp <;>
    first
    | exact absurd rfl (hne _)
    | exact absurd hp (by simp)
    | (subst hp; exact hh)

theorem dx11_step_ok (d : Bool) {hs : List Nat} {h : Nat} (hh : h ∈ hs)
    (call : Dx11.Pass_Call) (st : Step (Dx11.RENOIR_COMMAND_KIND × Ptr))
    (he : call.step d h = some st) : st.ok hs := by
  refine step_ok_of_pass hh st (dx11_step_pass d h call st he) ?_
  intro r hr
  subst hr
  cases call <;> simp only [Dx11.Pass_Call.step, Option.map_eq_some', Option.some.injEq] at he
  case pass_end => split at he <;> simp at he
  all_goals
    first
    | (obtain ⟨_, _, h3⟩ := he; cases h3)
    | (obtain ⟨_, _, h3⟩ := he)

theorem filter_foreign {κ : Type} (hs : List Nat) (p : Nat) (hp : p ∈ hs) (pre : List (Step κ))
    (h : ∀ st ∈ pre, st.ok hs ∧ ∀ q ∈ hs, st.pass ≠ some q) :
    pre.filter (fun st => st.pass = some p) = [] := by
  rw [List.filter_eq_nil_iff]
  intro st hst
  simpa using (h st hst).2 p hp

/-- A sequence of calls of the pass interface is a sequence of steps of the model; the
steps on the private list of a pass `p` are those of the calls on `p`, in order. -/
theorem dx11_pass_calls_refine {hs : List Nat} (fuel : Nat) :
    ∀ (script : List (Nat × Dx11.Pass_Call)) (s s' : Dx11.IRenoir)
      (M : Model (Dx11.RENOIR_COMMAND_KIND × Ptr)),
      Dx11.Inv s M hs → (∀ c ∈ script, c.1 ∈ hs) → Dx11.pass_calls fuel s script = some s' →
      ∃ steps, Dx11.Inv s' (M.run steps) hs ∧ (∀ st ∈ steps, st.ok hs) ∧
        s'.settings = s.settings ∧
        ∀ p ∈ hs, steps.filter (fun st => st.pass = some p)
          = (script.filter (fun c => c.1 = p)).filterMap
              (fun c => c.2.step s.settings.defer_api_calls p) := by
  intro script
  induction script with
  | nil =>
    intro s s' M hinv _ he
    simp only [Dx11.pass_calls, Option.some.injEq] at he
    subst he
    exact ⟨[], hinv, fun _ h => absurd h (List.not_mem_nil _), rfl, fun _ _ => rfl⟩
  | cons c rest ih =>
    intro s s' M hinv hmem he
    obtain ⟨h, call⟩ := c
    have hh : h ∈ hs := hmem (h, call) (List.mem_cons_self _ _)
    simp only [Dx11.pass_calls] at he
    cases h1 : Dx11.pass_call fuel s h call with
    | none => rw [h1] at he; exact absurd he (by simp)
    | some s1 =>
      rw [h1] at he
      simp only [] at he
      obtain ⟨pre, i1, i2, i3⟩ := dx11_pass_call_refines hinv hh fuel call s1 h1
      obtain ⟨steps, j1, j2, j3, j4⟩ := ih s1 s' _ i1
        (fun c hc => hmem c (List.mem_cons_of_mem _ hc)) he
      refine ⟨(pre ++ (call.step s.settings.defer_api_calls h).toList) ++ steps, ?_, ?_,
        j3.trans i3, ?_⟩
      · rw [model_run_append]; exact j1
      · intro st hst
        rcases List.mem_append.1 hst with hst | hst
        · rcases List.mem_append.1 hst with hst | hst
          · exact (i2 st hst).1
          · exact dx11_step_ok _ hh call st (by simpa [Option.mem_toList] using hst)
        · exact j2 st hst
      · intro p hp
        rw [List.filter_append, List.filter_append, filter_foreign hs p hp pre i2, j4 p hp, i3]
        by_cases e : h = p
        · subst e
          have : (call.step s.settings.defer_api_calls h).toList.filter
              (fun st => st.pass = some h) = (call.step s.settings.defer_api_calls h).toList := by
            rw [List.filter_eq_self]
            intro st hst
            simpa using dx11_step_pass _ h call st (by simpa [Option.mem_toList] using hst)
          rw [this]
          simp only [List.nil_append, List.filter_cons, decide_True, if_true,
            List.filterMap_cons]
          cases call.step s.settings.defer_api_calls h <;> rfl
        · have : (call.step s.settings.defer_api_calls h).toList.filter
              (fun st => st.pass = some p) = [] := by
            rw [List.filter_eq_nil_iff]
            intro st hst
            have := dx11_step_pass _ h call st (by simpa [Option.mem_toList] using hst)
            simp [this, e]
          rw [this]
          simp [List.filter_cons, e]

/-- The records of a context after `pass_begin`: one new `PASS_BEGIN` record, nothing else
is written. -/
theorem dx11_pass_begin_commands (s : Dx11.IRenoir) (h : Nat) :
    (Dx11._renoir_dx11_pass_begin s h).commands
      = write s.commands (pool_get s.command_pool).1
          { kind := .RENOIR_COMMAND_KIND_PASS_BEGIN, handle := some h } := by
  simp [Dx11._renoir_dx11_pass_begin, Dx11.command_push_pass, Dx11._renoir_dx11_command_push,
    Dx11.set_handle, Dx11.set_command, Dx11._renoir_dx11_command_new, write_write]

theorem dx11_pass_begin_pointers (s : Dx11.IRenoir) (h : Nat) :
    ((Dx11._renoir_dx11_pass_begin s h).handles h).pass.command_list_head
      = some (pool_get s.command_pool).1 ∧
    ((Dx11._renoir_dx11_pass_begin s h).handles h).pass.command_list_tail
      = some (pool_get s.command_pool).1 := by
  simp [Dx11._renoir_dx11_pass_begin, Dx11.command_push_pass, Dx11._renoir_dx11_command_push,
    Dx11.set_handle, Dx11.set_command, Dx11._renoir_dx11_command_new]

/-- The function `pass_begin`: the private list of `h` becomes the one new record, whatever
it was; the device-wide list `D` and the trace are unchanged. -/
theorem dx11_pass_begin_spec (s : Dx11.IRenoir) (h : Nat) (D : List Nat)
    (priv : Nat → List Nat) (w : (Dx11.links s).WF D [] priv) :
    Dx11.list_records (Dx11._renoir_dx11_pass_begin s h).commands 1
        ((Dx11._renoir_dx11_pass_begin s h).handles h).pass.command_list_head
      = some [(pool_get s.command_pool).1] ∧
    ((Dx11._renoir_dx11_pass_begin s h).handles h).pass.command_list_tail
      = some (pool_get s.command_pool).1 ∧
    (Dx11._renoir_dx11_pass_begin s h).commands (pool_get s.command_pool).1
      = { kind := .RENOIR_COMMAND_KIND_PASS_BEGIN, handle := some h } ∧
    Dx11.list_records (Dx11._renoir_dx11_pass_begin s h).commands D.length
        (Dx11._renoir_dx11_pass_begin s h).command_list_head = some D ∧
    (Dx11._renoir_dx11_pass_begin s h).command_list_head = s.command_list_head ∧
    (Dx11._renoir_dx11_pass_begin s h).command_list_tail = s.command_list_tail ∧
    (∀ x ∈ D, (Dx11._renoir_dx11_pass_begin s h).commands x = s.commands x) ∧
    (Dx11._renoir_dx11_pass_begin s h).trace = s.trace := by
  have hp := dx11_pass_begin_pointers s h
  have hc := dx11_pass_begin_commands s h
  have w1 := w.pass_begin_add h (.RENOIR_COMMAND_KIND_PASS_BEGIN, some h)
  rw [← dx11_links_pass_begin] at w1
  have hnew := (w.new (.RENOIR_COMMAND_KIND_PASS_BEGIN, some h)).2.1
  refine ⟨?_, hp.2, ?_, dx11_wf_device w1, rfl, rfl, ?_, rfl⟩
  · rw [hp.1, hc]
    simp [Dx11.list_records]
  · rw [hc, write_same]
  · intro x hx
    rw [hc, write_apply, if_neg]
    intro e
    exact hnew (e ▸ hx)

/-- The function `pass_end` in deferred mode on a pass with a non-empty private list `P`:
the device-wide list `D` becomes `D ++ P ++ [e]` with `e` a new `PASS_END` record, the
records of `D` and `P` keep their kind and handle, and the trace is unchanged. -/
theorem dx11_pass_end_deferred_spec (fuel : Nat) (s : Dx11.IRenoir) (h : Nat)
    (D hs : List Nat) (priv : Nat → List Nat) (w : (Dx11.links s).WF D hs priv)
    (hh : h ∈ hs) (hne : priv h ≠ []) (hd : s.settings.defer_api_calls = true) :
    ∃ s', Dx11._renoir_dx11_pass_end fuel s h = some s' ∧
      Dx11.list_records s'.commands (D ++ priv h ++ [(pool_get s.command_pool).1]).length
        s'.command_list_head = some (D ++ priv h ++ [(pool_get s.command_pool).1]) ∧
      (s'.commands (pool_get s.command_pool).1).kind = .RENOIR_COMMAND_KIND_PASS_END ∧
      (s'.commands (pool_get s.command_pool).1).handle = some h ∧
      (∀ x ∈ D ++ priv h, (s'.commands x).kind = (s.commands x).kind ∧
        (s'.commands x).handle = (s.commands x).handle) ∧
      s'.trace = s.trace ∧
      (s'.handles h).pass.command_list_head = none ∧
      (s'.handles h).pass.command_list_tail = none := by
  obtain ⟨s', e1, e2, e3, _, _, _⟩ := dx11_pass_end_deferred fuel s h hd
  have w1 := w.pass_end_deferred hh (.RENOIR_COMMAND_KIND_PASS_END, some h)
  rw [if_neg hne, ← e2, ← List.append_assoc] at w1
  have hph : (Dx11.links s).phead h ≠ none := fun e => hne ((w.phead_eq_none_iff hh).1 e)
  have hlab : (Dx11.links s').label
      = write (Dx11.links s).label (pool_get s.command_pool).1
          (.RENOIR_COMMAND_KIND_PASS_END, some h) := by
    rw [e2]
    unfold Links.pass_end_deferred
    rw [if_pos hph]
    show (Links.splice ((Dx11.links s).record h _) h).label = _
    rw [Links.splice_label, Links.record_label]
    rfl
  have hnew := w.new (.RENOIR_COMMAND_KIND_PASS_END, some h)
  have hl : ∀ x, ((s'.commands x).kind, (s'.commands x).handle)
      = write (Dx11.links s).label (pool_get s.command_pool).1
          (.RENOIR_COMMAND_KIND_PASS_END, some h) x := fun x => congrFun hlab x
  refine ⟨s', e1, dx11_wf_device w1, ?_, ?_, ?_, e3, ?_, ?_⟩
  · have := hl (pool_get s.command_pool).1
    rw [write_same] at this
    exact (Prod.mk.inj this).1
  · have := hl (pool_get s.command_pool).1
    rw [write_same] at this
    exact (Prod.mk.inj this).2
  · intro x hx
    have hxe : x ≠ (pool_get s.command_pool).1 := by
      intro e
      rcases List.mem_append.1 hx with hx | hx
      · exact hnew.2.1 (e ▸ hx)
      · exact hnew.2.2.1 h hh (e ▸ hx)
    have := hl x
    rw [write_apply, if_neg hxe] at this
    exact Prod.mk.inj this
  · have := (w1.phead_eq_none_iff hh).2 (write_same _ _ _)
    exact this
  · have := w1.pr_tail h hh
    rw [write_same] at this
    exact this

/-- After `pass_end` the private list pointers of the pass are null, in both modes. -/
theorem dx11_pass_end_pointers (fuel : Nat) (s s' : Dx11.IRenoir) (h : Nat)
    (he : Dx11._renoir_dx11_pass_end fuel s h = some s') :
    (s'.handles h).pass.command_list_head = none ∧
    (s'.handles h).pass.command_list_tail = none := by
  rw [dx11_pass_end_eq] at he
  simp only [Option.map_eq_some'] at he
  obtain ⟨s2, _, rfl⟩ := he
  simp [Dx11.pass_list_reset, Dx11.set_handle]

/-- The private list of `h` once the `PASS_END` record is pushed: a well-linked list of
records of the pass functions. -/
theorem dx11_pass_end_pushed_chain (s : Dx11.IRenoir) (h : Nat)
    {D hs : List Nat} {priv : Nat → List Nat}
    (w : (Dx11.links s).WF D hs priv) (hh : h ∈ hs)
    (hk : ∀ x ∈ priv h, Dx11.recordable (s.commands x).kind = true) :
    chain (fun a => ((Dx11.pass_end_pushed s h).commands a).next)
      ((Dx11.pass_end_pushed s h).handles h).pass.command_list_head
      (priv h ++ [(pool_get s.command_pool).1]) ∧
    ∀ x ∈ priv h ++ [(pool_get s.command_pool).1],
      Dx11.recordable ((Dx11.pass_end_pushed s h).commands x).kind = true := by
  have w1 := w.record hh (.RENOIR_COMMAND_KIND_PASS_END, some h)
  rw [← dx11_links_pass_end_pushed] at w1
  have hc := w1.pr h hh
  rw [write_same] at hc
  refine ⟨hc, ?_⟩
  intro x hx
  have hl : ((Dx11.links (Dx11.pass_end_pushed s h)).label x).1
      = ((Dx11.pass_end_pushed s h).commands x).kind := rfl
  rw [← hl, dx11_links_pass_end_pushed, Links.record_label, write_apply]
  split
  · rfl
  · rcases List.mem_append.1 hx with hx | hx
    · exact hk x hx
    · simp only [List.mem_singleton] at hx
      contradiction

theorem links_pass_end_immediate_head {κ : Type} (L : Links κ) (h : Nat) (k : κ)
    (l : List Nat) :
    (L.pass_end_immediate h k l).head = L.head ∧ (L.pass_end_immediate h k l).tail = L.tail := by
  unfold Links.pass_end_immediate
  split
  · exact ⟨Links.record_head L h k, Links.record_tail L h k⟩
  · exact ⟨rfl, rfl⟩

/-- The function `pass_end` in immediate mode on a pass with a non-empty private list `P`:
with enough fuel it is the in-order execution of `P` followed by the new `PASS_END` record
`e`; when it returns, the log has grown by exactly these records, their blocks are back in
the command pool, and the device-wide list `D` is unchanged. -/
theorem dx11_pass_end_immediate_spec (fuel : Nat) (s : Dx11.IRenoir) (h : Nat)
    (D hs : List Nat) (priv : Nat → List Nat) (w : (Dx11.links s).WF D hs priv)
    (hh : h ∈ hs) (hne : priv h ≠ [])
    (hk : ∀ x ∈ priv h, Dx11.recordable (s.commands x).kind = true)
    (hd : s.settings.defer_api_calls = false) (hf : (priv h).length + 1 ≤ fuel) :
    Dx11._renoir_dx11_pass_end fuel s h
      = (Dx11.execute_in_order fuel (Dx11.pass_end_pushed s h)
          (priv h ++ [(pool_get s.command_pool).1])).map
            (fun s => Dx11.pass_list_reset s h) ∧
    ∀ s', Dx11._renoir_dx11_pass_end fuel s h = some s' →
      (Dx11.executed s'.trace).map (fun r => (r.1, r.2.kind, r.2.handle))
        = (Dx11.executed s.trace).map (fun r => (r.1, r.2.kind, r.2.handle)) ++
          ((priv h).map (fun x => (x, (s.commands x).kind, (s.commands x).handle)) ++
            [((pool_get s.command_pool).1, .RENOIR_COMMAND_KIND_PASS_END, some h)]) ∧
      s'.command_pool.free
        = (pool_get s.command_pool).1 ::
            ((priv h).reverse ++ (pool_get s.command_pool).2.free) ∧
      Dx11.list_records s'.commands D.length s'.command_list_head = some D ∧
      s'.command_list_head = s.command_list_head ∧
      s'.command_list_tail = s.command_list_tail ∧
      (s'.handles h).pass.command_list_head = none ∧
      (s'.handles h).pass.command_list_tail = none := by
  have hph : (s.handles h).pass.command_list_head ≠ none :=
    fun e => hne ((w.phead_eq_none_iff hh).1 e)
  obtain ⟨hc, hkinds⟩ := dx11_pass_end_pushed_chain s h w hh hk
  constructor
  · rw [dx11_pass_end_eq, if_pos hph, if_neg (by simp [hd])]
    rw [dx11_drain_in_order _ fuel fuel _ _ hc (by simpa using hf) hkinds]
  · intro s' he
    obtain ⟨e2, _, _, _⟩ := dx11_pass_end_immediate fuel s s' h w hh hk hd he
    have w1 := w.pass_end_immediate hh (.RENOIR_COMMAND_KIND_PASS_END, some h)
    rw [← e2] at w1
    have hnew := w.new (.RENOIR_COMMAND_KIND_PASS_END, some h)
    have hph1 : (Dx11.links s).phead h ≠ none := hph
    have hlog := congrArg Links.log e2
    rw [Links.pass_end_immediate_log, if_pos hph1] at hlog
    have hpool := congrArg Links.pool e2
    have hhead := congrArg Links.head e2
    have htail := congrArg Links.tail e2
    rw [(links_pass_end_immediate_head _ _ _ _).1] at hhead
    rw [(links_pass_end_immediate_head _ _ _ _).2] at htail
    obtain ⟨p1, p2⟩ := dx11_pass_end_pointers fuel s s' h he
    refine ⟨?_, ?_, dx11_wf_device w1, hhead, htail, p1, p2⟩
    · refine (hlog.trans ?_)
      show (Dx11.links s).log ++ _ = (Dx11.links s).log ++ _
      congr 1
      rw [List.map_append, List.map_singleton, write_same]
      congr 1
      refine List.map_congr_left (fun x hx => ?_)
      rw [write_apply,
        if_neg (fun e : x = ((Dx11.links s).new _).1 => hnew.2.2.1 h hh (e ▸ hx))]
      rfl
    · have : s'.command_pool = (Dx11.links s').pool := rfl
      rw [this, hpool]
      unfold Links.pass_end_immediate
      rw [if_pos hph1]
      show ((priv h ++ [_]).foldl pool_put _).free = _
      rw [(pool_put_foldl_free _ _).1]
      simp [Links.record, Links.new]
      exact ⟨rfl, rfl⟩

theorem dx11_cycle_steps (d : Bool) (p : Nat) (calls : List Dx11.Pass_Call)
    (hrec : ∀ c ∈ calls, c.recording = true) :
    (Dx11.Pass_Call.pass_begin :: (calls ++ [Dx11.Pass_Call.pass_end])).filterMap
        (fun c => c.step d p)
      = Step.pass_begin p (.RENOIR_COMMAND_KIND_PASS_BEGIN, some p) ::
          ((calls.filterMap Dx11.Pass_Call.label).map (Step.record p) ++
            [if d then Step.pass_end_deferred p (.RENOIR_COMMAND_KIND_PASS_END, some p)
              else Step.pass_end_immediate p (.RENOIR_COMMAND_KIND_PASS_END, some p)]) := by
  have h1 : calls.filterMap (fun c => c.step d p)
      = (calls.filterMap Dx11.Pass_Call.label).map (Step.record p) := by
    rw [List.map_filterMap]
    refine List.filterMap_congr (fun c hc => ?_)
    rw [dx11_step_recording d p c (hrec c hc)]
  rw [List.filterMap_cons_some (by rfl : Dx11.Pass_Call.pass_begin.step d p = some _),
    List.filterMap_append, h1]
  congr 2
  cases d <;> rfl

/-- Pass isolation on the D3D11 backend: in any sequence of calls on the passes `hs` in
which the calls on `p` are one cycle `pass_begin`, recording calls, `pass_end`, the records
of that cycle form one contiguous block `B`, in recording order, of the device-wide list
(deferred mode) or of the executed records (immediate mode). -/
theorem dx11_pass_isolation (fuel : Nat) (s : Dx11.IRenoir) (D hs : List Nat)
    (priv : Nat → List Nat) (hinv : Dx11.Inv s ⟨Dx11.links s, D, priv⟩ hs)
    (script : List (Nat × Dx11.Pass_Call)) (hscript : ∀ c ∈ script, c.1 ∈ hs)
    (p : Nat) (hp : p ∈ hs) (calls : List Dx11.Pass_Call)
    (hrec : ∀ c ∈ calls, c.recording = true)
    (hcycle : (script.filter (fun c => c.1 = p)).map Prod.snd
      = .pass_begin :: (calls ++ [.pass_end]))
    (s' : Dx11.IRenoir) (he : Dx11.pass_calls fuel s script = some s') :
    (s.settings.defer_api_calls = true →
      ∃ A B C, Dx11.list_records s'.commands (A ++ B ++ C).length s'.command_list_head
          = some (A ++ B ++ C) ∧
        B.map (fun x => ((s'.commands x).kind, (s'.commands x).handle))
          = (.RENOIR_COMMAND_KIND_PASS_BEGIN, some p) ::
              (calls.filterMap Dx11.Pass_Call.label ++
                [(.RENOIR_COMMAND_KIND_PASS_END, some p)])) ∧
    (s.settings.defer_api_calls = false →
      ∃ A B C, (Dx11.executed s'.trace).map (fun r => (r.2.kind, r.2.handle)) = A ++ B ++ C ∧
        B = (.RENOIR_COMMAND_KIND_PASS_BEGIN, some p) ::
              (calls.filterMap Dx11.Pass_Call.label ++
                [(.RENOIR_COMMAND_KIND_PASS_END, some p)])) := by
  obtain ⟨steps, i1, i2, _, i4⟩ := dx11_pass_calls_refine fuel script s s' _ hinv hscript he
  have hf := i4 p hp
  have hmap : (script.filter (fun c => c.1 = p)).filterMap
        (fun c => c.2.step s.settings.defer_api_calls p)
      = ((script.filter (fun c => c.1 = p)).map Prod.snd).filterMap
        (fun c => c.step s.settings.defer_api_calls p) := by
    rw [List.filterMap_map]; rfl
  rw [hmap, hcycle, dx11_cycle_steps _ p calls hrec] at hf
  obtain ⟨l1, w1, _, _⟩ := i1
  constructor
  · intro hd
    rw [hd] at hf
    simp only [if_true] at hf
    obtain ⟨A, B, C, h1, h2⟩ := hinv.2.1.cycle_deferred hp steps _ _ _ i2 hf
    have w2 : (Dx11.links s').WF (A ++ B ++ C) hs
        (Model.run ⟨Dx11.links s, D, priv⟩ steps).priv := by
      rw [l1, ← h1]; exact w1
    refine ⟨A, B, C, dx11_wf_device w2, ?_⟩
    rw [← h2, ← l1]
    rfl
  · intro hd
    rw [hd] at hf
    simp only [Bool.false_eq_true, if_false] at hf
    obtain ⟨A, B, C, h1, h2⟩ := hinv.2.1.cycle_immediate hp steps _ _ _ i2 hf
    refine ⟨A.map Prod.snd, B.map Prod.snd, C.map Prod.snd, ?_, h2⟩
    rw [← List.map_append, ← List.map_append, ← h1, ← l1]
    simp [Dx11.links]

theorem dx11_pass_calls_append (fuel : Nat) :
    ∀ (a b : List (Nat × Dx11.Pass_Call)) (s : Dx11.IRenoir),
      Dx11.pass_calls fuel s (a ++ b)
        = (Dx11.pass_calls fuel s a).bind (fun s1 => Dx11.pass_calls fuel s1 b) := by
  intro a
  induction a with
  | nil => intro b s; rfl
  | cons c a ih =>
    intro b s
    obtain ⟨h, call⟩ := c
    simp only [List.cons_append, Dx11.pass_calls]
    cases Dx11.pass_call fuel s h call with
    | none => rfl
    | some s1 => exact ih b s1

/-- Pass reuse on the D3D11 backend: one cycle on the pass `h`, whatever its private list
was before, ends with the private list of `h` empty and the context in the state the next
cycle needs; the records of the cycle are the block `B`. -/
theorem dx11_pass_reuse (fuel : Nat) (s : Dx11.IRenoir) (D hs : List Nat)
    (priv : Nat → List Nat) (hinv : Dx11.Inv s ⟨Dx11.links s, D, priv⟩ hs)
    (h : Nat) (hh : h ∈ hs) (calls : List Dx11.Pass_Call)
    (hrec : ∀ c ∈ calls, c.recording = true)
    (s' : Dx11.IRenoir)
    (he : Dx11.pass_calls fuel s
      ((h, .pass_begin) :: (calls.map (fun c => (h, c)) ++ [(h, .pass_end)])) = some s') :
    (s'.handles h).pass.command_list_head = none ∧
    (s'.handles h).pass.command_list_tail = none ∧
    (∃ D' priv', Dx11.Inv s' ⟨Dx11.links s', D', priv'⟩ hs ∧ priv' h = []) ∧
    (s.settings.defer_api_calls = true →
      ∃ A B C, Dx11.list_records s'.commands (A ++ B ++ C).length s'.command_list_head
          = some (A ++ B ++ C) ∧
        B.map (fun x => ((s'.commands x).kind, (s'.commands x).handle))
          = (.RENOIR_COMMAND_KIND_PASS_BEGIN, some h) ::
              (calls.filterMap Dx11.Pass_Call.label ++
                [(.RENOIR_COMMAND_KIND_PASS_END, some h)])) ∧
    (s.settings.defer_api_calls = false →
      ∃ A B C, (Dx11.executed s'.trace).map (fun r => (r.2.kind, r.2.handle)) = A ++ B ++ C ∧
        B = (.RENOIR_COMMAND_KIND_PASS_BEGIN, some h) ::
              (calls.filterMap Dx11.Pass_Call.label ++
                [(.RENOIR_COMMAND_KIND_PASS_END, some h)])) := by
  have hscript : ∀ c ∈ (h, Dx11.Pass_Call.pass_begin) ::
      (calls.map (fun c => (h, c)) ++ [(h, Dx11.Pass_Call.pass_end)]), c.1 ∈ hs := by
    intro c hc
    simp only [List.mem_cons, List.mem_append, List.mem_map, List.mem_singleton,
      List.not_mem_nil, or_false] at hc
    rcases hc with rfl | ⟨_, _, rfl⟩ | rfl <;> exact hh
  have hptr : (s'.handles h).pass.command_list_head = none ∧
      (s'.handles h).pass.command_list_tail = none := by
    have he1 := he
    rw [← List.cons_append, dx11_pass_calls_append] at he1
    simp only [Option.bind_eq_some] at he1
    obtain ⟨s1, _, he2⟩ := he1
    simp only [Dx11.pass_calls, Dx11.pass_call] at he2
    cases h3 : Dx11._renoir_dx11_pass_end fuel s1 h with
    | none => rw [h3] at he2; exact absurd he2 (by simp)
    | some s2 =>
      rw [h3] at he2
      simp only [Option.some.injEq] at he2
      subst he2
      exact dx11_pass_end_pointers fuel s1 s2 h h3
  obtain ⟨steps, i1, _, _, _⟩ := dx11_pass_calls_refine fuel _ s s' _ hinv hscript he
  have hiso := dx11_pass_isolation fuel s D hs priv hinv _ hscript h hh calls hrec (by
    simp [List.filter_cons, List.filter_append, List.filter_map, Function.comp_def]) s' he
  refine ⟨hptr.1, hptr.2, ⟨(Model.run ⟨Dx11.links s, D, priv⟩ steps).dev,
    (Model.run ⟨Dx11.links s, D, priv⟩ steps).priv, ⟨rfl, ?_, i1.2.2.1, ?_⟩, ?_⟩,
    hiso.1, hiso.2⟩
  · show (Dx11.links s').WF _ hs _
    rw [i1.1]; exact i1.2.1
  · intro x hx y hy
    have := i1.2.2.2 x hx y hy
    rw [← i1.1] at this
    exact this
  · have w1 : (Dx11.links s').WF (Model.run ⟨Dx11.links s, D, priv⟩ steps).dev hs
        (Model.run ⟨Dx11.links s, D, priv⟩ steps).priv := by
      rw [i1.1]; exact i1.2.1
    exact (w1.phead_eq_none_iff hh).1 hptr.1

/-- A recording call that does not look a sampler up acts on the linkage as one `record`
step, or not at all when it records nothing, and executes nothing. -/
theorem dx11_recording_links (fuel : Nat) (s : Dx11.IRenoir) (h : Nat)
    (call : Dx11.Pass_Call) (hr : call.recording = true)
    (hb : call.looks_up_sampler = false) (s' : Dx11.IRenoir)
    (he : Dx11.pass_call fuel s h call = some s') :
    Dx11.links s' = (match call.label with
      | some k => (Dx11.links s).record h k
      | none => Dx11.links s) ∧
    Dx11.executed s'.trace = Dx11.executed s.trace := by
  cases call with
  | pass_begin => exact absurd hr (by decide)
  | pass_end => exact absurd hr (by decide)
  | texture_bind _ _ _ => simp [Dx11.Pass_Call.looks_up_sampler] at hb
  | texture_sampler_bind _ _ _ _ => simp [Dx11.Pass_Call.looks_up_sampler] at hb
  | clear desc =>
    simp only [Dx11.pass_call, Option.some.injEq] at he
    subst he
    exact ⟨dx11_links_clear s h desc, rfl⟩
  | use_pipeline pipeline =>
    simp only [Dx11.pass_call, Option.some.injEq] at he
    subst he
    exact ⟨dx11_links_use_pipeline s h pipeline, rfl⟩
  | use_program program =>
    simp only [Dx11.pass_call, Option.some.injEq] at he
    subst he
    exact ⟨dx11_links_use_program s h program, rfl⟩
  | scissor x y width height =>
    simp only [Dx11.pass_call, Option.some.injEq] at he
    subst he
    exact ⟨dx11_links_scissor s h x y width height, rfl⟩
  | buffer_bind buffer shader slot =>
    simp only [Dx11.pass_call, Option.some.injEq] at he
    subst he
    exact ⟨dx11_links_buffer_bind s h buffer shader slot, rfl⟩
  | draw desc =>
    simp only [Dx11.pass_call, Option.some.injEq] at he
    subst he
    exact ⟨dx11_links_draw s h desc, rfl⟩
  | buffer_write buffer offset bytes bytes_size =>
    simp only [Dx11.pass_call] at he
    by_cases hz : bytes_size = 0
    · subst hz
      simp only [Dx11._renoir_dx11_buffer_write, if_true, Option.some.injEq] at he
      subst he
      exact ⟨rfl, rfl⟩
    · obtain ⟨l1, _, _, _, l5⟩ := dx11_links_buffer_write s s' h buffer offset bytes
        bytes_size hz he
      refine ⟨?_, l5⟩
      simp only [Dx11.Pass_Call.label, hz, if_false]
      exact l1
  | texture_write texture desc =>
    simp only [Dx11.pass_call] at he
    by_cases hz : desc.bytes_size = 0
    · simp only [Dx11._renoir_dx11_texture_write, hz, if_true, Option.some.injEq] at he
      subst he
      constructor
      · simp [Dx11.Pass_Call.label, hz]
      · rfl
    · obtain ⟨l1, _, _, _, l5⟩ := dx11_links_texture_write s s' h texture desc hz he
      refine ⟨?_, l5⟩
      simp only [Dx11.Pass_Call.label, hz, if_false]
      exact l1

/-- A recording call that does not look a sampler up: the private list of its pass gains
the one record the call describes, at its tail (none for a write of zero bytes); the other
private lists, the device-wide list and the log of executions are unchanged. -/
theorem dx11_recording_spec (fuel : Nat) (s : Dx11.IRenoir) (h : Nat) (D hs : List Nat)
    (priv : Nat → List Nat) (w : (Dx11.links s).WF D hs priv) (hh : h ∈ hs)
    (call : Dx11.Pass_Call) (hr : call.recording = true)
    (hb : call.looks_up_sampler = false) (s' : Dx11.IRenoir)
    (he : Dx11.pass_call fuel s h call = some s') :
    Dx11.list_records s'.commands ((priv h).length + 1)
        (s'.handles h).pass.command_list_head
      = some (priv h ++ (call.label.map (fun _ => (pool_get s.command_pool).1)).toList) ∧
    (∀ k, call.label = some k →
      ((s'.commands (pool_get s.command_pool).1).kind,
        (s'.commands (pool_get s.command_pool).1).handle) = k) ∧
    (∀ h' ∈ hs, h' ≠ h →
      Dx11.list_records s'.commands (priv h').length (s'.handles h').pass.command_list_head
        = some (priv h')) ∧
    Dx11.list_records s'.commands D.length s'.command_list_head = some D ∧
    Dx11.executed s'.trace = Dx11.executed s.trace := by
  obtain ⟨hl, hx⟩ := dx11_recording_links fuel s h call hr hb s' he
  cases hk : call.label with
  | none =>
    rw [hk] at hl
    simp only [] at hl
    have w1 : (Dx11.links s').WF D hs priv := by rw [hl]; exact w
    refine ⟨?_, (fun k e => by cases e), fun h' hh' _ => dx11_wf_private w1 hh',
      dx11_wf_device w1, hx⟩
    rw [dx11_list_records_iff]
    exact ⟨by simpa using w1.pr h hh, by simp⟩
  | some k =>
    rw [hk] at hl
    simp only [] at hl
    have w1 := w.record hh k
    rw [← hl] at w1
    refine ⟨?_, ?_, ?_, dx11_wf_device w1, hx⟩
    · have := dx11_wf_private w1 hh
      rw [write_same] at this
      simpa using this
    · intro k' e
      simp only [Option.some.injEq] at e
      subst e
      have : (Dx11.links s').label (pool_get s.command_pool).1 = k := by
        rw [hl, Links.record_label]
        exact write_same _ _ _
      exact this
    · intro h' hh' hne
      have := dx11_wf_private w1 hh'
      rw [write_other _ _ _ _ hne] at this
      exact this

/-- The D3D11 texture bindings: the private list of the pass gains one `TEXTURE_BIND`
record at its tail; in deferred mode nothing is executed. -/
theorem dx11_texture_bind_spec (fuel : Nat) (s : Dx11.IRenoir) (D hs : List Nat)
    (priv : Nat → List Nat) (hinv : Dx11.Inv s ⟨Dx11.links s, D, priv⟩ hs)
    (h : Nat) (hh : h ∈ hs) (call : Dx11.Pass_Call) (hb : call.looks_up_sampler = true)
    (s' : Dx11.IRenoir) (he : Dx11.pass_call fuel s h call = some s') :
    ∃ c, Dx11.list_records s'.commands ((priv h).length + 1)
          (s'.handles h).pass.command_list_head = some (priv h ++ [c]) ∧
      call.label = some ((s'.commands c).kind, (s'.commands c).handle) ∧
      (s.settings.defer_api_calls = true →
        Dx11.executed s'.trace = Dx11.executed s.trace) := by
  have key : ∀ (desc : Renoir_Sampler_Desc) (r : Ptr × Dx11.IRenoir) (texture : Ptr)
      (shader slot : Int),
      Dx11._renoir_dx11_sampler_get fuel s desc = some r →
      s' = Dx11.command_push_pass
          (Dx11.set_command
            (Dx11._renoir_dx11_command_new r.2 .RENOIR_COMMAND_KIND_TEXTURE_BIND).2
            (Dx11._renoir_dx11_command_new r.2 .RENOIR_COMMAND_KIND_TEXTURE_BIND).1
            { (Dx11._renoir_dx11_command_new r.2 .RENOIR_COMMAND_KIND_TEXTURE_BIND).2.commands
                (Dx11._renoir_dx11_command_new r.2 .RENOIR_COMMAND_KIND_TEXTURE_BIND).1 with
              handle := texture, args := [shader, slot], sampler := r.1 })
          h (Dx11._renoir_dx11_command_new r.2 .RENOIR_COMMAND_KIND_TEXTURE_BIND).1 →
      ∃ c, Dx11.list_records s'.commands ((priv h).length + 1)
            (s'.handles h).pass.command_list_head = some (priv h ++ [c]) ∧
        some (Dx11.RENOIR_COMMAND_KIND.RENOIR_COMMAND_KIND_TEXTURE_BIND, texture)
          = some ((s'.commands c).kind, (s'.commands c).handle) ∧
        (s.settings.defer_api_calls = true →
          Dx11.executed s'.trace = Dx11.executed s.trace) := by
    intro desc r texture shader slot hg hs'
    obtain ⟨pre, i1, i2, _, i4⟩ := dx11_bind_refines hinv hh desc fuel r hg texture shader slot
    rw [← hs'] at i1
    rw [model_run_snoc] at i1
    have hpriv : (Model.run ⟨Dx11.links s, D, priv⟩ pre).priv h = priv h :=
      Model.run_priv_foreign h pre _ (fun st hst => (i2 st hst).2 h hh)
    have w1 : (Dx11.links s').WF
        ((Model.run ⟨Dx11.links s, D, priv⟩ pre).step
          (Step.record h (.RENOIR_COMMAND_KIND_TEXTURE_BIND, texture))).dev hs
        ((Model.run ⟨Dx11.links s, D, priv⟩ pre).step
          (Step.record h (.RENOIR_COMMAND_KIND_TEXTURE_BIND, texture))).priv := by
      rw [i1.1]; exact i1.2.1
    have hp := dx11_wf_private w1 hh
    have e1 : ((Model.run ⟨Dx11.links s, D, priv⟩ pre).step
        (Step.record h (.RENOIR_COMMAND_KIND_TEXTURE_BIND, texture))).priv h
        = priv h ++ [((Model.run ⟨Dx11.links s, D, priv⟩ pre).links.new
            (.RENOIR_COMMAND_KIND_TEXTURE_BIND, texture)).1] := by
      show write _ h _ h = _
      rw [write_same, hpriv]
    rw [e1] at hp
    refine ⟨_, by simpa using hp, ?_, ?_⟩
    · have : (Dx11.links s').label ((Model.run ⟨Dx11.links s, D, priv⟩ pre).links.new
          (.RENOIR_COMMAND_KIND_TEXTURE_BIND, texture)).1
          = (.RENOIR_COMMAND_KIND_TEXTURE_BIND, texture) := by
        rw [i1.1]
        show (Links.record _ h _).label _ = _
        rw [Links.record_label]
        exact write_same _ _ _
      exact congrArg some this.symm
    · intro hd
      rw [hs']
      exact i4 hd
  cases call with
  | texture_bind texture shader slot =>
    simp only [Dx11.pass_call, Dx11._renoir_dx11_texture_bind, Option.bind_eq_some,
      Option.map_eq_some'] at he
    obtain ⟨htex, rfl, r, hg, rfl⟩ := he
    exact key _ r (some htex) shader slot hg rfl
  | texture_sampler_bind texture shader slot sampler =>
    simp only [Dx11.pass_call, Dx11._renoir_dx11_texture_sampler_bind,
      Option.map_eq_some'] at he
    obtain ⟨r, hg, rfl⟩ := he
    exact key _ r texture shader slot hg rfl
  | pass_begin => exact absurd hb (by decide)
  | pass_end => exact absurd hb (by decide)
  | clear _ => simp [Dx11.Pass_Call.looks_up_sampler] at hb
  | use_pipeline _ => simp [Dx11.Pass_Call.looks_up_sampler] at hb
  | use_program _ => simp [Dx11.Pass_Call.looks_up_sampler] at hb
  | scissor _ _ _ _ => simp [Dx11.Pass_Call.looks_up_sampler] at hb
  | buffer_write _ _ _ _ => simp [Dx11.Pass_Call.looks_up_sampler] at hb
  | texture_write _ _ => simp [Dx11.Pass_Call.looks_up_sampler] at hb
  | buffer_bind _ _ _ => simp [Dx11.Pass_Call.looks_up_sampler] at hb
  | draw _ => simp [Dx11.Pass_Call.looks_up_sampler] at hb


/-! ### The lists of the GL backend -/

theorem gl450_push_none (l : Gl450.Command_List) (commands : Nat → Gl450.Renoir_Command)
    (c : Nat) (h : l.command_list_tail = none) :
    Gl450._renoir_gl450_command_push l commands c = (⟨some c, some c⟩, commands) := by
  unfold Gl450._renoir_gl450_command_push
  rw [h]

/-- `command_push` on a non-empty list changes one `next` pointer, and neither the kind nor
the handle of any record. -/
theorem gl450_push_some (l : Gl450.Command_List) (commands : Nat → Gl450.Renoir_Command)
    (c t : Nat) (h : l.command_list_tail = some t) :
    (Gl450._renoir_gl450_command_push l commands c).1 = ⟨l.command_list_head, some c⟩ ∧
    ∀ x, ((Gl450._renoir_gl450_command_push l commands c).2 x).next =
        (if x = t then some c else (commands x).next) ∧
      ((Gl450._renoir_gl450_command_push l commands c).2 x).kind = (commands x).kind ∧
      ((Gl450._renoir_gl450_command_push l commands c).2 x).handle = (commands x).handle := by
  unfold Gl450._renoir_gl450_command_push
  rw [h]
  refine ⟨rfl, fun x => ?_⟩
  simp only [write_apply]
  by_cases h1 : x = c <;> by_cases h2 : x = t <;> by_cases h3 : c = t <;> simp_all

/-- `command_push` on a private list acts on the linkage as `Links.push_pass`. -/
theorem gl450_links_push_pass (s : Gl450.IRenoir) (h c : Nat) :
    Gl450.links (Gl450.command_push_pass s h c) = (Gl450.links s).push_pass h c := by
  unfold Links.push_pass
  cases ht : (s.handles h).pass.command_list_tail with
  | none =>
    have e : (Gl450.links s).ptail h = none := ht
    have hp := gl450_push_none
      ⟨(s.handles h).pass.command_list_head, (s.handles h).pass.command_list_tail⟩
      s.commands c ht
    simp only [e]
    apply links_ext <;> intros <;>
      simp only [Gl450.links, Gl450.command_push_pass, hp, write_apply] <;> split <;> simp_all
  | some t =>
    have e : (Gl450.links s).ptail h = some t := ht
    obtain ⟨hp1, hp2⟩ := gl450_push_some
      ⟨(s.handles h).pass.command_list_head, (s.handles h).pass.command_list_tail⟩
      s.commands c t ht
    simp only [e]
    apply links_ext <;> intros <;>
      simp only [Gl450.links, Gl450.command_push_pass, hp1, hp2, write_apply] <;>
      first | rfl | (split <;> simp_all)

/-- `command_push` on the device-wide list acts on the linkage as `Links.push_self`. -/
theorem gl450_links_push_self (s : Gl450.IRenoir) (c : Nat) :
    Gl450.links (Gl450.command_push_self s c) = (Gl450.links s).push_self c := by
  unfold Links.push_self
  cases ht : s.command_list_tail with
  | none =>
    have e : (Gl450.links s).tail = none := ht
    have hp := gl450_push_none ⟨s.command_list_head, s.command_list_tail⟩ s.commands c ht
    simp only [e]
    apply links_ext <;> intros <;>
      simp only [Gl450.links, Gl450.command_push_self, hp]
  | some t =>
    have e : (Gl450.links s).tail = some t := ht
    obtain ⟨hp1, hp2⟩ := gl450_push_some ⟨s.command_list_head, s.command_list_tail⟩
      s.commands c t ht
    simp only [e]
    apply links_ext <;> intros <;>
      simp only [Gl450.links, Gl450.command_push_self, hp1, hp2, write_apply]

/-- `command_new` with the stores into its payload acts on the linkage as `Links.new`. -/
theorem gl450_links_new (s : Gl450.IRenoir) (k : Gl450.RENOIR_COMMAND_KIND)
    (v : Gl450.Renoir_Command) (hk : v.kind = k) (hn : v.next = none) :
    Gl450.links (Gl450.set_command (Gl450._renoir_gl450_command_new s k).2
        (Gl450._renoir_gl450_command_new s k).1 v) = ((Gl450.links s).new (k, v.handle)).2 := by
  apply links_ext <;> intros <;>
    simp only [Gl450.links, Links.new, Gl450.set_command, Gl450._renoir_gl450_command_new,
      write_apply] <;>
    first | rfl | (split <;> simp_all)

@[simp] theorem gl450_new_record (s : Gl450.IRenoir) (k : Gl450.RENOIR_COMMAND_KIND) :
    (Gl450._renoir_gl450_command_new s k).2.commands (Gl450._renoir_gl450_command_new s k).1
      = { kind := k } := by
  simp [Gl450._renoir_gl450_command_new]

/-- The block `command_new` hands out is the one `Links.new` hands out. -/
theorem gl450_new_fst (s : Gl450.IRenoir) (k : Gl450.RENOIR_COMMAND_KIND)
    (l : Gl450.RENOIR_COMMAND_KIND × Ptr) :
    (Gl450._renoir_gl450_command_new s k).1 = ((Gl450.links s).new l).1 := rfl

/-- A new record that is pushed on the private list of `h`. -/
theorem gl450_links_record (s : Gl450.IRenoir) (h : Nat) (k : Gl450.RENOIR_COMMAND_KIND)
    (v : Gl450.Renoir_Command) (hk : v.kind = k) (hn : v.next = none) :
    Gl450.links (Gl450.command_push_pass
        (Gl450.set_command (Gl450._renoir_gl450_command_new s k).2
          (Gl450._renoir_gl450_command_new s k).1 v) h (Gl450._renoir_gl450_command_new s k).1)
      = (Gl450.links s).record h (k, v.handle) := by
  rw [gl450_links_push_pass, gl450_links_new s k v hk hn]
  rfl

/-- Clearing the private list pointers of `h`. -/
theorem gl450_links_reset (s : Gl450.IRenoir) (h : Nat) :
    Gl450.links (Gl450.set_handle s h
        { s.handles h with
          pass := { (s.handles h).pass with command_list_head := none,
                                            command_list_tail := none } })
      = (Gl450.links s).reset h := by
  apply links_ext <;> intros <;>
    simp only [Gl450.links, Links.reset, Gl450.set_handle, write_apply] <;>
    first | rfl | (split <;> simp_all)

theorem gl450_links_pass_begin (s : Gl450.IRenoir) (h : Nat) :
    Gl450.links (Gl450._renoir_gl450_pass_begin s h) =
      (Gl450.links s).pass_begin h (.RENOIR_COMMAND_KIND_PASS_BEGIN, some h) := by
  unfold Gl450._renoir_gl450_pass_begin Links.pass_begin
  simp only []
  rw [gl450_links_record _ h _ _ (by simp) (by simp), gl450_links_reset]
  simp [Links.record]

/-- Reading a list with `list_records` finds `l` exactly when the `next` pointers chain
through `l`, given enough fuel. -/
theorem gl450_list_records_iff (commands : Nat → Gl450.Renoir_Command) :
    ∀ (fuel : Nat) (p : Ptr) (l : List Nat),
      Gl450.list_records commands fuel p = some l ↔
        chain (fun a => (commands a).next) p l ∧ l.length ≤ fuel := by
  intro fuel
  induction fuel with
  | zero =>
    intro p l
    cases p with
    | none =>
      cases l with
      | nil => simp [Gl450.list_records, chain]
      | cons x l => simp [Gl450.list_records, chain]
    | some a =>
      cases l with
      | nil => simp [Gl450.list_records, chain]
      | cons x l => simp [Gl450.list_records, chain]
  | succ fuel ih =>
    intro p l
    cases p with
    | none =>
      cases l with
      | nil => simp [Gl450.list_records, chain]
      | cons x l => simp [Gl450.list_records, chain]
    | some a =>
      cases l with
      | nil => simp [Gl450.list_records, chain]
      | cons x l =>
        simp only [Gl450.list_records, chain, Option.map_eq_some', List.cons.injEq,
          Option.some.injEq, List.length_cons, Nat.add_le_add_iff_right]
        constructor
        · rintro ⟨l', h1, h2, h3⟩
          subst h2 h3
          exact ⟨⟨rfl, ((ih _ _).mp h1).1⟩, ((ih _ _).mp h1).2⟩
        · rintro ⟨⟨h1, h2⟩, h3⟩
          subst h1
          exact ⟨l, (ih _ _).mpr ⟨h2, h3⟩, rfl, rfl⟩

/-- The device-wide list of a well-formed context, read from its head. -/
theorem gl450_wf_device {s : Gl450.IRenoir} {D hs : List Nat} {priv : Nat → List Nat}
    (w : (Gl450.links s).WF D hs priv) :
    Gl450.list_records s.commands D.length s.command_list_head = some D :=
  (gl450_list_records_iff _ _ _ _).mpr ⟨w.dev, Nat.le_refl _⟩

/-- The private list of a pass of a well-formed context, read from its head. -/
theorem gl450_wf_private {s : Gl450.IRenoir} {D hs : List Nat} {priv : Nat → List Nat}
    (w : (Gl450.links s).WF D hs priv) {h : Nat} (hh : h ∈ hs) :
    Gl450.list_records s.commands (priv h).length (s.handles h).pass.command_list_head
      = some (priv h) :=
  (gl450_list_records_iff _ _ _ _).mpr ⟨w.pr h hh, Nat.le_refl _⟩

theorem gl450_executed_append (t l : List Gl450.Event) :
    Gl450.executed (t ++ l) = Gl450.executed t ++ Gl450.executed l := by
  unfold Gl450.executed
  exact List.filterMap_append _ _ _

theorem gl450_same_lists_refl (s : Gl450.IRenoir) : Gl450.same_lists s s :=
  ⟨rfl, rfl, rfl, rfl, rfl, rfl, fun _ => ⟨rfl, rfl⟩⟩

theorem gl450_same_lists_trans {a b c : Gl450.IRenoir} (h1 : Gl450.same_lists a b)
    (h2 : Gl450.same_lists b c) : Gl450.same_lists a c := by
  obtain ⟨a1, a2, a3, a4, a5, a7, a8⟩ := h1
  obtain ⟨b1, b2, b3, b4, b5, b7, b8⟩ := h2
  exact ⟨b1.trans a1, b2.trans a2, b3.trans a3, b4.trans a4, b5.trans a5,
    b7.trans a7, fun h => ⟨(b8 h).1.trans (a8 h).1, (b8 h).2.trans (a8 h).2⟩⟩

theorem gl450_same_lists_emit (s : Gl450.IRenoir) (e : Gl450.Event) :
    Gl450.same_lists s (Gl450.emit s e) :=
  ⟨rfl, rfl, rfl, rfl, rfl, rfl, fun _ => ⟨rfl, rfl⟩⟩

theorem gl450_same_lists_upload (s : Gl450.IRenoir) (p : Ptr) (n : Nat) :
    Gl450.same_lists s (Gl450.device_upload s p n) :=
  ⟨rfl, rfl, rfl, rfl, rfl, rfl, fun _ => ⟨rfl, rfl⟩⟩

@[simp] theorem gl450_executed_emit (s : Gl450.IRenoir) (e : Gl450.Event) :
    Gl450.executed (Gl450.emit s e).trace = Gl450.executed s.trace ++ Gl450.executed [e] :=
  gl450_executed_append _ _

@[simp] theorem gl450_executed_upload (s : Gl450.IRenoir) (p : Ptr) (n : Nat) :
    Gl450.executed (Gl450.device_upload s p n).trace = Gl450.executed s.trace := by
  show Gl450.executed (s.trace ++ [_]) = _
  rw [gl450_executed_append]; simp [Gl450.executed]

/-- Executing a record of a private list changes neither the command records, nor the
pools, nor any list pointer, and is one entry of the log. -/
theorem gl450_execute_recordable (fuel : Nat) (s s' : Gl450.IRenoir) (c : Nat)
    (hk : Gl450.recordable (s.commands c).kind = true)
    (he : Gl450._renoir_gl450_command_execute fuel s c = some s') :
    Gl450.same_lists s s' ∧
    Gl450.executed s'.trace = Gl450.executed s.trace ++ [(c, s.commands c)] := by
  unfold Gl450._renoir_gl450_command_execute at he
  cases hkind : (s.commands c).kind <;> rw [hkind] at hk <;>
    first
    | exact absurd hk (by decide)
    | skip
  all_goals simp only [hkind] at he
  case RENOIR_COMMAND_KIND_PASS_BEGIN =>
    simp only [Option.bind_eq_some] at he
    obtain ⟨h, _, he⟩ := he
    split at he
    · simp only [Option.some.injEq] at he
      subst he
      exact ⟨⟨rfl, rfl, rfl, rfl, rfl, rfl, fun _ => ⟨rfl, rfl⟩⟩,
        by simp only [gl450_executed_emit, gl450_executed_upload]; simp [Gl450.executed]⟩
    · exact absurd he (by simp)
  case RENOIR_COMMAND_KIND_PASS_CLEAR =>
    simp only [Option.some.injEq] at he
    subst he
    exact ⟨⟨rfl, rfl, rfl, rfl, rfl, rfl, fun _ => ⟨rfl, rfl⟩⟩,
      by simp only [gl450_executed_emit, gl450_executed_upload]; simp [Gl450.executed]⟩
  case RENOIR_COMMAND_KIND_SCISSOR =>
    simp only [Option.some.injEq] at he
    subst he
    exact ⟨⟨rfl, rfl, rfl, rfl, rfl, rfl, fun _ => ⟨rfl, rfl⟩⟩,
      by simp only [gl450_executed_emit, gl450_executed_upload]; simp [Gl450.executed]⟩
  case RENOIR_COMMAND_KIND_DRAW =>
    simp only [Option.some.injEq] at he
    subst he
    exact ⟨⟨rfl, rfl, rfl, rfl, rfl, rfl, fun _ => ⟨rfl, rfl⟩⟩,
      by simp only [gl450_executed_emit, gl450_executed_upload]; simp [Gl450.executed]⟩
  case RENOIR_COMMAND_KIND_TEXTURE_WRITE =>
    simp only [Option.map_eq_some'] at he
    obtain ⟨h, _, rfl⟩ := he
    unfold Gl450.execute_texture_write
    simp only []
    split
    · exact ⟨⟨rfl, rfl, rfl, rfl, rfl, rfl, fun _ => ⟨rfl, rfl⟩⟩,
        by simp [Gl450.executed, Gl450.device_upload_rows, Gl450.emit, List.filterMap_append]⟩
    · split
      · exact ⟨⟨rfl, rfl, rfl, rfl, rfl, rfl, fun _ => ⟨rfl, rfl⟩⟩,
          by simp [Gl450.executed, Gl450.device_upload_rows, Gl450.emit,
            List.filterMap_append]⟩
      · exact ⟨⟨rfl, rfl, rfl, rfl, rfl, rfl, fun _ => ⟨rfl, rfl⟩⟩,
          by simp only [gl450_executed_emit, gl450_executed_upload]; simp [Gl450.executed]⟩
  all_goals
    simp only [Option.map_eq_some'] at he
    obtain ⟨h, _, rfl⟩ := he
    exact ⟨⟨rfl, rfl, rfl, rfl, rfl, rfl, fun _ => ⟨rfl, rfl⟩⟩,
      by simp only [gl450_executed_emit, gl450_executed_upload]; simp [Gl450.executed]⟩

theorem gl450_links_of_same_lists {s s' : Gl450.IRenoir} (h : Gl450.same_lists s s')
    (l : List (Nat × Gl450.Renoir_Command))
    (he : Gl450.executed s'.trace = Gl450.executed s.trace ++ l) :
    Gl450.links s' = { Gl450.links s with
      log := (Gl450.links s).log ++ l.map fun r => (r.1, (r.2.kind, r.2.handle)) } := by
  obtain ⟨h1, h2, h3, h4, _, _, h8⟩ := h
  apply links_ext
  · intro x; simp [Gl450.links, h1]
  · intro x; simp [Gl450.links, h1]
  · simp [Gl450.links, h2]
  · simp [Gl450.links, h3]
  · simp [Gl450.links, h4]
  · intro x; simp [Gl450.links, (h8 x).1]
  · intro x; simp [Gl450.links, (h8 x).2]
  · simp [Gl450.links, he]

/-- What `command_free` does to a context, the log of frees apart. -/
theorem gl450_command_free_frame (s : Gl450.IRenoir) (c : Nat) :
    (Gl450._renoir_gl450_command_free s c).commands = s.commands ∧
    (Gl450._renoir_gl450_command_free s c).command_pool = pool_put s.command_pool c ∧
    (Gl450._renoir_gl450_command_free s c).command_list_head = s.command_list_head ∧
    (Gl450._renoir_gl450_command_free s c).command_list_tail = s.command_list_tail ∧
    (Gl450._renoir_gl450_command_free s c).handle_pool = s.handle_pool ∧
    (Gl450._renoir_gl450_command_free s c).settings = s.settings ∧
    (Gl450._renoir_gl450_command_free s c).handles = s.handles ∧
    Gl450.executed (Gl450._renoir_gl450_command_free s c).trace = Gl450.executed s.trace := by
  unfold Gl450._renoir_gl450_command_free
  simp only []
  split <;> (try split) <;> (try split) <;>
    simp [Gl450.mn_free, Gl450.emit, Gl450.executed, List.filterMap_append]

theorem gl450_links_command_free (s : Gl450.IRenoir) (c : Nat) :
    Gl450.links (Gl450._renoir_gl450_command_free s c)
      = { Gl450.links s with pool := pool_put (Gl450.links s).pool c } := by
  obtain ⟨h1, h2, h3, h4, _, _, h8, h9⟩ := gl450_command_free_frame s c
  apply links_ext
  · intro x; simp [Gl450.links, h1]
  · intro x; simp [Gl450.links, h1]
  · simp [Gl450.links, h2]
  · simp [Gl450.links, h3]
  · simp [Gl450.links, h4]
  · intro x; simp [Gl450.links, h8]
  · intro x; simp [Gl450.links, h8]
  · simp [Gl450.links, h9]

/-- Executing a record of a private list does not depend on the fuel. -/
theorem gl450_execute_fuel (f1 f2 : Nat) (s : Gl450.IRenoir) (c : Nat)
    (hk : Gl450.recordable (s.commands c).kind = true) :
    Gl450._renoir_gl450_command_execute f1 s c = Gl450._renoir_gl450_command_execute f2 s c := by
  unfold Gl450._renoir_gl450_command_execute
  cases hkind : (s.commands c).kind <;> rw [hkind] at hk <;>
    first
    | exact absurd hk (by decide)
    | simp only [hkind]

/-- One record of a private list executed and freed: the linkage loses nothing but the
block, which returns to the pool, and the log gains the record. -/
theorem gl450_links_execute_free (fuel : Nat) (s s' : Gl450.IRenoir) (c : Nat)
    (hk : Gl450.recordable (s.commands c).kind = true)
    (he : Gl450._renoir_gl450_command_execute fuel s c = some s') :
    Gl450.links (Gl450._renoir_gl450_command_free s' c) = (Gl450.links s).consume [c] ∧
    (Gl450._renoir_gl450_command_free s' c).commands = s.commands ∧
    (Gl450._renoir_gl450_command_free s' c).settings = s.settings ∧
    (Gl450._renoir_gl450_command_free s' c).handle_pool = s.handle_pool := by
  obtain ⟨h1, h2⟩ := gl450_execute_recordable fuel s s' c hk he
  obtain ⟨f1, _, _, _, f5, f7, _, _⟩ := gl450_command_free_frame s' c
  obtain ⟨a1, _, _, _, a5, a7, _⟩ := h1
  refine ⟨?_, f1.trans a1, f7.trans a7, f5.trans a5⟩
  rw [gl450_links_command_free, gl450_links_of_same_lists ⟨a1, ‹_›, ‹_›, ‹_›, a5, a7, ‹_›⟩ _ h2]
  rfl

/-- The drain loop on a well-linked list of records of the pass functions: the records are
executed and freed in list order. -/
theorem gl450_drain_in_order :
    ∀ (l : List Nat) (fuel f : Nat) (s : Gl450.IRenoir) (p : Ptr),
      chain (fun a => (s.commands a).next) p l → l.length ≤ fuel →
      (∀ x ∈ l, Gl450.recordable (s.commands x).kind = true) →
      Gl450.drain fuel s p = Gl450.execute_in_order f s l := by
  intro l
  induction l with
  | nil =>
    intro fuel f s p hc _ _
    have hp : p = none := hc
    subst hp
    cases fuel <;> rfl
  | cons x l ih =>
    intro fuel f s p hc hl hk
    obtain ⟨hp, hc⟩ := hc
    subst hp
    cases fuel with
    | zero => exact absurd hl (by simp)
    | succ fuel =>
      have hx := hk x (List.mem_cons_self _ _)
      show (match Gl450._renoir_gl450_command_execute fuel s x with
        | none => none
        | some s1 => Gl450.drain fuel (Gl450._renoir_gl450_command_free s1 x)
            (((Gl450._renoir_gl450_command_free s1 x).commands x).next))
        = (match Gl450._renoir_gl450_command_execute f s x with
        | none => none
        | some s1 => Gl450.execute_in_order f (Gl450._renoir_gl450_command_free s1 x) l)
      rw [gl450_execute_fuel fuel f s x hx]
      cases he : Gl450._renoir_gl450_command_execute f s x with
      | none => rfl
      | some s1 =>
        obtain ⟨_, hcm, _⟩ := gl450_links_execute_free f s s1 x hx he
        show Gl450.drain fuel _ _ = Gl450.execute_in_order f _ l
        apply ih
        · rw [hcm]; exact hc
        · exact Nat.le_of_succ_le_succ hl
        · intro y hy; rw [hcm]; exact hk y (List.mem_cons_of_mem _ hy)

/-- In-order execution of records of the pass functions, on the linkage. -/
theorem gl450_links_execute_in_order (f : Nat) :
    ∀ (l : List Nat) (s s' : Gl450.IRenoir),
      (∀ x ∈ l, Gl450.recordable (s.commands x).kind = true) →
      Gl450.execute_in_order f s l = some s' →
      Gl450.links s' = (Gl450.links s).consume l ∧ s'.commands = s.commands ∧
      s'.settings = s.settings ∧ s'.handle_pool = s.handle_pool := by
  intro l
  induction l with
  | nil =>
    intro s s' _ he
    simp only [Gl450.execute_in_order, Option.some.injEq] at he
    subst he
    refine ⟨?_, rfl, rfl, rfl⟩
    simp [Links.consume]
  | cons x l ih =>
    intro s s' hk he
    have hx := hk x (List.mem_cons_self _ _)
    simp only [Gl450.execute_in_order] at he
    cases h1 : Gl450._renoir_gl450_command_execute f s x with
    | none => rw [h1] at he; exact absurd he (by simp)
    | some s1 =>
      rw [h1] at he
      simp only [] at he
      obtain ⟨e1, e2, e3, e4⟩ := gl450_links_execute_free f s s1 x hx h1
      obtain ⟨i1, i2, i3, i4⟩ := ih _ s' (by
        intro y hy; rw [e2]; exact hk y (List.mem_cons_of_mem _ hy)) he
      refine ⟨?_, i2.trans e2, i3.trans e3, i4.trans e4⟩
      rw [i1, e1, links_consume_consume]; rfl

theorem gl450_links_pass_end_pushed (s : Gl450.IRenoir) (h : Nat) :
    Gl450.links (Gl450.pass_end_pushed s h)
      = (Gl450.links s).record h (.RENOIR_COMMAND_KIND_PASS_END, some h) := by
  unfold Gl450.pass_end_pushed
  simp only []
  rw [gl450_links_record _ h _ _ (by simp) (by simp)]

theorem gl450_links_pass_list_reset (s : Gl450.IRenoir) (h : Nat) :
    Gl450.links (Gl450.pass_list_reset s h) = (Gl450.links s).reset h :=
  gl450_links_reset s h

/-- The splice of `pass_end` in deferred mode, on the linkage. -/
theorem gl450_links_splice (s : Gl450.IRenoir) (h : Nat) :
    ∃ s', (match s.command_list_tail with
        | none =>
          some { s with command_list_head := (s.handles h).pass.command_list_head,
                        command_list_tail := (s.handles h).pass.command_list_tail }
        | some tail =>
          some { s with
                 commands := write s.commands tail
                   { s.commands tail with next := (s.handles h).pass.command_list_head },
                 command_list_tail := (s.handles h).pass.command_list_tail }) = some s' ∧
      Gl450.links s' = (Gl450.links s).splice h ∧ s'.trace = s.trace ∧
      s'.settings = s.settings ∧ s'.handle_pool = s.handle_pool := by
  cases ht : s.command_list_tail with
  | none =>
    refine ⟨_, rfl, ?_, rfl, rfl, rfl⟩
    apply links_ext <;> intros <;> simp [Gl450.links, Links.splice, ht]
  | some t =>
    refine ⟨_, rfl, ?_, rfl, rfl, rfl⟩
    apply links_ext <;> intros <;>
      simp only [Gl450.links, Links.splice, ht, write_apply] <;>
      first | rfl | (split <;> simp_all)

/-- The function `pass_end` unfolded into its three parts. -/
theorem gl450_pass_end_eq (fuel : Nat) (s : Gl450.IRenoir) (h : Nat) :
    Gl450._renoir_gl450_pass_end fuel s h =
      (if (s.handles h).pass.command_list_head ≠ none then
        if s.settings.defer_api_calls then
          match (Gl450.pass_end_pushed s h).command_list_tail with
          | none =>
            some { Gl450.pass_end_pushed s h with
              command_list_head :=
                ((Gl450.pass_end_pushed s h).handles h).pass.command_list_head,
              command_list_tail :=
                ((Gl450.pass_end_pushed s h).handles h).pass.command_list_tail }
          | some tail =>
            some { Gl450.pass_end_pushed s h with
              commands := write (Gl450.pass_end_pushed s h).commands tail
                { (Gl450.pass_end_pushed s h).commands tail with
                  next := ((Gl450.pass_end_pushed s h).handles h).pass.command_list_head },
              command_list_tail :=
                ((Gl450.pass_end_pushed s h).handles h).pass.command_list_tail }
        else Gl450.drain fuel (Gl450.pass_end_pushed s h)
          ((Gl450.pass_end_pushed s h).handles h).pass.command_list_head
      else some s).map (fun s => Gl450.pass_list_reset s h) := rfl

/-- In deferred mode `pass_end` returns, and acts on the linkage as `pass_end_deferred`;
nothing is added to the trace. -/
theorem gl450_pass_end_deferred (fuel : Nat) (s : Gl450.IRenoir) (h : Nat)
    (hd : s.settings.defer_api_calls = true) :
    ∃ s', Gl450._renoir_gl450_pass_end fuel s h = some s' ∧
      Gl450.links s' = (Gl450.links s).pass_end_deferred h (.RENOIR_COMMAND_KIND_PASS_END, some h) ∧
      s'.trace = s.trace ∧ s'.settings = s.settings ∧ s'.handle_pool = s.handle_pool := by
  rw [gl450_pass_end_eq]
  by_cases hne : (s.handles h).pass.command_list_head = none
  · refine ⟨Gl450.pass_list_reset s h, by simp [hne], ?_, rfl, rfl, rfl⟩
    rw [gl450_links_pass_list_reset]
    have : (Gl450.links s).phead h = none := hne
    simp [Links.pass_end_deferred, this]
  · have hd1 : (Gl450.pass_end_pushed s h).settings.defer_api_calls = true := hd
    obtain ⟨s2, e2, l2, t2, a2, b2⟩ := gl450_links_splice (Gl450.pass_end_pushed s h) h
    refine ⟨Gl450.pass_list_reset s2 h, ?_, ?_, ?_, ?_, ?_⟩
    · rw [if_pos hne, if_pos hd, e2]; rfl
    · rw [gl450_links_pass_list_reset, l2, gl450_links_pass_end_pushed]
      have : (Gl450.links s).phead h ≠ none := hne
      simp [Links.pass_end_deferred, this]
    · show s2.trace = s.trace
      rw [t2]; rfl
    · show s2.settings = s.settings
      rw [a2]; rfl
    · show s2.handle_pool = s.handle_pool
      rw [b2]; rfl

/-- The drain loop on a well-linked list of records of the pass functions, when it
returns, has executed and freed the records in list order. -/
theorem gl450_drain_some :
    ∀ (l : List Nat) (fuel f : Nat) (s s' : Gl450.IRenoir) (p : Ptr),
      chain (fun a => (s.commands a).next) p l →
      (∀ x ∈ l, Gl450.recordable (s.commands x).kind = true) →
      Gl450.drain fuel s p = some s' → Gl450.execute_in_order f s l = some s' := by
  intro l
  induction l with
  | nil =>
    intro fuel f s s' p hc _ hd
    have hp : p = none := hc
    subst hp
    cases fuel <;> exact hd
  | cons x l ih =>
    intro fuel f s s' p hc hk hd
    obtain ⟨hp, hc⟩ := hc
    subst hp
    cases fuel with
    | zero => exact absurd hd (by simp [Gl450.drain])
    | succ fuel =>
      have hx := hk x (List.mem_cons_self _ _)
      have hd : (match Gl450._renoir_gl450_command_execute fuel s x with
        | none => none
        | some s1 => Gl450.drain fuel (Gl450._renoir_gl450_command_free s1 x)
            (((Gl450._renoir_gl450_command_free s1 x).commands x).next)) = some s' := hd
      show (match Gl450._renoir_gl450_command_execute f s x with
        | none => none
        | some s1 => Gl450.execute_in_order f (Gl450._renoir_gl450_command_free s1 x) l) = some s'
      rw [gl450_execute_fuel fuel f s x hx] at hd
      cases he : Gl450._renoir_gl450_command_execute f s x with
      | none => rw [he] at hd; exact absurd hd (by simp)
      | some s1 =>
        rw [he] at hd
        obtain ⟨_, hcm, _⟩ := gl450_links_execute_free f s s1 x hx he
        show Gl450.execute_in_order f _ l = some s'
        apply ih fuel f _ s' _ _ _ hd
        · rw [hcm]; exact hc
        · intro y hy; rw [hcm]; exact hk y (List.mem_cons_of_mem _ hy)

/-- In immediate mode `pass_end`, when it returns, acts on the linkage as
`pass_end_immediate`. -/
theorem gl450_pass_end_immediate (fuel : Nat) (s s' : Gl450.IRenoir) (h : Nat)
    {D hs : List Nat} {priv : Nat → List Nat}
    (w : (Gl450.links s).WF D hs priv) (hh : h ∈ hs)
    (hk : ∀ x ∈ priv h, Gl450.recordable (s.commands x).kind = true)
    (hd : s.settings.defer_api_calls = false)
    (he : Gl450._renoir_gl450_pass_end fuel s h = some s') :
    Gl450.links s' = (Gl450.links s).pass_end_immediate h (.RENOIR_COMMAND_KIND_PASS_END, some h)
        (priv h ++ [((Gl450.links s).new (.RENOIR_COMMAND_KIND_PASS_END, some h)).1]) ∧
      s'.settings = s.settings ∧ s'.handle_pool = s.handle_pool := by
  rw [gl450_pass_end_eq] at he
  by_cases hne : (s.handles h).pass.command_list_head = none
  · simp only [hne, ne_eq, not_true_eq_false, if_false, Option.map_some',
      Option.some.injEq] at he
    subst he
    refine ⟨?_, rfl, rfl⟩
    rw [gl450_links_pass_list_reset]
    have : (Gl450.links s).phead h = none := hne
    simp [Links.pass_end_immediate, this]
  · rw [if_pos hne, if_neg (by simp [hd])] at he
    simp only [Option.map_eq_some'] at he
    obtain ⟨s2, hdr, rfl⟩ := he
    have w1 := w.record hh (.RENOIR_COMMAND_KIND_PASS_END, some h)
    rw [← gl450_links_pass_end_pushed] at w1
    have hc := w1.pr h hh
    rw [write_same] at hc
    have hkinds : ∀ x ∈ priv h ++ [((Gl450.links s).new (.RENOIR_COMMAND_KIND_PASS_END, some h)).1],
        Gl450.recordable ((Gl450.pass_end_pushed s h).commands x).kind = true := by
      intro x hx
      have hl : ((Gl450.links (Gl450.pass_end_pushed s h)).label x).1
          = ((Gl450.pass_end_pushed s h).commands x).kind := rfl
      rw [← hl, gl450_links_pass_end_pushed, Links.record_label, write_apply]
      split
      · rfl
      · rcases List.mem_append.1 hx with hx | hx
        · exact hk x hx
        · simp only [List.mem_singleton] at hx
          contradiction
    have hio := gl450_drain_some _ fuel 0 _ s2 _ hc hkinds hdr
    obtain ⟨i1, _, i3, i4⟩ := gl450_links_execute_in_order 0 _ _ s2 hkinds hio
    refine ⟨?_, i3, i4⟩
    rw [gl450_links_pass_list_reset, i1, gl450_links_pass_end_pushed]
    have : (Gl450.links s).phead h ≠ none := hne
    simp [Links.pass_end_immediate, this]

/-- A step of the model that the context follows keeps the invariant. -/
theorem gl450_inv_step {s s' : Gl450.IRenoir} {M : Model (Gl450.RENOIR_COMMAND_KIND × Ptr)}
    {hs : List Nat} (hinv : Gl450.Inv s M hs) (st : Step (Gl450.RENOIR_COMMAND_KIND × Ptr))
    (ok : st.ok hs)
    (hb : ∀ r k, st = .pass_begin r k → Gl450.recordable k.1 = true)
    (hr : ∀ r k, st = .record r k → Gl450.recordable k.1 = true)
    (hl : Gl450.links s' = (M.step st).links) :
    Gl450.Inv s' (M.step st) hs := by
  obtain ⟨_, w, h4⟩ := hinv
  refine ⟨hl, w.step st ok, ?_⟩
  intro h hh x hx
  have stable : x ∈ M.priv h → Gl450.recordable ((M.step st).links.label x).1 = true := by
    intro hx
    rw [w.step_label_priv st hh hx]
    exact h4 h hh x hx
  cases st with
  | reset r =>
    rcases Links.mem_write_priv hx with ⟨_, hx⟩ | ⟨_, hx⟩
    · exact absurd hx (List.not_mem_nil _)
    · exact stable hx
  | device k => exact stable hx
  | immediate k => exact stable hx
  | pass_begin r k =>
    rcases Links.mem_write_priv hx with ⟨_, hx⟩ | ⟨_, hx⟩
    · simp only [List.mem_singleton] at hx
      subst hx
      show Gl450.recordable ((M.links.pass_begin r k).label _).1 = true
      rw [Links.pass_begin_label, Links.new_fst_reset, write_same]
      exact hb r k rfl
    · exact stable hx
  | record r k =>
    rcases Links.mem_write_priv hx with ⟨e, hx⟩ | ⟨_, hx⟩
    · rcases List.mem_append.1 hx with hx | hx
      · subst e; exact stable hx
      · simp only [List.mem_singleton] at hx
        subst hx
        show Gl450.recordable ((M.links.record r k).label _).1 = true
        rw [Links.record_label, write_same]
        exact hr r k rfl
    · exact stable hx
  | pass_end_deferred r k =>
    rcases Links.mem_write_priv hx with ⟨_, hx⟩ | ⟨_, hx⟩
    · exact absurd hx (List.not_mem_nil _)
    · exact stable hx
  | pass_end_immediate r k =>
    rcases Links.mem_write_priv hx with ⟨_, hx⟩ | ⟨_, hx⟩
    · exact absurd hx (List.not_mem_nil _)
    · exact stable hx

/-- The linkage does not see the heap, the native objects, or trace entries other than
executions. -/
theorem gl450_links_congr {s s' : Gl450.IRenoir} (h1 : s'.commands = s.commands)
    (h2 : s'.command_pool = s.command_pool) (h3 : s'.command_list_head = s.command_list_head)
    (h4 : s'.command_list_tail = s.command_list_tail) (h5 : s'.handles = s.handles)
    (h6 : Gl450.executed s'.trace = Gl450.executed s.trace) : Gl450.links s' = Gl450.links s := by
  apply links_ext <;> intros <;> simp [Gl450.links, h1, h2, h3, h4, h5, h6]

/-- A recording call of the plain shape `command_new`, stores into the record,
`command_push` on the private list. -/
theorem gl450_record_refines {s : Gl450.IRenoir} {M : Model (Gl450.RENOIR_COMMAND_KIND × Ptr)}
    {hs : List Nat} (hinv : Gl450.Inv s M hs) {h : Nat} (hh : h ∈ hs)
    (k : Gl450.RENOIR_COMMAND_KIND) (hk : Gl450.recordable k = true) (p : Ptr)
    (s' : Gl450.IRenoir) (hl : Gl450.links s' = (Gl450.links s).record h (k, p)) :
    Gl450.Inv s' (M.step (.record h (k, p))) hs := by
  refine gl450_inv_step hinv _ hh (fun _ _ e => by cases e) (fun _ _ e => by cases e; exact hk)
    ?_
  rw [hl, hinv.1]; rfl

theorem gl450_links_buffer_write (s s' : Gl450.IRenoir) (h : Nat) (buffer : Ptr) (offset : Nat)
    (bytes : Ptr) (bytes_size : Nat)
    (he : Gl450._renoir_gl450_buffer_write s h buffer offset bytes bytes_size = some s') :
    Gl450.links s' = (Gl450.links s).record h (.RENOIR_COMMAND_KIND_BUFFER_WRITE, buffer) ∧
    s'.settings = s.settings ∧ Gl450.executed s'.trace = Gl450.executed s.trace := by
  unfold Gl450._renoir_gl450_buffer_write at he
  simp only [Option.map_eq_some'] at he
  obtain ⟨s3, hm, rfl⟩ := he
  have key : s3.commands = write s.commands (pool_get s.command_pool).1
        { kind := .RENOIR_COMMAND_KIND_BUFFER_WRITE, handle := buffer,
          args := [(offset : Int)], bytes := ⟨some s.heap_fresh, bytes_size⟩ } ∧
      s3.command_pool = (pool_get s.command_pool).2 ∧
      s3.command_list_head = s.command_list_head ∧
      s3.command_list_tail = s.command_list_tail ∧ s3.handles = s.handles ∧
      s3.settings = s.settings ∧ Gl450.executed s3.trace = Gl450.executed s.trace := by
    unfold Gl450.memcpy at hm
    split at hm
    · simp only [Option.some.injEq] at hm
      subst hm
      refine ⟨?_, rfl, rfl, rfl, rfl, rfl, ?_⟩
      · simp [Gl450.set_command, Gl450.mn_alloc, Gl450._renoir_gl450_command_new, write_write]
      · show Gl450.executed (s.trace ++ [_]) = _
        simp [Gl450.executed, List.filterMap_append]
    · split at hm
      · simp only [Option.some.injEq] at hm
        subst hm
        refine ⟨?_, rfl, rfl, rfl, rfl, rfl, ?_⟩
        · simp [Gl450.set_command, Gl450.mn_alloc, Gl450._renoir_gl450_command_new,
            write_write]
        · show Gl450.executed (s.trace ++ [_]) = _
          simp [Gl450.executed, List.filterMap_append]
      · exact absurd hm (by simp)
  obtain ⟨k1, k2, k3, k4, k5, k6, k7⟩ := key
  refine ⟨?_, k6, k7⟩
  rw [gl450_links_push_pass]
  rw [← gl450_links_record s h .RENOIR_COMMAND_KIND_BUFFER_WRITE
    { kind := .RENOIR_COMMAND_KIND_BUFFER_WRITE, handle := buffer } rfl rfl,
    gl450_links_push_pass]
  congr 1
  apply links_ext <;> intros <;>
    simp only [Gl450.links, k1, k2, k3, k4, k5, k7, Gl450.set_command,
      Gl450._renoir_gl450_command_new, write_apply] <;>
    first | rfl | (split <;> simp_all)

theorem gl450_links_texture_write (s s' : Gl450.IRenoir) (h : Nat) (texture : Ptr)
    (desc : Renoir_Texture_Edit_Desc)
    (he : Gl450._renoir_gl450_texture_write s h texture desc = some s') :
    Gl450.links s' = (Gl450.links s).record h (.RENOIR_COMMAND_KIND_TEXTURE_WRITE, texture) ∧
    s'.settings = s.settings ∧ Gl450.executed s'.trace = Gl450.executed s.trace := by
  unfold Gl450._renoir_gl450_texture_write at he
  simp only [Option.map_eq_some'] at he
  obtain ⟨s3, hm, rfl⟩ := he
  have key : s3.commands = write s.commands (pool_get s.command_pool).1
        { kind := .RENOIR_COMMAND_KIND_TEXTURE_WRITE, handle := texture,
          args := [desc.x, desc.y, desc.z, desc.width, desc.height, desc.depth],
          bytes := ⟨some s.heap_fresh, desc.bytes_size⟩ } ∧
      s3.command_pool = (pool_get s.command_pool).2 ∧
      s3.command_list_head = s.command_list_head ∧
      s3.command_list_tail = s.command_list_tail ∧ s3.handles = s.handles ∧
      s3.settings = s.settings ∧ Gl450.executed s3.trace = Gl450.executed s.trace := by
    unfold Gl450.memcpy at hm
    split at hm
    · simp only [Option.some.injEq] at hm
      subst hm
      refine ⟨?_, rfl, rfl, rfl, rfl, rfl, ?_⟩
      · simp [Gl450.set_command, Gl450.mn_alloc, Gl450._renoir_gl450_command_new, write_write]
      · show Gl450.executed (s.trace ++ [_]) = _
        simp [Gl450.executed, List.filterMap_append]
    · split at hm
      · simp only [Option.some.injEq] at hm
        subst hm
        refine ⟨?_, rfl, rfl, rfl, rfl, rfl, ?_⟩
        · simp [Gl450.set_command, Gl450.mn_alloc, Gl450._renoir_gl450_command_new,
            write_write]
        · show Gl450.executed (s.trace ++ [_]) = _
          simp [Gl450.executed, List.filterMap_append]
      · exact absurd hm (by simp)
  obtain ⟨k1, k2, k3, k4, k5, k6, k7⟩ := key
  refine ⟨?_, k6, k7⟩
  rw [gl450_links_push_pass]
  rw [← gl450_links_record s h .RENOIR_COMMAND_KIND_TEXTURE_WRITE
    { kind := .RENOIR_COMMAND_KIND_TEXTURE_WRITE, handle := texture } rfl rfl,
    gl450_links_push_pass]
  congr 1
  apply links_ext <;> intros <;>
    simp only [Gl450.links, k1, k2, k3, k4, k5, k7, Gl450.set_command,
      Gl450._renoir_gl450_command_new, write_apply] <;>
    first | rfl | (split <;> simp_all)

theorem gl450_links_clear (s : Gl450.IRenoir) (h : Nat) (desc : Renoir_Clear_Desc) :
    Gl450.links (Gl450._renoir_gl450_clear s h desc)
      = (Gl450.links s).record h (.RENOIR_COMMAND_KIND_PASS_CLEAR, none) := by
  unfold Gl450._renoir_gl450_clear
  simp only []
  rw [gl450_links_record _ h _ _ (by simp) (by simp)]
  simp

theorem gl450_links_use_pipeline (s : Gl450.IRenoir) (h : Nat) (pipeline : Ptr) :
    Gl450.links (Gl450._renoir_gl450_use_pipeline s h pipeline)
      = (Gl450.links s).record h (.RENOIR_COMMAND_KIND_USE_PIPELINE, pipeline) := by
  unfold Gl450._renoir_gl450_use_pipeline
  simp only []
  rw [gl450_links_record _ h _ _ (by simp) (by simp)]

theorem gl450_links_use_program (s : Gl450.IRenoir) (h : Nat) (program : Ptr) :
    Gl450.links (Gl450._renoir_gl450_use_program s h program)
      = (Gl450.links s).record h (.RENOIR_COMMAND_KIND_USE_PROGRAM, program) := by
  unfold Gl450._renoir_gl450_use_program
  simp only []
  rw [gl450_links_record _ h _ _ (by simp) (by simp)]

theorem gl450_links_scissor (s : Gl450.IRenoir) (h : Nat) (x y width height : Int) :
    Gl450.links (Gl450._renoir_gl450_scissor s h x y width height)
      = (Gl450.links s).record h (.RENOIR_COMMAND_KIND_SCISSOR, none) := by
  unfold Gl450._renoir_gl450_scissor
  simp only []
  rw [gl450_links_record _ h _ _ (by simp) (by simp)]
  simp

theorem gl450_links_buffer_bind (s : Gl450.IRenoir) (h : Nat) (buffer : Ptr) (shader slot : Int) :
    Gl450.links (Gl450._renoir_gl450_buffer_bind s h buffer shader slot)
      = (Gl450.links s).record h (.RENOIR_COMMAND_KIND_BUFFER_BIND, buffer) := by
  unfold Gl450._renoir_gl450_buffer_bind
  simp only []
  rw [gl450_links_record _ h _ _ (by simp) (by simp)]

theorem gl450_links_draw (s : Gl450.IRenoir) (h : Nat) (desc : Renoir_Draw_Desc) :
    Gl450.links (Gl450._renoir_gl450_draw s h desc)
      = (Gl450.links s).record h (.RENOIR_COMMAND_KIND_DRAW, none) := by
  unfold Gl450._renoir_gl450_draw
  simp only []
  rw [gl450_links_record _ h _ _ (by simp) (by simp)]
  simp

theorem gl450_links_texture_bind (s : Gl450.IRenoir) (h : Nat) (texture : Ptr)
    (shader slot : Int) :
    Gl450.links (Gl450._renoir_gl450_texture_bind s h texture shader slot)
      = (Gl450.links s).record h (.RENOIR_COMMAND_KIND_TEXTURE_BIND, texture) := by
  unfold Gl450._renoir_gl450_texture_bind
  simp only []
  rw [gl450_links_record _ h _ _ (by simp) (by simp)]

theorem gl450_links_sampler_bind (s : Gl450.IRenoir) (h : Nat) (sampler : Ptr)
    (shader slot : Int) :
    Gl450.links (Gl450._renoir_gl450_sampler_bind s h sampler shader slot)
      = (Gl450.links s).record h (.RENOIR_COMMAND_KIND_SAMPLER_BIND, sampler) := by
  unfold Gl450._renoir_gl450_sampler_bind
  simp only []
  rw [gl450_links_record _ h _ _ (by simp) (by simp)]

/-- Every call of the pass interface is a sequence of steps of the model: the step of the
call itself on the private list of its pass. -/
theorem gl450_pass_call_refines {s : Gl450.IRenoir} {M : Model (Gl450.RENOIR_COMMAND_KIND × Ptr)}
    {hs : List Nat} (hinv : Gl450.Inv s M hs) {h : Nat} (hh : h ∈ hs) (fuel : Nat)
    (call : Gl450.Pass_Call) (s' : Gl450.IRenoir) (he : Gl450.pass_call fuel s h call = some s') :
    ∃ pre, Gl450.Inv s' (M.run (pre ++ (call.step s.settings.defer_api_calls h).toList)) hs ∧
      (∀ st ∈ pre, st.ok hs ∧ ∀ p ∈ hs, st.pass ≠ some p) ∧ s'.settings = s.settings := by
  have nopre : ∀ st ∈ ([] : List (Step (Gl450.RENOIR_COMMAND_KIND × Ptr))),
      st.ok hs ∧ ∀ p ∈ hs, st.pass ≠ some p := fun _ h => absurd h (List.not_mem_nil _)
  cases call with
  | pass_begin =>
    simp only [Gl450.pass_call, Option.some.injEq] at he
    subst he
    refine ⟨[], ?_, nopre, rfl⟩
    show Gl450.Inv _ (M.step (.pass_begin h (.RENOIR_COMMAND_KIND_PASS_BEGIN, some h))) hs
    refine gl450_inv_step hinv _ hh (fun _ _ e => by cases e; rfl) (fun _ _ e => by cases e)
      ?_
    rw [gl450_links_pass_begin, hinv.1]; rfl
  | clear desc =>
    simp only [Gl450.pass_call, Option.some.injEq] at he
    subst he
    exact ⟨[], gl450_record_refines hinv hh _ (by rfl) _ _ (gl450_links_clear s h desc),
      nopre, rfl⟩
  | use_pipeline pipeline =>
    simp only [Gl450.pass_call, Option.some.injEq] at he
    subst he
    exact ⟨[], gl450_record_refines hinv hh _ (by rfl) _ _ (gl450_links_use_pipeline s h pipeline), nopre, rfl⟩
  | use_program program =>
    simp only [Gl450.pass_call, Option.some.injEq] at he
    subst he
    exact ⟨[], gl450_record_refines hinv hh _ (by rfl) _ _ (gl450_links_use_program s h program), nopre, rfl⟩
  | scissor x y width height =>
    simp only [Gl450.pass_call, Option.some.injEq] at he
    subst he
    exact ⟨[], gl450_record_refines hinv hh _ (by rfl) _ _ (gl450_links_scissor s h x y width height), nopre, rfl⟩
  | buffer_bind buffer shader slot =>
    simp only [Gl450.pass_call, Option.some.injEq] at he
    subst he
    exact ⟨[], gl450_record_refines hinv hh _ (by rfl) _ _
      (gl450_links_buffer_bind s h buffer shader slot), nopre, rfl⟩
  | draw desc =>
    simp only [Gl450.pass_call, Option.some.injEq] at he
    subst he
    exact ⟨[], gl450_record_refines hinv hh _ (by rfl) _ _ (gl450_links_draw s h desc),
      nopre, rfl⟩
  | buffer_write buffer offset bytes bytes_size =>
    simp only [Gl450.pass_call] at he
    obtain ⟨l1, l4, _⟩ := gl450_links_buffer_write s s' h buffer offset bytes bytes_size he
    exact ⟨[], gl450_record_refines hinv hh _ (by rfl) _ _ l1, nopre, l4⟩
  | texture_write texture desc =>
    simp only [Gl450.pass_call] at he
    obtain ⟨l1, l4, _⟩ := gl450_links_texture_write s s' h texture desc he
    exact ⟨[], gl450_record_refines hinv hh _ (by rfl) _ _ l1, nopre, l4⟩
  | texture_bind texture shader slot =>
    simp only [Gl450.pass_call, Option.some.injEq] at he
    subst he
    exact ⟨[], gl450_record_refines hinv hh _ (by rfl) _ _
      (gl450_links_texture_bind s h texture shader slot), nopre, rfl⟩
  | sampler_bind sampler shader slot =>
    simp only [Gl450.pass_call, Option.some.injEq] at he
    subst he
    exact ⟨[], gl450_record_refines hinv hh _ (by rfl) _ _
      (gl450_links_sampler_bind s h sampler shader slot), nopre, rfl⟩
  | pass_end =>
    simp only [Gl450.pass_call] at he
    by_cases hd : s.settings.defer_api_calls = true
    · obtain ⟨s2, e1, e2, _, e4, _⟩ := gl450_pass_end_deferred fuel s h hd
      rw [e1] at he
      simp only [Option.some.injEq] at he
      subst he
      refine ⟨[], ?_, nopre, e4⟩
      have hst : Gl450.Pass_Call.pass_end.step s.settings.defer_api_calls h
          = some (.pass_end_deferred h (.RENOIR_COMMAND_KIND_PASS_END, some h)) := by
        simp [Gl450.Pass_Call.step, hd]
      rw [hst]
      refine gl450_inv_step hinv
        (.pass_end_deferred h (.RENOIR_COMMAND_KIND_PASS_END, some h)) hh
        (fun _ _ e => by cases e) (fun _ _ e => by cases e) ?_
      rw [e2, hinv.1]; rfl
    · have hd : s.settings.defer_api_calls = false := by simpa using hd
      have w : (Gl450.links s).WF M.dev hs M.priv := by rw [hinv.1]; exact hinv.2.1
      have hk : ∀ x ∈ M.priv h, Gl450.recordable (s.commands x).kind = true := by
        intro x hx
        have := hinv.2.2 h hh x hx
        rw [← hinv.1] at this
        exact this
      obtain ⟨e2, e4, _⟩ := gl450_pass_end_immediate fuel s s' h w hh hk hd he
      refine ⟨[], ?_, nopre, e4⟩
      have hst : Gl450.Pass_Call.pass_end.step s.settings.defer_api_calls h
          = some (.pass_end_immediate h (.RENOIR_COMMAND_KIND_PASS_END, some h)) := by
        simp [Gl450.Pass_Call.step, hd]
      rw [hst]
      refine gl450_inv_step hinv
        (.pass_end_immediate h (.RENOIR_COMMAND_KIND_PASS_END, some h)) hh
        (fun _ _ e => by cases e) (fun _ _ e => by cases e) ?_
      rw [e2, hinv.1]; rfl

theorem gl450_step_pass (d : Bool) (h : Nat) (call : Gl450.Pass_Call)
    (st : Step (Gl450.RENOIR_COMMAND_KIND × Ptr)) (he : call.step d h = some st) :
    st.pass = some h := by
  cases call <;> simp only [Gl450.Pass_Call.step, Option.map_eq_some', Option.some.injEq] at he
  case pass_begin => subst he; rfl
  case pass_end =>
    split at he <;> simp only [Option.some.injEq] at he <;> subst he <;> rfl
  all_goals
    obtain ⟨_, _, rfl⟩ := he
    rfl

theorem gl450_step_recording (d : Bool) (h : Nat) (call : Gl450.Pass_Call)
    (hr : call.recording = true) : call.step d h = call.label.map (Step.record h) := by
  cases call <;> first | rfl | exact absurd hr (by decide)

theorem gl450_step_ok (d : Bool) {hs : List Nat} {h : Nat} (hh : h ∈ hs)
    (call : Gl450.Pass_Call) (st : Step (Gl450.RENOIR_COMMAND_KIND × Ptr))
    (he : call.step d h = some st) : st.ok hs := by
  refine step_ok_of_pass hh st (gl450_step_pass d h call st he) ?_
  intro r hr
  subst hr
  cases call <;> simp only [Gl450.Pass_Call.step, Option.map_eq_some', Option.some.injEq] at he
  case pass_end => split at he <;> simp at he
  all_goals
    first
    | (obtain ⟨_, _, h3⟩ := he; cases h3)
    | (obtain ⟨_, _, h3⟩ := he)

/-- A sequence of calls of the pass interface is a sequence of steps of the model; the
steps on the private list of a pass `p` are those of the calls on `p`, in order. -/
theorem gl450_pass_calls_refine {hs : List Nat} (fuel : Nat) :
    ∀ (script : List (Nat × Gl450.Pass_Call)) (s s' : Gl450.IRenoir)
      (M : Model (Gl450.RENOIR_COMMAND_KIND × Ptr)),
      Gl450.Inv s M hs → (∀ c ∈ script, c.1 ∈ hs) → Gl450.pass_calls fuel s script = some s' →
      ∃ steps, Gl450.Inv s' (M.run steps) hs ∧ (∀ st ∈ steps, st.ok hs) ∧
        s'.settings = s.settings ∧
        ∀ p ∈ hs, steps.filter (fun st => st.pass = some p)
          = (script.filter (fun c => c.1 = p)).filterMap
              (fun c => c.2.step s.settings.defer_api_calls p) := by
  intro script
  induction script with
  | nil =>
    intro s s' M hinv _ he
    simp only [Gl450.pass_calls, Option.some.injEq] at he
    subst he
    exact ⟨[], hinv, fun _ h => absurd h (List.not_mem_nil _), rfl, fun _ _ => rfl⟩
  | cons c rest ih =>
    intro s s' M hinv hmem he
    obtain ⟨h, call⟩ := c
    have hh : h ∈ hs := hmem (h, call) (List.mem_cons_self _ _)
    simp only [Gl450.pass_calls] at he
    cases h1 : Gl450.pass_call fuel s h call with
    | none => rw [h1] at he; exact absurd he (by simp)
    | some s1 =>
      rw [h1] at he
      simp only [] at he
      obtain ⟨pre, i1, i2, i3⟩ := gl450_pass_call_refines hinv hh fuel call s1 h1
      obtain ⟨steps, j1, j2, j3, j4⟩ := ih s1 s' _ i1
        (fun c hc => hmem c (List.mem_cons_of_mem _ hc)) he
      refine ⟨(pre ++ (call.step s.settings.defer_api_calls h).toList) ++ steps, ?_, ?_,
        j3.trans i3, ?_⟩
      · rw [model_run_append]; exact j1
      · intro st hst
        rcases List.mem_append.1 hst with hst | hst
        · rcases List.mem_append.1 hst with hst | hst
          · exact (i2 st hst).1
          · exact gl450_step_ok _ hh call st (by simpa [Option.mem_toList] using hst)
        · exact j2 st hst
      · intro p hp
        rw [List.filter_append, List.filter_append, filter_foreign hs p hp pre i2, j4 p hp, i3]
        by_cases e : h = p
        · subst e
          have : (call.step s.settings.defer_api_calls h).toList.filter
              (fun st => st.pass = some h) = (call.step s.settings.defer_api_calls h).toList := by
            rw [List.filter_eq_self]
            intro st hst
            simpa using gl450_step_pass _ h call st (by simpa [Option.mem_toList] using hst)
          rw [this]
          simp only [List.nil_append, List.filter_cons, decide_True, if_true,
            List.filterMap_cons]
          cases call.step s.settings.defer_api_calls h <;> rfl
        · have : (call.step s.settings.defer_api_calls h).toList.filter
              (fun st => st.pass = some p) = [] := by
            rw [List.filter_eq_nil_iff]
            intro st hst
            have := gl450_step_pass _ h call st (by simpa [Option.mem_toList] using hst)
            simp [this, e]
          rw [this]
          simp [List.filter_cons, e]

/-- The records of a context after `pass_begin`: one new `PASS_BEGIN` record, nothing else
is written. -/
theorem gl450_pass_begin_commands (s : Gl450.IRenoir) (h : Nat) :
    (Gl450._renoir_gl450_pass_begin s h).commands
      = write s.commands (pool_get s.command_pool).1
          { kind := .RENOIR_COMMAND_KIND_PASS_BEGIN, handle := some h } := by
  simp [Gl450._renoir_gl450_pass_begin, Gl450.command_push_pass, Gl450._renoir_gl450_command_push,
    Gl450.set_handle, Gl450.set_command, Gl450._renoir_gl450_command_new, write_write]

theorem gl450_pass_begin_pointers (s : Gl450.IRenoir) (h : Nat) :
    ((Gl450._renoir_gl450_pass_begin s h).handles h).pass.command_list_head
      = some (pool_get s.command_pool).1 ∧
    ((Gl450._renoir_gl450_pass_begin s h).handles h).pass.command_list_tail
      = some (pool_get s.command_pool).1 := by
  simp [Gl450._renoir_gl450_pass_begin, Gl450.command_push_pass, Gl450._renoir_gl450_command_push,
    Gl450.set_handle, Gl450.set_command, Gl450._renoir_gl450_command_new]

/-- The function `pass_begin`: the private list of `h` becomes the one new record, whatever
it was; the device-wide list `D` and the trace are unchanged. -/
theorem gl450_pass_begin_spec (s : Gl450.IRenoir) (h : Nat) (D : List Nat)
    (priv : Nat → List Nat) (w : (Gl450.links s).WF D [] priv) :
    Gl450.list_records (Gl450._renoir_gl450_pass_begin s h).commands 1
        ((Gl450._renoir_gl450_pass_begin s h).handles h).pass.command_list_head
      = some [(pool_get s.command_pool).1] ∧
    ((Gl450._renoir_gl450_pass_begin s h).handles h).pass.command_list_tail
      = some (pool_get s.command_pool).1 ∧
    (Gl450._renoir_gl450_pass_begin s h).commands (pool_get s.command_pool).1
      = { kind := .RENOIR_COMMAND_KIND_PASS_BEGIN, handle := some h } ∧
    Gl450.list_records (Gl450._renoir_gl450_pass_begin s h).commands D.length
        (Gl450._renoir_gl450_pass_begin s h).command_list_head = some D ∧
    (Gl450._renoir_gl450_pass_begin s h).command_list_head = s.command_list_head ∧
    (Gl450._renoir_gl450_pass_begin s h).command_list_tail = s.command_list_tail ∧
    (∀ x ∈ D, (Gl450._renoir_gl450_pass_begin s h).commands x = s.commands x) ∧
    (Gl450._renoir_gl450_pass_begin s h).trace = s.trace := by
  have hp := gl450_pass_begin_pointers s h
  have hc := gl450_pass_begin_commands s h
  have w1 := w.pass_begin_add h (.RENOIR_COMMAND_KIND_PASS_BEGIN, some h)
  rw [← gl450_links_pass_begin] at w1
  have hnew := (w.new (.RENOIR_COMMAND_KIND_PASS_BEGIN, some h)).2.1
  refine ⟨?_, hp.2, ?_, gl450_wf_device w1, rfl, rfl, ?_, rfl⟩
  · rw [hp.1, hc]
    simp [Gl450.list_records]
  · rw [hc, write_same]
  · intro x hx
    rw [hc, write_apply, if_neg]
    intro e
    exact hnew (e ▸ hx)

/-- The function `pass_end` in deferred mode on a pass with a non-empty private list `P`:
the device-wide list `D` becomes `D ++ P ++ [e]` with `e` a new `PASS_END` record, the
records of `D` and `P` keep their kind and handle, and the trace is unchanged. -/
theorem gl450_pass_end_deferred_spec (fuel : Nat) (s : Gl450.IRenoir) (h : Nat)
    (D hs : List Nat) (priv : Nat → List Nat) (w : (Gl450.links s).WF D hs priv)
    (hh : h ∈ hs) (hne : priv h ≠ []) (hd : s.settings.defer_api_calls = true) :
    ∃ s', Gl450._renoir_gl450_pass_end fuel s h = some s' ∧
      Gl450.list_records s'.commands (D ++ priv h ++ [(pool_get s.command_pool).1]).length
        s'.command_list_head = some (D ++ priv h ++ [(pool_get s.command_pool).1]) ∧
      (s'.commands (pool_get s.command_pool).1).kind = .RENOIR_COMMAND_KIND_PASS_END ∧
      (s'.commands (pool_get s.command_pool).1).handle = some h ∧
      (∀ x ∈ D ++ priv h, (s'.commands x).kind = (s.commands x).kind ∧
        (s'.commands x).handle = (s.commands x).handle) ∧
      s'.trace = s.trace ∧
      (s'.handles h).pass.command_list_head = none ∧
      (s'.handles h).pass.command_list_tail = none := by
  obtain ⟨s', e1, e2, e3, _, _⟩ := gl450_pass_end_deferred fuel s h hd
  have w1 := w.pass_end_deferred hh (.RENOIR_COMMAND_KIND_PASS_END, some h)
  rw [if_neg hne, ← e2, ← List.append_assoc] at w1
  have hph : (Gl450.links s).phead h ≠ none := fun e => hne ((w.phead_eq_none_iff hh).1 e)
  have hlab : (Gl450.links s').label
      = write (Gl450.links s).label (pool_get s.command_pool).1
          (.RENOIR_COMMAND_KIND_PASS_END, some h) := by
    rw [e2]
    unfold Links.pass_end_deferred
    rw [if_pos hph]
    show (Links.splice ((Gl450.links s).record h _) h).label = _
    rw [Links.splice_label, Links.record_label]
    rfl
  have hnew := w.new (.RENOIR_COMMAND_KIND_PASS_END, some h)
  have hl : ∀ x, ((s'.commands x).kind, (s'.commands x).handle)
      = write (Gl450.links s).label (pool_get s.command_pool).1
          (.RENOIR_COMMAND_KIND_PASS_END, some h) x := fun x => congrFun hlab x
  refine ⟨s', e1, gl450_wf_device w1, ?_, ?_, ?_, e3, ?_, ?_⟩
  · have := hl (pool_get s.command_pool).1
    rw [write_same] at this
    exact (Prod.mk.inj this).1
  · have := hl (pool_get s.command_pool).1
    rw [write_same] at this
    exact (Prod.mk.inj this).2
  · intro x hx
    have hxe : x ≠ (pool_get s.command_pool).1 := by
      intro e
      rcases List.mem_append.1 hx with hx | hx
      · exact hnew.2.1 (e ▸ hx)
      · exact hnew.2.2.1 h hh (e ▸ hx)
    have := hl x
    rw [write_apply, if_neg hxe] at this
    exact Prod.mk.inj this
  · have := (w1.phead_eq_none_iff hh).2 (write_same _ _ _)
    exact this
  · have := w1.pr_tail h hh
    rw [write_same] at this
    exact this

/-- After `pass_end` the private list pointers of the pass are null, in both modes. -/
theorem gl450_pass_end_pointers (fuel : Nat) (s s' : Gl450.IRenoir) (h : Nat)
    (he : Gl450._renoir_gl450_pass_end fuel s h = some s') :
    (s'.handles h).pass.command_list_head = none ∧
    (s'.handles h).pass.command_list_tail = none := by
  rw [gl450_pass_end_eq] at he
  simp only [Option.map_eq_some'] at he
  obtain ⟨s2, _, rfl⟩ := he
  simp [Gl450.pass_list_reset, Gl450.set_handle]

/-- The private list of `h` once the `PASS_END` record is pushed: a well-linked list of
records of the pass functions. -/
theorem gl450_pass_end_pushed_chain (s : Gl450.IRenoir) (h : Nat)
    {D hs : List Nat} {priv : Nat → List Nat}
    (w : (Gl450.links s).WF D hs priv) (hh : h ∈ hs)
    (hk : ∀ x ∈ priv h, Gl450.recordable (s.commands x).kind = true) :
    chain (fun a => ((Gl450.pass_end_pushed s h).commands a).next)
      ((Gl450.pass_end_pushed s h).handles h).pass.command_list_head
      (priv h ++ [(pool_get s.command_pool).1]) ∧
    ∀ x ∈ priv h ++ [(pool_get s.command_pool).1],
      Gl450.recordable ((Gl450.pass_end_pushed s h).commands x).kind = true := by
  have w1 := w.record hh (.RENOIR_COMMAND_KIND_PASS_END, some h)
  rw [← gl450_links_pass_end_pushed] at w1
  have hc := w1.pr h hh
  rw [write_same] at hc
  refine ⟨hc, ?_⟩
  intro x hx
  have hl : ((Gl450.links (Gl450.pass_end_pushed s h)).label x).1
      = ((Gl450.pass_end_pushed s h).commands x).kind := rfl
  rw [← hl, gl450_links_pass_end_pushed, Links.record_label, write_apply]
  split
  · rfl
  · rcases List.mem_append.1 hx with hx | hx
    · exact hk x hx
    · simp only [List.mem_singleton] at hx
      contradiction

/-- The function `pass_end` in immediate mode on a pass with a non-empty private list `P`:
with enough fuel it is the in-order execution of `P` followed by the new `PASS_END` record
`e`; when it returns, the log has grown by exactly these records, their blocks are back in
the command pool, and the device-wide list `D` is unchanged. -/
theorem gl450_pass_end_immediate_spec (fuel : Nat) (s : Gl450.IRenoir) (h : Nat)
    (D hs : List Nat) (priv : Nat → List Nat) (w : (Gl450.links s).WF D hs priv)
    (hh : h ∈ hs) (hne : priv h ≠ [])
    (hk : ∀ x ∈ priv h, Gl450.recordable (s.commands x).kind = true)
    (hd : s.settings.defer_api_calls = false) (hf : (priv h).length + 1 ≤ fuel) :
    Gl450._renoir_gl450_pass_end fuel s h
      = (Gl450.execute_in_order fuel (Gl450.pass_end_pushed s h)
          (priv h ++ [(pool_get s.command_pool).1])).map
            (fun s => Gl450.pass_list_reset s h) ∧
    ∀ s', Gl450._renoir_gl450_pass_end fuel s h = some s' →
      (Gl450.executed s'.trace).map (fun r => (r.1, r.2.kind, r.2.handle))
        = (Gl450.executed s.trace).map (fun r => (r.1, r.2.kind, r.2.handle)) ++
          ((priv h).map (fun x => (x, (s.commands x).kind, (s.commands x).handle)) ++
            [((pool_get s.command_pool).1, .RENOIR_COMMAND_KIND_PASS_END, some h)]) ∧
      s'.command_pool.free
        = (pool_get s.command_pool).1 ::
            ((priv h).reverse ++ (pool_get s.command_pool).2.free) ∧
      Gl450.list_records s'.commands D.length s'.command_list_head = some D ∧
      s'.command_list_head = s.command_list_head ∧
      s'.command_list_tail = s.command_list_tail ∧
      (s'.handles h).pass.command_list_head = none ∧
      (s'.handles h).pass.command_list_tail = none := by
  have hph : (s.handles h).pass.command_list_head ≠ none :=
    fun e => hne ((w.phead_eq_none_iff hh).1 e)
  obtain ⟨hc, hkinds⟩ := gl450_pass_end_pushed_chain s h w hh hk
  constructor
  · rw [gl450_pass_end_eq, if_pos hph, if_neg (by simp [hd])]
    rw [gl450_drain_in_order _ fuel fuel _ _ hc (by simpa using hf) hkinds]
  · intro s' he
    obtain ⟨e2, _, _⟩ := gl450_pass_end_immediate fuel s s' h w hh hk hd he
    have w1 := w.pass_end_immediate hh (.RENOIR_COMMAND_KIND_PASS_END, some h)
    rw [← e2] at w1
    have hnew := w.new (.RENOIR_COMMAND_KIND_PASS_END, some h)
    have hph1 : (Gl450.links s).phead h ≠ none := hph
    have hlog := congrArg Links.log e2
    rw [Links.pass_end_immediate_log, if_pos hph1] at hlog
    have hpool := congrArg Links.pool e2
    have hhead := congrArg Links.head e2
    have htail := congrArg Links.tail e2
    rw [(links_pass_end_immediate_head _ _ _ _).1] at hhead
    rw [(links_pass_end_immediate_head _ _ _ _).2] at htail
    obtain ⟨p1, p2⟩ := gl450_pass_end_pointers fuel s s' h he
    refine ⟨?_, ?_, gl450_wf_device w1, hhead, htail, p1, p2⟩
    · refine (hlog.trans ?_)
      show (Gl450.links s).log ++ _ = (Gl450.links s).log ++ _
      congr 1
      rw [List.map_append, List.map_singleton, write_same]
      congr 1
      refine List.map_congr_left (fun x hx => ?_)
      rw [write_apply,
        if_neg (fun e : x = ((Gl450.links s).new _).1 => hnew.2.2.1 h hh (e ▸ hx))]
      rfl
    · have : s'.command_pool = (Gl450.links s').pool := rfl
      rw [this, hpool]
      unfold Links.pass_end_immediate
      rw [if_pos hph1]
      show ((priv h ++ [_]).foldl pool_put _).free = _
      rw [(pool_put_foldl_free _ _).1]
      simp [Links.record, Links.new]
      exact ⟨rfl, rfl⟩

theorem gl450_cycle_steps (d : Bool) (p : Nat) (calls : List Gl450.Pass_Call)
    (hrec : ∀ c ∈ calls, c.recording = true) :
    (Gl450.Pass_Call.pass_begin :: (calls ++ [Gl450.Pass_Call.pass_end])).filterMap
        (fun c => c.step d p)
      = Step.pass_begin p (.RENOIR_COMMAND_KIND_PASS_BEGIN, some p) ::
          ((calls.filterMap Gl450.Pass_Call.label).map (Step.record p) ++
            [if d then Step.pass_end_deferred p (.RENOIR_COMMAND_KIND_PASS_END, some p)
              else Step.pass_end_immediate p (.RENOIR_COMMAND_KIND_PASS_END, some p)]) := by
  have h1 : calls.filterMap (fun c => c.step d p)
      = (calls.filterMap Gl450.Pass_Call.label).map (Step.record p) := by
    rw [List.map_filterMap]
    refine List.filterMap_congr (fun c hc => ?_)
    rw [gl450_step_recording d p c (hrec c hc)]
  rw [List.filterMap_cons_some (by rfl : Gl450.Pass_Call.pass_begin.step d p = some _),
    List.filterMap_append, h1]
  congr 2
  cases d <;> rfl

/-- Pass isolation on the GL backend: in any sequence of calls on the passes `hs` in
which the calls on `p` are one cycle `pass_begin`, recording calls, `pass_end`, the records
of that cycle form one contiguous block `B`, in recording order, of the device-wide list
(deferred mode) or of the executed records (immediate mode). -/
theorem gl450_pass_isolation (fuel : Nat) (s : Gl450.IRenoir) (D hs : List Nat)
    (priv : Nat → List Nat) (hinv : Gl450.Inv s ⟨Gl450.links s, D, priv⟩ hs)
    (script : List (Nat × Gl450.Pass_Call)) (hscript : ∀ c ∈ script, c.1 ∈ hs)
    (p : Nat) (hp : p ∈ hs) (calls : List Gl450.Pass_Call)
    (hrec : ∀ c ∈ calls, c.recording = true)
    (hcycle : (script.filter (fun c => c.1 = p)).map Prod.snd
      = .pass_begin :: (calls ++ [.pass_end]))
    (s' : Gl450.IRenoir) (he : Gl450.pass_calls fuel s script = some s') :
    (s.settings.defer_api_calls = true →
      ∃ A B C, Gl450.list_records s'.commands (A ++ B ++ C).length s'.command_list_head
          = some (A ++ B ++ C) ∧
        B.map (fun x => ((s'.commands x).kind, (s'.commands x).handle))
          = (.RENOIR_COMMAND_KIND_PASS_BEGIN, some p) ::
              (calls.filterMap Gl450.Pass_Call.label ++
                [(.RENOIR_COMMAND_KIND_PASS_END, some p)])) ∧
    (s.settings.defer_api_calls = false →
      ∃ A B C, (Gl450.executed s'.trace).map (fun r => (r.2.kind, r.2.handle)) = A ++ B ++ C ∧
        B = (.RENOIR_COMMAND_KIND_PASS_BEGIN, some p) ::
              (calls.filterMap Gl450.Pass_Call.label ++
                [(.RENOIR_COMMAND_KIND_PASS_END, some p)])) := by
  obtain ⟨steps, i1, i2, _, i4⟩ := gl450_pass_calls_refine fuel script s s' _ hinv hscript he
  have hf := i4 p hp
  have hmap : (script.filter (fun c => c.1 = p)).filterMap
        (fun c => c.2.step s.settings.defer_api_calls p)
      = ((script.filter (fun c => c.1 = p)).map Prod.snd).filterMap
        (fun c => c.step s.settings.defer_api_calls p) := by
    rw [List.filterMap_map]; rfl
  rw [hmap, hcycle, gl450_cycle_steps _ p calls hrec] at hf
  obtain ⟨l1, w1, _⟩ := i1
  constructor
  · intro hd
    rw [hd] at hf
    simp only [if_true] at hf
    obtain ⟨A, B, C, h1, h2⟩ := hinv.2.1.cycle_deferred hp steps _ _ _ i2 hf
    have w2 : (Gl450.links s').WF (A ++ B ++ C) hs
        (Model.run ⟨Gl450.links s, D, priv⟩ steps).priv := by
      rw [l1, ← h1]; exact w1
    refine ⟨A, B, C, gl450_wf_device w2, ?_⟩
    rw [← h2, ← l1]
    rfl
  · intro hd
    rw [hd] at hf
    simp only [Bool.false_eq_true, if_false] at hf
    obtain ⟨A, B, C, h1, h2⟩ := hinv.2.1.cycle_immediate hp steps _ _ _ i2 hf
    refine ⟨A.map Prod.snd, B.map Prod.snd, C.map Prod.snd, ?_, h2⟩
    rw [← List.map_append, ← List.map_append, ← h1, ← l1]
    simp [Gl450.links]

theorem gl450_pass_calls_append (fuel : Nat) :
    ∀ (a b : List (Nat × Gl450.Pass_Call)) (s : Gl450.IRenoir),
      Gl450.pass_calls fuel s (a ++ b)
        = (Gl450.pass_calls fuel s a).bind (fun s1 => Gl450.pass_calls fuel s1 b) := by
  intro a
  induction a with
  | nil => intro b s; rfl
  | cons c a ih =>
    intro b s
    obtain ⟨h, call⟩ := c
    simp only [List.cons_append, Gl450.pass_calls]
    cases Gl450.pass_call fuel s h call with
    | none => rfl
    | some s1 => exact ih b s1

/-- Pass reuse on the GL backend: one cycle on the pass `h`, whatever its private list
was before, ends with the private list of `h` empty and the context in the state the next
cycle needs; the records of the cycle are the block `B`. -/
theorem gl450_pass_reuse (fuel : Nat) (s : Gl450.IRenoir) (D hs : List Nat)
    (priv : Nat → List Nat) (hinv : Gl450.Inv s ⟨Gl450.links s, D, priv⟩ hs)
    (h : Nat) (hh : h ∈ hs) (calls : List Gl450.Pass_Call)
    (hrec : ∀ c ∈ calls, c.recording = true)
    (s' : Gl450.IRenoir)
    (he : Gl450.pass_calls fuel s
      ((h, .pass_begin) :: (calls.map (fun c => (h, c)) ++ [(h, .pass_end)])) = some s') :
    (s'.handles h).pass.command_list_head = none ∧
    (s'.handles h).pass.command_list_tail = none ∧
    (∃ D' priv', Gl450.Inv s' ⟨Gl450.links s', D', priv'⟩ hs ∧ priv' h = []) ∧
    (s.settings.defer_api_calls = true →
      ∃ A B C, Gl450.list_records s'.commands (A ++ B ++ C).length s'.command_list_head
          = some (A ++ B ++ C) ∧
        B.map (fun x => ((s'.commands x).kind, (s'.commands x).handle))
          = (.RENOIR_COMMAND_KIND_PASS_BEGIN, some h) ::
              (calls.filterMap Gl450.Pass_Call.label ++
                [(.RENOIR_COMMAND_KIND_PASS_END, some h)])) ∧
    (s.settings.defer_api_calls = false →
      ∃ A B C, (Gl450.executed s'.trace).map (fun r => (r.2.kind, r.2.handle)) = A ++ B ++ C ∧
        B = (.RENOIR_COMMAND_KIND_PASS_BEGIN, some h) ::
              (calls.filterMap Gl450.Pass_Call.label ++
                [(.RENOIR_COMMAND_KIND_PASS_END, some h)])) := by
  have hscript : ∀ c ∈ (h, Gl450.Pass_Call.pass_begin) ::
      (calls.map (fun c => (h, c)) ++ [(h, Gl450.Pass_Call.pass_end)]), c.1 ∈ hs := by
    intro c hc
    simp only [List.mem_cons, List.mem_append, List.mem_map, List.mem_singleton,
      List.not_mem_nil, or_false] at hc
    rcases hc with rfl | ⟨_, _, rfl⟩ | rfl <;> exact hh
  have hptr : (s'.handles h).pass.command_list_head = none ∧
      (s'.handles h).pass.command_list_tail = none := by
    have he1 := he
    rw [← List.cons_append, gl450_pass_calls_append] at he1
    simp only [Option.bind_eq_some] at he1
    obtain ⟨s1, _, he2⟩ := he1
    simp only [Gl450.pass_calls, Gl450.pass_call] at he2
    cases h3 : Gl450._renoir_gl450_pass_end fuel s1 h with
    | none => rw [h3] at he2; exact absurd he2 (by simp)
    | some s2 =>
      rw [h3] at he2
      simp only [Option.some.injEq] at he2
      subst he2
      exact gl450_pass_end_pointers fuel s1 s2 h h3
  obtain ⟨steps, i1, _, _, _⟩ := gl450_pass_calls_refine fuel _ s s' _ hinv hscript he
  have hiso := gl450_pass_isolation fuel s D hs priv hinv _ hscript h hh calls hrec (by
    simp [List.filter_cons, List.filter_append, List.filter_map, Function.comp_def]) s' he
  refine ⟨hptr.1, hptr.2, ⟨(Model.run ⟨Gl450.links s, D, priv⟩ steps).dev,
    (Model.run ⟨Gl450.links s, D, priv⟩ steps).priv, ⟨rfl, ?_, ?_⟩, ?_⟩,
    hiso.1, hiso.2⟩
  · show (Gl450.links s').WF _ hs _
    rw [i1.1]; exact i1.2.1
  · intro x hx y hy
    have := i1.2.2 x hx y hy
    rw [← i1.1] at this
    exact this
  · have w1 : (Gl450.links s').WF (Model.run ⟨Gl450.links s, D, priv⟩ steps).dev hs
        (Model.run ⟨Gl450.links s, D, priv⟩ steps).priv := by
      rw [i1.1]; exact i1.2.1
    exact (w1.phead_eq_none_iff hh).1 hptr.1

/-- A recording call acts on the linkage as one `record` step and executes nothing. -/
theorem gl450_recording_links (fuel : Nat) (s : Gl450.IRenoir) (h : Nat)
    (call : Gl450.Pass_Call) (hr : call.recording = true) (s' : Gl450.IRenoir)
    (he : Gl450.pass_call fuel s h call = some s') :
    Gl450.links s' = (match call.label with
      | some k => (Gl450.links s).record h k
      | none => Gl450.links s) ∧
    Gl450.executed s'.trace = Gl450.executed s.trace := by
  cases call with
  | pass_begin => exact absurd hr (by decide)
  | pass_end => exact absurd hr (by decide)
  | texture_bind texture shader slot =>
    simp only [Gl450.pass_call, Option.some.injEq] at he
    subst he
    exact ⟨gl450_links_texture_bind s h texture shader slot, rfl⟩
  | sampler_bind sampler shader slot =>
    simp only [Gl450.pass_call, Option.some.injEq] at he
    subst he
    exact ⟨gl450_links_sampler_bind s h sampler shader slot, rfl⟩
  | clear desc =>
    simp only [Gl450.pass_call, Option.some.injEq] at he
    subst he
    exact ⟨gl450_links_clear s h desc, rfl⟩
  | use_pipeline pipeline =>
    simp only [Gl450.pass_call, Option.some.injEq] at he
    subst he
    exact ⟨gl450_links_use_pipeline s h pipeline, rfl⟩
  | use_program program =>
    simp only [Gl450.pass_call, Option.some.injEq] at he
    subst he
    exact ⟨gl450_links_use_program s h program, rfl⟩
  | scissor x y width height =>
    simp only [Gl450.pass_call, Option.some.injEq] at he
    subst he
    exact ⟨gl450_links_scissor s h x y width height, rfl⟩
  | buffer_bind buffer shader slot =>
    simp only [Gl450.pass_call, Option.some.injEq] at he
    subst he
    exact ⟨gl450_links_buffer_bind s h buffer shader slot, rfl⟩
  | draw desc =>
    simp only [Gl450.pass_call, Option.some.injEq] at he
    subst he
    exact ⟨gl450_links_draw s h desc, rfl⟩
  | buffer_write buffer offset bytes bytes_size =>
    simp only [Gl450.pass_call] at he
    obtain ⟨l1, _, l5⟩ := gl450_links_buffer_write s s' h buffer offset bytes bytes_size he
    exact ⟨l1, l5⟩
  | texture_write texture desc =>
    simp only [Gl450.pass_call] at he
    obtain ⟨l1, _, l5⟩ := gl450_links_texture_write s s' h texture desc he
    exact ⟨l1, l5⟩

/-- A recording call: the private list of its pass gains the one record the call describes,
at its tail; the other private lists, the device-wide list and the log of executions are
unchanged. -/
theorem gl450_recording_spec (fuel : Nat) (s : Gl450.IRenoir) (h : Nat) (D hs : List Nat)
    (priv : Nat → List Nat) (w : (Gl450.links s).WF D hs priv) (hh : h ∈ hs)
    (call : Gl450.Pass_Call) (hr : call.recording = true) (s' : Gl450.IRenoir)
    (he : Gl450.pass_call fuel s h call = some s') :
    Gl450.list_records s'.commands ((priv h).length + 1)
        (s'.handles h).pass.command_list_head
      = some (priv h ++ (call.label.map (fun _ => (pool_get s.command_pool).1)).toList) ∧
    (∀ k, call.label = some k →
      ((s'.commands (pool_get s.command_pool).1).kind,
        (s'.commands (pool_get s.command_pool).1).handle) = k) ∧
    (∀ h' ∈ hs, h' ≠ h →
      Gl450.list_records s'.commands (priv h').length (s'.handles h').pass.command_list_head
        = some (priv h')) ∧
    Gl450.list_records s'.commands D.length s'.command_list_head = some D ∧
    Gl450.executed s'.trace = Gl450.executed s.trace := by
  obtain ⟨hl, hx⟩ := gl450_recording_links fuel s h call hr s' he
  cases hk : call.label with
  | none =>
    rw [hk] at hl
    simp only [] at hl
    have w1 : (Gl450.links s').WF D hs priv := by rw [hl]; exact w
    refine ⟨?_, (fun k e => by cases e), fun h' hh' _ => gl450_wf_private w1 hh',
      gl450_wf_device w1, hx⟩
    rw [gl450_list_records_iff]
    exact ⟨by simpa using w1.pr h hh, by simp⟩
  | some k =>
    rw [hk] at hl
    simp only [] at hl
    have w1 := w.record hh k
    rw [← hl] at w1
    refine ⟨?_, ?_, ?_, gl450_wf_device w1, hx⟩
    · have := gl450_wf_private w1 hh
      rw [write_same] at this
      simpa using this
    · intro k' e
      simp only [Option.some.injEq] at e
      subst e
      have : (Gl450.links s').label (pool_get s.command_pool).1 = k := by
        rw [hl, Links.record_label]
        exact write_same _ _ _
      exact this
    · intro h' hh' hne
      have := gl450_wf_private w1 hh'
      rw [write_other _ _ _ _ hne] at this
      exact this


/-! ### Contexts with two passes -/

theorem dx11_inv_two_pass_context (defer : Bool) :
    Dx11.Inv (Dx11.two_pass_context defer)
      ⟨Dx11.links (Dx11.two_pass_context defer), if defer then [0] else [], fun _ => []⟩
      [0, 1] := by
  refine ⟨rfl, ?_, ?_, ?_⟩
  · cases defer
    · constructor <;> simp [chain, Dx11.links, Dx11.two_pass_context]
    · constructor <;> simp [chain, Dx11.links, Dx11.two_pass_context]
  · intro h hh
    simp only [List.mem_cons, List.mem_singleton, List.not_mem_nil, or_false] at hh
    rcases hh with rfl | rfl <;> simp [Dx11.two_pass_context]
  · intro h _ x hx
    exact absurd hx (List.not_mem_nil _)

theorem dx11_inv_recording_context (defer : Bool) :
    Dx11.Inv (Dx11.recording_context defer)
      ⟨Dx11.links (Dx11.recording_context defer), if defer then [0] else [],
        fun h => if h = 0 then [1, 2] else []⟩ [0, 1] := by
  have i0 := dx11_inv_two_pass_context defer
  have hh : (0 : Nat) ∈ [0, 1] := by simp
  have i1 : Dx11.Inv (Dx11._renoir_dx11_pass_begin (Dx11.two_pass_context defer) 0)
      (Model.step ⟨Dx11.links (Dx11.two_pass_context defer), if defer then [0] else [],
        fun _ => []⟩ (.pass_begin 0 (.RENOIR_COMMAND_KIND_PASS_BEGIN, some 0))) [0, 1] := by
    refine dx11_inv_step i0 _ hh (fun _ _ e => by cases e; rfl) (fun _ _ e => by cases e)
      ?_ i0.2.2.1
    rw [dx11_links_pass_begin]; rfl
  have i2 := dx11_record_refines i1 hh .RENOIR_COMMAND_KIND_PASS_CLEAR rfl none
    (Dx11.recording_context defer) (dx11_links_clear _ 0 _) rfl rfl
  obtain ⟨l2, w2, p2, r2⟩ := i2
  refine ⟨rfl, ?_, p2, ?_⟩
  · show (Dx11.links (Dx11.recording_context defer)).WF _ _ _
    rw [l2]
    have hdev : (if defer then [0] else [] : List Nat) = (Model.step (Model.step
        ⟨Dx11.links (Dx11.two_pass_context defer), if defer then [0] else [], fun _ => []⟩
        (.pass_begin 0 (.RENOIR_COMMAND_KIND_PASS_BEGIN, some 0)))
        (.record 0 (.RENOIR_COMMAND_KIND_PASS_CLEAR, none))).dev := rfl
    rw [hdev]
    refine Links.WF.congr w2 ?_
    intro h hh
    simp only [List.mem_cons, List.mem_singleton, List.not_mem_nil, or_false] at hh
    rcases hh with rfl | rfl <;> cases defer <;> rfl
  · intro h hh x hx
    simp only [List.mem_cons, List.mem_singleton, List.not_mem_nil, or_false] at hh
    rcases hh with rfl | rfl
    · simp only [if_true, List.mem_cons, List.mem_singleton, List.not_mem_nil,
        or_false] at hx
      rcases hx with rfl | rfl <;> cases defer <;> rfl
    · simp at hx

theorem gl450_inv_two_pass_context (defer : Bool) :
    Gl450.Inv (Gl450.two_pass_context defer)
      ⟨Gl450.links (Gl450.two_pass_context defer), if defer then [0] else [], fun _ => []⟩
      [0, 1] := by
  refine ⟨rfl, ?_, ?_⟩
  · cases defer
    · constructor <;> simp [chain, Gl450.links, Gl450.two_pass_context]
    · constructor <;> simp [chain, Gl450.links, Gl450.two_pass_context]
  · intro h _ x hx
    exact absurd hx (List.not_mem_nil _)

theorem gl450_inv_recording_context (defer : Bool) :
    Gl450.Inv (Gl450.recording_context defer)
      ⟨Gl450.links (Gl450.recording_context defer), if defer then [0] else [],
        fun h => if h = 0 then [1, 2] else []⟩ [0, 1] := by
  have i0 := gl450_inv_two_pass_context defer
  have hh : (0 : Nat) ∈ [0, 1] := by simp
  have i1 : Gl450.Inv (Gl450._renoir_gl450_pass_begin (Gl450.two_pass_context defer) 0)
      (Model.step ⟨Gl450.links (Gl450.two_pass_context defer), if defer then [0] else [],
        fun _ => []⟩ (.pass_begin 0 (.RENOIR_COMMAND_KIND_PASS_BEGIN, some 0))) [0, 1] := by
    refine gl450_inv_step i0 _ hh (fun _ _ e => by cases e; rfl) (fun _ _ e => by cases e)
      ?_
    rw [gl450_links_pass_begin]; rfl
  have i2 := gl450_record_refines i1 hh .RENOIR_COMMAND_KIND_PASS_CLEAR rfl none
    (Gl450.recording_context defer) (gl450_links_clear _ 0 _)
  obtain ⟨l2, w2, r2⟩ := i2
  refine ⟨rfl, ?_, ?_⟩
  · show (Gl450.links (Gl450.recording_context defer)).WF _ _ _
    rw [l2]
    have hdev : (if defer then [0] else [] : List Nat) = (Model.step (Model.step
        ⟨Gl450.links (Gl450.two_pass_context defer), if defer then [0] else [], fun _ => []⟩
        (.pass_begin 0 (.RENOIR_COMMAND_KIND_PASS_BEGIN, some 0)))
        (.record 0 (.RENOIR_COMMAND_KIND_PASS_CLEAR, none))).dev := rfl
    rw [hdev]
    refine Links.WF.congr w2 ?_
    intro h hh
    simp only [List.mem_cons, List.mem_singleton, List.not_mem_nil, or_false] at hh
    rcases hh with rfl | rfl <;> cases defer <;> rfl
  · intro h hh x hx
    simp only [List.mem_cons, List.mem_singleton, List.not_mem_nil, or_false] at hh
    rcases hh with rfl | rfl
    · simp only [if_true, List.mem_cons, List.mem_singleton, List.not_mem_nil,
        or_false] at hx
      rcases hx with rfl | rfl <;> cases defer <;> rfl
    · simp at hx


/-! ### Deferred copies -/

theorem dx11_uploads_append (t l : List Dx11.Event) :
    Dx11.uploads (t ++ l) = Dx11.uploads t ++ Dx11.uploads l := by
  unfold Dx11.uploads
  exact List.filterMap_append _ _ _

/-- The function `command_push` writes the `next` and `prev` pointers only. -/
theorem dx11_push_payload (l : Dx11.Command_List) (commands : Nat → Dx11.Renoir_Command)
    (c x : Nat) :
    ({ (Dx11._renoir_dx11_command_push l commands c).2 x with next := none, prev := none }
      : Dx11.Renoir_Command) = { commands x with next := none, prev := none } := by
  unfold Dx11._renoir_dx11_command_push
  split
  · rfl
  · simp only [write_apply]
    split <;> split <;> simp_all

/-- The copy made by `memcpy` reads as the source did, when the source is not the
destination. -/
theorem dx11_memcpy_reads (s s' : Dx11.IRenoir) (d a size : Nat)
    (he : Dx11.memcpy s (some d) (some a) size = some s') :
    Dx11.read_bytes s'.heap (some d) size = (s.heap a).take size ∧
    s'.commands = s.commands ∧ s'.command_pool = s.command_pool ∧
    s'.command_list_head = s.command_list_head ∧
    s'.command_list_tail = s.command_list_tail ∧ s'.settings = s.settings ∧
    s'.trace = s.trace ∧ s'.handles = s.handles := by
  unfold Dx11.memcpy at he
  split at he
  · simp only [Option.some.injEq] at he
    subst he
    rename_i hz
    subst hz
    exact ⟨by simp [Dx11.read_bytes], rfl, rfl, rfl, rfl, rfl, rfl, rfl⟩
  · simp only [Option.some.injEq] at he
    subst he
    refine ⟨?_, rfl, rfl, rfl, rfl, rfl, rfl, rfl⟩
    simp [Dx11.read_bytes, write_same, List.take_take]

/-- The record `buffer_new` leaves behind in deferred mode, when initial data is given at
`a`: it refers to a block of its own, which reads as the caller's block did at the time of
the call. -/
theorem dx11_buffer_new_record (fuel : Nat) (s : Dx11.IRenoir) (desc : Renoir_Buffer_Desc)
    (a : Nat) (r : Nat × Dx11.IRenoir)
    (hd : s.settings.defer_api_calls = true) (hdata : desc.data = some a)
    (he : Dx11._renoir_dx11_buffer_new fuel s desc = some r) :
    (r.2.commands (pool_get s.command_pool).1).kind = .RENOIR_COMMAND_KIND_BUFFER_NEW ∧
    (r.2.commands (pool_get s.command_pool).1).handle = some r.1 ∧
    (r.2.commands (pool_get s.command_pool).1).buffer_desc.data = some s.heap_fresh ∧
    (r.2.commands (pool_get s.command_pool).1).buffer_desc.data_size = desc.data_size ∧
    (r.2.commands (pool_get s.command_pool).1).owns_data = true ∧
    Dx11.read_bytes r.2.heap (some s.heap_fresh) desc.data_size
      = (s.heap a).take desc.data_size ∧
    Dx11.uploads r.2.trace = Dx11.uploads s.trace ∧
    (s.command_list_tail = none →
      r.2.command_list_head = some (pool_get s.command_pool).1 ∧
      (r.2.commands (pool_get s.command_pool).1).next = none) := by
  unfold Dx11._renoir_dx11_buffer_new at he
  simp only [] at he
  have hdata1 : (if desc.usage = RENOIR_USAGE.RENOIR_USAGE_NONE then
      { desc with usage := RENOIR_USAGE.RENOIR_USAGE_STATIC } else desc).data = some a := by
    split <;> exact hdata
  have hsize1 : (if desc.usage = RENOIR_USAGE.RENOIR_USAGE_NONE then
      { desc with usage := RENOIR_USAGE.RENOIR_USAGE_STATIC } else desc).data_size
        = desc.data_size := by
    split <;> rfl
  generalize (if desc.usage = RENOIR_USAGE.RENOIR_USAGE_NONE then
      { desc with usage := RENOIR_USAGE.RENOIR_USAGE_STATIC } else desc) = desc1 at he hdata1 hsize1
  split at he
  · exact absurd he (by simp)
  split at he
  · exact absurd he (by simp)
  split at he
  · exact absurd he (by simp)
  simp only [Option.bind_eq_some, Option.map_eq_some'] at he
  obtain ⟨s1, hc, s2, hp, rfl⟩ := he
  rw [if_pos (by
    refine ⟨hd, ?_⟩
    rw [hdata1]; rfl)] at hc
  simp only [Option.map_eq_some'] at hc
  obtain ⟨s0, hm, rfl⟩ := hc
  rw [hdata1] at hm
  obtain ⟨m1, m2, m3, m4, m5, m6, m7, m8⟩ := dx11_memcpy_reads _ _ _ _ _ hm
  unfold Dx11._renoir_dx11_command_process at hp
  simp only [] at hp
  rw [if_pos (by
    show s0.settings.defer_api_calls = true
    rw [m6]; exact hd)] at hp
  simp only [Option.some.injEq] at hp
  subst hp
  have hs0c : s0.commands = write s.commands (pool_get s.command_pool).1
      { kind := .RENOIR_COMMAND_KIND_BUFFER_NEW,
        handle := some (pool_get s.handle_pool).1,
        buffer_desc := { desc1 with data := some s.heap_fresh } } := by
    rw [m2]
    simp [Dx11.set_command, Dx11.mn_alloc, Dx11._renoir_dx11_command_new,
      Dx11._renoir_dx11_handle_new, write_write]
  have hpay := dx11_push_payload
    ⟨(Dx11.emit (Dx11.set_command s0 (pool_get s.command_pool).1
        { s0.commands (pool_get s.command_pool).1 with owns_data := true })
        (Dx11.Event.command_process (pool_get s.command_pool).1
          ((Dx11.set_command s0 (pool_get s.command_pool).1
            { s0.commands (pool_get s.command_pool).1 with owns_data := true }).commands
              (pool_get s.command_pool).1))).command_list_head,
     (Dx11.emit (Dx11.set_command s0 (pool_get s.command_pool).1
        { s0.commands (pool_get s.command_pool).1 with owns_data := true })
        (Dx11.Event.command_process (pool_get s.command_pool).1
          ((Dx11.set_command s0 (pool_get s.command_pool).1
            { s0.commands (pool_get s.command_pool).1 with owns_data := true }).commands
              (pool_get s.command_pool).1))).command_list_tail⟩
    (Dx11.set_command s0 (pool_get s.command_pool).1
        { s0.commands (pool_get s.command_pool).1 with owns_data := true }).commands
    (pool_get s.command_pool).1 (pool_get s.command_pool).1
  have hval : (Dx11.set_command s0 (pool_get s.command_pool).1
        { s0.commands (pool_get s.command_pool).1 with owns_data := true }).commands
        (pool_get s.command_pool).1
      = { kind := .RENOIR_COMMAND_KIND_BUFFER_NEW,
          handle := some (pool_get s.handle_pool).1,
          buffer_desc := { desc1 with data := some s.heap_fresh },
          owns_data := true } := by
    simp [Dx11.set_command, hs0c]
  rw [hval] at hpay
  refine ⟨congrArg Dx11.Renoir_Command.kind hpay, congrArg Dx11.Renoir_Command.handle hpay,
    congrArg (fun c => c.buffer_desc.data) hpay,
    (congrArg (fun c => c.buffer_desc.data_size) hpay).trans hsize1,
    congrArg Dx11.Renoir_Command.owns_data hpay, ?_, ?_, ?_⟩
  · rw [← hsize1]
    exact m1
  · show Dx11.uploads (s0.trace ++ [_]) = _
    rw [m7]
    show Dx11.uploads ((s.trace ++ [_]) ++ [_]) = _
    simp [Dx11.uploads, List.filterMap_append]
  · intro ht
    have ht0 : s0.command_list_tail = none := by rw [m5]; exact ht
    have hpush := dx11_push_none
      ⟨s0.command_list_head, s0.command_list_tail⟩
      (Dx11.set_command s0 (pool_get s.command_pool).1
        { s0.commands (pool_get s.command_pool).1 with owns_data := true }).commands
      (pool_get s.command_pool).1 ht0
    constructor
    · exact congrArg (fun p => p.1.command_list_head) hpush
    · have := congrFun (congrArg Prod.snd hpush) (pool_get s.command_pool).1
      exact (congrArg Dx11.Renoir_Command.next this).trans
        (congrArg Dx11.Renoir_Command.next hval)

/-- Executing a `BUFFER_NEW` record: with initial data, the device reads `data_size` bytes
at `data`, and nothing else; the heap and the records are unchanged. -/
theorem dx11_execute_buffer_new_uploads (fuel : Nat) (s : Dx11.IRenoir) (c h : Nat)
    (hk : (s.commands c).kind = .RENOIR_COMMAND_KIND_BUFFER_NEW)
    (hh : (s.commands c).handle = some h) :
    ∃ s', Dx11._renoir_dx11_command_execute fuel s c = some s' ∧
      Dx11.uploads s'.trace = Dx11.uploads s.trace ++
        (if (s.commands c).buffer_desc.data.isSome then
          [Dx11.read_bytes s.heap (s.commands c).buffer_desc.data
            (s.commands c).buffer_desc.data_size]
        else []) ∧
      s'.heap = s.heap ∧ s'.commands = s.commands := by
  unfold Dx11._renoir_dx11_command_execute
  simp only [hk, hh, Option.map_some']
  refine ⟨_, rfl, ?_, ?_, ?_⟩
  · unfold Dx11.execute_buffer_new
    simp only []
    split <;> split <;>
      simp [Dx11.uploads, List.filterMap_append, Dx11.device_upload, Dx11.device_create,
        Dx11.set_handle, Dx11.emit, *]
  · simp only [Dx11.execute_buffer_new, Dx11.set_handle, Dx11.device_create,
      Dx11.device_upload, Dx11.emit]
    split <;> split <;> rfl
  · simp only [Dx11.execute_buffer_new, Dx11.set_handle, Dx11.device_create,
      Dx11.device_upload, Dx11.emit]
    split <;> split <;> rfl

/-- Deferred copy, `buffer_new` on the D3D11 backend: in every later state that still holds
the record and its block, executing the record hands the device exactly the bytes the
caller's block held at the time of the call; overwriting the caller's block leads to such
a state. -/
theorem dx11_buffer_new_copy_safe (fuel : Nat) (s : Dx11.IRenoir) (desc : Renoir_Buffer_Desc)
    (a : Nat) (r : Nat × Dx11.IRenoir)
    (hd : s.settings.defer_api_calls = true) (hdata : desc.data = some a)
    (ha : a ≠ s.heap_fresh)
    (he : Dx11._renoir_dx11_buffer_new fuel s desc = some r) :
    (∀ (s2 : Dx11.IRenoir) (fuel2 : Nat),
      s2.commands (pool_get s.command_pool).1 = r.2.commands (pool_get s.command_pool).1 →
      s2.heap s.heap_fresh = r.2.heap s.heap_fresh →
      ∃ s3, Dx11._renoir_dx11_command_execute fuel2 s2 (pool_get s.command_pool).1 = some s3 ∧
        Dx11.uploads s3.trace = Dx11.uploads s2.trace ++ [(s.heap a).take desc.data_size]) ∧
    (∀ (junk : List Nat) (fuel2 : Nat),
      ∃ s3, Dx11._renoir_dx11_command_execute fuel2 (Dx11.caller_write r.2 a junk)
          (pool_get s.command_pool).1 = some s3 ∧
        Dx11.uploads s3.trace = Dx11.uploads r.2.trace ++ [(s.heap a).take desc.data_size]) := by
  obtain ⟨r1, r2, r3, r4, _, r6, _, _⟩ := dx11_buffer_new_record fuel s desc a r hd hdata he
  have key : ∀ (s2 : Dx11.IRenoir) (fuel2 : Nat),
      s2.commands (pool_get s.command_pool).1 = r.2.commands (pool_get s.command_pool).1 →
      s2.heap s.heap_fresh = r.2.heap s.heap_fresh →
      ∃ s3, Dx11._renoir_dx11_command_execute fuel2 s2 (pool_get s.command_pool).1 = some s3 ∧
        Dx11.uploads s3.trace = Dx11.uploads s2.trace ++ [(s.heap a).take desc.data_size] := by
    intro s2 fuel2 hrec hblock
    obtain ⟨s3, e1, e2, _, _⟩ := dx11_execute_buffer_new_uploads fuel2 s2
      (pool_get s.command_pool).1 r.1 (by rw [hrec]; exact r1) (by rw [hrec]; exact r2)
    refine ⟨s3, e1, ?_⟩
    rw [e2, hrec, r3, r4]
    simp only [Option.isSome_some, if_true]
    have : Dx11.read_bytes s2.heap (some s.heap_fresh) desc.data_size
        = Dx11.read_bytes r.2.heap (some s.heap_fresh) desc.data_size := by
      simp only [Dx11.read_bytes, hblock]
    rw [this, r6]
  refine ⟨key, fun junk fuel2 => ?_⟩
  exact key (Dx11.caller_write r.2 a junk) fuel2 rfl (by
    show write r.2.heap a junk s.heap_fresh = _
    rw [write_apply, if_neg (fun e => ha e.symm)])

/-- Deferred copy, `buffer_new` on the D3D11 backend, end to end: with nothing pending,
`buffer_new` with initial data at `a`, then any overwrite of the caller's block, then a
flush; the flush returns and the only bytes it hands to the device are those the block held
at the time of the call. -/
theorem dx11_buffer_new_run_uploads (fuel : Nat) (s : Dx11.IRenoir)
    (desc : Renoir_Buffer_Desc) (a : Nat) (r : Nat × Dx11.IRenoir)
    (hd : s.settings.defer_api_calls = true) (hdata : desc.data = some a)
    (ha : a ≠ s.heap_fresh)
    (htail : s.command_list_tail = none)
    (he : Dx11._renoir_dx11_buffer_new (fuel + 1) s desc = some r) (junk : List Nat) :
    (Dx11.buffer_new_run (fuel + 1) s desc a junk).map (fun s => Dx11.uploads s.trace)
      = some (Dx11.uploads s.trace ++ [(s.heap a).take desc.data_size]) := by
  obtain ⟨_, _, _, _, _, _, r7, r8⟩ := dx11_buffer_new_record (fuel + 1) s desc a r hd hdata he
  obtain ⟨q1, q2⟩ := r8 htail
  obtain ⟨s3, e1, e2⟩ := (dx11_buffer_new_copy_safe (fuel + 1) s desc a r hd hdata ha he).2
    junk fuel
  have e3 := (dx11_execute_buffer_new_uploads fuel (Dx11.caller_write r.2 a junk)
    (pool_get s.command_pool).1 r.1
    (dx11_buffer_new_record (fuel + 1) s desc a r hd hdata he).1
    (dx11_buffer_new_record (fuel + 1) s desc a r hd hdata he).2.1)
  obtain ⟨s3', e1', _, _, e5⟩ := e3
  rw [e1] at e1'
  simp only [Option.some.injEq] at e1'
  subst e1'
  unfold Dx11.buffer_new_run
  rw [he]
  simp only [Option.some_bind]
  unfold Dx11._renoir_dx11_flush
  have hh : (Dx11.caller_write r.2 a junk).command_list_head
      = some (pool_get s.command_pool).1 := q1
  rw [hh]
  have hnext : ((Dx11._renoir_dx11_command_free s3 (pool_get s.command_pool).1).commands
      (pool_get s.command_pool).1).next = none := by
    rw [dx11_command_free_commands, e5]
    exact q2
  have hdrain : Dx11.drain (fuel + 1) (Dx11.caller_write r.2 a junk)
      (some (pool_get s.command_pool).1)
      = some (Dx11._renoir_dx11_command_free s3 (pool_get s.command_pool).1) := by
    show (match Dx11._renoir_dx11_command_execute fuel (Dx11.caller_write r.2 a junk)
        (pool_get s.command_pool).1 with
      | none => none
      | some s1 => Dx11.drain fuel (Dx11._renoir_dx11_command_free s1 (pool_get s.command_pool).1)
          (((Dx11._renoir_dx11_command_free s1 (pool_get s.command_pool).1).commands
            (pool_get s.command_pool).1).next)) = _
    rw [e1]
    simp only []
    rw [hnext]
    cases fuel <;> rfl
  rw [hdrain]
  simp only [Option.map_some', Option.some.injEq]
  have hfree : Dx11.uploads (Dx11._renoir_dx11_command_free s3
      (pool_get s.command_pool).1).trace = Dx11.uploads s3.trace := by
    unfold Dx11._renoir_dx11_command_free
    simp only []
    split <;> (try split) <;> (try split) <;>
      simp [Dx11.mn_free, Dx11.emit, Dx11.uploads, List.filterMap_append]
  show Dx11.uploads (Dx11._renoir_dx11_command_free s3 (pool_get s.command_pool).1).trace = _
  rw [hfree, e2, r7]

/-- The record `texture_write` leaves on the private list of the pass: it refers to a block
of its own, which reads as the caller's block did at the time of the call. -/
theorem dx11_texture_write_record (s s' : Dx11.IRenoir) (h : Nat) (texture : Ptr)
    (desc : Renoir_Texture_Edit_Desc) (a : Nat)
    (hb : desc.bytes = some a) (hz : desc.bytes_size ≠ 0)
    (he : Dx11._renoir_dx11_texture_write s h texture desc = some s') :
    (s'.commands (pool_get s.command_pool).1).kind = .RENOIR_COMMAND_KIND_TEXTURE_WRITE ∧
    (s'.commands (pool_get s.command_pool).1).handle = texture ∧
    (s'.commands (pool_get s.command_pool).1).bytes = ⟨some s.heap_fresh, desc.bytes_size⟩ ∧
    Dx11.read_bytes s'.heap (some s.heap_fresh) desc.bytes_size
      = (s.heap a).take desc.bytes_size := by
  unfold Dx11._renoir_dx11_texture_write at he
  rw [if_neg hz] at he
  simp only [Option.map_eq_some'] at he
  obtain ⟨s0, hm, rfl⟩ := he
  rw [hb] at hm
  obtain ⟨m1, m2, _, _, _, _, _, _⟩ := dx11_memcpy_reads _ _ _ _ _ hm
  have hs0c : s0.commands = write s.commands (pool_get s.command_pool).1
      { kind := .RENOIR_COMMAND_KIND_TEXTURE_WRITE, handle := texture,
        args := [desc.x, desc.y, desc.z, desc.width, desc.height, desc.depth],
        bytes := ⟨some s.heap_fresh, desc.bytes_size⟩ } := by
    rw [m2]
    simp [Dx11.set_command, Dx11.mn_alloc, Dx11._renoir_dx11_command_new, write_write]
  have hpay := dx11_push_payload
    ⟨(s0.handles h).pass.command_list_head, (s0.handles h).pass.command_list_tail⟩
    s0.commands (pool_get s.command_pool).1 (pool_get s.command_pool).1
  rw [hs0c, write_same] at hpay
  rw [← hs0c] at hpay
  exact ⟨congrArg Dx11.Renoir_Command.kind hpay, congrArg Dx11.Renoir_Command.handle hpay,
    congrArg Dx11.Renoir_Command.bytes hpay, m1⟩

/-- A `texture_write` of zero bytes on the D3D11 backend returns at once: nothing is
recorded, so the drain writes nothing for it (Renoir-dx11.cpp:3066). -/
theorem dx11_texture_write_zero (s : Dx11.IRenoir) (h : Nat) (texture : Ptr)
    (desc : Renoir_Texture_Edit_Desc) (hz : desc.bytes_size = 0) :
    Dx11._renoir_dx11_texture_write s h texture desc = some s := by
  unfold Dx11._renoir_dx11_texture_write
  rw [if_pos hz]

theorem gl450_uploads_append (t l : List Gl450.Event) :
    Gl450.uploads (t ++ l) = Gl450.uploads t ++ Gl450.uploads l := by
  unfold Gl450.uploads
  exact List.filterMap_append _ _ _

/-- The function `command_push` writes the `next` and `prev` pointers only. -/
theorem gl450_push_payload (l : Gl450.Command_List) (commands : Nat → Gl450.Renoir_Command)
    (c x : Nat) :
    ({ (Gl450._renoir_gl450_command_push l commands c).2 x with next := none, prev := none }
      : Gl450.Renoir_Command) = { commands x with next := none, prev := none } := by
  unfold Gl450._renoir_gl450_command_push
  split
  · rfl
  · simp only [write_apply]
    split <;> split <;> simp_all

/-- The copy made by `memcpy` reads as the source did, when the source is not the
destination. -/
theorem gl450_memcpy_reads (s s' : Gl450.IRenoir) (d a size : Nat)
    (he : Gl450.memcpy s (some d) (some a) size = some s') :
    Gl450.read_bytes s'.heap (some d) size = (s.heap a).take size ∧
    s'.commands = s.commands ∧ s'.command_pool = s.command_pool ∧
    s'.command_list_head = s.command_list_head ∧
    s'.command_list_tail = s.command_list_tail ∧ s'.settings = s.settings ∧
    s'.trace = s.trace ∧ s'.handles = s.handles := by
  unfold Gl450.memcpy at he
  split at he
  · simp only [Option.some.injEq] at he
    subst he
    rename_i hz
    subst hz
    exact ⟨by simp [Gl450.read_bytes], rfl, rfl, rfl, rfl, rfl, rfl, rfl⟩
  · simp only [Option.some.injEq] at he
    subst he
    refine ⟨?_, rfl, rfl, rfl, rfl, rfl, rfl, rfl⟩
    simp [Gl450.read_bytes, write_same, List.take_take]

/-- The record `buffer_new` leaves behind in deferred mode, when initial data is given at
`a`: it refers to a block of its own, which reads as the caller's block did at the time of
the call. -/
theorem gl450_buffer_new_record (fuel : Nat) (s : Gl450.IRenoir) (desc : Renoir_Buffer_Desc)
    (a : Nat) (r : Nat × Gl450.IRenoir)
    (hd : s.settings.defer_api_calls = true) (hdata : desc.data = some a)
    (he : Gl450._renoir_gl450_buffer_new fuel s desc = some r) :
    (r.2.commands (pool_get s.command_pool).1).kind = .RENOIR_COMMAND_KIND_BUFFER_NEW ∧
    (r.2.commands (pool_get s.command_pool).1).handle = some r.1 ∧
    (r.2.commands (pool_get s.command_pool).1).buffer_desc.data = some s.heap_fresh ∧
    (r.2.commands (pool_get s.command_pool).1).buffer_desc.data_size = desc.data_size ∧
    (r.2.commands (pool_get s.command_pool).1).owns_data = true ∧
    Gl450.read_bytes r.2.heap (some s.heap_fresh) desc.data_size
      = (s.heap a).take desc.data_size ∧
    Gl450.uploads r.2.trace = Gl450.uploads s.trace ∧
    (s.command_list_tail = none →
      r.2.command_list_head = some (pool_get s.command_pool).1 ∧
      (r.2.commands (pool_get s.command_pool).1).next = none) := by
  unfold Gl450._renoir_gl450_buffer_new at he
  simp only [] at he
  have hdata1 : (if desc.usage = RENOIR_USAGE.RENOIR_USAGE_NONE then
      { desc with usage := RENOIR_USAGE.RENOIR_USAGE_STATIC } else desc).data = some a := by
    split <;> exact hdata
  have hsize1 : (if desc.usage = RENOIR_USAGE.RENOIR_USAGE_NONE then
      { desc with usage := RENOIR_USAGE.RENOIR_USAGE_STATIC } else desc).data_size
        = desc.data_size := by
    split <;> rfl
  generalize (if desc.usage = RENOIR_USAGE.RENOIR_USAGE_NONE then
      { desc with usage := RENOIR_USAGE.RENOIR_USAGE_STATIC } else desc) = desc1 at he hdata1 hsize1
  split at he
  · exact absurd he (by simp)
  simp only [Option.bind_eq_some, Option.map_eq_some'] at he
  obtain ⟨s1, hc, s2, hp, rfl⟩ := he
  split at hc
  swap
  · rename_i hn; exact absurd hd hn
  simp only [Option.map_eq_some'] at hc
  obtain ⟨s0, hm, rfl⟩ := hc
  rw [hdata1] at hm
  obtain ⟨m1, m2, m3, m4, m5, m6, m7, m8⟩ := gl450_memcpy_reads _ _ _ _ _ hm
  unfold Gl450._renoir_gl450_command_process at hp
  simp only [] at hp
  rw [if_pos (by
    show s0.settings.defer_api_calls = true
    rw [m6]; exact hd)] at hp
  simp only [Option.some.injEq] at hp
  subst hp
  have hs0c : s0.commands = write s.commands (pool_get s.command_pool).1
      { kind := .RENOIR_COMMAND_KIND_BUFFER_NEW,
        handle := some (pool_get s.handle_pool).1,
        buffer_desc := { desc1 with data := some s.heap_fresh } } := by
    rw [m2]
    simp [Gl450.set_command, Gl450.mn_alloc, Gl450._renoir_gl450_command_new,
      Gl450._renoir_gl450_handle_new, write_write]
  have hpay := gl450_push_payload
    ⟨(Gl450.emit (Gl450.set_command s0 (pool_get s.command_pool).1
        { s0.commands (pool_get s.command_pool).1 with owns_data := true })
        (Gl450.Event.command_process (pool_get s.command_pool).1
          ((Gl450.set_command s0 (pool_get s.command_pool).1
            { s0.commands (pool_get s.command_pool).1 with owns_data := true }).commands
              (pool_get s.command_pool).1))).command_list_head,
     (Gl450.emit (Gl450.set_command s0 (pool_get s.command_pool).1
        { s0.commands (pool_get s.command_pool).1 with owns_data := true })
        (Gl450.Event.command_process (pool_get s.command_pool).1
          ((Gl450.set_command s0 (pool_get s.command_pool).1
            { s0.commands (pool_get s.command_pool).1 with owns_data := true }).commands
              (pool_get s.command_pool).1))).command_list_tail⟩
    (Gl450.set_command s0 (pool_get s.command_pool).1
        { s0.commands (pool_get s.command_pool).1 with owns_data := true }).commands
    (pool_get s.command_pool).1 (pool_get s.command_pool).1
  have hval : (Gl450.set_command s0 (pool_get s.command_pool).1
        { s0.commands (pool_get s.command_pool).1 with owns_data := true }).commands
        (pool_get s.command_pool).1
      = { kind := .RENOIR_COMMAND_KIND_BUFFER_NEW,
          handle := some (pool_get s.handle_pool).1,
          buffer_desc := { desc1 with data := some s.heap_fresh },
          owns_data := true } := by
    simp [Gl450.set_command, hs0c]
  rw [hval] at hpay
  refine ⟨congrArg Gl450.Renoir_Command.kind hpay, congrArg Gl450.Renoir_Command.handle hpay,
    congrArg (fun c => c.buffer_desc.data) hpay,
    (congrArg (fun c => c.buffer_desc.data_size) hpay).trans hsize1,
    congrArg Gl450.Renoir_Command.owns_data hpay, ?_, ?_, ?_⟩
  · rw [← hsize1]
    exact m1
  · show Gl450.uploads (s0.trace ++ [_]) = _
    rw [m7]
    show Gl450.uploads ((s.trace ++ [_]) ++ [_]) = _
    simp [Gl450.uploads, List.filterMap_append]
  · intro ht
    have ht0 : s0.command_list_tail = none := by rw [m5]; exact ht
    have hpush := gl450_push_none
      ⟨s0.command_list_head, s0.command_list_tail⟩
      (Gl450.set_command s0 (pool_get s.command_pool).1
        { s0.commands (pool_get s.command_pool).1 with owns_data := true }).commands
      (pool_get s.command_pool).1 ht0
    constructor
    · exact congrArg (fun p => p.1.command_list_head) hpush
    · have := congrFun (congrArg Prod.snd hpush) (pool_get s.command_pool).1
      exact (congrArg Gl450.Renoir_Command.next this).trans
        (congrArg Gl450.Renoir_Command.next hval)

/-- Executing a `BUFFER_NEW` record: with initial data, the device reads `data_size` bytes
at `data`, and nothing else; the heap and the records are unchanged. -/
theorem gl450_execute_buffer_new_uploads (fuel : Nat) (s : Gl450.IRenoir) (c h : Nat)
    (hk : (s.commands c).kind = .RENOIR_COMMAND_KIND_BUFFER_NEW)
    (hh : (s.commands c).handle = some h) :
    ∃ s', Gl450._renoir_gl450_command_execute fuel s c = some s' ∧
      Gl450.uploads s'.trace = Gl450.uploads s.trace ++
        (if (s.commands c).buffer_desc.data.isSome then
          [Gl450.read_bytes s.heap (s.commands c).buffer_desc.data
            (s.commands c).buffer_desc.data_size]
        else []) ∧
      s'.heap = s.heap ∧ s'.commands = s.commands := by
  unfold Gl450._renoir_gl450_command_execute
  simp only [hk, hh, Option.map_some']
  refine ⟨_, rfl, ?_, ?_, ?_⟩
  · unfold Gl450.execute_buffer_new
    simp only []
    split
    · simp [Gl450.uploads, List.filterMap_append, Gl450.device_upload, Gl450.gl_create,
        Gl450.set_handle, Gl450.emit, Gl450.read_bytes]
    · simp [Gl450.uploads, List.filterMap_append, Gl450.device_upload, Gl450.gl_create,
        Gl450.set_handle, Gl450.emit, Gl450.read_bytes]
  · unfold Gl450.execute_buffer_new
    simp only []
    split <;> rfl
  · unfold Gl450.execute_buffer_new
    simp only []
    split <;> rfl

/-- Deferred copy, `buffer_new` on the GL backend: in every later state that still holds
the record and its block, executing the record hands the device exactly the bytes the
caller's block held at the time of the call; overwriting the caller's block leads to such
a state. -/
theorem gl450_buffer_new_copy_safe (fuel : Nat) (s : Gl450.IRenoir) (desc : Renoir_Buffer_Desc)
    (a : Nat) (r : Nat × Gl450.IRenoir)
    (hd : s.settings.defer_api_calls = true) (hdata : desc.data = some a)
    (ha : a ≠ s.heap_fresh)
    (he : Gl450._renoir_gl450_buffer_new fuel s desc = some r) :
    (∀ (s2 : Gl450.IRenoir) (fuel2 : Nat),
      s2.commands (pool_get s.command_pool).1 = r.2.commands (pool_get s.command_pool).1 →
      s2.heap s.heap_fresh = r.2.heap s.heap_fresh →
      ∃ s3, Gl450._renoir_gl450_command_execute fuel2 s2 (pool_get s.command_pool).1 = some s3 ∧
        Gl450.uploads s3.trace = Gl450.uploads s2.trace ++ [(s.heap a).take desc.data_size]) ∧
    (∀ (junk : List Nat) (fuel2 : Nat),
      ∃ s3, Gl450._renoir_gl450_command_execute fuel2 (Gl450.caller_write r.2 a junk)
          (pool_get s.command_pool).1 = some s3 ∧
        Gl450.uploads s3.trace = Gl450.uploads r.2.trace ++ [(s.heap a).take desc.data_size]) := by
  obtain ⟨r1, r2, r3, r4, _, r6, _, _⟩ := gl450_buffer_new_record fuel s desc a r hd hdata he
  have key : ∀ (s2 : Gl450.IRenoir) (fuel2 : Nat),
      s2.commands (pool_get s.command_pool).1 = r.2.commands (pool_get s.command_pool).1 →
      s2.heap s.heap_fresh = r.2.heap s.heap_fresh →
      ∃ s3, Gl450._renoir_gl450_command_execute fuel2 s2 (pool_get s.command_pool).1 = some s3 ∧
        Gl450.uploads s3.trace = Gl450.uploads s2.trace ++ [(s.heap a).take desc.data_size] := by
    intro s2 fuel2 hrec hblock
    obtain ⟨s3, e1, e2, _, _⟩ := gl450_execute_buffer_new_uploads fuel2 s2
      (pool_get s.command_pool).1 r.1 (by rw [hrec]; exact r1) (by rw [hrec]; exact r2)
    refine ⟨s3, e1, ?_⟩
    rw [e2, hrec, r3, r4]
    simp only [Option.isSome_some, if_true]
    have : Gl450.read_bytes s2.heap (some s.heap_fresh) desc.data_size
        = Gl450.read_bytes r.2.heap (some s.heap_fresh) desc.data_size := by
      simp only [Gl450.read_bytes, hblock]
    rw [this, r6]
  refine ⟨key, fun junk fuel2 => ?_⟩
  exact key (Gl450.caller_write r.2 a junk) fuel2 rfl (by
    show write r.2.heap a junk s.heap_fresh = _
    rw [write_apply, if_neg (fun e => ha e.symm)])

/-- Deferred copy, `buffer_new` on the GL backend, end to end: with nothing pending,
`buffer_new` with initial data at `a`, then any overwrite of the caller's block, then a
present; the present returns and the only bytes it hands to the device are those the block held
at the time of the call. -/
theorem gl450_buffer_new_run_uploads (fuel : Nat) (s : Gl450.IRenoir)
    (desc : Renoir_Buffer_Desc) (a : Nat) (r : Nat × Gl450.IRenoir)
    (hd : s.settings.defer_api_calls = true) (hdata : desc.data = some a)
    (ha : a ≠ s.heap_fresh)
    (htail : s.command_list_tail = none)
    (he : Gl450._renoir_gl450_buffer_new (fuel + 1) s desc = some r) (junk : List Nat)
    (swapchain : Nat) :
    (Gl450.buffer_new_run (fuel + 1) s desc a junk swapchain).map (fun s => Gl450.uploads s.trace)
      = some (Gl450.uploads s.trace ++ [(s.heap a).take desc.data_size]) := by
  obtain ⟨_, _, _, _, _, _, r7, r8⟩ := gl450_buffer_new_record (fuel + 1) s desc a r hd hdata he
  obtain ⟨q1, q2⟩ := r8 htail
  obtain ⟨s3, e1, e2⟩ := (gl450_buffer_new_copy_safe (fuel + 1) s desc a r hd hdata ha he).2
    junk fuel
  have e3 := (gl450_execute_buffer_new_uploads fuel (Gl450.caller_write r.2 a junk)
    (pool_get s.command_pool).1 r.1
    (gl450_buffer_new_record (fuel + 1) s desc a r hd hdata he).1
    (gl450_buffer_new_record (fuel + 1) s desc a r hd hdata he).2.1)
  obtain ⟨s3', e1', _, _, e5⟩ := e3
  rw [e1] at e1'
  simp only [Option.some.injEq] at e1'
  subst e1'
  unfold Gl450.buffer_new_run
  rw [he]
  simp only [Option.some_bind]
  unfold Gl450._renoir_gl450_swapchain_present
  have hh : (Gl450.caller_write r.2 a junk).command_list_head
      = some (pool_get s.command_pool).1 := q1
  rw [hh]
  have hnext : ((Gl450._renoir_gl450_command_free s3 (pool_get s.command_pool).1).commands
      (pool_get s.command_pool).1).next = none := by
    rw [gl450_command_free_commands, e5]
    exact q2
  have hdrain : Gl450.drain (fuel + 1) (Gl450.caller_write r.2 a junk)
      (some (pool_get s.command_pool).1)
      = some (Gl450._renoir_gl450_command_free s3 (pool_get s.command_pool).1) := by
    show (match Gl450._renoir_gl450_command_execute fuel (Gl450.caller_write r.2 a junk)
        (pool_get s.command_pool).1 with
      | none => none
      | some s1 => Gl450.drain fuel (Gl450._renoir_gl450_command_free s1 (pool_get s.command_pool).1)
          (((Gl450._renoir_gl450_command_free s1 (pool_get s.command_pool).1).commands
            (pool_get s.command_pool).1).next)) = _
    rw [e1]
    simp only []
    rw [hnext]
    cases fuel <;> rfl
  rw [hdrain]
  simp only [Option.map_some', Option.some.injEq]
  have hfree : Gl450.uploads (Gl450._renoir_gl450_command_free s3
      (pool_get s.command_pool).1).trace = Gl450.uploads s3.trace := by
    unfold Gl450._renoir_gl450_command_free
    simp only []
    split <;> (try split) <;> (try split) <;>
      simp [Gl450.mn_free, Gl450.emit, Gl450.uploads, List.filterMap_append]
  have hpres : Gl450.uploads (Gl450.emit (Gl450._renoir_gl450_command_free s3
      (pool_get s.command_pool).1) (Gl450.Event.present swapchain)).trace
      = Gl450.uploads (Gl450._renoir_gl450_command_free s3 (pool_get s.command_pool).1).trace := by
    simp [Gl450.emit, Gl450.uploads, List.filterMap_append]
  rw [hpres, hfree, e2, r7]

/-- The record `texture_write` leaves on the private list of the pass: it refers to a block
of its own, which reads as the caller's block did at the time of the call. -/
theorem gl450_texture_write_record (s s' : Gl450.IRenoir) (h : Nat) (texture : Ptr)
    (desc : Renoir_Texture_Edit_Desc) (a : Nat)
    (hb : desc.bytes = some a)
    (he : Gl450._renoir_gl450_texture_write s h texture desc = some s') :
    (s'.commands (pool_get s.command_pool).1).kind = .RENOIR_COMMAND_KIND_TEXTURE_WRITE ∧
    (s'.commands (pool_get s.command_pool).1).handle = texture ∧
    (s'.commands (pool_get s.command_pool).1).bytes = ⟨some s.heap_fresh, desc.bytes_size⟩ ∧
    Gl450.read_bytes s'.heap (some s.heap_fresh) desc.bytes_size
      = (s.heap a).take desc.bytes_size := by
  unfold Gl450._renoir_gl450_texture_write at he
  simp only [] at he
  simp only [Option.map_eq_some'] at he
  obtain ⟨s0, hm, rfl⟩ := he
  rw [hb] at hm
  obtain ⟨m1, m2, _, _, _, _, _, _⟩ := gl450_memcpy_reads _ _ _ _ _ hm
  have hs0c : s0.commands = write s.commands (pool_get s.command_pool).1
      { kind := .RENOIR_COMMAND_KIND_TEXTURE_WRITE, handle := texture,
        args := [desc.x, desc.y, desc.z, desc.width, desc.height, desc.depth],
        bytes := ⟨some s.heap_fresh, desc.bytes_size⟩ } := by
    rw [m2]
    simp [Gl450.set_command, Gl450.mn_alloc, Gl450._renoir_gl450_command_new, write_write]
  have hpay := gl450_push_payload
    ⟨(s0.handles h).pass.command_list_head, (s0.handles h).pass.command_list_tail⟩
    s0.commands (pool_get s.command_pool).1 (pool_get s.command_pool).1
  rw [hs0c, write_same] at hpay
  rw [← hs0c] at hpay
  exact ⟨congrArg Gl450.Renoir_Command.kind hpay, congrArg Gl450.Renoir_Command.handle hpay,
    congrArg Gl450.Renoir_Command.bytes hpay, m1⟩

/-! ### The two modes of command_process -/

theorem dx11_same_commands_refl (s : Dx11.IRenoir) : Dx11.same_commands s s :=
  ⟨rfl, rfl, rfl, rfl, rfl⟩

theorem dx11_same_commands_trans {a b c : Dx11.IRenoir} (h1 : Dx11.same_commands a b)
    (h2 : Dx11.same_commands b c) : Dx11.same_commands a c := by
  obtain ⟨a1, a2, a3, a4, a5⟩ := h1
  obtain ⟨b1, b2, b3, b4, b5⟩ := h2
  exact ⟨b1.trans a1, b2.trans a2, b3.trans a3, b4.trans a4, b5.trans a5⟩

theorem dx11_same_commands_foldl {α : Type} (f : Dx11.IRenoir → α → Dx11.IRenoir)
    (hf : ∀ s i, Dx11.same_commands s (f s i)) :
    ∀ (l : List α) (s : Dx11.IRenoir), Dx11.same_commands s (l.foldl f s) := by
  intro l
  induction l with
  | nil => intro s; exact dx11_same_commands_refl s
  | cons i l ih =>
    intro s
    exact dx11_same_commands_trans (hf s i) (ih (f s i))

theorem dx11_same_commands_release (s : Dx11.IRenoir) (p : Ptr) :
    Dx11.same_commands s (Dx11.release s p) := by
  unfold Dx11.same_commands Dx11.release
  simp [Dx11.executed, List.filterMap_append, Dx11.emit]

theorem dx11_same_commands_release_if (s : Dx11.IRenoir) (p : Ptr) :
    Dx11.same_commands s (Dx11.release_if s p) := by
  unfold Dx11.release_if
  split
  · exact dx11_same_commands_release s p
  · exact dx11_same_commands_refl s

theorem dx11_same_commands_handle_free (s : Dx11.IRenoir) (h : Nat) :
    Dx11.same_commands s (Dx11._renoir_dx11_handle_free s h) := by
  unfold Dx11.same_commands Dx11._renoir_dx11_handle_free
  simp [Dx11.executed, List.filterMap_append]

theorem dx11_same_commands_swapchain_new (s : Dx11.IRenoir) (h : Nat) :
    Dx11.same_commands s (Dx11._internal_renoir_dx11_swapchain_new s h) := by
  unfold Dx11.same_commands Dx11._internal_renoir_dx11_swapchain_new
  simp [Dx11.executed, List.filterMap_append, Dx11.set_handle, Dx11.device_create]

theorem dx11_same_commands_swapchain_release (s : Dx11.IRenoir) (h : Nat) :
    Dx11.same_commands s (Dx11.swapchain_release s h) := by
  unfold Dx11.same_commands Dx11.swapchain_release
  simp [Dx11.executed, List.filterMap_append, Dx11.release, Dx11.emit]

theorem dx11_same_commands_swapchain_free (s : Dx11.IRenoir) (h : Nat) :
    Dx11.same_commands s (Dx11.execute_swapchain_free s h) := by
  unfold Dx11.execute_swapchain_free
  simp only []
  split
  · exact ⟨rfl, rfl, rfl, rfl, rfl⟩
  · refine dx11_same_commands_trans ?_ (dx11_same_commands_handle_free _ _)
    refine dx11_same_commands_trans ?_ (dx11_same_commands_swapchain_release _ _)
    exact ⟨rfl, rfl, rfl, rfl, rfl⟩

theorem dx11_same_commands_swapchain_resize (s : Dx11.IRenoir) (h : Nat) (width height : Int) :
    Dx11.same_commands s (Dx11.execute_swapchain_resize s h width height) := by
  unfold Dx11.execute_swapchain_resize
  simp only []
  refine dx11_same_commands_trans ?_ (dx11_same_commands_swapchain_new _ _)
  refine dx11_same_commands_trans ?_ (dx11_same_commands_swapchain_release _ _)
  exact ⟨rfl, rfl, rfl, rfl, rfl⟩

theorem dx11_same_commands_offscreen_new_color (desc : Renoir_Pass_Offscreen_Desc) (h : Nat)
    (s : Dx11.IRenoir) (i : Nat) :
    Dx11.same_commands s (Dx11.offscreen_new_color desc h s i) := by
  unfold Dx11.same_commands Dx11.offscreen_new_color
  split <;>
    simp [Dx11.executed, List.filterMap_append, Dx11.set_handle, Dx11.device_create]

theorem dx11_same_commands_pass_offscreen_new (s : Dx11.IRenoir) (h : Nat)
    (desc : Renoir_Pass_Offscreen_Desc) :
    Dx11.same_commands s (Dx11.execute_pass_offscreen_new s h desc) := by
  unfold Dx11.execute_pass_offscreen_new
  simp only []
  have h1 : Dx11.same_commands s ((List.range RENOIR_CONSTANT_COLOR_ATTACHMENT_SIZE).foldl
      (Dx11.offscreen_new_color desc h) (Dx11.set_handle s h
        { s.handles h with pass := { (s.handles h).pass with offscreen := desc } })) :=
    dx11_same_commands_trans (b := Dx11.set_handle s h
        { s.handles h with pass := { (s.handles h).pass with offscreen := desc } })
      ⟨rfl, rfl, rfl, rfl, rfl⟩
      (dx11_same_commands_foldl _ (dx11_same_commands_offscreen_new_color desc h) _ _)
  split
  · exact h1
  · refine dx11_same_commands_trans h1 ?_
    unfold Dx11.same_commands
    simp [Dx11.executed, List.filterMap_append, Dx11.set_handle, Dx11.device_create]

theorem dx11_same_commands_buffer_new (s : Dx11.IRenoir) (h : Nat) (desc : Renoir_Buffer_Desc) :
    Dx11.same_commands s (Dx11.execute_buffer_new s h desc) := by
  unfold Dx11.same_commands Dx11.execute_buffer_new
  simp only []
  (repeat' split) <;>
    simp [Dx11.executed, List.filterMap_append, Dx11.set_handle, Dx11.device_create,
      Dx11.device_upload]

theorem dx11_same_commands_buffer_free (s : Dx11.IRenoir) (h : Nat) :
    Dx11.same_commands s (Dx11.execute_buffer_free s h) := by
  unfold Dx11.execute_buffer_free
  simp only []
  split
  · exact ⟨rfl, rfl, rfl, rfl, rfl⟩
  · refine dx11_same_commands_trans ?_ (dx11_same_commands_handle_free _ _)
    refine dx11_same_commands_trans ?_ (dx11_same_commands_release_if _ _)
    refine dx11_same_commands_trans ?_ (dx11_same_commands_release _ _)
    exact ⟨rfl, rfl, rfl, rfl, rfl⟩

theorem dx11_same_commands_texture_new (s : Dx11.IRenoir) (h : Nat)
    (desc : Renoir_Texture_Desc) :
    Dx11.same_commands s (Dx11.execute_texture_new s h desc) := by
  unfold Dx11.same_commands Dx11.execute_texture_new
  simp only []
  (repeat' split) <;>
    simp [Dx11.executed, List.filterMap_append, Dx11.set_handle, Dx11.device_create,
      Dx11.device_upload]

theorem dx11_same_commands_texture_free (s : Dx11.IRenoir) (h : Nat) :
    Dx11.same_commands s (Dx11.execute_texture_free s h) := by
  unfold Dx11.execute_texture_free
  simp only []
  split
  · exact ⟨rfl, rfl, rfl, rfl, rfl⟩
  · refine dx11_same_commands_trans ?_ (dx11_same_commands_handle_free _ _)
    iterate 8 refine dx11_same_commands_trans ?_ (dx11_same_commands_release_if _ _)
    exact ⟨rfl, rfl, rfl, rfl, rfl⟩

theorem dx11_same_commands_sampler_new (s : Dx11.IRenoir) (h : Nat)
    (desc : Renoir_Sampler_Desc) :
    Dx11.same_commands s (Dx11.execute_sampler_new s h desc) := by
  unfold Dx11.same_commands Dx11.execute_sampler_new
  simp [Dx11.executed, List.filterMap_append, Dx11.set_handle]

theorem dx11_same_commands_sampler_free (s : Dx11.IRenoir) (h : Nat) :
    Dx11.same_commands s (Dx11.execute_sampler_free s h) := by
  unfold Dx11.execute_sampler_free
  simp only []
  split
  · exact ⟨rfl, rfl, rfl, rfl, rfl⟩
  · refine dx11_same_commands_trans ?_ (dx11_same_commands_handle_free _ _)
    refine dx11_same_commands_trans ?_ (dx11_same_commands_release _ _)
    exact ⟨rfl, rfl, rfl, rfl, rfl⟩

theorem dx11_same_commands_program_new (s : Dx11.IRenoir) (h : Nat)
    (desc : Renoir_Program_Desc) :
    Dx11.same_commands s (Dx11.execute_program_new s h desc) := by
  unfold Dx11.same_commands Dx11.execute_program_new
  simp only []
  (repeat' split) <;>
    simp [Dx11.executed, List.filterMap_append, Dx11.set_handle, Dx11.device_create,
      Dx11.release, Dx11.emit]

theorem dx11_same_commands_program_free (s : Dx11.IRenoir) (h : Nat) :
    Dx11.same_commands s (Dx11.execute_program_free s h) := by
  unfold Dx11.execute_program_free
  simp only []
  split
  · exact ⟨rfl, rfl, rfl, rfl, rfl⟩
  · refine dx11_same_commands_trans ?_ (dx11_same_commands_handle_free _ _)
    iterate 5 refine dx11_same_commands_trans ?_ (dx11_same_commands_release_if _ _)
    exact ⟨rfl, rfl, rfl, rfl, rfl⟩

theorem dx11_same_commands_compute_new (s : Dx11.IRenoir) (h : Nat)
    (desc : Renoir_Program_Desc) :
    Dx11.same_commands s (Dx11.execute_compute_new s h desc) := by
  unfold Dx11.same_commands Dx11.execute_compute_new
  simp only []
  (repeat' split) <;>
    simp [Dx11.executed, List.filterMap_append, Dx11.set_handle, Dx11.device_create,
      Dx11.release, Dx11.emit]

theorem dx11_same_commands_compute_free (s : Dx11.IRenoir) (h : Nat) :
    Dx11.same_commands s (Dx11.execute_compute_free s h) := by
  unfold Dx11.execute_compute_free
  simp only []
  split
  · exact ⟨rfl, rfl, rfl, rfl, rfl⟩
  · refine dx11_same_commands_trans ?_ (dx11_same_commands_handle_free _ _)
    refine dx11_same_commands_trans ?_ (dx11_same_commands_release_if _ _)
    exact ⟨rfl, rfl, rfl, rfl, rfl⟩

theorem dx11_same_commands_pipeline_new (s : Dx11.IRenoir) (h : Nat) :
    Dx11.same_commands s (Dx11.execute_pipeline_new s h) := by
  unfold Dx11.same_commands Dx11.execute_pipeline_new
  simp [Dx11.executed, List.filterMap_append, Dx11.set_handle, Dx11.device_create]

theorem dx11_same_commands_pipeline_free (s : Dx11.IRenoir) (h : Nat) :
    Dx11.same_commands s (Dx11.execute_pipeline_free s h) := by
  unfold Dx11.execute_pipeline_free
  simp only []
  split
  · exact ⟨rfl, rfl, rfl, rfl, rfl⟩
  · refine dx11_same_commands_trans ?_ (dx11_same_commands_handle_free _ _)
    iterate 3 refine dx11_same_commands_trans ?_ (dx11_same_commands_release_if _ _)
    exact ⟨rfl, rfl, rfl, rfl, rfl⟩

theorem dx11_same_commands_executed {s s' : Dx11.IRenoir} (c : Nat)
    (h : Dx11.same_commands (Dx11.emit s (Dx11.Event.command_execute c (s.commands c))) s') :
    s'.commands = s.commands ∧ s'.command_pool = s.command_pool ∧
    s'.command_list_head = s.command_list_head ∧
    s'.command_list_tail = s.command_list_tail ∧
    Dx11.executed s'.trace = Dx11.executed s.trace ++ [(c, s.commands c)] := by
  obtain ⟨h1, h2, h3, h4, h5⟩ := h
  refine ⟨h1, h2, h3, h4, ?_⟩
  rw [h5]
  show Dx11.executed (s.trace ++ [_]) = _
  rw [dx11_executed_append]
  rfl

/-- Executing a record of any kind but `PASS_FREE` changes neither the command records,
nor the command pool, nor the pointers of the device-wide list, and is one entry of the
log of executed records. -/
theorem dx11_execute_same_commands (fuel : Nat) (s s' : Dx11.IRenoir) (c : Nat)
    (hk : (s.commands c).kind ≠ .RENOIR_COMMAND_KIND_PASS_FREE)
    (he : Dx11._renoir_dx11_command_execute fuel s c = some s') :
    s'.commands = s.commands ∧ s'.command_pool = s.command_pool ∧
    s'.command_list_head = s.command_list_head ∧
    s'.command_list_tail = s.command_list_tail ∧
    Dx11.executed s'.trace = Dx11.executed s.trace ++ [(c, s.commands c)] := by
  by_cases hr : Dx11.recordable (s.commands c).kind = true
  · obtain ⟨⟨a1, a2, a3, a4, _⟩, a5⟩ := dx11_execute_recordable fuel s s' c hr he
    exact ⟨a1, a2, a3, a4, a5⟩
  · unfold Dx11._renoir_dx11_command_execute at he
    cases hkind : (s.commands c).kind <;> rw [hkind] at hr hk <;>
      first
      | exact absurd rfl hk
      | exact absurd rfl hr
      | skip
    all_goals simp only [hkind] at he
    all_goals first
      | exact Option.noConfusion he
      | (simp only [Option.some.injEq] at he
         subst he
         exact dx11_same_commands_executed c (dx11_same_commands_refl _))
      | skip
    all_goals
      simp only [Option.map_eq_some'] at he
      obtain ⟨h, _, rfl⟩ := he
      apply dx11_same_commands_executed c
      first
      | with_reducible exact dx11_same_commands_swapchain_new _ _
      | with_reducible exact dx11_same_commands_swapchain_free _ _
      | with_reducible exact dx11_same_commands_swapchain_resize _ _ _ _
      | with_reducible exact dx11_same_commands_pass_offscreen_new _ _ _
      | with_reducible exact dx11_same_commands_buffer_new _ _ _
      | with_reducible exact dx11_same_commands_buffer_free _ _
      | with_reducible exact dx11_same_commands_texture_new _ _ _
      | with_reducible exact dx11_same_commands_texture_free _ _
      | with_reducible exact dx11_same_commands_sampler_new _ _ _
      | with_reducible exact dx11_same_commands_sampler_free _ _
      | with_reducible exact dx11_same_commands_program_new _ _ _
      | with_reducible exact dx11_same_commands_program_free _ _
      | with_reducible exact dx11_same_commands_compute_new _ _ _
      | with_reducible exact dx11_same_commands_compute_free _ _
      | with_reducible exact dx11_same_commands_pipeline_new _ _
      | with_reducible exact dx11_same_commands_pipeline_free _ _
      | (unfold Dx11.same_commands
         simp [Dx11.executed, List.filterMap_append, Dx11.set_handle, Dx11.emit])

theorem dx11_keeps_refl (D : List Nat) (s : Dx11.IRenoir) : Dx11.keeps_list D s s :=
  fun ha => ⟨rfl, rfl, fun _ _ => rfl, ha, [], (List.append_nil _).symm, by simp⟩

theorem dx11_keeps_trans {D : List Nat} {a b c : Dx11.IRenoir} (h1 : Dx11.keeps_list D a b)
    (h2 : Dx11.keeps_list D b c) : Dx11.keeps_list D a c := by
  intro ha
  obtain ⟨a1, a2, a3, a4, r1, a5, a6⟩ := h1 ha
  obtain ⟨b1, b2, b3, b4, r2, b5, b6⟩ := h2 a4
  refine ⟨b1.trans a1, b2.trans a2, fun x hx => (b3 x hx).trans (a3 x hx), b4, r1 ++ r2, ?_, ?_⟩
  · rw [b5, a5, List.append_assoc]
  · intro r hr
    rcases List.mem_append.mp hr with hr | hr
    · exact a6 r hr
    · exact b6 r hr

theorem dx11_keeps_of_same {D : List Nat} {s s' : Dx11.IRenoir}
    (h : Dx11.same_commands s s') : Dx11.keeps_list D s s' := by
  obtain ⟨h1, h2, h3, h4, h5⟩ := h
  intro ha
  refine ⟨h3, h4, fun x _ => by rw [h1], ?_, [], by rw [h5, List.append_nil], by simp⟩
  rw [h2]; exact ha

theorem dx11_keeps_foldl {α : Type} (D : List Nat) (f : Dx11.IRenoir → α → Dx11.IRenoir)
    (hf : ∀ s i, Dx11.keeps_list D s (f s i)) :
    ∀ (l : List α) (s : Dx11.IRenoir), Dx11.keeps_list D s (l.foldl f s) := by
  intro l
  induction l with
  | nil => intro s; exact dx11_keeps_refl D s
  | cons i l ih =>
    intro s
    exact dx11_keeps_trans (hf s i) (ih (f s i))

/-- Freeing a record that is not in `D`. -/
theorem dx11_keeps_command_free (D : List Nat) (s : Dx11.IRenoir) (c : Nat) (hc : c ∉ D) :
    Dx11.keeps_list D s (Dx11._renoir_dx11_command_free s c) := by
  obtain ⟨f1, f2, f3, f4, _, _, _, _, f9⟩ := dx11_command_free_frame s c
  intro ha
  refine ⟨f3, f4, fun x _ => by rw [f1], ?_, [], by rw [f9, List.append_nil], by simp⟩
  intro x hx
  rw [f2]
  refine ⟨?_, (ha x hx).2⟩
  show x ∉ c :: s.command_pool.free
  intro hm
  rcases List.mem_cons.mp hm with e | e
  · exact hc (e ▸ hx)
  · exact (ha x hx).1 e

/-- The block `pool_get` hands out is none of the allocated blocks `D`, and these stay
allocated. -/
theorem pool_get_keeps (p : Pool) (D : List Nat)
    (ha : ∀ x ∈ D, x ∉ p.free ∧ x < p.fresh) :
    (pool_get p).1 ∉ D ∧ ∀ x ∈ D, x ∉ (pool_get p).2.free ∧ x < (pool_get p).2.fresh := by
  unfold pool_get
  cases hf : p.free with
  | nil =>
    simp only []
    refine ⟨fun hm => Nat.lt_irrefl _ (ha _ hm).2, fun x hx => ⟨by simp, ?_⟩⟩
    exact Nat.lt_succ_of_lt (ha x hx).2
  | cons a rest =>
    simp only []
    refine ⟨fun hm => (ha a hm).1 (by rw [hf]; exact List.mem_cons_self _ _), fun x hx => ?_⟩
    refine ⟨fun hm => (ha x hx).1 (by rw [hf]; exact List.mem_cons_of_mem _ hm), (ha x hx).2⟩

theorem dx11_executed_emit_execute (s : Dx11.IRenoir) (c : Nat) (r : Dx11.Renoir_Command) :
    Dx11.executed (Dx11.emit s (Dx11.Event.command_execute c r)).trace
      = Dx11.executed s.trace ++ [(c, r)] := by
  show Dx11.executed (s.trace ++ [_]) = _
  rw [dx11_executed_append]
  rfl

/-- The nested `TEXTURE_FREE` of the `PASS_FREE` handler. -/
theorem dx11_keeps_pass_free_texture (D : List Nat) (s : Dx11.IRenoir) (texture : Nat) :
    Dx11.keeps_list D s (Dx11.pass_free_texture s texture) := by
  intro ha
  obtain ⟨g1, g2⟩ := pool_get_keeps s.command_pool D ha
  unfold Dx11.pass_free_texture
  simp only []
  refine (dx11_keeps_trans (dx11_keeps_trans ?_
    (dx11_keeps_of_same (dx11_same_commands_texture_free _ texture)))
    (dx11_keeps_command_free D _ _ g1)) ha
  intro _
  refine ⟨rfl, rfl, fun x hx => ?_, g2, [_], dx11_executed_emit_execute _ _ _, ?_⟩
  · show write (write s.commands _ _) _ _ x = _
    have hne : x ≠ (pool_get s.command_pool).1 := fun e => g1 (e ▸ hx)
    have hne' : x ≠ (Dx11._renoir_dx11_command_new s .RENOIR_COMMAND_KIND_TEXTURE_FREE).1 := hne
    rw [write_apply, if_neg hne']
    show write s.commands _ _ x = _
    rw [write_apply, if_neg hne]
  · intro r hr
    rw [List.mem_singleton.mp hr]
    simp [Dx11.set_command, Dx11._renoir_dx11_command_new, write_same]

theorem dx11_keeps_pass_free_color (D : List Nat) (h : Nat) (s : Dx11.IRenoir) (i : Nat) :
    Dx11.keeps_list D s (Dx11.pass_free_color h s i) := by
  unfold Dx11.pass_free_color
  split
  · exact dx11_keeps_refl D s
  · exact dx11_keeps_trans (dx11_keeps_of_same (dx11_same_commands_release _ _))
      (dx11_keeps_pass_free_texture D _ _)

/-- The loop of `PASS_FREE` over the pending records frees `command`, which is not in
`D`. -/
theorem dx11_keeps_pass_free_pending (D : List Nat) (command : Nat) (hc : command ∉ D) :
    ∀ (fuel : Nat) (s s' : Dx11.IRenoir) (p : Ptr),
      Dx11.pass_free_pending fuel s command p = some s' → Dx11.keeps_list D s s' := by
  intro fuel
  induction fuel with
  | zero =>
    intro s s' p he
    cases p with
    | none =>
      simp only [Dx11.pass_free_pending, Option.some.injEq] at he
      subst he
      exact dx11_keeps_refl D s
    | some it => simp [Dx11.pass_free_pending] at he
  | succ fuel ih =>
    intro s s' p he
    cases p with
    | none =>
      simp only [Dx11.pass_free_pending, Option.some.injEq] at he
      subst he
      exact dx11_keeps_refl D s
    | some it =>
      simp only [Dx11.pass_free_pending] at he
      exact dx11_keeps_trans (dx11_keeps_command_free D s command hc) (ih _ _ _ he)

/-- The `PASS_FREE` handler keeps every list that does not hold the record executed. -/
theorem dx11_keeps_pass_free (D : List Nat) (fuel : Nat) (s s' : Dx11.IRenoir)
    (command h : Nat) (hc : command ∉ D)
    (he : Dx11.execute_pass_free fuel s command h = some s') :
    Dx11.keeps_list D s s' := by
  unfold Dx11.execute_pass_free at he
  simp only [] at he
  split at he
  · simp only [Option.some.injEq] at he
    subst he
    exact dx11_keeps_of_same ⟨rfl, rfl, rfl, rfl, rfl⟩
  · split at he
    · exact Option.noConfusion he
    · rename_i s1 hp
      simp only [Option.some.injEq] at he
      subst he
      have h0 : Dx11.keeps_list D s s1 :=
        dx11_keeps_trans (@dx11_keeps_of_same D s { s with handles :=
          (Dx11._renoir_dx11_handle_unref s.handles h).2 } ⟨rfl, rfl, rfl, rfl, rfl⟩)
          (dx11_keeps_pass_free_pending D command hc _ _ _ _ hp)
      refine dx11_keeps_trans (dx11_keeps_trans h0 ?_)
        (dx11_keeps_of_same (dx11_same_commands_handle_free _ _))
      split
      · have h1 := dx11_keeps_foldl D (Dx11.pass_free_color h)
          (dx11_keeps_pass_free_color D h) (List.range RENOIR_CONSTANT_COLOR_ATTACHMENT_SIZE) s1
        split
        · exact h1
        · exact dx11_keeps_trans h1 (dx11_keeps_trans
            (dx11_keeps_of_same (dx11_same_commands_release _ _))
            (dx11_keeps_pass_free_texture D _ _))
      · exact dx11_keeps_refl D s1

/-- Executing a record `c` of any kind keeps every list of allocated records that does
not hold `c`; the log of executed records gains `c`, followed by the nested
`TEXTURE_FREE` commands of a `PASS_FREE`. -/
theorem dx11_execute_keeps (D : List Nat) (fuel : Nat) (s s' : Dx11.IRenoir) (c : Nat)
    (hc : c ∉ D) (ha : ∀ x ∈ D, x ∉ s.command_pool.free ∧ x < s.command_pool.fresh)
    (he : Dx11._renoir_dx11_command_execute fuel s c = some s') :
    s'.command_list_head = s.command_list_head ∧
    s'.command_list_tail = s.command_list_tail ∧
    (∀ x ∈ D, s'.commands x = s.commands x) ∧
    (∀ x ∈ D, x ∉ s'.command_pool.free ∧ x < s'.command_pool.fresh) ∧
    ∃ rest, Dx11.executed s'.trace = Dx11.executed s.trace ++ (c, s.commands c) :: rest ∧
      (∀ r ∈ rest, r.2.kind = .RENOIR_COMMAND_KIND_TEXTURE_FREE) ∧
      ((s.commands c).kind ≠ .RENOIR_COMMAND_KIND_PASS_FREE → rest = []) := by
  by_cases hk : (s.commands c).kind = .RENOIR_COMMAND_KIND_PASS_FREE
  · unfold Dx11._renoir_dx11_command_execute at he
    simp only [hk, Option.bind_eq_some] at he
    obtain ⟨h, _, he⟩ := he
    obtain ⟨k1, k2, k3, k4, rest, k5, k6⟩ := dx11_keeps_pass_free D fuel _ s' c h hc he ha
    refine ⟨k1, k2, k3, k4, rest, ?_, k6, fun hn => absurd hk hn⟩
    rw [k5, dx11_executed_emit_execute, List.append_assoc]
    rfl
  · obtain ⟨e1, e2, e3, e4, e5⟩ := dx11_execute_same_commands fuel s s' c hk he
    refine ⟨e3, e4, fun x _ => by rw [e1], ?_, [], e5, by simp, fun _ => rfl⟩
    rw [e2]; exact ha

/-- Pushing an unlinked record that is not on the list `D` onto `D`. -/
theorem chain_push_self {κ : Type} (L : Links κ) (D : List Nat) (c : Nat)
    (hc : chain L.next L.head D) (ht : L.tail = D.getLast?) (hD : c ∉ D)
    (hn : L.next c = none) :
    chain (L.push_self c).next (L.push_self c).head (D ++ [c]) ∧
    (L.push_self c).tail = some c := by
  cases hp : D with
  | nil =>
    have hpt : L.tail = none := by rw [ht, hp]; rfl
    have e : L.push_self c = { L with head := some c, tail := some c } := by
      simp only [Links.push_self, hpt]
    rw [e]
    exact ⟨⟨rfl, hn⟩, rfl⟩
  | cons y l =>
    have hlast : D.getLast? = some ((y :: l).getLast (by simp)) := by
      rw [hp]; exact List.getLast?_eq_getLast _ _
    obtain ⟨t, ht'⟩ : ∃ t, D.getLast? = some t := ⟨_, hlast⟩
    have hpt : L.tail = some t := by rw [ht, ht']
    have htm : t ∈ D := List.mem_of_getLast?_eq_some ht'
    have e : L.push_self c = { L with next := write L.next t (some c), tail := some c } := by
      simp only [Links.push_self, hpt]
    have hct : c ≠ t := fun e => hD (e ▸ htm)
    rw [← hp, e]
    refine ⟨?_, rfl⟩
    refine chain_append L.next _ [c] (some c) D _ t hc ht' ⟨rfl, hn⟩
      (by simpa using fun e => hct e.symm) (write_same _ _ _) ?_
    intro x hx
    show write L.next t (some c) x = L.next x
    rw [write_apply, if_neg hx]

/-- What `command_push` stores: only `next` and `prev` members. -/
theorem dx11_push_self_payload (s : Dx11.IRenoir) (c x : Nat) :
    { (Dx11.command_push_self s c).commands x with next := none, prev := none }
      = { s.commands x with next := none, prev := none } := by
  cases ht : s.command_list_tail with
  | none =>
    have hp := dx11_push_none ⟨s.command_list_head, s.command_list_tail⟩ s.commands c ht
    show ({ (Dx11._renoir_dx11_command_push ⟨s.command_list_head, s.command_list_tail⟩
      s.commands c).2 x with next := none, prev := none } : Dx11.Renoir_Command) = _
    rw [hp]
  | some t =>
    show ({ (Dx11._renoir_dx11_command_push ⟨s.command_list_head, s.command_list_tail⟩
      s.commands c).2 x with next := none, prev := none } : Dx11.Renoir_Command) = _
    simp only [Dx11._renoir_dx11_command_push, ht, write_apply]
    by_cases h1 : x = c
    · subst h1
      by_cases h2 : x = t
      · subst h2; simp
      · simp [h2]
    · by_cases h2 : x = t
      · subst h2; simp [h1]
      · simp [h1, h2]

/-- Deferred mode: `command_process` returns for every record, appends it at the tail of
the device-wide list and executes nothing. -/
theorem dx11_process_deferred (fuel : Nat) (s : Dx11.IRenoir) (c : Nat)
    (hd : s.settings.defer_api_calls = true) :
    ∃ s', Dx11._renoir_dx11_command_process fuel s c = some s' ∧
      s'.handles = s.handles ∧ s'.handle_pool = s.handle_pool ∧
      s'.command_pool = s.command_pool ∧ s'.heap = s.heap ∧
      s'.native_fresh = s.native_fresh ∧
      s'.trace = s.trace ++ [Dx11.Event.command_process c (s.commands c)] ∧
      Dx11.executed s'.trace = Dx11.executed s.trace ∧
      (∀ x, ({ s'.commands x with next := none, prev := none } : Dx11.Renoir_Command)
        = { s.commands x with next := none, prev := none }) ∧
      (∀ D : List Nat,
        Dx11.list_records s.commands D.length s.command_list_head = some D →
        s.command_list_tail = D.getLast? → c ∉ D → (s.commands c).next = none →
        Dx11.list_records s'.commands (D.length + 1) s'.command_list_head = some (D ++ [c]) ∧
        s'.command_list_tail = some c) := by
  have hd1 : (Dx11.emit s (Dx11.Event.command_process c
      (s.commands c))).settings.defer_api_calls = true := hd
  refine ⟨Dx11.command_push_self (Dx11.emit s (Dx11.Event.command_process c (s.commands c))) c,
    ?_, rfl, rfl, rfl, rfl, rfl, rfl, ?_, ?_, ?_⟩
  · unfold Dx11._renoir_dx11_command_process
    simp only []
    rw [if_pos hd1]
  · show Dx11.executed (s.trace ++ [_]) = _
    rw [dx11_executed_append]
    simp [Dx11.executed]
  · intro x
    exact dx11_push_self_payload _ c x
  · intro D hl ht hD hn
    have hch := ((dx11_list_records_iff _ _ _ _).mp hl).1
    have hlinks := dx11_links_push_self
      (Dx11.emit s (Dx11.Event.command_process c (s.commands c))) c
    obtain ⟨q1, q2⟩ := chain_push_self
      (Dx11.links (Dx11.emit s (Dx11.Event.command_process c (s.commands c)))) D c hch ht hD hn
    rw [← hlinks] at q1 q2
    refine ⟨(dx11_list_records_iff _ _ _ _).mpr ⟨q1, by simp⟩, q2⟩

/-- Immediate mode: `command_process` is one execution of the record followed by its
release; the device-wide list is left as it was. -/
theorem dx11_process_immediate (fuel : Nat) (s : Dx11.IRenoir) (c : Nat)
    (hd : s.settings.defer_api_calls = false) :
    Dx11._renoir_dx11_command_process fuel s c
      = (Dx11._renoir_dx11_command_execute fuel
          (Dx11.emit s (Dx11.Event.command_process c (s.commands c))) c).map
          (fun s1 => Dx11._renoir_dx11_command_free s1 c) ∧
    ∀ s', Dx11._renoir_dx11_command_process fuel s c = some s' →
      s'.command_list_head = s.command_list_head ∧
      s'.command_list_tail = s.command_list_tail ∧
      (∃ rest, Dx11.executed s'.trace = Dx11.executed s.trace ++ (c, s.commands c) :: rest ∧
        (∀ r ∈ rest, r.2.kind = .RENOIR_COMMAND_KIND_TEXTURE_FREE) ∧
        ((s.commands c).kind ≠ .RENOIR_COMMAND_KIND_PASS_FREE → rest = [])) ∧
      (∃ l, s'.command_pool.free = c :: l) ∧
      ((s.commands c).kind ≠ .RENOIR_COMMAND_KIND_PASS_FREE →
        s'.commands = s.commands ∧ s'.command_pool = pool_put s.command_pool c) ∧
      (∀ D : List Nat,
        Dx11.list_records s.commands D.length s.command_list_head = some D → c ∉ D →
        (∀ x ∈ D, x ∉ s.command_pool.free ∧ x < s.command_pool.fresh) →
        Dx11.list_records s'.commands D.length s'.command_list_head = some D ∧
        ∀ x ∈ D, s'.commands x = s.commands x) := by
  have hd1 : ¬ (Dx11.emit s (Dx11.Event.command_process c
      (s.commands c))).settings.defer_api_calls = true := by
    show ¬ s.settings.defer_api_calls = true
    rw [hd]; simp
  have hproc : Dx11._renoir_dx11_command_process fuel s c
      = (Dx11._renoir_dx11_command_execute fuel
          (Dx11.emit s (Dx11.Event.command_process c (s.commands c))) c).map
          (fun s1 => Dx11._renoir_dx11_command_free s1 c) := by
    unfold Dx11._renoir_dx11_command_process
    simp only []
    rw [if_neg hd1]
    cases Dx11._renoir_dx11_command_execute fuel
      (Dx11.emit s (Dx11.Event.command_process c (s.commands c))) c <;> rfl
  refine ⟨hproc, fun s' he => ?_⟩
  rw [hproc] at he
  simp only [Option.map_eq_some'] at he
  obtain ⟨s1, he, rfl⟩ := he
  obtain ⟨f1, f2, f3, f4, _, _, _, _, f9⟩ := dx11_command_free_frame s1 c
  have hex0 : Dx11.executed (Dx11.emit s (Dx11.Event.command_process c (s.commands c))).trace
      = Dx11.executed s.trace := by
    show Dx11.executed (s.trace ++ [_]) = _
    rw [dx11_executed_append]
    simp [Dx11.executed]
  obtain ⟨k1, k2, _, _, rest, k5, k6, k7⟩ := dx11_execute_keeps [] fuel
    (Dx11.emit s (Dx11.Event.command_process c (s.commands c))) s1 c (by simp) (by simp) he
  refine ⟨f3.trans k1, f4.trans k2, ⟨rest, ?_, k6, k7⟩, ⟨s1.command_pool.free, ?_⟩, ?_, ?_⟩
  · rw [f9, k5, hex0]; rfl
  · rw [f2]; rfl
  · intro hk
    obtain ⟨e1, e2, _, _, _⟩ := dx11_execute_same_commands fuel
      (Dx11.emit s (Dx11.Event.command_process c (s.commands c))) s1 c hk he
    exact ⟨f1.trans e1, by rw [f2, e2]; rfl⟩
  · intro D hl hD ha
    obtain ⟨_, _, d3, _, _⟩ := dx11_execute_keeps D fuel
      (Dx11.emit s (Dx11.Event.command_process c (s.commands c))) s1 c hD ha he
    have hsame : ∀ x ∈ D, (Dx11._renoir_dx11_command_free s1 c).commands x = s.commands x := by
      intro x hx
      rw [f1]
      exact d3 x hx
    refine ⟨?_, hsame⟩
    have hch := (dx11_list_records_iff _ _ _ _).mp hl
    refine (dx11_list_records_iff _ _ _ _).mpr ⟨?_, hch.2⟩
    rw [f3.trans k1]
    refine chain_frame _ _ _ _ (fun x hx => ?_) hch.1
    show ((Dx11._renoir_dx11_command_free s1 c).commands x).next = (s.commands x).next
    rw [hsame x hx]

/-- Immediate mode: when `command_process` returns.  A command on a resource (any kind
the pass functions do not record) with a handle that is not null returns for every
fuel; `PASS_FREE` returns when the fuel covers the pending records of the pass. -/
theorem dx11_process_immediate_returns (fuel : Nat) (s : Dx11.IRenoir) (c h : Nat)
    (hd : s.settings.defer_api_calls = false) (hh : (s.commands c).handle = some h) :
    (Dx11.recordable (s.commands c).kind = false →
      (s.commands c).kind ≠ .RENOIR_COMMAND_KIND_NONE →
      (s.commands c).kind ≠ .RENOIR_COMMAND_KIND_PASS_FREE →
      (Dx11._renoir_dx11_command_process fuel s c).isSome = true) ∧
    ((s.commands c).kind = .RENOIR_COMMAND_KIND_PASS_FREE →
      (Dx11.list_records s.commands fuel (s.handles h).pass.command_list_head).isSome = true →
      (Dx11._renoir_dx11_command_process fuel s c).isSome = true) := by
  rw [(dx11_process_immediate fuel s c hd).1]
  simp only [Option.isSome_map']
  have hh1 : ((Dx11.emit s (Dx11.Event.command_process c (s.commands c))).commands c).handle
      = some h := hh
  constructor
  · intro hr h1 h2
    unfold Dx11._renoir_dx11_command_execute
    simp only [hh1]
    have hkk : ((Dx11.emit s (Dx11.Event.command_process c (s.commands c))).commands c).kind
        = (s.commands c).kind := rfl
    rw [hkk]
    cases hkind : (s.commands c).kind <;> rw [hkind] at hr h1 h2 <;>
      first
      | exact absurd rfl h1
      | exact absurd rfl h2
      | exact absurd hr (by decide)
      | rfl
  · intro hk hl
    unfold Dx11._renoir_dx11_command_execute
    have hkk : ((Dx11.emit s (Dx11.Event.command_process c (s.commands c))).commands c).kind
        = .RENOIR_COMMAND_KIND_PASS_FREE := hk
    simp only [hh1, hkk, Option.some_bind]
    unfold Dx11.execute_pass_free
    simp only []
    split
    · rfl
    · split
      · rename_i hnone
        exact absurd hnone (dx11_pass_free_pending_ne_none fuel _ c _ (by
          show (Dx11.list_records s.commands fuel
            ((write s.handles h _ h).pass.command_list_head)).isSome = true
          rw [write_same]
          exact hl))
      · rfl

theorem gl450_same_commands_refl (s : Gl450.IRenoir) : Gl450.same_commands s s :=
  ⟨rfl, rfl, rfl, rfl, rfl⟩

theorem gl450_same_commands_trans {a b c : Gl450.IRenoir} (h1 : Gl450.same_commands a b)
    (h2 : Gl450.same_commands b c) : Gl450.same_commands a c := by
  obtain ⟨a1, a2, a3, a4, a5⟩ := h1
  obtain ⟨b1, b2, b3, b4, b5⟩ := h2
  exact ⟨b1.trans a1, b2.trans a2, b3.trans a3, b4.trans a4, b5.trans a5⟩

theorem gl450_same_commands_foldl {α : Type} (f : Gl450.IRenoir → α → Gl450.IRenoir)
    (hf : ∀ s i, Gl450.same_commands s (f s i)) :
    ∀ (l : List α) (s : Gl450.IRenoir), Gl450.same_commands s (l.foldl f s) := by
  intro l
  induction l with
  | nil => intro s; exact gl450_same_commands_refl s
  | cons i l ih =>
    intro s
    exact gl450_same_commands_trans (hf s i) (ih (f s i))

theorem gl450_same_commands_handle_free (s : Gl450.IRenoir) (h : Nat) :
    Gl450.same_commands s (Gl450._renoir_gl450_handle_free s h) := by
  unfold Gl450.same_commands Gl450._renoir_gl450_handle_free
  simp [Gl450.executed, List.filterMap_append]

theorem gl450_same_commands_offscreen_new_color (desc : Renoir_Pass_Offscreen_Desc)
    (s : Gl450.IRenoir) (i : Nat) :
    Gl450.same_commands s (Gl450.offscreen_new_color desc s i) := by
  unfold Gl450.offscreen_new_color
  split <;> exact ⟨rfl, rfl, rfl, rfl, rfl⟩

theorem gl450_same_commands_pass_offscreen_new (s : Gl450.IRenoir) (h : Nat)
    (desc : Renoir_Pass_Offscreen_Desc) :
    Gl450.same_commands s (Gl450.execute_pass_offscreen_new s h desc) := by
  unfold Gl450.execute_pass_offscreen_new
  simp only []
  have h0 : Gl450.same_commands s (Gl450.set_handle (Gl450.gl_create (Gl450.set_handle s h
      { s.handles h with pass := { (s.handles h).pass with offscreen := desc } })).2 h
      { (Gl450.gl_create (Gl450.set_handle s h
          { s.handles h with pass := { (s.handles h).pass with offscreen := desc } })).2.handles h
        with pass := { ((Gl450.gl_create (Gl450.set_handle s h
          { s.handles h with pass := { (s.handles h).pass with offscreen := desc } })).2.handles
            h).pass with fb := (Gl450.gl_create (Gl450.set_handle s h
          { s.handles h with pass := { (s.handles h).pass with offscreen := desc } })).1 } }) := by
    unfold Gl450.same_commands
    simp [Gl450.executed, List.filterMap_append, Gl450.set_handle, Gl450.gl_create]
  have h1 := gl450_same_commands_trans h0
    (gl450_same_commands_foldl _ (gl450_same_commands_offscreen_new_color desc)
      (List.range 4) _)
  split
  · exact h1
  · exact gl450_same_commands_trans h1 ⟨rfl, rfl, rfl, rfl, rfl⟩

theorem gl450_same_commands_swapchain_free (s : Gl450.IRenoir) (h : Nat) :
    Gl450.same_commands s (Gl450.execute_swapchain_free s h) := by
  unfold Gl450.same_commands Gl450.execute_swapchain_free
  simp only []
  (repeat' split) <;>
    simp [Gl450.executed, List.filterMap_append, Gl450.set_handle, Gl450.gl_create,
      Gl450.gl_delete, Gl450.device_upload, Gl450.emit, Gl450._renoir_gl450_handle_free]

theorem gl450_same_commands_texture_free (s : Gl450.IRenoir) (h : Nat) :
    Gl450.same_commands s (Gl450.execute_texture_free s h) := by
  unfold Gl450.same_commands Gl450.execute_texture_free
  simp only []
  (repeat' split) <;>
    simp [Gl450.executed, List.filterMap_append, Gl450.set_handle, Gl450.gl_create,
      Gl450.gl_delete, Gl450.device_upload, Gl450.emit, Gl450._renoir_gl450_handle_free]

theorem gl450_same_commands_buffer_new (s : Gl450.IRenoir) (h : Nat) (desc : Renoir_Buffer_Desc) :
    Gl450.same_commands s (Gl450.execute_buffer_new s h desc) := by
  unfold Gl450.same_commands Gl450.execute_buffer_new
  simp only []
  (repeat' split) <;>
    simp [Gl450.executed, List.filterMap_append, Gl450.set_handle, Gl450.gl_create,
      Gl450.gl_delete, Gl450.device_upload, Gl450.emit, Gl450._renoir_gl450_handle_free]

theorem gl450_same_commands_buffer_free (s : Gl450.IRenoir) (h : Nat) :
    Gl450.same_commands s (Gl450.execute_buffer_free s h) := by
  unfold Gl450.same_commands Gl450.execute_buffer_free
  simp only []
  (repeat' split) <;>
    simp [Gl450.executed, List.filterMap_append, Gl450.set_handle, Gl450.gl_create,
      Gl450.gl_delete, Gl450.device_upload, Gl450.emit, Gl450._renoir_gl450_handle_free]

theorem gl450_same_commands_texture_new (s : Gl450.IRenoir) (h : Nat) (desc : Renoir_Texture_Desc) :
    Gl450.same_commands s (Gl450.execute_texture_new s h desc) := by
  unfold Gl450.same_commands Gl450.execute_texture_new
  simp only []
  (repeat' split) <;>
    simp [Gl450.executed, List.filterMap_append, Gl450.set_handle, Gl450.gl_create,
      Gl450.gl_delete, Gl450.device_upload, Gl450.emit, Gl450._renoir_gl450_handle_free]

theorem gl450_same_commands_sampler_new (s : Gl450.IRenoir) (h : Nat) (desc : Renoir_Sampler_Desc) :
    Gl450.same_commands s (Gl450.execute_sampler_new s h desc) := by
  unfold Gl450.same_commands Gl450.execute_sampler_new
  simp [Gl450.executed, List.filterMap_append, Gl450.set_handle, Gl450.gl_create,
      Gl450.gl_delete, Gl450.device_upload, Gl450.emit, Gl450._renoir_gl450_handle_free]

theorem gl450_same_commands_sampler_free (s : Gl450.IRenoir) (h : Nat) :
    Gl450.same_commands s (Gl450.execute_sampler_free s h) := by
  unfold Gl450.same_commands Gl450.execute_sampler_free
  simp only []
  (repeat' split) <;>
    simp [Gl450.executed, List.filterMap_append, Gl450.set_handle, Gl450.gl_create,
      Gl450.gl_delete, Gl450.device_upload, Gl450.emit, Gl450._renoir_gl450_handle_free]

theorem gl450_same_commands_program_new (s : Gl450.IRenoir) (h : Nat) (desc : Renoir_Program_Desc) :
    Gl450.same_commands s (Gl450.execute_program_new s h desc) := by
  unfold Gl450.same_commands Gl450.execute_program_new
  simp only []
  (repeat' split) <;>
    simp [Gl450.executed, List.filterMap_append, Gl450.set_handle, Gl450.gl_create,
      Gl450.gl_delete, Gl450.device_upload, Gl450.emit, Gl450._renoir_gl450_handle_free]

theorem gl450_same_commands_program_free (s : Gl450.IRenoir) (h : Nat) :
    Gl450.same_commands s (Gl450.execute_program_free s h) := by
  unfold Gl450.same_commands Gl450.execute_program_free
  simp only []
  (repeat' split) <;>
    simp [Gl450.executed, List.filterMap_append, Gl450.set_handle, Gl450.gl_create,
      Gl450.gl_delete, Gl450.device_upload, Gl450.emit, Gl450._renoir_gl450_handle_free]

theorem gl450_same_commands_compute_free (s : Gl450.IRenoir) (h : Nat) :
    Gl450.same_commands s (Gl450.execute_compute_free s h) := by
  unfold Gl450.same_commands Gl450.execute_compute_free
  simp only []
  (repeat' split) <;>
    simp [Gl450.executed, List.filterMap_append, Gl450.set_handle, Gl450.gl_create,
      Gl450.gl_delete, Gl450.device_upload, Gl450.emit, Gl450._renoir_gl450_handle_free]

theorem gl450_same_commands_pipeline_free (s : Gl450.IRenoir) (h : Nat) :
    Gl450.same_commands s (Gl450.execute_pipeline_free s h) := by
  unfold Gl450.same_commands Gl450.execute_pipeline_free
  simp only []
  (repeat' split) <;>
    simp [Gl450.executed, List.filterMap_append, Gl450.set_handle, Gl450.gl_create,
      Gl450.gl_delete, Gl450.device_upload, Gl450.emit, Gl450._renoir_gl450_handle_free]

theorem gl450_same_commands_compute_new (s s' : Gl450.IRenoir) (h : Nat)
    (desc : Renoir_Program_Desc) (he : Gl450.execute_compute_new s h desc = some s') :
    Gl450.same_commands s s' := by
  unfold Gl450.execute_compute_new at he
  simp only [] at he
  split at he
  · exact Option.noConfusion he
  · simp only [Option.some.injEq] at he
    subst he
    unfold Gl450.same_commands
    simp [Gl450.executed, List.filterMap_append, Gl450.set_handle, Gl450.gl_create,
      Gl450.gl_delete, Gl450.emit]

theorem gl450_same_commands_executed {s s' : Gl450.IRenoir} (c : Nat)
    (h : Gl450.same_commands (Gl450.emit s (Gl450.Event.command_execute c (s.commands c))) s') :
    s'.commands = s.commands ∧ s'.command_pool = s.command_pool ∧
    s'.command_list_head = s.command_list_head ∧
    s'.command_list_tail = s.command_list_tail ∧
    Gl450.executed s'.trace = Gl450.executed s.trace ++ [(c, s.commands c)] := by
  obtain ⟨h1, h2, h3, h4, h5⟩ := h
  refine ⟨h1, h2, h3, h4, ?_⟩
  rw [h5]
  show Gl450.executed (s.trace ++ [_]) = _
  rw [gl450_executed_append]
  rfl

/-- Executing a record of any kind but `PASS_FREE` changes neither the command records,
nor the command pool, nor the pointers of the device-wide list, and is one entry of the
log of executed records. -/
theorem gl450_execute_same_commands (fuel : Nat) (s s' : Gl450.IRenoir) (c : Nat)
    (hk : (s.commands c).kind ≠ .RENOIR_COMMAND_KIND_PASS_FREE)
    (he : Gl450._renoir_gl450_command_execute fuel s c = some s') :
    s'.commands = s.commands ∧ s'.command_pool = s.command_pool ∧
    s'.command_list_head = s.command_list_head ∧
    s'.command_list_tail = s.command_list_tail ∧
    Gl450.executed s'.trace = Gl450.executed s.trace ++ [(c, s.commands c)] := by
  by_cases hr : Gl450.recordable (s.commands c).kind = true
  · obtain ⟨⟨a1, a2, a3, a4, _⟩, a5⟩ := gl450_execute_recordable fuel s s' c hr he
    exact ⟨a1, a2, a3, a4, a5⟩
  · unfold Gl450._renoir_gl450_command_execute at he
    cases hkind : (s.commands c).kind <;> rw [hkind] at hr hk <;>
      first
      | exact absurd rfl hk
      | exact absurd rfl hr
      | skip
    all_goals simp only [hkind] at he
    all_goals first
      | exact Option.noConfusion he
      | (simp only [Option.bind_eq_some] at he
         obtain ⟨h, _, he⟩ := he
         exact gl450_same_commands_executed c (gl450_same_commands_compute_new _ _ _ _ he))
      | skip
    all_goals
      simp only [Option.map_eq_some'] at he
      obtain ⟨h, _, rfl⟩ := he
      apply gl450_same_commands_executed c
      first
      | with_reducible exact gl450_same_commands_swapchain_free _ _
      | with_reducible exact gl450_same_commands_pass_offscreen_new _ _ _
      | with_reducible exact gl450_same_commands_buffer_new _ _ _
      | with_reducible exact gl450_same_commands_buffer_free _ _
      | with_reducible exact gl450_same_commands_texture_new _ _ _
      | with_reducible exact gl450_same_commands_texture_free _ _
      | with_reducible exact gl450_same_commands_sampler_new _ _ _
      | with_reducible exact gl450_same_commands_sampler_free _ _
      | with_reducible exact gl450_same_commands_program_new _ _ _
      | with_reducible exact gl450_same_commands_program_free _ _
      | with_reducible exact gl450_same_commands_compute_free _ _
      | with_reducible exact gl450_same_commands_pipeline_free _ _
      | (unfold Gl450.same_commands
         simp [Gl450.executed, List.filterMap_append, Gl450.set_handle, Gl450.emit])

theorem gl450_keeps_refl (D : List Nat) (s : Gl450.IRenoir) : Gl450.keeps_list D s s :=
  fun ha => ⟨rfl, rfl, fun _ _ => rfl, ha, [], (List.append_nil _).symm, by simp⟩

theorem gl450_keeps_trans {D : List Nat} {a b c : Gl450.IRenoir} (h1 : Gl450.keeps_list D a b)
    (h2 : Gl450.keeps_list D b c) : Gl450.keeps_list D a c := by
  intro ha
  obtain ⟨a1, a2, a3, a4, r1, a5, a6⟩ := h1 ha
  obtain ⟨b1, b2, b3, b4, r2, b5, b6⟩ := h2 a4
  refine ⟨b1.trans a1, b2.trans a2, fun x hx => (b3 x hx).trans (a3 x hx), b4, r1 ++ r2, ?_, ?_⟩
  · rw [b5, a5, List.append_assoc]
  · intro r hr
    rcases List.mem_append.mp hr with hr | hr
    · exact a6 r hr
    · exact b6 r hr

theorem gl450_keeps_of_same {D : List Nat} {s s' : Gl450.IRenoir}
    (h : Gl450.same_commands s s') : Gl450.keeps_list D s s' := by
  obtain ⟨h1, h2, h3, h4, h5⟩ := h
  intro ha
  refine ⟨h3, h4, fun x _ => by rw [h1], ?_, [], by rw [h5, List.append_nil], by simp⟩
  rw [h2]; exact ha

theorem gl450_keeps_foldl {α : Type} (D : List Nat) (f : Gl450.IRenoir → α → Gl450.IRenoir)
    (hf : ∀ s i, Gl450.keeps_list D s (f s i)) :
    ∀ (l : List α) (s : Gl450.IRenoir), Gl450.keeps_list D s (l.foldl f s) := by
  intro l
  induction l with
  | nil => intro s; exact gl450_keeps_refl D s
  | cons i l ih =>
    intro s
    exact gl450_keeps_trans (hf s i) (ih (f s i))

/-- Freeing a record that is not in `D`. -/
theorem gl450_keeps_command_free (D : List Nat) (s : Gl450.IRenoir) (c : Nat) (hc : c ∉ D) :
    Gl450.keeps_list D s (Gl450._renoir_gl450_command_free s c) := by
  obtain ⟨f1, f2, f3, f4, _, _, _, f9⟩ := gl450_command_free_frame s c
  intro ha
  refine ⟨f3, f4, fun x _ => by rw [f1], ?_, [], by rw [f9, List.append_nil], by simp⟩
  intro x hx
  rw [f2]
  refine ⟨?_, (ha x hx).2⟩
  show x ∉ c :: s.command_pool.free
  intro hm
  rcases List.mem_cons.mp hm with e | e
  · exact hc (e ▸ hx)
  · exact (ha x hx).1 e

theorem gl450_executed_emit_execute (s : Gl450.IRenoir) (c : Nat) (r : Gl450.Renoir_Command) :
    Gl450.executed (Gl450.emit s (Gl450.Event.command_execute c r)).trace
      = Gl450.executed s.trace ++ [(c, r)] := by
  show Gl450.executed (s.trace ++ [_]) = _
  rw [gl450_executed_append]
  rfl

/-- The nested `TEXTURE_FREE` of the `PASS_FREE` handler. -/
theorem gl450_keeps_pass_free_texture (D : List Nat) (s : Gl450.IRenoir) (texture : Nat) :
    Gl450.keeps_list D s (Gl450.pass_free_texture s texture) := by
  intro ha
  obtain ⟨g1, g2⟩ := pool_get_keeps s.command_pool D ha
  unfold Gl450.pass_free_texture
  simp only []
  refine (gl450_keeps_trans (gl450_keeps_trans ?_
    (gl450_keeps_of_same (gl450_same_commands_texture_free _ texture)))
    (gl450_keeps_command_free D _ _ g1)) ha
  intro _
  refine ⟨rfl, rfl, fun x hx => ?_, g2, [_], gl450_executed_emit_execute _ _ _, ?_⟩
  · show write (write s.commands _ _) _ _ x = _
    have hne : x ≠ (pool_get s.command_pool).1 := fun e => g1 (e ▸ hx)
    have hne' : x ≠ (Gl450._renoir_gl450_command_new s .RENOIR_COMMAND_KIND_TEXTURE_FREE).1 := hne
    rw [write_apply, if_neg hne']
    show write s.commands _ _ x = _
    rw [write_apply, if_neg hne]
  · intro r hr
    rw [List.mem_singleton.mp hr]
    simp [Gl450.set_command, Gl450._renoir_gl450_command_new, write_same]

theorem gl450_keeps_pass_free_color (D : List Nat) (h : Nat) (s : Gl450.IRenoir) (i : Nat) :
    Gl450.keeps_list D s (Gl450.pass_free_color h s i) := by
  unfold Gl450.pass_free_color
  split
  · exact gl450_keeps_refl D s
  · exact gl450_keeps_pass_free_texture D _ _

/-- The loop of `PASS_FREE` over the pending records frees `command`, which is not in
`D`. -/
theorem gl450_keeps_pass_free_pending (D : List Nat) (command : Nat) (hc : command ∉ D) :
    ∀ (fuel : Nat) (s s' : Gl450.IRenoir) (p : Ptr),
      Gl450.pass_free_pending fuel s command p = some s' → Gl450.keeps_list D s s' := by
  intro fuel
  induction fuel with
  | zero =>
    intro s s' p he
    cases p with
    | none =>
      simp only [Gl450.pass_free_pending, Option.some.injEq] at he
      subst he
      exact gl450_keeps_refl D s
    | some it => simp [Gl450.pass_free_pending] at he
  | succ fuel ih =>
    intro s s' p he
    cases p with
    | none =>
      simp only [Gl450.pass_free_pending, Option.some.injEq] at he
      subst he
      exact gl450_keeps_refl D s
    | some it =>
      simp only [Gl450.pass_free_pending] at he
      exact gl450_keeps_trans (gl450_keeps_command_free D s command hc) (ih _ _ _ he)

/-- The `PASS_FREE` handler keeps every list that does not hold the record executed. -/
theorem gl450_keeps_pass_free (D : List Nat) (fuel : Nat) (s s' : Gl450.IRenoir)
    (command h : Nat) (hc : command ∉ D)
    (he : Gl450.execute_pass_free fuel s command h = some s') :
    Gl450.keeps_list D s s' := by
  unfold Gl450.execute_pass_free at he
  simp only [] at he
  split at he
  · simp only [Option.some.injEq] at he
    subst he
    exact gl450_keeps_of_same ⟨rfl, rfl, rfl, rfl, rfl⟩
  · split at he
    · exact Option.noConfusion he
    · rename_i s1 hp
      simp only [Option.some.injEq] at he
      subst he
      have h0 : Gl450.keeps_list D s s1 :=
        gl450_keeps_trans (@gl450_keeps_of_same D s { s with handles :=
          (Gl450._renoir_gl450_handle_unref s.handles h).2 } ⟨rfl, rfl, rfl, rfl, rfl⟩)
          (gl450_keeps_pass_free_pending D command hc _ _ _ _ hp)
      refine gl450_keeps_trans (gl450_keeps_trans h0 ?_)
        (gl450_keeps_of_same (gl450_same_commands_handle_free _ _))
      split
      · have h1 := gl450_keeps_foldl D (Gl450.pass_free_color h)
          (gl450_keeps_pass_free_color D h) (List.range 4) s1
        split
        · exact h1
        · exact gl450_keeps_trans h1 (gl450_keeps_pass_free_texture D _ _)
      · exact gl450_keeps_refl D s1

/-- Executing a record `c` of any kind keeps every list of allocated records that does
not hold `c`; the log of executed records gains `c`, followed by the nested
`TEXTURE_FREE` commands of a `PASS_FREE`. -/
theorem gl450_execute_keeps (D : List Nat) (fuel : Nat) (s s' : Gl450.IRenoir) (c : Nat)
    (hc : c ∉ D) (ha : ∀ x ∈ D, x ∉ s.command_pool.free ∧ x < s.command_pool.fresh)
    (he : Gl450._renoir_gl450_command_execute fuel s c = some s') :
    s'.command_list_head = s.command_list_head ∧
    s'.command_list_tail = s.command_list_tail ∧
    (∀ x ∈ D, s'.commands x = s.commands x) ∧
    (∀ x ∈ D, x ∉ s'.command_pool.free ∧ x < s'.command_pool.fresh) ∧
    ∃ rest, Gl450.executed s'.trace = Gl450.executed s.trace ++ (c, s.commands c) :: rest ∧
      (∀ r ∈ rest, r.2.kind = .RENOIR_COMMAND_KIND_TEXTURE_FREE) ∧
      ((s.commands c).kind ≠ .RENOIR_COMMAND_KIND_PASS_FREE → rest = []) := by
  by_cases hk : (s.commands c).kind = .RENOIR_COMMAND_KIND_PASS_FREE
  · unfold Gl450._renoir_gl450_command_execute at he
    simp only [hk, Option.bind_eq_some] at he
    obtain ⟨h, _, he⟩ := he
    obtain ⟨k1, k2, k3, k4, rest, k5, k6⟩ := gl450_keeps_pass_free D fuel _ s' c h hc he ha
    refine ⟨k1, k2, k3, k4, rest, ?_, k6, fun hn => absurd hk hn⟩
    rw [k5, gl450_executed_emit_execute, List.append_assoc]
    rfl
  · obtain ⟨e1, e2, e3, e4, e5⟩ := gl450_execute_same_commands fuel s s' c hk he
    refine ⟨e3, e4, fun x _ => by rw [e1], ?_, [], e5, by simp, fun _ => rfl⟩
    rw [e2]; exact ha

/-- What `command_push` stores: only `next` and `prev` members. -/
theorem gl450_push_self_payload (s : Gl450.IRenoir) (c x : Nat) :
    { (Gl450.command_push_self s c).commands x with next := none, prev := none }
      = { s.commands x with next := none, prev := none } := by
  cases ht : s.command_list_tail with
  | none =>
    have hp := gl450_push_none ⟨s.command_list_head, s.command_list_tail⟩ s.commands c ht
    show ({ (Gl450._renoir_gl450_command_push ⟨s.command_list_head, s.command_list_tail⟩
      s.commands c).2 x with next := none, prev := none } : Gl450.Renoir_Command) = _
    rw [hp]
  | some t =>
    show ({ (Gl450._renoir_gl450_command_push ⟨s.command_list_head, s.command_list_tail⟩
      s.commands c).2 x with next := none, prev := none } : Gl450.Renoir_Command) = _
    simp only [Gl450._renoir_gl450_command_push, ht, write_apply]
    by_cases h1 : x = c
    · subst h1
      by_cases h2 : x = t
      · subst h2; simp
      · simp [h2]
    · by_cases h2 : x = t
      · subst h2; simp [h1]
      · simp [h1, h2]

/-- Deferred mode: `command_process` returns for every record, appends it at the tail of
the device-wide list and executes nothing. -/
theorem gl450_process_deferred (fuel : Nat) (s : Gl450.IRenoir) (c : Nat)
    (hd : s.settings.defer_api_calls = true) :
    ∃ s', Gl450._renoir_gl450_command_process fuel s c = some s' ∧
      s'.handles = s.handles ∧ s'.handle_pool = s.handle_pool ∧
      s'.command_pool = s.command_pool ∧ s'.heap = s.heap ∧
      s'.native_fresh = s.native_fresh ∧
      s'.trace = s.trace ++ [Gl450.Event.command_process c (s.commands c)] ∧
      Gl450.executed s'.trace = Gl450.executed s.trace ∧
      (∀ x, ({ s'.commands x with next := none, prev := none } : Gl450.Renoir_Command)
        = { s.commands x with next := none, prev := none }) ∧
      (∀ D : List Nat,
        Gl450.list_records s.commands D.length s.command_list_head = some D →
        s.command_list_tail = D.getLast? → c ∉ D → (s.commands c).next = none →
        Gl450.list_records s'.commands (D.length + 1) s'.command_list_head = some (D ++ [c]) ∧
        s'.command_list_tail = some c) := by
  have hd1 : (Gl450.emit s (Gl450.Event.command_process c
      (s.commands c))).settings.defer_api_calls = true := hd
  refine ⟨Gl450.command_push_self (Gl450.emit s (Gl450.Event.command_process c (s.commands c))) c,
    ?_, rfl, rfl, rfl, rfl, rfl, rfl, ?_, ?_, ?_⟩
  · unfold Gl450._renoir_gl450_command_process
    simp only []
    rw [if_pos hd1]
  · show Gl450.executed (s.trace ++ [_]) = _
    rw [gl450_executed_append]
    simp [Gl450.executed]
  · intro x
    exact gl450_push_self_payload _ c x
  · intro D hl ht hD hn
    have hch := ((gl450_list_records_iff _ _ _ _).mp hl).1
    have hlinks := gl450_links_push_self
      (Gl450.emit s (Gl450.Event.command_process c (s.commands c))) c
    obtain ⟨q1, q2⟩ := chain_push_self
      (Gl450.links (Gl450.emit s (Gl450.Event.command_process c (s.commands c)))) D c hch ht hD hn
    rw [← hlinks] at q1 q2
    refine ⟨(gl450_list_records_iff _ _ _ _).mpr ⟨q1, by simp⟩, q2⟩

/-- Immediate mode: `command_process` is one execution of the record followed by its
release; the device-wide list is left as it was. -/
theorem gl450_process_immediate (fuel : Nat) (s : Gl450.IRenoir) (c : Nat)
    (hd : s.settings.defer_api_calls = false) :
    Gl450._renoir_gl450_command_process fuel s c
      = (Gl450._renoir_gl450_command_execute fuel
          (Gl450.emit s (Gl450.Event.command_process c (s.commands c))) c).map
          (fun s1 => Gl450._renoir_gl450_command_free s1 c) ∧
    ∀ s', Gl450._renoir_gl450_command_process fuel s c = some s' →
      s'.command_list_head = s.command_list_head ∧
      s'.command_list_tail = s.command_list_tail ∧
      (∃ rest, Gl450.executed s'.trace = Gl450.executed s.trace ++ (c, s.commands c) :: rest ∧
        (∀ r ∈ rest, r.2.kind = .RENOIR_COMMAND_KIND_TEXTURE_FREE) ∧
        ((s.commands c).kind ≠ .RENOIR_COMMAND_KIND_PASS_FREE → rest = [])) ∧
      (∃ l, s'.command_pool.free = c :: l) ∧
      ((s.commands c).kind ≠ .RENOIR_COMMAND_KIND_PASS_FREE →
        s'.commands = s.commands ∧ s'.command_pool = pool_put s.command_pool c) ∧
      (∀ D : List Nat,
        Gl450.list_records s.commands D.length s.command_list_head = some D → c ∉ D →
        (∀ x ∈ D, x ∉ s.command_pool.free ∧ x < s.command_pool.fresh) →
        Gl450.list_records s'.commands D.length s'.command_list_head = some D ∧
        ∀ x ∈ D, s'.commands x = s.commands x) := by
  have hd1 : ¬ (Gl450.emit s (Gl450.Event.command_process c
      (s.commands c))).settings.defer_api_calls = true := by
    show ¬ s.settings.defer_api_calls = true
    rw [hd]; simp
  have hproc : Gl450._renoir_gl450_command_process fuel s c
      = (Gl450._renoir_gl450_command_execute fuel
          (Gl450.emit s (Gl450.Event.command_process c (s.commands c))) c).map
          (fun s1 => Gl450._renoir_gl450_command_free s1 c) := by
    unfold Gl450._renoir_gl450_command_process
    simp only []
    rw [if_neg hd1]
    cases Gl450._renoir_gl450_command_execute fuel
      (Gl450.emit s (Gl450.Event.command_process c (s.commands c))) c <;> rfl
  refine ⟨hproc, fun s' he => ?_⟩
  rw [hproc] at he
  simp only [Option.map_eq_some'] at he
  obtain ⟨s1, he, rfl⟩ := he
  obtain ⟨f1, f2, f3, f4, _, _, _, f9⟩ := gl450_command_free_frame s1 c
  have hex0 : Gl450.executed (Gl450.emit s (Gl450.Event.command_process c (s.commands c))).trace
      = Gl450.executed s.trace := by
    show Gl450.executed (s.trace ++ [_]) = _
    rw [gl450_executed_append]
    simp [Gl450.executed]
  obtain ⟨k1, k2, _, _, rest, k5, k6, k7⟩ := gl450_execute_keeps [] fuel
    (Gl450.emit s (Gl450.Event.command_process c (s.commands c))) s1 c (by simp) (by simp) he
  refine ⟨f3.trans k1, f4.trans k2, ⟨rest, ?_, k6, k7⟩, ⟨s1.command_pool.free, ?_⟩, ?_, ?_⟩
  · rw [f9, k5, hex0]; rfl
  · rw [f2]; rfl
  · intro hk
    obtain ⟨e1, e2, _, _, _⟩ := gl450_execute_same_commands fuel
      (Gl450.emit s (Gl450.Event.command_process c (s.commands c))) s1 c hk he
    exact ⟨f1.trans e1, by rw [f2, e2]; rfl⟩
  · intro D hl hD ha
    obtain ⟨_, _, d3, _, _⟩ := gl450_execute_keeps D fuel
      (Gl450.emit s (Gl450.Event.command_process c (s.commands c))) s1 c hD ha he
    have hsame : ∀ x ∈ D, (Gl450._renoir_gl450_command_free s1 c).commands x = s.commands x := by
      intro x hx
      rw [f1]
      exact d3 x hx
    refine ⟨?_, hsame⟩
    have hch := (gl450_list_records_iff _ _ _ _).mp hl
    refine (gl450_list_records_iff _ _ _ _).mpr ⟨?_, hch.2⟩
    rw [f3.trans k1]
    refine chain_frame _ _ _ _ (fun x hx => ?_) hch.1
    show ((Gl450._renoir_gl450_command_free s1 c).commands x).next = (s.commands x).next
    rw [hsame x hx]

/-- Immediate mode: when `command_process` returns.  A command on a resource (any kind
the pass functions do not record) with a handle that is not null returns for every
fuel, `COMPUTE_NEW` apart, which calls `mn::panic` when the shader does not compile;
`PASS_FREE` returns when the fuel covers the pending records of the pass. -/
theorem gl450_process_immediate_returns (fuel : Nat) (s : Gl450.IRenoir) (c h : Nat)
    (hd : s.settings.defer_api_calls = false) (hh : (s.commands c).handle = some h) :
    (Gl450.recordable (s.commands c).kind = false →
      (s.commands c).kind ≠ .RENOIR_COMMAND_KIND_NONE →
      (s.commands c).kind ≠ .RENOIR_COMMAND_KIND_PASS_FREE →
      (s.commands c).kind ≠ .RENOIR_COMMAND_KIND_COMPUTE_NEW →
      (Gl450._renoir_gl450_command_process fuel s c).isSome = true) ∧
    ((s.commands c).kind = .RENOIR_COMMAND_KIND_PASS_FREE →
      (Gl450.list_records s.commands fuel (s.handles h).pass.command_list_head).isSome = true →
      (Gl450._renoir_gl450_command_process fuel s c).isSome = true) := by
  rw [(gl450_process_immediate fuel s c hd).1]
  simp only [Option.isSome_map']
  have hh1 : ((Gl450.emit s (Gl450.Event.command_process c (s.commands c))).commands c).handle
      = some h := hh
  constructor
  · intro hr h1 h2 h3
    unfold Gl450._renoir_gl450_command_execute
    simp only [hh1]
    have hkk : ((Gl450.emit s (Gl450.Event.command_process c (s.commands c))).commands c).kind
        = (s.commands c).kind := rfl
    rw [hkk]
    cases hkind : (s.commands c).kind <;> rw [hkind] at hr h1 h2 h3 <;>
      first
      | exact absurd rfl h1
      | exact absurd rfl h2
      | exact absurd rfl h3
      | exact absurd hr (by decide)
      | rfl
  · intro hk hl
    unfold Gl450._renoir_gl450_command_execute
    have hkk : ((Gl450.emit s (Gl450.Event.command_process c (s.commands c))).commands c).kind
        = .RENOIR_COMMAND_KIND_PASS_FREE := hk
    simp only [hh1, hkk, Option.some_bind]
    unfold Gl450.execute_pass_free
    simp only []
    split
    · rfl
    · split
      · rename_i hnone
        exact absurd hnone (gl450_pass_free_pending_ne_none fuel _ c _ (by
          show (Gl450.list_records s.commands fuel
            ((write s.handles h _ h).pass.command_list_head)).isSome = true
          rw [write_same]
          exact hl))
      · rfl

/-- The two modes of `command_process` on the D3D11 backend. -/
theorem dx11_command_process_modes (fuel : Nat) (s : Dx11.IRenoir) (c : Nat) :
    (s.settings.defer_api_calls = true →
      ∃ s', Dx11._renoir_dx11_command_process fuel s c = some s' ∧
        s'.handles = s.handles ∧ s'.handle_pool = s.handle_pool ∧
        s'.command_pool = s.command_pool ∧ s'.heap = s.heap ∧
        s'.native_fresh = s.native_fresh ∧
        s'.trace = s.trace ++ [Dx11.Event.command_process c (s.commands c)] ∧
        Dx11.executed s'.trace = Dx11.executed s.trace ∧
        (∀ x, ({ s'.commands x with next := none, prev := none } : Dx11.Renoir_Command)
          = { s.commands x with next := none, prev := none }) ∧
        (∀ D : List Nat,
          Dx11.list_records s.commands D.length s.command_list_head = some D →
          s.command_list_tail = D.getLast? → c ∉ D → (s.commands c).next = none →
          Dx11.list_records s'.commands (D.length + 1) s'.command_list_head
            = some (D ++ [c]) ∧
          s'.command_list_tail = some c)) ∧
    (s.settings.defer_api_calls = false →
      Dx11._renoir_dx11_command_process fuel s c
        = (Dx11._renoir_dx11_command_execute fuel
            (Dx11.emit s (Dx11.Event.command_process c (s.commands c))) c).map
            (fun s1 => Dx11._renoir_dx11_command_free s1 c) ∧
      (∀ s', Dx11._renoir_dx11_command_process fuel s c = some s' →
        s'.command_list_head = s.command_list_head ∧
        s'.command_list_tail = s.command_list_tail ∧
        (∃ rest, Dx11.executed s'.trace
            = Dx11.executed s.trace ++ (c, s.commands c) :: rest ∧
          (∀ r ∈ rest, r.2.kind = .RENOIR_COMMAND_KIND_TEXTURE_FREE) ∧
          ((s.commands c).kind ≠ .RENOIR_COMMAND_KIND_PASS_FREE → rest = [])) ∧
        (∃ l, s'.command_pool.free = c :: l) ∧
        ((s.commands c).kind ≠ .RENOIR_COMMAND_KIND_PASS_FREE →
          s'.commands = s.commands ∧ s'.command_pool = pool_put s.command_pool c) ∧
        (∀ D : List Nat,
          Dx11.list_records s.commands D.length s.command_list_head = some D → c ∉ D →
          (∀ x ∈ D, x ∉ s.command_pool.free ∧ x < s.command_pool.fresh) →
          Dx11.list_records s'.commands D.length s'.command_list_head = some D ∧
          ∀ x ∈ D, s'.commands x = s.commands x)) ∧
      (∀ h, (s.commands c).handle = some h →
        (Dx11.recordable (s.commands c).kind = false →
          (s.commands c).kind ≠ .RENOIR_COMMAND_KIND_NONE →
          (s.commands c).kind ≠ .RENOIR_COMMAND_KIND_PASS_FREE →
          (Dx11._renoir_dx11_command_process fuel s c).isSome = true) ∧
        ((s.commands c).kind = .RENOIR_COMMAND_KIND_PASS_FREE →
          (Dx11.list_records s.commands fuel
            (s.handles h).pass.command_list_head).isSome = true →
          (Dx11._renoir_dx11_command_process fuel s c).isSome = true))) :=
  ⟨fun hd => dx11_process_deferred fuel s c hd,
   fun hd => ⟨(dx11_process_immediate fuel s c hd).1, (dx11_process_immediate fuel s c hd).2,
     fun h hh => dx11_process_immediate_returns fuel s c h hd hh⟩⟩

/-- The two modes of `command_process` on the GL backend. -/
theorem gl450_command_process_modes (fuel : Nat) (s : Gl450.IRenoir) (c : Nat) :
    (s.settings.defer_api_calls = true →
      ∃ s', Gl450._renoir_gl450_command_process fuel s c = some s' ∧
        s'.handles = s.handles ∧ s'.handle_pool = s.handle_pool ∧
        s'.command_pool = s.command_pool ∧ s'.heap = s.heap ∧
        s'.native_fresh = s.native_fresh ∧
        s'.trace = s.trace ++ [Gl450.Event.command_process c (s.commands c)] ∧
        Gl450.executed s'.trace = Gl450.executed s.trace ∧
        (∀ x, ({ s'.commands x with next := none, prev := none } : Gl450.Renoir_Command)
          = { s.commands x with next := none, prev := none }) ∧
        (∀ D : List Nat,
          Gl450.list_records s.commands D.length s.command_list_head = some D →
          s.command_list_tail = D.getLast? → c ∉ D → (s.commands c).next = none →
          Gl450.list_records s'.commands (D.length + 1) s'.command_list_head
            = some (D ++ [c]) ∧
          s'.command_list_tail = some c)) ∧
    (s.settings.defer_api_calls = false →
      Gl450._renoir_gl450_command_process fuel s c
        = (Gl450._renoir_gl450_command_execute fuel
            (Gl450.emit s (Gl450.Event.command_process c (s.commands c))) c).map
            (fun s1 => Gl450._renoir_gl450_command_free s1 c) ∧
      (∀ s', Gl450._renoir_gl450_command_process fuel s c = some s' →
        s'.command_list_head = s.command_list_head ∧
        s'.command_list_tail = s.command_list_tail ∧
        (∃ rest, Gl450.executed s'.trace
            = Gl450.executed s.trace ++ (c, s.commands c) :: rest ∧
          (∀ r ∈ rest, r.2.kind = .RENOIR_COMMAND_KIND_TEXTURE_FREE) ∧
          ((s.commands c).kind ≠ .RENOIR_COMMAND_KIND_PASS_FREE → rest = [])) ∧
        (∃ l, s'.command_pool.free = c :: l) ∧
        ((s.commands c).kind ≠ .RENOIR_COMMAND_KIND_PASS_FREE →
          s'.commands = s.commands ∧ s'.command_pool = pool_put s.command_pool c) ∧
        (∀ D : List Nat,
          Gl450.list_records s.commands D.length s.command_list_head = some D → c ∉ D →
          (∀ x ∈ D, x ∉ s.command_pool.free ∧ x < s.command_pool.fresh) →
          Gl450.list_records s'.commands D.length s'.command_list_head = some D ∧
          ∀ x ∈ D, s'.commands x = s.commands x)) ∧
      (∀ h, (s.commands c).handle = some h →
        (Gl450.recordable (s.commands c).kind = false →
          (s.commands c).kind ≠ .RENOIR_COMMAND_KIND_NONE →
          (s.commands c).kind ≠ .RENOIR_COMMAND_KIND_PASS_FREE →
          (s.commands c).kind ≠ .RENOIR_COMMAND_KIND_COMPUTE_NEW →
          (Gl450._renoir_gl450_command_process fuel s c).isSome = true) ∧
        ((s.commands c).kind = .RENOIR_COMMAND_KIND_PASS_FREE →
          (Gl450.list_records s.commands fuel
            (s.handles h).pass.command_list_head).isSome = true →
          (Gl450._renoir_gl450_command_process fuel s c).isSome = true))) :=
  ⟨fun hd => gl450_process_deferred fuel s c hd,
   fun hd => ⟨(gl450_process_immediate fuel s c hd).1, (gl450_process_immediate fuel s c hd).2,
     fun h hh => gl450_process_immediate_returns fuel s c h hd hh⟩⟩


/-! ### The pass interface -/

/-- C15: in both backends `pass_begin` leaves the private list of the pass equal to the one
new `PASS_BEGIN` record of that pass, whatever the private list pointers of the handle were
and whatever the mode is (the function does not read it); the device-wide list `D` keeps
its head, its tail and its records, and nothing is added to the trace. -/
theorem c15_pass_begin_starts_a_fresh_list
    (s : Dx11.IRenoir)
    (h : Nat)
    (D : List Nat)
    (priv : Nat → List Nat)
    (w : (Dx11.links s).WF D [] priv)
    (gs : Gl450.IRenoir)
    (gh : Nat)
    (gD : List Nat)
    (gpriv : Nat → List Nat)
    (gw : (Gl450.links gs).WF gD [] gpriv) :
    (Dx11.list_records (Dx11._renoir_dx11_pass_begin s h).commands 1
        ((Dx11._renoir_dx11_pass_begin s h).handles h).pass.command_list_head
      = some [(pool_get s.command_pool).1] ∧
    ((Dx11._renoir_dx11_pass_begin s h).handles h).pass.command_list_tail
      = some (pool_get s.command_pool).1 ∧
    (Dx11._renoir_dx11_pass_begin s h).commands (pool_get s.command_pool).1
      = { kind := .RENOIR_COMMAND_KIND_PASS_BEGIN, handle := some h } ∧
    Dx11.list_records (Dx11._renoir_dx11_pass_begin s h).commands D.length
        (Dx11._renoir_dx11_pass_begin s h).command_list_head = some D ∧
    (Dx11._renoir_dx11_pass_begin s h).command_list_head = s.command_list_head ∧
    (Dx11._renoir_dx11_pass_begin s h).command_list_tail = s.command_list_tail ∧
    (∀ x ∈ D, (Dx11._renoir_dx11_pass_begin s h).commands x = s.commands x) ∧
    (Dx11._renoir_dx11_pass_begin s h).trace = s.trace) ∧
    (Gl450.list_records (Gl450._renoir_gl450_pass_begin gs gh).commands 1
        ((Gl450._renoir_gl450_pass_begin gs gh).handles gh).pass.command_list_head
      = some [(pool_get gs.command_pool).1] ∧
    ((Gl450._renoir_gl450_pass_begin gs gh).handles gh).pass.command_list_tail
      = some (pool_get gs.command_pool).1 ∧
    (Gl450._renoir_gl450_pass_begin gs gh).commands (pool_get gs.command_pool).1
      = { kind := .RENOIR_COMMAND_KIND_PASS_BEGIN, handle := some gh } ∧
    Gl450.list_records (Gl450._renoir_gl450_pass_begin gs gh).commands gD.length
        (Gl450._renoir_gl450_pass_begin gs gh).command_list_head = some gD ∧
    (Gl450._renoir_gl450_pass_begin gs gh).command_list_head = gs.command_list_head ∧
    (Gl450._renoir_gl450_pass_begin gs gh).command_list_tail = gs.command_list_tail ∧
    (∀ x ∈ gD, (Gl450._renoir_gl450_pass_begin gs gh).commands x = gs.commands x) ∧
    (Gl450._renoir_gl450_pass_begin gs gh).trace = gs.trace) :=
  ⟨dx11_pass_begin_spec s h D priv w,
   gl450_pass_begin_spec gs gh gD gpriv gw⟩

/-- C17: in both backends, in deferred mode, `pass_end` on a pass whose private list `P` is
not empty returns and leaves the device-wide list equal to `D ++ P ++ [e]`, `e` being a new
`PASS_END` record of the pass; the records of `D` and `P` keep their kind and handle, the
private list pointers of the pass are null, and nothing is added to the trace (nothing is
executed). -/
theorem c17_pass_end_deferred_splices
    (fuel : Nat)
    (s : Dx11.IRenoir)
    (h : Nat)
    (D hs : List Nat)
    (priv : Nat → List Nat)
    (w : (Dx11.links s).WF D hs priv)
    (hh : h ∈ hs)
    (hne : priv h ≠ [])
    (hd : s.settings.defer_api_calls = true)
    (gfuel : Nat)
    (gs : Gl450.IRenoir)
    (gh : Nat)
    (gD ghs : List Nat)
    (gpriv : Nat → List Nat)
    (gw : (Gl450.links gs).WF gD ghs gpriv)
    (ghh : gh ∈ ghs)
    (ghne : gpriv gh ≠ [])
    (ghd : gs.settings.defer_api_calls = true) :
    (∃ s', Dx11._renoir_dx11_pass_end fuel s h = some s' ∧
      Dx11.list_records s'.commands (D ++ priv h ++ [(pool_get s.command_pool).1]).length
        s'.command_list_head = some (D ++ priv h ++ [(pool_get s.command_pool).1]) ∧
      (s'.commands (pool_get s.command_pool).1).kind = .RENOIR_COMMAND_KIND_PASS_END ∧
      (s'.commands (pool_get s.command_pool).1).handle = some h ∧
      (∀ x ∈ D ++ priv h, (s'.commands x).kind = (s.commands x).kind ∧
        (s'.commands x).handle = (s.commands x).handle) ∧
      s'.trace = s.trace ∧
      (s'.handles h).pass.command_list_head = none ∧
      (s'.handles h).pass.command_list_tail = none) ∧
    (∃ gs', Gl450._renoir_gl450_pass_end gfuel gs gh = some gs' ∧
      Gl450.list_records gs'.commands (gD ++ gpriv gh ++ [(pool_get gs.command_pool).1]).length
        gs'.command_list_head = some (gD ++ gpriv gh ++ [(pool_get gs.command_pool).1]) ∧
      (gs'.commands (pool_get gs.command_pool).1).kind = .RENOIR_COMMAND_KIND_PASS_END ∧
      (gs'.commands (pool_get gs.command_pool).1).handle = some gh ∧
      (∀ x ∈ gD ++ gpriv gh, (gs'.commands x).kind = (gs.commands x).kind ∧
        (gs'.commands x).handle = (gs.commands x).handle) ∧
      gs'.trace = gs.trace ∧
      (gs'.handles gh).pass.command_list_head = none ∧
      (gs'.handles gh).pass.command_list_tail = none) :=
  ⟨dx11_pass_end_deferred_spec fuel s h D hs priv w hh hne hd,
   gl450_pass_end_deferred_spec gfuel gs gh gD ghs gpriv gw ghh ghne ghd⟩

/-- C18: in both backends, in immediate mode, `pass_end` on a pass whose private list `P` is
not empty and holds records of the pass functions is, given fuel for `P` and one more
record, the in-order execution of `P` followed by the new `PASS_END` record `e`, each
record freed right after it is executed; when it returns, the log of executions has grown
by exactly `P ++ [e]` in this order, their blocks are back in the command pool, and the
device-wide list keeps its head, its tail and its records. -/
theorem c18_pass_end_immediate_drains
    (fuel : Nat)
    (s : Dx11.IRenoir)
    (h : Nat)
    (D hs : List Nat)
    (priv : Nat → List Nat)
    (w : (Dx11.links s).WF D hs priv)
    (hh : h ∈ hs)
    (hne : priv h ≠ [])
    (hk : ∀ x ∈ priv h, Dx11.recordable (s.commands x).kind = true)
    (hd : s.settings.defer_api_calls = false)
    (hf : (priv h).length + 1 ≤ fuel)
    (gfuel : Nat)
    (gs : Gl450.IRenoir)
    (gh : Nat)
    (gD ghs : List Nat)
    (gpriv : Nat → List Nat)
    (gw : (Gl450.links gs).WF gD ghs gpriv)
    (ghh : gh ∈ ghs)
    (ghne : gpriv gh ≠ [])
    (ghk : ∀ x ∈ gpriv gh, Gl450.recordable (gs.commands x).kind = true)
    (ghd : gs.settings.defer_api_calls = false)
    (ghf : (gpriv gh).length + 1 ≤ gfuel) :
    (Dx11._renoir_dx11_pass_end fuel s h
      = (Dx11.execute_in_order fuel (Dx11.pass_end_pushed s h)
          (priv h ++ [(pool_get s.command_pool).1])).map
            (fun s => Dx11.pass_list_reset s h) ∧
    ∀ s', Dx11._renoir_dx11_pass_end fuel s h = some s' →
      (Dx11.executed s'.trace).map (fun r => (r.1, r.2.kind, r.2.handle))
        = (Dx11.executed s.trace).map (fun r => (r.1, r.2.kind, r.2.handle)) ++
          ((priv h).map (fun x => (x, (s.commands x).kind, (s.commands x).handle)) ++
            [((pool_get s.command_pool).1, .RENOIR_COMMAND_KIND_PASS_END, some h)]) ∧
      s'.command_pool.free
        = (pool_get s.command_pool).1 ::
            ((priv h).reverse ++ (pool_get s.command_pool).2.free) ∧
      Dx11.list_records s'.commands D.length s'.command_list_head = some D ∧
      s'.command_list_head = s.command_list_head ∧
      s'.command_list_tail = s.command_list_tail ∧
      (s'.handles h).pass.command_list_head = none ∧
      (s'.handles h).pass.command_list_tail = none) ∧
    (Gl450._renoir_gl450_pass_end gfuel gs gh
      = (Gl450.execute_in_order gfuel (Gl450.pass_end_pushed gs gh)
          (gpriv gh ++ [(pool_get gs.command_pool).1])).map
            (fun gs => Gl450.pass_list_reset gs gh) ∧
    ∀ gs', Gl450._renoir_gl450_pass_end gfuel gs gh = some gs' →
      (Gl450.executed gs'.trace).map (fun r => (r.1, r.2.kind, r.2.handle))
        = (Gl450.executed gs.trace).map (fun r => (r.1, r.2.kind, r.2.handle)) ++
          ((gpriv gh).map (fun x => (x, (gs.commands x).kind, (gs.commands x).handle)) ++
            [((pool_get gs.command_pool).1, .RENOIR_COMMAND_KIND_PASS_END, some gh)]) ∧
      gs'.command_pool.free
        = (pool_get gs.command_pool).1 ::
            ((gpriv gh).reverse ++ (pool_get gs.command_pool).2.free) ∧
      Gl450.list_records gs'.commands gD.length gs'.command_list_head = some gD ∧
      gs'.command_list_head = gs.command_list_head ∧
      gs'.command_list_tail = gs.command_list_tail ∧
      (gs'.handles gh).pass.command_list_head = none ∧
      (gs'.handles gh).pass.command_list_tail = none) :=
  ⟨dx11_pass_end_immediate_spec fuel s h D hs priv w hh hne hk hd hf,
   gl450_pass_end_immediate_spec gfuel gs gh gD ghs gpriv gw ghh ghne ghk ghd ghf⟩

/-- C19: in both backends and both modes, `pass_end` leaves the private list pointers of the
pass null, and one cycle `pass_begin`, recording calls, `pass_end` on a pass `h`, whatever
the history of `h`, ends in a context that satisfies again what the cycle started from,
with the private list of `h` empty; the records of the cycle are the block `B` of the
device-wide list (deferred mode) or of the executed records (immediate mode), and `B` is
`PASS_BEGIN`, the records of the calls, `PASS_END`: it depends on the calls only, not on
whether the handle was used before. -/
theorem c19_pass_reuse
    (efuel : Nat)
    (es es' : Dx11.IRenoir)
    (eh : Nat)
    (ehe : Dx11._renoir_dx11_pass_end efuel es eh = some es')
    (fuel : Nat)
    (s : Dx11.IRenoir)
    (D hs : List Nat)
    (priv : Nat → List Nat)
    (hinv : Dx11.Inv s ⟨Dx11.links s, D, priv⟩ hs)
    (h : Nat)
    (hh : h ∈ hs)
    (calls : List Dx11.Pass_Call)
    (hrec : ∀ c ∈ calls, c.recording = true)
    (s' : Dx11.IRenoir)
    (he : Dx11.pass_calls fuel s ((h, .pass_begin) :: (calls.map (fun c => (h, c)) ++ [(h, .pass_end)])) = some s')
    (gefuel : Nat)
    (ges ges' : Gl450.IRenoir)
    (geh : Nat)
    (gehe : Gl450._renoir_gl450_pass_end gefuel ges geh = some ges')
    (gfuel : Nat)
    (gs : Gl450.IRenoir)
    (gD ghs : List Nat)
    (gpriv : Nat → List Nat)
    (ghinv : Gl450.Inv gs ⟨Gl450.links gs, gD, gpriv⟩ ghs)
    (gh : Nat)
    (ghh : gh ∈ ghs)
    (gcalls : List Gl450.Pass_Call)
    (ghrec : ∀ c ∈ gcalls, c.recording = true)
    (gs' : Gl450.IRenoir)
    (ghe : Gl450.pass_calls gfuel gs ((gh, .pass_begin) :: (gcalls.map (fun c => (gh, c)) ++ [(gh, .pass_end)])) = some gs') :
    ((es'.handles eh).pass.command_list_head = none ∧
    (es'.handles eh).pass.command_list_tail = none) ∧
    ((s'.handles h).pass.command_list_head = none ∧
    (s'.handles h).pass.command_list_tail = none ∧
    (∃ D' priv', Dx11.Inv s' ⟨Dx11.links s', D', priv'⟩ hs ∧ priv' h = []) ∧
    (s.settings.defer_api_calls = true →
      ∃ A B C, Dx11.list_records s'.commands (A ++ B ++ C).length s'.command_list_head
          = some (A ++ B ++ C) ∧
        B.map (fun x => ((s'.commands x).kind, (s'.commands x).handle))
          = (.RENOIR_COMMAND_KIND_PASS_BEGIN, some h) ::
              (calls.filterMap Dx11.Pass_Call.label ++
                [(.RENOIR_COMMAND_KIND_PASS_END, some h)])) ∧
    (s.settings.defer_api_calls = false →
      ∃ A B C, (Dx11.executed s'.trace).map (fun r => (r.2.kind, r.2.handle)) = A ++ B ++ C ∧
        B = (.RENOIR_COMMAND_KIND_PASS_BEGIN, some h) ::
              (calls.filterMap Dx11.Pass_Call.label ++
                [(.RENOIR_COMMAND_KIND_PASS_END, some h)]))) ∧
    ((ges'.handles geh).pass.command_list_head = none ∧
    (ges'.handles geh).pass.command_list_tail = none) ∧
    ((gs'.handles gh).pass.command_list_head = none ∧
    (gs'.handles gh).pass.command_list_tail = none ∧
    (∃ D' priv', Gl450.Inv gs' ⟨Gl450.links gs', D', priv'⟩ ghs ∧ priv' gh = []) ∧
    (gs.settings.defer_api_calls = true →
      ∃ A B C, Gl450.list_records gs'.commands (A ++ B ++ C).length gs'.command_list_head
          = some (A ++ B ++ C) ∧
        B.map (fun x => ((gs'.commands x).kind, (gs'.commands x).handle))
          = (.RENOIR_COMMAND_KIND_PASS_BEGIN, some gh) ::
              (gcalls.filterMap Gl450.Pass_Call.label ++
                [(.RENOIR_COMMAND_KIND_PASS_END, some gh)])) ∧
    (gs.settings.defer_api_calls = false →
      ∃ A B C, (Gl450.executed gs'.trace).map (fun r => (r.2.kind, r.2.handle)) = A ++ B ++ C ∧
        B = (.RENOIR_COMMAND_KIND_PASS_BEGIN, some gh) ::
              (gcalls.filterMap Gl450.Pass_Call.label ++
                [(.RENOIR_COMMAND_KIND_PASS_END, some gh)]))) :=
  ⟨dx11_pass_end_pointers efuel es es' eh ehe,
   dx11_pass_reuse fuel s D hs priv hinv h hh calls hrec s' he,
   gl450_pass_end_pointers gefuel ges ges' geh gehe,
   gl450_pass_reuse gfuel gs gD ghs gpriv ghinv gh ghh gcalls ghrec gs' ghe⟩

/-- C16 (amended): in both backends and both modes a recording call on a pass of `hs`
appends the one record it describes (`Pass_Call.label`) at the tail of the private list of
that pass and executes nothing; the other private lists and the device-wide list are
unchanged.  On the D3D11 backend two cases differ: a `buffer_write` or `texture_write` of
zero bytes records nothing (its label is `none`), and `texture_bind` /
`texture_sampler_bind` first look a sampler up, which may issue `SAMPLER_FREE` and
`SAMPLER_NEW` commands; they append one `TEXTURE_BIND` record, and execute nothing in
deferred mode. -/
theorem c16_recording_appends
    (fuel : Nat)
    (s : Dx11.IRenoir)
    (h : Nat)
    (D hs : List Nat)
    (priv : Nat → List Nat)
    (w : (Dx11.links s).WF D hs priv)
    (hh : h ∈ hs)
    (call : Dx11.Pass_Call)
    (hr : call.recording = true)
    (hb : call.looks_up_sampler = false)
    (s' : Dx11.IRenoir)
    (he : Dx11.pass_call fuel s h call = some s')
    (tfuel : Nat)
    (ts : Dx11.IRenoir)
    (tD ths : List Nat)
    (tpriv : Nat → List Nat)
    (thinv : Dx11.Inv ts ⟨Dx11.links ts, tD, tpriv⟩ ths)
    (th : Nat)
    (thh : th ∈ ths)
    (tcall : Dx11.Pass_Call)
    (thb : tcall.looks_up_sampler = true)
    (ts' : Dx11.IRenoir)
    (the : Dx11.pass_call tfuel ts th tcall = some ts')
    (gfuel : Nat)
    (gs : Gl450.IRenoir)
    (gh : Nat)
    (gD ghs : List Nat)
    (gpriv : Nat → List Nat)
    (gw : (Gl450.links gs).WF gD ghs gpriv)
    (ghh : gh ∈ ghs)
    (gcall : Gl450.Pass_Call)
    (ghr : gcall.recording = true)
    (gs' : Gl450.IRenoir)
    (ghe : Gl450.pass_call gfuel gs gh gcall = some gs') :
    (Dx11.list_records s'.commands ((priv h).length + 1)
        (s'.handles h).pass.command_list_head
      = some (priv h ++ (call.label.map (fun _ => (pool_get s.command_pool).1)).toList) ∧
    (∀ k, call.label = some k →
      ((s'.commands (pool_get s.command_pool).1).kind,
        (s'.commands (pool_get s.command_pool).1).handle) = k) ∧
    (∀ h' ∈ hs, h' ≠ h →
      Dx11.list_records s'.commands (priv h').length (s'.handles h').pass.command_list_head
        = some (priv h')) ∧
    Dx11.list_records s'.commands D.length s'.command_list_head = some D ∧
    Dx11.executed s'.trace = Dx11.executed s.trace) ∧
    (∃ c, Dx11.list_records ts'.commands ((tpriv th).length + 1)
          (ts'.handles th).pass.command_list_head = some (tpriv th ++ [c]) ∧
      tcall.label = some ((ts'.commands c).kind, (ts'.commands c).handle) ∧
      (ts.settings.defer_api_calls = true →
        Dx11.executed ts'.trace = Dx11.executed ts.trace)) ∧
    (Gl450.list_records gs'.commands ((gpriv gh).length + 1)
        (gs'.handles gh).pass.command_list_head
      = some (gpriv gh ++ (gcall.label.map (fun _ => (pool_get gs.command_pool).1)).toList) ∧
    (∀ k, gcall.label = some k →
      ((gs'.commands (pool_get gs.command_pool).1).kind,
        (gs'.commands (pool_get gs.command_pool).1).handle) = k) ∧
    (∀ gh' ∈ ghs, gh' ≠ gh →
      Gl450.list_records gs'.commands (gpriv gh').length (gs'.handles gh').pass.command_list_head
        = some (gpriv gh')) ∧
    Gl450.list_records gs'.commands gD.length gs'.command_list_head = some gD ∧
    Gl450.executed gs'.trace = Gl450.executed gs.trace) :=
  ⟨dx11_recording_spec fuel s h D hs priv w hh call hr hb s' he,
   dx11_texture_bind_spec tfuel ts tD ths tpriv thinv th thh tcall thb ts' the,
   gl450_recording_spec gfuel gs gh gD ghs gpriv gw ghh gcall ghr gs' ghe⟩

/-- Witness of C15: deferred D3D11 and immediate GL context, pass 0; the device-wide list of
the D3D11 context is `[0]`. -/
theorem c15_pass_begin_starts_a_fresh_list_witness :
    (Dx11.links (Dx11.two_pass_context true)).WF [0] [] (fun _ => []) ∧
    (Gl450.links (Gl450.two_pass_context false)).WF [] [] (fun _ => []) ∧
    Dx11.list_records (Dx11._renoir_dx11_pass_begin (Dx11.two_pass_context true) 0).commands 1
        ((Dx11._renoir_dx11_pass_begin (Dx11.two_pass_context true) 0).handles 0).pass.command_list_head
      = some [1] ∧
    Dx11.list_records (Dx11._renoir_dx11_pass_begin (Dx11.two_pass_context true) 0).commands 1
        (Dx11._renoir_dx11_pass_begin (Dx11.two_pass_context true) 0).command_list_head
      = some [0] :=
  ⟨Links.WF.mono (dx11_inv_two_pass_context true).2.1 (fun _ h => absurd h (List.not_mem_nil _)),
   Links.WF.mono (gl450_inv_two_pass_context false).2.1 (fun _ h => absurd h (List.not_mem_nil _)),
   (c15_pass_begin_starts_a_fresh_list (Dx11.two_pass_context true) 0 [0] (fun _ => [])
      (Links.WF.mono (dx11_inv_two_pass_context true).2.1
        (fun _ h => absurd h (List.not_mem_nil _)))
      (Gl450.two_pass_context false) 0 [] (fun _ => [])
      (Links.WF.mono (gl450_inv_two_pass_context false).2.1
        (fun _ h => absurd h (List.not_mem_nil _)))).1.1,
   (c15_pass_begin_starts_a_fresh_list (Dx11.two_pass_context true) 0 [0] (fun _ => [])
      (Links.WF.mono (dx11_inv_two_pass_context true).2.1
        (fun _ h => absurd h (List.not_mem_nil _)))
      (Gl450.two_pass_context false) 0 [] (fun _ => [])
      (Links.WF.mono (gl450_inv_two_pass_context false).2.1
        (fun _ h => absurd h (List.not_mem_nil _)))).1.2.2.2.1⟩

/-- Witness of C17: deferred mode, pass 0 with the private list `[1, 2]` and the device-wide
list `[0]` (D3D11 and GL): the device-wide list becomes `[0, 1, 2, 3]`. -/
theorem c17_pass_end_deferred_splices_witness :
    (∃ s', Dx11._renoir_dx11_pass_end 0 (Dx11.recording_context true) 0 = some s' ∧
      Dx11.list_records s'.commands 4 s'.command_list_head = some [0, 1, 2, 3]) ∧
    (∃ s', Gl450._renoir_gl450_pass_end 0 (Gl450.recording_context true) 0 = some s' ∧
      Gl450.list_records s'.commands 4 s'.command_list_head = some [0, 1, 2, 3]) := by
  have h := c17_pass_end_deferred_splices 0 (Dx11.recording_context true) 0 [0] [0, 1]
    (fun h => if h = 0 then [1, 2] else []) (dx11_inv_recording_context true).2.1
    (by decide) (by decide) rfl
    0 (Gl450.recording_context true) 0 [0] [0, 1]
    (fun h => if h = 0 then [1, 2] else []) (gl450_inv_recording_context true).2.1
    (by decide) (by decide) rfl
  obtain ⟨⟨s1, a1, a2, _⟩, ⟨s2, b1, b2, _⟩⟩ := h
  exact ⟨⟨s1, a1, a2⟩, ⟨s2, b1, b2⟩⟩

/-- Witness of C18: immediate mode, pass 0 with the private list `[1, 2]` (`PASS_BEGIN`,
`PASS_CLEAR`): `pass_end` returns and has executed the records 1, 2 and the new `PASS_END`
record 3, in this order. -/
theorem c18_pass_end_immediate_drains_witness :
    (∃ s', Dx11._renoir_dx11_pass_end 5 (Dx11.recording_context false) 0 = some s' ∧
      (Dx11.executed s'.trace).map (fun r => (r.1, r.2.kind, r.2.handle))
        = [(1, .RENOIR_COMMAND_KIND_PASS_BEGIN, some 0),
           (2, .RENOIR_COMMAND_KIND_PASS_CLEAR, none),
           (3, .RENOIR_COMMAND_KIND_PASS_END, some 0)]) ∧
    (∃ s', Gl450._renoir_gl450_pass_end 5 (Gl450.recording_context false) 0 = some s' ∧
      (Gl450.executed s'.trace).map (fun r => (r.1, r.2.kind, r.2.handle))
        = [(1, .RENOIR_COMMAND_KIND_PASS_BEGIN, some 0),
           (2, .RENOIR_COMMAND_KIND_PASS_CLEAR, none),
           (3, .RENOIR_COMMAND_KIND_PASS_END, some 0)]) := by
  have h := c18_pass_end_immediate_drains 5 (Dx11.recording_context false) 0 [] [0, 1]
    (fun h => if h = 0 then [1, 2] else []) (dx11_inv_recording_context false).2.1
    (by decide) (by decide)
    (by intro x hx
        simp only [if_true, List.mem_cons, List.mem_singleton, List.not_mem_nil,
          or_false] at hx
        rcases hx with rfl | rfl <;> rfl) rfl (by decide)
    5 (Gl450.recording_context false) 0 [] [0, 1]
    (fun h => if h = 0 then [1, 2] else []) (gl450_inv_recording_context false).2.1
    (by decide) (by decide)
    (by intro x hx
        simp only [if_true, List.mem_cons, List.mem_singleton, List.not_mem_nil,
          or_false] at hx
        rcases hx with rfl | rfl <;> rfl) rfl (by decide)
  obtain ⟨⟨_, a2⟩, ⟨_, b2⟩⟩ := h
  have d1 : (Dx11._renoir_dx11_pass_end 5 (Dx11.recording_context false) 0).isSome = true := by
    decide
  have d2 : (Gl450._renoir_gl450_pass_end 5 (Gl450.recording_context false) 0).isSome = true := by
    decide
  obtain ⟨s1, e1⟩ := Option.isSome_iff_exists.1 d1
  obtain ⟨s2, e2⟩ := Option.isSome_iff_exists.1 d2
  exact ⟨⟨s1, e1, (a2 s1 e1).1⟩, ⟨s2, e2, (b2 s2 e2).1⟩⟩

/-- Witness of C19: deferred D3D11 context and immediate GL context, one cycle
`pass_begin`, `clear`, `pass_end` on pass 0: the call sequence returns, the private list
of pass 0 is empty afterwards, and the records of the cycle are `PASS_BEGIN`, `PASS_CLEAR`,
`PASS_END`. -/
theorem c19_pass_reuse_witness :
    (∃ s', Dx11.pass_calls 5 (Dx11.two_pass_context true)
        [(0, .pass_begin), (0, .clear { clear_color := true }), (0, .pass_end)] = some s' ∧
      (s'.handles 0).pass.command_list_head = none ∧
      ∃ A B C, Dx11.list_records s'.commands (A ++ B ++ C).length s'.command_list_head
          = some (A ++ B ++ C) ∧
        B.map (fun x => ((s'.commands x).kind, (s'.commands x).handle))
          = [(.RENOIR_COMMAND_KIND_PASS_BEGIN, some 0), (.RENOIR_COMMAND_KIND_PASS_CLEAR, none),
             (.RENOIR_COMMAND_KIND_PASS_END, some 0)]) ∧
    (∃ s', Gl450.pass_calls 5 (Gl450.two_pass_context false)
        [(0, .pass_begin), (0, .clear { clear_color := true }), (0, .pass_end)] = some s' ∧
      (s'.handles 0).pass.command_list_head = none ∧
      ∃ A B C, (Gl450.executed s'.trace).map (fun r => (r.2.kind, r.2.handle)) = A ++ B ++ C ∧
        B = [(.RENOIR_COMMAND_KIND_PASS_BEGIN, some 0), (.RENOIR_COMMAND_KIND_PASS_CLEAR, none),
             (.RENOIR_COMMAND_KIND_PASS_END, some 0)]) := by
  have d0 : (Dx11._renoir_dx11_pass_end 5 (Dx11.recording_context true) 0).isSome = true := by
    decide
  have d1 : (Dx11.pass_calls 5 (Dx11.two_pass_context true)
      [(0, .pass_begin), (0, .clear { clear_color := true }), (0, .pass_end)]).isSome = true := by
    decide
  have d2 : (Gl450._renoir_gl450_pass_end 5 (Gl450.recording_context false) 0).isSome = true := by
    decide
  have d3 : (Gl450.pass_calls 5 (Gl450.two_pass_context false)
      [(0, .pass_begin), (0, .clear { clear_color := true }), (0, .pass_end)]).isSome = true := by
    decide
  obtain ⟨es', e0⟩ := Option.isSome_iff_exists.1 d0
  obtain ⟨s', e1⟩ := Option.isSome_iff_exists.1 d1
  obtain ⟨ges', e2⟩ := Option.isSome_iff_exists.1 d2
  obtain ⟨gs', e3⟩ := Option.isSome_iff_exists.1 d3
  have h := c19_pass_reuse 5 (Dx11.recording_context true) es' 0 e0
    5 (Dx11.two_pass_context true) [0] [0, 1] (fun _ => []) (dx11_inv_two_pass_context true)
    0 (by decide) [.clear { clear_color := true }] (by intro c hc; simp at hc; subst hc; rfl)
    s' e1
    5 (Gl450.recording_context false) ges' 0 e2
    5 (Gl450.two_pass_context false) [] [0, 1] (fun _ => []) (gl450_inv_two_pass_context false)
    0 (by decide) [.clear { clear_color := true }] (by intro c hc; simp at hc; subst hc; rfl)
    gs' e3
  obtain ⟨_, ⟨a1, _, _, a4, _⟩, _, ⟨b1, _, _, _, b5⟩⟩ := h
  exact ⟨⟨s', e1, a1, a4 rfl⟩, ⟨gs', e3, b1, b5 rfl⟩⟩

/-- C16 fails on the D3D11 backend: on pass 0 in the Recording state (private list
`[1, 2]`), `buffer_write` and `texture_write` of zero bytes return with the private list
still `[1, 2]` (nothing is appended), and in immediate mode `texture_bind` executes a
`SAMPLER_NEW` command before it appends its record. -/
theorem c16_zero_size_write_records_nothing :
    ((Dx11._renoir_dx11_buffer_write (Dx11.recording_context false) 0 (some 1) 0 (some 7) 0).map
        fun s => Dx11.list_records s.commands 5 (s.handles 0).pass.command_list_head)
      = some (some [1, 2]) ∧
    ((Dx11._renoir_dx11_texture_write (Dx11.recording_context true) 0 (some 1)
        { width := 4, bytes := some 7, bytes_size := 0 }).map
        fun s => Dx11.list_records s.commands 5 (s.handles 0).pass.command_list_head)
      = some (some [1, 2]) ∧
    ((Dx11._renoir_dx11_texture_bind 5 (Dx11.recording_context false) 0 (some 1) 0 0).map
        fun s => ((Dx11.executed s.trace).map (fun r => r.2.kind),
          Dx11.list_records s.commands 5 (s.handles 0).pass.command_list_head))
      = some ([.RENOIR_COMMAND_KIND_SAMPLER_NEW], some [1, 2, 3]) := by
  refine ⟨?_, ?_, ?_⟩ <;> decide

/-- Witness of C16: pass 0 in the Recording state with the private list `[1, 2]`; `draw`
(D3D11 deferred, GL immediate) and the D3D11 `texture_bind` (deferred) each append one
record. -/
theorem c16_recording_appends_witness :
    Dx11.list_records (Dx11._renoir_dx11_draw (Dx11.recording_context true) 0 {}).commands 3
        ((Dx11._renoir_dx11_draw (Dx11.recording_context true) 0 {}).handles 0).pass.command_list_head
      = some [1, 2, 3] ∧
    (∃ s', Dx11._renoir_dx11_texture_bind 5 (Dx11.recording_context true) 0 (some 1) 0 0
        = some s' ∧
      ∃ c, Dx11.list_records s'.commands 3 (s'.handles 0).pass.command_list_head
          = some [1, 2, c] ∧
        Dx11.executed s'.trace = Dx11.executed (Dx11.recording_context true).trace) ∧
    Gl450.list_records (Gl450._renoir_gl450_draw (Gl450.recording_context false) 0 {}).commands 3
        ((Gl450._renoir_gl450_draw (Gl450.recording_context false) 0 {}).handles 0).pass.command_list_head
      = some [1, 2, 3] := by
  have d1 : (Dx11._renoir_dx11_texture_bind 5 (Dx11.recording_context true) 0 (some 1)
      0 0).isSome = true := by decide
  obtain ⟨ts', e1⟩ := Option.isSome_iff_exists.1 d1
  have h := c16_recording_appends 0 (Dx11.recording_context true) 0 [0] [0, 1]
    (fun h => if h = 0 then [1, 2] else []) (dx11_inv_recording_context true).2.1
    (by decide) (.draw {}) rfl rfl
    (Dx11._renoir_dx11_draw (Dx11.recording_context true) 0 {}) rfl
    5 (Dx11.recording_context true) [0] [0, 1]
    (fun h => if h = 0 then [1, 2] else []) (dx11_inv_recording_context true)
    0 (by decide) (.texture_bind (some 1) 0 0) rfl ts' e1
    0 (Gl450.recording_context false) 0 [] [0, 1]
    (fun h => if h = 0 then [1, 2] else []) (gl450_inv_recording_context false).2.1
    (by decide) (.draw {}) rfl
    (Gl450._renoir_gl450_draw (Gl450.recording_context false) 0 {}) rfl
  obtain ⟨⟨a1, _⟩, ⟨c, b1, _, b3⟩, ⟨g1, _⟩⟩ := h
  exact ⟨a1, ⟨ts', e1, c, b1, b3 rfl⟩, g1⟩


/-! ### Deferred copy safety -/

/-! ### Command processing -/

/-! ### Texture dimensions and the error buffer -/

/-- C30 (code defect).  GL: a texture with a height and a depth takes the
three-dimensional branch when it is created and no branch at all when it is written, read
or bound, because the third condition of these three handlers repeats the one of the
second branch; executing `TEXTURE_WRITE` on such a texture leaves the context as it was.
A texture without depth takes the same branch in all four handlers. -/
theorem c30_texture_with_depth_takes_no_branch (size : Renoir_Size) :
    (size.height > 0 → size.depth > 0 →
      Gl450.texture_new_path size = .three_dimensional ∧
      Gl450.texture_write_path size = .no_call ∧
      Gl450.texture_read_path size = .no_call ∧
      Gl450.texture_bind_path size = .no_call ∧
      ∀ (s : Gl450.IRenoir) (h : Nat) (args : List Int) (bytes : Block),
        (s.handles h).texture.size = size →
        Gl450.execute_texture_write s h args bytes = s) ∧
    (size.depth = 0 →
      Gl450.texture_write_path size = Gl450.texture_new_path size ∧
      Gl450.texture_read_path size = Gl450.texture_new_path size ∧
      Gl450.texture_bind_path size = Gl450.texture_new_path size) := by
  constructor
  · intro hh hd
    have h1 : ¬ (size.height = 0 ∧ size.depth = 0) := fun h => by omega
    have h2 : ¬ (size.height > 0 ∧ size.depth = 0) := fun h => by omega
    refine ⟨?_, ?_, ?_, ?_, ?_⟩
    · unfold Gl450.texture_new_path
      rw [if_neg h1, if_neg h2, if_pos ⟨hh, hd⟩]
    · unfold Gl450.texture_write_path
      rw [if_neg h1, if_neg h2, if_neg h2]
    · unfold Gl450.texture_read_path
      rw [if_neg h1, if_neg h2, if_neg h2]
    · unfold Gl450.texture_bind_path
      rw [if_neg h1, if_neg h2, if_neg h2]
    · intro s h args bytes hs
      unfold Gl450.execute_texture_write
      simp only [hs]
      rw [if_neg h1, if_neg h2, if_neg h2]
  · intro hd
    have h3 : ¬ (size.height > 0 ∧ size.depth > 0) := fun h => by omega
    unfold Gl450.texture_new_path Gl450.texture_write_path Gl450.texture_read_path
      Gl450.texture_bind_path
    rw [if_neg h3]
    refine ⟨?_, ?_, ?_⟩ <;> split <;> try rfl
    all_goals split <;> rfl

/-- C28 (code defect).  D3D11 `program_check`, compile failure with an error log of
`blob.length >= 1` bytes and a buffer of `error_size >= 1` bytes: when the log does not
fit (`blob.length >= error_size`) the terminating zero is stored at index `error_size`,
one past the last byte of the buffer (a log of five bytes and a buffer of four: the
indices 0, 1, 2 and 4 are stored); when it fits, every index stored is below
`error_size`. -/
theorem c28_terminator_is_stored_past_the_buffer (blob : List Nat) (error_size : Nat) :
    Dx11.program_check_stores [101, 114, 114, 111, 114] 4
      = [(0, 101), (1, 114), (2, 114), (4, 0)] ∧
    (1 ≤ error_size → error_size ≤ blob.length →
      (error_size, 0) ∈ Dx11.program_check_stores blob error_size) ∧
    (1 ≤ blob.length → blob.length < error_size → error_size < 2 ^ 64 →
      ∀ w ∈ Dx11.program_check_stores blob error_size, w.1 < error_size) := by
  refine ⟨by decide, ?_, ?_⟩
  · intro h1 h2
    unfold Dx11.program_check_stores
    rw [if_pos (by omega)]
    simp only []
    by_cases h3 : blob.length > error_size
    · simp [h3]
    · have : blob.length = error_size := by omega
      simp [this]
  · intro h1 h2 h3 w hw
    unfold Dx11.program_check_stores at hw
    rw [if_pos (by omega)] at hw
    simp only [] at hw
    rw [if_neg (by omega)] at hw
    have hn : (blob.length + 2 ^ 64 - 1) % 2 ^ 64 = blob.length - 1 := by
      have : blob.length + 2 ^ 64 - 1 = (blob.length - 1) + 2 ^ 64 := by omega
      rw [this, Nat.add_mod_right, Nat.mod_eq_of_lt (by omega)]
    rw [hn] at hw
    rcases List.mem_append.mp hw with hw | hw
    · simp only [List.mem_map, List.mem_range] at hw
      obtain ⟨i, hi, rfl⟩ := hw
      show i < error_size
      omega
    · rw [List.mem_singleton.mp hw]
      exact h2


/-! ### The record of PASS_FREE -/

theorem dx11_freed_command_free (s : Dx11.IRenoir) (c : Nat) :
    Dx11.freed (Dx11._renoir_dx11_command_free s c).trace
      = Dx11.freed s.trace ++ [(c, s.commands c)] := by
  unfold Dx11._renoir_dx11_command_free
  simp only []
  split <;> (try split) <;> (try split) <;>
    simp [Dx11.mn_free, Dx11.emit, Dx11.freed, List.filterMap_append]

/-- The loop of `PASS_FREE` over the pending records `P` of the pass hands `command` to
`command_free` once for every record of `P`, and no record of `P`. -/
theorem dx11_pass_free_pending_frees (command : Nat) :
    ∀ (fuel : Nat) (s : Dx11.IRenoir) (p : Ptr) (P : List Nat),
      Dx11.list_records s.commands fuel p = some P →
      ∃ s', Dx11.pass_free_pending fuel s command p = some s' ∧
        Dx11.freed s'.trace
          = Dx11.freed s.trace ++ List.replicate P.length (command, s.commands command) ∧
        s'.commands = s.commands ∧ s'.handles = s.handles := by
  intro fuel
  induction fuel with
  | zero =>
    intro s p P h
    cases p with
    | none =>
      simp only [Dx11.list_records, Option.some.injEq] at h
      subst h
      exact ⟨s, rfl, by simp, rfl, rfl⟩
    | some it => simp [Dx11.list_records] at h
  | succ fuel ih =>
    intro s p P h
    cases p with
    | none =>
      simp only [Dx11.list_records, Option.some.injEq] at h
      subst h
      exact ⟨s, rfl, by simp, rfl, rfl⟩
    | some it =>
      simp only [Dx11.list_records, Option.map_eq_some'] at h
      obtain ⟨l, hl, rfl⟩ := h
      obtain ⟨f1, _, _, _, _, _, _, f8, _⟩ := dx11_command_free_frame s command
      obtain ⟨s', e1, e2, e3, e4⟩ := ih (Dx11._renoir_dx11_command_free s command)
        (((Dx11._renoir_dx11_command_free s command).commands it).next) l (by
          rw [f1]; exact hl)
      refine ⟨s', ?_, ?_, e3.trans f1, e4.trans f8⟩
      · simp only [Dx11.pass_free_pending]
        exact e1
      · rw [e2, dx11_freed_command_free, f1, List.append_assoc]
        rfl

/-- The `PASS_FREE` handler on a pass with count 1, pending records `P` and no
attachments: the records handed to `command_free` are `P.length` times the `PASS_FREE`
record itself. -/
theorem dx11_pass_free_frees (fuel : Nat) (s : Dx11.IRenoir) (command h : Nat)
    (P : List Nat) (hrc : (s.handles h).rc = 1)
    (hoff : (s.handles h).pass.offscreen = {})
    (hl : Dx11.list_records s.commands fuel (s.handles h).pass.command_list_head = some P) :
    ∃ s', Dx11.execute_pass_free fuel s command h = some s' ∧
      Dx11.freed s'.trace
        = Dx11.freed s.trace ++ List.replicate P.length (command, s.commands command) := by
  obtain ⟨s1, e1, e2, e3, e4⟩ := dx11_pass_free_pending_frees command fuel
    { s with handles := (Dx11._renoir_dx11_handle_unref s.handles h).2 }
    (((Dx11._renoir_dx11_handle_unref s.handles h).2 h).pass.command_list_head) P (by
      show Dx11.list_records s.commands fuel
        ((write s.handles h _ h).pass.command_list_head) = some P
      rw [write_same]
      exact hl)
  have hoff1 : (s1.handles h).pass.offscreen = {} := by
    rw [e4]
    show (write s.handles h _ h).pass.offscreen = _
    rw [write_same]
    exact hoff
  have hfold : ∀ (l : List Nat) (t : Dx11.IRenoir), (t.handles h).pass.offscreen = {} →
      l.foldl (Dx11.pass_free_color h) t = t := by
    intro l
    induction l with
    | nil => intro t _; rfl
    | cons a l ih =>
      intro t ht
      simp only [List.foldl_cons, dx11_pass_free_color_plain h t ht, ih t ht]
  unfold Dx11.execute_pass_free
  simp only []
  rw [if_neg (by simp [Dx11._renoir_dx11_handle_unref, hrc])]
  rw [e1]
  simp only []
  refine ⟨_, rfl, ?_⟩
  rw [hfold _ _ hoff1]
  have hd : (s1.handles h).pass.offscreen.depth_stencil.handle = none := by
    rw [hoff1]
  simp only [hd]
  have : ∀ t : Dx11.IRenoir, Dx11.freed (Dx11._renoir_dx11_handle_free t h).trace
      = Dx11.freed t.trace := by
    intro t
    simp [Dx11._renoir_dx11_handle_free, Dx11.freed, List.filterMap_append]
  split <;> rw [this, e2]

theorem gl450_freed_command_free (s : Gl450.IRenoir) (c : Nat) :
    Gl450.freed (Gl450._renoir_gl450_command_free s c).trace
      = Gl450.freed s.trace ++ [(c, s.commands c)] := by
  unfold Gl450._renoir_gl450_command_free
  simp only []
  split <;> (try split) <;> (try split) <;>
    simp [Gl450.mn_free, Gl450.emit, Gl450.freed, List.filterMap_append]

/-- The loop of `PASS_FREE` over the pending records `P` of the pass hands `command` to
`command_free` once for every record of `P`, and no record of `P`. -/
theorem gl450_pass_free_pending_frees (command : Nat) :
    ∀ (fuel : Nat) (s : Gl450.IRenoir) (p : Ptr) (P : List Nat),
      Gl450.list_records s.commands fuel p = some P →
      ∃ s', Gl450.pass_free_pending fuel s command p = some s' ∧
        Gl450.freed s'.trace
          = Gl450.freed s.trace ++ List.replicate P.length (command, s.commands command) ∧
        s'.commands = s.commands ∧ s'.handles = s.handles := by
  intro fuel
  induction fuel with
  | zero =>
    intro s p P h
    cases p with
    | none =>
      simp only [Gl450.list_records, Option.some.injEq] at h
      subst h
      exact ⟨s, rfl, by simp, rfl, rfl⟩
    | some it => simp [Gl450.list_records] at h
  | succ fuel ih =>
    intro s p P h
    cases p with
    | none =>
      simp only [Gl450.list_records, Option.some.injEq] at h
      subst h
      exact ⟨s, rfl, by simp, rfl, rfl⟩
    | some it =>
      simp only [Gl450.list_records, Option.map_eq_some'] at h
      obtain ⟨l, hl, rfl⟩ := h
      obtain ⟨f1, _, _, _, _, _, f8, _⟩ := gl450_command_free_frame s command
      obtain ⟨s', e1, e2, e3, e4⟩ := ih (Gl450._renoir_gl450_command_free s command)
        (((Gl450._renoir_gl450_command_free s command).commands it).next) l (by
          rw [f1]; exact hl)
      refine ⟨s', ?_, ?_, e3.trans f1, e4.trans f8⟩
      · simp only [Gl450.pass_free_pending]
        exact e1
      · rw [e2, gl450_freed_command_free, f1, List.append_assoc]
        rfl

/-- The `PASS_FREE` handler on a pass with count 1, pending records `P` and no
attachments: the records handed to `command_free` are `P.length` times the `PASS_FREE`
record itself. -/
theorem gl450_pass_free_frees (fuel : Nat) (s : Gl450.IRenoir) (command h : Nat)
    (P : List Nat) (hrc : (s.handles h).rc = 1)
    (hoff : (s.handles h).pass.offscreen = {})
    (hl : Gl450.list_records s.commands fuel (s.handles h).pass.command_list_head = some P) :
    ∃ s', Gl450.execute_pass_free fuel s command h = some s' ∧
      Gl450.freed s'.trace
        = Gl450.freed s.trace ++ List.replicate P.length (command, s.commands command) := by
  obtain ⟨s1, e1, e2, e3, e4⟩ := gl450_pass_free_pending_frees command fuel
    { s with handles := (Gl450._renoir_gl450_handle_unref s.handles h).2 }
    (((Gl450._renoir_gl450_handle_unref s.handles h).2 h).pass.command_list_head) P (by
      show Gl450.list_records s.commands fuel
        ((write s.handles h _ h).pass.command_list_head) = some P
      rw [write_same]
      exact hl)
  have hoff1 : (s1.handles h).pass.offscreen = {} := by
    rw [e4]
    show (write s.handles h _ h).pass.offscreen = _
    rw [write_same]
    exact hoff
  have hfold : ∀ (l : List Nat) (t : Gl450.IRenoir), (t.handles h).pass.offscreen = {} →
      l.foldl (Gl450.pass_free_color h) t = t := by
    intro l
    induction l with
    | nil => intro t _; rfl
    | cons a l ih =>
      intro t ht
      simp only [List.foldl_cons, gl450_pass_free_color_plain h t ht, ih t ht]
  unfold Gl450.execute_pass_free
  simp only []
  rw [if_neg (by simp [Gl450._renoir_gl450_handle_unref, hrc])]
  rw [e1]
  simp only []
  refine ⟨_, rfl, ?_⟩
  rw [hfold _ _ hoff1]
  have hd : (s1.handles h).pass.offscreen.depth_stencil.handle = none := by
    rw [hoff1]
  simp only [hd]
  have : ∀ t : Gl450.IRenoir, Gl450.freed (Gl450._renoir_gl450_handle_free t h).trace
      = Gl450.freed t.trace := by
    intro t
    simp [Gl450._renoir_gl450_handle_free, Gl450.freed, List.filterMap_append]
  split <;> rw [this, e2]

set_option maxRecDepth 100000 in
/-- C26 (code defect).  Both backends: the `PASS_FREE` handler, on a pass with count 1 and
no attachments whose private list holds the pending records `P`, hands to `command_free`
the `PASS_FREE` record itself, once for every record of `P`, and none of the records of
`P`: its loop walks the list with `it` and frees `command`.  On the pass 0 with the
pending records 1 and 2, executing the `PASS_FREE` record 3 frees `[3, 3]`. -/
theorem c26_pass_free_frees_its_own_record :
    (∀ (fuel : Nat) (s : Dx11.IRenoir) (command h : Nat) (P : List Nat),
      (s.handles h).rc = 1 → (s.handles h).pass.offscreen = {} →
      Dx11.list_records s.commands fuel (s.handles h).pass.command_list_head = some P →
      ∃ s', Dx11.execute_pass_free fuel s command h = some s' ∧
        Dx11.freed s'.trace
          = Dx11.freed s.trace ++ List.replicate P.length (command, s.commands command)) ∧
    (∀ (fuel : Nat) (s : Gl450.IRenoir) (command h : Nat) (P : List Nat),
      (s.handles h).rc = 1 → (s.handles h).pass.offscreen = {} →
      Gl450.list_records s.commands fuel (s.handles h).pass.command_list_head = some P →
      ∃ s', Gl450.execute_pass_free fuel s command h = some s' ∧
        Gl450.freed s'.trace
          = Gl450.freed s.trace ++ List.replicate P.length (command, s.commands command)) ∧
    (Dx11.list_records Dx11.pending_pass_free_context.commands 5
        (Dx11.pending_pass_free_context.handles 0).pass.command_list_head,
      (Dx11._renoir_dx11_command_execute 5 Dx11.pending_pass_free_context 3).map
        fun s => (Dx11.freed s.trace).map Prod.fst) = (some [1, 2], some [3, 3]) ∧
    (Gl450.list_records Gl450.pending_pass_free_context.commands 5
        (Gl450.pending_pass_free_context.handles 0).pass.command_list_head,
      (Gl450._renoir_gl450_command_execute 5 Gl450.pending_pass_free_context 3).map
        fun s => (Gl450.freed s.trace).map Prod.fst) = (some [1, 2], some [3, 3]) := by
  refine ⟨fun fuel s command h P h1 h2 h3 => dx11_pass_free_frees fuel s command h P h1 h2 h3,
    fun fuel s command h P h1 h2 h3 => gl450_pass_free_frees fuel s command h P h1 h2 h3,
    by decide, by decide⟩


/-! ### Creation without initial data -/

/-- What `command_process` in deferred mode leaves of a record: everything but its links. -/
theorem gl450_process_deferred_record (fuel : Nat) (s s' : Gl450.IRenoir) (c : Nat)
    (hd : s.settings.defer_api_calls = true)
    (he : Gl450._renoir_gl450_command_process fuel s c = some s') :
    (s'.commands c).buffer_desc = (s.commands c).buffer_desc ∧
    (s'.commands c).texture_desc = (s.commands c).texture_desc ∧
    (s'.commands c).owns_data = (s.commands c).owns_data ∧
    s'.heap_fresh = s.heap_fresh := by
  obtain ⟨s1, e1, _, _, _, _, _, _, _, e9, _⟩ := gl450_process_deferred fuel s c hd
  rw [e1] at he
  cases he
  have h := e9 c
  have h1 := congrArg Gl450.Renoir_Command.buffer_desc h
  have h2 := congrArg Gl450.Renoir_Command.texture_desc h
  have h3 := congrArg Gl450.Renoir_Command.owns_data h
  refine ⟨h1, h2, h3, ?_⟩
  unfold Gl450._renoir_gl450_command_process at e1
  simp only [] at e1
  rw [if_pos (show (Gl450.emit s _).settings.defer_api_calls = true from hd)] at e1
  cases e1
  rfl

/-- GL `buffer_new` in deferred mode with a null data pointer: with `data_size = 0` the
record is given a block of its own and is marked as owning it; with `data_size > 0` the
copy reads the null pointer. -/
theorem gl450_buffer_new_null_data (fuel : Nat) (s : Gl450.IRenoir) (desc : Renoir_Buffer_Desc)
    (hd : s.settings.defer_api_calls = true) (hdata : desc.data = none)
    (hok : ¬ (desc.usage = .RENOIR_USAGE_DYNAMIC ∧ desc.access = .RENOIR_ACCESS_NONE)) :
    (desc.data_size ≠ 0 → Gl450._renoir_gl450_buffer_new fuel s desc = none) ∧
    (desc.data_size = 0 →
      ∃ r, Gl450._renoir_gl450_buffer_new fuel s desc = some r ∧
        (r.2.commands (pool_get s.command_pool).1).buffer_desc.data = some s.heap_fresh ∧
        (r.2.commands (pool_get s.command_pool).1).owns_data = true ∧
        r.2.heap_fresh = s.heap_fresh + 1) := by
  have hdata1 : (if desc.usage = RENOIR_USAGE.RENOIR_USAGE_NONE then
      { desc with usage := RENOIR_USAGE.RENOIR_USAGE_STATIC } else desc).data = none := by
    split <;> exact hdata
  have hsize1 : (if desc.usage = RENOIR_USAGE.RENOIR_USAGE_NONE then
      { desc with usage := RENOIR_USAGE.RENOIR_USAGE_STATIC } else desc).data_size
        = desc.data_size := by
    split <;> rfl
  have hok1 : ¬ ((if desc.usage = RENOIR_USAGE.RENOIR_USAGE_NONE then
      { desc with usage := RENOIR_USAGE.RENOIR_USAGE_STATIC } else desc).usage
        = .RENOIR_USAGE_DYNAMIC ∧
      (if desc.usage = RENOIR_USAGE.RENOIR_USAGE_NONE then
      { desc with usage := RENOIR_USAGE.RENOIR_USAGE_STATIC } else desc).access
        = .RENOIR_ACCESS_NONE) := by
    split
    · simp
    · exact hok
  unfold Gl450._renoir_gl450_buffer_new
  simp only []
  generalize (if desc.usage = RENOIR_USAGE.RENOIR_USAGE_NONE then
      { desc with usage := RENOIR_USAGE.RENOIR_USAGE_STATIC } else desc) = desc1
    at hdata1 hsize1 hok1
  rw [if_neg hok1]
  constructor
  · intro hz
    have hz1 : desc1.data_size ≠ 0 := by rw [hsize1]; exact hz
    simp [Gl450.set_command, Gl450._renoir_gl450_command_new, Gl450._renoir_gl450_handle_new,
      Gl450.mn_alloc, Gl450.memcpy, hd, hz1, hdata1]
  · intro hz
    have hz1 : desc1.data_size = 0 := by rw [hsize1]; exact hz
    obtain ⟨S0, hS0⟩ : ∃ S0 : Gl450.IRenoir, S0 =
        Gl450.set_command (Gl450.set_command (Gl450.mn_alloc (Gl450.set_command
          (Gl450._renoir_gl450_command_new
            (Gl450._renoir_gl450_handle_new s .RENOIR_HANDLE_KIND_BUFFER).2
            .RENOIR_COMMAND_KIND_BUFFER_NEW).2
          (pool_get s.command_pool).1
          { kind := .RENOIR_COMMAND_KIND_BUFFER_NEW,
            handle := some (pool_get s.handle_pool).1, buffer_desc := desc1 }) 0).2
          (pool_get s.command_pool).1
          { kind := .RENOIR_COMMAND_KIND_BUFFER_NEW,
            handle := some (pool_get s.handle_pool).1,
            buffer_desc := { desc1 with data := some s.heap_fresh } })
          (pool_get s.command_pool).1
          { kind := .RENOIR_COMMAND_KIND_BUFFER_NEW,
            handle := some (pool_get s.handle_pool).1,
            buffer_desc := { desc1 with data := some s.heap_fresh }, owns_data := true } :=
      ⟨_, rfl⟩
    have hdS : S0.settings.defer_api_calls = true := by rw [hS0]; exact hd
    have hrec : S0.commands (pool_get s.command_pool).1
        = { kind := .RENOIR_COMMAND_KIND_BUFFER_NEW,
            handle := some (pool_get s.handle_pool).1,
            buffer_desc := { desc1 with data := some s.heap_fresh }, owns_data := true } := by
      rw [hS0]
      simp [Gl450.set_command, write_same]
    have hheap : S0.heap_fresh = s.heap_fresh + 1 := by rw [hS0]; rfl
    obtain ⟨s3, e1, _⟩ := gl450_process_deferred fuel S0 (pool_get s.command_pool).1 hdS
    obtain ⟨p1, _, p3, p4⟩ := gl450_process_deferred_record fuel S0 s3 _ hdS e1
    refine ⟨((pool_get s.handle_pool).1, s3), ?_, ?_, ?_, ?_⟩
    · simp only [Gl450.set_command, Gl450._renoir_gl450_command_new,
        Gl450._renoir_gl450_handle_new, Gl450.mn_alloc, Gl450.memcpy, hd, hz1, if_true,
        Option.map_some', Option.some_bind, write_same, write_write] at hS0 ⊢
      rw [← hS0, e1]
      rfl
    · rw [p1, hrec]
    · rw [p3, hrec]
    · rw [p4, hheap]

/-- GL `texture_new` in deferred mode with a null data pointer: with `data_size = 0` the
record is given a block of its own and is marked as owning it; with `data_size > 0` the
copy reads the null pointer. -/
theorem gl450_texture_new_null_data (fuel : Nat) (s : Gl450.IRenoir) (desc : Renoir_Texture_Desc)
    (hd : s.settings.defer_api_calls = true) (hdata : desc.data = none)
    (hok : ¬ (desc.usage = .RENOIR_USAGE_DYNAMIC ∧ desc.access = .RENOIR_ACCESS_NONE)) :
    (desc.data_size ≠ 0 → Gl450._renoir_gl450_texture_new fuel s desc = none) ∧
    (desc.data_size = 0 →
      ∃ r, Gl450._renoir_gl450_texture_new fuel s desc = some r ∧
        (r.2.commands (pool_get s.command_pool).1).texture_desc.data = some s.heap_fresh ∧
        (r.2.commands (pool_get s.command_pool).1).owns_data = true ∧
        r.2.heap_fresh = s.heap_fresh + 1) := by
  have hdata1 : (if desc.usage = RENOIR_USAGE.RENOIR_USAGE_NONE then
      { desc with usage := RENOIR_USAGE.RENOIR_USAGE_STATIC } else desc).data = none := by
    split <;> exact hdata
  have hsize1 : (if desc.usage = RENOIR_USAGE.RENOIR_USAGE_NONE then
      { desc with usage := RENOIR_USAGE.RENOIR_USAGE_STATIC } else desc).data_size
        = desc.data_size := by
    split <;> rfl
  have hok1 : ¬ ((if desc.usage = RENOIR_USAGE.RENOIR_USAGE_NONE then
      { desc with usage := RENOIR_USAGE.RENOIR_USAGE_STATIC } else desc).usage
        = .RENOIR_USAGE_DYNAMIC ∧
      (if desc.usage = RENOIR_USAGE.RENOIR_USAGE_NONE then
      { desc with usage := RENOIR_USAGE.RENOIR_USAGE_STATIC } else desc).access
        = .RENOIR_ACCESS_NONE) := by
    split
    · simp
    · exact hok
  unfold Gl450._renoir_gl450_texture_new
  simp only []
  generalize (if desc.usage = RENOIR_USAGE.RENOIR_USAGE_NONE then
      { desc with usage := RENOIR_USAGE.RENOIR_USAGE_STATIC } else desc) = desc1
    at hdata1 hsize1 hok1
  rw [if_neg hok1]
  constructor
  · intro hz
    have hz1 : desc1.data_size ≠ 0 := by rw [hsize1]; exact hz
    simp [Gl450.set_command, Gl450._renoir_gl450_command_new, Gl450._renoir_gl450_handle_new,
      Gl450.mn_alloc, Gl450.memcpy, hd, hz1, hdata1]
  · intro hz
    have hz1 : desc1.data_size = 0 := by rw [hsize1]; exact hz
    obtain ⟨S0, hS0⟩ : ∃ S0 : Gl450.IRenoir, S0 =
        Gl450.set_command (Gl450.set_command (Gl450.mn_alloc (Gl450.set_command
          (Gl450._renoir_gl450_command_new
            (Gl450._renoir_gl450_handle_new s .RENOIR_HANDLE_KIND_TEXTURE).2
            .RENOIR_COMMAND_KIND_TEXTURE_NEW).2
          (pool_get s.command_pool).1
          { kind := .RENOIR_COMMAND_KIND_TEXTURE_NEW,
            handle := some (pool_get s.handle_pool).1, texture_desc := desc1 }) 0).2
          (pool_get s.command_pool).1
          { kind := .RENOIR_COMMAND_KIND_TEXTURE_NEW,
            handle := some (pool_get s.handle_pool).1,
            texture_desc := { desc1 with data := some s.heap_fresh } })
          (pool_get s.command_pool).1
          { kind := .RENOIR_COMMAND_KIND_TEXTURE_NEW,
            handle := some (pool_get s.handle_pool).1,
            texture_desc := { desc1 with data := some s.heap_fresh }, owns_data := true } :=
      ⟨_, rfl⟩
    have hdS : S0.settings.defer_api_calls = true := by rw [hS0]; exact hd
    have hrec : S0.commands (pool_get s.command_pool).1
        = { kind := .RENOIR_COMMAND_KIND_TEXTURE_NEW,
            handle := some (pool_get s.handle_pool).1,
            texture_desc := { desc1 with data := some s.heap_fresh }, owns_data := true } := by
      rw [hS0]
      simp [Gl450.set_command, write_same]
    have hheap : S0.heap_fresh = s.heap_fresh + 1 := by rw [hS0]; rfl
    obtain ⟨s3, e1, _⟩ := gl450_process_deferred fuel S0 (pool_get s.command_pool).1 hdS
    obtain ⟨_, p1, p3, p4⟩ := gl450_process_deferred_record fuel S0 s3 _ hdS e1
    refine ⟨((pool_get s.handle_pool).1, s3), ?_, ?_, ?_, ?_⟩
    · simp only [Gl450.set_command, Gl450._renoir_gl450_command_new,
        Gl450._renoir_gl450_handle_new, Gl450.mn_alloc, Gl450.memcpy, hd, hz1, if_true,
        Option.map_some', Option.some_bind, write_same, write_write] at hS0 ⊢
      rw [← hS0, e1]
      rfl
    · rw [p1, hrec]
    · rw [p3, hrec]
    · rw [p4, hheap]


/-- D3D11 `buffer_new` with static usage (given, or the default of `NONE`) and no initial
data fails its assertion, in both modes. -/
theorem dx11_buffer_new_static_no_data (fuel : Nat) (s : Dx11.IRenoir)
    (desc : Renoir_Buffer_Desc)
    (hu : desc.usage = .RENOIR_USAGE_STATIC ∨ desc.usage = .RENOIR_USAGE_NONE)
    (hdata : desc.data = none) :
    Dx11._renoir_dx11_buffer_new fuel s desc = none := by
  unfold Dx11._renoir_dx11_buffer_new
  simp only []
  have h1 : (if desc.usage = RENOIR_USAGE.RENOIR_USAGE_NONE then
      { desc with usage := RENOIR_USAGE.RENOIR_USAGE_STATIC } else desc).usage
        = .RENOIR_USAGE_STATIC := by
    rcases hu with hu | hu
    · rw [if_neg (by rw [hu]; decide)]; exact hu
    · rw [if_pos hu]
  have h2 : (if desc.usage = RENOIR_USAGE.RENOIR_USAGE_NONE then
      { desc with usage := RENOIR_USAGE.RENOIR_USAGE_STATIC } else desc).data = none := by
    split <;> exact hdata
  generalize (if desc.usage = RENOIR_USAGE.RENOIR_USAGE_NONE then
      { desc with usage := RENOIR_USAGE.RENOIR_USAGE_STATIC } else desc) = desc1 at h1 h2
  split
  · rfl
  · rw [if_pos ⟨h1, h2⟩]

/-- GL `buffer_new` with static usage and no initial data has no such assertion: in
immediate mode it returns the new handle. -/
theorem gl450_buffer_new_static_no_data (fuel : Nat) (s : Gl450.IRenoir)
    (desc : Renoir_Buffer_Desc)
    (hu : desc.usage = .RENOIR_USAGE_STATIC ∨ desc.usage = .RENOIR_USAGE_NONE)
    (hd : s.settings.defer_api_calls = false) :
    ∃ r, Gl450._renoir_gl450_buffer_new fuel s desc = some r ∧
      r.1 = (pool_get s.handle_pool).1 := by
  have h1 : (if desc.usage = RENOIR_USAGE.RENOIR_USAGE_NONE then
      { desc with usage := RENOIR_USAGE.RENOIR_USAGE_STATIC } else desc).usage
        = .RENOIR_USAGE_STATIC := by
    rcases hu with hu | hu
    · rw [if_neg (by rw [hu]; decide)]; exact hu
    · rw [if_pos hu]
  unfold Gl450._renoir_gl450_buffer_new
  simp only []
  generalize (if desc.usage = RENOIR_USAGE.RENOIR_USAGE_NONE then
      { desc with usage := RENOIR_USAGE.RENOIR_USAGE_STATIC } else desc) = desc1 at h1
  rw [if_neg (by rw [h1]; simp)]
  obtain ⟨S0, hS0⟩ : ∃ S0 : Gl450.IRenoir, S0 =
      Gl450.set_command
        (Gl450._renoir_gl450_command_new
          (Gl450._renoir_gl450_handle_new s .RENOIR_HANDLE_KIND_BUFFER).2
          .RENOIR_COMMAND_KIND_BUFFER_NEW).2
        (pool_get s.command_pool).1
        { kind := .RENOIR_COMMAND_KIND_BUFFER_NEW,
          handle := some (pool_get s.handle_pool).1, buffer_desc := desc1 } := ⟨_, rfl⟩
  have hdS : S0.settings.defer_api_calls = false := by rw [hS0]; exact hd
  have hrec : S0.commands (pool_get s.command_pool).1
      = { kind := .RENOIR_COMMAND_KIND_BUFFER_NEW,
          handle := some (pool_get s.handle_pool).1, buffer_desc := desc1 } := by
    rw [hS0]
    simp [Gl450.set_command, write_same]
  have hret := (gl450_process_immediate_returns fuel S0 (pool_get s.command_pool).1
    (pool_get s.handle_pool).1 hdS (by rw [hrec])).1 (by rw [hrec]; rfl)
    (by rw [hrec]; exact fun h => nomatch h) (by rw [hrec]; exact fun h => nomatch h)
    (by rw [hrec]; exact fun h => nomatch h)
  obtain ⟨s3, e1⟩ := Option.isSome_iff_exists.1 hret
  refine ⟨((pool_get s.handle_pool).1, s3), ?_, rfl⟩
  simp only [Gl450.set_command, Gl450._renoir_gl450_command_new,
    Gl450._renoir_gl450_handle_new, hd, Option.some_bind, write_same, write_write,
    Bool.false_eq_true, if_false] at hS0 ⊢
  rw [← hS0, e1]
  rfl

/-- What `command_process` in deferred mode leaves of a record: everything but its links. -/
theorem dx11_process_deferred_record (fuel : Nat) (s s' : Dx11.IRenoir) (c : Nat)
    (hd : s.settings.defer_api_calls = true)
    (he : Dx11._renoir_dx11_command_process fuel s c = some s') :
    (s'.commands c).buffer_desc = (s.commands c).buffer_desc ∧
    (s'.commands c).texture_desc = (s.commands c).texture_desc ∧
    (s'.commands c).owns_data = (s.commands c).owns_data ∧
    s'.heap_fresh = s.heap_fresh := by
  obtain ⟨s1, e1, _, _, _, _, _, _, _, e9, _⟩ := dx11_process_deferred fuel s c hd
  rw [e1] at he
  cases he
  have h := e9 c
  have h1 := congrArg Dx11.Renoir_Command.buffer_desc h
  have h2 := congrArg Dx11.Renoir_Command.texture_desc h
  have h3 := congrArg Dx11.Renoir_Command.owns_data h
  refine ⟨h1, h2, h3, ?_⟩
  unfold Dx11._renoir_dx11_command_process at e1
  simp only [] at e1
  rw [if_pos (show (Dx11.emit s _).settings.defer_api_calls = true from hd)] at e1
  cases e1
  rfl

/-- D3D11 `buffer_new` in deferred mode with a null data pointer (a dynamic buffer): the
record keeps the description as given, without initial data, owns nothing, and no block is
allocated. -/
theorem dx11_buffer_new_null_data (fuel : Nat) (s : Dx11.IRenoir) (desc : Renoir_Buffer_Desc)
    (hd : s.settings.defer_api_calls = true) (hdata : desc.data = none)
    (hu : desc.usage = .RENOIR_USAGE_DYNAMIC) (ha : desc.access ≠ .RENOIR_ACCESS_NONE)
    (ht : ¬ (desc.type = RENOIR_BUFFER_UNIFORM ∧ desc.data_size % 16 ≠ 0)) :
    ∃ r, Dx11._renoir_dx11_buffer_new fuel s desc = some r ∧
      (r.2.commands (pool_get s.command_pool).1).buffer_desc = desc ∧
      (r.2.commands (pool_get s.command_pool).1).owns_data = false ∧
      r.2.heap_fresh = s.heap_fresh := by
  unfold Dx11._renoir_dx11_buffer_new
  simp only []
  have hne : ¬ desc.usage = RENOIR_USAGE.RENOIR_USAGE_NONE := by
    rw [hu]; exact fun h => nomatch h
  have hns : ¬ (desc.usage = RENOIR_USAGE.RENOIR_USAGE_STATIC ∧ desc.data = none) := by
    rw [hu]; exact fun h => nomatch h.1
  simp only [if_neg hne]
  rw [if_neg (fun h => ha h.2), if_neg hns, if_neg ht]
  obtain ⟨S0, hS0⟩ : ∃ S0 : Dx11.IRenoir, S0 =
      Dx11.set_command
        (Dx11._renoir_dx11_command_new
          (Dx11._renoir_dx11_handle_new s .RENOIR_HANDLE_KIND_BUFFER).2
          .RENOIR_COMMAND_KIND_BUFFER_NEW).2
        (pool_get s.command_pool).1
        { kind := .RENOIR_COMMAND_KIND_BUFFER_NEW,
          handle := some (pool_get s.handle_pool).1, buffer_desc := desc } := ⟨_, rfl⟩
  have hdS : S0.settings.defer_api_calls = true := by rw [hS0]; exact hd
  have hrec : S0.commands (pool_get s.command_pool).1
      = { kind := .RENOIR_COMMAND_KIND_BUFFER_NEW,
          handle := some (pool_get s.handle_pool).1, buffer_desc := desc } := by
    rw [hS0]
    simp [Dx11.set_command, write_same]
  have hheap : S0.heap_fresh = s.heap_fresh := by rw [hS0]; rfl
  obtain ⟨s3, e1, _⟩ := dx11_process_deferred fuel S0 (pool_get s.command_pool).1 hdS
  obtain ⟨p1, _, p3, p4⟩ := dx11_process_deferred_record fuel S0 s3 _ hdS e1
  refine ⟨((pool_get s.handle_pool).1, s3), ?_, ?_, ?_, ?_⟩
  · simp only [Dx11.set_command, Dx11._renoir_dx11_command_new,
      Dx11._renoir_dx11_handle_new, hd, hdata, Option.isSome_none, Bool.false_eq_true,
      and_false, if_false, Option.some_bind, write_same, write_write] at hS0 ⊢
    rw [← hS0, e1]
    rfl
  · rw [p1, hrec]
  · rw [p3, hrec]
  · rw [p4, hheap]

/-- D3D11 `texture_new` in deferred mode with a null data pointer (a dynamic texture): the
record keeps the description as given, without initial data, owns nothing, and no block is
allocated. -/
theorem dx11_texture_new_null_data (fuel : Nat) (s : Dx11.IRenoir) (desc : Renoir_Texture_Desc)
    (hd : s.settings.defer_api_calls = true) (hdata : desc.data = none)
    (hu : desc.usage = .RENOIR_USAGE_DYNAMIC) (ha : desc.access ≠ .RENOIR_ACCESS_NONE) :
    ∃ r, Dx11._renoir_dx11_texture_new fuel s desc = some r ∧
      (r.2.commands (pool_get s.command_pool).1).texture_desc = desc ∧
      (r.2.commands (pool_get s.command_pool).1).owns_data = false ∧
      r.2.heap_fresh = s.heap_fresh := by
  unfold Dx11._renoir_dx11_texture_new
  simp only []
  have hne : ¬ desc.usage = RENOIR_USAGE.RENOIR_USAGE_NONE := by
    rw [hu]; exact fun h => nomatch h
  have hns : ¬ (desc.render_target = false ∧
      desc.usage = RENOIR_USAGE.RENOIR_USAGE_STATIC ∧ desc.data = none) := by
    rw [hu]; exact fun h => nomatch h.2.1
  simp only [if_neg hne]
  rw [if_neg (fun h => ha h.2), if_neg hns]
  obtain ⟨S0, hS0⟩ : ∃ S0 : Dx11.IRenoir, S0 =
      Dx11.set_command
        (Dx11._renoir_dx11_command_new
          (Dx11._renoir_dx11_handle_new s .RENOIR_HANDLE_KIND_TEXTURE).2
          .RENOIR_COMMAND_KIND_TEXTURE_NEW).2
        (pool_get s.command_pool).1
        { kind := .RENOIR_COMMAND_KIND_TEXTURE_NEW,
          handle := some (pool_get s.handle_pool).1, texture_desc := desc } := ⟨_, rfl⟩
  have hdS : S0.settings.defer_api_calls = true := by rw [hS0]; exact hd
  have hrec : S0.commands (pool_get s.command_pool).1
      = { kind := .RENOIR_COMMAND_KIND_TEXTURE_NEW,
          handle := some (pool_get s.handle_pool).1, texture_desc := desc } := by
    rw [hS0]
    simp [Dx11.set_command, write_same]
  have hheap : S0.heap_fresh = s.heap_fresh := by rw [hS0]; rfl
  obtain ⟨s3, e1, _⟩ := dx11_process_deferred fuel S0 (pool_get s.command_pool).1 hdS
  obtain ⟨_, p1, p3, p4⟩ := dx11_process_deferred_record fuel S0 s3 _ hdS e1
  refine ⟨((pool_get s.handle_pool).1, s3), ?_, ?_, ?_, ?_⟩
  · simp only [Dx11.set_command, Dx11._renoir_dx11_command_new,
      Dx11._renoir_dx11_handle_new, hd, hdata, Option.isSome_none, Bool.false_eq_true,
      and_false, if_false, Option.some_bind, write_same, write_write] at hS0 ⊢
    rw [← hS0, e1]
    rfl
  · rw [p1, hrec]
  · rw [p3, hrec]
  · rw [p4, hheap]

/-- C22 (code defect). `buffer_new` with static usage (explicit, or by the default for usage
NONE) and no initial data: D3D11 fails its assertion in every context, before anything is
allocated. The GL backend has no such assertion: in immediate mode the call returns the new
handle, and in deferred mode with `data_size = 0` it returns as well, with a record that
owns an empty block. In the context `two_pass_context false` the GL call with the default
description returns handle 2 after executing one BUFFER_NEW record. -/
theorem c22_gl_accepts_a_static_buffer_without_data :
    (∀ (fuel : Nat) (s : Dx11.IRenoir) (desc : Renoir_Buffer_Desc),
      (desc.usage = .RENOIR_USAGE_STATIC ∨ desc.usage = .RENOIR_USAGE_NONE) →
      desc.data = none →
      Dx11._renoir_dx11_buffer_new fuel s desc = none) ∧
    (∀ (fuel : Nat) (s : Gl450.IRenoir) (desc : Renoir_Buffer_Desc),
      (desc.usage = .RENOIR_USAGE_STATIC ∨ desc.usage = .RENOIR_USAGE_NONE) →
      desc.data = none →
      s.settings.defer_api_calls = false →
      ∃ r, Gl450._renoir_gl450_buffer_new fuel s desc = some r ∧
        r.1 = (pool_get s.handle_pool).1) ∧
    (∀ (fuel : Nat) (s : Gl450.IRenoir) (desc : Renoir_Buffer_Desc),
      (desc.usage = .RENOIR_USAGE_STATIC ∨ desc.usage = .RENOIR_USAGE_NONE) →
      desc.data = none →
      s.settings.defer_api_calls = true →
      desc.data_size = 0 →
      ∃ r, Gl450._renoir_gl450_buffer_new fuel s desc = some r ∧
        (r.2.commands (pool_get s.command_pool).1).owns_data = true) ∧
    (Gl450._renoir_gl450_buffer_new 4 (Gl450.two_pass_context false) {}).map
        (fun r => (r.1, (Gl450.executed r.2.trace).map fun e => (e.2.kind, e.2.handle)))
      = some (2, [(.RENOIR_COMMAND_KIND_BUFFER_NEW, some 2)]) ∧
    ((Gl450._renoir_gl450_buffer_new 4 (Gl450.two_pass_context true)
        { usage := .RENOIR_USAGE_STATIC }).map fun r => r.1) = some 2 ∧
    Dx11._renoir_dx11_buffer_new 4 (Dx11.two_pass_context false) {} = none := by
  refine ⟨fun fuel s desc hu hdata => dx11_buffer_new_static_no_data fuel s desc hu hdata,
    fun fuel s desc hu _ hd => gl450_buffer_new_static_no_data fuel s desc hu hd,
    ?_, by decide, by decide, rfl⟩
  intro fuel s desc hu hdata hd hz
  have hok : ¬ (desc.usage = .RENOIR_USAGE_DYNAMIC ∧ desc.access = .RENOIR_ACCESS_NONE) := by
    rcases hu with hu | hu <;> rw [hu] <;> exact fun h => nomatch h.1
  obtain ⟨r, e, _, ho, _⟩ := (gl450_buffer_new_null_data fuel s desc hd hdata hok).2 hz
  exact ⟨r, e, ho⟩

/-- C27 (code defect). Deferred creation with a null data pointer. D3D11 records the
description as given (no initial data, `owns_data = false`, nothing allocated), for
`buffer_new` and `texture_new` alike. The GL backend does not look at the pointer: with
`data_size > 0` its copy reads the null pointer, and with `data_size = 0` the record is given
a block of its own as initial data and `owns_data = true`. In `two_pass_context true` the GL
call for a dynamic buffer of 16 bytes without data does not return. -/
theorem c27_gl_deferred_creation_copies_from_null :
    (∀ (fuel : Nat) (s : Dx11.IRenoir) (desc : Renoir_Buffer_Desc),
      s.settings.defer_api_calls = true → desc.data = none →
      desc.usage = .RENOIR_USAGE_DYNAMIC → desc.access ≠ .RENOIR_ACCESS_NONE →
      ¬ (desc.type = RENOIR_BUFFER_UNIFORM ∧ desc.data_size % 16 ≠ 0) →
      ∃ r, Dx11._renoir_dx11_buffer_new fuel s desc = some r ∧
        (r.2.commands (pool_get s.command_pool).1).buffer_desc = desc ∧
        (r.2.commands (pool_get s.command_pool).1).owns_data = false ∧
        r.2.heap_fresh = s.heap_fresh) ∧
    (∀ (fuel : Nat) (s : Dx11.IRenoir) (desc : Renoir_Texture_Desc),
      s.settings.defer_api_calls = true → desc.data = none →
      desc.usage = .RENOIR_USAGE_DYNAMIC → desc.access ≠ .RENOIR_ACCESS_NONE →
      ∃ r, Dx11._renoir_dx11_texture_new fuel s desc = some r ∧
        (r.2.commands (pool_get s.command_pool).1).texture_desc = desc ∧
        (r.2.commands (pool_get s.command_pool).1).owns_data = false ∧
        r.2.heap_fresh = s.heap_fresh) ∧
    (∀ (fuel : Nat) (s : Gl450.IRenoir) (desc : Renoir_Buffer_Desc),
      s.settings.defer_api_calls = true → desc.data = none →
      ¬ (desc.usage = .RENOIR_USAGE_DYNAMIC ∧ desc.access = .RENOIR_ACCESS_NONE) →
      (desc.data_size ≠ 0 → Gl450._renoir_gl450_buffer_new fuel s desc = none) ∧
      (desc.data_size = 0 →
        ∃ r, Gl450._renoir_gl450_buffer_new fuel s desc = some r ∧
          (r.2.commands (pool_get s.command_pool).1).buffer_desc.data = some s.heap_fresh ∧
          (r.2.commands (pool_get s.command_pool).1).owns_data = true ∧
          r.2.heap_fresh = s.heap_fresh + 1)) ∧
    (∀ (fuel : Nat) (s : Gl450.IRenoir) (desc : Renoir_Texture_Desc),
      s.settings.defer_api_calls = true → desc.data = none →
      ¬ (desc.usage = .RENOIR_USAGE_DYNAMIC ∧ desc.access = .RENOIR_ACCESS_NONE) →
      (desc.data_size ≠ 0 → Gl450._renoir_gl450_texture_new fuel s desc = none) ∧
      (desc.data_size = 0 →
        ∃ r, Gl450._renoir_gl450_texture_new fuel s desc = some r ∧
          (r.2.commands (pool_get s.command_pool).1).texture_desc.data = some s.heap_fresh ∧
          (r.2.commands (pool_get s.command_pool).1).owns_data = true ∧
          r.2.heap_fresh = s.heap_fresh + 1)) ∧
    (Gl450._renoir_gl450_buffer_new 4 (Gl450.two_pass_context true)
        { usage := .RENOIR_USAGE_DYNAMIC, access := .RENOIR_ACCESS_WRITE,
          data_size := 16 }).isNone = true ∧
    ((Dx11._renoir_dx11_buffer_new 4 (Dx11.two_pass_context true)
        { usage := .RENOIR_USAGE_DYNAMIC, access := .RENOIR_ACCESS_WRITE,
          data_size := 16 }).map fun r =>
        ((r.2.commands 1).buffer_desc.data, (r.2.commands 1).owns_data))
      = some (none, false) ∧
    ((Gl450._renoir_gl450_buffer_new 4 (Gl450.two_pass_context true)
        { usage := .RENOIR_USAGE_DYNAMIC, access := .RENOIR_ACCESS_WRITE,
          data_size := 0 }).map fun r =>
        ((r.2.commands 1).buffer_desc.data, (r.2.commands 1).owns_data))
      = some (some 0, true) :=
  ⟨fun fuel s desc hd hdata hu ha ht => dx11_buffer_new_null_data fuel s desc hd hdata hu ha ht,
    fun fuel s desc hd hdata hu ha => dx11_texture_new_null_data fuel s desc hd hdata hu ha,
    fun fuel s desc hd hdata hok => gl450_buffer_new_null_data fuel s desc hd hdata hok,
    fun fuel s desc hd hdata hok => gl450_texture_new_null_data fuel s desc hd hdata hok,
    by decide, by decide, by decide⟩


/-! ### Failed shader creation -/

set_option maxRecDepth 100000 in
/-- C23 (counterexample). A pixel stage that fails to compile on D3D11 leaves the objects of
the vertex stage in the handle: in `pixel_failure_context` the program handle 2 ends with
`vertex_shader_blob = some 0` and `vertex_shader = some 1`, not with its zeroed payload; a
geometry stage that fails leaves the pixel shader as well. On GL a link failure does not
return at all. -/
theorem c23_later_failure_keeps_earlier_stages :
    (Dx11.pixel_failure_context.handles 2).program = {} ∧
    Dx11.pixel_failure_context.compile_ok { ptr := some 1, size := 4 } = false ∧
    ((Dx11.execute_program_new Dx11.pixel_failure_context 2
        { vertex := { ptr := some 0, size := 4 },
          pixel := { ptr := some 1, size := 4 } }).handles 2).program
      = { vertex_shader_blob := some 0, vertex_shader := some 1 } ∧
    ((Dx11.execute_program_new Dx11.pixel_failure_context 2
        { vertex := { ptr := some 0, size := 4 },
          pixel := { ptr := some 2, size := 4 },
          geometry := { ptr := some 1, size := 4 } }).handles 2).program
      = { vertex_shader_blob := some 0, vertex_shader := some 1, pixel_shader := some 3 } ∧
    (Gl450.execute_program_new_linked false Gl450.pixel_failure_context 2
        { vertex := { ptr := some 0, size := 4 },
          pixel := { ptr := some 2, size := 4 } }).isNone = true := by
  decide

/-- D3D11 PROGRAM_NEW, vertex stage rejected: only the log call happens. -/
theorem dx11_program_new_vertex_failure (s : Dx11.IRenoir) (h : Nat)
    (desc : Renoir_Program_Desc) (hv : s.compile_ok desc.vertex = false) :
    Dx11.execute_program_new s h desc = Dx11.emit s Dx11.Event.log_error := by
  unfold Dx11.execute_program_new
  rw [if_pos hv]

/-- D3D11 PROGRAM_NEW, pixel stage rejected: the vertex blob and the vertex shader stay in
the handle, every other handle is as before, and the log call is the last event. -/
theorem dx11_program_new_pixel_failure (s : Dx11.IRenoir) (h : Nat)
    (desc : Renoir_Program_Desc) (hv : s.compile_ok desc.vertex = true)
    (hp : s.compile_ok desc.pixel = false) :
    (Dx11.execute_program_new s h desc).handles = write s.handles h
        { s.handles h with
          program := { (s.handles h).program with
            vertex_shader_blob := some s.native_fresh,
            vertex_shader := some (s.native_fresh + 1) } } ∧
    (Dx11.execute_program_new s h desc).trace = s.trace ++
      [Dx11.Event.create s.native_fresh, Dx11.Event.create (s.native_fresh + 1),
        Dx11.Event.log_error] := by
  unfold Dx11.execute_program_new
  simp [hv, hp, Dx11.device_create, Dx11.set_handle, Dx11.emit, write_same, write_write]

/-- D3D11 PROGRAM_NEW, geometry stage rejected: the objects of the vertex and pixel stages
stay in the handle. -/
theorem dx11_program_new_geometry_failure (s : Dx11.IRenoir) (h : Nat)
    (desc : Renoir_Program_Desc) (hv : s.compile_ok desc.vertex = true)
    (hp : s.compile_ok desc.pixel = true) (hg : desc.geometry.ptr.isSome = true)
    (hgf : s.compile_ok desc.geometry = false) :
    (Dx11.execute_program_new s h desc).handles = write s.handles h
        { s.handles h with
          program := { (s.handles h).program with
            vertex_shader_blob := some s.native_fresh,
            vertex_shader := some (s.native_fresh + 1),
            pixel_shader := some (s.native_fresh + 3) } } ∧
    (Dx11.execute_program_new s h desc).trace.getLast? = some Dx11.Event.log_error := by
  unfold Dx11.execute_program_new
  simp [hv, hp, hg, hgf, Dx11.device_create, Dx11.set_handle, Dx11.emit, Dx11.release,
    write_same, write_write]

/-- GL PROGRAM_NEW, some stage rejected: the case is left after the log call, whatever the
linker would have said, and no handle was written. -/
theorem gl450_program_new_compile_failure (link_ok : Bool) (s : Gl450.IRenoir) (h : Nat)
    (desc : Renoir_Program_Desc)
    (hf : s.compile_ok desc.vertex = false ∨ s.compile_ok desc.pixel = false ∨
      (desc.geometry.ptr.isSome = true ∧ s.compile_ok desc.geometry = false)) :
    Gl450.execute_program_new_linked link_ok s h desc
      = some (Gl450.execute_program_new s h desc) ∧
    (Gl450.execute_program_new s h desc).handles = s.handles ∧
    (Gl450.execute_program_new s h desc).trace.getLast? = some Gl450.Event.log_error := by
  unfold Gl450.execute_program_new_linked Gl450.execute_program_new
  by_cases hv : s.compile_ok desc.vertex = false
  · simp [hv, Gl450.gl_create, Gl450.emit]
  · by_cases hp : s.compile_ok desc.pixel = false
    · simp only [Bool.not_eq_false] at hv
      simp [hv, hp, Gl450.gl_create, Gl450.emit]
    · have hg : desc.geometry.ptr.isSome = true ∧ s.compile_ok desc.geometry = false := by
        rcases hf with hf | hf | hf
        · exact absurd hf hv
        · exact absurd hf hp
        · exact hf
      simp only [Bool.not_eq_false] at hv hp
      simp [hv, hp, hg.1, hg.2, Gl450.gl_create, Gl450.emit]

/-- GL PROGRAM_NEW, every stage accepted: a link failure does not return, and a successful
link is the case as `execute_program_new` has it. -/
theorem gl450_program_new_link (link_ok : Bool) (s : Gl450.IRenoir) (h : Nat)
    (desc : Renoir_Program_Desc)
    (hv : s.compile_ok desc.vertex = true) (hp : s.compile_ok desc.pixel = true)
    (hg : desc.geometry.ptr.isSome = true → s.compile_ok desc.geometry = true) :
    (link_ok = false → Gl450.execute_program_new_linked link_ok s h desc = none) ∧
    (link_ok = true → Gl450.execute_program_new_linked link_ok s h desc
      = some (Gl450.execute_program_new s h desc)) := by
  unfold Gl450.execute_program_new_linked Gl450.execute_program_new
  constructor
  · intro hl
    by_cases hgs : desc.geometry.ptr.isSome = true
    · simp [hv, hp, hgs, hg hgs, hl, Gl450.gl_create]
    · simp [hv, hp, hgs, hl, Gl450.gl_create]
  · intro hl
    by_cases hgs : desc.geometry.ptr.isSome = true
    · simp [hv, hp, hgs, hg hgs, hl, Gl450.gl_create]
    · simp [hv, hp, hgs, hl, Gl450.gl_create]

/-- C23 (amended). A stage that fails to compile while PROGRAM_NEW executes is logged and the
case is left. On D3D11 a rejected vertex stage leaves the context as it was but for the log
call; a rejected pixel stage leaves the vertex blob and the vertex shader in the handle; a
rejected geometry stage leaves the pixel shader there as well. On GL a rejected stage leaves
every handle as it was, whatever the linker would have said; when every stage compiles, a
link failure does not return, and a successful link is `execute_program_new`. -/
theorem c23_compile_failure_is_logged :
    (∀ (s : Dx11.IRenoir) (h : Nat) (desc : Renoir_Program_Desc),
      s.compile_ok desc.vertex = false →
      Dx11.execute_program_new s h desc = Dx11.emit s Dx11.Event.log_error) ∧
    (∀ (s : Dx11.IRenoir) (h : Nat) (desc : Renoir_Program_Desc),
      s.compile_ok desc.vertex = true → s.compile_ok desc.pixel = false →
      (Dx11.execute_program_new s h desc).handles = write s.handles h
          { s.handles h with
            program := { (s.handles h).program with
              vertex_shader_blob := some s.native_fresh,
              vertex_shader := some (s.native_fresh + 1) } } ∧
      (Dx11.execute_program_new s h desc).trace = s.trace ++
        [Dx11.Event.create s.native_fresh, Dx11.Event.create (s.native_fresh + 1),
          Dx11.Event.log_error]) ∧
    (∀ (s : Dx11.IRenoir) (h : Nat) (desc : Renoir_Program_Desc),
      s.compile_ok desc.vertex = true → s.compile_ok desc.pixel = true →
      desc.geometry.ptr.isSome = true → s.compile_ok desc.geometry = false →
      (Dx11.execute_program_new s h desc).handles = write s.handles h
          { s.handles h with
            program := { (s.handles h).program with
              vertex_shader_blob := some s.native_fresh,
              vertex_shader := some (s.native_fresh + 1),
              pixel_shader := some (s.native_fresh + 3) } } ∧
      (Dx11.execute_program_new s h desc).trace.getLast? = some Dx11.Event.log_error) ∧
    (∀ (link_ok : Bool) (s : Gl450.IRenoir) (h : Nat) (desc : Renoir_Program_Desc),
      (s.compile_ok desc.vertex = false ∨ s.compile_ok desc.pixel = false ∨
        (desc.geometry.ptr.isSome = true ∧ s.compile_ok desc.geometry = false)) →
      Gl450.execute_program_new_linked link_ok s h desc
        = some (Gl450.execute_program_new s h desc) ∧
      (Gl450.execute_program_new s h desc).handles = s.handles ∧
      (Gl450.execute_program_new s h desc).trace.getLast? = some Gl450.Event.log_error) ∧
    (∀ (link_ok : Bool) (s : Gl450.IRenoir) (h : Nat) (desc : Renoir_Program_Desc),
      s.compile_ok desc.vertex = true → s.compile_ok desc.pixel = true →
      (desc.geometry.ptr.isSome = true → s.compile_ok desc.geometry = true) →
      (link_ok = false → Gl450.execute_program_new_linked link_ok s h desc = none) ∧
      (link_ok = true → Gl450.execute_program_new_linked link_ok s h desc
        = some (Gl450.execute_program_new s h desc))) :=
  ⟨fun s h desc hv => dx11_program_new_vertex_failure s h desc hv,
    fun s h desc hv hp => dx11_program_new_pixel_failure s h desc hv hp,
    fun s h desc hv hp hg hgf => dx11_program_new_geometry_failure s h desc hv hp hg hgf,
    fun link_ok s h desc hf => gl450_program_new_compile_failure link_ok s h desc hf,
    fun link_ok s h desc hv hp hg => gl450_program_new_link link_ok s h desc hv hp hg⟩

/-- Witness for C23: in `pixel_failure_context` a vertex source at block 1 is rejected on
both backends, and the program handle 2 keeps its zeroed payload. -/
theorem c23_compile_failure_is_logged_witness :
    Dx11.pixel_failure_context.compile_ok { ptr := some 1, size := 4 } = false ∧
    Dx11.execute_program_new Dx11.pixel_failure_context 2
        { vertex := { ptr := some 1, size := 4 }, pixel := { ptr := some 0, size := 4 } }
      = Dx11.emit Dx11.pixel_failure_context Dx11.Event.log_error ∧
    (Gl450.execute_program_new Gl450.pixel_failure_context 2
        { vertex := { ptr := some 1, size := 4 },
          pixel := { ptr := some 0, size := 4 } }).handles
      = Gl450.pixel_failure_context.handles ∧
    (Gl450.pixel_failure_context.handles 2).program_id = 0 :=
  ⟨by decide,
    c23_compile_failure_is_logged.1 Dx11.pixel_failure_context 2
      { vertex := { ptr := some 1, size := 4 }, pixel := { ptr := some 0, size := 4 } }
      (by decide),
    (c23_compile_failure_is_logged.2.2.2.1 true Gl450.pixel_failure_context 2
      { vertex := { ptr := some 1, size := 4 }, pixel := { ptr := some 0, size := 4 } }
      (Or.inl (by decide))).2.1,
    by decide⟩


/-! ### Sampler eviction -/

set_option maxRecDepth 100000 in
/-- C25 (code defect). A sampler is evicted while a recorded bind still refers to it. With a
cache of two slots, a pass that binds a texture with three different sampler descriptions
and is then drained: in deferred mode the SAMPLER_FREE of handle 3 (record 6) is executed
before the TEXTURE_BIND record 5 that stores handle 3, so that record runs on a handle that
is back in the pool; in immediate mode the SAMPLER_FREE is executed during the third bind
call, handle 3 is given out again for the third description (filter 3), and the second bind
record, made for filter 2, runs with that sampler. -/
theorem c25_evicted_sampler_is_used_by_a_recorded_bind :
    (Dx11.sampler_eviction_run 12 true).map
        (fun s => Dx11.stale_sampler_binds s.trace [])
      = some [(5, 3)] ∧
    (Dx11.sampler_eviction_run 12 true).map (fun s => Dx11.sampler_log s.trace)
      = some
        [(2, .RENOIR_COMMAND_KIND_SAMPLER_NEW, some 2, none, 1),
         (4, .RENOIR_COMMAND_KIND_SAMPLER_NEW, some 3, none, 2),
         (6, .RENOIR_COMMAND_KIND_SAMPLER_FREE, some 3, none, 0),
         (7, .RENOIR_COMMAND_KIND_SAMPLER_NEW, some 4, none, 3),
         (3, .RENOIR_COMMAND_KIND_TEXTURE_BIND, some 1, some 2, 0),
         (5, .RENOIR_COMMAND_KIND_TEXTURE_BIND, some 1, some 3, 0),
         (8, .RENOIR_COMMAND_KIND_TEXTURE_BIND, some 1, some 4, 0)] ∧
    (Dx11.sampler_eviction_run 12 false).map (fun s => Dx11.sampler_log s.trace)
      = some
        [(2, .RENOIR_COMMAND_KIND_SAMPLER_NEW, some 2, none, 1),
         (3, .RENOIR_COMMAND_KIND_SAMPLER_NEW, some 3, none, 2),
         (4, .RENOIR_COMMAND_KIND_SAMPLER_FREE, some 3, none, 0),
         (4, .RENOIR_COMMAND_KIND_SAMPLER_NEW, some 3, none, 3),
         (2, .RENOIR_COMMAND_KIND_TEXTURE_BIND, some 1, some 2, 0),
         (3, .RENOIR_COMMAND_KIND_TEXTURE_BIND, some 1, some 3, 0),
         (4, .RENOIR_COMMAND_KIND_TEXTURE_BIND, some 1, some 3, 0)] := by
  refine ⟨?_, ?_, ?_⟩
  · decide
  · decide
  · decide


/-! ### The end-to-end draw scenario -/

/-- A DRAW record executed while no program is current does not return: the case reads
`self->current_program->program.input_layout` (Renoir-dx11.cpp:2098). -/
theorem dx11_draw_without_program (fuel : Nat) (s : Dx11.IRenoir) (c : Nat)
    (hk : (s.commands c).kind = .RENOIR_COMMAND_KIND_DRAW)
    (hp : s.current_program = none) :
    Dx11._renoir_dx11_command_execute fuel s c = none ∧
    Dx11.drain (fuel + 1) s (some c) = none := by
  have h : Dx11._renoir_dx11_command_execute fuel s c = none := by
    unfold Dx11._renoir_dx11_command_execute
    simp only [hk]
    unfold Dx11.execute_draw
    simp [Dx11.emit, hp]
  refine ⟨h, ?_⟩
  simp [Dx11.drain, h]

set_option maxRecDepth 100000 in
/-- C21 (counterexample). The scenario as stated, without a program: the calls up to
`pass_end` return and leave the six records INIT, BUFFER_NEW, PASS_OFFSCREEN_NEW,
PASS_BEGIN, DRAW, PASS_END on the device-wide list, nothing executed; the flush does not
return, although the fuel covers the list. In every context, a DRAW record executed while
no program is current does not return. -/
theorem c21_draw_without_program_stops_the_flush :
    (Dx11.draw_scenario_recorded 8 2 false [1, 2, 3, 4, 5, 6, 7, 8, 9, 10, 11, 12]
        [1, 2, 3, 4] [5, 6, 7, 8] {}).map
        (fun r => (Dx11.executed_kinds r.2.trace,
          (Dx11.list_records r.2.commands 8 r.2.command_list_head).map fun l =>
            l.map fun c => (r.2.commands c).kind,
          r.2.current_program))
      = some ([],
          some [.RENOIR_COMMAND_KIND_INIT, .RENOIR_COMMAND_KIND_BUFFER_NEW,
            .RENOIR_COMMAND_KIND_PASS_OFFSCREEN_NEW, .RENOIR_COMMAND_KIND_PASS_BEGIN,
            .RENOIR_COMMAND_KIND_DRAW, .RENOIR_COMMAND_KIND_PASS_END],
          none) ∧
    (Dx11.draw_scenario 8 2 false [1, 2, 3, 4, 5, 6, 7, 8, 9, 10, 11, 12]
        [1, 2, 3, 4] [5, 6, 7, 8] {}).isNone = true ∧
    (∀ (fuel : Nat) (s : Dx11.IRenoir) (c : Nat),
      (s.commands c).kind = .RENOIR_COMMAND_KIND_DRAW → s.current_program = none →
      Dx11._renoir_dx11_command_execute fuel s c = none ∧
      Dx11.drain (fuel + 1) s (some c) = none) := by
  refine ⟨?_, ?_, fun fuel s c hk hp => dx11_draw_without_program fuel s c hk hp⟩
  · decide
  · decide

set_option maxRecDepth 100000 in
/-- C21 (amended). The scenario with a program: after `init` with `defer_api_calls = true`,
`buffer_new` of a static vertex buffer with 12 bytes of data, `pass_offscreen_new`,
`program_new`, and on the pass `pass_begin`, `use_program`, one `draw` and `pass_end`,
nothing has been executed; the flush then executes the eight queued records, among them
exactly one BUFFER_NEW, one PASS_BEGIN, one DRAW and one PASS_END, in that order, empties
the device-wide list, and the reference count of the buffer handle is 1. -/
theorem c21_deferred_draw_scenario :
    (Dx11.draw_scenario_recorded 8 2 true [1, 2, 3, 4, 5, 6, 7, 8, 9, 10, 11, 12]
        [1, 2, 3, 4] [5, 6, 7, 8] {}).map
        (fun r => Dx11.executed_kinds r.2.trace)
      = some [] ∧
    (Dx11.draw_scenario 8 2 true [1, 2, 3, 4, 5, 6, 7, 8, 9, 10, 11, 12]
        [1, 2, 3, 4] [5, 6, 7, 8] {}).map
        (fun r => (Dx11.executed_kinds r.2.trace, (r.2.handles r.1).rc,
          (r.2.handles r.1).kind, r.2.command_list_head, r.2.command_list_tail))
      = some
        ([.RENOIR_COMMAND_KIND_INIT, .RENOIR_COMMAND_KIND_BUFFER_NEW,
          .RENOIR_COMMAND_KIND_PASS_OFFSCREEN_NEW, .RENOIR_COMMAND_KIND_PROGRAM_NEW,
          .RENOIR_COMMAND_KIND_PASS_BEGIN, .RENOIR_COMMAND_KIND_USE_PROGRAM,
          .RENOIR_COMMAND_KIND_DRAW, .RENOIR_COMMAND_KIND_PASS_END],
          1, .RENOIR_HANDLE_KIND_BUFFER, none, none) ∧
    (Dx11.draw_scenario 8 2 true [1, 2, 3, 4, 5, 6, 7, 8, 9, 10, 11, 12]
        [1, 2, 3, 4] [5, 6, 7, 8] {}).map
        (fun r => Dx11.uploads r.2.trace)
      = some [[1, 2, 3, 4, 5, 6, 7, 8, 9, 10, 11, 12]] := by
  refine ⟨?_, ?_, ?_⟩
  · decide
  · decide
  · decide


/-! ### Attachments of an offscreen pass -/

theorem dx11_teardowns_emit (s : Dx11.IRenoir) (e : Dx11.Event) (t : Nat) :
    Dx11.teardowns (Dx11.emit s e).trace t
      = Dx11.teardowns s.trace t + (if e = Dx11.Event.handle_free t then 1 else 0) := by
  simp only [Dx11.teardowns, Dx11.emit, List.count_append, List.count_singleton]
  by_cases h : e = Dx11.Event.handle_free t
  · simp [h]
  · simp [h]

theorem dx11_handle_free_teardowns_at (s : Dx11.IRenoir) (h t : Nat) :
    Dx11.teardowns (Dx11._renoir_dx11_handle_free s h).trace t
      = Dx11.teardowns s.trace t + (if h = t then 1 else 0) := by
  have := dx11_teardowns_emit s (Dx11.Event.handle_free h) t
  simp only [Dx11.emit, Dx11.Event.handle_free.injEq] at this
  exact this

theorem dx11_command_free_teardowns (s : Dx11.IRenoir) (c t : Nat) :
    Dx11.teardowns (Dx11._renoir_dx11_command_free s c).trace t = Dx11.teardowns s.trace t := by
  unfold Dx11._renoir_dx11_command_free
  simp only []
  split <;> (try split) <;> (try split) <;>
    simp [Dx11.mn_free, Dx11.emit, Dx11.teardowns, List.count_append, List.count_singleton]

/-- The TEXTURE_FREE case on the handle `c`: the count of `c` goes down by one, and the
handle is torn down when the count was 1. -/
theorem dx11_texture_free_effect (s : Dx11.IRenoir) (c t : Nat) :
    (Dx11.execute_texture_free s c).handles
      = write s.handles c { s.handles c with rc := wrap_int ((s.handles c).rc - 1) } ∧
    Dx11.teardowns (Dx11.execute_texture_free s c).trace t
      = Dx11.teardowns s.trace t + (if c = t ∧ (s.handles c).rc = 1 then 1 else 0) := by
  unfold Dx11.execute_texture_free
  simp only [Dx11._renoir_dx11_handle_unref]
  by_cases hrc : (s.handles c).rc = 1
  · rw [if_neg (by simp [hrc])]
    refine ⟨?_, ?_⟩
    · simp only [Dx11._renoir_dx11_handle_free, dx11_release_if_handles]
    · rw [dx11_handle_free_teardowns_at]
      simp only [dx11_release_if_teardowns, hrc, and_true]
  · rw [if_pos (by simp [hrc])]
    refine ⟨rfl, ?_⟩
    simp [hrc]

theorem dx11_texture_frees_of_executed (tr tr1 : List Dx11.Event)
    (l : List (Nat × Dx11.Renoir_Command)) (t : Nat)
    (h : Dx11.executed tr1 = Dx11.executed tr ++ l) :
    Dx11.texture_frees tr1 t = Dx11.texture_frees tr t +
      (l.filter fun e =>
        decide (e.2.kind = .RENOIR_COMMAND_KIND_TEXTURE_FREE ∧ e.2.handle = some t)).length := by
  unfold Dx11.texture_frees
  rw [h, List.filter_append, List.length_append]

/-- The nested TEXTURE_FREE of PASS_FREE on the handle `c`: one TEXTURE_FREE record on `c`
is executed, the count of `c` goes down by one, and `c` is torn down when the count
was 1. -/
theorem dx11_pass_free_texture_effect (s : Dx11.IRenoir) (c t : Nat) :
    (Dx11.pass_free_texture s c).handles
      = write s.handles c { s.handles c with rc := wrap_int ((s.handles c).rc - 1) } ∧
    Dx11.teardowns (Dx11.pass_free_texture s c).trace t
      = Dx11.teardowns s.trace t + (if c = t ∧ (s.handles c).rc = 1 then 1 else 0) ∧
    Dx11.texture_frees (Dx11.pass_free_texture s c).trace t
      = Dx11.texture_frees s.trace t + (if c = t then 1 else 0) := by
  unfold Dx11.pass_free_texture
  simp only []
  obtain ⟨S1, hS1⟩ : ∃ S1 : Dx11.IRenoir, S1 =
      Dx11.emit
        (Dx11.set_command (Dx11._renoir_dx11_command_new s .RENOIR_COMMAND_KIND_TEXTURE_FREE).2
          (Dx11._renoir_dx11_command_new s .RENOIR_COMMAND_KIND_TEXTURE_FREE).1
          { (Dx11._renoir_dx11_command_new s .RENOIR_COMMAND_KIND_TEXTURE_FREE).2.commands
              (Dx11._renoir_dx11_command_new s .RENOIR_COMMAND_KIND_TEXTURE_FREE).1 with
            handle := some c })
        (Dx11.Event.command_execute
          (Dx11._renoir_dx11_command_new s .RENOIR_COMMAND_KIND_TEXTURE_FREE).1
          ((Dx11.set_command
            (Dx11._renoir_dx11_command_new s .RENOIR_COMMAND_KIND_TEXTURE_FREE).2
            (Dx11._renoir_dx11_command_new s .RENOIR_COMMAND_KIND_TEXTURE_FREE).1
            { (Dx11._renoir_dx11_command_new s .RENOIR_COMMAND_KIND_TEXTURE_FREE).2.commands
                (Dx11._renoir_dx11_command_new s .RENOIR_COMMAND_KIND_TEXTURE_FREE).1 with
              handle := some c }).commands
            (Dx11._renoir_dx11_command_new s .RENOIR_COMMAND_KIND_TEXTURE_FREE).1)) :=
    ⟨_, rfl⟩
  rw [← hS1]
  have hh : S1.handles = s.handles := by rw [hS1]; rfl
  have ht : Dx11.teardowns S1.trace t = Dx11.teardowns s.trace t := by
    rw [hS1, dx11_teardowns_emit, if_neg (fun h => nomatch h)]
    rfl
  have hx : Dx11.executed S1.trace = Dx11.executed s.trace ++
      [((pool_get s.command_pool).1,
        { kind := .RENOIR_COMMAND_KIND_TEXTURE_FREE, handle := some c })] := by
    rw [hS1, dx11_executed_emit_execute]
    simp [Dx11.set_command, Dx11._renoir_dx11_command_new, write_same]
  obtain ⟨e1, e2⟩ := dx11_texture_free_effect S1 c t
  obtain ⟨_, _, _, _, _, _, _, f8, f9⟩ := dx11_command_free_frame
    (Dx11.execute_texture_free S1 c) (Dx11._renoir_dx11_command_new s
      .RENOIR_COMMAND_KIND_TEXTURE_FREE).1
  refine ⟨?_, ?_, ?_⟩
  · rw [f8, e1, hh]
  · rw [dx11_command_free_teardowns, e2, ht, hh]
  · have hx2 := (dx11_same_commands_texture_free S1 c).2.2.2.2
    rw [dx11_texture_frees_of_executed s.trace _ _ t (by rw [f9, hx2, hx])]
    by_cases hct : c = t
    · simp [hct]
    · simp [hct]

theorem color_count_cons (desc : Renoir_Pass_Offscreen_Desc) (i : Nat) (l : List Nat) (t : Nat) :
    color_count desc (i :: l) t
      = (if (desc.color.getD i {}).handle = some t then 1 else 0) + color_count desc l t := by
  unfold color_count
  rw [List.filter_cons]
  by_cases h : (desc.color.getD i {}).handle = some t
  · rw [if_pos (decide_eq_true h), if_pos h, List.length_cons]
    omega
  · rw [if_neg (by rw [decide_eq_true_eq]; exact h), if_neg h]
    omega

theorem color_count_le (desc : Renoir_Pass_Offscreen_Desc) (l : List Nat) (t : Nat) :
    color_count desc l t ≤ l.length := by
  unfold color_count
  exact List.length_filter_le _ _

theorem dx11_release_texture_frees (s : Dx11.IRenoir) (p : Ptr) (t : Nat) :
    Dx11.texture_frees (Dx11.release s p).trace t = Dx11.texture_frees s.trace t := by
  unfold Dx11.texture_frees
  rw [(dx11_same_commands_release s p).2.2.2.2]

/-- One attachment of PASS_FREE, colour or depth: after the view `view` is released, the
nested TEXTURE_FREE runs on the attachment. -/
theorem dx11_pass_free_attachment (s : Dx11.IRenoir) (view : Ptr) (c h t : Nat)
    (hne : t ≠ h) :
    ((Dx11.pass_free_texture (Dx11.release s view) c).handles h).pass
      = (s.handles h).pass ∧
    ((Dx11.pass_free_texture (Dx11.release s view) c).handles t).rc
      = (if c = t then wrap_int ((s.handles t).rc - 1) else (s.handles t).rc) ∧
    Dx11.teardowns (Dx11.pass_free_texture (Dx11.release s view) c).trace t
      = Dx11.teardowns s.trace t + (if c = t ∧ (s.handles t).rc = 1 then 1 else 0) ∧
    Dx11.texture_frees (Dx11.pass_free_texture (Dx11.release s view) c).trace t
      = Dx11.texture_frees s.trace t + (if c = t then 1 else 0) := by
  obtain ⟨e1, e2, e3⟩ := dx11_pass_free_texture_effect (Dx11.release s view) c t
  have hh : (Dx11.release s view).handles = s.handles := rfl
  rw [hh] at e1 e2
  refine ⟨?_, ?_, ?_, ?_⟩
  · rw [e1]
    by_cases hc : c = h
    · subst hc; rw [write_same]
    · rw [write_other _ _ _ _ (fun e => hc e.symm)]
  · rw [e1]
    by_cases hc : c = t
    · subst hc; rw [write_same, if_pos rfl]
    · rw [write_other _ _ _ _ (fun e => hc e.symm), if_neg hc]
  · rw [e2, dx11_release_teardowns]
    by_cases hc : c = t
    · subst hc; rfl
    · simp [hc]
  · rw [e3, dx11_release_texture_frees]

/-- One round of the colour loop of PASS_FREE, seen from the handle `t`. -/
theorem dx11_pass_free_color_effect (desc : Renoir_Pass_Offscreen_Desc) (h t : Nat)
    (hne : t ≠ h) (s : Dx11.IRenoir) (i : Nat)
    (hoff : (s.handles h).pass.offscreen = desc) :
    ((Dx11.pass_free_color h s i).handles h).pass = (s.handles h).pass ∧
    ((Dx11.pass_free_color h s i).handles t).rc
      = (if (desc.color.getD i {}).handle = some t then wrap_int ((s.handles t).rc - 1)
          else (s.handles t).rc) ∧
    Dx11.teardowns (Dx11.pass_free_color h s i).trace t
      = Dx11.teardowns s.trace t
        + (if (desc.color.getD i {}).handle = some t ∧ (s.handles t).rc = 1 then 1 else 0) ∧
    Dx11.texture_frees (Dx11.pass_free_color h s i).trace t
      = Dx11.texture_frees s.trace t
        + (if (desc.color.getD i {}).handle = some t then 1 else 0) := by
  unfold Dx11.pass_free_color
  rw [hoff]
  cases hc : (desc.color.getD i {}).handle with
  | none => simp
  | some c =>
    simp only [Option.some.injEq]
    exact dx11_pass_free_attachment s _ c h t hne

/-- The colour loop of PASS_FREE over the indices `l`, seen from the handle `t`: its count
goes down once for every attachment that is `t`, one TEXTURE_FREE record each, and `t` is
torn down when the count passes from 1 to 0 on the way. -/
theorem dx11_pass_free_colors (desc : Renoir_Pass_Offscreen_Desc) (h t : Nat) (hne : t ≠ h) :
    ∀ (l : List Nat) (s : Dx11.IRenoir),
      (s.handles h).pass.offscreen = desc →
      -2147483648 ≤ (s.handles t).rc → (s.handles t).rc ≤ 2147483647 →
      l.length ≤ 1000 →
      ((l.foldl (Dx11.pass_free_color h) s).handles h).pass = (s.handles h).pass ∧
      ((l.foldl (Dx11.pass_free_color h) s).handles t).rc
        = wrap_int ((s.handles t).rc - color_count desc l t) ∧
      Dx11.teardowns (l.foldl (Dx11.pass_free_color h) s).trace t
        = Dx11.teardowns s.trace t
          + (if 1 ≤ (s.handles t).rc ∧ (s.handles t).rc ≤ color_count desc l t then 1 else 0) ∧
      Dx11.texture_frees (l.foldl (Dx11.pass_free_color h) s).trace t
        = Dx11.texture_frees s.trace t + color_count desc l t := by
  intro l
  induction l with
  | nil =>
    intro s _ h1 h2 _
    refine ⟨rfl, ?_, ?_, rfl⟩
    · simp only [List.foldl, color_count, List.filter_nil, List.length_nil]
      rw [wrap_int_of_range _ (by omega) (by omega)]
      simp
    · simp only [List.foldl, color_count, List.filter_nil, List.length_nil]
      rw [if_neg (by omega)]
      rfl
  | cons i rest ih =>
    intro s hoff h1 h2 hlen
    obtain ⟨a1, a2, a3, a4⟩ := dx11_pass_free_color_effect desc h t hne s i hoff
    have hlen1 : rest.length ≤ 1000 := by simp at hlen; omega
    have hcl := color_count_le desc rest t
    have hr1 : -2147483648 ≤ ((Dx11.pass_free_color h s i).handles t).rc ∧
        ((Dx11.pass_free_color h s i).handles t).rc ≤ 2147483647 := by
      rw [a2]
      split
      · exact wrap_int_range _
      · exact ⟨h1, h2⟩
    obtain ⟨b1, b2, b3, b4⟩ := ih (Dx11.pass_free_color h s i) (by rw [a1]; exact hoff)
      hr1.1 hr1.2 hlen1
    simp only [List.foldl]
    refine ⟨by rw [b1, a1], ?_, ?_, ?_⟩
    · rw [b2, a2, color_count_cons]
      by_cases hc : (desc.color.getD i {}).handle = some t
      · rw [if_pos hc, if_pos hc]
        unfold wrap_int
        push_cast
        omega
      · rw [if_neg hc, if_neg hc]
        simp
    · rw [b3, a3, a2, color_count_cons]
      by_cases hc : (desc.color.getD i {}).handle = some t
      · simp only [hc, true_and, if_true]
        unfold wrap_int
        push_cast
        split <;> split <;> split <;> omega
      · simp only [hc, false_and, if_false]
        simp
    · rw [b4, a4, color_count_cons]
      omega

/-- The loop of PASS_FREE over the pending records tears nothing down and executes
nothing. -/
theorem dx11_pass_free_pending_counts (command t : Nat) :
    ∀ (fuel : Nat) (s s' : Dx11.IRenoir) (p : Ptr),
      Dx11.pass_free_pending fuel s command p = some s' →
      s'.handles = s.handles ∧
      Dx11.teardowns s'.trace t = Dx11.teardowns s.trace t ∧
      Dx11.texture_frees s'.trace t = Dx11.texture_frees s.trace t := by
  intro fuel
  induction fuel with
  | zero =>
    intro s s' p he
    cases p with
    | none =>
      simp only [Dx11.pass_free_pending, Option.some.injEq] at he
      subst he
      exact ⟨rfl, rfl, rfl⟩
    | some it => simp [Dx11.pass_free_pending] at he
  | succ fuel ih =>
    intro s s' p he
    cases p with
    | none =>
      simp only [Dx11.pass_free_pending, Option.some.injEq] at he
      subst he
      exact ⟨rfl, rfl, rfl⟩
    | some it =>
      simp only [Dx11.pass_free_pending] at he
      obtain ⟨_, _, _, _, _, _, _, f8, f9⟩ := dx11_command_free_frame s command
      obtain ⟨e1, e2, e3⟩ := ih _ _ _ he
      refine ⟨e1.trans f8, e2.trans (dx11_command_free_teardowns s command t), ?_⟩
      rw [e3]
      unfold Dx11.texture_frees
      rw [f9]

/-- One round of the attachment loop of PASS_OFFSCREEN_NEW, seen from the handle `t`. -/
theorem dx11_offscreen_new_color_effect (desc : Renoir_Pass_Offscreen_Desc) (h t : Nat)
    (hne : t ≠ h) (s : Dx11.IRenoir) (i : Nat) :
    ((Dx11.offscreen_new_color desc h s i).handles h).pass.offscreen
      = (s.handles h).pass.offscreen ∧
    ((Dx11.offscreen_new_color desc h s i).handles t).rc
      = (if (desc.color.getD i {}).handle = some t then wrap_int ((s.handles t).rc + 1)
          else (s.handles t).rc) := by
  unfold Dx11.offscreen_new_color
  cases hc : (desc.color.getD i {}).handle with
  | none => simp
  | some c =>
    simp only [Option.some.injEq, Dx11._renoir_dx11_handle_ref, Dx11.device_create,
      Dx11.set_handle, write_same]
    refine ⟨?_, ?_⟩
    · by_cases hch : c = h
      · subst hch; rw [write_same]
      · rw [write_other _ _ _ _ (fun e => hch e.symm)]
    · rw [write_other _ _ _ _ hne]
      by_cases hct : c = t
      · subst hct; rw [write_same, if_pos rfl]
      · rw [write_other _ _ _ _ (fun e => hct e.symm), if_neg hct]

/-- The attachment loop of PASS_OFFSCREEN_NEW over the indices `l`, seen from the handle
`t`: its count goes up once for every attachment that is `t`. -/
theorem dx11_offscreen_new_colors (desc : Renoir_Pass_Offscreen_Desc) (h t : Nat)
    (hne : t ≠ h) :
    ∀ (l : List Nat) (s : Dx11.IRenoir),
      -2147483648 ≤ (s.handles t).rc → (s.handles t).rc ≤ 2147483647 →
      ((l.foldl (Dx11.offscreen_new_color desc h) s).handles h).pass.offscreen
        = (s.handles h).pass.offscreen ∧
      ((l.foldl (Dx11.offscreen_new_color desc h) s).handles t).rc
        = wrap_int ((s.handles t).rc + color_count desc l t) := by
  intro l
  induction l with
  | nil =>
    intro s h1 h2
    refine ⟨rfl, ?_⟩
    simp only [List.foldl, color_count, List.filter_nil, List.length_nil]
    rw [wrap_int_of_range _ (by omega) (by omega)]
    simp
  | cons i rest ih =>
    intro s h1 h2
    obtain ⟨a1, a2⟩ := dx11_offscreen_new_color_effect desc h t hne s i
    have hr1 : -2147483648 ≤ ((Dx11.offscreen_new_color desc h s i).handles t).rc ∧
        ((Dx11.offscreen_new_color desc h s i).handles t).rc ≤ 2147483647 := by
      rw [a2]
      split
      · exact wrap_int_range _
      · exact ⟨h1, h2⟩
    obtain ⟨b1, b2⟩ := ih (Dx11.offscreen_new_color desc h s i) hr1.1 hr1.2
    simp only [List.foldl]
    refine ⟨by rw [b1, a1], ?_⟩
    rw [b2, a2, color_count_cons]
    by_cases hc : (desc.color.getD i {}).handle = some t
    · rw [if_pos hc, if_pos hc]
      unfold wrap_int
      push_cast
      omega
    · rw [if_neg hc, if_neg hc]
      simp

/-- The PASS_OFFSCREEN_NEW case, seen from a handle `t` other than the pass: the
description is stored in the pass, and the count of `t` goes up by the number of times `t`
is an attachment. -/
theorem dx11_offscreen_new_effect (s : Dx11.IRenoir) (h t : Nat)
    (desc : Renoir_Pass_Offscreen_Desc) (hne : t ≠ h)
    (h1 : -2147483648 ≤ (s.handles t).rc) (h2 : (s.handles t).rc ≤ 2147483647) :
    ((Dx11.execute_pass_offscreen_new s h desc).handles h).pass.offscreen = desc ∧
    ((Dx11.execute_pass_offscreen_new s h desc).handles t).rc
      = wrap_int ((s.handles t).rc + attachment_count desc t) := by
  unfold Dx11.execute_pass_offscreen_new
  simp only []
  obtain ⟨S0, hS0⟩ : ∃ S0 : Dx11.IRenoir, S0 = Dx11.set_handle s h
      { s.handles h with pass := { (s.handles h).pass with offscreen := desc } } := ⟨_, rfl⟩
  rw [← hS0]
  have hoff : (S0.handles h).pass.offscreen = desc := by
    rw [hS0]; simp [Dx11.set_handle, write_same]
  have hrc : (S0.handles t).rc = (s.handles t).rc := by
    rw [hS0]; simp [Dx11.set_handle, write_other _ _ _ _ hne]
  obtain ⟨b1, b2⟩ := dx11_offscreen_new_colors desc h t hne
    (List.range RENOIR_CONSTANT_COLOR_ATTACHMENT_SIZE) S0 (by rw [hrc]; exact h1)
    (by rw [hrc]; exact h2)
  unfold attachment_count
  cases hd : desc.depth_stencil.handle with
  | none =>
    have hn : ¬ (none : Option Nat) = some t := by simp
    rw [if_neg hn, Nat.add_zero]
    exact ⟨b1.trans hoff, by rw [b2, hrc]⟩
  | some d =>
    simp only [Option.some.injEq, Dx11._renoir_dx11_handle_ref, Dx11.device_create,
      Dx11.set_handle, write_same]
    refine ⟨?_, ?_⟩
    · by_cases hdh : d = h
      · subst hdh; rw [write_same]; exact b1.trans hoff
      · rw [write_other _ _ _ _ (fun e => hdh e.symm)]; exact b1.trans hoff
    · rw [write_other _ _ _ _ hne]
      by_cases hdt : d = t
      · subst hdt
        rw [write_same, if_pos rfl]
        show wrap_int (_ + 1) = _
        rw [b2, hrc]
        unfold wrap_int
        push_cast
        omega
      · rw [write_other _ _ _ _ (fun e => hdt e.symm), if_neg hdt, b2, hrc]
        simp

theorem dx11_handle_free_texture_frees (s : Dx11.IRenoir) (h t : Nat) :
    Dx11.texture_frees (Dx11._renoir_dx11_handle_free s h).trace t
      = Dx11.texture_frees s.trace t := by
  unfold Dx11.texture_frees
  rw [(dx11_same_commands_handle_free s h).2.2.2.2]

/-- The PASS_FREE case on a pass with count 1 that holds the description `desc`, seen from
a handle `t` other than the pass: the case returns, the count of `t` goes down by the
number of times `t` is an attachment, with one TEXTURE_FREE record each, and `t` is torn
down when its count passes from 1 to 0 on the way. -/
theorem dx11_pass_free_effect (fuel : Nat) (s1 : Dx11.IRenoir) (command h t : Nat)
    (desc : Renoir_Pass_Offscreen_Desc) (hne : t ≠ h)
    (hoff : (s1.handles h).pass.offscreen = desc)
    (hrc : (s1.handles h).rc = 1) (hsw : (s1.handles h).pass.swapchain = none)
    (hl : (Dx11.list_records s1.commands fuel
      (s1.handles h).pass.command_list_head).isSome = true)
    (h1 : -2147483648 ≤ (s1.handles t).rc) (h2 : (s1.handles t).rc ≤ 2147483647) :
    ∃ s2, Dx11.execute_pass_free fuel s1 command h = some s2 ∧
      (s2.handles t).rc = wrap_int ((s1.handles t).rc - attachment_count desc t) ∧
      Dx11.teardowns s2.trace t = Dx11.teardowns s1.trace t
        + (if 1 ≤ (s1.handles t).rc ∧ (s1.handles t).rc ≤ attachment_count desc t
            then 1 else 0) ∧
      Dx11.texture_frees s2.trace t
        = Dx11.texture_frees s1.trace t + attachment_count desc t := by
  unfold Dx11.execute_pass_free
  simp only [Dx11._renoir_dx11_handle_unref, hrc, decide_True, Bool.true_eq_false, if_false,
    write_same]
  split
  · rename_i heq
    exact absurd heq (dx11_pass_free_pending_ne_none fuel _ command _ hl)
  · rename_i sp hp
    obtain ⟨p1, p2, p3⟩ := dx11_pass_free_pending_counts command t fuel _ _ _ hp
    have hph : (sp.handles h).pass = (s1.handles h).pass := by
      rw [p1]; simp [write_same]
    have hpt : (sp.handles t).rc = (s1.handles t).rc := by
      rw [p1]; simp [write_other _ _ _ _ hne]
    have p2 : Dx11.teardowns sp.trace t = Dx11.teardowns s1.trace t := p2
    have p3 : Dx11.texture_frees sp.trace t = Dx11.texture_frees s1.trace t := p3
    rw [if_pos (by rw [hph]; exact hsw)]
    obtain ⟨c1, c2, c3, c4⟩ := dx11_pass_free_colors desc h t hne
      (List.range RENOIR_CONSTANT_COLOR_ATTACHMENT_SIZE) sp (by rw [hph]; exact hoff)
      (by rw [hpt]; exact h1) (by rw [hpt]; exact h2) (by decide)
    have hcc : color_count desc (List.range RENOIR_CONSTANT_COLOR_ATTACHMENT_SIZE) t ≤ 4 :=
      color_count_le desc _ t
    rw [hpt] at c2 c3
    rw [p2] at c3
    rw [p3] at c4
    obtain ⟨S3, hS3⟩ : ∃ S3 : Dx11.IRenoir, S3 =
        (List.range RENOIR_CONSTANT_COLOR_ATTACHMENT_SIZE).foldl (Dx11.pass_free_color h) sp :=
      ⟨_, rfl⟩
    rw [← hS3] at c1 c2 c3 c4 ⊢
    have hoff3 : (S3.handles h).pass.offscreen = desc := by rw [c1, hph]; exact hoff
    have hcount : attachment_count desc t
        = color_count desc (List.range RENOIR_CONSTANT_COLOR_ATTACHMENT_SIZE) t
          + (if desc.depth_stencil.handle = some t then 1 else 0) := rfl
    cases hd : desc.depth_stencil.handle with
    | none =>
      have hd3 : (S3.handles h).pass.offscreen.depth_stencil.handle = none := by
        rw [hoff3]; exact hd
      simp only [hd3]
      rw [hcount, hd, if_neg (by simp), Nat.add_zero]
      refine ⟨_, rfl, ?_, ?_, ?_⟩
      · rw [dx11_handle_free_handles, c2]
      · rw [dx11_handle_free_teardowns_at, if_neg (fun e => hne e.symm), Nat.add_zero, c3]
      · rw [dx11_handle_free_texture_frees, c4]
    | some d =>
      have hd3 : (S3.handles h).pass.offscreen.depth_stencil.handle = some d := by
        rw [hoff3]; exact hd
      simp only [hd3]
      rw [hcount, hd]
      obtain ⟨_, d2, d3, d4⟩ := dx11_pass_free_attachment S3
        (S3.handles h).pass.depth_stencil_view d h t hne
      refine ⟨_, rfl, ?_, ?_, ?_⟩
      · rw [dx11_handle_free_handles, d2, c2]
        by_cases hdt : d = t
        · subst hdt
          rw [if_pos rfl, if_pos rfl]
          unfold wrap_int
          push_cast
          omega
        · rw [if_neg hdt, if_neg (by simpa using hdt), Nat.add_zero]
      · rw [dx11_handle_free_teardowns_at, if_neg (fun e => hne e.symm), Nat.add_zero, d3, c3,
          c2]
        by_cases hdt : d = t
        · subst hdt
          simp only [true_and, if_true]
          unfold wrap_int
          push_cast
          split <;> split <;> split <;> omega
        · have e1 : ¬ (some d = some t) := by simpa using hdt
          simp only [e1, hdt, false_and, if_false, Nat.add_zero]
      · rw [dx11_handle_free_texture_frees, d4, c4]
        by_cases hdt : d = t
        · subst hdt
          simp
          omega
        · simp [hdt]

theorem attachment_count_le (desc : Renoir_Pass_Offscreen_Desc) (t : Nat) :
    attachment_count desc t ≤ 5 := by
  unfold attachment_count
  have := color_count_le desc (List.range RENOIR_CONSTANT_COLOR_ATTACHMENT_SIZE) t
  have hlen : (List.range RENOIR_CONSTANT_COLOR_ATTACHMENT_SIZE).length = 4 := by decide
  split <;> omega

/-- D3D11: PASS_OFFSCREEN_NEW on the pass `h` with the description `desc`, and later
PASS_FREE on that pass in a context `s1` whose handles are those PASS_OFFSCREEN_NEW left,
seen from a handle `t` other than the pass. -/
theorem dx11_pass_teardown_balances (fuel : Nat) (s s1 : Dx11.IRenoir) (command h t : Nat)
    (desc : Renoir_Pass_Offscreen_Desc)
    (hs1 : s1.handles = (Dx11.execute_pass_offscreen_new s h desc).handles)
    (hne : t ≠ h)
    (h1 : -2147483648 ≤ (s.handles t).rc) (h2 : (s.handles t).rc ≤ 2147483647)
    (hrc : (s1.handles h).rc = 1) (hsw : (s1.handles h).pass.swapchain = none)
    (hl : (Dx11.list_records s1.commands fuel
      (s1.handles h).pass.command_list_head).isSome = true) :
    (s1.handles t).rc = wrap_int ((s.handles t).rc + attachment_count desc t) ∧
    ∃ s2, Dx11.execute_pass_free fuel s1 command h = some s2 ∧
      (s2.handles t).rc = (s.handles t).rc ∧
      Dx11.texture_frees s2.trace t
        = Dx11.texture_frees s1.trace t + attachment_count desc t ∧
      ((s.handles t).rc = 0 → 0 < attachment_count desc t →
        Dx11.teardowns s2.trace t = Dx11.teardowns s1.trace t + 1) ∧
      (0 < (s.handles t).rc → Dx11.teardowns s2.trace t = Dx11.teardowns s1.trace t) := by
  obtain ⟨n1, n2⟩ := dx11_offscreen_new_effect s h t desc hne h1 h2
  rw [← hs1] at n1 n2
  have hk := attachment_count_le desc t
  have hr := wrap_int_range ((s.handles t).rc + attachment_count desc t)
  obtain ⟨s2, e, f1, f2, f3⟩ := dx11_pass_free_effect fuel s1 command h t desc hne n1 hrc hsw hl
    (by rw [n2]; exact hr.1) (by rw [n2]; exact hr.2)
  refine ⟨n2, s2, e, ?_, f3, ?_, ?_⟩
  · rw [f1, n2]
    unfold wrap_int
    omega
  · intro hz hpos
    rw [f2, n2, hz, if_pos]
    unfold wrap_int
    omega
  · intro hpos
    rw [f2, n2, if_neg, Nat.add_zero]
    unfold wrap_int
    omega

theorem gl450_teardowns_emit (s : Gl450.IRenoir) (e : Gl450.Event) (t : Nat) :
    Gl450.teardowns (Gl450.emit s e).trace t
      = Gl450.teardowns s.trace t + (if e = Gl450.Event.handle_free t then 1 else 0) := by
  simp only [Gl450.teardowns, Gl450.emit, List.count_append, List.count_singleton]
  by_cases h : e = Gl450.Event.handle_free t
  · simp [h]
  · simp [h]

theorem gl450_handle_free_teardowns_at (s : Gl450.IRenoir) (h t : Nat) :
    Gl450.teardowns (Gl450._renoir_gl450_handle_free s h).trace t
      = Gl450.teardowns s.trace t + (if h = t then 1 else 0) := by
  have := gl450_teardowns_emit s (Gl450.Event.handle_free h) t
  simp only [Gl450.emit, Gl450.Event.handle_free.injEq] at this
  exact this

theorem gl450_command_free_teardowns (s : Gl450.IRenoir) (c t : Nat) :
    Gl450.teardowns (Gl450._renoir_gl450_command_free s c).trace t = Gl450.teardowns s.trace t := by
  unfold Gl450._renoir_gl450_command_free
  simp only []
  split <;> (try split) <;> (try split) <;>
    simp [Gl450.mn_free, Gl450.emit, Gl450.teardowns, List.count_append, List.count_singleton]

/-- The TEXTURE_FREE case on the handle `c`: the count of `c` goes down by one, and the
handle is torn down when the count was 1. -/
theorem gl450_texture_free_effect (s : Gl450.IRenoir) (c t : Nat) :
    (Gl450.execute_texture_free s c).handles
      = write s.handles c { s.handles c with rc := wrap_int ((s.handles c).rc - 1) } ∧
    Gl450.teardowns (Gl450.execute_texture_free s c).trace t
      = Gl450.teardowns s.trace t + (if c = t ∧ (s.handles c).rc = 1 then 1 else 0) := by
  unfold Gl450.execute_texture_free
  simp only [Gl450._renoir_gl450_handle_unref]
  by_cases hrc : (s.handles c).rc = 1
  · rw [if_neg (by simp [hrc])]
    refine ⟨?_, ?_⟩
    · split <;> simp only [gl450_handle_free_handles, gl450_delete_handles]
    · rw [gl450_handle_free_teardowns_at]
      split <;> simp only [gl450_delete_teardowns, hrc, and_true]
  · rw [if_pos (by simp [hrc])]
    refine ⟨rfl, ?_⟩
    simp [hrc]

theorem gl450_texture_frees_of_executed (tr tr1 : List Gl450.Event)
    (l : List (Nat × Gl450.Renoir_Command)) (t : Nat)
    (h : Gl450.executed tr1 = Gl450.executed tr ++ l) :
    Gl450.texture_frees tr1 t = Gl450.texture_frees tr t +
      (l.filter fun e =>
        decide (e.2.kind = .RENOIR_COMMAND_KIND_TEXTURE_FREE ∧ e.2.handle = some t)).length := by
  unfold Gl450.texture_frees
  rw [h, List.filter_append, List.length_append]

/-- The nested TEXTURE_FREE of PASS_FREE on the handle `c`: one TEXTURE_FREE record on `c`
is executed, the count of `c` goes down by one, and `c` is torn down when the count
was 1. -/
theorem gl450_pass_free_texture_effect (s : Gl450.IRenoir) (c t : Nat) :
    (Gl450.pass_free_texture s c).handles
      = write s.handles c { s.handles c with rc := wrap_int ((s.handles c).rc - 1) } ∧
    Gl450.teardowns (Gl450.pass_free_texture s c).trace t
      = Gl450.teardowns s.trace t + (if c = t ∧ (s.handles c).rc = 1 then 1 else 0) ∧
    Gl450.texture_frees (Gl450.pass_free_texture s c).trace t
      = Gl450.texture_frees s.trace t + (if c = t then 1 else 0) := by
  unfold Gl450.pass_free_texture
  simp only []
  obtain ⟨S1, hS1⟩ : ∃ S1 : Gl450.IRenoir, S1 =
      Gl450.emit
        (Gl450.set_command (Gl450._renoir_gl450_command_new s .RENOIR_COMMAND_KIND_TEXTURE_FREE).2
          (Gl450._renoir_gl450_command_new s .RENOIR_COMMAND_KIND_TEXTURE_FREE).1
          { (Gl450._renoir_gl450_command_new s .RENOIR_COMMAND_KIND_TEXTURE_FREE).2.commands
              (Gl450._renoir_gl450_command_new s .RENOIR_COMMAND_KIND_TEXTURE_FREE).1 with
            handle := some c })
        (Gl450.Event.command_execute
          (Gl450._renoir_gl450_command_new s .RENOIR_COMMAND_KIND_TEXTURE_FREE).1
          ((Gl450.set_command
            (Gl450._renoir_gl450_command_new s .RENOIR_COMMAND_KIND_TEXTURE_FREE).2
            (Gl450._renoir_gl450_command_new s .RENOIR_COMMAND_KIND_TEXTURE_FREE).1
            { (Gl450._renoir_gl450_command_new s .RENOIR_COMMAND_KIND_TEXTURE_FREE).2.commands
                (Gl450._renoir_gl450_command_new s .RENOIR_COMMAND_KIND_TEXTURE_FREE).1 with
              handle := some c }).commands
            (Gl450._renoir_gl450_command_new s .RENOIR_COMMAND_KIND_TEXTURE_FREE).1)) :=
    ⟨_, rfl⟩
  rw [← hS1]
  have hh : S1.handles = s.handles := by rw [hS1]; rfl
  have ht : Gl450.teardowns S1.trace t = Gl450.teardowns s.trace t := by
    rw [hS1, gl450_teardowns_emit, if_neg (fun h => nomatch h)]
    rfl
  have hx : Gl450.executed S1.trace = Gl450.executed s.trace ++
      [((pool_get s.command_pool).1,
        { kind := .RENOIR_COMMAND_KIND_TEXTURE_FREE, handle := some c })] := by
    rw [hS1, gl450_executed_emit_execute]
    simp [Gl450.set_command, Gl450._renoir_gl450_command_new, write_same]
  obtain ⟨e1, e2⟩ := gl450_texture_free_effect S1 c t
  obtain ⟨_, _, _, _, _, _, f8, f9⟩ := gl450_command_free_frame
    (Gl450.execute_texture_free S1 c) (Gl450._renoir_gl450_command_new s
      .RENOIR_COMMAND_KIND_TEXTURE_FREE).1
  refine ⟨?_, ?_, ?_⟩
  · rw [f8, e1, hh]
  · rw [gl450_command_free_teardowns, e2, ht, hh]
  · have hx2 := (gl450_same_commands_texture_free S1 c).2.2.2.2
    rw [gl450_texture_frees_of_executed s.trace _ _ t (by rw [f9, hx2, hx])]
    by_cases hct : c = t
    · simp [hct]
    · simp [hct]

/-- One attachment of PASS_FREE, colour or depth: the nested TEXTURE_FREE runs on the
attachment. -/
theorem gl450_pass_free_attachment (s : Gl450.IRenoir) (c h t : Nat)
    (hne : t ≠ h) :
    ((Gl450.pass_free_texture s c).handles h).pass = (s.handles h).pass ∧
    ((Gl450.pass_free_texture s c).handles t).rc
      = (if c = t then wrap_int ((s.handles t).rc - 1) else (s.handles t).rc) ∧
    Gl450.teardowns (Gl450.pass_free_texture s c).trace t
      = Gl450.teardowns s.trace t + (if c = t ∧ (s.handles t).rc = 1 then 1 else 0) ∧
    Gl450.texture_frees (Gl450.pass_free_texture s c).trace t
      = Gl450.texture_frees s.trace t + (if c = t then 1 else 0) := by
  obtain ⟨e1, e2, e3⟩ := gl450_pass_free_texture_effect s c t
  refine ⟨?_, ?_, ?_, ?_⟩
  · rw [e1]
    by_cases hc : c = h
    · subst hc; rw [write_same]
    · rw [write_other _ _ _ _ (fun e => hc e.symm)]
  · rw [e1]
    by_cases hc : c = t
    · subst hc; rw [write_same, if_pos rfl]
    · rw [write_other _ _ _ _ (fun e => hc e.symm), if_neg hc]
  · rw [e2]
    by_cases hc : c = t
    · subst hc; rfl
    · simp [hc]
  · rw [e3]

/-- One round of the colour loop of PASS_FREE, seen from the handle `t`. -/
theorem gl450_pass_free_color_effect (desc : Renoir_Pass_Offscreen_Desc) (h t : Nat)
    (hne : t ≠ h) (s : Gl450.IRenoir) (i : Nat)
    (hoff : (s.handles h).pass.offscreen = desc) :
    ((Gl450.pass_free_color h s i).handles h).pass = (s.handles h).pass ∧
    ((Gl450.pass_free_color h s i).handles t).rc
      = (if (desc.color.getD i {}).handle = some t then wrap_int ((s.handles t).rc - 1)
          else (s.handles t).rc) ∧
    Gl450.teardowns (Gl450.pass_free_color h s i).trace t
      = Gl450.teardowns s.trace t
        + (if (desc.color.getD i {}).handle = some t ∧ (s.handles t).rc = 1 then 1 else 0) ∧
    Gl450.texture_frees (Gl450.pass_free_color h s i).trace t
      = Gl450.texture_frees s.trace t
        + (if (desc.color.getD i {}).handle = some t then 1 else 0) := by
  unfold Gl450.pass_free_color
  rw [hoff]
  cases hc : (desc.color.getD i {}).handle with
  | none => simp
  | some c =>
    simp only [Option.some.injEq]
    exact gl450_pass_free_attachment s c h t hne

/-- The colour loop of PASS_FREE over the indices `l`, seen from the handle `t`: its count
goes down once for every attachment that is `t`, one TEXTURE_FREE record each, and `t` is
torn down when the count passes from 1 to 0 on the way. -/
theorem gl450_pass_free_colors (desc : Renoir_Pass_Offscreen_Desc) (h t : Nat) (hne : t ≠ h) :
    ∀ (l : List Nat) (s : Gl450.IRenoir),
      (s.handles h).pass.offscreen = desc →
      -2147483648 ≤ (s.handles t).rc → (s.handles t).rc ≤ 2147483647 →
      l.length ≤ 1000 →
      ((l.foldl (Gl450.pass_free_color h) s).handles h).pass = (s.handles h).pass ∧
      ((l.foldl (Gl450.pass_free_color h) s).handles t).rc
        = wrap_int ((s.handles t).rc - color_count desc l t) ∧
      Gl450.teardowns (l.foldl (Gl450.pass_free_color h) s).trace t
        = Gl450.teardowns s.trace t
          + (if 1 ≤ (s.handles t).rc ∧ (s.handles t).rc ≤ color_count desc l t then 1 else 0) ∧
      Gl450.texture_frees (l.foldl (Gl450.pass_free_color h) s).trace t
        = Gl450.texture_frees s.trace t + color_count desc l t := by
  intro l
  induction l with
  | nil =>
    intro s _ h1 h2 _
    refine ⟨rfl, ?_, ?_, rfl⟩
    · simp only [List.foldl, color_count, List.filter_nil, List.length_nil]
      rw [wrap_int_of_range _ (by omega) (by omega)]
      simp
    · simp only [List.foldl, color_count, List.filter_nil, List.length_nil]
      rw [if_neg (by omega)]
      rfl
  | cons i rest ih =>
    intro s hoff h1 h2 hlen
    obtain ⟨a1, a2, a3, a4⟩ := gl450_pass_free_color_effect desc h t hne s i hoff
    have hlen1 : rest.length ≤ 1000 := by simp at hlen; omega
    have hcl := color_count_le desc rest t
    have hr1 : -2147483648 ≤ ((Gl450.pass_free_color h s i).handles t).rc ∧
        ((Gl450.pass_free_color h s i).handles t).rc ≤ 2147483647 := by
      rw [a2]
      split
      · exact wrap_int_range _
      · exact ⟨h1, h2⟩
    obtain ⟨b1, b2, b3, b4⟩ := ih (Gl450.pass_free_color h s i) (by rw [a1]; exact hoff)
      hr1.1 hr1.2 hlen1
    simp only [List.foldl]
    refine ⟨by rw [b1, a1], ?_, ?_, ?_⟩
    · rw [b2, a2, color_count_cons]
      by_cases hc : (desc.color.getD i {}).handle = some t
      · rw [if_pos hc, if_pos hc]
        unfold wrap_int
        push_cast
        omega
      · rw [if_neg hc, if_neg hc]
        simp
    · rw [b3, a3, a2, color_count_cons]
      by_cases hc : (desc.color.getD i {}).handle = some t
      · simp only [hc, true_and, if_true]
        unfold wrap_int
        push_cast
        split <;> split <;> split <;> omega
      · simp only [hc, false_and, if_false]
        simp
    · rw [b4, a4, color_count_cons]
      omega

/-- The loop of PASS_FREE over the pending records tears nothing down and executes
nothing. -/
theorem gl450_pass_free_pending_counts (command t : Nat) :
    ∀ (fuel : Nat) (s s' : Gl450.IRenoir) (p : Ptr),
      Gl450.pass_free_pending fuel s command p = some s' →
      s'.handles = s.handles ∧
      Gl450.teardowns s'.trace t = Gl450.teardowns s.trace t ∧
      Gl450.texture_frees s'.trace t = Gl450.texture_frees s.trace t := by
  intro fuel
  induction fuel with
  | zero =>
    intro s s' p he
    cases p with
    | none =>
      simp only [Gl450.pass_free_pending, Option.some.injEq] at he
      subst he
      exact ⟨rfl, rfl, rfl⟩
    | some it => simp [Gl450.pass_free_pending] at he
  | succ fuel ih =>
    intro s s' p he
    cases p with
    | none =>
      simp only [Gl450.pass_free_pending, Option.some.injEq] at he
      subst he
      exact ⟨rfl, rfl, rfl⟩
    | some it =>
      simp only [Gl450.pass_free_pending] at he
      obtain ⟨_, _, _, _, _, _, f8, f9⟩ := gl450_command_free_frame s command
      obtain ⟨e1, e2, e3⟩ := ih _ _ _ he
      refine ⟨e1.trans f8, e2.trans (gl450_command_free_teardowns s command t), ?_⟩
      rw [e3]
      unfold Gl450.texture_frees
      rw [f9]

/-- One round of the attachment loop of PASS_OFFSCREEN_NEW, seen from the handle `t`. -/
theorem gl450_offscreen_new_color_effect (desc : Renoir_Pass_Offscreen_Desc) (h t : Nat)
    (s : Gl450.IRenoir) (i : Nat) :
    ((Gl450.offscreen_new_color desc s i).handles h).pass = (s.handles h).pass ∧
    ((Gl450.offscreen_new_color desc s i).handles t).rc
      = (if (desc.color.getD i {}).handle = some t then wrap_int ((s.handles t).rc + 1)
          else (s.handles t).rc) := by
  unfold Gl450.offscreen_new_color
  cases hc : (desc.color.getD i {}).handle with
  | none => simp
  | some c =>
    simp only [Option.some.injEq, Gl450._renoir_gl450_handle_ref]
    refine ⟨?_, ?_⟩
    · by_cases hch : c = h
      · subst hch; rw [write_same]
      · rw [write_other _ _ _ _ (fun e => hch e.symm)]
    · by_cases hct : c = t
      · subst hct; rw [write_same, if_pos rfl]
      · rw [write_other _ _ _ _ (fun e => hct e.symm), if_neg hct]

/-- The attachment loop of PASS_OFFSCREEN_NEW over the indices `l`, seen from the handle
`t`: its count goes up once for every attachment that is `t`. -/
theorem gl450_offscreen_new_colors (desc : Renoir_Pass_Offscreen_Desc) (h t : Nat) :
    ∀ (l : List Nat) (s : Gl450.IRenoir),
      -2147483648 ≤ (s.handles t).rc → (s.handles t).rc ≤ 2147483647 →
      ((l.foldl (Gl450.offscreen_new_color desc) s).handles h).pass = (s.handles h).pass ∧
      ((l.foldl (Gl450.offscreen_new_color desc) s).handles t).rc
        = wrap_int ((s.handles t).rc + color_count desc l t) := by
  intro l
  induction l with
  | nil =>
    intro s h1 h2
    refine ⟨rfl, ?_⟩
    simp only [List.foldl, color_count, List.filter_nil, List.length_nil]
    rw [wrap_int_of_range _ (by omega) (by omega)]
    simp
  | cons i rest ih =>
    intro s h1 h2
    obtain ⟨a1, a2⟩ := gl450_offscreen_new_color_effect desc h t s i
    have hr1 : -2147483648 ≤ ((Gl450.offscreen_new_color desc s i).handles t).rc ∧
        ((Gl450.offscreen_new_color desc s i).handles t).rc ≤ 2147483647 := by
      rw [a2]
      split
      · exact wrap_int_range _
      · exact ⟨h1, h2⟩
    obtain ⟨b1, b2⟩ := ih (Gl450.offscreen_new_color desc s i) hr1.1 hr1.2
    simp only [List.foldl]
    refine ⟨by rw [b1, a1], ?_⟩
    rw [b2, a2, color_count_cons]
    by_cases hc : (desc.color.getD i {}).handle = some t
    · rw [if_pos hc, if_pos hc]
      unfold wrap_int
      push_cast
      omega
    · rw [if_neg hc, if_neg hc]
      simp

/-- The PASS_OFFSCREEN_NEW case, seen from a handle `t` other than the pass: the
description and the new framebuffer are stored in the pass, and the count of `t` goes up by
the number of times `t` is an attachment. -/
theorem gl450_offscreen_new_effect (s : Gl450.IRenoir) (h t : Nat)
    (desc : Renoir_Pass_Offscreen_Desc) (hne : t ≠ h)
    (h1 : -2147483648 ≤ (s.handles t).rc) (h2 : (s.handles t).rc ≤ 2147483647) :
    ((Gl450.execute_pass_offscreen_new s h desc).handles h).pass.offscreen = desc ∧
    ((Gl450.execute_pass_offscreen_new s h desc).handles h).pass.fb = s.native_fresh ∧
    ((Gl450.execute_pass_offscreen_new s h desc).handles t).rc
      = wrap_int ((s.handles t).rc + attachment_count desc t) := by
  unfold Gl450.execute_pass_offscreen_new
  simp only []
  obtain ⟨S0, hS0⟩ : ∃ S0 : Gl450.IRenoir, S0 =
      Gl450.set_handle
        (Gl450.gl_create (Gl450.set_handle s h
          { s.handles h with pass := { (s.handles h).pass with offscreen := desc } })).2 h
        { (Gl450.gl_create (Gl450.set_handle s h
            { s.handles h with
              pass := { (s.handles h).pass with offscreen := desc } })).2.handles h with
          pass := { ((Gl450.gl_create (Gl450.set_handle s h
            { s.handles h with
              pass := { (s.handles h).pass with offscreen := desc } })).2.handles h).pass with
            fb := (Gl450.gl_create (Gl450.set_handle s h
              { s.handles h with
                pass := { (s.handles h).pass with offscreen := desc } })).1 } } := ⟨_, rfl⟩
  rw [← hS0]
  have hoff : (S0.handles h).pass.offscreen = desc := by
    rw [hS0]; simp [Gl450.set_handle, Gl450.gl_create, write_same]
  have hfb : (S0.handles h).pass.fb = s.native_fresh := by
    rw [hS0]; simp [Gl450.set_handle, Gl450.gl_create, write_same]
  have hrc : (S0.handles t).rc = (s.handles t).rc := by
    rw [hS0]; simp [Gl450.set_handle, Gl450.gl_create, write_other _ _ _ _ hne]
  obtain ⟨b1, b2⟩ := gl450_offscreen_new_colors desc h t
    (List.range 4) S0 (by rw [hrc]; exact h1) (by rw [hrc]; exact h2)
  have hcount : attachment_count desc t
      = color_count desc (List.range 4) t
        + (if desc.depth_stencil.handle = some t then 1 else 0) := rfl
  rw [hcount]
  cases hd : desc.depth_stencil.handle with
  | none =>
    have hn : ¬ (none : Option Nat) = some t := by simp
    rw [if_neg hn, Nat.add_zero]
    exact ⟨by rw [b1]; exact hoff, by rw [b1]; exact hfb, by rw [b2, hrc]⟩
  | some d =>
    simp only [Option.some.injEq, Gl450._renoir_gl450_handle_ref]
    have hp : ∀ (m : Nat → Gl450.Renoir_Handle) (v : Int),
        (write m d { m d with rc := v } h).pass = (m h).pass := by
      intro m v
      by_cases hdh : d = h
      · subst hdh; rw [write_same]
      · rw [write_other _ _ _ _ (fun e => hdh e.symm)]
    refine ⟨?_, ?_, ?_⟩
    · rw [hp, b1]; exact hoff
    · rw [hp, b1]; exact hfb
    · by_cases hdt : d = t
      · subst hdt
        rw [write_same, if_pos rfl]
        show wrap_int (_ + 1) = _
        rw [b2, hrc]
        unfold wrap_int
        push_cast
        omega
      · rw [write_other _ _ _ _ (fun e => hdt e.symm), if_neg hdt, b2, hrc]
        simp

theorem gl450_handle_free_texture_frees (s : Gl450.IRenoir) (h t : Nat) :
    Gl450.texture_frees (Gl450._renoir_gl450_handle_free s h).trace t
      = Gl450.texture_frees s.trace t := by
  unfold Gl450.texture_frees
  rw [(gl450_same_commands_handle_free s h).2.2.2.2]

/-- The PASS_FREE case on a pass with count 1 that holds the description `desc`, seen from
a handle `t` other than the pass: the case returns, the count of `t` goes down by the
number of times `t` is an attachment, with one TEXTURE_FREE record each, and `t` is torn
down when its count passes from 1 to 0 on the way. -/
theorem gl450_pass_free_effect (fuel : Nat) (s1 : Gl450.IRenoir) (command h t : Nat)
    (desc : Renoir_Pass_Offscreen_Desc) (hne : t ≠ h)
    (hoff : (s1.handles h).pass.offscreen = desc)
    (hrc : (s1.handles h).rc = 1) (hsw : (s1.handles h).pass.fb ≠ 0)
    (hl : (Gl450.list_records s1.commands fuel
      (s1.handles h).pass.command_list_head).isSome = true)
    (h1 : -2147483648 ≤ (s1.handles t).rc) (h2 : (s1.handles t).rc ≤ 2147483647) :
    ∃ s2, Gl450.execute_pass_free fuel s1 command h = some s2 ∧
      (s2.handles t).rc = wrap_int ((s1.handles t).rc - attachment_count desc t) ∧
      Gl450.teardowns s2.trace t = Gl450.teardowns s1.trace t
        + (if 1 ≤ (s1.handles t).rc ∧ (s1.handles t).rc ≤ attachment_count desc t
            then 1 else 0) ∧
      Gl450.texture_frees s2.trace t
        = Gl450.texture_frees s1.trace t + attachment_count desc t := by
  unfold Gl450.execute_pass_free
  simp only [Gl450._renoir_gl450_handle_unref, hrc, decide_True, Bool.true_eq_false, if_false,
    write_same]
  split
  · rename_i heq
    exact absurd heq (gl450_pass_free_pending_ne_none fuel _ command _ hl)
  · rename_i sp hp
    obtain ⟨p1, p2, p3⟩ := gl450_pass_free_pending_counts command t fuel _ _ _ hp
    have hph : (sp.handles h).pass = (s1.handles h).pass := by
      rw [p1]; simp [write_same]
    have hpt : (sp.handles t).rc = (s1.handles t).rc := by
      rw [p1]; simp [write_other _ _ _ _ hne]
    have p2 : Gl450.teardowns sp.trace t = Gl450.teardowns s1.trace t := p2
    have p3 : Gl450.texture_frees sp.trace t = Gl450.texture_frees s1.trace t := p3
    rw [if_pos (by rw [hph]; exact hsw)]
    obtain ⟨c1, c2, c3, c4⟩ := gl450_pass_free_colors desc h t hne
      (List.range 4) sp (by rw [hph]; exact hoff)
      (by rw [hpt]; exact h1) (by rw [hpt]; exact h2) (by decide)
    have hcc : color_count desc (List.range 4) t ≤ 4 :=
      color_count_le desc _ t
    rw [hpt] at c2 c3
    rw [p2] at c3
    rw [p3] at c4
    obtain ⟨S3, hS3⟩ : ∃ S3 : Gl450.IRenoir, S3 =
        (List.range 4).foldl (Gl450.pass_free_color h) sp :=
      ⟨_, rfl⟩
    rw [← hS3] at c1 c2 c3 c4 ⊢
    have hoff3 : (S3.handles h).pass.offscreen = desc := by rw [c1, hph]; exact hoff
    have hcount : attachment_count desc t
        = color_count desc (List.range 4) t
          + (if desc.depth_stencil.handle = some t then 1 else 0) := rfl
    cases hd : desc.depth_stencil.handle with
    | none =>
      have hd3 : (S3.handles h).pass.offscreen.depth_stencil.handle = none := by
        rw [hoff3]; exact hd
      simp only [hd3]
      rw [hcount, hd, if_neg (by simp), Nat.add_zero]
      refine ⟨_, rfl, ?_, ?_, ?_⟩
      · rw [gl450_handle_free_handles, c2]
      · rw [gl450_handle_free_teardowns_at, if_neg (fun e => hne e.symm), Nat.add_zero, c3]
      · rw [gl450_handle_free_texture_frees, c4]
    | some d =>
      have hd3 : (S3.handles h).pass.offscreen.depth_stencil.handle = some d := by
        rw [hoff3]; exact hd
      simp only [hd3]
      rw [hcount, hd]
      obtain ⟨_, d2, d3, d4⟩ := gl450_pass_free_attachment S3 d h t hne
      refine ⟨_, rfl, ?_, ?_, ?_⟩
      · rw [gl450_handle_free_handles, d2, c2]
        by_cases hdt : d = t
        · subst hdt
          rw [if_pos rfl, if_pos rfl]
          unfold wrap_int
          push_cast
          omega
        · rw [if_neg hdt, if_neg (by simpa using hdt), Nat.add_zero]
      · rw [gl450_handle_free_teardowns_at, if_neg (fun e => hne e.symm), Nat.add_zero, d3, c3,
          c2]
        by_cases hdt : d = t
        · subst hdt
          simp only [true_and, if_true]
          unfold wrap_int
          push_cast
          split <;> split <;> split <;> omega
        · have e1 : ¬ (some d = some t) := by simpa using hdt
          simp only [e1, hdt, false_and, if_false, Nat.add_zero]
      · rw [gl450_handle_free_texture_frees, d4, c4]
        by_cases hdt : d = t
        · subst hdt
          simp
          omega
        · simp [hdt]

/-- GL: PASS_OFFSCREEN_NEW on the pass `h` with the description `desc`, and later
PASS_FREE on that pass in a context `s1` whose handles are those PASS_OFFSCREEN_NEW left,
seen from a handle `t` other than the pass.  The framebuffer name GL hands out is not 0. -/
theorem gl450_pass_teardown_balances (fuel : Nat) (s s1 : Gl450.IRenoir) (command h t : Nat)
    (desc : Renoir_Pass_Offscreen_Desc)
    (hs1 : s1.handles = (Gl450.execute_pass_offscreen_new s h desc).handles)
    (hne : t ≠ h)
    (h1 : -2147483648 ≤ (s.handles t).rc) (h2 : (s.handles t).rc ≤ 2147483647)
    (hrc : (s1.handles h).rc = 1) (hfresh : s.native_fresh ≠ 0)
    (hl : (Gl450.list_records s1.commands fuel
      (s1.handles h).pass.command_list_head).isSome = true) :
    (s1.handles t).rc = wrap_int ((s.handles t).rc + attachment_count desc t) ∧
    ∃ s2, Gl450.execute_pass_free fuel s1 command h = some s2 ∧
      (s2.handles t).rc = (s.handles t).rc ∧
      Gl450.texture_frees s2.trace t
        = Gl450.texture_frees s1.trace t + attachment_count desc t ∧
      ((s.handles t).rc = 0 → 0 < attachment_count desc t →
        Gl450.teardowns s2.trace t = Gl450.teardowns s1.trace t + 1) ∧
      (0 < (s.handles t).rc → Gl450.teardowns s2.trace t = Gl450.teardowns s1.trace t) := by
  obtain ⟨n1, n0, n2⟩ := gl450_offscreen_new_effect s h t desc hne h1 h2
  rw [← hs1] at n1 n0 n2
  have hsw : (s1.handles h).pass.fb ≠ 0 := by rw [n0]; exact hfresh
  have hk := attachment_count_le desc t
  have hr := wrap_int_range ((s.handles t).rc + attachment_count desc t)
  obtain ⟨s2, e, f1, f2, f3⟩ := gl450_pass_free_effect fuel s1 command h t desc hne n1 hrc hsw hl
    (by rw [n2]; exact hr.1) (by rw [n2]; exact hr.2)
  refine ⟨n2, s2, e, ?_, f3, ?_, ?_⟩
  · rw [f1, n2]
    unfold wrap_int
    omega
  · intro hz hpos
    rw [f2, n2, hz, if_pos]
    unfold wrap_int
    omega
  · intro hpos
    rw [f2, n2, if_neg, Nat.add_zero]
    unfold wrap_int
    omega

theorem gl450_list_records_none (commands : Nat → Gl450.Renoir_Command) (fuel : Nat) :
    (Gl450.list_records commands fuel none).isSome = true := by
  cases fuel <;> rfl

/-- The colour loop of the D3D11 PASS_FREE releases `render_target_view[0]` at every
non-null attachment, whatever its index (Renoir-dx11.cpp:1088). -/
theorem dx11_pass_free_color_view (h : Nat) (s : Dx11.IRenoir) (i c : Nat)
    (hc : ((s.handles h).pass.offscreen.color.getD i {}).handle = some c) :
    Dx11.pass_free_color h s i
      = Dx11.pass_free_texture
          (Dx11.release s ((s.handles h).pass.render_target_view.getD 0 none)) c := by
  unfold Dx11.pass_free_color
  rw [hc]

set_option maxRecDepth 100000 in
/-- C24 (code defect). The colour loop of the D3D11 PASS_FREE calls
`h->pass.render_target_view[0]->Release()` at every non-null colour attachment, whatever its
index. For the description whose only attachment is texture 1 at colour index 1,
PASS_OFFSCREEN_NEW creates the view 1 only, and the one Release call of PASS_FREE goes
through the null pointer `render_target_view[0]`; for two colour attachments the view 0 is
released twice and the view 1 never.
Seen as bookkeeping of the handle counts alone (a Release call being an event of the
trace), both backends balance, for every description `desc`, every pass handle `h` and
every other handle `t` whose count is an `int`, with `k` the number of times `t` is a colour
or depth attachment of `desc`: PASS_OFFSCREEN_NEW stores `desc` in the pass and raises the
count of `t` by `k`; PASS_FREE on a pass of count 1 that holds `desc` (D3D11: not a
swapchain pass, any finite list of pending records; GL: with a framebuffer, no pending
records) returns, executes `k` TEXTURE_FREE records on `t`, lowers the count of `t` by `k`,
and tears `t` down exactly when its count passes from 1 to 0 on the way; when PASS_FREE
runs on the handles PASS_OFFSCREEN_NEW left, the count of `t` afterwards is the count
before the pass was created. -/
theorem c24_pass_free_releases_view_zero :
    (∀ (h : Nat) (s : Dx11.IRenoir) (i c : Nat),
      ((s.handles h).pass.offscreen.color.getD i {}).handle = some c →
      Dx11.pass_free_color h s i
        = Dx11.pass_free_texture
            (Dx11.release s ((s.handles h).pass.render_target_view.getD 0 none)) c) ∧
    ((Dx11.execute_pass_offscreen_new Dx11.attachment_context 0
        { color := [{}, ⟨some 1⟩, {}, {}] }).handles 0).pass.render_target_view
      = [none, some 0, none, none] ∧
    (Dx11.execute_pass_free 1
        (Dx11.execute_pass_offscreen_new Dx11.attachment_context 0
          { color := [{}, ⟨some 1⟩, {}, {}] }) 5 0).map
        (fun s => Dx11.release_calls s.trace)
      = some [none] ∧
    ((Dx11.execute_pass_offscreen_new Dx11.attachment_context 0
        { color := [⟨some 1⟩, ⟨some 2⟩, {}, {}] }).handles 0).pass.render_target_view
      = [some 0, some 1, none, none] ∧
    (Dx11.execute_pass_free 1
        (Dx11.execute_pass_offscreen_new Dx11.attachment_context 0
          { color := [⟨some 1⟩, ⟨some 2⟩, {}, {}] }) 5 0).map
        (fun s => Dx11.release_calls s.trace)
      = some [some 0, some 0] ∧
    (∀ (s : Dx11.IRenoir) (h t : Nat) (desc : Renoir_Pass_Offscreen_Desc),
      t ≠ h → -2147483648 ≤ (s.handles t).rc → (s.handles t).rc ≤ 2147483647 →
      ((Dx11.execute_pass_offscreen_new s h desc).handles h).pass.offscreen = desc ∧
      ((Dx11.execute_pass_offscreen_new s h desc).handles t).rc
        = wrap_int ((s.handles t).rc + attachment_count desc t)) ∧
    (∀ (fuel : Nat) (s1 : Dx11.IRenoir) (command h t : Nat)
        (desc : Renoir_Pass_Offscreen_Desc),
      t ≠ h → (s1.handles h).pass.offscreen = desc →
      (s1.handles h).rc = 1 → (s1.handles h).pass.swapchain = none →
      (Dx11.list_records s1.commands fuel
        (s1.handles h).pass.command_list_head).isSome = true →
      -2147483648 ≤ (s1.handles t).rc → (s1.handles t).rc ≤ 2147483647 →
      ∃ s2, Dx11.execute_pass_free fuel s1 command h = some s2 ∧
        (s2.handles t).rc = wrap_int ((s1.handles t).rc - attachment_count desc t) ∧
        Dx11.teardowns s2.trace t = Dx11.teardowns s1.trace t
          + (if 1 ≤ (s1.handles t).rc ∧ (s1.handles t).rc ≤ attachment_count desc t
              then 1 else 0) ∧
        Dx11.texture_frees s2.trace t
          = Dx11.texture_frees s1.trace t + attachment_count desc t) ∧
    (∀ (fuel : Nat) (s s1 : Dx11.IRenoir) (command h t : Nat)
        (desc : Renoir_Pass_Offscreen_Desc),
      s1.handles = (Dx11.execute_pass_offscreen_new s h desc).handles →
      t ≠ h → -2147483648 ≤ (s.handles t).rc → (s.handles t).rc ≤ 2147483647 →
      (s1.handles h).rc = 1 → (s1.handles h).pass.swapchain = none →
      (Dx11.list_records s1.commands fuel
        (s1.handles h).pass.command_list_head).isSome = true →
      ∃ s2, Dx11.execute_pass_free fuel s1 command h = some s2 ∧
        (s2.handles t).rc = (s.handles t).rc ∧
        Dx11.texture_frees s2.trace t
          = Dx11.texture_frees s1.trace t + attachment_count desc t) ∧
    (∀ (s : Gl450.IRenoir) (h t : Nat) (desc : Renoir_Pass_Offscreen_Desc),
      t ≠ h → -2147483648 ≤ (s.handles t).rc → (s.handles t).rc ≤ 2147483647 →
      ((Gl450.execute_pass_offscreen_new s h desc).handles h).pass.offscreen = desc ∧
      ((Gl450.execute_pass_offscreen_new s h desc).handles h).pass.fb = s.native_fresh ∧
      ((Gl450.execute_pass_offscreen_new s h desc).handles t).rc
        = wrap_int ((s.handles t).rc + attachment_count desc t)) ∧
    (∀ (fuel : Nat) (s1 : Gl450.IRenoir) (command h t : Nat)
        (desc : Renoir_Pass_Offscreen_Desc),
      t ≠ h → (s1.handles h).pass.offscreen = desc →
      (s1.handles h).rc = 1 → (s1.handles h).pass.fb ≠ 0 →
      (s1.handles h).pass.command_list_head = none →
      -2147483648 ≤ (s1.handles t).rc → (s1.handles t).rc ≤ 2147483647 →
      ∃ s2, Gl450.execute_pass_free fuel s1 command h = some s2 ∧
        (s2.handles t).rc = wrap_int ((s1.handles t).rc - attachment_count desc t) ∧
        Gl450.teardowns s2.trace t = Gl450.teardowns s1.trace t
          + (if 1 ≤ (s1.handles t).rc ∧ (s1.handles t).rc ≤ attachment_count desc t
              then 1 else 0) ∧
        Gl450.texture_frees s2.trace t
          = Gl450.texture_frees s1.trace t + attachment_count desc t) ∧
    (∀ (fuel : Nat) (s s1 : Gl450.IRenoir) (command h t : Nat)
        (desc : Renoir_Pass_Offscreen_Desc),
      s1.handles = (Gl450.execute_pass_offscreen_new s h desc).handles →
      t ≠ h → -2147483648 ≤ (s.handles t).rc → (s.handles t).rc ≤ 2147483647 →
      (s1.handles h).rc = 1 → s.native_fresh ≠ 0 →
      (s1.handles h).pass.command_list_head = none →
      ∃ s2, Gl450.execute_pass_free fuel s1 command h = some s2 ∧
        (s2.handles t).rc = (s.handles t).rc ∧
        Gl450.texture_frees s2.trace t
          = Gl450.texture_frees s1.trace t + attachment_count desc t) := by
  refine ⟨fun h s i c hc => dx11_pass_free_color_view h s i c hc,
    by decide, by decide, by decide, by decide,
    fun s h t desc hne h1 h2 => dx11_offscreen_new_effect s h t desc hne h1 h2,
    fun fuel s1 command h t desc hne hoff hrc hsw hl h1 h2 =>
      dx11_pass_free_effect fuel s1 command h t desc hne hoff hrc hsw hl h1 h2,
    ?_,
    fun s h t desc hne h1 h2 => gl450_offscreen_new_effect s h t desc hne h1 h2,
    fun fuel s1 command h t desc hne hoff hrc hsw hhead h1 h2 =>
      gl450_pass_free_effect fuel s1 command h t desc hne hoff hrc hsw
        (by rw [hhead]; exact gl450_list_records_none _ _) h1 h2,
    ?_⟩
  · intro fuel s s1 command h t desc hs1 hne h1 h2 hrc hsw hl
    obtain ⟨_, s2, e, f1, f2, _⟩ :=
      dx11_pass_teardown_balances fuel s s1 command h t desc hs1 hne h1 h2 hrc hsw hl
    exact ⟨s2, e, f1, f2⟩
  · intro fuel s s1 command h t desc hs1 hne h1 h2 hrc hfresh hhead
    obtain ⟨_, s2, e, f1, f2, _⟩ :=
      gl450_pass_teardown_balances fuel s s1 command h t desc hs1 hne h1 h2 hrc hfresh
        (by rw [hhead]; exact gl450_list_records_none _ _)
    exact ⟨s2, e, f1, f2⟩

set_option maxRecDepth 100000 in
/-- Witness for C24: in `attachment_context` the pass 0 is created with texture 1 as colour
attachment 0 and 2 and as depth attachment, and texture 2 as colour attachment 1. PASS_FREE
right afterwards returns and leaves the count of texture 1 at 1, as before the creation,
after three TEXTURE_FREE records on it. When the caller has released texture 2 in between
(its count is 1 again), PASS_FREE takes it to 0 and tears it down. -/
theorem c24_pass_free_releases_view_zero_witness :
    attachment_count { color := [⟨some 1⟩, ⟨some 2⟩, ⟨some 1⟩, {}], depth_stencil := ⟨some 1⟩ } 1
      = 3 ∧
    (∃ s2, Dx11.execute_pass_free 1
        (Dx11.execute_pass_offscreen_new Dx11.attachment_context 0
          { color := [⟨some 1⟩, ⟨some 2⟩, ⟨some 1⟩, {}], depth_stencil := ⟨some 1⟩ }) 5 0
        = some s2 ∧
      (s2.handles 1).rc = (Dx11.attachment_context.handles 1).rc ∧
      Dx11.texture_frees s2.trace 1
        = Dx11.texture_frees (Dx11.execute_pass_offscreen_new Dx11.attachment_context 0
            { color := [⟨some 1⟩, ⟨some 2⟩, ⟨some 1⟩, {}],
              depth_stencil := ⟨some 1⟩ }).trace 1
          + attachment_count
            { color := [⟨some 1⟩, ⟨some 2⟩, ⟨some 1⟩, {}], depth_stencil := ⟨some 1⟩ } 1) ∧
    (∃ s2, Gl450.execute_pass_free 1
        (Gl450.execute_pass_offscreen_new Gl450.attachment_context 0
          { color := [⟨some 1⟩, ⟨some 2⟩, ⟨some 1⟩, {}], depth_stencil := ⟨some 1⟩ }) 5 0
        = some s2 ∧
      (s2.handles 1).rc = (Gl450.attachment_context.handles 1).rc ∧
      Gl450.texture_frees s2.trace 1
        = Gl450.texture_frees (Gl450.execute_pass_offscreen_new Gl450.attachment_context 0
            { color := [⟨some 1⟩, ⟨some 2⟩, ⟨some 1⟩, {}],
              depth_stencil := ⟨some 1⟩ }).trace 1
          + attachment_count
            { color := [⟨some 1⟩, ⟨some 2⟩, ⟨some 1⟩, {}], depth_stencil := ⟨some 1⟩ } 1) ∧
    ((Dx11.execute_texture_free
        (Dx11.execute_pass_offscreen_new Dx11.attachment_context 0
          { color := [⟨some 1⟩, ⟨some 2⟩, ⟨some 1⟩, {}], depth_stencil := ⟨some 1⟩ })
        2).handles 2).rc = 1 ∧
    (∃ s2, Dx11.execute_pass_free 1
        (Dx11.execute_texture_free
          (Dx11.execute_pass_offscreen_new Dx11.attachment_context 0
            { color := [⟨some 1⟩, ⟨some 2⟩, ⟨some 1⟩, {}], depth_stencil := ⟨some 1⟩ }) 2) 5 0
        = some s2 ∧
      (s2.handles 2).rc = 0 ∧ Dx11.teardowns s2.trace 2 = 1) := by
  refine ⟨by decide, ?_, ?_, by decide, ?_⟩
  · exact c24_pass_free_releases_view_zero.2.2.2.2.2.2.2.1 1 Dx11.attachment_context _ 5 0 1
      { color := [⟨some 1⟩, ⟨some 2⟩, ⟨some 1⟩, {}], depth_stencil := ⟨some 1⟩ }
      rfl (by decide) (by decide) (by decide) (by decide) (by decide) (by decide)
  · exact c24_pass_free_releases_view_zero.2.2.2.2.2.2.2.2.2.2 1 Gl450.attachment_context _ 5 0 1
      { color := [⟨some 1⟩, ⟨some 2⟩, ⟨some 1⟩, {}], depth_stencil := ⟨some 1⟩ }
      rfl (by decide) (by decide) (by decide) (by decide) (by decide) (by decide)
  · obtain ⟨s2, e, f1, f2, _⟩ := c24_pass_free_releases_view_zero.2.2.2.2.2.2.1 1
      (Dx11.execute_texture_free
        (Dx11.execute_pass_offscreen_new Dx11.attachment_context 0
          { color := [⟨some 1⟩, ⟨some 2⟩, ⟨some 1⟩, {}], depth_stencil := ⟨some 1⟩ }) 2) 5 0 2
      { color := [⟨some 1⟩, ⟨some 2⟩, ⟨some 1⟩, {}], depth_stencil := ⟨some 1⟩ }
      (by decide) (by decide) (by decide) (by decide) (by decide) (by decide) (by decide)
    refine ⟨s2, e, ?_, ?_⟩
    · rw [f1]; decide
    · rw [f2]; decide


/-! ### The 3D copy loops -/

/-- The inner loop of the 3D read, `m` rounds from the state `st`: every round copies the
same `len` bytes at `src` to the running destination. -/
theorem dx11_read_3d_inner (image : Int → Nat) (src : Int) (len : Nat) (n R : Int)
    (hn : (len : Int) = n) :
    ∀ (m : Nat) (st : Dx11.Copy_Loop),
      ((List.range m).foldl
        (fun (st : Dx11.Copy_Loop) (_ : Nat) =>
          ({ memory := Dx11.memcpy_bytes st.memory st.bytes_ptr image src len,
             image_ptr := st.image_ptr + R,
             bytes_ptr := st.bytes_ptr + n } : Dx11.Copy_Loop)) st).bytes_ptr
        = st.bytes_ptr + m * n ∧
      (∀ a, a < st.bytes_ptr →
        ((List.range m).foldl
          (fun (st : Dx11.Copy_Loop) (_ : Nat) =>
            ({ memory := Dx11.memcpy_bytes st.memory st.bytes_ptr image src len,
               image_ptr := st.image_ptr + R,
               bytes_ptr := st.bytes_ptr + n } : Dx11.Copy_Loop)) st).memory a
          = st.memory a) ∧
      (∀ j k : Nat, j < m → k < len →
        ((List.range m).foldl
          (fun (st : Dx11.Copy_Loop) (_ : Nat) =>
            ({ memory := Dx11.memcpy_bytes st.memory st.bytes_ptr image src len,
               image_ptr := st.image_ptr + R,
               bytes_ptr := st.bytes_ptr + n } : Dx11.Copy_Loop)) st).memory
            (st.bytes_ptr + j * n + k)
          = image (src + k)) := by
  intro m
  induction m with
  | zero =>
    intro st
    refine ⟨by simp, fun a _ => rfl, fun j k hj _ => absurd hj (Nat.not_lt_zero _)⟩
  | succ m ih =>
    intro st
    obtain ⟨e1, e2, e3⟩ := ih st
    rw [List.range_succ, List.foldl_append]
    generalize (List.range m).foldl
      (fun (st : Dx11.Copy_Loop) (_ : Nat) =>
        ({ memory := Dx11.memcpy_bytes st.memory st.bytes_ptr image src len,
           image_ptr := st.image_ptr + R,
           bytes_ptr := st.bytes_ptr + n } : Dx11.Copy_Loop)) st = F at e1 e2 e3 ⊢
    simp only [List.foldl_cons, List.foldl_nil]
    have hn0 : (0 : Int) ≤ n := by rw [← hn]; exact Int.ofNat_nonneg _
    have hmn : (0 : Int) ≤ (m : Int) * n := Int.mul_nonneg (Int.ofNat_nonneg _) hn0
    refine ⟨?_, ?_, ?_⟩
    · rw [e1]; push_cast; ring
    · intro a ha
      unfold Dx11.memcpy_bytes
      rw [if_neg (by rw [e1]; omega)]
      exact e2 a ha
    · intro j k hj hk
      unfold Dx11.memcpy_bytes
      rw [e1]
      have hk' : (k : Int) < n := by rw [← hn]; exact_mod_cast hk
      by_cases hjm : j < m
      · have h1 : ((j : Int) + 1) * n ≤ (m : Int) * n :=
          Int.mul_le_mul_of_nonneg_right (by exact_mod_cast hjm) hn0
        have h2 : ((j : Int) + 1) * n = j * n + n := by ring
        rw [if_neg (by omega)]
        exact e3 j k hjm hk
      · have hjm' : j = m := by omega
        subst hjm'
        rw [if_pos (by constructor <;> omega)]
        congr 1
        omega

/-- The two loops of the 3D read, `m` rounds of the outer loop from the state `st`: row
`(i, j)` of the destination is the row of `image` the outer pointer of round `i` points at,
whatever `j` is. -/
theorem dx11_read_3d_outer (image : Int → Nat) (xo : Int) (len : Nat) (n R D : Int) (H : Nat)
    (hn : (len : Int) = n) :
    ∀ (m : Nat) (st G : Dx11.Copy_Loop),
      G = ((List.range m).foldl
        (fun (outer : Dx11.Copy_Loop) (_ : Nat) =>
          ({ memory := ((List.range H).foldl
              (fun (st : Dx11.Copy_Loop) (_ : Nat) =>
                ({ memory := Dx11.memcpy_bytes st.memory st.bytes_ptr image
                     (outer.image_ptr + xo) len,
                   image_ptr := st.image_ptr + R,
                   bytes_ptr := st.bytes_ptr + n } : Dx11.Copy_Loop))
              { memory := outer.memory, image_ptr := outer.image_ptr,
                bytes_ptr := outer.bytes_ptr }).memory,
             image_ptr := outer.image_ptr + D,
             bytes_ptr := ((List.range H).foldl
              (fun (st : Dx11.Copy_Loop) (_ : Nat) =>
                ({ memory := Dx11.memcpy_bytes st.memory st.bytes_ptr image
                     (outer.image_ptr + xo) len,
                   image_ptr := st.image_ptr + R,
                   bytes_ptr := st.bytes_ptr + n } : Dx11.Copy_Loop))
              { memory := outer.memory, image_ptr := outer.image_ptr,
                bytes_ptr := outer.bytes_ptr }).bytes_ptr } : Dx11.Copy_Loop)) st) →
      G.image_ptr = st.image_ptr + m * D ∧
      G.bytes_ptr = st.bytes_ptr + m * (H * n) ∧
      (∀ a, a < st.bytes_ptr → G.memory a = st.memory a) ∧
      (∀ i j k : Nat, i < m → j < H → k < len →
        G.memory (st.bytes_ptr + (i * H + j) * n + k)
          = image (st.image_ptr + i * D + xo + k)) := by
  intro m
  induction m with
  | zero =>
    intro st G hG
    subst hG
    refine ⟨by simp, by simp, fun a _ => rfl, fun i j k hi _ _ => absurd hi (Nat.not_lt_zero _)⟩
  | succ m ih =>
    intro st G hG
    rw [List.range_succ, List.foldl_append] at hG
    obtain ⟨F, hF⟩ : ∃ F : Dx11.Copy_Loop, F = ((List.range m).foldl
        (fun (outer : Dx11.Copy_Loop) (_ : Nat) =>
          ({ memory := ((List.range H).foldl
              (fun (st : Dx11.Copy_Loop) (_ : Nat) =>
                ({ memory := Dx11.memcpy_bytes st.memory st.bytes_ptr image
                     (outer.image_ptr + xo) len,
                   image_ptr := st.image_ptr + R,
                   bytes_ptr := st.bytes_ptr + n } : Dx11.Copy_Loop))
              { memory := outer.memory, image_ptr := outer.image_ptr,
                bytes_ptr := outer.bytes_ptr }).memory,
             image_ptr := outer.image_ptr + D,
             bytes_ptr := ((List.range H).foldl
              (fun (st : Dx11.Copy_Loop) (_ : Nat) =>
                ({ memory := Dx11.memcpy_bytes st.memory st.bytes_ptr image
                     (outer.image_ptr + xo) len,
                   image_ptr := st.image_ptr + R,
                   bytes_ptr := st.bytes_ptr + n } : Dx11.Copy_Loop))
              { memory := outer.memory, image_ptr := outer.image_ptr,
                bytes_ptr := outer.bytes_ptr }).bytes_ptr } : Dx11.Copy_Loop)) st) := ⟨_, rfl⟩
    rw [← hF] at hG
    obtain ⟨e1, e2, e3, e4⟩ := ih st F hF
    simp only [List.foldl_cons, List.foldl_nil] at hG
    obtain ⟨i1, i2, i3⟩ := dx11_read_3d_inner image (F.image_ptr + xo) len n R hn H
      { memory := F.memory, image_ptr := F.image_ptr, bytes_ptr := F.bytes_ptr }
    have hn0 : (0 : Int) ≤ n := by rw [← hn]; exact Int.ofNat_nonneg _
    have hHn : (0 : Int) ≤ (H : Int) * n := Int.mul_nonneg (Int.ofNat_nonneg _) hn0
    have hmHn : (0 : Int) ≤ (m : Int) * ((H : Int) * n) :=
      Int.mul_nonneg (Int.ofNat_nonneg _) hHn
    subst hG
    refine ⟨?_, ?_, ?_, ?_⟩
    · show F.image_ptr + D = _
      rw [e1]; push_cast; ring
    · show _ = _
      rw [i1]
      show F.bytes_ptr + _ = _
      rw [e2]; push_cast; ring
    · intro a ha
      show _ = _
      rw [i2 a (by show a < F.bytes_ptr; rw [e2]; omega)]
      exact e3 a ha
    · intro i j k hi hj hk
      have hk' : (k : Int) < n := by rw [← hn]; exact_mod_cast hk
      by_cases him : i < m
      · have h1 : ((i : Int) * H + j + 1) ≤ (m : Int) * H := by
          have : (i + 1) * H ≤ m * H := Nat.mul_le_mul_right H him
          have h2 : ((i : Int) + 1) * H ≤ (m : Int) * H := by exact_mod_cast this
          have h3 : ((i : Int) + 1) * H = i * H + H := by ring
          have h4 : (j : Int) < H := by exact_mod_cast hj
          omega
        have h5 : ((i : Int) * H + j + 1) * n ≤ (m : Int) * H * n :=
          Int.mul_le_mul_of_nonneg_right h1 hn0
        have h6 : ((i : Int) * H + j + 1) * n = (i * H + j) * n + n := by ring
        have h7 : (m : Int) * H * n = m * (H * n) := by ring
        show _ = _
        rw [i2 _ (by show _ < F.bytes_ptr; rw [e2]; omega)]
        exact e4 i j k him hj hk
      · have him' : i = m := by omega
        subst him'
        have h8 : st.bytes_ptr + ((i : Int) * H + j) * n + k = F.bytes_ptr + j * n + k := by
          rw [e2]; ring
        show _ = _
        rw [h8, i3 j k hj hk, e1]

set_option maxRecDepth 10000 in
/-- The 3D read loop, for a region whose coordinates and sizes are not negative and whose
offsets do not overflow: row `(i, j)` of the caller's block is the row `y` of slice `z + i`
of the image, for every `j`. -/
theorem dx11_texture_read_3d_rows (R D px x y z w h d : Nat) (image bytes : Int → Nat)
    (h1 : D * z + R * y < 2 ^ 32) (h2 : x * px < 2 ^ 31) (h3 : w * px < 2 ^ 31)
    (h4 : h < 2 ^ 64) (h5 : d < 2 ^ 64) (i j k : Nat)
    (hi : i < d) (hj : j < h) (hk : k < w * px) :
    Dx11.texture_read_3d { RowPitch := R, DepthPitch := D } px
        { x := x, y := y, z := z, width := w, height := h, depth := d } image bytes
        (((i * h + j) * (w * px) + k : Nat) : Int)
      = image ((D * (z + i) + R * y + x * px + k : Nat) : Int) := by
  have ed : Dx11.to_size_t (d : Int) = d := by
    unfold Dx11.to_size_t; omega
  have eh : Dx11.to_size_t (h : Int) = h := by
    unfold Dx11.to_size_t; omega
  have ex : wrap_int ((x : Int) * (px : Int)) = ((x * px : Nat) : Int) := by
    unfold wrap_int; push_cast; push_cast at h2; omega
  have ew : wrap_int ((w : Int) * (px : Int)) = ((w * px : Nat) : Int) := by
    unfold wrap_int; push_cast; push_cast at h3; omega
  have hq : ∀ q : Nat, q < 2 ^ 31 → Dx11.to_size_t (q : Int) = q := by
    intro q hq; unfold Dx11.to_size_t; omega
  have el : Dx11.to_size_t (wrap_int ((w : Int) * (px : Int))) = w * px := by
    rw [ew]; exact hq _ h3
  have ep : ((Dx11.to_uint ((D : Int) * (z : Int) + (R : Int) * (y : Int)) : Nat) : Int)
      = ((D * z + R * y : Nat) : Int) := by
    unfold Dx11.to_uint; push_cast; push_cast at h1; omega
  have hn : ((Dx11.to_size_t (wrap_int ((w : Int) * (px : Int))) : Nat) : Int)
      = wrap_int ((w : Int) * (px : Int)) := by
    rw [el, ew]
  obtain ⟨_, _, _, e4⟩ := dx11_read_3d_outer image (wrap_int ((x : Int) * (px : Int)))
    (Dx11.to_size_t (wrap_int ((w : Int) * (px : Int)))) (wrap_int ((w : Int) * (px : Int)))
    (R : Int) (D : Int) (Dx11.to_size_t (h : Int)) hn (Dx11.to_size_t (d : Int))
    { memory := bytes,
      image_ptr := ((Dx11.to_uint ((D : Int) * (z : Int) + (R : Int) * (y : Int)) : Nat) : Int),
      bytes_ptr := 0 } _ rfl
  have e := e4 i j k (by rw [ed]; exact hi) (by rw [eh]; exact hj) (by rw [el]; exact hk)
  have a1 : (((i * h + j) * (w * px) + k : Nat) : Int)
      = (0 : Int) + ((i : Int) * ((Dx11.to_size_t (h : Int) : Nat) : Int) + (j : Int))
          * wrap_int ((w : Int) * (px : Int)) + (k : Int) := by
    rw [eh, ew]; push_cast; ring
  have a2 : ((D * (z + i) + R * y + x * px + k : Nat) : Int)
      = ((Dx11.to_uint ((D : Int) * (z : Int) + (R : Int) * (y : Int)) : Nat) : Int)
        + (i : Int) * (D : Int) + wrap_int ((x : Int) * (px : Int)) + (k : Int) := by
    rw [ep, ex]; push_cast; ring
  rw [a1, a2]
  unfold Dx11.texture_read_3d
  simp only []
  exact e

set_option maxRecDepth 100000 in
/-- C29 (code defect). The 3D read loop does not undo the 3D write loop. Over an image with
row pitch 2 and depth pitch 4 and one byte per texel, the region of width 2, height 2 and
depth 2 at the origin: the write loop stores the eight bytes 1..8 of the caller as the rows
(1,2), (3,4) of slice 0 and (5,6), (7,8) of slice 1, and the read loop over the same region
returns 1,2,1,2,5,6,5,6: row 0 of each slice twice. In general, for a region whose
coordinates and sizes are not negative and whose offsets do not overflow, row `(i, j)` of
what the read loop returns is the row `y` of slice `z + i` of the image, for every `j`. -/
theorem c29_read_3d_repeats_the_first_row :
    Dx11.bytes_upto
        (Dx11.texture_write_3d { RowPitch := 2, DepthPitch := 4 } 1
          { width := 2, height := 2, depth := 2 }
          (Dx11.bytes_of []) (Dx11.bytes_of [1, 2, 3, 4, 5, 6, 7, 8])) 8
      = [1, 2, 3, 4, 5, 6, 7, 8] ∧
    Dx11.bytes_upto
        (Dx11.texture_read_3d { RowPitch := 2, DepthPitch := 4 } 1
          { width := 2, height := 2, depth := 2 }
          (Dx11.texture_write_3d { RowPitch := 2, DepthPitch := 4 } 1
            { width := 2, height := 2, depth := 2 }
            (Dx11.bytes_of []) (Dx11.bytes_of [1, 2, 3, 4, 5, 6, 7, 8]))
          (Dx11.bytes_of [])) 8
      = [1, 2, 1, 2, 5, 6, 5, 6] ∧
    (∀ (R D px x y z w h d : Nat) (image bytes : Int → Nat),
      D * z + R * y < 2 ^ 32 → x * px < 2 ^ 31 → w * px < 2 ^ 31 →
      h < 2 ^ 64 → d < 2 ^ 64 →
      ∀ i j k : Nat, i < d → j < h → k < w * px →
        Dx11.texture_read_3d { RowPitch := R, DepthPitch := D } px
            { x := x, y := y, z := z, width := w, height := h, depth := d } image bytes
            (((i * h + j) * (w * px) + k : Nat) : Int)
          = image ((D * (z + i) + R * y + x * px + k : Nat) : Int)) := by
  refine ⟨by decide, by decide, ?_⟩
  intro R D px x y z w h d image bytes h1 h2 h3 h4 h5 i j k hi hj hk
  exact dx11_texture_read_3d_rows R D px x y z w h d image bytes h1 h2 h3 h4 h5 i j k hi hj hk

/-! ### The sampler cache on the contexts the API produces -/

/-- When no stored description equals the request, the scan finds no entry. -/
theorem dx11_sampler_scan_no_match (handles : Nat → Dx11.Renoir_Handle)
    (desc : Renoir_Sampler_Desc) (count : Nat)
    (hz : ∀ h, (handles h).sampler.desc = {}) (hd : desc.op_eq {} = false) :
    ∀ (l : List Ptr) (i first_empty_ix : Nat),
      (Dx11.sampler_scan handles desc count l i first_empty_ix).1 = count := by
  intro l
  induction l with
  | nil => intro i fe; rfl
  | cons p rest ih =>
    intro i fe
    cases p with
    | none => exact ih _ _
    | some h =>
      simp only [Dx11.sampler_scan, hz h, hd, Bool.false_eq_true, if_false]
      exact ih _ _

/-- On empty slots the scan finds no entry. -/
theorem dx11_sampler_scan_empty (handles : Nat → Dx11.Renoir_Handle)
    (desc : Renoir_Sampler_Desc) (count : Nat) :
    ∀ (l : List Ptr) (i first_empty_ix : Nat), (∀ p ∈ l, p = none) →
      (Dx11.sampler_scan handles desc count l i first_empty_ix).1 = count := by
  intro l
  induction l with
  | nil => intro i fe _; rfl
  | cons p rest ih =>
    intro i fe hl
    have hp := hl p (List.mem_cons_self _ _)
    subst hp
    exact ih _ _ (fun q hq => hl q (List.mem_cons_of_mem _ hq))

/-- When the occupied slots are the first ones, an empty slot 0 means an empty cache. -/
theorem prefix_all_none (l : List Ptr) (rest : List Ptr) (hl : l = none :: rest)
    (hp : ∀ i j, i ≤ j → l.getD j none ≠ none → l.getD i none ≠ none) :
    ∀ p ∈ l, p = none := by
  intro p hp'
  obtain ⟨j, hj, rfl⟩ := List.getElem_of_mem hp'
  by_contra hne
  have h0 := hp 0 j (Nat.zero_le _) (by
    rw [List.getD_eq_getElem?_getD, List.getElem?_eq_getElem hj]
    exact hne)
  rw [hl] at h0
  exact h0 rfl

/-- On a context the API produces the scan stops at slot 0 or finds nothing: every stored
description is the all-zero one, so the first occupied slot decides, and that is slot 0. -/
theorem dx11_sampler_scan_reachable (self : Dx11.IRenoir) (desc : Renoir_Sampler_Desc)
    (hr : Dx11.cache_reachable self) :
    (Dx11.sampler_scan self.handles desc self.sampler_cache.length self.sampler_cache 0
        self.sampler_cache.length).1 = 0 ∨
    (Dx11.sampler_scan self.handles desc self.sampler_cache.length self.sampler_cache 0
        self.sampler_cache.length).1 = self.sampler_cache.length := by
  obtain ⟨hz, hp⟩ := hr
  cases hl : self.sampler_cache with
  | nil => right; rfl
  | cons p rest =>
    cases p with
    | none =>
      right
      rw [← hl]
      exact dx11_sampler_scan_empty _ _ _ _ _ _ (prefix_all_none _ rest hl hp)
    | some h =>
      by_cases hd : desc.op_eq {} = true
      · left
        simp only [Dx11.sampler_scan, hz h, hd, if_true]
      · right
        rw [← hl]
        exact dx11_sampler_scan_no_match _ _ _ hz (by simpa using hd) _ _ _

/-- What the scan leaves in `first_empty_ix` when it started with `first_empty_ix = count`
at slot `i` of a cache of `count = i + l.length` slots: `count` when no slot of `l` is
empty, else the index of the first empty slot. -/
theorem dx11_sampler_scan_first_empty (handles : Nat → Dx11.Renoir_Handle)
    (desc : Renoir_Sampler_Desc) (count : Nat) :
    ∀ (l : List Ptr) (i : Nat), i + l.length = count →
      (Dx11.sampler_scan handles desc count l i count).1 = count →
      ((Dx11.sampler_scan handles desc count l i count).2 = count ∧ ∀ p ∈ l, p ≠ none) ∨
      (∃ k, (Dx11.sampler_scan handles desc count l i count).2 = i + k ∧ k < l.length ∧
        l.getD k none = none ∧ ∀ j, j < k → l.getD j none ≠ none) := by
  intro l
  induction l with
  | nil => intro i _ _; left; exact ⟨rfl, fun p hp => absurd hp (List.not_mem_nil _)⟩
  | cons p rest ih =>
    intro i hi hs
    simp only [List.length_cons] at hi
    cases p with
    | none =>
      right
      refine ⟨0, ?_, by simp, rfl, fun j hj => absurd hj (Nat.not_lt_zero _)⟩
      simp only [Dx11.sampler_scan, if_true, Nat.add_zero]
      -- once an empty slot is recorded, later slots do not change it
      have keep : ∀ (l : List Ptr) (a fe : Nat), fe ≠ count →
          (Dx11.sampler_scan handles desc count l a fe).2 = fe := by
        intro l
        induction l with
        | nil => intro a fe _; rfl
        | cons q rest ih2 =>
          intro a fe hfe
          cases q with
          | none =>
            simp only [Dx11.sampler_scan, hfe, if_false]
            exact ih2 _ _ hfe
          | some h =>
            simp only [Dx11.sampler_scan]
            split
            · rfl
            · exact ih2 _ _ hfe
      exact keep rest (i + 1) i (by omega)
    | some h =>
      by_cases hm : desc.op_eq (handles h).sampler.desc = true
      · simp only [Dx11.sampler_scan, hm, if_true] at hs
        omega
      · simp only [Dx11.sampler_scan, hm, Bool.false_eq_true, if_false] at hs ⊢
        rcases ih (i + 1) (by omega) hs with ⟨h1, h2⟩ | ⟨k, h1, h2, h3, h4⟩
        · left
          refine ⟨h1, fun p hp => ?_⟩
          rcases List.mem_cons.1 hp with rfl | hp
          · simp
          · exact h2 p hp
        · right
          refine ⟨k + 1, by rw [h1]; omega, by simp; omega, by simpa using h3, fun j hj => ?_⟩
          cases j with
          | zero => simp
          | succ j => simpa using h4 j (by omega)

/-- Processing a `SAMPLER_NEW` or `SAMPLER_FREE` record writes no sampler description and
leaves the cache alone, in either mode. -/
theorem dx11_process_sampler_keeps (fuel : Nat) (self s : Dx11.IRenoir) (c : Nat)
    (hk : (self.commands c).kind = .RENOIR_COMMAND_KIND_SAMPLER_NEW ∨
      (self.commands c).kind = .RENOIR_COMMAND_KIND_SAMPLER_FREE)
    (hz : ∀ h, (self.handles h).sampler.desc = {})
    (he : Dx11._renoir_dx11_command_process fuel self c = some s) :
    (∀ h, (s.handles h).sampler.desc = {}) ∧ s.sampler_cache = self.sampler_cache := by
  unfold Dx11._renoir_dx11_command_process at he
  simp only [] at he
  by_cases hd : self.settings.defer_api_calls = true
  · have hd1 : (Dx11.emit self (Dx11.Event.command_process c
        (self.commands c))).settings.defer_api_calls = true := hd
    rw [if_pos hd1] at he
    simp only [Option.some.injEq] at he
    subst he
    exact ⟨hz, rfl⟩
  · have hd1 : ¬ (Dx11.emit self (Dx11.Event.command_process c
        (self.commands c))).settings.defer_api_calls = true := hd
    rw [if_neg hd1] at he
    cases hx : Dx11._renoir_dx11_command_execute fuel
        (Dx11.emit self (Dx11.Event.command_process c (self.commands c))) c with
    | none => rw [hx] at he; exact absurd he (by simp)
    | some s1 =>
      rw [hx] at he
      simp only [Option.some.injEq] at he
      subst he
      have hfree : (Dx11._renoir_dx11_command_free s1 c).handles = s1.handles ∧
          (Dx11._renoir_dx11_command_free s1 c).sampler_cache = s1.sampler_cache := by
        obtain ⟨_, _, _, _, _, f6, _, f8, _⟩ := dx11_command_free_frame s1 c
        exact ⟨f8, f6⟩
      rw [hfree.1, hfree.2]
      unfold Dx11._renoir_dx11_command_execute at hx
      simp only [Dx11.emit] at hx
      rcases hk with hk | hk
      · simp only [hk, Option.map_eq_some'] at hx
        obtain ⟨h, _, rfl⟩ := hx
        refine ⟨fun x => ?_, rfl⟩
        simp only [Dx11.execute_sampler_new, Dx11.set_handle, write_apply]
        split
        · rename_i hx; subst hx; exact hz _
        · exact hz x
      · simp only [hk, Option.map_eq_some'] at hx
        obtain ⟨h, _, rfl⟩ := hx
        refine ⟨fun x => ?_, ?_⟩
        · simp only [Dx11.execute_sampler_free, Dx11._renoir_dx11_handle_unref]
          split
          · simp only [write_apply]
            split
            · rename_i hx; subst hx; exact hz _
            · exact hz x
          · simp only [Dx11._renoir_dx11_handle_free, Dx11.release, Dx11.emit, write_apply]
            split
            · rename_i hx; subst hx; exact hz _
            · exact hz x
        · simp only [Dx11.execute_sampler_free, Dx11._renoir_dx11_handle_unref]
          split <;> rfl

/-- The call `_renoir_dx11_sampler_free` writes no sampler description and leaves the cache
alone. -/
theorem dx11_sampler_free_keeps (fuel : Nat) (self s : Dx11.IRenoir) (h : Ptr)
    (hz : ∀ x, (self.handles x).sampler.desc = {})
    (he : Dx11._renoir_dx11_sampler_free fuel self h = some s) :
    (∀ x, (s.handles x).sampler.desc = {}) ∧ s.sampler_cache = self.sampler_cache := by
  unfold Dx11._renoir_dx11_sampler_free at he
  simp only [] at he
  obtain ⟨a, b⟩ := dx11_process_sampler_keeps fuel _ s _
    (by exact Or.inr (by simp [Dx11.set_command, Dx11._renoir_dx11_command_new]))
    (by exact hz) he
  exact ⟨a, b⟩

/-- The call `_renoir_dx11_sampler_new` writes no sampler description, the record of the
new handle is cleared, and the cache is left alone. -/
theorem dx11_sampler_new_keeps (fuel : Nat) (self : Dx11.IRenoir) (desc : Renoir_Sampler_Desc)
    (r : Nat × Dx11.IRenoir)
    (hz : ∀ x, (self.handles x).sampler.desc = {})
    (he : Dx11._renoir_dx11_sampler_new fuel self desc = some r) :
    (∀ x, (r.2.handles x).sampler.desc = {}) ∧ r.2.sampler_cache = self.sampler_cache := by
  unfold Dx11._renoir_dx11_sampler_new at he
  simp only [Option.map_eq_some'] at he
  obtain ⟨s, hs, rfl⟩ := he
  have hz1 : ∀ x, ((Dx11.set_command
      (Dx11._renoir_dx11_command_new
        (Dx11._renoir_dx11_handle_new self .RENOIR_HANDLE_KIND_SAMPLER).2
        .RENOIR_COMMAND_KIND_SAMPLER_NEW).2
      (Dx11._renoir_dx11_command_new
        (Dx11._renoir_dx11_handle_new self .RENOIR_HANDLE_KIND_SAMPLER).2
        .RENOIR_COMMAND_KIND_SAMPLER_NEW).1
      { (Dx11._renoir_dx11_command_new
          (Dx11._renoir_dx11_handle_new self .RENOIR_HANDLE_KIND_SAMPLER).2
          .RENOIR_COMMAND_KIND_SAMPLER_NEW).2.commands
          (Dx11._renoir_dx11_command_new
            (Dx11._renoir_dx11_handle_new self .RENOIR_HANDLE_KIND_SAMPLER).2
            .RENOIR_COMMAND_KIND_SAMPLER_NEW).1 with
        handle := some (Dx11._renoir_dx11_handle_new self .RENOIR_HANDLE_KIND_SAMPLER).1,
        sampler_desc := desc }).handles x).sampler.desc = {} := by
    intro x
    simp only [Dx11.set_command, Dx11._renoir_dx11_command_new, Dx11._renoir_dx11_handle_new,
      write_apply]
    split
    · rfl
    · exact hz x
  obtain ⟨a, b⟩ := dx11_process_sampler_keeps fuel _ s _
    (by exact Or.inl (by simp [Dx11.set_command, Dx11._renoir_dx11_command_new]))
    (by exact hz1) hs
  exact ⟨a, b⟩

/-- The context `_renoir_dx11_init` returns is one the invariant `cache_reachable` holds
of: no handle exists and every slot of the cache is empty. -/
theorem dx11_init_reachable (fuel : Nat) (size : Nat) (settings : Renoir_Settings)
    (s : Dx11.IRenoir) (he : Dx11._renoir_dx11_init fuel size settings = some s) :
    Dx11.cache_reachable s := by
  unfold Dx11._renoir_dx11_init at he
  simp only [] at he
  unfold Dx11._renoir_dx11_command_process at he
  simp only [Dx11.emit, Dx11._renoir_dx11_command_new] at he
  by_cases hd : settings.defer_api_calls = true
  · simp only [hd, if_true, Option.some.injEq] at he
    subst he
    refine ⟨fun h => rfl, fun i j _ hj => ?_⟩
    exact absurd (by
      show (List.replicate size (none : Ptr)).getD j none = none
      rw [List.getD_eq_getElem?_getD, List.getElem?_replicate]
      split <;> rfl) hj
  · simp only [hd, Bool.false_eq_true, if_false, Dx11._renoir_dx11_command_execute,
      write_same, Dx11.emit] at he
    simp only [Option.some.injEq] at he
    subst he
    obtain ⟨_, _, _, _, _, f6, _, f8, _⟩ := dx11_command_free_frame
      ({ handle_pool := pool_new, command_pool := (pool_get pool_new).2, settings := settings,
         sampler_cache := List.replicate size none,
         commands := write (fun _ => {}) (pool_get pool_new).1
           { kind := .RENOIR_COMMAND_KIND_INIT },
         trace := [] ++ [Dx11.Event.command_process (pool_get pool_new).1
             { kind := .RENOIR_COMMAND_KIND_INIT }] ++
           [Dx11.Event.command_execute (pool_get pool_new).1
             { kind := .RENOIR_COMMAND_KIND_INIT }] } : Dx11.IRenoir) (pool_get pool_new).1
    refine ⟨fun h => ?_, fun i j _ hj => ?_⟩
    · rw [f8]
    · rw [f6] at hj
      exact absurd (by
        show (List.replicate size (none : Ptr)).getD j none = none
        rw [List.getD_eq_getElem?_getD, List.getElem?_replicate]
        split <;> rfl) hj

/-- Storing a handle in the first empty slot keeps the occupied slots the first ones. -/
theorem prefix_set_first_empty (l : List Ptr) (k : Nat) (x : Ptr) (hx : x ≠ none)
    (hp : ∀ i j, i ≤ j → l.getD j none ≠ none → l.getD i none ≠ none)
    (hk : l.getD k none = none) (hb : ∀ j, j < k → l.getD j none ≠ none) :
    ∀ i j, i ≤ j → (l.set k x).getD j none ≠ none → (l.set k x).getD i none ≠ none := by
  intro i j hij hj
  simp only [List.getD_eq_getElem?_getD, List.getElem?_set] at hj ⊢
  by_cases hik : k = i
  · subst hik
    by_cases hl : k < l.length
    · simp [hl, hx]
    · exfalso
      simp only [hl, if_false] at hj
      by_cases hkj : k = j
      · subst hkj; simp at hj
      · simp only [hkj, if_false] at hj
        have : l[j]? = none := List.getElem?_eq_none (by omega)
        rw [this] at hj
        exact hj rfl
  · simp only [hik, if_false]
    by_cases hlt : i < k
    · have := hb i hlt
      rwa [List.getD_eq_getElem?_getD] at this
    · exfalso
      have hkj : ¬ k = j := by omega
      simp only [hkj, if_false] at hj
      have := hp k j (by omega) (by rwa [List.getD_eq_getElem?_getD])
      exact this hk

/-- Slots that are all occupied are a prefix. -/
theorem prefix_of_full (l : List Ptr) (hf : ∀ p ∈ l, p ≠ none) :
    ∀ i j, i ≤ j → l.getD j none ≠ none → l.getD i none ≠ none := by
  intro i j hij hj
  have hjl : j < l.length := by
    by_contra hn
    rw [List.getD_eq_getElem?_getD, List.getElem?_eq_none (by omega)] at hj
    exact hj rfl
  have hil : i < l.length := by omega
  rw [List.getD_eq_getElem?_getD, List.getElem?_eq_getElem hil]
  exact hf _ (List.getElem_mem _)

/-- The invariant `cache_reachable` is kept by `_renoir_dx11_sampler_get`, whichever path
it takes and in either mode. -/
theorem dx11_sampler_get_reachable (fuel : Nat) (self : Dx11.IRenoir)
    (desc : Renoir_Sampler_Desc) (r : Ptr × Dx11.IRenoir)
    (hr : Dx11.cache_reachable self)
    (he : Dx11._renoir_dx11_sampler_get fuel self desc = some r) :
    Dx11.cache_reachable r.2 := by
  have hscan := dx11_sampler_scan_reachable self desc hr
  obtain ⟨hz, hp⟩ := hr
  unfold Dx11._renoir_dx11_sampler_get at he
  simp only [] at he
  by_cases hlt : (Dx11.sampler_scan self.handles desc self.sampler_cache.length
      self.sampler_cache 0 self.sampler_cache.length).1 < self.sampler_cache.length
  · -- a hit, at slot 0: the cache is unchanged
    have h0 : (Dx11.sampler_scan self.handles desc self.sampler_cache.length
        self.sampler_cache 0 self.sampler_cache.length).1 = 0 := by
      rcases hscan with h | h
      · exact h
      · omega
    rw [if_pos hlt, h0] at he
    simp only [Option.some.injEq] at he
    subst he
    have hsame : (Dx11.sampler_shift 0 self.sampler_cache).set 0
        (self.sampler_cache.getD 0 none) = self.sampler_cache := by
      have : Dx11.sampler_shift 0 self.sampler_cache = self.sampler_cache := by
        simp [Dx11.sampler_shift]
      rw [this]
      cases hc : self.sampler_cache with
      | nil => rfl
      | cons a rest => rfl
    refine ⟨hz, ?_⟩
    show ∀ i j, i ≤ j →
      ((Dx11.sampler_shift 0 self.sampler_cache).set 0
        (self.sampler_cache.getD 0 none)).getD j none ≠ none →
      ((Dx11.sampler_shift 0 self.sampler_cache).set 0
        (self.sampler_cache.getD 0 none)).getD i none ≠ none
    rw [hsame]
    exact hp
  · have hs : (Dx11.sampler_scan self.handles desc self.sampler_cache.length
        self.sampler_cache 0 self.sampler_cache.length).1 = self.sampler_cache.length := by
      rcases hscan with h | h
      · omega
      · exact h
    rw [if_neg hlt] at he
    rcases dx11_sampler_scan_first_empty self.handles desc self.sampler_cache.length
        self.sampler_cache 0 (by simp) hs with ⟨h1, h2⟩ | ⟨k, h1, h2, h3, h4⟩
    · -- no empty slot: the last entry is evicted
      rw [if_pos h1] at he
      cases hf : Dx11._renoir_dx11_sampler_free fuel
          { self with sampler_cache :=
              Dx11.sampler_shift self.sampler_cache.length self.sampler_cache }
          (self.sampler_cache.getD (self.sampler_cache.length - 1) none) with
      | none => rw [hf] at he; exact absurd he (by simp)
      | some s1 =>
        rw [hf] at he
        simp only [Option.map_some'] at he
        obtain ⟨z1, c1⟩ := dx11_sampler_free_keeps fuel _ s1 _ (by exact hz) hf
        cases hn : Dx11._renoir_dx11_sampler_new fuel s1 desc with
        | none => rw [hn] at he; exact absurd he (by simp)
        | some q =>
          rw [hn] at he
          simp only [Option.some.injEq] at he
          subst he
          obtain ⟨z2, c2⟩ := dx11_sampler_new_keeps fuel s1 desc q z1 hn
          refine ⟨z2, ?_⟩
          show ∀ i j, i ≤ j → (q.2.sampler_cache.set 0 (some q.1)).getD j none ≠ none →
            (q.2.sampler_cache.set 0 (some q.1)).getD i none ≠ none
          rw [c2, c1]
          show ∀ i j, i ≤ j →
            ((Dx11.sampler_shift self.sampler_cache.length self.sampler_cache).set 0
              (some q.1)).getD j none ≠ none →
            ((Dx11.sampler_shift self.sampler_cache.length self.sampler_cache).set 0
              (some q.1)).getD i none ≠ none
          by_cases hne : self.sampler_cache = []
          · rw [hne]
            intro i j _ hj
            exact absurd (by simp [Dx11.sampler_shift]) hj
          · rw [dx11_sampler_shift_evict self.sampler_cache _ hne]
            apply prefix_of_full
            intro p hp'
            rcases List.mem_cons.1 hp' with rfl | hp'
            · simp
            · exact h2 p (List.dropLast_subset _ hp')
    · -- the first empty slot receives the new sampler
      have hk : ¬ (Dx11.sampler_scan self.handles desc self.sampler_cache.length
          self.sampler_cache 0 self.sampler_cache.length).2 = self.sampler_cache.length := by
        rw [h1]; omega
      rw [if_neg hk] at he
      simp only [] at he
      cases hn : Dx11._renoir_dx11_sampler_new fuel self desc with
      | none => rw [hn] at he; exact absurd he (by simp)
      | some q =>
        rw [hn] at he
        simp only [Option.some.injEq] at he
        subst he
        obtain ⟨z2, c2⟩ := dx11_sampler_new_keeps fuel self desc q hz hn
        refine ⟨z2, ?_⟩
        show ∀ i j, i ≤ j → (q.2.sampler_cache.set _ (some q.1)).getD j none ≠ none →
          (q.2.sampler_cache.set _ (some q.1)).getD i none ≠ none
        rw [c2, h1, Nat.zero_add]
        exact prefix_set_first_empty _ k _ (by simp) hp h3 h4

set_option maxRecDepth 100000 in
/-- C1 (code defect).  Capacity 2, fresh context, the pairwise different descriptions A, B,
C with `filter` 1, 2, 3, requested in the order A, B, A, C; the cache is listed from slot 0
by the description each cached sampler was created from.  After the first call it holds
[A, empty], after the second [A, B].  The third call finds no entry for A (no handle
stores its description): it frees the sampler of B, the entry of the last slot, and
creates a sampler for A a second time, so the cache is [A, A]; it is neither [B, A] nor
[A, B].  The fourth call frees the first sampler of A and leaves [C, A].  Four
`SAMPLER_NEW` commands are issued for three descriptions, and B is evicted by the third
call, not by the fourth.  Immediate and deferred mode. -/
theorem c1_third_request_evicts_B :
    Dx11.contents_after 12 {} 2 [{ filter := 1 }] = some [some { filter := 1 }, none] ∧
    Dx11.contents_after 12 {} 2 [{ filter := 1 }, { filter := 2 }]
      = some [some { filter := 1 }, some { filter := 2 }] ∧
    Dx11.contents_after 12 {} 2 [{ filter := 1 }, { filter := 2 }, { filter := 1 }]
      = some [some { filter := 1 }, some { filter := 1 }] ∧
    Dx11.contents_after 12 {} 2
        [{ filter := 1 }, { filter := 2 }, { filter := 1 }, { filter := 3 }]
      = some [some { filter := 3 }, some { filter := 1 }] ∧
    (Dx11.after_requests 12 {} 2 [{ filter := 1 }, { filter := 2 }, { filter := 1 }]).map
        (fun s => Dx11.issued_labels s.trace)
      = some [(.RENOIR_COMMAND_KIND_INIT, none),
          (.RENOIR_COMMAND_KIND_SAMPLER_NEW, some 0),
          (.RENOIR_COMMAND_KIND_SAMPLER_NEW, some 1),
          (.RENOIR_COMMAND_KIND_SAMPLER_FREE, some 1),
          (.RENOIR_COMMAND_KIND_SAMPLER_NEW, some 1)] ∧
    (Dx11.after_requests 12 {} 2
        [{ filter := 1 }, { filter := 2 }, { filter := 1 }, { filter := 3 }]).map
        (fun s => Dx11.issued_labels s.trace)
      = some [(.RENOIR_COMMAND_KIND_INIT, none),
          (.RENOIR_COMMAND_KIND_SAMPLER_NEW, some 0),
          (.RENOIR_COMMAND_KIND_SAMPLER_NEW, some 1),
          (.RENOIR_COMMAND_KIND_SAMPLER_FREE, some 1),
          (.RENOIR_COMMAND_KIND_SAMPLER_NEW, some 1),
          (.RENOIR_COMMAND_KIND_SAMPLER_FREE, some 0),
          (.RENOIR_COMMAND_KIND_SAMPLER_NEW, some 0)] ∧
    Dx11.contents_after 12 { defer_api_calls := true } 2
        [{ filter := 1 }, { filter := 2 }, { filter := 1 }]
      = some [some { filter := 1 }, some { filter := 1 }] ∧
    Dx11.contents_after 12 { defer_api_calls := true } 2
        [{ filter := 1 }, { filter := 2 }, { filter := 1 }, { filter := 3 }]
      = some [some { filter := 3 }, some { filter := 1 }] ∧
    (Dx11.after_requests 12 { defer_api_calls := true } 2
        [{ filter := 1 }, { filter := 2 }, { filter := 1 }, { filter := 3 }]).map
        (fun s => Dx11.issued_labels s.trace)
      = some [(.RENOIR_COMMAND_KIND_INIT, none),
          (.RENOIR_COMMAND_KIND_SAMPLER_NEW, some 0),
          (.RENOIR_COMMAND_KIND_SAMPLER_NEW, some 1),
          (.RENOIR_COMMAND_KIND_SAMPLER_FREE, some 1),
          (.RENOIR_COMMAND_KIND_SAMPLER_NEW, some 2),
          (.RENOIR_COMMAND_KIND_SAMPLER_FREE, some 0),
          (.RENOIR_COMMAND_KIND_SAMPLER_NEW, some 3)] := by
  refine ⟨?_, ?_, ?_, ?_, ?_, ?_, ?_, ?_, ?_⟩ <;> decide

/-! ### The drained order -/

/-- Executing a record of any kind but `PASS_FREE` does not depend on the fuel. -/
theorem dx11_execute_fuel_any (f1 f2 : Nat) (s : Dx11.IRenoir) (c : Nat)
    (hk : (s.commands c).kind ≠ .RENOIR_COMMAND_KIND_PASS_FREE) :
    Dx11._renoir_dx11_command_execute f1 s c = Dx11._renoir_dx11_command_execute f2 s c := by
  unfold Dx11._renoir_dx11_command_execute
  cases hkind : (s.commands c).kind <;> rw [hkind] at hk <;>
    first
    | exact absurd rfl hk
    | simp only [hkind]

/-- One record of any kind but `PASS_FREE` executed and freed: the command records are
unchanged and the log of executed records gains the record. -/
theorem dx11_execute_free_log (fuel : Nat) (s s1 : Dx11.IRenoir) (c : Nat)
    (hk : (s.commands c).kind ≠ .RENOIR_COMMAND_KIND_PASS_FREE)
    (he : Dx11._renoir_dx11_command_execute fuel s c = some s1) :
    (Dx11._renoir_dx11_command_free s1 c).commands = s.commands ∧
    Dx11.executed (Dx11._renoir_dx11_command_free s1 c).trace
      = Dx11.executed s.trace ++ [(c, s.commands c)] := by
  obtain ⟨e1, _, _, _, e5⟩ := dx11_execute_same_commands fuel s s1 c hk he
  obtain ⟨f1, _, _, _, _, _, _, _, f9⟩ := dx11_command_free_frame s1 c
  exact ⟨f1.trans e1, f9.trans e5⟩

/-- The drain loop on a well-linked list without `PASS_FREE` records is the execution of
its records one after the other, in list order. -/
theorem dx11_drain_in_order_any :
    ∀ (l : List Nat) (fuel f : Nat) (s : Dx11.IRenoir) (p : Ptr),
      chain (fun a => (s.commands a).next) p l → l.length ≤ fuel →
      (∀ x ∈ l, (s.commands x).kind ≠ .RENOIR_COMMAND_KIND_PASS_FREE) →
      Dx11.drain fuel s p = Dx11.execute_in_order f s l := by
  intro l
  induction l with
  | nil =>
    intro fuel f s p hc _ _
    have hp : p = none := hc
    subst hp
    cases fuel <;> rfl
  | cons x l ih =>
    intro fuel f s p hc hl hk
    obtain ⟨hp, hc⟩ := hc
    subst hp
    cases fuel with
    | zero => exact absurd hl (by simp)
    | succ fuel =>
      have hx := hk x (List.mem_cons_self _ _)
      show (match Dx11._renoir_dx11_command_execute fuel s x with
        | none => none
        | some s1 => Dx11.drain fuel (Dx11._renoir_dx11_command_free s1 x)
            (((Dx11._renoir_dx11_command_free s1 x).commands x).next))
        = (match Dx11._renoir_dx11_command_execute f s x with
        | none => none
        | some s1 => Dx11.execute_in_order f (Dx11._renoir_dx11_command_free s1 x) l)
      rw [dx11_execute_fuel_any fuel f s x hx]
      cases he : Dx11._renoir_dx11_command_execute f s x with
      | none => rfl
      | some s1 =>
        obtain ⟨hcm, _⟩ := dx11_execute_free_log f s s1 x hx he
        show Dx11.drain fuel _ _ = Dx11.execute_in_order f _ l
        apply ih
        · rw [hcm]; exact hc
        · exact Nat.le_of_succ_le_succ hl
        · intro y hy; rw [hcm]; exact hk y (List.mem_cons_of_mem _ hy)

/-- The records `l` without a `PASS_FREE`, executed one after the other: the log of
executed records gains exactly the records of `l`, in the order of `l`. -/
theorem dx11_execute_in_order_log (f : Nat) :
    ∀ (l : List Nat) (s s' : Dx11.IRenoir),
      (∀ x ∈ l, (s.commands x).kind ≠ .RENOIR_COMMAND_KIND_PASS_FREE) →
      Dx11.execute_in_order f s l = some s' →
      s'.commands = s.commands ∧
      Dx11.executed s'.trace = Dx11.executed s.trace ++ l.map (fun x => (x, s.commands x)) := by
  intro l
  induction l with
  | nil =>
    intro s s' _ he
    simp only [Dx11.execute_in_order, Option.some.injEq] at he
    subst he
    exact ⟨rfl, by simp⟩
  | cons x l ih =>
    intro s s' hk he
    have hx := hk x (List.mem_cons_self _ _)
    simp only [Dx11.execute_in_order] at he
    cases h1 : Dx11._renoir_dx11_command_execute f s x with
    | none => rw [h1] at he; exact absurd he (by simp)
    | some s1 =>
      rw [h1] at he
      simp only [] at he
      obtain ⟨e1, e2⟩ := dx11_execute_free_log f s s1 x hx h1
      obtain ⟨i1, i2⟩ := ih _ s' (by
        intro y hy; rw [e1]; exact hk y (List.mem_cons_of_mem _ hy)) he
      refine ⟨i1.trans e1, ?_⟩
      rw [i2, e2, e1]
      simp

/-- The flush of a device-wide list `L` without `PASS_FREE` records: it is the execution
of the records of `L` in list order, and when it returns the log of executed records has
gained exactly the records of `L`, in that order. -/
theorem dx11_flush_in_order (s : Dx11.IRenoir) (L : List Nat)
    (hl : Dx11.list_records s.commands L.length s.command_list_head = some L)
    (hk : ∀ x ∈ L, (s.commands x).kind ≠ .RENOIR_COMMAND_KIND_PASS_FREE) :
    (∀ f, L.length ≤ f →
      Dx11._renoir_dx11_flush f s = (Dx11.execute_in_order f s L).map
        (fun s1 => { s1 with command_list_head := none, command_list_tail := none })) ∧
    (∀ f s', Dx11._renoir_dx11_flush f s = some s' →
      Dx11.executed s'.trace = Dx11.executed s.trace ++ L.map (fun x => (x, s.commands x))) := by
  have hch := ((dx11_list_records_iff _ _ _ _).mp hl).1
  have key : ∀ f, L.length ≤ f →
      Dx11._renoir_dx11_flush f s = (Dx11.execute_in_order f s L).map
        (fun s1 => { s1 with command_list_head := none, command_list_tail := none }) := by
    intro f hf
    unfold Dx11._renoir_dx11_flush
    rw [dx11_drain_in_order_any L f f s _ hch hf hk]
  refine ⟨key, fun f s' he => ?_⟩
  by_cases hf : L.length ≤ f
  · rw [key f hf] at he
    simp only [Option.map_eq_some'] at he
    obtain ⟨s1, h1, rfl⟩ := he
    exact (dx11_execute_in_order_log f L s s1 hk h1).2
  · -- with less fuel than records the drain does not return
    exfalso
    unfold Dx11._renoir_dx11_flush at he
    simp only [Option.map_eq_some'] at he
    obtain ⟨s1, h1, _⟩ := he
    have : ∀ (l : List Nat) (fuel : Nat) (s s1 : Dx11.IRenoir) (p : Ptr),
        chain (fun a => (s.commands a).next) p l → fuel < l.length →
        (∀ x ∈ l, (s.commands x).kind ≠ .RENOIR_COMMAND_KIND_PASS_FREE) →
        Dx11.drain fuel s p ≠ some s1 := by
      intro l
      induction l with
      | nil => intro fuel s s1 p _ hlt; exact absurd hlt (by simp)
      | cons x l ih =>
        intro fuel s s1 p hc hlt hk he
        obtain ⟨hp, hc⟩ := hc
        subst hp
        cases fuel with
        | zero => simp [Dx11.drain] at he
        | succ fuel =>
          have hx := hk x (List.mem_cons_self _ _)
          have he : (match Dx11._renoir_dx11_command_execute fuel s x with
            | none => none
            | some s1 => Dx11.drain fuel (Dx11._renoir_dx11_command_free s1 x)
                (((Dx11._renoir_dx11_command_free s1 x).commands x).next)) = some s1 := he
          cases hx1 : Dx11._renoir_dx11_command_execute fuel s x with
          | none => rw [hx1] at he; exact absurd he (by simp)
          | some s2 =>
            rw [hx1] at he
            obtain ⟨hcm, _⟩ := dx11_execute_free_log fuel s s2 x hx hx1
            refine ih fuel _ s1 _ ?_ (by simpa using hlt) ?_ he
            · rw [hcm]; exact hc
            · intro y hy; rw [hcm]; exact hk y (List.mem_cons_of_mem _ hy)
    exact this L f s s1 _ hch (by omega) hk h1

/-- Executing a record of any kind but `PASS_FREE` does not depend on the fuel. -/
theorem gl450_execute_fuel_any (f1 f2 : Nat) (s : Gl450.IRenoir) (c : Nat)
    (hk : (s.commands c).kind ≠ .RENOIR_COMMAND_KIND_PASS_FREE) :
    Gl450._renoir_gl450_command_execute f1 s c = Gl450._renoir_gl450_command_execute f2 s c := by
  unfold Gl450._renoir_gl450_command_execute
  cases hkind : (s.commands c).kind <;> rw [hkind] at hk <;>
    first
    | exact absurd rfl hk
    | simp only [hkind]

/-- One record of any kind but `PASS_FREE` executed and freed: the command records are
unchanged and the log of executed records gains the record. -/
theorem gl450_execute_free_log (fuel : Nat) (s s1 : Gl450.IRenoir) (c : Nat)
    (hk : (s.commands c).kind ≠ .RENOIR_COMMAND_KIND_PASS_FREE)
    (he : Gl450._renoir_gl450_command_execute fuel s c = some s1) :
    (Gl450._renoir_gl450_command_free s1 c).commands = s.commands ∧
    Gl450.executed (Gl450._renoir_gl450_command_free s1 c).trace
      = Gl450.executed s.trace ++ [(c, s.commands c)] := by
  obtain ⟨e1, _, _, _, e5⟩ := gl450_execute_same_commands fuel s s1 c hk he
  obtain ⟨f1, _, _, _, _, _, _, f9⟩ := gl450_command_free_frame s1 c
  exact ⟨f1.trans e1, f9.trans e5⟩

/-- The drain loop on a well-linked list without `PASS_FREE` records is the execution of
its records one after the other, in list order. -/
theorem gl450_drain_in_order_any :
    ∀ (l : List Nat) (fuel f : Nat) (s : Gl450.IRenoir) (p : Ptr),
      chain (fun a => (s.commands a).next) p l → l.length ≤ fuel →
      (∀ x ∈ l, (s.commands x).kind ≠ .RENOIR_COMMAND_KIND_PASS_FREE) →
      Gl450.drain fuel s p = Gl450.execute_in_order f s l := by
  intro l
  induction l with
  | nil =>
    intro fuel f s p hc _ _
    have hp : p = none := hc
    subst hp
    cases fuel <;> rfl
  | cons x l ih =>
    intro fuel f s p hc hl hk
    obtain ⟨hp, hc⟩ := hc
    subst hp
    cases fuel with
    | zero => exact absurd hl (by simp)
    | succ fuel =>
      have hx := hk x (List.mem_cons_self _ _)
      show (match Gl450._renoir_gl450_command_execute fuel s x with
        | none => none
        | some s1 => Gl450.drain fuel (Gl450._renoir_gl450_command_free s1 x)
            (((Gl450._renoir_gl450_command_free s1 x).commands x).next))
        = (match Gl450._renoir_gl450_command_execute f s x with
        | none => none
        | some s1 => Gl450.execute_in_order f (Gl450._renoir_gl450_command_free s1 x) l)
      rw [gl450_execute_fuel_any fuel f s x hx]
      cases he : Gl450._renoir_gl450_command_execute f s x with
      | none => rfl
      | some s1 =>
        obtain ⟨hcm, _⟩ := gl450_execute_free_log f s s1 x hx he
        show Gl450.drain fuel _ _ = Gl450.execute_in_order f _ l
        apply ih
        · rw [hcm]; exact hc
        · exact Nat.le_of_succ_le_succ hl
        · intro y hy; rw [hcm]; exact hk y (List.mem_cons_of_mem _ hy)

/-- The records `l` without a `PASS_FREE`, executed one after the other: the log of
executed records gains exactly the records of `l`, in the order of `l`. -/
theorem gl450_execute_in_order_log (f : Nat) :
    ∀ (l : List Nat) (s s' : Gl450.IRenoir),
      (∀ x ∈ l, (s.commands x).kind ≠ .RENOIR_COMMAND_KIND_PASS_FREE) →
      Gl450.execute_in_order f s l = some s' →
      s'.commands = s.commands ∧
      Gl450.executed s'.trace = Gl450.executed s.trace ++ l.map (fun x => (x, s.commands x)) := by
  intro l
  induction l with
  | nil =>
    intro s s' _ he
    simp only [Gl450.execute_in_order, Option.some.injEq] at he
    subst he
    exact ⟨rfl, by simp⟩
  | cons x l ih =>
    intro s s' hk he
    have hx := hk x (List.mem_cons_self _ _)
    simp only [Gl450.execute_in_order] at he
    cases h1 : Gl450._renoir_gl450_command_execute f s x with
    | none => rw [h1] at he; exact absurd he (by simp)
    | some s1 =>
      rw [h1] at he
      simp only [] at he
      obtain ⟨e1, e2⟩ := gl450_execute_free_log f s s1 x hx h1
      obtain ⟨i1, i2⟩ := ih _ s' (by
        intro y hy; rw [e1]; exact hk y (List.mem_cons_of_mem _ hy)) he
      refine ⟨i1.trans e1, ?_⟩
      rw [i2, e2, e1]
      simp

/-- The drain of `swapchain_present` on a device-wide list `L` without `PASS_FREE`
records: it is the execution of the records of `L` in list order, and when it returns the
log of executed records has gained exactly the records of `L`, in that order. -/
theorem gl450_present_in_order (s : Gl450.IRenoir) (L : List Nat) (h : Nat)
    (hl : Gl450.list_records s.commands L.length s.command_list_head = some L)
    (hk : ∀ x ∈ L, (s.commands x).kind ≠ .RENOIR_COMMAND_KIND_PASS_FREE) :
    (∀ f, L.length ≤ f →
      Gl450._renoir_gl450_swapchain_present f s h = (Gl450.execute_in_order f s L).map
        (fun s1 => Gl450.emit s1 (Gl450.Event.present h))) ∧
    (∀ f s', Gl450._renoir_gl450_swapchain_present f s h = some s' →
      Gl450.executed s'.trace = Gl450.executed s.trace ++ L.map (fun x => (x, s.commands x))) := by
  have hch := ((gl450_list_records_iff _ _ _ _).mp hl).1
  have hpres : ∀ s1 : Gl450.IRenoir,
      Gl450.executed (Gl450.emit s1 (Gl450.Event.present h)).trace = Gl450.executed s1.trace := by
    intro s1
    simp [Gl450.emit, Gl450.executed, List.filterMap_append]
  have key : ∀ f, L.length ≤ f →
      Gl450._renoir_gl450_swapchain_present f s h = (Gl450.execute_in_order f s L).map
        (fun s1 => Gl450.emit s1 (Gl450.Event.present h)) := by
    intro f hf
    unfold Gl450._renoir_gl450_swapchain_present
    rw [gl450_drain_in_order_any L f f s _ hch hf hk]
  refine ⟨key, fun f s' he => ?_⟩
  by_cases hf : L.length ≤ f
  · rw [key f hf] at he
    simp only [Option.map_eq_some'] at he
    obtain ⟨s1, h1, rfl⟩ := he
    rw [hpres]
    exact (gl450_execute_in_order_log f L s s1 hk h1).2
  · exfalso
    unfold Gl450._renoir_gl450_swapchain_present at he
    simp only [Option.map_eq_some'] at he
    obtain ⟨s1, h1, _⟩ := he
    have : ∀ (l : List Nat) (fuel : Nat) (s s1 : Gl450.IRenoir) (p : Ptr),
        chain (fun a => (s.commands a).next) p l → fuel < l.length →
        (∀ x ∈ l, (s.commands x).kind ≠ .RENOIR_COMMAND_KIND_PASS_FREE) →
        Gl450.drain fuel s p ≠ some s1 := by
      intro l
      induction l with
      | nil => intro fuel s s1 p _ hlt; exact absurd hlt (by simp)
      | cons x l ih =>
        intro fuel s s1 p hc hlt hk he
        obtain ⟨hp, hc⟩ := hc
        subst hp
        cases fuel with
        | zero => simp [Gl450.drain] at he
        | succ fuel =>
          have hx := hk x (List.mem_cons_self _ _)
          have he : (match Gl450._renoir_gl450_command_execute fuel s x with
            | none => none
            | some s1 => Gl450.drain fuel (Gl450._renoir_gl450_command_free s1 x)
                (((Gl450._renoir_gl450_command_free s1 x).commands x).next)) = some s1 := he
          cases hx1 : Gl450._renoir_gl450_command_execute fuel s x with
          | none => rw [hx1] at he; exact absurd he (by simp)
          | some s2 =>
            rw [hx1] at he
            obtain ⟨hcm, _⟩ := gl450_execute_free_log fuel s s2 x hx hx1
            refine ih fuel _ s1 _ ?_ (by simpa using hlt) ?_ he
            · rw [hcm]; exact hc
            · intro y hy; rw [hcm]; exact hk y (List.mem_cons_of_mem _ hy)
    exact this L f s s1 _ hch (by omega) hk h1

/-! ### Pass isolation in the drained order -/

/-- C20: in both backends, for any sequence of calls of the pass interface on the passes
`hs` (any interleaving), if the calls on the pass `p` are one cycle `pass_begin`, recording
calls, `pass_end`, then the records of that cycle form one contiguous block, in recording
order from `PASS_BEGIN` to `PASS_END`, of the drained order.  In immediate mode the drain
is that of `pass_end`, and the block is part of the log of executed records after the
calls.  In deferred mode the block `B` is part of the device-wide list `A ++ B ++ C` after
the calls, whether or not other passes end before the list is drained; when that list
holds no `PASS_FREE` record, the drain (`flush` on D3D11, `swapchain_present` on GL) is
the execution of the records of the list in list order for every fuel that covers it, and
when it returns the log of executed records has gained the records of `A`, then the block
of `p`, then the records of `C`.  The statement holds for every pass of `hs`, so for two
distinct passes `p` and `q` alike. -/
theorem c20_pass_isolation
    (fuel : Nat)
    (s : Dx11.IRenoir)
    (D hs : List Nat)
    (priv : Nat → List Nat)
    (hinv : Dx11.Inv s ⟨Dx11.links s, D, priv⟩ hs)
    (script : List (Nat × Dx11.Pass_Call))
    (hscript : ∀ c ∈ script, c.1 ∈ hs)
    (p : Nat)
    (hp : p ∈ hs)
    (calls : List Dx11.Pass_Call)
    (hrec : ∀ c ∈ calls, c.recording = true)
    (hcycle : (script.filter (fun c => c.1 = p)).map Prod.snd = .pass_begin :: (calls ++ [.pass_end]))
    (s' : Dx11.IRenoir)
    (he : Dx11.pass_calls fuel s script = some s')
    (gfuel : Nat)
    (gs : Gl450.IRenoir)
    (gD ghs : List Nat)
    (gpriv : Nat → List Nat)
    (ghinv : Gl450.Inv gs ⟨Gl450.links gs, gD, gpriv⟩ ghs)
    (gscript : List (Nat × Gl450.Pass_Call))
    (ghscript : ∀ c ∈ gscript, c.1 ∈ ghs)
    (gp : Nat)
    (ghp : gp ∈ ghs)
    (gcalls : List Gl450.Pass_Call)
    (ghrec : ∀ c ∈ gcalls, c.recording = true)
    (ghcycle : (gscript.filter (fun c => c.1 = gp)).map Prod.snd = .pass_begin :: (gcalls ++ [.pass_end]))
    (gs' : Gl450.IRenoir)
    (ghe : Gl450.pass_calls gfuel gs gscript = some gs') :
    ((s.settings.defer_api_calls = true →
      ∃ A B C, Dx11.list_records s'.commands (A ++ B ++ C).length s'.command_list_head
          = some (A ++ B ++ C) ∧
        B.map (fun x => ((s'.commands x).kind, (s'.commands x).handle))
          = (.RENOIR_COMMAND_KIND_PASS_BEGIN, some p) ::
              (calls.filterMap Dx11.Pass_Call.label ++
                [(.RENOIR_COMMAND_KIND_PASS_END, some p)]) ∧
        ((∀ x ∈ A ++ B ++ C, (s'.commands x).kind ≠ .RENOIR_COMMAND_KIND_PASS_FREE) →
          (∀ f, (A ++ B ++ C).length ≤ f →
            Dx11._renoir_dx11_flush f s' = (Dx11.execute_in_order f s' (A ++ B ++ C)).map
              (fun s1 => { s1 with command_list_head := none, command_list_tail := none })) ∧
          (∀ f s'', Dx11._renoir_dx11_flush f s' = some s'' →
            (Dx11.executed s''.trace).map (fun r => (r.2.kind, r.2.handle))
              = (Dx11.executed s'.trace).map (fun r => (r.2.kind, r.2.handle)) ++
                (A.map (fun x => ((s'.commands x).kind, (s'.commands x).handle)) ++
                  ((.RENOIR_COMMAND_KIND_PASS_BEGIN, some p) ::
                    (calls.filterMap Dx11.Pass_Call.label ++
                      [(.RENOIR_COMMAND_KIND_PASS_END, some p)])) ++
                  C.map (fun x => ((s'.commands x).kind, (s'.commands x).handle)))))) ∧
    (s.settings.defer_api_calls = false →
      ∃ A B C, (Dx11.executed s'.trace).map (fun r => (r.2.kind, r.2.handle)) = A ++ B ++ C ∧
        B = (.RENOIR_COMMAND_KIND_PASS_BEGIN, some p) ::
              (calls.filterMap Dx11.Pass_Call.label ++
                [(.RENOIR_COMMAND_KIND_PASS_END, some p)]))) ∧
    ((gs.settings.defer_api_calls = true →
      ∃ A B C, Gl450.list_records gs'.commands (A ++ B ++ C).length gs'.command_list_head
          = some (A ++ B ++ C) ∧
        B.map (fun x => ((gs'.commands x).kind, (gs'.commands x).handle))
          = (.RENOIR_COMMAND_KIND_PASS_BEGIN, some gp) ::
              (gcalls.filterMap Gl450.Pass_Call.label ++
                [(.RENOIR_COMMAND_KIND_PASS_END, some gp)]) ∧
        ((∀ x ∈ A ++ B ++ C, (gs'.commands x).kind ≠ .RENOIR_COMMAND_KIND_PASS_FREE) →
          (∀ (f w : Nat), (A ++ B ++ C).length ≤ f →
            Gl450._renoir_gl450_swapchain_present f gs' w
              = (Gl450.execute_in_order f gs' (A ++ B ++ C)).map
                  (fun s1 => Gl450.emit s1 (Gl450.Event.present w))) ∧
          (∀ (f w : Nat) (gs'' : Gl450.IRenoir),
            Gl450._renoir_gl450_swapchain_present f gs' w = some gs'' →
            (Gl450.executed gs''.trace).map (fun r => (r.2.kind, r.2.handle))
              = (Gl450.executed gs'.trace).map (fun r => (r.2.kind, r.2.handle)) ++
                (A.map (fun x => ((gs'.commands x).kind, (gs'.commands x).handle)) ++
                  ((.RENOIR_COMMAND_KIND_PASS_BEGIN, some gp) ::
                    (gcalls.filterMap Gl450.Pass_Call.label ++
                      [(.RENOIR_COMMAND_KIND_PASS_END, some gp)])) ++
                  C.map (fun x => ((gs'.commands x).kind, (gs'.commands x).handle)))))) ∧
    (gs.settings.defer_api_calls = false →
      ∃ A B C, (Gl450.executed gs'.trace).map (fun r => (r.2.kind, r.2.handle)) = A ++ B ++ C ∧
        B = (.RENOIR_COMMAND_KIND_PASS_BEGIN, some gp) ::
              (gcalls.filterMap Gl450.Pass_Call.label ++
                [(.RENOIR_COMMAND_KIND_PASS_END, some gp)]))) := by
  obtain ⟨d1, d2⟩ :=
    dx11_pass_isolation fuel s D hs priv hinv script hscript p hp calls hrec hcycle s' he
  obtain ⟨g1, g2⟩ :=
    gl450_pass_isolation gfuel gs gD ghs gpriv ghinv gscript ghscript gp ghp gcalls ghrec
      ghcycle gs' ghe
  refine ⟨⟨fun hd => ?_, d2⟩, ⟨fun hd => ?_, g2⟩⟩
  · obtain ⟨A, B, C, h1, h2⟩ := d1 hd
    refine ⟨A, B, C, h1, h2, fun hk => ?_⟩
    obtain ⟨k1, k2⟩ := dx11_flush_in_order s' (A ++ B ++ C) h1 hk
    refine ⟨k1, fun f s'' hf => ?_⟩
    rw [k2 f s'' hf, List.map_append, List.map_map, ← h2]
    simp only [List.map_append, List.map_map, List.append_assoc]
    rfl
  · obtain ⟨A, B, C, h1, h2⟩ := g1 hd
    refine ⟨A, B, C, h1, h2, fun hk => ?_⟩
    refine ⟨fun f w hf => (gl450_present_in_order gs' (A ++ B ++ C) w h1 hk).1 f hf,
      fun f w gs'' hf => ?_⟩
    rw [(gl450_present_in_order gs' (A ++ B ++ C) w h1 hk).2 f gs'' hf, List.map_append,
      List.map_map, ← h2]
    simp only [List.map_append, List.map_map, List.append_assoc]
    rfl

set_option maxRecDepth 100000 in
/-- Witness of C20: two passes, the calls of pass 0 and pass 1 interleaved and both
`pass_end` calls made before any drain, in the deferred contexts of both backends whose
device-wide list holds the record 0.  The list is then `[0, 2, 4, 5, 1, 3, 6]`; the drain
returns and executes the record 0, then `PASS_BEGIN`, `PASS_CLEAR`, `PASS_END` of pass 1,
then `PASS_BEGIN`, `PASS_CLEAR`, `PASS_END` of pass 0: the records of pass 0 are one block
of the drained order.  In immediate mode (GL context) they are one block of the log of
executed records. -/
theorem c20_pass_isolation_witness :
    (∃ s' s'', Dx11.pass_calls 5 (Dx11.two_pass_context true)
        [(0, .pass_begin), (1, .pass_begin), (0, .clear { clear_color := true }),
         (1, .clear {}), (1, .pass_end), (0, .pass_end)] = some s' ∧
      Dx11.list_records s'.commands 7 s'.command_list_head = some [0, 2, 4, 5, 1, 3, 6] ∧
      Dx11._renoir_dx11_flush 8 s' = some s'' ∧
      (Dx11.executed s''.trace).map (fun r => (r.2.kind, r.2.handle))
        = [(.RENOIR_COMMAND_KIND_INIT, none), (.RENOIR_COMMAND_KIND_PASS_BEGIN, some 1),
           (.RENOIR_COMMAND_KIND_PASS_CLEAR, none), (.RENOIR_COMMAND_KIND_PASS_END, some 1),
           (.RENOIR_COMMAND_KIND_PASS_BEGIN, some 0), (.RENOIR_COMMAND_KIND_PASS_CLEAR, none),
           (.RENOIR_COMMAND_KIND_PASS_END, some 0)] ∧
      ∃ A C, (Dx11.executed s''.trace).map (fun r => (r.2.kind, r.2.handle))
        = A ++ [(.RENOIR_COMMAND_KIND_PASS_BEGIN, some 0),
            (.RENOIR_COMMAND_KIND_PASS_CLEAR, none),
            (.RENOIR_COMMAND_KIND_PASS_END, some 0)] ++ C) ∧
    (∃ gs' gs'', Gl450.pass_calls 5 (Gl450.two_pass_context true)
        [(0, .pass_begin), (1, .pass_begin), (0, .clear { clear_color := true }),
         (1, .clear {}), (1, .pass_end), (0, .pass_end)] = some gs' ∧
      Gl450._renoir_gl450_swapchain_present 8 gs' 9 = some gs'' ∧
      ∃ A C, (Gl450.executed gs''.trace).map (fun r => (r.2.kind, r.2.handle))
        = A ++ [(.RENOIR_COMMAND_KIND_PASS_BEGIN, some 0),
            (.RENOIR_COMMAND_KIND_PASS_CLEAR, none),
            (.RENOIR_COMMAND_KIND_PASS_END, some 0)] ++ C) ∧
    (∃ s', Gl450.pass_calls 5 (Gl450.two_pass_context false)
        [(0, .pass_begin), (1, .pass_begin), (0, .clear { clear_color := true }),
         (1, .clear {}), (1, .pass_end), (0, .pass_end)] = some s' ∧
      ∃ A B C, (Gl450.executed s'.trace).map (fun r => (r.2.kind, r.2.handle)) = A ++ B ++ C ∧
        B = [(.RENOIR_COMMAND_KIND_PASS_BEGIN, some 0), (.RENOIR_COMMAND_KIND_PASS_CLEAR, none),
             (.RENOIR_COMMAND_KIND_PASS_END, some 0)]) := by
  have d1 : (Dx11.pass_calls 5 (Dx11.two_pass_context true)
      [(0, .pass_begin), (1, .pass_begin), (0, .clear { clear_color := true }),
       (1, .clear {}), (1, .pass_end), (0, .pass_end)]).isSome = true := by
    decide
  have d2 : (Gl450.pass_calls 5 (Gl450.two_pass_context true)
      [(0, .pass_begin), (1, .pass_begin), (0, .clear { clear_color := true }),
       (1, .clear {}), (1, .pass_end), (0, .pass_end)]).isSome = true := by
    decide
  have d3 : (Gl450.pass_calls 5 (Gl450.two_pass_context false)
      [(0, .pass_begin), (1, .pass_begin), (0, .clear { clear_color := true }),
       (1, .clear {}), (1, .pass_end), (0, .pass_end)]).isSome = true := by
    decide
  obtain ⟨s', e1⟩ := Option.isSome_iff_exists.1 d1
  obtain ⟨gs', e2⟩ := Option.isSome_iff_exists.1 d2
  obtain ⟨is', e3⟩ := Option.isSome_iff_exists.1 d3
  -- the device-wide lists after the calls, and their kinds
  have l11 : (Dx11.pass_calls 5 (Dx11.two_pass_context true)
      [(0, .pass_begin), (1, .pass_begin), (0, .clear { clear_color := true }),
       (1, .clear {}), (1, .pass_end), (0, .pass_end)]).map
      (fun s => Dx11.list_records s.commands 7 s.command_list_head) = some (some [0, 2, 4, 5, 1, 3, 6]) := by decide
  have l12 : (Dx11.pass_calls 5 (Dx11.two_pass_context true)
      [(0, .pass_begin), (1, .pass_begin), (0, .clear { clear_color := true }),
       (1, .clear {}), (1, .pass_end), (0, .pass_end)]).map
      (fun s => [0, 2, 4, 5, 1, 3, 6].all (fun x =>
        decide ((s.commands x).kind ≠ .RENOIR_COMMAND_KIND_PASS_FREE))) = some true := by decide
  have l13 : (Dx11.pass_calls 5 (Dx11.two_pass_context true)
      [(0, .pass_begin), (1, .pass_begin), (0, .clear { clear_color := true }),
       (1, .clear {}), (1, .pass_end), (0, .pass_end)]).map
      (fun s => (Dx11._renoir_dx11_flush 8 s).isSome) = some true := by decide
  have l14 : (Dx11.pass_calls 5 (Dx11.two_pass_context true)
      [(0, .pass_begin), (1, .pass_begin), (0, .clear { clear_color := true }),
       (1, .clear {}), (1, .pass_end), (0, .pass_end)]).map
      (fun s => (Dx11.executed s.trace).length) = some 0 := by decide
  have l21 : (Gl450.pass_calls 5 (Gl450.two_pass_context true)
      [(0, .pass_begin), (1, .pass_begin), (0, .clear { clear_color := true }),
       (1, .clear {}), (1, .pass_end), (0, .pass_end)]).map
      (fun s => Gl450.list_records s.commands 7 s.command_list_head) = some (some [0, 2, 4, 5, 1, 3, 6]) := by decide
  have l22 : (Gl450.pass_calls 5 (Gl450.two_pass_context true)
      [(0, .pass_begin), (1, .pass_begin), (0, .clear { clear_color := true }),
       (1, .clear {}), (1, .pass_end), (0, .pass_end)]).map
      (fun s => [0, 2, 4, 5, 1, 3, 6].all (fun x =>
        decide ((s.commands x).kind ≠ .RENOIR_COMMAND_KIND_PASS_FREE))) = some true := by decide
  have l23 : (Gl450.pass_calls 5 (Gl450.two_pass_context true)
      [(0, .pass_begin), (1, .pass_begin), (0, .clear { clear_color := true }),
       (1, .clear {}), (1, .pass_end), (0, .pass_end)]).map
      (fun s => (Gl450._renoir_gl450_swapchain_present 8 s 9).isSome) = some true := by decide
  rw [e1] at l11 l12 l13 l14
  rw [e2] at l21 l22 l23
  simp only [Option.map_some', Option.some.injEq] at l11 l12 l13 l14 l21 l22 l23
  have l14 : Dx11.executed s'.trace = [] := List.length_eq_zero.1 l14
  obtain ⟨s'', f1⟩ := Option.isSome_iff_exists.1 l13
  obtain ⟨gs'', f2⟩ := Option.isSome_iff_exists.1 l23
  have h := c20_pass_isolation 5 (Dx11.two_pass_context true) [0] [0, 1] (fun _ => [])
    (dx11_inv_two_pass_context true)
    [(0, .pass_begin), (1, .pass_begin), (0, .clear { clear_color := true }),
     (1, .clear {}), (1, .pass_end), (0, .pass_end)] (by decide) 0 (by decide)
    [.clear { clear_color := true }] (by intro c hc; simp at hc; subst hc; rfl) rfl s' e1
    5 (Gl450.two_pass_context true) [0] [0, 1] (fun _ => [])
    (gl450_inv_two_pass_context true)
    [(0, .pass_begin), (1, .pass_begin), (0, .clear { clear_color := true }),
     (1, .clear {}), (1, .pass_end), (0, .pass_end)] (by decide) 0 (by decide)
    [.clear { clear_color := true }] (by intro c hc; simp at hc; subst hc; rfl) rfl gs' e2
  have hi := c20_pass_isolation 5 (Dx11.two_pass_context true) [0] [0, 1] (fun _ => [])
    (dx11_inv_two_pass_context true)
    [(0, .pass_begin), (1, .pass_begin), (0, .clear { clear_color := true }),
     (1, .clear {}), (1, .pass_end), (0, .pass_end)] (by decide) 0 (by decide)
    [.clear { clear_color := true }] (by intro c hc; simp at hc; subst hc; rfl) rfl s' e1
    5 (Gl450.two_pass_context false) [] [0, 1] (fun _ => [])
    (gl450_inv_two_pass_context false)
    [(0, .pass_begin), (1, .pass_begin), (0, .clear { clear_color := true }),
     (1, .clear {}), (1, .pass_end), (0, .pass_end)] (by decide) 0 (by decide)
    [.clear { clear_color := true }] (by intro c hc; simp at hc; subst hc; rfl) rfl is' e3
  refine ⟨?_, ?_, ⟨is', e3, hi.2.2 rfl⟩⟩
  · obtain ⟨A, B, C, h1, h2, h3⟩ := h.1.1 rfl
    have hL : A ++ B ++ C = [0, 2, 4, 5, 1, 3, 6] :=
      chain_unique _ _ _ _ ((dx11_list_records_iff _ _ _ _).mp h1).1
        ((dx11_list_records_iff _ _ _ _).mp l11).1
    have hk : ∀ x ∈ A ++ B ++ C,
        (s'.commands x).kind ≠ .RENOIR_COMMAND_KIND_PASS_FREE := by
      rw [hL]
      intro x hx
      have := List.all_eq_true.1 l12 x hx
      simpa using this
    have hlog := (h3 hk).2 8 s'' f1
    rw [l14, List.map_nil, List.nil_append] at hlog
    refine ⟨s', s'', e1, l11, f1, ?_, _, _, hlog⟩
    have d : ((Dx11.pass_calls 5 (Dx11.two_pass_context true)
        [(0, .pass_begin), (1, .pass_begin), (0, .clear { clear_color := true }),
         (1, .clear {}), (1, .pass_end), (0, .pass_end)]).bind
        (fun s => Dx11._renoir_dx11_flush 8 s)).map
        (fun s => (Dx11.executed s.trace).map (fun r => (r.2.kind, r.2.handle)))
        = some [(.RENOIR_COMMAND_KIND_INIT, none), (.RENOIR_COMMAND_KIND_PASS_BEGIN, some 1),
           (.RENOIR_COMMAND_KIND_PASS_CLEAR, none), (.RENOIR_COMMAND_KIND_PASS_END, some 1),
           (.RENOIR_COMMAND_KIND_PASS_BEGIN, some 0), (.RENOIR_COMMAND_KIND_PASS_CLEAR, none),
           (.RENOIR_COMMAND_KIND_PASS_END, some 0)] := by decide
    rw [e1] at d
    simp only [Option.some_bind] at d
    rw [f1] at d
    simpa using d
  · obtain ⟨A, B, C, h1, h2, h3⟩ := h.2.1 rfl
    have hL : A ++ B ++ C = [0, 2, 4, 5, 1, 3, 6] :=
      chain_unique _ _ _ _ ((gl450_list_records_iff _ _ _ _).mp h1).1
        ((gl450_list_records_iff _ _ _ _).mp l21).1
    have hk : ∀ x ∈ A ++ B ++ C,
        (gs'.commands x).kind ≠ .RENOIR_COMMAND_KIND_PASS_FREE := by
      rw [hL]
      intro x hx
      have := List.all_eq_true.1 l22 x hx
      simpa using this
    have hlog := (h3 hk).2 8 9 gs'' f2
    refine ⟨gs', gs'', e2, f2,
      (Gl450.executed gs'.trace).map (fun r => (r.2.kind, r.2.handle)) ++
        A.map (fun x => ((gs'.commands x).kind, (gs'.commands x).handle)),
      C.map (fun x => ((gs'.commands x).kind, (gs'.commands x).handle)), ?_⟩
    rw [hlog]
    simp only [List.append_assoc]
    rfl

/-! ### The bytes a texture write reads -/

theorem foldr_append_congr {α : Type} (f g : Nat → List α) :
    ∀ l : List Nat, (∀ r ∈ l, f r = g r) →
      l.foldr (fun r acc => f r ++ acc) [] = l.foldr (fun r acc => g r ++ acc) [] := by
  intro l
  induction l with
  | nil => intro _; rfl
  | cons a l ih =>
    intro h
    simp only [List.foldr_cons]
    rw [h a (List.mem_cons_self _ _), ih (fun r hr => h r (List.mem_cons_of_mem _ hr))]

/-- A slice that lies within the first `e` bytes of a block is a slice of those bytes. -/
theorem slice_of_take (b : List Nat) (k row e : Nat) (h : k + row ≤ e) :
    (b.drop k).take row = ((b.take e).drop k).take row := by
  rw [List.drop_take, List.take_take]
  congr 1
  omega

/-- Rows read within the first `e` bytes of two blocks that agree on these bytes are the
same. -/
theorem gl450_read_rows_eq (b1 b2 : List Nat) (row stride rows e : Nat)
    (hagree : b1.take e = b2.take e)
    (he : (if rows = 0 then 0 else (rows - 1) * stride + row) ≤ e) :
    Gl450.read_rows b1 row stride rows = Gl450.read_rows b2 row stride rows := by
  unfold Gl450.read_rows
  apply foldr_append_congr
  intro r hr
  have hr' : r < rows := List.mem_range.1 hr
  have hne : ¬ rows = 0 := by omega
  rw [if_neg hne] at he
  have hle : r * stride + row ≤ e := by
    have : r * stride ≤ (rows - 1) * stride := Nat.mul_le_mul_right _ (by omega)
    omega
  rw [slice_of_take b1 _ _ e hle, slice_of_take b2 _ _ e hle, hagree]

/-- The record `texture_write` leaves on the private list of the pass, D3D11: the call
returns when bytes are given; the record holds the texture, the edited region and a block
of its own, which reads as the caller's block did at the time of the call. -/
theorem dx11_texture_write_returns (s : Dx11.IRenoir) (h : Nat) (texture : Ptr)
    (desc : Renoir_Texture_Edit_Desc) (a : Nat)
    (hb : desc.bytes = some a) (hz : desc.bytes_size ≠ 0) :
    ∃ s', Dx11._renoir_dx11_texture_write s h texture desc = some s' ∧
      (s'.commands (pool_get s.command_pool).1).kind = .RENOIR_COMMAND_KIND_TEXTURE_WRITE ∧
      (s'.commands (pool_get s.command_pool).1).handle = texture ∧
      (s'.commands (pool_get s.command_pool).1).bytes = ⟨some s.heap_fresh, desc.bytes_size⟩ ∧
      (s'.commands (pool_get s.command_pool).1).args
        = [desc.x, desc.y, desc.z, desc.width, desc.height, desc.depth] ∧
      Dx11.read_bytes s'.heap (some s.heap_fresh) desc.bytes_size
        = (s.heap a).take desc.bytes_size := by
  have hret : (Dx11._renoir_dx11_texture_write s h texture desc).isSome = true := by
    unfold Dx11._renoir_dx11_texture_write
    rw [if_neg hz]
    simp only [Option.isSome_map']
    simp [Dx11.memcpy, hz, hb, Dx11.mn_alloc]
  obtain ⟨s', he⟩ := Option.isSome_iff_exists.1 hret
  obtain ⟨r1, r2, r3, r6⟩ := dx11_texture_write_record s s' h texture desc a hb hz he
  refine ⟨s', he, r1, r2, r3, ?_, r6⟩
  unfold Dx11._renoir_dx11_texture_write at he
  rw [if_neg hz] at he
  simp only [Option.map_eq_some'] at he
  obtain ⟨s0, hm, rfl⟩ := he
  rw [hb] at hm
  obtain ⟨_, m2, _, _, _, _, _, _⟩ := dx11_memcpy_reads _ _ _ _ _ hm
  have hs0c : s0.commands = write s.commands (pool_get s.command_pool).1
      { kind := .RENOIR_COMMAND_KIND_TEXTURE_WRITE, handle := texture,
        args := [desc.x, desc.y, desc.z, desc.width, desc.height, desc.depth],
        bytes := ⟨some s.heap_fresh, desc.bytes_size⟩ } := by
    rw [m2]
    simp [Dx11.set_command, Dx11.mn_alloc, Dx11._renoir_dx11_command_new, write_write]
  have hpay := dx11_push_payload
    ⟨(s0.handles h).pass.command_list_head, (s0.handles h).pass.command_list_tail⟩
    s0.commands (pool_get s.command_pool).1 (pool_get s.command_pool).1
  rw [hs0c, write_same] at hpay
  rw [← hs0c] at hpay
  exact congrArg Dx11.Renoir_Command.args hpay

/-- Executing a `TEXTURE_WRITE` record, D3D11: the case returns, and the device reads the
first `texture_write_size` bytes of the record's block when the texture has a native
object, and nothing else. -/
theorem dx11_execute_texture_write_uploads (fuel : Nat) (s : Dx11.IRenoir) (c htex : Nat)
    (hk : (s.commands c).kind = .RENOIR_COMMAND_KIND_TEXTURE_WRITE)
    (hh : (s.commands c).handle = some htex) :
    ∃ s', Dx11._renoir_dx11_command_execute fuel s c = some s' ∧
      Dx11.uploads s'.trace = Dx11.uploads s.trace ++
        (if (s.handles htex).texture.texture1d.isSome ∨
            (s.handles htex).texture.texture2d.isSome ∨
            (s.handles htex).texture.texture3d.isSome then
          [Dx11.read_bytes s.heap (s.commands c).bytes.ptr
            (Dx11.texture_write_size (s.handles htex).texture
              ((s.commands c).args.getD 3 0) ((s.commands c).args.getD 4 0)
              ((s.commands c).args.getD 5 0) (s.commands c).bytes.size)]
        else []) := by
  unfold Dx11._renoir_dx11_command_execute
  simp only [hk, hh, Option.map_some']
  refine ⟨_, rfl, ?_⟩
  simp only [Dx11.execute_texture_write, Dx11.device_upload, Dx11.emit]
  split <;> simp [Dx11.uploads, List.filterMap_append]

/-- Deferred copy, `texture_write` on the D3D11 backend: the call returns, and in every
later state that still holds the record and its block, executing the record hands the
device bytes the caller's block held at the time of the call: the first
`texture_write_size` of them when the region read lies within the `bytes_size` bytes
given, nothing when the texture has no native object.  Overwriting the caller's block
leads to such a state. -/
theorem dx11_texture_write_copy_safe (s : Dx11.IRenoir) (h htex : Nat)
    (desc : Renoir_Texture_Edit_Desc) (a : Nat)
    (hb : desc.bytes = some a) (hz : desc.bytes_size ≠ 0) (ha : a ≠ s.heap_fresh) :
    ∃ s', Dx11._renoir_dx11_texture_write s h (some htex) desc = some s' ∧
      (∀ (s2 : Dx11.IRenoir) (fuel2 : Nat),
        s2.commands (pool_get s.command_pool).1 = s'.commands (pool_get s.command_pool).1 →
        s2.heap s.heap_fresh = s'.heap s.heap_fresh →
        Dx11.texture_write_size (s2.handles htex).texture desc.width desc.height desc.depth
          desc.bytes_size ≤ desc.bytes_size →
        ∃ s3, Dx11._renoir_dx11_command_execute fuel2 s2 (pool_get s.command_pool).1
            = some s3 ∧
          Dx11.uploads s3.trace = Dx11.uploads s2.trace ++
            Dx11.texture_write_reads (s2.handles htex).texture desc.width desc.height
              desc.depth desc.bytes_size (s.heap a)) ∧
      (∀ (junk : List Nat) (fuel2 : Nat),
        Dx11.texture_write_size (s'.handles htex).texture desc.width desc.height desc.depth
          desc.bytes_size ≤ desc.bytes_size →
        ∃ s3, Dx11._renoir_dx11_command_execute fuel2 (Dx11.caller_write s' a junk)
            (pool_get s.command_pool).1 = some s3 ∧
          Dx11.uploads s3.trace = Dx11.uploads s'.trace ++
            Dx11.texture_write_reads (s'.handles htex).texture desc.width desc.height
              desc.depth desc.bytes_size (s.heap a)) := by
  obtain ⟨s', he, r1, r2, r3, r4, r6⟩ := dx11_texture_write_returns s h (some htex) desc a hb hz
  have key : ∀ (s2 : Dx11.IRenoir) (fuel2 : Nat),
      s2.commands (pool_get s.command_pool).1 = s'.commands (pool_get s.command_pool).1 →
      s2.heap s.heap_fresh = s'.heap s.heap_fresh →
      Dx11.texture_write_size (s2.handles htex).texture desc.width desc.height desc.depth
        desc.bytes_size ≤ desc.bytes_size →
      ∃ s3, Dx11._renoir_dx11_command_execute fuel2 s2 (pool_get s.command_pool).1
          = some s3 ∧
        Dx11.uploads s3.trace = Dx11.uploads s2.trace ++
          Dx11.texture_write_reads (s2.handles htex).texture desc.width desc.height
            desc.depth desc.bytes_size (s.heap a) := by
    intro s2 fuel2 hrec hblock hfit
    obtain ⟨s3, e1, e2⟩ := dx11_execute_texture_write_uploads fuel2 s2
      (pool_get s.command_pool).1 htex (by rw [hrec]; exact r1) (by rw [hrec]; exact r2)
    refine ⟨s3, e1, ?_⟩
    rw [e2, hrec, r3, r4]
    simp only [List.getD_cons_succ, List.getD_cons_zero]
    unfold Dx11.texture_write_reads
    have hread : Dx11.read_bytes s2.heap (some s.heap_fresh)
        (Dx11.texture_write_size (s2.handles htex).texture desc.width desc.height desc.depth
          desc.bytes_size)
        = (s.heap a).take (Dx11.texture_write_size (s2.handles htex).texture desc.width
            desc.height desc.depth desc.bytes_size) := by
      have h1 : (s'.heap s.heap_fresh).take desc.bytes_size
          = (s.heap a).take desc.bytes_size := r6
      show (s2.heap s.heap_fresh).take _ = _
      rw [hblock]
      have h2 := congrArg (List.take (Dx11.texture_write_size (s2.handles htex).texture
        desc.width desc.height desc.depth desc.bytes_size)) h1
      rw [List.take_take, List.take_take, Nat.min_eq_left hfit] at h2
      exact h2
    rw [hread]
  refine ⟨s', he, key, fun junk fuel2 hfit => ?_⟩
  exact key (Dx11.caller_write s' a junk) fuel2 rfl (by
    show write s'.heap a junk s.heap_fresh = _
    rw [write_apply, if_neg (fun e => ha e.symm)]) hfit

/-- The record `texture_write` leaves on the private list of the pass, GL: the call
returns when bytes are given; the record holds the texture, the edited region and a block
of its own, which reads as the caller's block did at the time of the call. -/
theorem gl450_texture_write_returns (s : Gl450.IRenoir) (h : Nat) (texture : Ptr)
    (desc : Renoir_Texture_Edit_Desc) (a : Nat)
    (hb : desc.bytes = some a) :
    ∃ s', Gl450._renoir_gl450_texture_write s h texture desc = some s' ∧
      (s'.commands (pool_get s.command_pool).1).kind = .RENOIR_COMMAND_KIND_TEXTURE_WRITE ∧
      (s'.commands (pool_get s.command_pool).1).handle = texture ∧
      (s'.commands (pool_get s.command_pool).1).bytes = ⟨some s.heap_fresh, desc.bytes_size⟩ ∧
      (s'.commands (pool_get s.command_pool).1).args
        = [desc.x, desc.y, desc.z, desc.width, desc.height, desc.depth] ∧
      Gl450.read_bytes s'.heap (some s.heap_fresh) desc.bytes_size
        = (s.heap a).take desc.bytes_size := by
  have hret : (Gl450._renoir_gl450_texture_write s h texture desc).isSome = true := by
    unfold Gl450._renoir_gl450_texture_write
    simp only [Option.isSome_map']
    simp only [Gl450.memcpy, hb, Gl450.mn_alloc]
    split <;> rfl
  obtain ⟨s', he⟩ := Option.isSome_iff_exists.1 hret
  obtain ⟨r1, r2, r3, r6⟩ := gl450_texture_write_record s s' h texture desc a hb he
  refine ⟨s', he, r1, r2, r3, ?_, r6⟩
  unfold Gl450._renoir_gl450_texture_write at he
  simp only [] at he
  simp only [Option.map_eq_some'] at he
  obtain ⟨s0, hm, rfl⟩ := he
  rw [hb] at hm
  obtain ⟨_, m2, _, _, _, _, _, _⟩ := gl450_memcpy_reads _ _ _ _ _ hm
  have hs0c : s0.commands = write s.commands (pool_get s.command_pool).1
      { kind := .RENOIR_COMMAND_KIND_TEXTURE_WRITE, handle := texture,
        args := [desc.x, desc.y, desc.z, desc.width, desc.height, desc.depth],
        bytes := ⟨some s.heap_fresh, desc.bytes_size⟩ } := by
    rw [m2]
    simp [Gl450.set_command, Gl450.mn_alloc, Gl450._renoir_gl450_command_new, write_write]
  have hpay := gl450_push_payload
    ⟨(s0.handles h).pass.command_list_head, (s0.handles h).pass.command_list_tail⟩
    s0.commands (pool_get s.command_pool).1 (pool_get s.command_pool).1
  rw [hs0c, write_same] at hpay
  rw [← hs0c] at hpay
  exact congrArg Gl450.Renoir_Command.args hpay

/-- Executing a `TEXTURE_WRITE` record, GL: the case returns, and the device reads the rows
of the edited region in the record's block when the texture is one- or two-dimensional,
and nothing else: the branch for a three-dimensional texture repeats the two-dimensional
condition (Renoir-gl450.cpp:1762). -/
theorem gl450_execute_texture_write_uploads (fuel : Nat) (s : Gl450.IRenoir) (c htex blk : Nat)
    (hk : (s.commands c).kind = .RENOIR_COMMAND_KIND_TEXTURE_WRITE)
    (hh : (s.commands c).handle = some htex)
    (hp : (s.commands c).bytes.ptr = some blk) :
    ∃ s', Gl450._renoir_gl450_command_execute fuel s c = some s' ∧
      Gl450.uploads s'.trace = Gl450.uploads s.trace ++
        Gl450.texture_write_reads (s.handles htex).texture ((s.commands c).args.getD 3 0)
          ((s.commands c).args.getD 4 0) (s.heap blk) := by
  unfold Gl450._renoir_gl450_command_execute
  simp only [hk, hh, Option.map_some']
  refine ⟨_, rfl, ?_⟩
  unfold Gl450.execute_texture_write Gl450.texture_write_reads Gl450.texture_write_rows
  simp only []
  have hE : (Gl450.emit s (Gl450.Event.command_execute c (s.commands c))).handles
      = s.handles := rfl
  rw [hE, hp]
  by_cases h1 : (s.handles htex).texture.size.height = 0 ∧
      (s.handles htex).texture.size.depth = 0
  · rw [if_pos h1, if_pos (Or.inl h1), if_pos h1]
    simp [Gl450.uploads, List.filterMap_append, Gl450.device_upload_rows, Gl450.emit]
  · rw [if_neg h1]
    by_cases h2 : (s.handles htex).texture.size.height > 0 ∧
        (s.handles htex).texture.size.depth = 0
    · rw [if_pos h2, if_pos (Or.inr h2), if_neg h1, if_pos h2]
      simp [Gl450.uploads, List.filterMap_append, Gl450.device_upload_rows, Gl450.emit]
    · rw [if_neg h2, if_neg h2, if_neg (fun h => h.elim h1 h2)]
      simp [Gl450.uploads, List.filterMap_append, Gl450.emit]

/-- Deferred copy, `texture_write` on the GL backend: the call returns, and in every later
state that still holds the record and its block, executing the record hands the device
bytes the caller's block held at the time of the call: the rows of the edited region,
when they lie within the `bytes_size` bytes given; nothing when the texture is
three-dimensional.  Overwriting the caller's block leads to such a state. -/
theorem gl450_texture_write_copy_safe (s : Gl450.IRenoir) (h htex : Nat)
    (desc : Renoir_Texture_Edit_Desc) (a : Nat)
    (hb : desc.bytes = some a) (ha : a ≠ s.heap_fresh) :
    ∃ s', Gl450._renoir_gl450_texture_write s h (some htex) desc = some s' ∧
      (∀ (s2 : Gl450.IRenoir) (fuel2 : Nat),
        s2.commands (pool_get s.command_pool).1 = s'.commands (pool_get s.command_pool).1 →
        s2.heap s.heap_fresh = s'.heap s.heap_fresh →
        Gl450.texture_write_extent (s2.handles htex).texture.pixel_format desc.width
          (Gl450.texture_write_rows (s2.handles htex).texture desc.height)
          ≤ desc.bytes_size →
        ∃ s3, Gl450._renoir_gl450_command_execute fuel2 s2 (pool_get s.command_pool).1
            = some s3 ∧
          Gl450.uploads s3.trace = Gl450.uploads s2.trace ++
            Gl450.texture_write_reads (s2.handles htex).texture desc.width desc.height
              (s.heap a)) ∧
      (∀ (junk : List Nat) (fuel2 : Nat),
        Gl450.texture_write_extent (s'.handles htex).texture.pixel_format desc.width
          (Gl450.texture_write_rows (s'.handles htex).texture desc.height)
          ≤ desc.bytes_size →
        ∃ s3, Gl450._renoir_gl450_command_execute fuel2 (Gl450.caller_write s' a junk)
            (pool_get s.command_pool).1 = some s3 ∧
          Gl450.uploads s3.trace = Gl450.uploads s'.trace ++
            Gl450.texture_write_reads (s'.handles htex).texture desc.width desc.height
              (s.heap a)) := by
  obtain ⟨s', he, r1, r2, r3, r4, r6⟩ := gl450_texture_write_returns s h (some htex) desc a hb
  have key : ∀ (s2 : Gl450.IRenoir) (fuel2 : Nat),
      s2.commands (pool_get s.command_pool).1 = s'.commands (pool_get s.command_pool).1 →
      s2.heap s.heap_fresh = s'.heap s.heap_fresh →
      Gl450.texture_write_extent (s2.handles htex).texture.pixel_format desc.width
        (Gl450.texture_write_rows (s2.handles htex).texture desc.height)
        ≤ desc.bytes_size →
      ∃ s3, Gl450._renoir_gl450_command_execute fuel2 s2 (pool_get s.command_pool).1
          = some s3 ∧
        Gl450.uploads s3.trace = Gl450.uploads s2.trace ++
          Gl450.texture_write_reads (s2.handles htex).texture desc.width desc.height
            (s.heap a) := by
    intro s2 fuel2 hrec hblock hfit
    obtain ⟨s3, e1, e2⟩ := gl450_execute_texture_write_uploads fuel2 s2
      (pool_get s.command_pool).1 htex s.heap_fresh (by rw [hrec]; exact r1)
      (by rw [hrec]; exact r2) (by rw [hrec, r3])
    refine ⟨s3, e1, ?_⟩
    rw [e2, hrec, r4]
    simp only [List.getD_cons_succ, List.getD_cons_zero]
    unfold Gl450.texture_write_reads
    simp only []
    have hagree : (s2.heap s.heap_fresh).take desc.bytes_size
        = (s.heap a).take desc.bytes_size := by
      rw [hblock]; exact r6
    split
    · congr 1
      congr 1
      exact gl450_read_rows_eq _ _ _ _ _ desc.bytes_size hagree hfit
    · rfl
  refine ⟨s', he, key, fun junk fuel2 hfit => ?_⟩
  exact key (Gl450.caller_write s' a junk) fuel2 rfl (by
    show write s'.heap a junk s.heap_fresh = _
    rw [write_apply, if_neg (fun e => ha e.symm)]) hfit

/-- In deferred mode `buffer_new` with initial data returns whenever the description
passes the assertions of the function, D3D11 (Renoir-dx11.cpp:2477). -/
theorem dx11_buffer_new_returns (fuel : Nat) (s : Dx11.IRenoir) (desc : Renoir_Buffer_Desc)
    (a : Nat) (hd : s.settings.defer_api_calls = true) (hdata : desc.data = some a)
    (h1 : ¬ (desc.usage = .RENOIR_USAGE_DYNAMIC ∧ desc.access = .RENOIR_ACCESS_NONE))
    (h2 : ¬ (desc.type = RENOIR_BUFFER_UNIFORM ∧ desc.data_size % 16 ≠ 0)) :
    ∃ r, Dx11._renoir_dx11_buffer_new fuel s desc = some r := by
  apply Option.isSome_iff_exists.1
  unfold Dx11._renoir_dx11_buffer_new
  simp only []
  have e1 : (if desc.usage = RENOIR_USAGE.RENOIR_USAGE_NONE then
      { desc with usage := RENOIR_USAGE.RENOIR_USAGE_STATIC } else desc).data = some a := by
    split <;> exact hdata
  have e2 : (if desc.usage = RENOIR_USAGE.RENOIR_USAGE_NONE then
      { desc with usage := RENOIR_USAGE.RENOIR_USAGE_STATIC } else desc).data_size
        = desc.data_size := by
    split <;> rfl
  have e3 : (if desc.usage = RENOIR_USAGE.RENOIR_USAGE_NONE then
      { desc with usage := RENOIR_USAGE.RENOIR_USAGE_STATIC } else desc).type = desc.type := by
    split <;> rfl
  have e4 : (if desc.usage = RENOIR_USAGE.RENOIR_USAGE_NONE then
      { desc with usage := RENOIR_USAGE.RENOIR_USAGE_STATIC } else desc).access
        = desc.access := by
    split <;> rfl
  have e5 : (if desc.usage = RENOIR_USAGE.RENOIR_USAGE_NONE then
      { desc with usage := RENOIR_USAGE.RENOIR_USAGE_STATIC } else desc).usage
        = .RENOIR_USAGE_DYNAMIC → desc.usage = .RENOIR_USAGE_DYNAMIC := by
    split
    · intro h; exact absurd h (by simp)
    · exact id
  generalize (if desc.usage = RENOIR_USAGE.RENOIR_USAGE_NONE then
      { desc with usage := RENOIR_USAGE.RENOIR_USAGE_STATIC } else desc) = desc1
    at e1 e2 e3 e4 e5
  rw [if_neg (fun h => h1 ⟨e5 h.1, e4 ▸ h.2⟩), if_neg (fun h => by rw [e1] at h; simp at h),
    if_neg (fun h => h2 ⟨e3 ▸ h.1, e2 ▸ h.2⟩)]
  rw [if_pos ⟨hd, by rw [e1]; rfl⟩]
  simp only [e1, Dx11.memcpy, Dx11.mn_alloc, Dx11.set_command]
  split <;>
    simp [Dx11._renoir_dx11_command_process, Dx11.emit, hd, Dx11._renoir_dx11_command_new,
      Dx11._renoir_dx11_handle_new, Dx11.set_command]

/-- In deferred mode `buffer_new` with initial data returns whenever the description
passes the assertion of the function, GL (Renoir-gl450.cpp:2086). -/
theorem gl450_buffer_new_returns (fuel : Nat) (s : Gl450.IRenoir) (desc : Renoir_Buffer_Desc)
    (a : Nat) (hd : s.settings.defer_api_calls = true) (hdata : desc.data = some a)
    (h1 : ¬ (desc.usage = .RENOIR_USAGE_DYNAMIC ∧ desc.access = .RENOIR_ACCESS_NONE)) :
    ∃ r, Gl450._renoir_gl450_buffer_new fuel s desc = some r := by
  apply Option.isSome_iff_exists.1
  unfold Gl450._renoir_gl450_buffer_new
  simp only []
  have e1 : (if desc.usage = RENOIR_USAGE.RENOIR_USAGE_NONE then
      { desc with usage := RENOIR_USAGE.RENOIR_USAGE_STATIC } else desc).data = some a := by
    split <;> exact hdata
  have e4 : (if desc.usage = RENOIR_USAGE.RENOIR_USAGE_NONE then
      { desc with usage := RENOIR_USAGE.RENOIR_USAGE_STATIC } else desc).access
        = desc.access := by
    split <;> rfl
  have e5 : (if desc.usage = RENOIR_USAGE.RENOIR_USAGE_NONE then
      { desc with usage := RENOIR_USAGE.RENOIR_USAGE_STATIC } else desc).usage
        = .RENOIR_USAGE_DYNAMIC → desc.usage = .RENOIR_USAGE_DYNAMIC := by
    split
    · intro h; exact absurd h (by simp)
    · exact id
  generalize (if desc.usage = RENOIR_USAGE.RENOIR_USAGE_NONE then
      { desc with usage := RENOIR_USAGE.RENOIR_USAGE_STATIC } else desc) = desc1
    at e1 e4 e5
  rw [if_neg (fun h => h1 ⟨e5 h.1, e4 ▸ h.2⟩)]
  have hd1 : (Gl450.set_command
      (Gl450._renoir_gl450_command_new
        (Gl450._renoir_gl450_handle_new s .RENOIR_HANDLE_KIND_BUFFER).2
        .RENOIR_COMMAND_KIND_BUFFER_NEW).2
      (Gl450._renoir_gl450_command_new
        (Gl450._renoir_gl450_handle_new s .RENOIR_HANDLE_KIND_BUFFER).2
        .RENOIR_COMMAND_KIND_BUFFER_NEW).1
      { (Gl450._renoir_gl450_command_new
          (Gl450._renoir_gl450_handle_new s .RENOIR_HANDLE_KIND_BUFFER).2
          .RENOIR_COMMAND_KIND_BUFFER_NEW).2.commands
          (Gl450._renoir_gl450_command_new
            (Gl450._renoir_gl450_handle_new s .RENOIR_HANDLE_KIND_BUFFER).2
            .RENOIR_COMMAND_KIND_BUFFER_NEW).1 with
        handle := some (Gl450._renoir_gl450_handle_new s .RENOIR_HANDLE_KIND_BUFFER).1,
        buffer_desc := desc1 }).settings.defer_api_calls = true := hd
  rw [if_pos hd1]
  simp only [e1, Gl450.memcpy, Gl450.mn_alloc, Gl450.set_command]
  split <;>
    simp [Gl450._renoir_gl450_command_process, Gl450.emit, hd, Gl450._renoir_gl450_command_new,
      Gl450._renoir_gl450_handle_new, Gl450.set_command]


/-! ### Deferred copy safety -/

/-- C13: deferred copy safety.  With `defer_api_calls = true`, `buffer_new` with initial data
in the caller's block `a` returns (for a description that passes the assertions of the
function) and leaves a record that refers to a block of its own, and so does
`texture_write` with bytes in the caller's block `b`.  In every later state that still
holds the record and that block, and so after any overwrite `junk` of the caller's block
(a freed block holds anything), executing the record hands the device bytes that are a
function of the caller's block at the time of the call: `(s.heap a).take size` for a
buffer; for a texture the region the handler reads (D3D11: `bytes_size` bytes of a 1D
texture, `height` rows, times `depth` slices on a 3D texture, of `width` pixels; GL:
`height` rows of `width` pixels at the default unpack alignment of 4), as long as that
region lies within the `bytes_size` bytes given, and nothing when the texture has no
native object (D3D11) or has a depth (GL).  `junk` does not occur in the result, so two
runs that differ in it write the same bytes.  A D3D11 `texture_write` of zero bytes
records nothing.  End to end for `buffer_new` with nothing pending: the call, any
overwrite, then `flush` (D3D11) or `swapchain_present` (GL) return, and what they upload
is exactly those bytes. -/
theorem c13_deferred_copy_is_safe
    (fuel : Nat)
    (s : Dx11.IRenoir)
    (desc : Renoir_Buffer_Desc)
    (a : Nat)
    (hd : s.settings.defer_api_calls = true)
    (hdata : desc.data = some a)
    (ha : a ≠ s.heap_fresh)
    (hdyn : ¬ (desc.usage = .RENOIR_USAGE_DYNAMIC ∧ desc.access = .RENOIR_ACCESS_NONE))
    (huni : ¬ (desc.type = RENOIR_BUFFER_UNIFORM ∧ desc.data_size % 16 ≠ 0))
    (t : Dx11.IRenoir)
    (h htex : Nat)
    (edit : Renoir_Texture_Edit_Desc)
    (b : Nat)
    (hb : edit.bytes = some b)
    (hfresh : b ≠ t.heap_fresh)
    (gfuel : Nat)
    (gs : Gl450.IRenoir)
    (gdesc : Renoir_Buffer_Desc)
    (ga : Nat)
    (ghd : gs.settings.defer_api_calls = true)
    (ghdata : gdesc.data = some ga)
    (gha : ga ≠ gs.heap_fresh)
    (ghdyn : ¬ (gdesc.usage = .RENOIR_USAGE_DYNAMIC ∧ gdesc.access = .RENOIR_ACCESS_NONE))
    (gt : Gl450.IRenoir)
    (gh ghtex : Nat)
    (gedit : Renoir_Texture_Edit_Desc)
    (gb : Nat)
    (ghb : gedit.bytes = some gb)
    (ghfresh : gb ≠ gt.heap_fresh) :
    ((∃ r, Dx11._renoir_dx11_buffer_new (fuel + 1) s desc = some r ∧
      (∀ (s2 : Dx11.IRenoir) (fuel2 : Nat),
        s2.commands (pool_get s.command_pool).1 = r.2.commands (pool_get s.command_pool).1 →
        s2.heap s.heap_fresh = r.2.heap s.heap_fresh →
        ∃ s3, Dx11._renoir_dx11_command_execute fuel2 s2 (pool_get s.command_pool).1
            = some s3 ∧
          Dx11.uploads s3.trace = Dx11.uploads s2.trace ++ [(s.heap a).take desc.data_size]) ∧
      (∀ (junk : List Nat) (fuel2 : Nat),
        ∃ s3, Dx11._renoir_dx11_command_execute fuel2 (Dx11.caller_write r.2 a junk)
            (pool_get s.command_pool).1 = some s3 ∧
          Dx11.uploads s3.trace
            = Dx11.uploads r.2.trace ++ [(s.heap a).take desc.data_size])) ∧
    (s.command_list_tail = none → ∀ junk : List Nat,
      (Dx11.buffer_new_run (fuel + 1) s desc a junk).map (fun s' => Dx11.uploads s'.trace)
        = some (Dx11.uploads s.trace ++ [(s.heap a).take desc.data_size])) ∧
    (edit.bytes_size = 0 → Dx11._renoir_dx11_texture_write t h (some htex) edit = some t) ∧
    (edit.bytes_size ≠ 0 →
      ∃ t', Dx11._renoir_dx11_texture_write t h (some htex) edit = some t' ∧
        (∀ (s2 : Dx11.IRenoir) (fuel2 : Nat),
          s2.commands (pool_get t.command_pool).1 = t'.commands (pool_get t.command_pool).1 →
          s2.heap t.heap_fresh = t'.heap t.heap_fresh →
          Dx11.texture_write_size (s2.handles htex).texture edit.width edit.height edit.depth
            edit.bytes_size ≤ edit.bytes_size →
          ∃ s3, Dx11._renoir_dx11_command_execute fuel2 s2 (pool_get t.command_pool).1
              = some s3 ∧
            Dx11.uploads s3.trace = Dx11.uploads s2.trace ++
              Dx11.texture_write_reads (s2.handles htex).texture edit.width edit.height
                edit.depth edit.bytes_size (t.heap b)) ∧
        (∀ (junk : List Nat) (fuel2 : Nat),
          Dx11.texture_write_size (t'.handles htex).texture edit.width edit.height edit.depth
            edit.bytes_size ≤ edit.bytes_size →
          ∃ s3, Dx11._renoir_dx11_command_execute fuel2 (Dx11.caller_write t' b junk)
              (pool_get t.command_pool).1 = some s3 ∧
            Dx11.uploads s3.trace = Dx11.uploads t'.trace ++
              Dx11.texture_write_reads (t'.handles htex).texture edit.width edit.height
                edit.depth edit.bytes_size (t.heap b)))) ∧
    ((∃ gr, Gl450._renoir_gl450_buffer_new (gfuel + 1) gs gdesc = some gr ∧
      (∀ (s2 : Gl450.IRenoir) (fuel2 : Nat),
        s2.commands (pool_get gs.command_pool).1
          = gr.2.commands (pool_get gs.command_pool).1 →
        s2.heap gs.heap_fresh = gr.2.heap gs.heap_fresh →
        ∃ s3, Gl450._renoir_gl450_command_execute fuel2 s2 (pool_get gs.command_pool).1
            = some s3 ∧
          Gl450.uploads s3.trace
            = Gl450.uploads s2.trace ++ [(gs.heap ga).take gdesc.data_size]) ∧
      (∀ (junk : List Nat) (fuel2 : Nat),
        ∃ s3, Gl450._renoir_gl450_command_execute fuel2 (Gl450.caller_write gr.2 ga junk)
            (pool_get gs.command_pool).1 = some s3 ∧
          Gl450.uploads s3.trace
            = Gl450.uploads gr.2.trace ++ [(gs.heap ga).take gdesc.data_size])) ∧
    (gs.command_list_tail = none → ∀ (junk : List Nat) (swapchain : Nat),
      (Gl450.buffer_new_run (gfuel + 1) gs gdesc ga junk swapchain).map
          (fun gs' => Gl450.uploads gs'.trace)
        = some (Gl450.uploads gs.trace ++ [(gs.heap ga).take gdesc.data_size])) ∧
    (∃ gt', Gl450._renoir_gl450_texture_write gt gh (some ghtex) gedit = some gt' ∧
      (∀ (s2 : Gl450.IRenoir) (fuel2 : Nat),
        s2.commands (pool_get gt.command_pool).1
          = gt'.commands (pool_get gt.command_pool).1 →
        s2.heap gt.heap_fresh = gt'.heap gt.heap_fresh →
        Gl450.texture_write_extent (s2.handles ghtex).texture.pixel_format gedit.width
          (Gl450.texture_write_rows (s2.handles ghtex).texture gedit.height)
          ≤ gedit.bytes_size →
        ∃ s3, Gl450._renoir_gl450_command_execute fuel2 s2 (pool_get gt.command_pool).1
            = some s3 ∧
          Gl450.uploads s3.trace = Gl450.uploads s2.trace ++
            Gl450.texture_write_reads (s2.handles ghtex).texture gedit.width gedit.height
              (gt.heap gb)) ∧
      (∀ (junk : List Nat) (fuel2 : Nat),
        Gl450.texture_write_extent (gt'.handles ghtex).texture.pixel_format gedit.width
          (Gl450.texture_write_rows (gt'.handles ghtex).texture gedit.height)
          ≤ gedit.bytes_size →
        ∃ s3, Gl450._renoir_gl450_command_execute fuel2 (Gl450.caller_write gt' gb junk)
            (pool_get gt.command_pool).1 = some s3 ∧
          Gl450.uploads s3.trace = Gl450.uploads gt'.trace ++
            Gl450.texture_write_reads (gt'.handles ghtex).texture gedit.width gedit.height
              (gt.heap gb)))) := by
  obtain ⟨r, he⟩ := dx11_buffer_new_returns (fuel + 1) s desc a hd hdata hdyn huni
  obtain ⟨gr, ghe⟩ := gl450_buffer_new_returns (gfuel + 1) gs gdesc ga ghd ghdata ghdyn
  refine ⟨⟨⟨r, he, dx11_buffer_new_copy_safe (fuel + 1) s desc a r hd hdata ha he⟩,
      fun htail junk => dx11_buffer_new_run_uploads fuel s desc a r hd hdata ha htail he junk,
      fun hz => dx11_texture_write_zero t h (some htex) edit hz,
      fun hz => dx11_texture_write_copy_safe t h htex edit b hb hz hfresh⟩,
    ⟨gr, ghe, gl450_buffer_new_copy_safe (gfuel + 1) gs gdesc ga gr ghd ghdata gha ghe⟩,
    fun htail junk swapchain =>
      gl450_buffer_new_run_uploads gfuel gs gdesc ga gr ghd ghdata gha htail ghe junk swapchain,
    gl450_texture_write_copy_safe gt gh ghtex gedit gb ghb ghfresh⟩


/-- Witness of C13: in a deferred context with nothing pending whose block 0 holds
`[10, 20, 30, 40]`, `buffer_new` with these four bytes as initial data, the caller
overwriting its block with `[9, 9, 9, 9]`, then the drain: both backends upload
`[10, 20, 30, 40]`; a `texture_write` of these bytes to a region of one RGBA8 pixel
returns, and its record uploads them too, whatever the caller stores in its block
afterwards. -/
theorem c13_deferred_copy_is_safe_witness :
    (Dx11.buffer_new_run 1 Dx11.copy_context { data := some 0, data_size := 4 } 0
        [9, 9, 9, 9]).map (fun s => Dx11.uploads s.trace) = some [[10, 20, 30, 40]] ∧
    (∃ t', Dx11._renoir_dx11_texture_write Dx11.copy_context 0 (some 1)
        { width := 1, height := 1, bytes := some 0, bytes_size := 4 } = some t' ∧
      ∀ (junk : List Nat) (fuel2 : Nat),
        ∃ s3, Dx11._renoir_dx11_command_execute fuel2 (Dx11.caller_write t' 0 junk) 0
            = some s3 ∧
          Dx11.uploads s3.trace = Dx11.uploads t'.trace ++ [[10, 20, 30, 40]]) ∧
    (Gl450.buffer_new_run 1 Gl450.copy_context { data := some 0, data_size := 4 } 0
        [9, 9, 9, 9] 7).map (fun s => Gl450.uploads s.trace) = some [[10, 20, 30, 40]] ∧
    (∃ t', Gl450._renoir_gl450_texture_write Gl450.copy_context 0 (some 1)
        { width := 1, height := 1, bytes := some 0, bytes_size := 4 } = some t' ∧
      ∀ (junk : List Nat) (fuel2 : Nat),
        ∃ s3, Gl450._renoir_gl450_command_execute fuel2 (Gl450.caller_write t' 0 junk) 0
            = some s3 ∧
          Gl450.uploads s3.trace = Gl450.uploads t'.trace ++ [[10, 20, 30, 40]]) := by
  have d1 : (Dx11._renoir_dx11_texture_write Dx11.copy_context 0 (some 1)
      { width := 1, height := 1, bytes := some 0, bytes_size := 4 }).map
      (fun t => decide (Dx11.texture_write_size (t.handles 1).texture 1 1 0 4 ≤ 4))
      = some true := by decide
  have d2 : (Dx11._renoir_dx11_texture_write Dx11.copy_context 0 (some 1)
      { width := 1, height := 1, bytes := some 0, bytes_size := 4 }).map
      (fun t => Dx11.texture_write_reads (t.handles 1).texture 1 1 0 4 [10, 20, 30, 40])
      = some [[10, 20, 30, 40]] := by decide
  have g1 : (Gl450._renoir_gl450_texture_write Gl450.copy_context 0 (some 1)
      { width := 1, height := 1, bytes := some 0, bytes_size := 4 }).map
      (fun t => decide (Gl450.texture_write_extent (t.handles 1).texture.pixel_format 1
        (Gl450.texture_write_rows (t.handles 1).texture 1) ≤ 4)) = some true := by decide
  have g2 : (Gl450._renoir_gl450_texture_write Gl450.copy_context 0 (some 1)
      { width := 1, height := 1, bytes := some 0, bytes_size := 4 }).map
      (fun t => Gl450.texture_write_reads (t.handles 1).texture 1 1 [10, 20, 30, 40])
      = some [[10, 20, 30, 40]] := by decide
  have h := c13_deferred_copy_is_safe 0 Dx11.copy_context { data := some 0, data_size := 4 }
    0 rfl rfl (by decide) (by decide) (by decide)
    Dx11.copy_context 0 1 { width := 1, height := 1, bytes := some 0, bytes_size := 4 } 0
    rfl (by decide)
    0 Gl450.copy_context { data := some 0, data_size := 4 } 0 rfl rfl (by decide) (by decide)
    Gl450.copy_context 0 1 { width := 1, height := 1, bytes := some 0, bytes_size := 4 } 0
    rfl (by decide)
  obtain ⟨⟨_, a3, _, a5⟩, ⟨_, g3, gt1, e4, _, g5⟩⟩ := h
  obtain ⟨t1, e2, _, a6⟩ := a5 (by decide)
  rw [e2] at d1 d2
  rw [e4] at g1 g2
  simp only [Option.map_some', Option.some.injEq, decide_eq_true_eq] at d1 d2 g1 g2
  refine ⟨a3 rfl [9, 9, 9, 9], ⟨t1, e2, fun junk fuel2 => ?_⟩, g3 rfl [9, 9, 9, 9] 7,
    ⟨gt1, e4, fun junk fuel2 => ?_⟩⟩
  · obtain ⟨s3, x1, x2⟩ := a6 junk fuel2 d1
    exact ⟨s3, x1, x2.trans (by rw [← d2]; rfl)⟩
  · obtain ⟨s3, x1, x2⟩ := g5 junk fuel2 g1
    exact ⟨s3, x1, x2.trans (by rw [← g2]; rfl)⟩

/-! ### Teardown at the last reference -/

theorem dx11_null_releases_emit (s : Dx11.IRenoir) (e : Dx11.Event)
    (he : e ≠ Dx11.Event.release none) :
    Dx11.null_releases (Dx11.emit s e).trace = Dx11.null_releases s.trace := by
  simp [Dx11.null_releases, Dx11.emit, List.count_append, List.count_singleton, he]

theorem dx11_null_releases_release (s : Dx11.IRenoir) (p : Ptr) (hp : p ≠ none) :
    Dx11.null_releases (Dx11.release s p).trace = Dx11.null_releases s.trace := by
  unfold Dx11.release
  exact dx11_null_releases_emit s _ (by simpa using hp)

@[simp] theorem dx11_null_releases_release_if (s : Dx11.IRenoir) (p : Ptr) :
    Dx11.null_releases (Dx11.release_if s p).trace = Dx11.null_releases s.trace := by
  unfold Dx11.release_if
  split
  · rename_i h
    exact dx11_null_releases_release s p (by intro e; rw [e] at h; exact absurd h (by simp))
  · rfl

@[simp] theorem dx11_null_releases_handle_free (s : Dx11.IRenoir) (h : Nat) :
    Dx11.null_releases (Dx11._renoir_dx11_handle_free s h).trace
      = Dx11.null_releases s.trace := by
  simp [Dx11.null_releases, Dx11._renoir_dx11_handle_free, List.count_append,
    List.count_singleton]

@[simp] theorem dx11_null_releases_command_free (s : Dx11.IRenoir) (c : Nat) :
    Dx11.null_releases (Dx11._renoir_dx11_command_free s c).trace
      = Dx11.null_releases s.trace := by
  unfold Dx11._renoir_dx11_command_free
  simp only []
  split <;> (try split) <;> (try split) <;>
    simp [Dx11.null_releases, Dx11.mn_free, Dx11.emit, List.count_append, List.count_singleton]

@[simp] theorem dx11_null_releases_texture_free (s : Dx11.IRenoir) (t : Nat) :
    Dx11.null_releases (Dx11.execute_texture_free s t).trace = Dx11.null_releases s.trace := by
  unfold Dx11.execute_texture_free
  simp only []
  split
  · rfl
  · simp

@[simp] theorem dx11_null_releases_pass_free_texture (s : Dx11.IRenoir) (t : Nat) :
    Dx11.null_releases (Dx11.pass_free_texture s t).trace = Dx11.null_releases s.trace := by
  unfold Dx11.pass_free_texture
  simp only [dx11_null_releases_command_free, dx11_null_releases_texture_free]
  rw [dx11_null_releases_emit _ _ (by simp)]
  rfl

theorem dx11_null_releases_pass_free_pending (command : Nat) :
    ∀ (fuel : Nat) (s s' : Dx11.IRenoir) (p : Ptr),
      Dx11.pass_free_pending fuel s command p = some s' →
      Dx11.null_releases s'.trace = Dx11.null_releases s.trace := by
  intro fuel
  induction fuel with
  | zero =>
    intro s s' p he
    cases p with
    | none =>
      simp only [Dx11.pass_free_pending, Option.some.injEq] at he
      subst he; rfl
    | some it => simp [Dx11.pass_free_pending] at he
  | succ fuel ih =>
    intro s s' p he
    cases p with
    | none =>
      simp only [Dx11.pass_free_pending, Option.some.injEq] at he
      subst he; rfl
    | some it =>
      simp only [Dx11.pass_free_pending] at he
      rw [ih _ _ _ he, dx11_null_releases_command_free]


/-- One attachment of PASS_FREE seen from the pass handle `h` itself, its count being zero
or below: the members of the pass are unchanged, `h` is not torn down by the nested
TEXTURE_FREE, and no `Release` goes through a null pointer when `view` is not null. -/
theorem dx11_pass_free_attachment_clean (s : Dx11.IRenoir) (view : Ptr) (c h : Nat)
    (hv : view ≠ none) (hrc : (s.handles h).rc ≤ 0) (hlo : -2147483647 ≤ (s.handles h).rc) :
    ((Dx11.pass_free_texture (Dx11.release s view) c).handles h).pass = (s.handles h).pass ∧
    Dx11.null_releases (Dx11.pass_free_texture (Dx11.release s view) c).trace
      = Dx11.null_releases s.trace ∧
    Dx11.teardowns (Dx11.pass_free_texture (Dx11.release s view) c).trace h
      = Dx11.teardowns s.trace h ∧
    ((Dx11.pass_free_texture (Dx11.release s view) c).handles h).rc ≤ 0 ∧
    (s.handles h).rc - 1 ≤ ((Dx11.pass_free_texture (Dx11.release s view) c).handles h).rc := by
  obtain ⟨e1, e2, _⟩ := dx11_pass_free_texture_effect (Dx11.release s view) c h
  have hh : (Dx11.release s view).handles = s.handles := rfl
  rw [hh] at e1 e2
  have hw : wrap_int ((s.handles h).rc - 1) = (s.handles h).rc - 1 :=
    wrap_int_of_range _ (by omega) (by omega)
  refine ⟨?_, ?_, ?_, ?_, ?_⟩
  · rw [e1]
    by_cases hc : c = h
    · subst hc; rw [write_same]
    · rw [write_other _ _ _ _ (fun e => hc e.symm)]
  · rw [dx11_null_releases_pass_free_texture, dx11_null_releases_release s view hv]
  · rw [e2, dx11_release_teardowns]
    by_cases hc : c = h
    · subst hc
      rw [if_neg (by intro hx; omega)]; rfl
    · simp [hc]
  · rw [e1]
    by_cases hc : c = h
    · subst hc; rw [write_same]; show wrap_int _ ≤ 0; rw [hw]; omega
    · rw [write_other _ _ _ _ (fun e => hc e.symm)]; exact hrc
  · rw [e1]
    by_cases hc : c = h
    · subst hc; rw [write_same]; show _ ≤ wrap_int _; rw [hw]
    · rw [write_other _ _ _ _ (fun e => hc e.symm)]; omega

/-- One round of the colour loop of PASS_FREE seen from the pass handle itself. -/
theorem dx11_pass_free_color_clean (h : Nat) (s : Dx11.IRenoir) (i : Nat)
    (hv : ((s.handles h).pass.offscreen.color.getD i {}).handle ≠ none →
      (s.handles h).pass.render_target_view.getD 0 none ≠ none)
    (hrc : (s.handles h).rc ≤ 0) (hlo : -2147483647 ≤ (s.handles h).rc) :
    ((Dx11.pass_free_color h s i).handles h).pass = (s.handles h).pass ∧
    Dx11.null_releases (Dx11.pass_free_color h s i).trace = Dx11.null_releases s.trace ∧
    Dx11.teardowns (Dx11.pass_free_color h s i).trace h = Dx11.teardowns s.trace h ∧
    ((Dx11.pass_free_color h s i).handles h).rc ≤ 0 ∧
    (s.handles h).rc - 1 ≤ ((Dx11.pass_free_color h s i).handles h).rc := by
  unfold Dx11.pass_free_color
  cases hc : ((s.handles h).pass.offscreen.color.getD i {}).handle with
  | none =>
    exact ⟨rfl, rfl, rfl, hrc, by show (s.handles h).rc - 1 ≤ (s.handles h).rc; omega⟩
  | some c =>
    exact dx11_pass_free_attachment_clean s _ c h (hv (by rw [hc]; simp)) hrc hlo

/-- The colour loop of PASS_FREE seen from the pass handle itself. -/
theorem dx11_pass_free_colors_clean (h : Nat) :
    ∀ (l : List Nat) (s : Dx11.IRenoir),
      (∀ i ∈ l, ((s.handles h).pass.offscreen.color.getD i {}).handle ≠ none →
        (s.handles h).pass.render_target_view.getD 0 none ≠ none) →
      (s.handles h).rc ≤ 0 → -2147483647 + l.length ≤ (s.handles h).rc →
      ((l.foldl (Dx11.pass_free_color h) s).handles h).pass = (s.handles h).pass ∧
      Dx11.null_releases (l.foldl (Dx11.pass_free_color h) s).trace
        = Dx11.null_releases s.trace ∧
      Dx11.teardowns (l.foldl (Dx11.pass_free_color h) s).trace h
        = Dx11.teardowns s.trace h ∧
      ((l.foldl (Dx11.pass_free_color h) s).handles h).rc ≤ 0 ∧
      (s.handles h).rc - l.length ≤ ((l.foldl (Dx11.pass_free_color h) s).handles h).rc := by
  intro l
  induction l with
  | nil => intro s _ hrc _; exact ⟨rfl, rfl, rfl, hrc, by simp⟩
  | cons a l ih =>
    intro s hv hrc hlo
    simp only [List.length_cons, Nat.cast_add, Nat.cast_one] at hlo ⊢
    obtain ⟨a1, a2, a3, a4, a5⟩ := dx11_pass_free_color_clean h s a
      (hv a (List.mem_cons_self _ _)) hrc (by omega)
    obtain ⟨b1, b2, b3, b4, b5⟩ := ih (Dx11.pass_free_color h s a)
      (by
        intro i hi
        rw [a1]
        exact hv i (List.mem_cons_of_mem _ hi))
      a4 (by omega)
    simp only [List.foldl_cons]
    exact ⟨b1.trans a1, b2.trans a2, b3.trans a3, b4, by omega⟩

/-- The PASS_FREE case on a pass with count 1 whose untested views are not null: the case
returns, ends by returning the slot of the pass to the handle pool, tears the pass down
once, and makes no `Release` call through a null pointer. -/
theorem dx11_execute_pass_free_clean (fuel : Nat) (self : Dx11.IRenoir) (command h : Nat)
    (hrc : (self.handles h).rc = 1)
    (hl : (Dx11.list_records self.commands fuel
      (self.handles h).pass.command_list_head).isSome)
    (hn : none ∉ Dx11.released_untested .RENOIR_COMMAND_KIND_PASS_FREE (self.handles h)) :
    ∃ s, Dx11.execute_pass_free fuel self command h = some s ∧
      s.trace.getLast? = some (Dx11.Event.handle_free h) ∧
      s.handle_pool.free.head? = some h ∧
      Dx11.null_releases s.trace = Dx11.null_releases self.trace ∧
      Dx11.teardowns s.trace h = Dx11.teardowns self.trace h + 1 := by
  unfold Dx11.execute_pass_free
  simp only [Dx11._renoir_dx11_handle_unref, hrc, decide_True, Bool.true_eq_false, if_false,
    write_same]
  have hw : wrap_int (1 - 1) = 0 := by unfold wrap_int; norm_num
  have hw0 : wrap_int 0 = 0 := by unfold wrap_int; norm_num
  split
  · rename_i heq
    exact absurd heq (dx11_pass_free_pending_ne_none fuel _ command _ hl)
  · rename_i sp hp
    obtain ⟨p1, p2, _⟩ := dx11_pass_free_pending_counts command h fuel _ _ _ hp
    have p3 := dx11_null_releases_pass_free_pending command fuel _ _ _ hp
    have p2 : Dx11.teardowns sp.trace h = Dx11.teardowns self.trace h := p2
    have p3 : Dx11.null_releases sp.trace = Dx11.null_releases self.trace := p3
    have hph : (sp.handles h).pass = (self.handles h).pass := by
      rw [p1]; simp [write_same]
    have hprc : (sp.handles h).rc = 0 := by
      rw [p1]; simp [write_same, hw, hw0]
    by_cases hsw : (self.handles h).pass.swapchain = none
    · rw [if_pos (by rw [hph]; exact hsw)]
      simp only [Dx11.released_untested, hrc, hsw, and_self, if_true, List.mem_append,
        List.mem_filterMap, List.mem_range, Option.map_eq_some', not_or, not_exists,
        not_and] at hn
      obtain ⟨hn1, hn2⟩ := hn
      have hcol : ∀ i ∈ List.range RENOIR_CONSTANT_COLOR_ATTACHMENT_SIZE,
          ((sp.handles h).pass.offscreen.color.getD i {}).handle ≠ none →
          (sp.handles h).pass.render_target_view.getD 0 none ≠ none := by
        intro i hi hc hv
        rw [hph] at hc hv
        obtain ⟨c, hc⟩ := Option.ne_none_iff_exists'.1 hc
        exact hn1 i (List.mem_range.1 hi) c hc hv
      obtain ⟨c1, c2, c3, c4, c5⟩ := dx11_pass_free_colors_clean h
        (List.range RENOIR_CONSTANT_COLOR_ATTACHMENT_SIZE) sp hcol (by omega)
        (by rw [hprc]; simp [RENOIR_CONSTANT_COLOR_ATTACHMENT_SIZE])
      obtain ⟨S3, hS3⟩ : ∃ S3 : Dx11.IRenoir, S3 =
          (List.range RENOIR_CONSTANT_COLOR_ATTACHMENT_SIZE).foldl (Dx11.pass_free_color h) sp :=
        ⟨_, rfl⟩
      rw [← hS3] at c1 c2 c3 c4 c5 ⊢
      have hlen : ((List.range RENOIR_CONSTANT_COLOR_ATTACHMENT_SIZE).length : Int) = 4 := by
        simp [RENOIR_CONSTANT_COLOR_ATTACHMENT_SIZE]
      rw [hlen, hprc] at c5
      cases hd : (S3.handles h).pass.offscreen.depth_stencil.handle with
      | none =>
        simp only [hd]
        refine ⟨_, rfl, (dx11_handle_free_last _ h).1, (dx11_handle_free_last _ h).2, ?_, ?_⟩
        · rw [dx11_null_releases_handle_free, c2, p3]
        · rw [dx11_handle_free_teardowns, c3, p2]
      | some d =>
        simp only [hd]
        have hdv : (S3.handles h).pass.depth_stencil_view ≠ none := by
          rw [c1, hph]
          rw [c1, hph] at hd
          intro hv
          rw [hd] at hn2
          exact hn2 (by simp [hv])
        obtain ⟨d1, d2, d3, d4, d5⟩ := dx11_pass_free_attachment_clean S3
          (S3.handles h).pass.depth_stencil_view d h hdv c4 (by omega)
        refine ⟨_, rfl, (dx11_handle_free_last _ h).1, (dx11_handle_free_last _ h).2, ?_, ?_⟩
        · rw [dx11_null_releases_handle_free, d2, c2, p3]
        · rw [dx11_handle_free_teardowns, d3, c3, p2]
    · rw [if_neg (by rw [hph]; exact hsw)]
      refine ⟨_, rfl, (dx11_handle_free_last _ h).1, (dx11_handle_free_last _ h).2, ?_, ?_⟩
      · rw [dx11_null_releases_handle_free, p3]
      · rw [dx11_handle_free_teardowns, p2]


/-- The `*_FREE` command of a handle with count 1 whose untested native objects are not
null, D3D11: the case returns, ends by returning the slot to the handle pool, tears the
handle down once, and makes no `Release` call through a null pointer. -/
theorem dx11_free_at_one_clean (fuel : Nat) (self : Dx11.IRenoir) (command h : Nat)
    (kind : RENOIR_HANDLE_KIND) (hk : kind ≠ .RENOIR_HANDLE_KIND_NONE)
    (hc : (self.commands command).kind = Dx11.free_kind kind)
    (hh : (self.commands command).handle = some h)
    (hrc : (self.handles h).rc = 1)
    (hl : kind = .RENOIR_HANDLE_KIND_PASS →
      (Dx11.list_records self.commands fuel (self.handles h).pass.command_list_head).isSome)
    (hn : none ∉ Dx11.released_untested (Dx11.free_kind kind) (self.handles h)) :
    ∃ s, Dx11._renoir_dx11_command_execute fuel self command = some s ∧
      s.trace.getLast? = some (Dx11.Event.handle_free h) ∧
      s.handle_pool.free.head? = some h ∧
      Dx11.null_releases s.trace = Dx11.null_releases self.trace ∧
      Dx11.teardowns s.trace h = Dx11.teardowns self.trace h + 1 := by
  have t0 : Dx11.teardowns (self.trace ++
      [Dx11.Event.command_execute command (self.commands command)]) h
        = Dx11.teardowns self.trace h := by
    simp [Dx11.teardowns, List.count_append, List.count_singleton]
  have n0 : Dx11.null_releases (self.trace ++
      [Dx11.Event.command_execute command (self.commands command)])
        = Dx11.null_releases self.trace := by
    simp [Dx11.null_releases, List.count_append, List.count_singleton]
  have hw : wrap_int (1 - 1) = 0 := by unfold wrap_int; norm_num
  have hw0 : wrap_int 0 = 0 := by unfold wrap_int; norm_num
  cases kind with
  | RENOIR_HANDLE_KIND_NONE => exact absurd rfl hk
  | RENOIR_HANDLE_KIND_PASS =>
    simp only [Dx11._renoir_dx11_command_execute, Dx11.free_kind, hc, hh, Option.some_bind]
    obtain ⟨s, e, a1, a2, a3, a4⟩ := dx11_execute_pass_free_clean fuel
      (Dx11.emit self (Dx11.Event.command_execute command (self.commands command)))
      command h hrc (hl rfl) hn
    exact ⟨s, e, a1, a2, a3.trans n0, a4.trans (by rw [← t0]; rfl)⟩
  | _ =>
    simp only [Dx11.released_untested, Dx11.free_kind, hrc, if_true, List.mem_cons,
      List.mem_singleton, List.not_mem_nil, not_or, not_false_eq_true, or_false] at hn
    simp only [Dx11._renoir_dx11_command_execute, Dx11.free_kind, hc, hh, Option.map_some',
      Dx11.execute_swapchain_free, Dx11.execute_buffer_free, Dx11.swapchain_release,
      Dx11.execute_texture_free, Dx11.execute_sampler_free, Dx11.execute_program_free,
      Dx11.execute_compute_free, Dx11.execute_pipeline_free,
      Dx11._renoir_dx11_handle_unref, Dx11.emit, hrc, decide_True, Bool.true_eq_false, if_false]
    refine ⟨_, rfl, (dx11_handle_free_last _ h).1, (dx11_handle_free_last _ h).2, ?_, ?_⟩
    · simp [dx11_null_releases_release, hn, n0, write_same, Ne.symm]
    · simp [t0, dx11_release_teardowns]


/-- A prefix of a sequence of live calls is a sequence of live calls. -/
theorem live_calls_take : ∀ (calls : List Life_Call) (rc : Int) (n : Nat),
    live_calls rc calls = true → live_calls rc (calls.take n) = true := by
  intro calls
  induction calls with
  | nil => intro rc n h; simpa using h
  | cons c rest ih =>
    intro rc n h
    cases n with
    | zero => rfl
    | succ n =>
      cases c with
      | ref =>
        simp only [live_calls, Bool.and_eq_true] at h
        simp only [List.take_succ_cons, live_calls, Bool.and_eq_true]
        exact ⟨h.1, ih _ n h.2⟩
      | free =>
        simp only [live_calls, Bool.and_eq_true] at h
        simp only [List.take_succ_cons, live_calls, Bool.and_eq_true]
        exact ⟨h.1, ih _ n h.2⟩

/-- After the count has reached zero no call is live. -/
theorem live_calls_at_zero (calls : List Life_Call) (rc : Int) (hrc : rc ≤ 0)
    (h : live_calls rc calls = true) : calls = [] := by
  cases calls with
  | nil => rfl
  | cons c rest =>
    cases c with
    | ref =>
      simp only [live_calls, Bool.and_eq_true, decide_eq_true_eq] at h
      omega
    | free =>
      simp only [live_calls, Bool.and_eq_true, decide_eq_true_eq] at h
      omega

/-- A sequence of live calls on one handle, D3D11: it returns, the teardown has fired once
when the count has come down to zero and not at all otherwise, the count is the number of
references taken minus the number given up, and no `Release` goes through a null
pointer. -/
theorem dx11_live_calls_teardowns (fuel : Nat) (command h : Nat) (kind : RENOIR_HANDLE_KIND)
    (hk : kind ≠ .RENOIR_HANDLE_KIND_NONE) (calls : List Life_Call) :
    ∀ (self : Dx11.IRenoir),
      (self.commands command).kind = Dx11.free_kind kind →
      (self.commands command).handle = some h →
      0 < (self.handles h).rc → (self.handles h).rc ≤ 2147483647 →
      live_calls (self.handles h).rc calls = true →
      (kind = .RENOIR_HANDLE_KIND_PASS →
        (Dx11.list_records self.commands fuel
          (self.handles h).pass.command_list_head).isSome) →
      none ∉ Dx11.released_untested (Dx11.free_kind kind) { self.handles h with rc := 1 } →
      ∃ s, Dx11.life_calls fuel command h self calls = some s ∧
        Dx11.teardowns s.trace h = Dx11.teardowns self.trace h
          + (if count_after (self.handles h).rc calls = 0 then 1 else 0) ∧
        (0 < count_after (self.handles h).rc calls →
          (s.handles h).rc = count_after (self.handles h).rc calls) ∧
        Dx11.null_releases s.trace = Dx11.null_releases self.trace := by
  induction calls with
  | nil =>
    intro self _ _ h0 _ _ _ _
    refine ⟨self, rfl, ?_, fun _ => rfl, rfl⟩
    simp only [count_after]
    rw [if_neg (by omega)]; rfl
  | cons c rest ih =>
    intro self hc hh h0 hmax hlive hl hn
    cases c with
    | ref =>
      simp only [live_calls, Bool.and_eq_true, decide_eq_true_eq] at hlive
      obtain ⟨⟨_, hlt⟩, hrest⟩ := hlive
      have hw : wrap_int ((self.handles h).rc + 1) = (self.handles h).rc + 1 :=
        wrap_int_of_range _ (by omega) (by omega)
      have hrc1 : (({ self with handles := (Dx11._renoir_dx11_handle_ref self.handles h).2 }
          : Dx11.IRenoir).handles h).rc = (self.handles h).rc + 1 := by
        simp [Dx11._renoir_dx11_handle_ref, write_same, hw]
      have hrest1 : ({ self with handles := (Dx11._renoir_dx11_handle_ref self.handles h).2 }
          : Dx11.IRenoir).handles h
            = { self.handles h with rc := (self.handles h).rc + 1 } := by
        simp [Dx11._renoir_dx11_handle_ref, write_same, hw]
      obtain ⟨s, hs, ht, hr, hnr⟩ := ih
        { self with handles := (Dx11._renoir_dx11_handle_ref self.handles h).2 } hc hh
        (by rw [hrc1]; omega) (by rw [hrc1]; omega) (by rw [hrc1]; exact hrest)
        (by intro hkp; rw [hrest1]; exact hl hkp)
        (by rw [hrest1]; exact hn)
      rw [hrc1] at ht hr
      exact ⟨s, hs, ht, hr, hnr⟩
    | free =>
      simp only [live_calls, Bool.and_eq_true, decide_eq_true_eq] at hlive
      obtain ⟨_, hrest⟩ := hlive
      simp only [Dx11.life_calls, count_after]
      by_cases h1 : (self.handles h).rc = 1
      · have hnil := live_calls_at_zero rest _ (by omega) hrest
        subst hnil
        have hself : ({ self.handles h with rc := 1 } : Dx11.Renoir_Handle)
            = self.handles h := by
          rw [← h1]
        rw [hself] at hn
        obtain ⟨s, e, _, _, a3, a4⟩ :=
          dx11_free_at_one_clean fuel self command h kind hk hc hh h1 hl hn
        rw [e]
        refine ⟨s, rfl, ?_, ?_, a3⟩
        · rw [a4, h1]; rfl
        · intro hpos
          rw [h1] at hpos
          exact absurd hpos (by decide)
      · have hab := dx11_free_above_one fuel self command h kind hk hc hh (by omega) hmax
        rw [hab]
        have hrc1 : (({ self with
            handles := write self.handles h
              { self.handles h with rc := (self.handles h).rc - 1 },
            trace := self.trace ++
              [Dx11.Event.command_execute command (self.commands command)] }
            : Dx11.IRenoir).handles h)
              = { self.handles h with rc := (self.handles h).rc - 1 } := by
          simp [write_same]
        obtain ⟨s, hs, ht, hr, hnr⟩ := ih
          { self with
            handles := write self.handles h
              { self.handles h with rc := (self.handles h).rc - 1 },
            trace := self.trace ++
              [Dx11.Event.command_execute command (self.commands command)] } hc hh
          (by rw [hrc1]; show 0 < (self.handles h).rc - 1; omega)
          (by rw [hrc1]; show (self.handles h).rc - 1 ≤ 2147483647; omega)
          (by rw [hrc1]; exact hrest)
          (by intro hkp; rw [hrc1]; exact hl hkp)
          (by rw [hrc1]; exact hn)
        rw [hrc1] at ht hr
        refine ⟨s, hs, ?_, hr, ?_⟩
        · rw [ht]
          simp [Dx11.teardowns, List.count_append, List.count_singleton]
        · rw [hnr]
          simp [Dx11.null_releases, List.count_append, List.count_singleton]


/-- One attachment of PASS_FREE seen from the pass handle `h` itself, its count being zero
or below, GL: the members of the pass are unchanged and `h` is not torn down by the nested
TEXTURE_FREE. -/
theorem gl450_pass_free_attachment_clean (s : Gl450.IRenoir) (c h : Nat)
    (hrc : (s.handles h).rc ≤ 0) (hlo : -2147483647 ≤ (s.handles h).rc) :
    ((Gl450.pass_free_texture s c).handles h).pass = (s.handles h).pass ∧
    Gl450.teardowns (Gl450.pass_free_texture s c).trace h = Gl450.teardowns s.trace h ∧
    ((Gl450.pass_free_texture s c).handles h).rc ≤ 0 ∧
    (s.handles h).rc - 1 ≤ ((Gl450.pass_free_texture s c).handles h).rc := by
  obtain ⟨e1, e2, _⟩ := gl450_pass_free_texture_effect s c h
  have hw : wrap_int ((s.handles h).rc - 1) = (s.handles h).rc - 1 :=
    wrap_int_of_range _ (by omega) (by omega)
  refine ⟨?_, ?_, ?_, ?_⟩
  · rw [e1]
    by_cases hc : c = h
    · subst hc; rw [write_same]
    · rw [write_other _ _ _ _ (fun e => hc e.symm)]
  · rw [e2]
    by_cases hc : c = h
    · subst hc
      rw [if_neg (by intro hx; omega)]; rfl
    · simp [hc]
  · rw [e1]
    by_cases hc : c = h
    · subst hc; rw [write_same]; show wrap_int _ ≤ 0; rw [hw]; omega
    · rw [write_other _ _ _ _ (fun e => hc e.symm)]; exact hrc
  · rw [e1]
    by_cases hc : c = h
    · subst hc; rw [write_same]; show _ ≤ wrap_int _; rw [hw]
    · rw [write_other _ _ _ _ (fun e => hc e.symm)]; omega

/-- The colour loop of PASS_FREE seen from the pass handle itself, GL. -/
theorem gl450_pass_free_colors_clean (h : Nat) :
    ∀ (l : List Nat) (s : Gl450.IRenoir),
      (s.handles h).rc ≤ 0 → -2147483647 + l.length ≤ (s.handles h).rc →
      ((l.foldl (Gl450.pass_free_color h) s).handles h).pass = (s.handles h).pass ∧
      Gl450.teardowns (l.foldl (Gl450.pass_free_color h) s).trace h
        = Gl450.teardowns s.trace h ∧
      ((l.foldl (Gl450.pass_free_color h) s).handles h).rc ≤ 0 ∧
      (s.handles h).rc - l.length ≤ ((l.foldl (Gl450.pass_free_color h) s).handles h).rc := by
  intro l
  induction l with
  | nil => intro s hrc _; exact ⟨rfl, rfl, hrc, by simp⟩
  | cons a l ih =>
    intro s hrc hlo
    simp only [List.length_cons, Nat.cast_add, Nat.cast_one] at hlo ⊢
    have step : ((Gl450.pass_free_color h s a).handles h).pass = (s.handles h).pass ∧
        Gl450.teardowns (Gl450.pass_free_color h s a).trace h = Gl450.teardowns s.trace h ∧
        ((Gl450.pass_free_color h s a).handles h).rc ≤ 0 ∧
        (s.handles h).rc - 1 ≤ ((Gl450.pass_free_color h s a).handles h).rc := by
      unfold Gl450.pass_free_color
      cases hc : ((s.handles h).pass.offscreen.color.getD a {}).handle with
      | none =>
        exact ⟨rfl, rfl, hrc, by show (s.handles h).rc - 1 ≤ (s.handles h).rc; omega⟩
      | some c => exact gl450_pass_free_attachment_clean s c h hrc (by omega)
    obtain ⟨a1, a3, a4, a5⟩ := step
    obtain ⟨b1, b3, b4, b5⟩ := ih (Gl450.pass_free_color h s a) a4 (by omega)
    simp only [List.foldl_cons]
    exact ⟨b1.trans a1, b3.trans a3, b4, by omega⟩

/-- The PASS_FREE case on a pass with count 1, GL: the case returns, ends by returning the
slot of the pass to the handle pool, and tears the pass down once. -/
theorem gl450_execute_pass_free_clean (fuel : Nat) (self : Gl450.IRenoir) (command h : Nat)
    (hrc : (self.handles h).rc = 1)
    (hl : (Gl450.list_records self.commands fuel
      (self.handles h).pass.command_list_head).isSome) :
    ∃ s, Gl450.execute_pass_free fuel self command h = some s ∧
      s.trace.getLast? = some (Gl450.Event.handle_free h) ∧
      s.handle_pool.free.head? = some h ∧
      Gl450.teardowns s.trace h = Gl450.teardowns self.trace h + 1 := by
  unfold Gl450.execute_pass_free
  simp only [Gl450._renoir_gl450_handle_unref, hrc, decide_True, Bool.true_eq_false, if_false,
    write_same]
  have hw : wrap_int (1 - 1) = 0 := by unfold wrap_int; norm_num
  have hw0 : wrap_int 0 = 0 := by unfold wrap_int; norm_num
  split
  · rename_i heq
    exact absurd heq (gl450_pass_free_pending_ne_none fuel _ command _ hl)
  · rename_i sp hp
    obtain ⟨p1, p2, _⟩ := gl450_pass_free_pending_counts command h fuel _ _ _ hp
    have p2 : Gl450.teardowns sp.trace h = Gl450.teardowns self.trace h := p2
    have hprc : (sp.handles h).rc = 0 := by
      rw [p1]; simp [write_same, hw, hw0]
    by_cases hfb : (sp.handles h).pass.fb ≠ 0
    · rw [if_pos hfb]
      obtain ⟨c1, c3, c4, c5⟩ := gl450_pass_free_colors_clean h (List.range 4) sp
        (by omega) (by rw [hprc]; simp)
      obtain ⟨S3, hS3⟩ : ∃ S3 : Gl450.IRenoir, S3 =
          (List.range 4).foldl (Gl450.pass_free_color h) sp := ⟨_, rfl⟩
      rw [← hS3] at c1 c3 c4 c5 ⊢
      have hlen : ((List.range 4).length : Int) = 4 := by simp
      rw [hlen, hprc] at c5
      cases hd : (S3.handles h).pass.offscreen.depth_stencil.handle with
      | none =>
        simp only [hd]
        refine ⟨_, rfl, (gl450_handle_free_last _ h).1, (gl450_handle_free_last _ h).2, ?_⟩
        rw [gl450_handle_free_teardowns_at, if_pos rfl, c3, p2]
      | some d =>
        simp only [hd]
        obtain ⟨d1, d3, d4, d5⟩ := gl450_pass_free_attachment_clean S3 d h c4 (by omega)
        refine ⟨_, rfl, (gl450_handle_free_last _ h).1, (gl450_handle_free_last _ h).2, ?_⟩
        rw [gl450_handle_free_teardowns_at, if_pos rfl, d3, c3, p2]
    · rw [if_neg hfb]
      refine ⟨_, rfl, (gl450_handle_free_last _ h).1, (gl450_handle_free_last _ h).2, ?_⟩
      rw [gl450_handle_free_teardowns_at, if_pos rfl, p2]


/-- The `*_FREE` command of a handle with count 1, GL: the case returns, ends by returning
the slot to the handle pool, and tears the handle down once. -/
theorem gl450_free_at_one_clean (fuel : Nat) (self : Gl450.IRenoir) (command h : Nat)
    (kind : RENOIR_HANDLE_KIND) (hk : kind ≠ .RENOIR_HANDLE_KIND_NONE)
    (hc : (self.commands command).kind = Gl450.free_kind kind)
    (hh : (self.commands command).handle = some h)
    (hrc : (self.handles h).rc = 1)
    (hl : kind = .RENOIR_HANDLE_KIND_PASS →
      (Gl450.list_records self.commands fuel
        (self.handles h).pass.command_list_head).isSome) :
    ∃ s, Gl450._renoir_gl450_command_execute fuel self command = some s ∧
      s.trace.getLast? = some (Gl450.Event.handle_free h) ∧
      s.handle_pool.free.head? = some h ∧
      Gl450.teardowns s.trace h = Gl450.teardowns self.trace h + 1 := by
  have t0 : Gl450.teardowns (self.trace ++
      [Gl450.Event.command_execute command (self.commands command)]) h
        = Gl450.teardowns self.trace h := by
    simp [Gl450.teardowns, List.count_append, List.count_singleton]
  by_cases hp : kind = .RENOIR_HANDLE_KIND_PASS
  · subst hp
    simp only [Gl450._renoir_gl450_command_execute, Gl450.free_kind, hc, hh, Option.some_bind]
    obtain ⟨s, e, a1, a2, a4⟩ := gl450_execute_pass_free_clean fuel
      (Gl450.emit self (Gl450.Event.command_execute command (self.commands command)))
      command h hrc (hl rfl)
    exact ⟨s, e, a1, a2, a4.trans (by rw [← t0]; rfl)⟩
  · obtain ⟨s, e, a1, a2⟩ := gl450_free_at_one fuel self command h kind hk hc hh hrc hl
    obtain ⟨s2, e2, _, _, _, b⟩ := gl450_free_step fuel self command h kind hk hc hh
      (fun hkp => absurd hkp hp)
    rw [e] at e2
    cases e2
    exact ⟨s, e, a1, a2, by rw [b, if_pos hrc]⟩

/-- A sequence of live calls on one handle, GL: it returns, the teardown has fired once
when the count has come down to zero and not at all otherwise, and the count is the
number of references taken minus the number given up. -/
theorem gl450_live_calls_teardowns (fuel : Nat) (command h : Nat) (kind : RENOIR_HANDLE_KIND)
    (hk : kind ≠ .RENOIR_HANDLE_KIND_NONE) (calls : List Life_Call) :
    ∀ (self : Gl450.IRenoir),
      (self.commands command).kind = Gl450.free_kind kind →
      (self.commands command).handle = some h →
      0 < (self.handles h).rc → (self.handles h).rc ≤ 2147483647 →
      live_calls (self.handles h).rc calls = true →
      (kind = .RENOIR_HANDLE_KIND_PASS →
        (Gl450.list_records self.commands fuel
          (self.handles h).pass.command_list_head).isSome) →
      ∃ s, Gl450.life_calls fuel command h self calls = some s ∧
        Gl450.teardowns s.trace h = Gl450.teardowns self.trace h
          + (if count_after (self.handles h).rc calls = 0 then 1 else 0) ∧
        (0 < count_after (self.handles h).rc calls →
          (s.handles h).rc = count_after (self.handles h).rc calls) := by
  induction calls with
  | nil =>
    intro self _ _ h0 _ _ _
    refine ⟨self, rfl, ?_, fun _ => rfl⟩
    simp only [count_after]
    rw [if_neg (by omega)]; rfl
  | cons c rest ih =>
    intro self hc hh h0 hmax hlive hl
    cases c with
    | ref =>
      simp only [live_calls, Bool.and_eq_true, decide_eq_true_eq] at hlive
      obtain ⟨⟨_, hlt⟩, hrest⟩ := hlive
      have hw : wrap_int ((self.handles h).rc + 1) = (self.handles h).rc + 1 :=
        wrap_int_of_range _ (by omega) (by omega)
      have hrc1 : (({ self with handles := (Gl450._renoir_gl450_handle_ref self.handles h).2 }
          : Gl450.IRenoir).handles h).rc = (self.handles h).rc + 1 := by
        simp [Gl450._renoir_gl450_handle_ref, write_same, hw]
      have hrest1 : ({ self with handles := (Gl450._renoir_gl450_handle_ref self.handles h).2 }
          : Gl450.IRenoir).handles h
            = { self.handles h with rc := (self.handles h).rc + 1 } := by
        simp [Gl450._renoir_gl450_handle_ref, write_same, hw]
      obtain ⟨s, hs, ht, hr⟩ := ih
        { self with handles := (Gl450._renoir_gl450_handle_ref self.handles h).2 } hc hh
        (by rw [hrc1]; omega) (by rw [hrc1]; omega) (by rw [hrc1]; exact hrest)
        (by intro hkp; rw [hrest1]; exact hl hkp)
      rw [hrc1] at ht hr
      exact ⟨s, hs, ht, hr⟩
    | free =>
      simp only [live_calls, Bool.and_eq_true, decide_eq_true_eq] at hlive
      obtain ⟨_, hrest⟩ := hlive
      simp only [Gl450.life_calls, count_after]
      by_cases h1 : (self.handles h).rc = 1
      · have hnil := live_calls_at_zero rest _ (by omega) hrest
        subst hnil
        obtain ⟨s, e, _, _, a4⟩ :=
          gl450_free_at_one_clean fuel self command h kind hk hc hh h1 hl
        rw [e]
        refine ⟨s, rfl, ?_, ?_⟩
        · rw [a4, h1]; rfl
        · intro hpos
          rw [h1] at hpos
          exact absurd hpos (by decide)
      · have hab := gl450_free_above_one fuel self command h kind hk hc hh (by omega) hmax
        rw [hab]
        have hrc1 : (({ self with
            handles := write self.handles h
              { self.handles h with rc := (self.handles h).rc - 1 },
            trace := self.trace ++
              [Gl450.Event.command_execute command (self.commands command)] }
            : Gl450.IRenoir).handles h)
              = { self.handles h with rc := (self.handles h).rc - 1 } := by
          simp [write_same]
        obtain ⟨s, hs, ht, hr⟩ := ih
          { self with
            handles := write self.handles h
              { self.handles h with rc := (self.handles h).rc - 1 },
            trace := self.trace ++
              [Gl450.Event.command_execute command (self.commands command)] } hc hh
          (by rw [hrc1]; show 0 < (self.handles h).rc - 1; omega)
          (by rw [hrc1]; show (self.handles h).rc - 1 ≤ 2147483647; omega)
          (by rw [hrc1]; exact hrest)
          (by intro hkp; rw [hrc1]; exact hl hkp)
        rw [hrc1] at ht hr
        refine ⟨s, hs, ?_, hr⟩
        rw [ht]
        simp [Gl450.teardowns, List.count_append, List.count_singleton]


set_option maxRecDepth 100000 in
/-- C9 (code defect).  Teardown at the last reference holds of every `*_FREE` case but
one: on D3D11 the colour loop of `PASS_FREE` calls `render_target_view[0]->Release()`
for every colour attachment without testing the pointer (Renoir-dx11.cpp:1088).  After
`init`, `texture_new` of a render target and `pass_offscreen_new` with that texture as
`color[1]`, in immediate mode, the pass has count 1, its views are `[null, view, null,
null]`, and `pass_free` makes one `Release` call through the null pointer: the source
does not get past it, so the teardown is not completed and the slot is not returned to
the pool.
What holds, for every resource kind and both backends: (a) the `*_FREE` command of a
handle whose count is above 1 only decrements the count, nothing is released and the
handle pool is untouched; (b) on a handle whose count is 1 it returns, tears the handle
down once and ends by returning the slot to the handle pool, with no `Release` through
a null pointer, provided (D3D11) the native objects released without a test are not null
and (GL pass) the nested `TEXTURE_FREE` commands do not reuse the record being executed,
the private list of a pass ending within the fuel; (c) over any sequence of `handle_ref` calls and `*_FREE`
commands on a live handle, and at every point of it, the count is the number of
references taken minus the number given up, and the teardown has fired once when that
number has come down to zero and not at all before. -/
theorem c9_teardown_at_last_reference (fuel : Nat) (kind : RENOIR_HANDLE_KIND)
    (hk : kind ≠ .RENOIR_HANDLE_KIND_NONE)
    (self : Dx11.IRenoir) (command h : Nat)
    (hc : (self.commands command).kind = Dx11.free_kind kind)
    (hh : (self.commands command).handle = some h)
    (gself : Gl450.IRenoir) (gcommand gh : Nat)
    (ghc : (gself.commands gcommand).kind = Gl450.free_kind kind)
    (ghh : (gself.commands gcommand).handle = some gh) :
    ((Dx11.null_view_scenario 4).map (fun r => (r.2.handles r.1).rc) = some 1 ∧
      (Dx11.null_view_scenario 4).map (fun r => (r.2.handles r.1).pass.render_target_view)
        = some [none, some 2, none, none] ∧
      (Dx11.null_view_scenario 4).map (fun r =>
          decide (none ∈ Dx11.released_untested .RENOIR_COMMAND_KIND_PASS_FREE
            (r.2.handles r.1))) = some true ∧
      (Dx11.null_view_scenario 4).map (fun r => Dx11.null_releases r.2.trace) = some 0 ∧
      ((Dx11.null_view_scenario 4).bind fun r => Dx11._renoir_dx11_pass_free 4 r.2 r.1).map
          (fun s => Dx11.null_releases s.trace) = some 1) ∧
    (1 < (self.handles h).rc → (self.handles h).rc ≤ 2147483647 →
      Dx11._renoir_dx11_command_execute fuel self command =
        some { self with
          handles := write self.handles h { self.handles h with rc := (self.handles h).rc - 1 },
          trace := self.trace ++
            [Dx11.Event.command_execute command (self.commands command)] }) ∧
    ((self.handles h).rc = 1 →
      (kind = .RENOIR_HANDLE_KIND_PASS →
        (Dx11.list_records self.commands fuel (self.handles h).pass.command_list_head).isSome) →
      none ∉ Dx11.released_untested (Dx11.free_kind kind) (self.handles h) →
      ∃ s, Dx11._renoir_dx11_command_execute fuel self command = some s ∧
        s.trace.getLast? = some (Dx11.Event.handle_free h) ∧
        s.handle_pool.free.head? = some h ∧
        Dx11.null_releases s.trace = Dx11.null_releases self.trace ∧
        Dx11.teardowns s.trace h = Dx11.teardowns self.trace h + 1) ∧
    (∀ calls : List Life_Call,
      0 < (self.handles h).rc → (self.handles h).rc ≤ 2147483647 →
      live_calls (self.handles h).rc calls = true →
      (kind = .RENOIR_HANDLE_KIND_PASS →
        (Dx11.list_records self.commands fuel (self.handles h).pass.command_list_head).isSome) →
      none ∉ Dx11.released_untested (Dx11.free_kind kind) { self.handles h with rc := 1 } →
      ∀ n : Nat,
        ∃ s, Dx11.life_calls fuel command h self (calls.take n) = some s ∧
          Dx11.teardowns s.trace h = Dx11.teardowns self.trace h
            + (if count_after (self.handles h).rc (calls.take n) = 0 then 1 else 0) ∧
          (0 < count_after (self.handles h).rc (calls.take n) →
            (s.handles h).rc = count_after (self.handles h).rc (calls.take n)) ∧
          Dx11.null_releases s.trace = Dx11.null_releases self.trace) ∧
    (1 < (gself.handles gh).rc → (gself.handles gh).rc ≤ 2147483647 →
      Gl450._renoir_gl450_command_execute fuel gself gcommand =
        some { gself with
          handles := write gself.handles gh
            { gself.handles gh with rc := (gself.handles gh).rc - 1 },
          trace := gself.trace ++
            [Gl450.Event.command_execute gcommand (gself.commands gcommand)] }) ∧
    ((gself.handles gh).rc = 1 →
      (kind = .RENOIR_HANDLE_KIND_PASS →
        (Gl450.list_records gself.commands fuel
          (gself.handles gh).pass.command_list_head).isSome ∧
        Gl450.pass_free_by_value gself gcommand gh) →
      ∃ s, Gl450._renoir_gl450_command_execute fuel gself gcommand = some s ∧
        s.trace.getLast? = some (Gl450.Event.handle_free gh) ∧
        s.handle_pool.free.head? = some gh ∧
        Gl450.teardowns s.trace gh = Gl450.teardowns gself.trace gh + 1) ∧
    (∀ calls : List Life_Call,
      0 < (gself.handles gh).rc → (gself.handles gh).rc ≤ 2147483647 →
      live_calls (gself.handles gh).rc calls = true →
      (kind = .RENOIR_HANDLE_KIND_PASS →
        (Gl450.list_records gself.commands fuel
          (gself.handles gh).pass.command_list_head).isSome ∧
        Gl450.pass_free_by_value gself gcommand gh) →
      ∀ n : Nat,
        ∃ s, Gl450.life_calls fuel gcommand gh gself (calls.take n) = some s ∧
          Gl450.teardowns s.trace gh = Gl450.teardowns gself.trace gh
            + (if count_after (gself.handles gh).rc (calls.take n) = 0 then 1 else 0) ∧
          (0 < count_after (gself.handles gh).rc (calls.take n) →
            (s.handles gh).rc = count_after (gself.handles gh).rc (calls.take n))) := by
  refine ⟨⟨by decide, by decide, by decide, by decide, by decide⟩,
    fun h1 h2 => dx11_free_above_one fuel self command h kind hk hc hh h1 h2,
    fun h1 hl hn => dx11_free_at_one_clean fuel self command h kind hk hc hh h1 hl hn,
    fun calls h0 hmax hlive hl hn n =>
      dx11_live_calls_teardowns fuel command h kind hk (calls.take n) self hc hh h0 hmax
        (live_calls_take calls _ n hlive) hl hn,
    fun h1 h2 => gl450_free_above_one fuel gself gcommand gh kind hk ghc ghh h1 h2,
    fun h1 hl => gl450_free_at_one_clean fuel gself gcommand gh kind hk ghc ghh h1
      (fun hkp => (hl hkp).1),
    fun calls h0 hmax hlive hl n =>
      gl450_live_calls_teardowns fuel gcommand gh kind hk (calls.take n) gself ghc ghh h0 hmax
        (live_calls_take calls _ n hlive) (fun hkp => (hl hkp).1)⟩


/-- Witness of C9: a D3D11 and a GL buffer handle with count 1 and a native buffer; over
`handle_ref`, `BUFFER_FREE`, `BUFFER_FREE` the teardown fires once, at the second
`BUFFER_FREE`, which finds the count at 1, and on D3D11 no `Release` goes through a null
pointer. -/
theorem c9_teardown_at_last_reference_witness :
    (∃ s, Dx11.life_calls 0 5 3
        ({ handles := fun _ =>
             { kind := .RENOIR_HANDLE_KIND_BUFFER, rc := 1, buffer := { buffer := some 7 } },
           commands := fun _ => { kind := .RENOIR_COMMAND_KIND_BUFFER_FREE, handle := some 3 } } :
          Dx11.IRenoir)
        [Life_Call.ref, Life_Call.free] = some s ∧
      Dx11.teardowns s.trace 3 = 0 ∧ (s.handles 3).rc = 1) ∧
    (∃ s, Dx11.life_calls 0 5 3
        ({ handles := fun _ =>
             { kind := .RENOIR_HANDLE_KIND_BUFFER, rc := 1, buffer := { buffer := some 7 } },
           commands := fun _ => { kind := .RENOIR_COMMAND_KIND_BUFFER_FREE, handle := some 3 } } :
          Dx11.IRenoir)
        [Life_Call.ref, Life_Call.free, Life_Call.free] = some s ∧
      Dx11.teardowns s.trace 3 = 1 ∧ Dx11.null_releases s.trace = 0) ∧
    (∃ s, Gl450.life_calls 0 5 3
        ({ handles := fun _ =>
             { kind := .RENOIR_HANDLE_KIND_BUFFER, rc := 1, buffer := { id := 7 } },
           commands := fun _ => { kind := .RENOIR_COMMAND_KIND_BUFFER_FREE, handle := some 3 } } :
          Gl450.IRenoir)
        [Life_Call.ref, Life_Call.free, Life_Call.free] = some s ∧
      Gl450.teardowns s.trace 3 = 1) := by
  have h := c9_teardown_at_last_reference 0 .RENOIR_HANDLE_KIND_BUFFER (by decide)
    ({ handles := fun _ =>
         { kind := .RENOIR_HANDLE_KIND_BUFFER, rc := 1, buffer := { buffer := some 7 } },
       commands := fun _ => { kind := .RENOIR_COMMAND_KIND_BUFFER_FREE, handle := some 3 } } :
      Dx11.IRenoir) 5 3 rfl rfl
    ({ handles := fun _ =>
         { kind := .RENOIR_HANDLE_KIND_BUFFER, rc := 1, buffer := { id := 7 } },
       commands := fun _ => { kind := .RENOIR_COMMAND_KIND_BUFFER_FREE, handle := some 3 } } :
      Gl450.IRenoir) 5 3 rfl rfl
  obtain ⟨_, _, _, d, _, _, g⟩ := h
  have d2 := d [Life_Call.ref, Life_Call.free, Life_Call.free] (by decide) (by decide)
    (by decide) (by intro hp; cases hp) (by decide) 2
  have d3 := d [Life_Call.ref, Life_Call.free, Life_Call.free] (by decide) (by decide)
    (by decide) (by intro hp; cases hp) (by decide) 3
  have g3 := g [Life_Call.ref, Life_Call.free, Life_Call.free] (by decide) (by decide)
    (by decide) (by intro hp; cases hp) 3
  obtain ⟨s2, e2, t2, r2, _⟩ := d2
  obtain ⟨s3, e3, t3, _, n3⟩ := d3
  obtain ⟨gs3, ge3, gt3, _⟩ := g3
  exact ⟨⟨s2, e2, t2, r2 (by decide)⟩, ⟨s3, e3, t3, n3⟩, ⟨gs3, ge3, gt3⟩⟩

/-! ### Command processing -/

theorem dx11_null_releases_append (a b : List Dx11.Event) :
    Dx11.null_releases (a ++ b) = Dx11.null_releases a + Dx11.null_releases b := by
  simp [Dx11.null_releases, List.count_append]

theorem dx11_null_releases_swapchain_new (s : Dx11.IRenoir) (h : Nat) :
    Dx11.null_releases (Dx11._internal_renoir_dx11_swapchain_new s h).trace
      = Dx11.null_releases s.trace := by
  unfold Dx11._internal_renoir_dx11_swapchain_new
  simp [Dx11.null_releases, List.count_append, List.count_singleton, Dx11.set_handle,
    Dx11.device_create]

theorem dx11_null_releases_swapchain_release (s : Dx11.IRenoir) (h : Nat)
    (h1 : (s.handles h).swapchain.swapchain ≠ none)
    (h2 : (s.handles h).swapchain.render_target_view ≠ none)
    (h3 : (s.handles h).swapchain.depth_stencil_view ≠ none)
    (h4 : (s.handles h).swapchain.depth_buffer ≠ none) :
    Dx11.null_releases (Dx11.swapchain_release s h).trace = Dx11.null_releases s.trace := by
  unfold Dx11.swapchain_release
  have e : ∀ (s : Dx11.IRenoir) (p : Ptr), (Dx11.release s p).handles = s.handles :=
    fun _ _ => rfl
  simp only [e]
  rw [dx11_null_releases_release _ _ h4, dx11_null_releases_release _ _ h3,
    dx11_null_releases_release _ _ h2, dx11_null_releases_release _ _ h1]

theorem dx11_null_releases_offscreen_new (s : Dx11.IRenoir) (h : Nat)
    (desc : Renoir_Pass_Offscreen_Desc) :
    Dx11.null_releases (Dx11.execute_pass_offscreen_new s h desc).trace
      = Dx11.null_releases s.trace := by
  have hstep : ∀ (s : Dx11.IRenoir) (i : Nat),
      Dx11.null_releases (Dx11.offscreen_new_color desc h s i).trace
        = Dx11.null_releases s.trace := by
    intro s i
    unfold Dx11.offscreen_new_color
    split <;>
      simp [Dx11.null_releases, List.count_append, List.count_singleton, Dx11.set_handle,
        Dx11.device_create]
  have hfold : ∀ (l : List Nat) (s : Dx11.IRenoir),
      Dx11.null_releases (l.foldl (Dx11.offscreen_new_color desc h) s).trace
        = Dx11.null_releases s.trace := by
    intro l
    induction l with
    | nil => intro s; rfl
    | cons a l ih => intro s; rw [List.foldl_cons, ih, hstep]
  unfold Dx11.execute_pass_offscreen_new
  simp only []
  split
  · rw [hfold]; rfl
  · simp only [Dx11.set_handle, Dx11.device_create]
    rw [dx11_null_releases_append, hfold]
    simp [Dx11.null_releases, Dx11.set_handle]

theorem dx11_null_releases_buffer_new (s : Dx11.IRenoir) (h : Nat) (desc : Renoir_Buffer_Desc) :
    Dx11.null_releases (Dx11.execute_buffer_new s h desc).trace
      = Dx11.null_releases s.trace := by
  unfold Dx11.execute_buffer_new
  simp only []
  (repeat' split) <;>
    simp [Dx11.null_releases, List.count_append, List.count_singleton, Dx11.set_handle,
      Dx11.device_create, Dx11.device_upload]

theorem dx11_null_releases_texture_new (s : Dx11.IRenoir) (h : Nat)
    (desc : Renoir_Texture_Desc) :
    Dx11.null_releases (Dx11.execute_texture_new s h desc).trace
      = Dx11.null_releases s.trace := by
  unfold Dx11.execute_texture_new
  simp only []
  (repeat' split) <;>
    simp [Dx11.null_releases, List.count_append, List.count_singleton, Dx11.set_handle,
      Dx11.device_create, Dx11.device_upload]

theorem dx11_null_releases_sampler_new (s : Dx11.IRenoir) (h : Nat)
    (desc : Renoir_Sampler_Desc) :
    Dx11.null_releases (Dx11.execute_sampler_new s h desc).trace
      = Dx11.null_releases s.trace := by
  unfold Dx11.execute_sampler_new
  simp [Dx11.null_releases, List.count_append, List.count_singleton, Dx11.set_handle]

theorem dx11_null_releases_program_new (s : Dx11.IRenoir) (h : Nat)
    (desc : Renoir_Program_Desc) :
    Dx11.null_releases (Dx11.execute_program_new s h desc).trace
      = Dx11.null_releases s.trace := by
  unfold Dx11.execute_program_new
  simp only []
  (repeat' split) <;>
    simp [Dx11.null_releases, List.count_append, List.count_singleton, Dx11.set_handle,
      Dx11.device_create, Dx11.release, Dx11.emit]

theorem dx11_null_releases_compute_new (s : Dx11.IRenoir) (h : Nat)
    (desc : Renoir_Program_Desc) :
    Dx11.null_releases (Dx11.execute_compute_new s h desc).trace
      = Dx11.null_releases s.trace := by
  unfold Dx11.execute_compute_new
  simp only []
  (repeat' split) <;>
    simp [Dx11.null_releases, List.count_append, List.count_singleton, Dx11.set_handle,
      Dx11.device_create, Dx11.release, Dx11.emit]

theorem dx11_null_releases_pipeline_new (s : Dx11.IRenoir) (h : Nat) :
    Dx11.null_releases (Dx11.execute_pipeline_new s h).trace = Dx11.null_releases s.trace := by
  unfold Dx11.execute_pipeline_new
  simp [Dx11.null_releases, List.count_append, List.count_singleton, Dx11.set_handle,
    Dx11.device_create]

theorem dx11_null_releases_program_free (s : Dx11.IRenoir) (h : Nat) :
    Dx11.null_releases (Dx11.execute_program_free s h).trace = Dx11.null_releases s.trace := by
  unfold Dx11.execute_program_free
  simp only []
  split
  · rfl
  · simp

theorem dx11_null_releases_compute_free (s : Dx11.IRenoir) (h : Nat) :
    Dx11.null_releases (Dx11.execute_compute_free s h).trace = Dx11.null_releases s.trace := by
  unfold Dx11.execute_compute_free
  simp only []
  split
  · rfl
  · simp

theorem dx11_null_releases_pipeline_free (s : Dx11.IRenoir) (h : Nat) :
    Dx11.null_releases (Dx11.execute_pipeline_free s h).trace = Dx11.null_releases s.trace := by
  unfold Dx11.execute_pipeline_free
  simp only []
  split
  · rfl
  · simp


theorem dx11_null_releases_swapchain_free (s : Dx11.IRenoir) (h : Nat)
    (hn : none ∉ Dx11.released_untested .RENOIR_COMMAND_KIND_SWAPCHAIN_FREE (s.handles h)) :
    Dx11.null_releases (Dx11.execute_swapchain_free s h).trace = Dx11.null_releases s.trace := by
  unfold Dx11.execute_swapchain_free
  simp only [Dx11._renoir_dx11_handle_unref]
  split
  · rfl
  · rename_i hrc
    have hrc1 : (s.handles h).rc = 1 := by simpa using hrc
    simp only [Dx11.released_untested, hrc1, if_true, List.mem_cons, List.mem_singleton,
      List.not_mem_nil, not_or, or_false] at hn
    obtain ⟨n1, n2, n3, n4⟩ := hn
    rw [dx11_null_releases_handle_free, dx11_null_releases_swapchain_release]
    all_goals simp only [write_same]
    · exact fun e => n1 e.symm
    · exact fun e => n2 e.symm
    · exact fun e => n3 e.symm
    · exact fun e => n4 e.symm

theorem dx11_null_releases_swapchain_resize (s : Dx11.IRenoir) (h : Nat) (width height : Int)
    (hn : none ∉ Dx11.released_untested .RENOIR_COMMAND_KIND_SWAPCHAIN_RESIZE (s.handles h)) :
    Dx11.null_releases (Dx11.execute_swapchain_resize s h width height).trace
      = Dx11.null_releases s.trace := by
  unfold Dx11.execute_swapchain_resize
  simp only [Dx11.released_untested, List.mem_cons, List.mem_singleton,
    List.not_mem_nil, not_or, or_false] at hn
  obtain ⟨n1, n2, n3, n4⟩ := hn
  simp only []
  rw [dx11_null_releases_swapchain_new, dx11_null_releases_swapchain_release]
  all_goals simp only [Dx11.set_handle, write_same]
  · exact fun e => n1 e.symm
  · exact fun e => n2 e.symm
  · exact fun e => n3 e.symm
  · exact fun e => n4 e.symm

theorem dx11_null_releases_buffer_free (s : Dx11.IRenoir) (h : Nat)
    (hn : none ∉ Dx11.released_untested .RENOIR_COMMAND_KIND_BUFFER_FREE (s.handles h)) :
    Dx11.null_releases (Dx11.execute_buffer_free s h).trace = Dx11.null_releases s.trace := by
  unfold Dx11.execute_buffer_free
  simp only [Dx11._renoir_dx11_handle_unref]
  split
  · rfl
  · rename_i hrc
    have hrc1 : (s.handles h).rc = 1 := by simpa using hrc
    simp only [Dx11.released_untested, hrc1, if_true, List.mem_singleton] at hn
    rw [dx11_null_releases_handle_free, dx11_null_releases_release_if,
      dx11_null_releases_release]
    simp only [write_same]
    exact fun e => hn e.symm

theorem dx11_null_releases_sampler_free (s : Dx11.IRenoir) (h : Nat)
    (hn : none ∉ Dx11.released_untested .RENOIR_COMMAND_KIND_SAMPLER_FREE (s.handles h)) :
    Dx11.null_releases (Dx11.execute_sampler_free s h).trace = Dx11.null_releases s.trace := by
  unfold Dx11.execute_sampler_free
  simp only [Dx11._renoir_dx11_handle_unref]
  split
  · rfl
  · rename_i hrc
    have hrc1 : (s.handles h).rc = 1 := by simpa using hrc
    simp only [Dx11.released_untested, hrc1, if_true, List.mem_singleton] at hn
    rw [dx11_null_releases_handle_free, dx11_null_releases_release]
    simp only [write_same]
    exact fun e => hn e.symm

/-- The pending loop of `PASS_FREE` returns only when the private list of the pass ends
within the fuel. -/
theorem dx11_pass_free_pending_finite (command : Nat) :
    ∀ (fuel : Nat) (s s' : Dx11.IRenoir) (p : Ptr),
      Dx11.pass_free_pending fuel s command p = some s' →
      (Dx11.list_records s.commands fuel p).isSome = true := by
  intro fuel
  induction fuel with
  | zero =>
    intro s s' p he
    cases p with
    | none => simp [Dx11.list_records]
    | some it => simp [Dx11.pass_free_pending] at he
  | succ fuel ih =>
    intro s s' p he
    cases p with
    | none => simp [Dx11.list_records]
    | some it =>
      simp only [Dx11.pass_free_pending] at he
      have := ih _ _ _ he
      rw [dx11_command_free_commands] at this
      simp only [Dx11.list_records, Option.isSome_map']
      exact this

/-- The `PASS_FREE` case on a pass whose untested views are not null makes no `Release`
call through a null pointer, whatever the count of the pass. -/
theorem dx11_null_releases_pass_free (fuel : Nat) (s s' : Dx11.IRenoir) (command h : Nat)
    (hn : none ∉ Dx11.released_untested .RENOIR_COMMAND_KIND_PASS_FREE (s.handles h))
    (he : Dx11.execute_pass_free fuel s command h = some s') :
    Dx11.null_releases s'.trace = Dx11.null_releases s.trace := by
  by_cases hrc : (s.handles h).rc = 1
  · have hl : (Dx11.list_records s.commands fuel
        (s.handles h).pass.command_list_head).isSome := by
      unfold Dx11.execute_pass_free at he
      simp only [Dx11._renoir_dx11_handle_unref, hrc, decide_True, Bool.true_eq_false,
        if_false, write_same] at he
      split at he
      · exact absurd he (by simp)
      · rename_i sp hp
        have hfin := dx11_pass_free_pending_finite command fuel _ sp _ hp
        exact hfin
    obtain ⟨s2, e2, _, _, a, _⟩ := dx11_execute_pass_free_clean fuel s command h hrc hl hn
    rw [he] at e2
    cases e2
    exact a
  · unfold Dx11.execute_pass_free at he
    simp only [Dx11._renoir_dx11_handle_unref, hrc, decide_False, if_true,
      Option.some.injEq] at he
    subst he
    rfl


/-- Executing a resource command with a handle, on a handle whose untested native objects
are not null: the case returns and makes no `Release` call through a null pointer. -/
theorem dx11_execute_clean (fuel : Nat) (s : Dx11.IRenoir) (c h : Nat)
    (hh : (s.commands c).handle = some h)
    (hn : none ∉ Dx11.released_untested (s.commands c).kind (s.handles h))
    (hr : Dx11.recordable (s.commands c).kind = false)
    (h1 : (s.commands c).kind ≠ .RENOIR_COMMAND_KIND_NONE)
    (h2 : (s.commands c).kind ≠ .RENOIR_COMMAND_KIND_PASS_FREE) :
    ∃ s', Dx11._renoir_dx11_command_execute fuel s c = some s' ∧
      Dx11.null_releases s'.trace = Dx11.null_releases s.trace := by
  have n0 : Dx11.null_releases
      (Dx11.emit s (Dx11.Event.command_execute c (s.commands c))).trace
        = Dx11.null_releases s.trace := dx11_null_releases_emit s _ (by simp)
  have hh0 : (Dx11.emit s (Dx11.Event.command_execute c (s.commands c))).handles
      = s.handles := rfl
  unfold Dx11._renoir_dx11_command_execute
  simp only [hh, Option.map_some']
  cases hkind : (s.commands c).kind with
  | RENOIR_COMMAND_KIND_INIT =>
    rw [hkind] at hn
    exact ⟨_, rfl, n0⟩
  | RENOIR_COMMAND_KIND_SWAPCHAIN_NEW =>
    rw [hkind] at hn
    exact ⟨_, rfl, (dx11_null_releases_swapchain_new
      (Dx11.emit s (Dx11.Event.command_execute c (s.commands c))) _).trans n0⟩
  | RENOIR_COMMAND_KIND_SWAPCHAIN_FREE =>
    rw [hkind] at hn
    exact ⟨_, rfl, (dx11_null_releases_swapchain_free
      (Dx11.emit s (Dx11.Event.command_execute c (s.commands c))) _ hn).trans n0⟩
  | RENOIR_COMMAND_KIND_SWAPCHAIN_RESIZE =>
    rw [hkind] at hn
    exact ⟨_, rfl, (dx11_null_releases_swapchain_resize
      (Dx11.emit s (Dx11.Event.command_execute c (s.commands c))) _ _ _ hn).trans n0⟩
  | RENOIR_COMMAND_KIND_PASS_SWAPCHAIN_NEW =>
    exact ⟨_, rfl, by simpa [Dx11.set_handle] using n0⟩
  | RENOIR_COMMAND_KIND_PASS_OFFSCREEN_NEW =>
    rw [hkind] at hn
    exact ⟨_, rfl, (dx11_null_releases_offscreen_new
      (Dx11.emit s (Dx11.Event.command_execute c (s.commands c))) _ _).trans n0⟩
  | RENOIR_COMMAND_KIND_PASS_FREE => rw [hkind] at h2; exact absurd rfl h2
  | RENOIR_COMMAND_KIND_BUFFER_NEW =>
    rw [hkind] at hn
    exact ⟨_, rfl, (dx11_null_releases_buffer_new
      (Dx11.emit s (Dx11.Event.command_execute c (s.commands c))) _ _).trans n0⟩
  | RENOIR_COMMAND_KIND_BUFFER_FREE =>
    rw [hkind] at hn
    exact ⟨_, rfl, (dx11_null_releases_buffer_free
      (Dx11.emit s (Dx11.Event.command_execute c (s.commands c))) _ hn).trans n0⟩
  | RENOIR_COMMAND_KIND_TEXTURE_NEW =>
    rw [hkind] at hn
    exact ⟨_, rfl, (dx11_null_releases_texture_new
      (Dx11.emit s (Dx11.Event.command_execute c (s.commands c))) _ _).trans n0⟩
  | RENOIR_COMMAND_KIND_TEXTURE_FREE =>
    rw [hkind] at hn
    exact ⟨_, rfl, (dx11_null_releases_texture_free
      (Dx11.emit s (Dx11.Event.command_execute c (s.commands c))) _).trans n0⟩
  | RENOIR_COMMAND_KIND_SAMPLER_NEW =>
    rw [hkind] at hn
    exact ⟨_, rfl, (dx11_null_releases_sampler_new
      (Dx11.emit s (Dx11.Event.command_execute c (s.commands c))) _ _).trans n0⟩
  | RENOIR_COMMAND_KIND_SAMPLER_FREE =>
    rw [hkind] at hn
    exact ⟨_, rfl, (dx11_null_releases_sampler_free
      (Dx11.emit s (Dx11.Event.command_execute c (s.commands c))) _ hn).trans n0⟩
  | RENOIR_COMMAND_KIND_PROGRAM_NEW =>
    rw [hkind] at hn
    exact ⟨_, rfl, (dx11_null_releases_program_new
      (Dx11.emit s (Dx11.Event.command_execute c (s.commands c))) _ _).trans n0⟩
  | RENOIR_COMMAND_KIND_PROGRAM_FREE =>
    rw [hkind] at hn
    exact ⟨_, rfl, (dx11_null_releases_program_free
      (Dx11.emit s (Dx11.Event.command_execute c (s.commands c))) _).trans n0⟩
  | RENOIR_COMMAND_KIND_COMPUTE_NEW =>
    rw [hkind] at hn
    exact ⟨_, rfl, (dx11_null_releases_compute_new
      (Dx11.emit s (Dx11.Event.command_execute c (s.commands c))) _ _).trans n0⟩
  | RENOIR_COMMAND_KIND_COMPUTE_FREE =>
    rw [hkind] at hn
    exact ⟨_, rfl, (dx11_null_releases_compute_free
      (Dx11.emit s (Dx11.Event.command_execute c (s.commands c))) _).trans n0⟩
  | RENOIR_COMMAND_KIND_PIPELINE_NEW =>
    rw [hkind] at hn
    exact ⟨_, rfl, (dx11_null_releases_pipeline_new
      (Dx11.emit s (Dx11.Event.command_execute c (s.commands c))) _).trans n0⟩
  | RENOIR_COMMAND_KIND_PIPELINE_FREE =>
    rw [hkind] at hn
    exact ⟨_, rfl, (dx11_null_releases_pipeline_free
      (Dx11.emit s (Dx11.Event.command_execute c (s.commands c))) _).trans n0⟩
  | RENOIR_COMMAND_KIND_BUFFER_READ =>
    rw [hkind] at hn
    exact ⟨_, rfl, (dx11_null_releases_emit
      (Dx11.emit s (Dx11.Event.command_execute c (s.commands c))) _ (by simp)).trans n0⟩
  | RENOIR_COMMAND_KIND_TEXTURE_READ =>
    rw [hkind] at hn
    exact ⟨_, rfl, (dx11_null_releases_emit
      (Dx11.emit s (Dx11.Event.command_execute c (s.commands c))) _ (by simp)).trans n0⟩
  | RENOIR_COMMAND_KIND_NONE => rw [hkind] at h1; exact absurd rfl h1
  | _ => rw [hkind] at hr; exact absurd hr (by decide)

/-- In immediate mode `command_process` of a resource command with a handle, on a handle
whose untested native objects are not null, returns and makes no `Release` call through a
null pointer; `PASS_FREE` when the private list of the pass ends within the fuel. -/
theorem dx11_process_immediate_clean (fuel : Nat) (s : Dx11.IRenoir) (c h : Nat)
    (hd : s.settings.defer_api_calls = false) (hh : (s.commands c).handle = some h)
    (hn : none ∉ Dx11.released_untested (s.commands c).kind (s.handles h)) :
    (Dx11.recordable (s.commands c).kind = false →
      (s.commands c).kind ≠ .RENOIR_COMMAND_KIND_NONE →
      (s.commands c).kind ≠ .RENOIR_COMMAND_KIND_PASS_FREE →
      ∃ s', Dx11._renoir_dx11_command_process fuel s c = some s' ∧
        Dx11.null_releases s'.trace = Dx11.null_releases s.trace) ∧
    ((s.commands c).kind = .RENOIR_COMMAND_KIND_PASS_FREE →
      (Dx11.list_records s.commands fuel (s.handles h).pass.command_list_head).isSome = true →
      ∃ s', Dx11._renoir_dx11_command_process fuel s c = some s' ∧
        Dx11.null_releases s'.trace = Dx11.null_releases s.trace) := by
  have p0 : Dx11.null_releases
      (Dx11.emit s (Dx11.Event.command_process c (s.commands c))).trace
        = Dx11.null_releases s.trace := dx11_null_releases_emit s _ (by simp)
  rw [(dx11_process_immediate fuel s c hd).1]
  constructor
  · intro hr h1 h2
    obtain ⟨s1, e1, n1⟩ := dx11_execute_clean fuel
      (Dx11.emit s (Dx11.Event.command_process c (s.commands c))) c h hh hn hr h1 h2
    rw [e1]
    exact ⟨_, rfl, (dx11_null_releases_command_free _ _).trans (n1.trans p0)⟩
  · intro hk hl
    obtain ⟨hret, _⟩ := (dx11_process_immediate_returns fuel s c h hd hh).2 hk hl, trivial
    rw [(dx11_process_immediate fuel s c hd).1] at hret
    obtain ⟨s2, e2⟩ := Option.isSome_iff_exists.1 hret
    simp only [Option.map_eq_some'] at e2
    obtain ⟨s1, e1, rfl⟩ := e2
    rw [e1]
    refine ⟨_, rfl, ?_⟩
    rw [dx11_null_releases_command_free]
    have e1c := e1
    unfold Dx11._renoir_dx11_command_execute at e1
    have hkk : ((Dx11.emit s (Dx11.Event.command_process c (s.commands c))).commands c).kind
        = .RENOIR_COMMAND_KIND_PASS_FREE := hk
    have hh1 : ((Dx11.emit s (Dx11.Event.command_process c (s.commands c))).commands c).handle
        = some h := hh
    simp only [hh1, hkk, Option.some_bind] at e1
    rw [hk] at hn
    have := dx11_null_releases_pass_free fuel _ s1 c h (by exact hn) e1
    rw [this]
    exact (dx11_null_releases_emit _ _ (by simp)).trans p0


end Renoir
